import Mathlib

/-!
Programming Language X: a verification development of the compiler front end.

Shallow embedding of `src/leb128.c`, `src/symbol_table.c`, `src/reader.c`,
`src/tokenizer.c`, `src/parser.c`, `src/name_resolver.c`, `src/types.c`,
`src/return_checker.c`, `src/ast_validator.c`, `src/wasm.c`,
`src/wasm_generator.c`, `src/type_checker.c`, `src/constant_folder.c` and
`src/llvm_ir_generator.c`.  Bytes are natural numbers below 256, an output
stream is the list of bytes or the text written to it, machine integers are
natural numbers or integers with the wrap-around made explicit.
-/

namespace PLX

/-! ## `src/leb128.c` -/

/-- `plx_write_leb128_ull`: the bytes the `do ... while (value != 0)` loop writes
for an `unsigned long long` value.  `&`, `>>` and `|` are the C operators; no
operation of the loop can overflow, so the value is a plain natural number. -/
def plx_write_leb128_ull (value : Nat) : List Nat :=
  let byte := value &&& 0b01111111
  let value1 := value >>> 7
  if value1 ≠ 0 then
    (byte ||| 0b10000000) :: plx_write_leb128_ull value1
  else
    [byte]
termination_by value
decreasing_by
  simp only [Nat.shiftRight_eq_div_pow] at *
  omega

/-- Number of value bits of `long long` (`sizeof(value) * CHAR_BIT`). -/
def LL_BITS : Nat := 64

/-- The two's complement bit pattern of a `long long` (the source asserts
`-1 == ~0`). -/
def ll_to_bits (v : Int) : Nat := (v % 2 ^ LL_BITS).toNat

/-- The `long long` denoted by a 64-bit pattern. -/
def ll_of_bits (u : Nat) : Int :=
  if u % 2 ^ LL_BITS < 2 ^ (LL_BITS - 1) then ((u % 2 ^ LL_BITS : Nat) : Int)
  else ((u % 2 ^ LL_BITS : Nat) : Int) - 2 ^ LL_BITS

theorem lor_0x80 (x : Nat) (h : x < 128) : x ||| 128 = x + 128 := by
  have := Nat.mul_add_lt_is_or (i := 7) (b := x) (by simpa using h) 1
  rw [Nat.lor_comm]; simp at this; omega

theorem land_0x7f (x : Nat) : x &&& 127 = x % 128 := Nat.and_pow_two_sub_one_eq_mod x 7

/-- The value `sum((b_i & 0x7F) << 7i)` carried by the seven-bit groups of a byte
sequence, least significant group first. -/
def leb128_groups_value : List Nat → Nat
  | [] => 0
  | b :: bs => (b &&& 0x7F) + (leb128_groups_value bs) <<< 7

theorem ull_unfold (v : Nat) :
    plx_write_leb128_ull v =
      if v / 128 ≠ 0 then (v % 128 + 128) :: plx_write_leb128_ull (v / 128) else [v % 128] := by
  rw [plx_write_leb128_ull]
  have h := lor_0x80 (v % 128) (Nat.mod_lt _ (by decide))
  simp only [land_0x7f, Nat.shiftRight_eq_div_pow, h]

theorem ull_ne_nil (v : Nat) : plx_write_leb128_ull v ≠ [] := by
  rw [ull_unfold]; split <;> simp

set_option maxRecDepth 100000 in
theorem land_0x80 (x : Nat) (h : x < 256) : (x &&& 0x80 ≠ 0) ↔ 128 ≤ x := by
  revert x; decide

theorem groups_value_cons (b : Nat) (bs : List Nat) :
    leb128_groups_value (b :: bs) = b % 128 + 128 * leb128_groups_value bs := by
  simp [leb128_groups_value, land_0x7f, Nat.shiftLeft_eq]; omega

theorem ull_value (v : Nat) : leb128_groups_value (plx_write_leb128_ull v) = v := by
  induction v using Nat.strong_induction_on with
  | _ v ih =>
    rw [ull_unfold]
    split
    · rename_i h
      rw [groups_value_cons, ih (v / 128) (by omega)]; omega
    · rw [groups_value_cons]; simp [leb128_groups_value]; omega

theorem ull_bytes (v : Nat) :
    ∀ i (h : i < (plx_write_leb128_ull v).length),
      (plx_write_leb128_ull v)[i] < 256 ∧
      (128 ≤ (plx_write_leb128_ull v)[i] ↔ i + 1 < (plx_write_leb128_ull v).length) := by
  induction v using Nat.strong_induction_on with
  | _ v ih =>
    intro i
    rw [ull_unfold]
    split
    · rename_i h
      have hne := ull_ne_nil (v / 128)
      have hpos : 0 < (plx_write_leb128_ull (v / 128)).length := List.length_pos.mpr hne
      cases i with
      | zero => intro _; simp; omega
      | succ j =>
        intro hj
        simp only [List.length_cons, Nat.add_lt_add_iff_right] at hj
        have := ih (v / 128) (by omega) j hj
        simpa using this
    · intro hi
      simp at hi
      subst hi
      simp; omega

theorem ull_last (v : Nat) (hv : v ≠ 0) :
    (plx_write_leb128_ull v).getLast (ull_ne_nil v) ≠ 0 := by
  induction v using Nat.strong_induction_on with
  | _ v ih =>
    have key : ∀ l (hl : l ≠ []), l = plx_write_leb128_ull v → l.getLast hl ≠ 0 := by
      intro l hl e
      rw [ull_unfold] at e
      split at e
      · subst e
        rename_i h
        rw [List.getLast_cons (ull_ne_nil _)]
        exact ih (v / 128) (by omega) h
      · subst e
        simp; omega
    exact key _ _ rfl

theorem ull_shortest (cs : List Nat) :
    ∀ v, cs ≠ [] → leb128_groups_value cs = v →
      (plx_write_leb128_ull v).length ≤ cs.length := by
  induction cs with
  | nil => intro v h; exact absurd rfl h
  | cons c cs ih =>
    intro v _ hval
    rw [groups_value_cons] at hval
    rw [ull_unfold]
    split
    · rename_i h
      cases cs with
      | nil => simp [leb128_groups_value] at hval; omega
      | cons d ds =>
        have := ih (v / 128) (by simp) (by omega)
        simpa using this
    · simp

/-- C1: `plx_write_leb128_ull` is the standard unsigned LEB128 encoder.  624485 is
written as `E5 8E 26`; for every 64-bit unsigned `v` the seven-bit groups of the
bytes written sum to `v`, every byte is a byte, a byte has its high bit set
exactly when it is not the last one, the last byte is non-zero unless `v = 0`,
and no non-empty byte sequence whose groups sum to `v` is shorter. -/
theorem plx_write_leb128_ull_standard (v : Nat) (hv : v < 2 ^ 64) :
    plx_write_leb128_ull 624485 = [0xE5, 0x8E, 0x26] ∧
    plx_write_leb128_ull v ≠ [] ∧
    leb128_groups_value (plx_write_leb128_ull v) = v ∧
    (∀ i (h : i < (plx_write_leb128_ull v).length),
      (plx_write_leb128_ull v)[i] < 256 ∧
      ((plx_write_leb128_ull v)[i] &&& 0x80 ≠ 0 ↔ i + 1 < (plx_write_leb128_ull v).length)) ∧
    (v ≠ 0 → (plx_write_leb128_ull v).getLast? ≠ some 0) ∧
    (∀ cs : List Nat, cs ≠ [] → leb128_groups_value cs = v →
      (plx_write_leb128_ull v).length ≤ cs.length) := by
  have _ := hv
  refine ⟨?_, ull_ne_nil v, ull_value v, ?_, ?_, fun cs h1 h2 => ull_shortest cs v h1 h2⟩
  · rw [ull_unfold, ull_unfold, ull_unfold]; decide
  · intro i h
    obtain ⟨g1, g2⟩ := ull_bytes v i h
    exact ⟨g1, (land_0x80 _ g1).trans g2⟩
  · intro h0 e
    have h := ull_last v h0
    rw [List.getLast?_eq_getLast _ (ull_ne_nil v)] at e
    exact h (Option.some.inj e)

/-- Witness for C1 at the value 624485 of the repository's test. -/
theorem plx_write_leb128_ull_standard_witness :
    624485 < 2 ^ 64 ∧ leb128_groups_value (plx_write_leb128_ull 624485) = 624485 :=
  ⟨by norm_num, (plx_write_leb128_ull_standard 624485 (by norm_num)).2.2.1⟩

/-- `struct plx_symbol_table_entry`, the two fields `symbol_table.c` initialises
and reads. -/
structure plx_symbol_table_entry where
  prev : Option Nat
  name : String
  deriving DecidableEq

/-- `enum { PLX_MAX_DEPTH = 256 }`. -/
def PLX_MAX_DEPTH : Nat := 256

/-- `struct plx_symbol_table`; `scopes` has `PLX_MAX_DEPTH` elements. -/
structure plx_symbol_table where
  depth : Nat
  scopes : List (Option Nat)
  head : Option Nat
  deriving DecidableEq

/-- `PLX_SYMBOL_TABLE_INIT`, that is `{0, {0}, NULL}`. -/
def PLX_SYMBOL_TABLE_INIT : plx_symbol_table :=
  { depth := 0, scopes := List.replicate PLX_MAX_DEPTH none, head := none }

/-- The memory pool of entries together with one symbol table. -/
structure plx_symbol_state where
  pool : List plx_symbol_table_entry
  table : plx_symbol_table
  deriving DecidableEq

/-- `plx_enter_scope`. -/
def plx_enter_scope (t : plx_symbol_table) : Option plx_symbol_table :=
  if t.depth + 1 < PLX_MAX_DEPTH then
    if t.depth + 1 < t.scopes.length then
      some { t with depth := t.depth + 1, scopes := t.scopes.set (t.depth + 1) t.head }
    else none
  else none

/-- `plx_exit_scope`. -/
def plx_exit_scope (t : plx_symbol_table) : Option plx_symbol_table :=
  if 0 < t.depth then
    match t.scopes[t.depth]? with
    | some base => some { t with head := base, depth := t.depth - 1 }
    | none => none
  else none

/-- The loop of `plx_declare_symbol`: `some true` when an entry with the name is
met before the base of the current scope, `some false` when the base is
reached. -/
def plx_declare_symbol_loop (pool : List plx_symbol_table_entry) (name : String)
    (base : Option Nat) : Nat → Option Nat → Option Bool
  | 0, _ => none
  | fuel + 1, entry =>
    if entry = base then some false
    else
      match entry with
      | none => none
      | some a =>
        match pool[a]? with
        | none => none
        | some e => if e.name = name then some true
                    else plx_declare_symbol_loop pool name base fuel e.prev

/-- `plx_declare_symbol`: the new state and the returned pointer.  A walk of more
than `pool.length + 1` steps has met some entry twice and so never ends. -/
def plx_declare_symbol (s : plx_symbol_state) (name : String) :
    Option (plx_symbol_state × Option Nat) :=
  match s.table.scopes[s.table.depth]? with
  | none => none
  | some base =>
    match plx_declare_symbol_loop s.pool name base (s.pool.length + 1) s.table.head with
    | none => none
    | some true => some (s, none)
    | some false =>
      some ({ pool := s.pool ++ [{ prev := s.table.head, name := name }],
              table := { s.table with head := some s.pool.length } },
            some s.pool.length)

/-- The loop of `plx_lookup_symbol`. -/
def plx_lookup_symbol_loop (pool : List plx_symbol_table_entry) (name : String) :
    Nat → Option Nat → Option (Option Nat)
  | 0, _ => none
  | _ + 1, none => some none
  | fuel + 1, some a =>
    match pool[a]? with
    | none => none
    | some e => if e.name = name then some (some a)
                else plx_lookup_symbol_loop pool name fuel e.prev

/-- `plx_lookup_symbol`. -/
def plx_lookup_symbol (s : plx_symbol_state) (name : String) : Option (Option Nat) :=
  plx_lookup_symbol_loop s.pool name (s.pool.length + 1) s.table.head

/-- A call of one of the three state-changing operations. -/
inductive plx_symbol_op where
  | enter_scope
  | exit_scope
  | declare_symbol (name : String)
  deriving DecidableEq

/-- One call. -/
def plx_symbol_step (s : plx_symbol_state) : plx_symbol_op → Option plx_symbol_state
  | .enter_scope => (plx_enter_scope s.table).map fun t => { s with table := t }
  | .exit_scope => (plx_exit_scope s.table).map fun t => { s with table := t }
  | .declare_symbol name => (plx_declare_symbol s name).map Prod.fst

/-- A sequence of calls. -/
def plx_symbol_run : List plx_symbol_op → plx_symbol_state → Option plx_symbol_state
  | [], s => some s
  | op :: ops, s => (plx_symbol_step s op).bind (plx_symbol_run ops)

/-- The effect of one call on the names each open scope holds (innermost scope
first), as §4.4 of the specification describes it: entering opens an empty
scope, exiting drops the innermost scope, declaring adds the name to the
innermost scope unless it is already there. -/
def scope_names_step (A : List (List String)) : plx_symbol_op → List (List String)
  | .enter_scope => [] :: A
  | .exit_scope => A.tail
  | .declare_symbol n => if n ∈ A.headD [] then A else (n :: A.headD []) :: A.tail

/-- The names each open scope holds after a sequence of calls. -/
def scope_names_after : List plx_symbol_op → List (List String) → List (List String)
  | [], A => A
  | op :: ops, A => scope_names_after ops (scope_names_step A op)

/-- The nesting level after a sequence of calls that starts at level `k`, or
`none` when some `exit_scope` in it has no matching earlier `enter_scope` within
the sequence. -/
def nesting_after : Nat → List plx_symbol_op → Option Nat
  | k, [] => some k
  | k, .enter_scope :: ops => nesting_after (k + 1) ops
  | k, .exit_scope :: ops => if 0 < k then nesting_after (k - 1) ops else none
  | k, .declare_symbol _ :: ops => nesting_after k ops

/-- The deepest nesting level a sequence of calls that starts at level `k`
reaches. -/
def nesting_peak : Nat → List plx_symbol_op → Nat
  | k, [] => k
  | k, .enter_scope :: ops => max k (nesting_peak (k + 1) ops)
  | k, .exit_scope :: ops => max k (nesting_peak (k - 1) ops)
  | k, .declare_symbol _ :: ops => nesting_peak k ops

/-- The entries (address and name) met from pointer `p` up to, not including,
pointer `q`; every `prev` pointer leads to an older entry. -/
def Seg (pool : List plx_symbol_table_entry) (q : Option Nat) :
    Option Nat → List (Nat × String) → Prop
  | p, [] => p = q
  | p, x :: l => p = some x.1 ∧ p ≠ q ∧
      ∃ prev, pool[x.1]? = some { prev := prev, name := x.2 } ∧
        (∀ b, prev = some b → b < x.1) ∧ Seg pool q prev l

/-- The entries of the open scopes, innermost first: scope `k` runs from its
head to the base saved in `scopes[k]`, and `scopes[0]` is null. -/
def Rep (pool : List plx_symbol_table_entry) (scopes : List (Option Nat)) :
    Nat → Option Nat → List (List (Nat × String)) → Prop
  | 0, p, segs => ∃ seg, segs = [seg] ∧ scopes[0]? = some none ∧ Seg pool none p seg
  | k + 1, p, segs => ∃ seg rest b, segs = seg :: rest ∧ scopes[k + 1]? = some b ∧
      Seg pool b p seg ∧ Rep pool scopes k b rest

/-- Representation invariant of a state against the names of its open scopes. -/
def SymInv (s : plx_symbol_state) (A : List (List String)) : Prop :=
  s.table.depth < PLX_MAX_DEPTH ∧ s.table.scopes.length = PLX_MAX_DEPTH ∧
  ∃ segs, Rep s.pool s.table.scopes s.table.depth s.table.head segs ∧
    A = segs.map (List.map Prod.snd)

theorem Seg_mono (pool ext : List plx_symbol_table_entry) (q : Option Nat)
    (l : List (Nat × String)) : ∀ p, Seg pool q p l → Seg (pool ++ ext) q p l := by
  induction l with
  | nil => intro p h; exact h
  | cons x l ih =>
    intro p h
    obtain ⟨h1, h2, prev, h3, h4, h5⟩ := h
    refine ⟨h1, h2, prev, ?_, h4, ih _ h5⟩
    obtain ⟨hlt, _⟩ := List.getElem?_eq_some.mp h3
    rw [List.getElem?_append_left hlt]; exact h3

theorem Rep_mono (pool ext : List plx_symbol_table_entry) (scopes : List (Option Nat)) :
    ∀ k p segs, Rep pool scopes k p segs → Rep (pool ++ ext) scopes k p segs := by
  intro k
  induction k with
  | zero =>
    intro p segs h
    obtain ⟨seg, h1, h2, h3⟩ := h
    exact ⟨seg, h1, h2, Seg_mono _ _ _ _ _ h3⟩
  | succ k ih =>
    intro p segs h
    obtain ⟨seg, rest, b, h1, h2, h3, h4⟩ := h
    exact ⟨seg, rest, b, h1, h2, Seg_mono _ _ _ _ _ h3, ih _ _ h4⟩

theorem Rep_congr (pool : List plx_symbol_table_entry) (scopes scopes' : List (Option Nat)) :
    ∀ k p segs, (∀ i, i ≤ k → scopes'[i]? = scopes[i]?) →
      Rep pool scopes k p segs → Rep pool scopes' k p segs := by
  intro k
  induction k with
  | zero =>
    intro p segs hs h
    obtain ⟨seg, h1, h2, h3⟩ := h
    exact ⟨seg, h1, (hs 0 (Nat.le_refl _)).trans h2, h3⟩
  | succ k ih =>
    intro p segs hs h
    obtain ⟨seg, rest, b, h1, h2, h3, h4⟩ := h
    exact ⟨seg, rest, b, h1, (hs _ (Nat.le_refl _)).trans h2, h3,
      ih _ _ (fun i hi => hs i (Nat.le_succ_of_le hi)) h4⟩

theorem Rep_head_valid (pool : List plx_symbol_table_entry) (scopes : List (Option Nat)) :
    ∀ k p segs, Rep pool scopes k p segs → ∀ a, p = some a → a < pool.length := by
  intro k
  induction k with
  | zero =>
    intro p segs h a ha
    obtain ⟨seg, _, _, h3⟩ := h
    cases seg with
    | nil => simp [Seg] at h3; rw [h3] at ha; cases ha
    | cons x l =>
      obtain ⟨h1, _, prev, h4, _⟩ := h3
      rw [h1] at ha; cases ha
      exact (List.getElem?_eq_some.mp h4).1
  | succ k ih =>
    intro p segs h a ha
    obtain ⟨seg, rest, b, _, _, h3, h4⟩ := h
    cases seg with
    | nil =>
      have : p = b := h3
      exact ih _ _ h4 a (this ▸ ha)
    | cons x l =>
      obtain ⟨h1, _, prev, h4, _⟩ := h3
      rw [h1] at ha; cases ha
      exact (List.getElem?_eq_some.mp h4).1

theorem declare_loop_seg (pool : List plx_symbol_table_entry) (n : String) (b : Option Nat)
    (l : List (Nat × String)) :
    ∀ p fuel, Seg pool b p l → (∀ x l', l = x :: l' → x.1 + 1 < fuel) → 0 < fuel →
      plx_declare_symbol_loop pool n b fuel p = some (decide (n ∈ l.map Prod.snd)) := by
  induction l with
  | nil =>
    intro p fuel h _ hf
    have hp : p = b := h
    obtain ⟨f, rfl⟩ := Nat.exists_eq_succ_of_ne_zero (Nat.pos_iff_ne_zero.mp hf)
    simp [plx_declare_symbol_loop, hp]
  | cons x l ih =>
    intro p fuel h hfu hf
    obtain ⟨h1, h2, prev, h3, h4, h5⟩ := h
    obtain ⟨f, rfl⟩ := Nat.exists_eq_succ_of_ne_zero (Nat.pos_iff_ne_zero.mp hf)
    have hx := hfu x l rfl
    subst h1
    rw [plx_declare_symbol_loop, if_neg h2]
    simp only [h3]
    by_cases hn : x.2 = n
    · simp [hn]
    · rw [if_neg hn, ih prev f h5 ?_ (by omega)]
      · have : ¬ n = x.2 := fun e => hn e.symm
        simp [this]
      · intro y l' hl
        cases l with
        | nil => cases hl
        | cons z l'' =>
          cases hl
          obtain ⟨h6, _⟩ := h5
          have := h4 _ h6
          omega

theorem Seg_append (pool : List plx_symbol_table_entry) (q : Option Nat)
    (l1 l2 : List (Nat × String)) :
    ∀ p, Seg pool q p l1 → Seg pool none q l2 → Seg pool none p (l1 ++ l2) := by
  induction l1 with
  | nil => intro p h h2; have : p = q := h; rw [this]; exact h2
  | cons x l ih =>
    intro p h h2
    obtain ⟨h1, _, prev, h3, h4, h5⟩ := h
    exact ⟨h1, by rw [h1]; simp, prev, h3, h4, ih _ h5 h2⟩

theorem Rep_chain (pool : List plx_symbol_table_entry) (scopes : List (Option Nat)) :
    ∀ k p segs, Rep pool scopes k p segs → Seg pool none p segs.flatten := by
  intro k
  induction k with
  | zero =>
    intro p segs h
    obtain ⟨seg, h1, _, h3⟩ := h
    subst h1; simpa using h3
  | succ k ih =>
    intro p segs h
    obtain ⟨seg, rest, b, h1, _, h3, h4⟩ := h
    subst h1
    rw [List.flatten_cons]
    exact Seg_append _ _ _ _ _ h3 (ih _ _ h4)

theorem lookup_loop_chain (pool : List plx_symbol_table_entry) (n : String)
    (l : List (Nat × String)) :
    ∀ p fuel, Seg pool none p l → (∀ a, p = some a → a + 1 < fuel) → 0 < fuel →
      plx_lookup_symbol_loop pool n fuel p =
        some ((l.find? (fun x => decide (x.2 = n))).map Prod.fst) := by
  induction l with
  | nil =>
    intro p fuel h _ hf
    have hp : p = none := h
    obtain ⟨f, rfl⟩ := Nat.exists_eq_succ_of_ne_zero (Nat.pos_iff_ne_zero.mp hf)
    simp [plx_lookup_symbol_loop, hp]
  | cons x l ih =>
    intro p fuel h hfu hf
    obtain ⟨h1, _, prev, h3, h4, h5⟩ := h
    obtain ⟨f, rfl⟩ := Nat.exists_eq_succ_of_ne_zero (Nat.pos_iff_ne_zero.mp hf)
    have hx := hfu _ h1
    subst h1
    rw [plx_lookup_symbol_loop]
    simp only [h3]
    by_cases hn : x.2 = n
    · simp [hn, List.find?_cons]
    · rw [if_neg hn, ih prev f h5 (fun b hb => by have := h4 b hb; omega) (by omega)]
      simp [List.find?_cons, hn]

theorem Rep_top (pool : List plx_symbol_table_entry) (scopes : List (Option Nat))
    (k : Nat) (p : Option Nat) (segs : List (List (Nat × String)))
    (h : Rep pool scopes k p segs) :
    ∃ b seg rest, segs = seg :: rest ∧ scopes[k]? = some b ∧ Seg pool b p seg ∧
      (∀ a, b = some a → a < pool.length) := by
  cases k with
  | zero =>
    obtain ⟨seg, h1, h2, h3⟩ := h
    exact ⟨none, seg, [], h1, h2, h3, fun a ha => by cases ha⟩
  | succ k =>
    obtain ⟨seg, rest, b, h1, h2, h3, h4⟩ := h
    exact ⟨b, seg, rest, h1, h2, h3, Rep_head_valid _ _ _ _ _ h4⟩

theorem Rep_declare (pool : List plx_symbol_table_entry) (scopes : List (Option Nat))
    (k : Nat) (p : Option Nat) (seg : List (Nat × String)) (rest : List (List (Nat × String)))
    (n : String) (h : Rep pool scopes k p (seg :: rest)) :
    Rep (pool ++ [{ prev := p, name := n }]) scopes k (some pool.length)
      (((pool.length, n) :: seg) :: rest) := by
  have hv := Rep_head_valid _ _ _ _ _ h
  have hm := Rep_mono pool [{ prev := p, name := n }] scopes k p _ h
  have hnew : ∀ b, (∀ a, b = some a → a < pool.length) →
      Seg (pool ++ [{ prev := p, name := n }]) b p seg →
      Seg (pool ++ [{ prev := p, name := n }]) b (some pool.length) ((pool.length, n) :: seg) := by
    intro b hb hs
    refine ⟨rfl, ?_, p, List.getElem?_concat_length _ _, hv, hs⟩
    intro e
    have := hb _ e.symm
    omega
  cases k with
  | zero =>
    obtain ⟨seg', h1, h2, h3⟩ := hm
    cases h1
    exact ⟨_, rfl, h2, hnew none (fun a ha => by cases ha) h3⟩
  | succ k =>
    obtain ⟨seg', rest', b, h1, h2, h3, h4⟩ := hm
    cases h1
    obtain ⟨_, _, b0, h1', h2', _, h4'⟩ := h
    have hb : b0 = b := by rw [h2'] at h2; exact Option.some.inj h2
    subst hb
    exact ⟨_, _, b0, rfl, h2, hnew b0 (Rep_head_valid _ _ _ _ _ h4') h3, h4⟩

theorem declare_result (s : plx_symbol_state) (A : List (List String)) (n : String)
    (h : SymInv s A) :
    plx_declare_symbol s n =
      if n ∈ A.headD [] then some (s, none)
      else some ({ pool := s.pool ++ [{ prev := s.table.head, name := n }],
                   table := { s.table with head := some s.pool.length } },
                 some s.pool.length) := by
  obtain ⟨_, _, segs, hrep, hA⟩ := h
  obtain ⟨b, seg, rest, h1, h2, h3, _⟩ := Rep_top _ _ _ _ _ hrep
  subst h1
  have hloop := declare_loop_seg s.pool n b seg s.table.head (s.pool.length + 1) h3
    (by
      intro x l' hl
      subst hl
      obtain ⟨_, _, prev, h4, _⟩ := h3
      have := (List.getElem?_eq_some.mp h4).1
      omega)
    (by omega)
  have hhead : A.headD [] = seg.map Prod.snd := by rw [hA]; rfl
  rw [plx_declare_symbol, h2]
  simp only [hloop, hhead]
  by_cases hn : n ∈ seg.map Prod.snd
  · simp [hn]
  · simp [hn]

theorem init_inv (pool : List plx_symbol_table_entry) :
    SymInv { pool := pool, table := PLX_SYMBOL_TABLE_INIT } [[]] := by
  refine ⟨?_, ?_, [[]], ?_, rfl⟩
  · show 0 < 256
    omega
  · show (List.replicate PLX_MAX_DEPTH (none : Option Nat)).length = PLX_MAX_DEPTH
    exact List.length_replicate _ _
  · refine ⟨[], rfl, ?_, rfl⟩
    show (List.replicate 256 (none : Option Nat))[0]? = some none
    exact List.getElem?_replicate_of_lt (by omega)

theorem step_inv (s s' : plx_symbol_state) (A : List (List String)) (op : plx_symbol_op)
    (h : SymInv s A) (hs : plx_symbol_step s op = some s') :
    SymInv s' (scope_names_step A op) := by
  cases op with
  | enter_scope =>
    obtain ⟨hd, hl, segs, hrep, hA⟩ := h
    simp only [plx_symbol_step, plx_enter_scope, Option.map_eq_some'] at hs
    obtain ⟨t, ht, rfl⟩ := hs
    split at ht
    · rename_i h1
      split at ht
      · rename_i h2
        cases ht
        refine ⟨h1, by simpa using hl, [] :: segs, ?_, by simp [scope_names_step, hA]⟩
        refine ⟨[], segs, s.table.head, rfl, List.getElem?_set_self h2, rfl, ?_⟩
        exact Rep_congr _ _ _ _ _ _
          (fun i hi => List.getElem?_set_ne (by omega)) hrep
      · cases ht
    · cases ht
  | exit_scope =>
    obtain ⟨hd, hl, segs, hrep, hA⟩ := h
    simp only [plx_symbol_step, plx_exit_scope, Option.map_eq_some'] at hs
    obtain ⟨t, ht, rfl⟩ := hs
    split at ht
    · rename_i h1
      obtain ⟨k, hk⟩ := Nat.exists_eq_succ_of_ne_zero (Nat.pos_iff_ne_zero.mp h1)
      rw [hk] at hrep ht
      obtain ⟨seg, rest, b, h2, h3, _, h5⟩ := hrep
      rw [h3] at ht
      cases ht
      refine ⟨by simp only [hk] at hd ⊢; omega, hl, rest, ?_, by simp [scope_names_step, hA, h2]⟩
      simpa [hk] using h5
    · cases ht
  | declare_symbol n =>
    have hres := declare_result s A n h
    simp only [plx_symbol_step, Option.map_eq_some'] at hs
    obtain ⟨r, hr, rfl⟩ := hs
    rw [hres] at hr
    by_cases hn : n ∈ A.headD []
    · rw [if_pos hn] at hr
      simp only [scope_names_step, if_pos hn]
      cases hr
      exact h
    · rw [if_neg hn] at hr
      simp only [scope_names_step, if_neg hn]
      cases hr
      obtain ⟨hd, hl, segs, hrep, hA⟩ := h
      obtain ⟨b, seg, rest, h1, _⟩ := Rep_top _ _ _ _ _ hrep
      subst h1
      refine ⟨hd, hl, _, Rep_declare _ _ _ _ _ _ n hrep, ?_⟩
      rw [hA]; rfl

theorem run_inv (ops : List plx_symbol_op) :
    ∀ (s s' : plx_symbol_state) (A : List (List String)), SymInv s A →
      plx_symbol_run ops s = some s' → SymInv s' (scope_names_after ops A) := by
  induction ops with
  | nil => intro s s' A h hr; cases hr; exact h
  | cons op ops ih =>
    intro s s' A h hr
    simp only [plx_symbol_run, Option.bind_eq_some] at hr
    obtain ⟨s1, h1, h2⟩ := hr
    exact ih s1 s' _ (step_inv _ _ _ _ h h1) h2

theorem lookup_loop_lt (pool : List plx_symbol_table_entry) (n : String) :
    ∀ fuel p a, plx_lookup_symbol_loop pool n fuel p = some (some a) → a < pool.length := by
  intro fuel
  induction fuel with
  | zero => intro p a h; simp [plx_lookup_symbol_loop] at h
  | succ f ih =>
    intro p a h
    cases p with
    | none => simp [plx_lookup_symbol_loop] at h
    | some b =>
      rw [plx_lookup_symbol_loop] at h
      split at h
      · cases h
      · rename_i e he
        split at h
        · cases h
          exact (List.getElem?_eq_some.mp he).1
        · exact ih _ _ h

theorem declare_cases (s s1 : plx_symbol_state) (n : String) (r : Option Nat)
    (h : plx_declare_symbol s n = some (s1, r)) :
    (s1 = s ∧ r = none) ∨
    (s1 = { pool := s.pool ++ [{ prev := s.table.head, name := n }],
            table := { s.table with head := some s.pool.length } } ∧
     r = some s.pool.length) := by
  unfold plx_declare_symbol at h
  split at h
  · cases h
  · split at h
    · cases h
    · cases h; exact Or.inl ⟨rfl, rfl⟩
    · cases h; exact Or.inr ⟨rfl, rfl⟩

theorem lookup_ext (s s' : plx_symbol_state) (A : List (List String))
    (ext : List plx_symbol_table_entry) (n : String) (h : SymInv s A)
    (hp : s'.pool = s.pool ++ ext) (hh : s'.table.head = s.table.head) :
    plx_lookup_symbol s' n = plx_lookup_symbol s n ∧ plx_lookup_symbol s n ≠ none := by
  obtain ⟨_, _, segs, hrep, _⟩ := h
  have hc := Rep_chain _ _ _ _ _ hrep
  have hv := Rep_head_valid _ _ _ _ _ hrep
  have h1 := lookup_loop_chain s.pool n _ s.table.head (s.pool.length + 1) hc
    (fun a ha => by have := hv a ha; omega) (by omega)
  have h2 := lookup_loop_chain (s.pool ++ ext) n _ s.table.head ((s.pool ++ ext).length + 1)
    (Seg_mono _ ext _ _ _ hc)
    (fun a ha => by have := hv a ha; simp only [List.length_append]; omega) (by omega)
  unfold plx_lookup_symbol
  rw [hp, hh, h1, h2]
  exact ⟨rfl, by simp⟩

theorem run_append (a b : List plx_symbol_op) :
    ∀ s, plx_symbol_run (a ++ b) s = (plx_symbol_run a s).bind (plx_symbol_run b) := by
  induction a with
  | nil => intro s; rfl
  | cons op a ih =>
    intro s
    simp only [List.cons_append, plx_symbol_run]
    cases plx_symbol_step s op with
    | none => rfl
    | some s1 => exact ih s1

theorem run_frame (ops : List plx_symbol_op) :
    ∀ (k k' : Nat) (s s' : plx_symbol_state) (d0 : Nat),
      nesting_after k ops = some k' → plx_symbol_run ops s = some s' →
      s.table.depth = d0 + k →
      s'.table.depth = d0 + k' ∧
      (∀ i, i ≤ d0 → s'.table.scopes[i]? = s.table.scopes[i]?) ∧
      ∃ ext, s'.pool = s.pool ++ ext := by
  induction ops with
  | nil =>
    intro k k' s s' d0 hn hr hd
    simp only [nesting_after, Option.some.injEq] at hn
    simp only [plx_symbol_run, Option.some.injEq] at hr
    subst hn; subst hr
    exact ⟨hd, fun _ _ => rfl, [], by simp⟩
  | cons op ops ih =>
    intro k k' s s' d0 hn hr hd
    simp only [plx_symbol_run, Option.bind_eq_some] at hr
    obtain ⟨s1, h1, h2⟩ := hr
    cases op with
    | enter_scope =>
      simp only [nesting_after] at hn
      simp only [plx_symbol_step, plx_enter_scope, Option.map_eq_some'] at h1
      obtain ⟨t, ht, rfl⟩ := h1
      split at ht
      · split at ht
        · cases ht
          obtain ⟨g1, g2, g3⟩ := ih (k + 1) k' _ s' d0 hn h2 (by simp only; omega)
          refine ⟨g1, fun i hi => ?_, g3⟩
          rw [g2 i hi]
          exact List.getElem?_set_ne (by omega)
        · cases ht
      · cases ht
    | exit_scope =>
      simp only [nesting_after] at hn
      split at hn
      · rename_i hk
        simp only [plx_symbol_step, plx_exit_scope, Option.map_eq_some'] at h1
        obtain ⟨t, ht, rfl⟩ := h1
        split at ht
        · split at ht
          · cases ht
            obtain ⟨g1, g2, g3⟩ := ih (k - 1) k' _ s' d0 hn h2 (by simp only; omega)
            exact ⟨g1, g2, g3⟩
          · cases ht
        · cases ht
      · cases hn
    | declare_symbol n =>
      simp only [nesting_after] at hn
      simp only [plx_symbol_step, Option.map_eq_some'] at h1
      obtain ⟨⟨s1', r⟩, hr, rfl⟩ := h1
      rcases declare_cases _ _ _ _ hr with ⟨e1, _⟩ | ⟨e1, _⟩
      · subst e1
        exact ih k k' _ s' d0 hn h2 hd
      · subst e1
        obtain ⟨g1, g2, ext, g3⟩ := ih k k' _ s' d0 hn h2 hd
        exact ⟨g1, g2, _ :: ext, by rw [g3]; exact List.append_assoc _ _ _⟩

theorem le_nesting_peak (ops : List plx_symbol_op) : ∀ k, k ≤ nesting_peak k ops := by
  induction ops with
  | nil => intro k; exact Nat.le_refl _
  | cons op ops ih =>
    intro k
    cases op with
    | enter_scope => exact Nat.le_max_left _ _
    | exit_scope => exact Nat.le_max_left _ _
    | declare_symbol n => exact ih k

theorem run_total (ops : List plx_symbol_op) :
    ∀ (k k' : Nat) (s : plx_symbol_state) (A : List (List String)) (d0 : Nat),
      SymInv s A → nesting_after k ops = some k' → s.table.depth = d0 + k →
      d0 + nesting_peak k ops < PLX_MAX_DEPTH →
      ∃ s', plx_symbol_run ops s = some s' := by
  induction ops with
  | nil => intro k k' s A d0 _ _ _ _; exact ⟨s, rfl⟩
  | cons op ops ih =>
    intro k k' s A d0 hinv hn hd hp
    have hstep : ∀ s1, plx_symbol_step s op = some s1 →
        (∃ s', plx_symbol_run ops s1 = some s') →
        ∃ s', plx_symbol_run (op :: ops) s = some s' := by
      intro s1 h1 ⟨s', h2⟩
      exact ⟨s', by simp [plx_symbol_run, h1, h2]⟩
    cases op with
    | enter_scope =>
      simp only [nesting_after] at hn
      have hpk := le_nesting_peak ops (k + 1)
      have hmax : nesting_peak (k + 1) ops ≤ nesting_peak k (.enter_scope :: ops) :=
        Nat.le_max_right _ _
      have h1 : s.table.depth + 1 < PLX_MAX_DEPTH := by omega
      have h2 : s.table.depth + 1 < s.table.scopes.length := by rw [hinv.2.1]; exact h1
      have hs : plx_symbol_step s .enter_scope = some
          { s with table := { s.table with depth := s.table.depth + 1,
                                            scopes := s.table.scopes.set (s.table.depth + 1)
                                              s.table.head } } := by
        simp [plx_symbol_step, plx_enter_scope, h1, h2]
      exact hstep _ hs (ih (k + 1) k' _ _ d0 (step_inv _ _ _ _ hinv hs) hn
        (by simp only; omega) (by omega))
    | exit_scope =>
      simp only [nesting_after] at hn
      split at hn
      · rename_i hk
        have hmax : nesting_peak (k - 1) ops ≤ nesting_peak k (.exit_scope :: ops) :=
          Nat.le_max_right _ _
        have h1 : 0 < s.table.depth := by omega
        have h2 : s.table.depth < s.table.scopes.length := by rw [hinv.2.1]; exact hinv.1
        have hs : plx_symbol_step s .exit_scope = some
            { s with table := { s.table with head := s.table.scopes[s.table.depth],
                                              depth := s.table.depth - 1 } } := by
          simp [plx_symbol_step, plx_exit_scope, h1, List.getElem?_eq_getElem h2]
        exact hstep _ hs (ih (k - 1) k' _ _ d0 (step_inv _ _ _ _ hinv hs) hn
          (by simp only; omega) (by omega))
      · cases hn
    | declare_symbol n =>
      simp only [nesting_after] at hn
      have hres := declare_result s A n hinv
      have : ∃ s1, plx_symbol_step s (.declare_symbol n) = some s1 := by
        simp only [plx_symbol_step, hres]
        split <;> exact ⟨_, rfl⟩
      obtain ⟨s1, hs⟩ := this
      have hd1 : s1.table.depth = s.table.depth := by
        simp only [plx_symbol_step, Option.map_eq_some'] at hs
        obtain ⟨⟨s1', r⟩, hr, rfl⟩ := hs
        rcases declare_cases _ _ _ _ hr with ⟨e1, _⟩ | ⟨e1, _⟩ <;> subst e1 <;> rfl
      exact hstep _ hs (ih k k' _ _ d0 (step_inv _ _ _ _ hinv hs) hn
        (by rw [hd1]; exact hd) hp)

theorem enter_run (pool : List plx_symbol_table_entry) :
    ∀ k d, d + k < PLX_MAX_DEPTH →
      plx_symbol_run (List.replicate k .enter_scope)
        { pool := pool,
          table := { depth := d, scopes := List.replicate PLX_MAX_DEPTH none, head := none } } =
      some { pool := pool,
             table := { depth := d + k, scopes := List.replicate PLX_MAX_DEPTH none,
                        head := none } } := by
  intro k
  induction k with
  | zero => intro d _; rfl
  | succ k ih =>
    intro d hd
    have h1 : d + 1 < PLX_MAX_DEPTH := by omega
    have h2 : d + 1 < (List.replicate PLX_MAX_DEPTH (none : Option Nat)).length := by
      rw [List.length_replicate]; exact h1
    rw [List.replicate_succ, plx_symbol_run]
    simp only [plx_symbol_step, plx_enter_scope, h1, h2, if_true, List.set_replicate_self,
      Option.map_some', Option.some_bind]
    rw [ih (d + 1) (by omega)]
    congr 3
    omega

theorem enter_run_fails (pool : List plx_symbol_table_entry) :
    plx_symbol_run (List.replicate PLX_MAX_DEPTH .enter_scope)
      { pool := pool, table := PLX_SYMBOL_TABLE_INIT } = none := by
  have h := enter_run pool 255 0 (by decide)
  have e : List.replicate PLX_MAX_DEPTH plx_symbol_op.enter_scope =
      List.replicate 255 .enter_scope ++ [.enter_scope] := by
    rw [← List.replicate_succ']; rfl
  rw [e, run_append]
  have h' : plx_symbol_run (List.replicate 255 plx_symbol_op.enter_scope)
      { pool := pool, table := PLX_SYMBOL_TABLE_INIT } = _ := h
  rw [h']
  have hn : ¬ (0 + 255 + 1 < PLX_MAX_DEPTH) := by decide
  simp only [Option.some_bind, plx_symbol_run, plx_symbol_step, plx_enter_scope, if_neg hn]
  rfl

/-- The state of the shadowing test just before the inner declaration: `foo` is
declared in the outer scope and one scope has been entered. -/
def shadowing_state : plx_symbol_state :=
  { pool := [{ prev := none, name := "foo" }],
    table := { depth := 1,
               scopes := (List.replicate PLX_MAX_DEPTH none).set 1 (some 0),
               head := some 0 } }

/-- C3: in every state, if `plx_declare_symbol(n)` returns a non-null entry `e`
then the immediately following `plx_lookup_symbol(n)` returns `e`, and `e` is not
the entry (if any) that `n` looked up to before the declaration. -/
theorem plx_declare_then_lookup (s s' : plx_symbol_state) (n : String) (e : Nat)
    (h : plx_declare_symbol s n = some (s', some e)) :
    plx_lookup_symbol s' n = some (some e) ∧
    ∀ e0, plx_lookup_symbol s n = some (some e0) → e0 ≠ e := by
  rcases declare_cases _ _ _ _ h with ⟨_, h2⟩ | ⟨h1, h2⟩
  · cases h2
  · cases h2
    subst h1
    refine ⟨?_, fun e0 h0 => ?_⟩
    · simp [plx_lookup_symbol, plx_lookup_symbol_loop]
    · have := lookup_loop_lt _ _ _ _ _ h0
      omega

set_option maxRecDepth 100000 in
/-- Witness for C3: the inner declaration of the shadowing test. -/
theorem plx_declare_then_lookup_witness :
    plx_lookup_symbol
      { pool := [{ prev := none, name := "foo" }, { prev := some 0, name := "foo" }],
        table := { shadowing_state.table with head := some 1 } } "foo" = some (some 1) ∧
    ∀ e0, plx_lookup_symbol shadowing_state "foo" = some (some e0) → e0 ≠ 1 :=
  plx_declare_then_lookup shadowing_state _ "foo" 1 (by decide)

/-- C4: in every state reached from a fresh table, `plx_declare_symbol(n)` returns,
it returns null exactly when `n` is among the names declared in the innermost
open scope, a null return leaves the state unchanged, and otherwise a new entry
becomes the head whatever the enclosing scopes hold. -/
theorem plx_declare_symbol_null_iff (pool : List plx_symbol_table_entry)
    (ops : List plx_symbol_op) (s : plx_symbol_state) (n : String)
    (h : plx_symbol_run ops { pool := pool, table := PLX_SYMBOL_TABLE_INIT } = some s) :
    ∃ s' r, plx_declare_symbol s n = some (s', r) ∧
      (r = none ↔ n ∈ (scope_names_after ops [[]]).headD []) ∧
      (r = none → s' = s) ∧
      (n ∉ (scope_names_after ops [[]]).headD [] →
        r = some s.pool.length ∧ s'.table.head = some s.pool.length ∧
        s'.table.depth = s.table.depth ∧ s'.table.scopes = s.table.scopes) := by
  have hinv := run_inv ops _ _ _ (init_inv pool) h
  have hres := declare_result s _ n hinv
  by_cases hn : n ∈ (scope_names_after ops [[]]).headD []
  · rw [if_pos hn] at hres
    exact ⟨_, _, hres, ⟨fun _ => hn, fun _ => rfl⟩, fun _ => rfl, fun h' => absurd hn h'⟩
  · rw [if_neg hn] at hres
    exact ⟨_, _, hres, ⟨fun h' => (by cases h'), fun h' => absurd h' hn⟩,
      fun h' => (by cases h'), fun _ => ⟨rfl, rfl, rfl, rfl⟩⟩

set_option maxRecDepth 100000 in
/-- Witness for C4: declaring `foo` again in the outer scope of the test. -/
theorem plx_declare_symbol_null_iff_witness :
    ∃ s' r, plx_declare_symbol
        { pool := [{ prev := none, name := "foo" }],
          table := { PLX_SYMBOL_TABLE_INIT with head := some 0 } } "foo" = some (s', r) ∧
      (r = none ↔ "foo" ∈ (scope_names_after [.declare_symbol "foo"] [[]]).headD []) ∧
      (r = none → s' = { pool := [{ prev := none, name := "foo" }],
                         table := { PLX_SYMBOL_TABLE_INIT with head := some 0 } }) ∧
      ("foo" ∉ (scope_names_after [.declare_symbol "foo"] [[]]).headD [] →
        r = some 1 ∧ s'.table.head = some 1 ∧
        s'.table.depth = 0 ∧ s'.table.scopes = PLX_SYMBOL_TABLE_INIT.scopes) :=
  plx_declare_symbol_null_iff [] [.declare_symbol "foo"] _ "foo" (by decide)

/-- C5: scopes are restored exactly.  From a state `s` reached from a fresh table,
`plx_enter_scope`, then any balanced sequence of declarations and nested
enter/exit pairs, then `plx_exit_scope` all succeed when the nesting stays below
`PLX_MAX_DEPTH`, and whenever they succeed the head, the depth and the scope bases
up to the depth are those of `s` and `plx_lookup_symbol` returns for every name
what it returned in `s`. -/
theorem plx_scope_restore (pool : List plx_symbol_table_entry)
    (ops0 ops : List plx_symbol_op) (s : plx_symbol_state)
    (h : plx_symbol_run ops0 { pool := pool, table := PLX_SYMBOL_TABLE_INIT } = some s)
    (hb : nesting_after 0 ops = some 0) :
    (s.table.depth + 1 + nesting_peak 0 ops < PLX_MAX_DEPTH →
      ∃ s', plx_symbol_run (.enter_scope :: ops ++ [.exit_scope]) s = some s') ∧
    (∀ s', plx_symbol_run (.enter_scope :: ops ++ [.exit_scope]) s = some s' →
      s'.table.head = s.table.head ∧ s'.table.depth = s.table.depth ∧
      (∀ i, i ≤ s.table.depth → s'.table.scopes[i]? = s.table.scopes[i]?) ∧
      ∀ n, plx_lookup_symbol s' n = plx_lookup_symbol s n ∧
        plx_lookup_symbol s n ≠ none) := by
  have hinv := run_inv ops0 _ _ _ (init_inv pool) h
  constructor
  · intro hp
    have hpk := le_nesting_peak ops 0
    have h1 : s.table.depth + 1 < PLX_MAX_DEPTH := by omega
    have h2 : s.table.depth + 1 < s.table.scopes.length := by rw [hinv.2.1]; exact h1
    have hs : plx_symbol_step s .enter_scope = some
        { s with table := { s.table with depth := s.table.depth + 1,
                                          scopes := s.table.scopes.set (s.table.depth + 1)
                                            s.table.head } } := by
      simp [plx_symbol_step, plx_enter_scope, h1, h2]
    have hinv1 := step_inv _ _ _ _ hinv hs
    obtain ⟨s2, hr2⟩ := run_total ops 0 0 _ _ (s.table.depth + 1) hinv1 hb rfl hp
    have hinv2 := run_inv ops _ _ _ hinv1 hr2
    obtain ⟨g1, _, _⟩ := run_frame ops 0 0 _ s2 (s.table.depth + 1) hb hr2 rfl
    have h3 : 0 < s2.table.depth := by omega
    have h4 : s2.table.depth < s2.table.scopes.length := by rw [hinv2.2.1]; exact hinv2.1
    refine ⟨{ s2 with table := { s2.table with head := s2.table.scopes[s2.table.depth],
                                               depth := s2.table.depth - 1 } }, ?_⟩
    rw [List.cons_append, plx_symbol_run, hs, Option.some_bind, run_append, hr2,
      Option.some_bind]
    simp [plx_symbol_run, plx_symbol_step, plx_exit_scope, h3, List.getElem?_eq_getElem h4]
  · intro s' hr
    rw [List.cons_append, plx_symbol_run] at hr
    simp only [Option.bind_eq_some] at hr
    obtain ⟨s1, hs1, hr⟩ := hr
    rw [run_append] at hr
    simp only [Option.bind_eq_some] at hr
    obtain ⟨s2, hr2, hr3⟩ := hr
    simp only [plx_symbol_run, Option.bind_eq_some] at hr3
    obtain ⟨s3, hs3, e3⟩ := hr3
    cases e3
    simp only [plx_symbol_step, plx_enter_scope, Option.map_eq_some'] at hs1
    obtain ⟨t1, ht1, rfl⟩ := hs1
    split at ht1
    · split at ht1
      · rename_i hlen
        cases ht1
        obtain ⟨g1, g2, ext, g3⟩ := run_frame ops 0 0 _ s2 (s.table.depth + 1) hb hr2 rfl
        have hbase : s2.table.scopes[s.table.depth + 1]? = some s.table.head := by
          rw [g2 _ (Nat.le_refl _)]
          exact List.getElem?_set_self hlen
        simp only [plx_symbol_step, plx_exit_scope, Option.map_eq_some'] at hs3
        obtain ⟨t3, ht3, rfl⟩ := hs3
        rw [g1] at ht3
        simp only [Nat.add_zero, hbase] at ht3
        split at ht3
        · cases ht3
          refine ⟨rfl, by simp only [g1]; omega, fun i hi => ?_, fun n => ?_⟩
          · rw [g2 i (by omega)]
            exact List.getElem?_set_ne (by omega)
          · exact lookup_ext s _ _ ext n hinv g3 rfl
        · cases ht3
      · cases ht1
    · cases ht1

set_option maxRecDepth 100000 in
/-- Witness for C5: the fall-out-of-scope test, where `foo` is declared inside
a scope of a fresh table. -/
theorem plx_scope_restore_witness :
    (0 + 1 + nesting_peak 0 [.declare_symbol "foo"] < PLX_MAX_DEPTH →
      ∃ s', plx_symbol_run (.enter_scope :: [.declare_symbol "foo"] ++ [.exit_scope])
        { pool := [], table := PLX_SYMBOL_TABLE_INIT } = some s') ∧
    (∀ s', plx_symbol_run (.enter_scope :: [.declare_symbol "foo"] ++ [.exit_scope])
        { pool := [], table := PLX_SYMBOL_TABLE_INIT } = some s' →
      s'.table.head = none ∧ s'.table.depth = 0 ∧
      (∀ i, i ≤ 0 → s'.table.scopes[i]? = PLX_SYMBOL_TABLE_INIT.scopes[i]?) ∧
      ∀ n, plx_lookup_symbol s' n =
          plx_lookup_symbol { pool := [], table := PLX_SYMBOL_TABLE_INIT } n ∧
        plx_lookup_symbol { pool := [], table := PLX_SYMBOL_TABLE_INIT } n ≠ none) :=
  plx_scope_restore [] [] [.declare_symbol "foo"] _ (by rfl) (by rfl)

/-- Counterexample to C6: on a fresh table the 256th consecutive
`plx_enter_scope` fails the depth assertion. -/
theorem plx_enter_scope_256_fails :
    plx_symbol_run (List.replicate 256 .enter_scope)
      { pool := [], table := PLX_SYMBOL_TABLE_INIT } = none :=
  enter_run_fails []

/-- C6 as amended: a fresh table holds `PLX_MAX_DEPTH` scope levels counting the
outermost one.  Any `k < PLX_MAX_DEPTH` consecutive calls of `plx_enter_scope`
pass the depth assertion, stay inside the `scopes` array and end at depth `k`;
the `PLX_MAX_DEPTH`-th call fails the assertion. -/
theorem plx_enter_scope_levels (pool : List plx_symbol_table_entry) (k : Nat)
    (hk : k < PLX_MAX_DEPTH) :
    plx_symbol_run (List.replicate k .enter_scope)
      { pool := pool, table := PLX_SYMBOL_TABLE_INIT } =
      some { pool := pool, table := { PLX_SYMBOL_TABLE_INIT with depth := k } } ∧
    plx_symbol_run (List.replicate PLX_MAX_DEPTH .enter_scope)
      { pool := pool, table := PLX_SYMBOL_TABLE_INIT } = none := by
  refine ⟨?_, enter_run_fails pool⟩
  have h := enter_run pool k 0 (by omega)
  rw [Nat.zero_add] at h
  exact h

/-- Witness for the amended C6 at 255 calls. -/
theorem plx_enter_scope_levels_witness :
    plx_symbol_run (List.replicate 255 .enter_scope)
      { pool := [], table := PLX_SYMBOL_TABLE_INIT } =
      some { pool := [], table := { PLX_SYMBOL_TABLE_INIT with depth := 255 } } ∧
    plx_symbol_run (List.replicate PLX_MAX_DEPTH .enter_scope)
      { pool := [], table := PLX_SYMBOL_TABLE_INIT } = none :=
  plx_enter_scope_levels [] 255 (by decide)

/-! ## `src/reader.c` and `src/tokenizer.c`

A reader is the list of bytes not yet consumed: its head is `reader->c`, the rest
is what `fgetc` will return, and the empty list is `reader->c == EOF`.  Source
locations are not modelled.  The `<ctype.h>` predicates are those of the "C"
locale. -/

/-- The `EOF` of `<stdio.h>`. -/
def EOF : Int := -1

/-- `isdigit`. -/
def isdigit (c : Int) : Bool := decide (48 ≤ c ∧ c ≤ 57)

/-- `isalpha`. -/
def isalpha (c : Int) : Bool := decide ((65 ≤ c ∧ c ≤ 90) ∨ (97 ≤ c ∧ c ≤ 122))

/-- `isalnum`. -/
def isalnum (c : Int) : Bool := isalpha c || isdigit c

/-- `isxdigit`. -/
def isxdigit (c : Int) : Bool :=
  isdigit c || decide ((65 ≤ c ∧ c ≤ 70) ∨ (97 ≤ c ∧ c ≤ 102))

/-- `isspace`: space, `\t`, `\n`, `\v`, `\f`, `\r`. -/
def isspace (c : Int) : Bool := decide (c = 32 ∨ (9 ≤ c ∧ c ≤ 13))

/-- `plx_peek_char`, also the value of `reader->c`. -/
def plx_peek_char : List Nat → Int
  | [] => EOF
  | c :: _ => (c : Int)

/-- `plx_next_char`. -/
def plx_next_char (reader : List Nat) : List Nat := reader.tail

/-- `plx_read_char`. -/
def plx_read_char (reader : List Nat) : Int × List Nat :=
  (plx_peek_char reader, plx_next_char reader)

/-- `plx_accept_char`. -/
def plx_accept_char (reader : List Nat) (c : Nat) : Bool × List Nat :=
  if (c : Int) = plx_peek_char reader then (true, plx_next_char reader) else (false, reader)

/-- `enum plx_token`. -/
inductive plx_token where
  | PLX_TOKEN_EOF | PLX_TOKEN_ERROR
  | PLX_TOKEN_CONST | PLX_TOKEN_VAR | PLX_TOKEN_STRUCT | PLX_TOKEN_FUNC | PLX_TOKEN_IF
  | PLX_TOKEN_ELSE | PLX_TOKEN_DEFER | PLX_TOKEN_LOOP | PLX_TOKEN_WHILE | PLX_TOKEN_FOR
  | PLX_TOKEN_CONTINUE | PLX_TOKEN_BREAK | PLX_TOKEN_RETURN | PLX_TOKEN_AND | PLX_TOKEN_OR
  | PLX_TOKEN_XOR | PLX_TOKEN_S8 | PLX_TOKEN_S16 | PLX_TOKEN_S32 | PLX_TOKEN_S64
  | PLX_TOKEN_U8 | PLX_TOKEN_U16 | PLX_TOKEN_U32 | PLX_TOKEN_U64 | PLX_TOKEN_F16
  | PLX_TOKEN_F32 | PLX_TOKEN_F64 | PLX_TOKEN_BOOL | PLX_TOKEN_TRUE | PLX_TOKEN_FALSE
  | PLX_TOKEN_IDENTIFIER
  | PLX_TOKEN_INT | PLX_TOKEN_FLOAT | PLX_TOKEN_STRING
  | PLX_TOKEN_PERIOD | PLX_TOKEN_COMMA | PLX_TOKEN_COLON | PLX_TOKEN_SEMICOLON
  | PLX_TOKEN_OPEN_PAREN | PLX_TOKEN_CLOSE_PAREN | PLX_TOKEN_OPEN_SQUARE_BRACKET
  | PLX_TOKEN_CLOSE_SQUARE_BRACKET | PLX_TOKEN_OPEN_CURLY_BRACE | PLX_TOKEN_CLOSE_CURLY_BRACE
  | PLX_TOKEN_EQ | PLX_TOKEN_ASSIGN | PLX_TOKEN_NEQ | PLX_TOKEN_NOT | PLX_TOKEN_LSHIFT_ASSIGN
  | PLX_TOKEN_LSHIFT | PLX_TOKEN_LTE | PLX_TOKEN_LT | PLX_TOKEN_RSHIFT_ASSIGN
  | PLX_TOKEN_RSHIFT | PLX_TOKEN_GTE | PLX_TOKEN_GT | PLX_TOKEN_ADD_ASSIGN | PLX_TOKEN_ADD
  | PLX_TOKEN_ARROW | PLX_TOKEN_SUB_ASSIGN | PLX_TOKEN_SUB | PLX_TOKEN_MUL_ASSIGN
  | PLX_TOKEN_MUL | PLX_TOKEN_DIV_ASSIGN | PLX_TOKEN_DIV | PLX_TOKEN_REM_ASSIGN
  | PLX_TOKEN_REM | PLX_TOKEN_REF
  deriving DecidableEq

open plx_token

/-- `struct plx_tokenizer`.  `str` holds the characters appended for the current
token (cells of the buffer past them are not modelled); the members `uint`, `f`
and `len` of the anonymous union are kept apart, and the `double` `f` is kept as
the three integers it is computed from,
`(double)uint + (double)fractional / (double)divisor`. -/
structure plx_tokenizer where
  reader : List Nat
  token : plx_token
  uint : Nat
  f : Nat × Nat × Nat
  len : Nat
  str : List Nat
  deriving DecidableEq

/-- Wrap-around of `unsigned long long`. -/
def ULL_MAX_PLUS_ONE : Nat := 2 ^ 64

/-- `plx_skip_whitespace_and_comments`.  The flag tells whether control is in the
inner loop that reads a `#` comment up to and including the newline. -/
def plx_skip_whitespace_and_comments : Bool → List Nat → List Nat
  | _, [] => []
  | true, c :: reader =>
    if c = 10 then plx_skip_whitespace_and_comments false reader
    else plx_skip_whitespace_and_comments true reader
  | false, c :: reader =>
    if isspace c then plx_skip_whitespace_and_comments false reader
    else if c = 35 then plx_skip_whitespace_and_comments true reader
    else c :: reader

/-- `plx_append_char`. -/
def plx_append_char (t : plx_tokenizer) (c : Nat) : plx_tokenizer :=
  { t with str := t.str.take t.len ++ [c], len := t.len + 1 }

/-- The loop `do { plx_append_char(t, plx_read_char(reader)); } while (isalnum(reader->c));`
after its first pass. -/
def plx_identifier_loop : List Nat → List Nat → List Nat × List Nat
  | [], buf => ([], buf)
  | c :: reader, buf =>
    if isalnum c then plx_identifier_loop reader (buf ++ [c]) else (c :: reader, buf)

/-- The bytes of a string literal of the C source. -/
def c_literal (s : String) : List Nat := s.toList.map Char.toNat

/-- `strcmp(str, literal) == 0` for a NUL-terminated buffer. -/
def strcmp_eq (str : List Nat) (literal : String) : Bool :=
  str.takeWhile (fun c => c ≠ 0) == c_literal literal

/-- The `switch (tokenizer->len)` that tells keywords from identifiers. -/
def plx_keyword_switch (len : Nat) (str : List Nat) : plx_token :=
  match len with
  | 2 =>
    if strcmp_eq str "if" then PLX_TOKEN_IF
    else if strcmp_eq str "or" then PLX_TOKEN_OR
    else if strcmp_eq str "s8" then PLX_TOKEN_S8
    else if strcmp_eq str "u8" then PLX_TOKEN_U8
    else PLX_TOKEN_IDENTIFIER
  | 3 =>
    if strcmp_eq str "var" then PLX_TOKEN_VAR
    else if strcmp_eq str "for" then PLX_TOKEN_FOR
    else if strcmp_eq str "and" then PLX_TOKEN_AND
    else if strcmp_eq str "xor" then PLX_TOKEN_XOR
    else if strcmp_eq str "s16" then PLX_TOKEN_S16
    else if strcmp_eq str "s32" then PLX_TOKEN_S32
    else if strcmp_eq str "s64" then PLX_TOKEN_S64
    else if strcmp_eq str "u16" then PLX_TOKEN_U16
    else if strcmp_eq str "u32" then PLX_TOKEN_U32
    else if strcmp_eq str "u64" then PLX_TOKEN_U64
    else if strcmp_eq str "f16" then PLX_TOKEN_F16
    else if strcmp_eq str "f32" then PLX_TOKEN_F32
    else if strcmp_eq str "f64" then PLX_TOKEN_F64
    else PLX_TOKEN_IDENTIFIER
  | 4 =>
    if strcmp_eq str "func" then PLX_TOKEN_FUNC
    else if strcmp_eq str "else" then PLX_TOKEN_ELSE
    else if strcmp_eq str "loop" then PLX_TOKEN_LOOP
    else if strcmp_eq str "bool" then PLX_TOKEN_BOOL
    else if strcmp_eq str "true" then PLX_TOKEN_TRUE
    else PLX_TOKEN_IDENTIFIER
  | 5 =>
    if strcmp_eq str "const" then PLX_TOKEN_CONST
    else if strcmp_eq str "defer" then PLX_TOKEN_DEFER
    else if strcmp_eq str "while" then PLX_TOKEN_WHILE
    else if strcmp_eq str "break" then PLX_TOKEN_BREAK
    else if strcmp_eq str "false" then PLX_TOKEN_FALSE
    else PLX_TOKEN_IDENTIFIER
  | 6 =>
    if strcmp_eq str "struct" then PLX_TOKEN_STRUCT
    else if strcmp_eq str "return" then PLX_TOKEN_RETURN
    else PLX_TOKEN_IDENTIFIER
  | 8 =>
    if strcmp_eq str "continue" then PLX_TOKEN_CONTINUE
    else PLX_TOKEN_IDENTIFIER
  | _ => PLX_TOKEN_IDENTIFIER

/-- The hexadecimal loop
`do { uint *= 16; uint += isdigit(c) ? c - '0' : c - 'A' + 10; next; } while (isxdigit(c));`
after its first pass. -/
def plx_hex_loop : List Nat → Nat → List Nat × Nat
  | [], uint => ([], uint)
  | c :: reader, uint =>
    if isxdigit c then
      plx_hex_loop reader
        ((uint * 16 % ULL_MAX_PLUS_ONE + (if isdigit c then c - 48 else c - 65 + 10))
          % ULL_MAX_PLUS_ONE)
    else (c :: reader, uint)

/-- The binary loop `do { uint *= 2; uint += read - '0'; } while (c == '0' || c == '1');`
after its first pass. -/
def plx_binary_loop : List Nat → Nat → List Nat × Nat
  | [], uint => ([], uint)
  | c :: reader, uint =>
    if c = 48 ∨ c = 49 then
      plx_binary_loop reader ((uint * 2 % ULL_MAX_PLUS_ONE + (c - 48)) % ULL_MAX_PLUS_ONE)
    else (c :: reader, uint)

/-- The decimal loop `while (isdigit(c)) { uint *= 10; uint += read - '0'; }`. -/
def plx_decimal_loop : List Nat → Nat → List Nat × Nat
  | [], uint => ([], uint)
  | c :: reader, uint =>
    if isdigit c then
      plx_decimal_loop reader ((uint * 10 % ULL_MAX_PLUS_ONE + (c - 48)) % ULL_MAX_PLUS_ONE)
    else (c :: reader, uint)

/-- The fraction loop
`while (isdigit(c)) { fractional *= 10; fractional += read - '0'; divisor *= 10; }`. -/
def plx_fraction_loop : List Nat → Nat → Nat → List Nat × Nat × Nat
  | [], fractional, divisor => ([], fractional, divisor)
  | c :: reader, fractional, divisor =>
    if isdigit c then
      plx_fraction_loop reader
        ((fractional * 10 % ULL_MAX_PLUS_ONE + (c - 48)) % ULL_MAX_PLUS_ONE)
        (divisor * 10 % ULL_MAX_PLUS_ONE)
    else (c :: reader, fractional, divisor)

/-- The branch `if (isdigit(reader->c))` of `plx_next_token`. -/
def plx_number (t : plx_tokenizer) : plx_tokenizer :=
  let a0 := plx_accept_char t.reader 48
  let ax := plx_accept_char a0.2 120
  let ab := plx_accept_char a0.2 98
  if a0.1 && ax.1 then
    -- Hex literals
    if !isxdigit (plx_peek_char ax.2) then { t with reader := ax.2, token := PLX_TOKEN_ERROR }
    else
      let r := plx_hex_loop ax.2 0
      if isalnum (plx_peek_char r.1) then { t with reader := r.1, token := PLX_TOKEN_ERROR }
      else { t with reader := r.1, token := PLX_TOKEN_INT, uint := r.2 }
  else if a0.1 && ab.1 then
    -- Binary literals
    if plx_peek_char ab.2 = EOF ∨ (plx_peek_char ab.2 ≠ 48 ∧ plx_peek_char ab.2 ≠ 49) then
      { t with reader := ab.2, token := PLX_TOKEN_ERROR }
    else
      let r := plx_binary_loop ab.2 0
      if isalnum (plx_peek_char r.1) then { t with reader := r.1, token := PLX_TOKEN_ERROR }
      else { t with reader := r.1, token := PLX_TOKEN_INT, uint := r.2 }
  else
    -- Decimal literals
    let r := plx_decimal_loop a0.2 0
    let ap := plx_accept_char r.1 46
    if ap.1 then
      -- Float literals
      if !isalnum (plx_peek_char ap.2) then { t with reader := ap.2, token := PLX_TOKEN_ERROR }
      else
        let fr := plx_fraction_loop ap.2 0 1
        if isalpha (plx_peek_char fr.1) then
          { t with reader := fr.1, token := PLX_TOKEN_ERROR }
        else
          { t with reader := fr.1, token := PLX_TOKEN_FLOAT, f := (r.2, fr.2.1, fr.2.2) }
    else if isalpha (plx_peek_char r.1) then { t with reader := r.1, token := PLX_TOKEN_ERROR }
    else { t with reader := r.1, token := PLX_TOKEN_INT, uint := r.2 }

/-- The loop `while (!plx_accept_char(reader, '"'))` of the string branch, from
the reader and the bytes appended so far to the reader left, the bytes, and
whether the closing quote was reached (`false`: `PLX_TOKEN_ERROR`).  The flag
tells whether control is in the inner loop `do { next; } while (isspace(c));`
of a whitespace escape, after its first pass. -/
def plx_string_loop : Bool → List Nat → List Nat → List Nat × List Nat × Bool
  | _, [], buf => ([], buf, false)
  | skipping, c :: reader, buf =>
    if skipping && isspace c then plx_string_loop true reader buf
    else if c = 34 then (reader, buf, true)
    else if c = 92 then
      match reader with
      | [] => ([], buf, false)
      | d :: reader1 =>
        if d = 34 ∨ d = 92 then plx_string_loop false reader1 (buf ++ [d])
        else if d = 110 then plx_string_loop false reader1 (buf ++ [10])
        else if d = 114 then plx_string_loop false reader1 (buf ++ [13])
        else if d = 116 then plx_string_loop false reader1 (buf ++ [9])
        else if d = 48 then plx_string_loop false reader1 (buf ++ [0])
        else if d = 32 ∨ d = 9 ∨ d = 10 ∨ d = 11 ∨ d = 12 ∨ d = 13 then
          plx_string_loop true reader1 buf
        else (d :: reader1, buf, false)
    else plx_string_loop false reader (buf ++ [c])

/-- The final `switch (reader->c)` of `plx_next_token`: characters and
operators. -/
def plx_operator (c : Nat) (reader : List Nat) : plx_token × List Nat :=
  let eq := plx_accept_char reader 61
  let gt := plx_accept_char reader 62
  if c = 46 then (PLX_TOKEN_PERIOD, reader)
  else if c = 44 then (PLX_TOKEN_COMMA, reader)
  else if c = 58 then (PLX_TOKEN_COLON, reader)
  else if c = 59 then (PLX_TOKEN_SEMICOLON, reader)
  else if c = 40 then (PLX_TOKEN_OPEN_PAREN, reader)
  else if c = 41 then (PLX_TOKEN_CLOSE_PAREN, reader)
  else if c = 91 then (PLX_TOKEN_OPEN_SQUARE_BRACKET, reader)
  else if c = 93 then (PLX_TOKEN_CLOSE_SQUARE_BRACKET, reader)
  else if c = 123 then (PLX_TOKEN_OPEN_CURLY_BRACE, reader)
  else if c = 125 then (PLX_TOKEN_CLOSE_CURLY_BRACE, reader)
  else if c = 61 then (if eq.1 then PLX_TOKEN_EQ else PLX_TOKEN_ASSIGN, eq.2)
  else if c = 33 then (if eq.1 then PLX_TOKEN_NEQ else PLX_TOKEN_NOT, eq.2)
  else if c = 60 then
    if gt.1 then
      let e := plx_accept_char gt.2 61
      (if e.1 then PLX_TOKEN_LSHIFT_ASSIGN else PLX_TOKEN_LSHIFT, e.2)
    else (if eq.1 then PLX_TOKEN_LTE else PLX_TOKEN_LT, eq.2)
  else if c = 62 then
    if gt.1 then
      let e := plx_accept_char gt.2 61
      (if e.1 then PLX_TOKEN_RSHIFT_ASSIGN else PLX_TOKEN_RSHIFT, e.2)
    else (if eq.1 then PLX_TOKEN_GTE else PLX_TOKEN_GT, eq.2)
  else if c = 43 then (if eq.1 then PLX_TOKEN_ADD_ASSIGN else PLX_TOKEN_ADD, eq.2)
  else if c = 45 then
    if gt.1 then (PLX_TOKEN_ARROW, gt.2)
    else if eq.1 then (PLX_TOKEN_SUB_ASSIGN, eq.2)
    else (PLX_TOKEN_SUB, reader)
  else if c = 42 then (if eq.1 then PLX_TOKEN_MUL_ASSIGN else PLX_TOKEN_MUL, eq.2)
  else if c = 47 then (if eq.1 then PLX_TOKEN_DIV_ASSIGN else PLX_TOKEN_DIV, eq.2)
  else if c = 37 then (if eq.1 then PLX_TOKEN_REM_ASSIGN else PLX_TOKEN_REM, eq.2)
  else if c = 38 then (PLX_TOKEN_REF, reader)
  else (PLX_TOKEN_ERROR, c :: reader)

/-- `plx_next_token`. -/
def plx_next_token (t : plx_tokenizer) : plx_tokenizer :=
  if t.token = PLX_TOKEN_ERROR then t
  else
    let t := { t with reader := plx_skip_whitespace_and_comments false t.reader }
    match t.reader with
    | [] => { t with token := PLX_TOKEN_EOF }
    | c :: reader =>
      if isalpha c || c = 95 then
        -- Keywords and identifiers
        let r := plx_identifier_loop reader [c]
        let t := { t with reader := r.1, str := r.2 ++ [0], len := r.2.length }
        { t with token := plx_keyword_switch t.len t.str }
      else if isdigit c then plx_number t
      else if c = 34 then
        -- String literals
        let r := plx_string_loop false reader []
        if r.2.2 then
          { t with reader := r.1, str := r.2.1, len := r.2.1.length, token := PLX_TOKEN_STRING }
        else
          { t with reader := r.1, str := r.2.1, len := r.2.1.length, token := PLX_TOKEN_ERROR }
      else
        let r := plx_operator c reader
        { t with reader := r.2, token := r.1 }

/-- `plx_tokenizer_init` on a stream holding the given bytes. -/
def plx_tokenizer_init (stream : List Nat) : plx_tokenizer :=
  plx_next_token
    { reader := stream, token := PLX_TOKEN_EOF, uint := 0, f := (0, 0, 1), len := 0, str := [] }

/-- The keyword table of the language: spelling and token. -/
def keyword_table : List (String × plx_token) :=
  [("const", PLX_TOKEN_CONST), ("var", PLX_TOKEN_VAR), ("struct", PLX_TOKEN_STRUCT),
   ("func", PLX_TOKEN_FUNC), ("if", PLX_TOKEN_IF), ("else", PLX_TOKEN_ELSE),
   ("defer", PLX_TOKEN_DEFER), ("loop", PLX_TOKEN_LOOP), ("while", PLX_TOKEN_WHILE),
   ("for", PLX_TOKEN_FOR), ("continue", PLX_TOKEN_CONTINUE), ("break", PLX_TOKEN_BREAK),
   ("return", PLX_TOKEN_RETURN), ("and", PLX_TOKEN_AND), ("or", PLX_TOKEN_OR),
   ("xor", PLX_TOKEN_XOR), ("s8", PLX_TOKEN_S8), ("s16", PLX_TOKEN_S16),
   ("s32", PLX_TOKEN_S32), ("s64", PLX_TOKEN_S64), ("u8", PLX_TOKEN_U8),
   ("u16", PLX_TOKEN_U16), ("u32", PLX_TOKEN_U32), ("u64", PLX_TOKEN_U64),
   ("f16", PLX_TOKEN_F16), ("f32", PLX_TOKEN_F32), ("f64", PLX_TOKEN_F64),
   ("bool", PLX_TOKEN_BOOL), ("true", PLX_TOKEN_TRUE), ("false", PLX_TOKEN_FALSE)]

/-- The value of a digit string in a base, digits valued by `digit`. -/
def radix_value (base : Nat) (digit : Nat → Nat) (ds : List Nat) : Nat :=
  ds.foldl (fun a c => a * base + digit c) 0

/-- The value of a decimal (or binary) digit character. -/
def decimal_digit (c : Nat) : Nat := c - 48

/-- The value of a hexadecimal digit character, `0-9`, `A-F` or `a-f`. -/
def hex_digit (c : Nat) : Nat :=
  if c ≤ 57 then c - 48 else if c ≤ 70 then c - 65 + 10 else c - 97 + 10

/-- The tokenizer state `plx_tokenizer_init` starts `plx_next_token` from. -/
def plx_tokenizer_fresh (stream : List Nat) : plx_tokenizer :=
  { reader := stream, token := PLX_TOKEN_EOF, uint := 0, f := (0, 0, 1), len := 0, str := [] }

theorem tokenizer_init_eq (stream : List Nat) :
    plx_tokenizer_init stream = plx_next_token (plx_tokenizer_fresh stream) := rfl

theorem skip_start (c : Nat) (r : List Nat) (h1 : isspace c = false) (h2 : c ≠ 35) :
    plx_skip_whitespace_and_comments false (c :: r) = c :: r := by
  simp [plx_skip_whitespace_and_comments, h1, h2]

theorem identifier_loop_spec (w rest buf : List Nat) (hw : ∀ x ∈ w, isalnum x = true)
    (hr : isalnum (plx_peek_char rest) = false) :
    plx_identifier_loop (w ++ rest) buf = (rest, buf ++ w) := by
  induction w generalizing buf with
  | nil =>
    cases rest with
    | nil => simp [plx_identifier_loop]
    | cons d r =>
      simp only [plx_peek_char] at hr
      simp [plx_identifier_loop, hr]
  | cons c w ih =>
    have hc := hw c (List.mem_cons_self _ _)
    have h := ih (buf ++ [c]) (fun x hx => hw x (List.mem_cons_of_mem _ hx))
    simp only [List.cons_append, plx_identifier_loop, hc, if_true]
    simpa using h

theorem isalnum_ne_zero (x : Nat) (h : isalnum x = true) : x ≠ 0 := by
  intro h0
  subst h0
  revert h
  decide

theorem strcmp_eq_word (w : List Nat) (lit : String) (hw : ∀ x ∈ w, x ≠ 0) :
    strcmp_eq (w ++ [0]) lit = decide (w = c_literal lit) := by
  have h : (w ++ [0]).takeWhile (fun c => decide (c ≠ 0)) = w := by
    induction w with
    | nil => simp [List.takeWhile]
    | cons c w ih =>
      have hc := hw c (List.mem_cons_self _ _)
      simp only [List.cons_append, List.takeWhile_cons, hc, ne_eq, not_false_eq_true,
        decide_True, if_true]
      rw [ih (fun x hx => hw x (List.mem_cons_of_mem _ hx))]
  unfold strcmp_eq
  rw [h]
  by_cases hq : w = c_literal lit <;> simp [hq]

theorem keyword_switch_identifier (w : List Nat) (hw : ∀ x ∈ w, x ≠ 0)
    (hk : ∀ p ∈ keyword_table, w ≠ c_literal p.1) :
    plx_keyword_switch w.length (w ++ [0]) = PLX_TOKEN_IDENTIFIER := by
  simp only [keyword_table, List.forall_mem_cons, List.not_mem_nil, false_implies,
    implies_true, and_true] at hk
  unfold plx_keyword_switch
  simp only [strcmp_eq_word w _ hw]
  split <;> simp [hk]

theorem start_not_space (c : Nat) (hc : isalpha c = true ∨ c = 95) :
    isspace c = false ∧ c ≠ 35 := by
  simp only [isalpha, isspace, decide_eq_true_eq, decide_eq_false_iff_not] at *
  omega

theorem next_token_word (c : Nat) (w rest : List Nat) (hc : isalpha c = true ∨ c = 95)
    (hw : ∀ x ∈ w, isalnum x = true) (hr : isalnum (plx_peek_char rest) = false) :
    plx_tokenizer_init (c :: w ++ rest) =
      { plx_tokenizer_fresh (c :: w ++ rest) with
        reader := rest, str := c :: w ++ [0], len := (c :: w).length,
        token := plx_keyword_switch (c :: w).length (c :: w ++ [0]) } := by
  have h1 := start_not_space c hc
  have hc2 : (isalpha c || decide (c = 95)) = true := by
    rcases hc with h | h <;> simp [h]
  rw [tokenizer_init_eq]
  unfold plx_next_token
  simp only [plx_tokenizer_fresh, List.cons_append, skip_start c _ h1.1 h1.2,
    identifier_loop_spec w rest [c] hw hr, hc2]
  simp

theorem ull_step (base acc acc1 x : Nat) (ha : acc = acc1 % ULL_MAX_PLUS_ONE) :
    (acc * base % ULL_MAX_PLUS_ONE + x) % ULL_MAX_PLUS_ONE =
      (acc1 * base + x) % ULL_MAX_PLUS_ONE := by
  subst ha
  rw [Nat.add_mod, Nat.mod_mod, Nat.mod_mul_mod, ← Nat.add_mod]

theorem decimal_loop_spec (d rest : List Nat) (acc acc1 : Nat)
    (hd : ∀ c ∈ d, isdigit c = true) (hr : isdigit (plx_peek_char rest) = false)
    (ha : acc = acc1 % ULL_MAX_PLUS_ONE) :
    plx_decimal_loop (d ++ rest) acc =
      (rest, d.foldl (fun a c => a * 10 + decimal_digit c) acc1 % ULL_MAX_PLUS_ONE) := by
  induction d generalizing acc acc1 with
  | nil =>
    cases rest with
    | nil => simp [plx_decimal_loop, ha]
    | cons c r =>
      simp only [plx_peek_char] at hr
      simp [plx_decimal_loop, hr, ha]
  | cons c d ih =>
    have hc := hd c (List.mem_cons_self _ _)
    have h := ih _ (acc1 * 10 + decimal_digit c) (fun x hx => hd x (List.mem_cons_of_mem _ hx))
      (ull_step 10 acc acc1 (c - 48) ha)
    simp only [List.cons_append, plx_decimal_loop, hc, if_true, List.foldl_cons]
    simpa using h

theorem binary_loop_spec (b rest : List Nat) (acc acc1 : Nat)
    (hb : ∀ c ∈ b, c = 48 ∨ c = 49)
    (hr : plx_peek_char rest ≠ 48 ∧ plx_peek_char rest ≠ 49)
    (ha : acc = acc1 % ULL_MAX_PLUS_ONE) :
    plx_binary_loop (b ++ rest) acc =
      (rest, b.foldl (fun a c => a * 2 + decimal_digit c) acc1 % ULL_MAX_PLUS_ONE) := by
  induction b generalizing acc acc1 with
  | nil =>
    cases rest with
    | nil => simp [plx_binary_loop, ha]
    | cons c r =>
      simp only [plx_peek_char] at hr
      have h1 : ¬ (c = 48 ∨ c = 49) := by omega
      simp [plx_binary_loop, h1, ha]
  | cons c b ih =>
    have hc := hb c (List.mem_cons_self _ _)
    have h := ih _ (acc1 * 2 + decimal_digit c) (fun x hx => hb x (List.mem_cons_of_mem _ hx))
      (ull_step 2 acc acc1 (c - 48) ha)
    simp only [List.cons_append, plx_binary_loop, hc, if_true, List.foldl_cons]
    simpa using h

/-- The value the hexadecimal loop adds for a character: `c - '0'` for a decimal
digit and `c - 'A' + 10` for every other character. -/
def plx_hex_loop_digit (c : Nat) : Nat := if isdigit c then c - 48 else c - 65 + 10

theorem hex_loop_spec (h rest : List Nat) (acc acc1 : Nat)
    (hh : ∀ c ∈ h, isxdigit c = true) (hr : isxdigit (plx_peek_char rest) = false)
    (ha : acc = acc1 % ULL_MAX_PLUS_ONE) :
    plx_hex_loop (h ++ rest) acc =
      (rest, h.foldl (fun a c => a * 16 + plx_hex_loop_digit c) acc1 % ULL_MAX_PLUS_ONE) := by
  induction h generalizing acc acc1 with
  | nil =>
    cases rest with
    | nil => simp [plx_hex_loop, ha]
    | cons c r =>
      simp only [plx_peek_char] at hr
      simp [plx_hex_loop, hr, ha]
  | cons c h ih =>
    have hc := hh c (List.mem_cons_self _ _)
    have h1 := ih _ (acc1 * 16 + plx_hex_loop_digit c)
      (fun x hx => hh x (List.mem_cons_of_mem _ hx))
      (ull_step 16 acc acc1 (plx_hex_loop_digit c) ha)
    simp only [List.cons_append, plx_hex_loop, hc, if_true, List.foldl_cons]
    simpa [plx_hex_loop_digit] using h1

theorem digit_not_start (c : Nat) (hc : isdigit c = true) :
    isspace c = false ∧ c ≠ 35 ∧ (isalpha c || decide (c = 95)) = false := by
  simp only [isalpha, isspace, isdigit, decide_eq_true_eq, decide_eq_false_iff_not,
    Bool.or_eq_false_iff] at *
  omega

theorem next_token_number (c : Nat) (r : List Nat) (hc : isdigit c = true) :
    plx_tokenizer_init (c :: r) = plx_number (plx_tokenizer_fresh (c :: r)) := by
  have h1 := digit_not_start c hc
  rw [tokenizer_init_eq]
  unfold plx_next_token
  simp only [plx_tokenizer_fresh, skip_start c _ h1.1 h1.2.1, h1.2.2, hc]
  simp

theorem peek_append (d rest : List Nat) (c : Nat) : plx_peek_char (c :: d ++ rest) = (c : Int) :=
  rfl

theorem isalnum_false (x : Int) (h : isalnum x = false) :
    isalpha x = false ∧ isdigit x = false ∧ isxdigit x = false ∧ x ≠ 48 ∧ x ≠ 49 ∧ x ≠ 120 ∧
      x ≠ 98 := by
  simp only [isalnum, isalpha, isdigit, isxdigit, decide_eq_true_eq, decide_eq_false_iff_not,
    Bool.or_eq_false_iff] at *
  omega

theorem accept_ne (r : List Nat) (c : Nat) (h : plx_peek_char r ≠ (c : Int)) :
    plx_accept_char r c = (false, r) := by
  unfold plx_accept_char
  rw [if_neg (fun e => h e.symm)]

theorem accept_eq (r : List Nat) (c : Nat) : plx_accept_char (c :: r) c = (true, r) := by
  simp [plx_accept_char, plx_peek_char, plx_next_char]

theorem isdigit_ne (x : Int) (h : isdigit x = true) : x ≠ 120 ∧ x ≠ 98 := by
  simp only [isdigit, decide_eq_true_eq] at h
  omega

theorem number_decimal (d rest : List Nat) (hne : d ≠ [])
    (hd : ∀ c ∈ d, isdigit c = true) (hr : isalnum (plx_peek_char rest) = false)
    (hp : plx_peek_char rest ≠ 46) :
    plx_number (plx_tokenizer_fresh (d ++ rest)) =
      { plx_tokenizer_fresh (d ++ rest) with
        reader := rest, token := PLX_TOKEN_INT,
        uint := radix_value 10 decimal_digit d % ULL_MAX_PLUS_ONE } := by
  obtain ⟨hr1, hr2, -, -, -, hr3, hr4⟩ := isalnum_false _ hr
  have hdot : plx_accept_char rest 46 = (false, rest) := accept_ne _ _ hp
  cases d with
  | nil => exact absurd rfl hne
  | cons c d =>
    have hc := hd c (List.mem_cons_self _ _)
    by_cases h0 : c = 48
    · subst h0
      have hpk : plx_peek_char (d ++ rest) ≠ 120 ∧ plx_peek_char (d ++ rest) ≠ 98 := by
        cases d with
        | nil => exact ⟨hr3, hr4⟩
        | cons e d => exact isdigit_ne _ (hd e (by simp))
      have hl := decimal_loop_spec d rest 0 (0 * 10 + decimal_digit 48)
        (fun x hx => hd x (List.mem_cons_of_mem _ hx)) hr2 (by decide)
      unfold plx_number
      simp only [plx_tokenizer_fresh, List.cons_append, accept_eq, accept_ne _ 120 hpk.1,
        accept_ne _ 98 hpk.2, hl, hdot, hr1, radix_value, List.foldl_cons]
      simp
    · have hl := decimal_loop_spec (c :: d) rest 0 0 hd hr2 (by decide)
      have ha0 : plx_accept_char (c :: (d ++ rest)) 48 = (false, c :: (d ++ rest)) := by
        apply accept_ne
        simp only [plx_peek_char]
        omega
      unfold plx_number
      simp only [plx_tokenizer_fresh, List.cons_append, ha0] at hl ⊢
      simp only [hl, hdot, hr1, radix_value]
      simp

theorem number_binary (b rest : List Nat) (hne : b ≠ [])
    (hb : ∀ c ∈ b, c = 48 ∨ c = 49) (hr : isalnum (plx_peek_char rest) = false) :
    plx_number (plx_tokenizer_fresh (48 :: 98 :: b ++ rest)) =
      { plx_tokenizer_fresh (48 :: 98 :: b ++ rest) with
        reader := rest, token := PLX_TOKEN_INT,
        uint := radix_value 2 decimal_digit b % ULL_MAX_PLUS_ONE } := by
  obtain ⟨-, -, -, hr3, hr4, -, -⟩ := isalnum_false _ hr
  have hl := binary_loop_spec b rest 0 0 hb ⟨hr3, hr4⟩ (by decide)
  cases b with
  | nil => exact absurd rfl hne
  | cons c b =>
    have hc := hb c (List.mem_cons_self _ _)
    have hx : plx_accept_char (98 :: (c :: (b ++ rest))) 120 = (false, 98 :: (c :: (b ++ rest))) :=
      accept_ne _ _ (by simp [plx_peek_char])
    have hpk : ¬ (plx_peek_char (c :: (b ++ rest)) = EOF ∨
        (¬ plx_peek_char (c :: (b ++ rest)) = 48 ∧ ¬ plx_peek_char (c :: (b ++ rest)) = 49)) := by
      simp only [plx_peek_char, EOF]
      omega
    unfold plx_number
    simp only [plx_tokenizer_fresh, List.cons_append, accept_eq, hx] at hl ⊢
    simp only [hl, hr, radix_value, ne_eq, hpk]
    simp

theorem number_binary_error (rest : List Nat)
    (hr : plx_peek_char rest ≠ 48 ∧ plx_peek_char rest ≠ 49) :
    (plx_number (plx_tokenizer_fresh (48 :: 98 :: rest))).token = PLX_TOKEN_ERROR := by
  have hx : plx_accept_char (98 :: rest) 120 = (false, 98 :: rest) :=
    accept_ne _ _ (by simp [plx_peek_char])
  have hpk : plx_peek_char rest = EOF ∨ (¬ plx_peek_char rest = 48 ∧ ¬ plx_peek_char rest = 49) :=
    Or.inr hr
  unfold plx_number
  simp only [plx_tokenizer_fresh, accept_eq, hx, ne_eq, hpk]
  simp

theorem number_hex (h rest : List Nat) (hne : h ≠ [])
    (hh : ∀ c ∈ h, isxdigit c = true) (hr : isxdigit (plx_peek_char rest) = false) :
    plx_number (plx_tokenizer_fresh (48 :: 120 :: h ++ rest)) =
      if isalnum (plx_peek_char rest) then
        { plx_tokenizer_fresh (48 :: 120 :: h ++ rest) with
          reader := rest, token := PLX_TOKEN_ERROR }
      else
        { plx_tokenizer_fresh (48 :: 120 :: h ++ rest) with
          reader := rest, token := PLX_TOKEN_INT,
          uint := radix_value 16 plx_hex_loop_digit h % ULL_MAX_PLUS_ONE } := by
  have hl := hex_loop_spec h rest 0 0 hh hr (by decide)
  cases h with
  | nil => exact absurd rfl hne
  | cons c h =>
    have hc := hh c (List.mem_cons_self _ _)
    unfold plx_number
    simp only [plx_tokenizer_fresh, List.cons_append, accept_eq] at hl ⊢
    simp only [hl, radix_value, plx_peek_char, hc]
    simp

theorem number_hex_error (rest : List Nat) (hr : isxdigit (plx_peek_char rest) = false) :
    (plx_number (plx_tokenizer_fresh (48 :: 120 :: rest))).token = PLX_TOKEN_ERROR := by
  unfold plx_number
  simp only [plx_tokenizer_fresh, accept_eq, hr]
  simp

theorem hex_loop_digit_upper (c : Nat) (hc : isdigit c = true ∨ (65 ≤ c ∧ c ≤ 70)) :
    plx_hex_loop_digit c = hex_digit c := by
  unfold plx_hex_loop_digit hex_digit
  rcases hc with h | h
  · have h1 := h
    simp only [isdigit, decide_eq_true_eq] at h1
    have h2 : c ≤ 57 := by omega
    simp [h, h2]
  · have h1 : isdigit c = false := by
      simp only [isdigit, decide_eq_false_iff_not]
      omega
    have h2 : ¬ c ≤ 57 := by omega
    simp [h1, h2, h.2]

theorem radix_value_congr (base : Nat) (f g : Nat → Nat) (ds : List Nat)
    (h : ∀ c ∈ ds, f c = g c) : radix_value base f ds = radix_value base g ds := by
  unfold radix_value
  generalize 0 = acc
  induction ds generalizing acc with
  | nil => rfl
  | cons c ds ih =>
    simp only [List.foldl_cons, h c (List.mem_cons_self _ _)]
    exact ih (fun x hx => h x (List.mem_cons_of_mem _ hx)) _

/-- A whitespace byte: `isspace` on a byte of the input. -/
def is_whitespace_byte (c : Nat) : Bool := isspace (c : Int)

/-- The decoding of a string-literal body in the words of the specification,
from the input after the opening quote to the decoded bytes and the input left
after the closing quote; `none` is `PLX_TOKEN_ERROR`.  An unescaped byte is
copied; backslash-quote and backslash-backslash give the quote and the
backslash; backslash-n, -r, -t, -0 give `0x0A`, `0x0D`, `0x09`, `0x00`; a
backslash followed by a whitespace byte gives nothing and consumes that byte and
all whitespace right after it; a backslash followed by any other byte, and the
end of input before the closing quote, are errors. -/
def string_body_decode : List Nat → Option (List Nat × List Nat)
  | [] => none
  | c :: rest =>
    if c = 34 then some ([], rest)
    else if c = 92 then
      match rest with
      | [] => none
      | d :: rest1 =>
        if d = 34 then (string_body_decode rest1).map (fun p => (34 :: p.1, p.2))
        else if d = 92 then (string_body_decode rest1).map (fun p => (92 :: p.1, p.2))
        else if d = 110 then (string_body_decode rest1).map (fun p => (0x0A :: p.1, p.2))
        else if d = 114 then (string_body_decode rest1).map (fun p => (0x0D :: p.1, p.2))
        else if d = 116 then (string_body_decode rest1).map (fun p => (0x09 :: p.1, p.2))
        else if d = 48 then (string_body_decode rest1).map (fun p => (0x00 :: p.1, p.2))
        else if is_whitespace_byte d then string_body_decode (rest1.dropWhile is_whitespace_byte)
        else none
    else (string_body_decode rest).map (fun p => (c :: p.1, p.2))
termination_by l => l.length
decreasing_by
  all_goals simp_wf
  all_goals try omega
  exact Nat.lt_of_le_of_lt (List.dropWhile_sublist _).length_le (by omega)

theorem string_loop_skip (l buf : List Nat) :
    plx_string_loop true l buf =
      plx_string_loop false (l.dropWhile is_whitespace_byte) buf := by
  induction l with
  | nil => simp [plx_string_loop]
  | cons c r ih =>
    by_cases hc : is_whitespace_byte c = true
    · have hd : (c :: r).dropWhile is_whitespace_byte = r.dropWhile is_whitespace_byte := by
        simp [List.dropWhile_cons, hc]
      rw [hd, ← ih]
      have hc1 : isspace (c : Int) = true := hc
      cases r <;> simp [plx_string_loop, hc1]
    · have hd : (c :: r).dropWhile is_whitespace_byte = c :: r := by
        simp [List.dropWhile_cons, hc]
      rw [hd]
      have hc1 : isspace (c : Int) = false := by simpa [is_whitespace_byte] using hc
      cases r <;> simp [plx_string_loop, hc1]

theorem isspace_switch (d : Nat) :
    (d = 32 ∨ d = 9 ∨ d = 10 ∨ d = 11 ∨ d = 12 ∨ d = 13) ↔ is_whitespace_byte d = true := by
  simp only [is_whitespace_byte, isspace, decide_eq_true_eq]
  omega

theorem string_loop_refines (n : Nat) : ∀ (l buf : List Nat), l.length ≤ n →
    match string_body_decode l with
    | some (bytes, rest) => plx_string_loop false l buf = (rest, buf ++ bytes, true)
    | none => (plx_string_loop false l buf).2.2 = false := by
  induction n with
  | zero =>
    intro l buf hl
    cases l with
    | nil => rw [string_body_decode]; rfl
    | cons c r => simp at hl
  | succ n ih =>
    intro l buf hl
    cases l with
    | nil => rw [string_body_decode]; rfl
    | cons c r =>
      have hr : r.length ≤ n := by simpa using hl
      rw [string_body_decode.eq_def]
      simp only []
      by_cases h34 : c = 34
      · cases r <;> simp [plx_string_loop, h34]
      by_cases h92 : c = 92
      · cases r with
        | nil => simp [plx_string_loop, h92]
        | cons d r1 =>
          have hr1 : r1.length ≤ n := by
            simp only [List.length_cons] at hr
            omega
          have key : ∀ x : Nat, plx_string_loop false r1 (buf ++ [x]) = plx_string_loop false r1 (buf ++ [x]) →
              match (string_body_decode r1).map (fun p => (x :: p.1, p.2)) with
              | some (bytes, rest) => plx_string_loop false r1 (buf ++ [x]) = (rest, buf ++ bytes, true)
              | none => (plx_string_loop false r1 (buf ++ [x])).2.2 = false := by
            intro x _
            have h := ih r1 (buf ++ [x]) hr1
            cases hd : string_body_decode r1 with
            | none => rw [hd] at h; simpa using h
            | some p => rw [hd] at h; simpa using h
          simp only [h34, h92, if_false, if_true]
          by_cases e1 : d = 34
          · subst e1
            have := key 34 rfl
            simpa [plx_string_loop] using this
          by_cases e2 : d = 92
          · subst e2
            have := key 92 rfl
            simpa [plx_string_loop] using this
          by_cases e3 : d = 110
          · subst e3
            have := key 10 rfl
            simpa [plx_string_loop] using this
          by_cases e4 : d = 114
          · subst e4
            have := key 13 rfl
            simpa [plx_string_loop] using this
          by_cases e5 : d = 116
          · subst e5
            have := key 9 rfl
            simpa [plx_string_loop] using this
          by_cases e6 : d = 48
          · subst e6
            have := key 0 rfl
            simpa [plx_string_loop] using this
          by_cases e7 : is_whitespace_byte d = true
          · have hsw := (isspace_switch d).2 e7
            have hlen : (r1.dropWhile is_whitespace_byte).length ≤ n :=
              le_trans (List.dropWhile_sublist _).length_le hr1
            have h := ih (r1.dropWhile is_whitespace_byte) buf hlen
            have hloop : plx_string_loop false (92 :: d :: r1) buf =
                plx_string_loop false (r1.dropWhile is_whitespace_byte) buf := by
              rw [← string_loop_skip]
              simp [plx_string_loop, e1, e2, e3, e4, e5, e6, hsw]
            simp only [e1, e2, e3, e4, e5, e6, e7, if_false, if_true]
            rw [hloop]
            exact h
          · have hsw : ¬ (d = 32 ∨ d = 9 ∨ d = 10 ∨ d = 11 ∨ d = 12 ∨ d = 13) :=
              fun hh => e7 ((isspace_switch d).1 hh)
            simp [plx_string_loop, e1, e2, e3, e4, e5, e6, e7, hsw]
      · have h := ih r (buf ++ [c]) hr
        simp only [h34, h92, if_false]
        have hloop : plx_string_loop false (c :: r) buf = plx_string_loop false r (buf ++ [c]) := by
          cases r <;> simp [plx_string_loop, h34, h92]
        rw [hloop]
        cases hd : string_body_decode r with
        | none => rw [hd] at h; simpa using h
        | some p => rw [hd] at h; simpa using h

theorem next_token_string (body : List Nat) :
    plx_tokenizer_init (34 :: body) =
      { plx_tokenizer_fresh (34 :: body) with
        reader := (plx_string_loop false body []).1,
        str := (plx_string_loop false body []).2.1,
        len := (plx_string_loop false body []).2.1.length,
        token := if (plx_string_loop false body []).2.2 then PLX_TOKEN_STRING
          else PLX_TOKEN_ERROR } := by
  rw [tokenizer_init_eq]
  unfold plx_next_token
  have h1 : plx_skip_whitespace_and_comments false (34 :: body) = 34 :: body :=
    skip_start 34 body (by decide) (by decide)
  have h2 : (isalpha ((34 : Nat) : Int) || decide ((34 : Nat) = 95)) = false := by decide
  have h3 : isdigit ((34 : Nat) : Int) = false := by decide
  simp only [plx_tokenizer_fresh, h1, h2, h3]
  cases (plx_string_loop false body []).2.2 <;> simp

/-- The decoder on the body `a\n\` space tab `b"c`: the bytes `a`, newline, `b`,
and `c` left in the input. -/
theorem string_body_decode_example :
    string_body_decode [97, 92, 110, 92, 32, 9, 98, 34, 99] = some ([97, 10, 98], [99]) := by
  simp [string_body_decode, is_whitespace_byte, isspace, List.dropWhile]

set_option maxRecDepth 1000000 in
/-- C7: Tokenizing the input that is exactly a keyword of the table yields the
keyword's token and then `PLX_TOKEN_EOF`; a word made of a letter or underscore
followed by letters and digits that is no keyword, followed by the end of input
or by a character that is not a letter or digit, yields `PLX_TOKEN_IDENTIFIER`
carrying the word (NUL-terminated, with its length) and leaves the reader right
after the word. -/
theorem plx_next_token_keywords_and_identifiers (c : Nat) (w rest : List Nat)
    (hc : isalpha c = true ∨ c = 95) (hw : ∀ x ∈ w, isalnum x = true)
    (hr : isalnum (plx_peek_char rest) = false)
    (hk : ∀ p ∈ keyword_table, c :: w ≠ c_literal p.1) :
    (∀ p ∈ keyword_table,
      (plx_tokenizer_init (c_literal p.1)).token = p.2 ∧
      (plx_next_token (plx_tokenizer_init (c_literal p.1))).token = PLX_TOKEN_EOF) ∧
    (plx_tokenizer_init (c :: w ++ rest)).token = PLX_TOKEN_IDENTIFIER ∧
    (plx_tokenizer_init (c :: w ++ rest)).str = c :: w ++ [0] ∧
    (plx_tokenizer_init (c :: w ++ rest)).len = (c :: w).length ∧
    (plx_tokenizer_init (c :: w ++ rest)).reader = rest := by
  refine ⟨by decide, ?_⟩
  rw [next_token_word c w rest hc hw hr]
  have hz : ∀ x ∈ c :: w, x ≠ 0 := by
    intro x hx
    rcases List.mem_cons.1 hx with h | h
    · subst h
      rcases hc with h1 | h1
      · intro h0
        subst h0
        revert h1
        decide
      · omega
    · exact isalnum_ne_zero x (hw x h)
  have h := keyword_switch_identifier (c :: w) hz hk
  simp only [List.cons_append] at h
  exact ⟨h, rfl, rfl, rfl⟩

set_option maxRecDepth 1000000 in
/-- Witness for C7: the word `foo` followed by a space and more input is an
identifier and the reader is left at the space. -/
theorem plx_next_token_keywords_and_identifiers_witness :
    (plx_tokenizer_init (c_literal "foo bar")).token = PLX_TOKEN_IDENTIFIER ∧
    (plx_tokenizer_init (c_literal "foo bar")).str = c_literal "foo" ++ [0] ∧
    (plx_tokenizer_init (c_literal "foo bar")).reader = c_literal " bar" :=
  have h := plx_next_token_keywords_and_identifiers 102 [111, 111] [32, 98, 97, 114]
    (by decide) (by decide) (by decide) (by decide)
  ⟨h.2.1, h.2.2.1, h.2.2.2.2⟩

/-- C8: A non-empty string of decimal digits followed by the end of input or by
a character that is neither alphanumeric nor a period yields `PLX_TOKEN_INT`
with the decimal value modulo `2^64`; `0b` followed by a non-empty string over
`0`, `1` (and then the end of input or a non-alphanumeric character) yields
`PLX_TOKEN_INT` with the binary value modulo `2^64`; `0b` followed by anything
other than `0` or `1`, the end of input included, yields `PLX_TOKEN_ERROR`. -/
theorem plx_next_token_decimal_and_binary (d rest : List Nat) (hne : d ≠ [])
    (hr : isalnum (plx_peek_char rest) = false) :
    ((∀ c ∈ d, isdigit c = true) → plx_peek_char rest ≠ 46 →
      (plx_tokenizer_init (d ++ rest)).token = PLX_TOKEN_INT ∧
      (plx_tokenizer_init (d ++ rest)).uint = radix_value 10 decimal_digit d % 2 ^ 64 ∧
      (plx_tokenizer_init (d ++ rest)).reader = rest) ∧
    ((∀ c ∈ d, c = 48 ∨ c = 49) →
      (plx_tokenizer_init (48 :: 98 :: d ++ rest)).token = PLX_TOKEN_INT ∧
      (plx_tokenizer_init (48 :: 98 :: d ++ rest)).uint = radix_value 2 decimal_digit d % 2 ^ 64 ∧
      (plx_tokenizer_init (48 :: 98 :: d ++ rest)).reader = rest) ∧
    (∀ other : List Nat, plx_peek_char other ≠ 48 ∧ plx_peek_char other ≠ 49 →
      (plx_tokenizer_init (48 :: 98 :: other)).token = PLX_TOKEN_ERROR) := by
  refine ⟨fun hd hp => ?_, fun hb => ?_, fun other ho => ?_⟩
  · cases d with
    | nil => exact absurd rfl hne
    | cons c d1 =>
      have h := number_decimal (c :: d1) rest hne hd hr hp
      rw [List.cons_append] at h ⊢
      rw [next_token_number c _ (hd c (List.mem_cons_self _ _)), h]
      exact ⟨rfl, rfl, rfl⟩
  · have h := number_binary d rest hne hb hr
    rw [List.cons_append, List.cons_append] at h ⊢
    rw [next_token_number 48 _ (by decide), h]
    exact ⟨rfl, rfl, rfl⟩
  · rw [next_token_number 48 _ (by decide)]
    exact number_binary_error other ho

/-- Witness for C8: `11` read as a decimal and as a binary literal, each followed
by a semicolon. -/
theorem plx_next_token_decimal_and_binary_witness :
    (plx_tokenizer_init (c_literal "11;")).uint = 11 ∧
    (plx_tokenizer_init (c_literal "0b11;")).uint = 3 :=
  have h := plx_next_token_decimal_and_binary [49, 49] [59] (by decide) (by decide)
  ⟨(h.1 (by decide) (by decide)).2.1, (h.2.1 (by decide)).2.1⟩

/-- C9: For `0x` followed by a non-empty string of hexadecimal digits and then
the end of input or a non-alphanumeric character the token is `PLX_TOKEN_INT`,
and its value is the base-16 value modulo `2^64` in which every digit that is
not decimal counts `c - 'A' + 10`: this is the value of the digit for `A-F`, and
is 32 more than the value of the digit for `a-f`.  `0x` followed by no
hexadecimal digit, and a hexadecimal literal followed by an alphanumeric
character that is no hexadecimal digit, yield `PLX_TOKEN_ERROR`. -/
theorem plx_next_token_hex (h rest : List Nat) (hne : h ≠ [])
    (hh : ∀ c ∈ h, isxdigit c = true) (hr : isxdigit (plx_peek_char rest) = false) :
    (isalnum (plx_peek_char rest) = false →
      (plx_tokenizer_init (48 :: 120 :: h ++ rest)).token = PLX_TOKEN_INT ∧
      (plx_tokenizer_init (48 :: 120 :: h ++ rest)).uint =
        radix_value 16 plx_hex_loop_digit h % 2 ^ 64 ∧
      (plx_tokenizer_init (48 :: 120 :: h ++ rest)).reader = rest ∧
      ((∀ c ∈ h, isdigit c = true ∨ (65 ≤ c ∧ c ≤ 70)) →
        (plx_tokenizer_init (48 :: 120 :: h ++ rest)).uint = radix_value 16 hex_digit h % 2 ^ 64)) ∧
    (∀ c, 97 ≤ c ∧ c ≤ 102 → plx_hex_loop_digit c = hex_digit c + 32) ∧
    (isalnum (plx_peek_char rest) = true →
      (plx_tokenizer_init (48 :: 120 :: h ++ rest)).token = PLX_TOKEN_ERROR) ∧
    (plx_tokenizer_init (48 :: 120 :: rest)).token = PLX_TOKEN_ERROR := by
  have hn := number_hex h rest hne hh hr
  rw [List.cons_append, List.cons_append] at hn ⊢
  rw [next_token_number 48 _ (by decide), next_token_number 48 _ (by decide)]
  refine ⟨fun ha => ?_, fun c hc => ?_, fun ha => ?_, number_hex_error rest hr⟩
  · rw [hn, ha]
    refine ⟨rfl, rfl, rfl, fun hu => ?_⟩
    show radix_value 16 plx_hex_loop_digit h % ULL_MAX_PLUS_ONE = _
    rw [radix_value_congr 16 _ _ h (fun c hc => hex_loop_digit_upper c (hu c hc))]
    rfl
  · have h1 : isdigit (c : Int) = false := by
      simp only [isdigit, decide_eq_false_iff_not]
      omega
    have h2 : ¬ c ≤ 57 := by omega
    have h3 : ¬ c ≤ 70 := by omega
    simp only [plx_hex_loop_digit, hex_digit, h1, h2, h3, if_false, Bool.false_eq_true]
    omega
  · rw [hn, ha]
    rfl

/-- Witness for C9: the literal `0xab` yields `PLX_TOKEN_INT` with the value 715,
while the base-16 value of `ab` is 171. -/
theorem plx_next_token_hex_witness :
    (plx_tokenizer_init (c_literal "0xab")).token = PLX_TOKEN_INT ∧
    (plx_tokenizer_init (c_literal "0xab")).uint = 715 ∧
    radix_value 16 hex_digit (c_literal "ab") = 171 :=
  have h := (plx_next_token_hex [97, 98] [] (by decide) (by decide) (by decide)).1 (by decide)
  ⟨h.1, h.2.1, by decide⟩

/-- C10: Tokenizing a string literal agrees with the decoding of its body in the
words of the specification: when the body decodes, the token is
`PLX_TOKEN_STRING`, the buffer holds the decoded bytes, `len` is their number and
the reader is left after the closing quote; when the decoding fails (a backslash
followed by a byte that is no escape, or the end of input before the closing
quote) the token is `PLX_TOKEN_ERROR`. -/
theorem plx_next_token_string (body : List Nat) :
    match string_body_decode body with
    | some (bytes, rest) =>
      (plx_tokenizer_init (34 :: body)).token = PLX_TOKEN_STRING ∧
      (plx_tokenizer_init (34 :: body)).str = bytes ∧
      (plx_tokenizer_init (34 :: body)).len = bytes.length ∧
      (plx_tokenizer_init (34 :: body)).reader = rest
    | none => (plx_tokenizer_init (34 :: body)).token = PLX_TOKEN_ERROR := by
  have h := string_loop_refines body.length body [] (le_refl _)
  rw [next_token_string]
  cases hd : string_body_decode body with
  | none =>
    rw [hd] at h
    simp only at h ⊢
    rw [h]
    rfl
  | some p =>
    obtain ⟨bytes, rest⟩ := p
    rw [hd] at h
    simp only at h ⊢
    rw [h]
    simp

/-! ## `src/ast.h`, `src/ast.c` and `src/parser.c`

A node is the C structure itself: `children` is the first child and `next` the
next sibling, both `NULL` at the end of a list.  A parse function returns the
node (`NULL` on a syntax error) together with the tokenizer it leaves; since the
parser is recursive, each parse function takes a bound on the depth of calls and
of loop rounds, and `none` means that the bound was reached before the function
returned. -/

/-- `enum plx_node_kind`. -/
inductive plx_node_kind where
  | PLX_NODE_MODULE
  | PLX_NODE_CONST_DEF | PLX_NODE_VAR_DEF | PLX_NODE_VAR_DECL | PLX_NODE_STRUCT_DEF
  | PLX_NODE_FUNC_DEF
  | PLX_NODE_NOP | PLX_NODE_BLOCK | PLX_NODE_IF_THEN_ELSE | PLX_NODE_LOOP | PLX_NODE_WHILE_LOOP
  | PLX_NODE_CONTINUE | PLX_NODE_BREAK | PLX_NODE_RETURN | PLX_NODE_ASSIGN
  | PLX_NODE_ADD_ASSIGN | PLX_NODE_SUB_ASSIGN | PLX_NODE_MUL_ASSIGN | PLX_NODE_DIV_ASSIGN
  | PLX_NODE_REM_ASSIGN | PLX_NODE_LSHIFT_ASSIGN | PLX_NODE_RSHIFT_ASSIGN
  | PLX_NODE_AND | PLX_NODE_OR | PLX_NODE_XOR | PLX_NODE_EQ | PLX_NODE_NEQ | PLX_NODE_LTE
  | PLX_NODE_LT | PLX_NODE_GTE | PLX_NODE_GT | PLX_NODE_ADD | PLX_NODE_SUB | PLX_NODE_MUL
  | PLX_NODE_DIV | PLX_NODE_REM | PLX_NODE_LSHIFT | PLX_NODE_RSHIFT | PLX_NODE_NOT
  | PLX_NODE_NEG | PLX_NODE_REF | PLX_NODE_DEREF | PLX_NODE_CALL | PLX_NODE_INDEX
  | PLX_NODE_SLICE | PLX_NODE_FIELD | PLX_NODE_IDENTIFIER | PLX_NODE_STRUCT
  | PLX_NODE_S8 | PLX_NODE_S16 | PLX_NODE_S32 | PLX_NODE_S64 | PLX_NODE_U8 | PLX_NODE_U16
  | PLX_NODE_U32 | PLX_NODE_U64 | PLX_NODE_F16 | PLX_NODE_F32 | PLX_NODE_F64 | PLX_NODE_BOOL
  | PLX_NODE_STRING
  | PLX_NODE_VOID_TYPE | PLX_NODE_S8_TYPE | PLX_NODE_S16_TYPE | PLX_NODE_S32_TYPE
  | PLX_NODE_S64_TYPE | PLX_NODE_U8_TYPE | PLX_NODE_U16_TYPE | PLX_NODE_U32_TYPE
  | PLX_NODE_U64_TYPE | PLX_NODE_F16_TYPE | PLX_NODE_F32_TYPE | PLX_NODE_F64_TYPE
  | PLX_NODE_BOOL_TYPE | PLX_NODE_STRING_TYPE | PLX_NODE_FUNC_TYPE | PLX_NODE_REF_TYPE
  | PLX_NODE_ARRAY_TYPE | PLX_NODE_SLICE_TYPE
  | PLX_NODE_OTHER
  deriving DecidableEq

open plx_node_kind

/-- The anonymous union of `struct plx_node`, by the member last written; `zero`
is the union as `plx_new_node` leaves it.  An `entry` is the address of a symbol
table entry, `none` for `NULL`. -/
inductive plx_node_value where
  | zero
  | identifier (name : String) (entry : Option Nat)
  | sint (v : Int)
  | uint (v : Nat)
  | f (x : Nat × Nat × Nat)
  | b (v : Bool)
  | string (len : Nat) (str : List Nat)
  deriving DecidableEq

/-- `struct plx_node *`: `NULL`, or a node with its kind, union, first child,
next sibling and type. -/
inductive plx_node where
  | NULL
  | node (kind : plx_node_kind) (value : plx_node_value) (children next type : plx_node)
  deriving DecidableEq

/-- `plx_new_node`: the node `(struct plx_node){ kind }`. -/
def plx_new_node (kind : plx_node_kind) : plx_node :=
  .node kind .zero .NULL .NULL .NULL

/-- The assignment `node->children = children`. -/
def plx_node.set_children : plx_node → plx_node → plx_node
  | .NULL, _ => .NULL
  | .node k v _ n ty, c => .node k v c n ty

/-- The assignment `node->next = next`. -/
def plx_node.set_next : plx_node → plx_node → plx_node
  | .NULL, _ => .NULL
  | .node k v c _ ty, n => .node k v c n ty

/-- An assignment to a member of the union of the node. -/
def plx_node.set_value : plx_node → plx_node_value → plx_node
  | .NULL, _ => .NULL
  | .node k _ c n ty, v => .node k v c n ty

/-- The member `node->kind`. -/
def plx_node.kind? : plx_node → Option plx_node_kind
  | .NULL => none
  | .node k _ _ _ _ => some k

/-- The member `node->children`. -/
def plx_node.children : plx_node → plx_node
  | .NULL => .NULL
  | .node _ _ c _ _ => c

/-- The member `node->next`. -/
def plx_node.next : plx_node → plx_node
  | .NULL => .NULL
  | .node _ _ _ n _ => n

/-- The member `node->entry`, `NULL` in a union that holds no identifier. -/
def plx_node.entry : plx_node → Option Nat
  | .node _ (.identifier _ e) _ _ _ => e
  | _ => none

/-- The list that starts at a node and follows `next`, with `x` stored through
the pointer to its last `next` field: the statements `*next = x; next = &x->next;`
of the loops that collect children. -/
def plx_node.append : plx_node → plx_node → plx_node
  | .NULL, x => x
  | .node k v c n ty, x => .node k v c (plx_node.append n x) ty

/-- The same statements on the list of children of a node. -/
def plx_node.append_child : plx_node → plx_node → plx_node
  | .NULL, _ => .NULL
  | .node k v c n ty, x => .node k v (plx_node.append c x) n ty

/-- `plx_count_children`, on the first child. -/
def plx_count_siblings : plx_node → Nat
  | .NULL => 0
  | .node _ _ _ n _ => plx_count_siblings n + 1

/-- `plx_count_children`. -/
def plx_count_children (node : plx_node) : Nat := plx_count_siblings node.children

/-- The string a NUL-terminated buffer holds. -/
def c_string (str : List Nat) : String :=
  String.mk ((str.takeWhile (fun c => c ≠ 0)).map Char.ofNat)

/-- `plx_accept_token`. -/
def plx_accept_token (t : plx_tokenizer) (token : plx_token) : Bool × plx_tokenizer :=
  if token = t.token then (true, plx_next_token t) else (false, t)

/-- `plx_read_identifier_or_string`, for an identifier: the copy of the buffer
read as a C string. -/
def plx_read_identifier_or_string (t : plx_tokenizer) : String × plx_tokenizer :=
  (c_string (t.str.take (t.len + 1)), plx_next_token t)

/-- A parse function has returned a node (`NULL` included) and left a tokenizer,
or has not returned within the bound. -/
abbrev plx_parse_result := Option (plx_node × plx_tokenizer)

/-- The statements `x = parse(tokenizer); if (x == NULL) return NULL;` followed
by the rest of the function. -/
def plx_parse_result.and_then (r : plx_parse_result)
    (rest : plx_node → plx_tokenizer → plx_parse_result) : plx_parse_result :=
  match r with
  | none => none
  | some (.NULL, t) => some (.NULL, t)
  | some (.node k v c n ty, t) => rest (.node k v c n ty) t

/-- The statement `if (!plx_accept_token(tokenizer, token)) return NULL;`
followed by the rest of the function. -/
def plx_expect_token (t : plx_tokenizer) (token : plx_token)
    (rest : plx_tokenizer → plx_parse_result) : plx_parse_result :=
  if (plx_accept_token t token).1 then rest (plx_accept_token t token).2
  else some (.NULL, (plx_accept_token t token).2)

/-- `plx_parse_identifier`. -/
def plx_parse_identifier (t : plx_tokenizer) : plx_node × plx_tokenizer :=
  if t.token ≠ PLX_TOKEN_IDENTIFIER then (.NULL, t)
  else
    ((plx_new_node PLX_NODE_IDENTIFIER).set_value
        (.identifier (plx_read_identifier_or_string t).1 none),
      (plx_read_identifier_or_string t).2)

/-- `plx_parse_int_lit`. -/
def plx_parse_int_lit (t : plx_tokenizer) : plx_node × plx_tokenizer :=
  ((plx_new_node PLX_NODE_S32).set_value (.uint t.uint), plx_next_token t)

/-- `plx_parse_string_lit`. -/
def plx_parse_string_lit (t : plx_tokenizer) : plx_node × plx_tokenizer :=
  if t.token ≠ PLX_TOKEN_STRING then (.NULL, t)
  else
    ((plx_new_node PLX_NODE_STRING).set_value (.string t.len (t.str.take t.len)),
      plx_next_token t)

/-- The `switch (op)` of `plx_parse_logical_expr`. -/
def plx_logical_kind : plx_token → Option plx_node_kind
  | PLX_TOKEN_AND => some PLX_NODE_AND
  | PLX_TOKEN_OR => some PLX_NODE_OR
  | PLX_TOKEN_XOR => some PLX_NODE_XOR
  | _ => none

/-- The `switch (tokenizer->token)` of `plx_parse_rel_expr`. -/
def plx_rel_kind : plx_token → Option plx_node_kind
  | PLX_TOKEN_EQ => some PLX_NODE_EQ
  | PLX_TOKEN_NEQ => some PLX_NODE_NEQ
  | PLX_TOKEN_LTE => some PLX_NODE_LTE
  | PLX_TOKEN_LT => some PLX_NODE_LT
  | PLX_TOKEN_GTE => some PLX_NODE_GTE
  | PLX_TOKEN_GT => some PLX_NODE_GT
  | _ => none

/-- The `switch (op)` of `plx_parse_arithmetic_expr`. -/
def plx_arithmetic_kind : plx_token → Option plx_node_kind
  | PLX_TOKEN_ADD => some PLX_NODE_ADD
  | PLX_TOKEN_SUB => some PLX_NODE_SUB
  | PLX_TOKEN_MUL => some PLX_NODE_MUL
  | PLX_TOKEN_DIV => some PLX_NODE_DIV
  | PLX_TOKEN_REM => some PLX_NODE_REM
  | PLX_TOKEN_LSHIFT => some PLX_NODE_LSHIFT
  | PLX_TOKEN_RSHIFT => some PLX_NODE_RSHIFT
  | _ => none

/-- The `switch (tokenizer->token)` of `plx_parse_unary_expr`. -/
def plx_unary_kind : plx_token → Option plx_node_kind
  | PLX_TOKEN_NOT => some PLX_NODE_NOT
  | PLX_TOKEN_SUB => some PLX_NODE_NEG
  | PLX_TOKEN_MUL => some PLX_NODE_DEREF
  | PLX_TOKEN_REF => some PLX_NODE_REF
  | _ => none

/-- A new node of a kind with the given children, each `next` set to the child
that follows: `node->children = a; a->next = b; ...`. -/
def plx_node_of (kind : plx_node_kind) (children : List plx_node) : plx_node :=
  (plx_new_node kind).set_children
    (children.foldr (fun child rest => child.set_next rest) .NULL)

mutual

/-- `plx_parse_expr`. -/
def plx_parse_expr : Nat → plx_tokenizer → plx_parse_result
  | 0, _ => none
  | fuel + 1, t => plx_parse_logical_expr fuel t

/-- `plx_parse_logical_expr`. -/
def plx_parse_logical_expr : Nat → plx_tokenizer → plx_parse_result
  | 0, _ => none
  | fuel + 1, t =>
    (plx_parse_rel_expr fuel t).and_then fun left t =>
      match plx_logical_kind t.token with
      | none => some (left, t)
      | some kind => plx_parse_logical_expr_loop fuel t.token kind left t

/-- The loop `while (plx_accept_token(tokenizer, op))` of
`plx_parse_logical_expr`. -/
def plx_parse_logical_expr_loop :
    Nat → plx_token → plx_node_kind → plx_node → plx_tokenizer → plx_parse_result
  | 0, _, _, _, _ => none
  | fuel + 1, op, kind, left, t =>
    if (plx_accept_token t op).1 then
      (plx_parse_rel_expr fuel (plx_accept_token t op).2).and_then fun right t =>
        plx_parse_logical_expr_loop fuel op kind (plx_node_of kind [left, right]) t
    else some (left, (plx_accept_token t op).2)

/-- `plx_parse_rel_expr`. -/
def plx_parse_rel_expr : Nat → plx_tokenizer → plx_parse_result
  | 0, _ => none
  | fuel + 1, t =>
    (plx_parse_arithmetic_expr fuel t).and_then fun left t =>
      match plx_rel_kind t.token with
      | none => some (left, t)
      | some kind =>
        (plx_parse_arithmetic_expr fuel (plx_next_token t)).and_then fun right t =>
          some (plx_node_of kind [left, right], t)

/-- `plx_parse_arithmetic_expr`. -/
def plx_parse_arithmetic_expr : Nat → plx_tokenizer → plx_parse_result
  | 0, _ => none
  | fuel + 1, t =>
    (plx_parse_unary_expr fuel t).and_then fun left t =>
      match plx_arithmetic_kind t.token with
      | none => some (left, t)
      | some kind => plx_parse_arithmetic_expr_loop fuel t.token kind left t

/-- The loop `while (plx_accept_token(tokenizer, op))` of
`plx_parse_arithmetic_expr`. -/
def plx_parse_arithmetic_expr_loop :
    Nat → plx_token → plx_node_kind → plx_node → plx_tokenizer → plx_parse_result
  | 0, _, _, _, _ => none
  | fuel + 1, op, kind, left, t =>
    if (plx_accept_token t op).1 then
      (plx_parse_unary_expr fuel (plx_accept_token t op).2).and_then fun right t =>
        plx_parse_arithmetic_expr_loop fuel op kind (plx_node_of kind [left, right]) t
    else some (left, (plx_accept_token t op).2)

/-- `plx_parse_unary_expr`. -/
def plx_parse_unary_expr : Nat → plx_tokenizer → plx_parse_result
  | 0, _ => none
  | fuel + 1, t =>
    match plx_unary_kind t.token with
    | none => plx_parse_postfix_expr fuel t
    | some kind =>
      (plx_parse_unary_expr fuel (plx_next_token t)).and_then fun operand t =>
        some (plx_node_of kind [operand], t)

/-- `plx_parse_postfix_expr`. -/
def plx_parse_postfix_expr : Nat → plx_tokenizer → plx_parse_result
  | 0, _ => none
  | fuel + 1, t =>
    (plx_parse_primary_expr fuel t).and_then fun expr t =>
      if t.token = PLX_TOKEN_OPEN_PAREN then
        if (plx_accept_token (plx_next_token t) PLX_TOKEN_CLOSE_PAREN).1 then
          some (plx_node_of PLX_NODE_CALL [expr, plx_new_node PLX_NODE_OTHER],
            (plx_accept_token (plx_next_token t) PLX_TOKEN_CLOSE_PAREN).2)
        else
          (plx_parse_args_loop fuel (plx_new_node PLX_NODE_OTHER)
            (plx_accept_token (plx_next_token t) PLX_TOKEN_CLOSE_PAREN).2).and_then
            fun args t => some (plx_node_of PLX_NODE_CALL [expr, args], t)
      else if t.token = PLX_TOKEN_OPEN_SQUARE_BRACKET then
        (plx_parse_expr fuel (plx_next_token t)).and_then fun start t =>
          if (plx_accept_token t PLX_TOKEN_COLON).1 then
            (plx_parse_expr fuel (plx_accept_token t PLX_TOKEN_COLON).2).and_then fun end_ t =>
              some (plx_node_of PLX_NODE_SLICE [expr, start, end_], t)
          else
            some (plx_node_of PLX_NODE_INDEX [expr, start],
              (plx_accept_token t PLX_TOKEN_COLON).2)
      else if t.token = PLX_TOKEN_PERIOD then
        plx_parse_result.and_then (some (plx_parse_identifier (plx_next_token t)))
          fun name t => some (plx_node_of PLX_NODE_FIELD [expr, name], t)
      else some (expr, t)

/-- The loop `while (1)` that parses the arguments of a call, up to the closing
parenthesis; `args` is the node that collects them. -/
def plx_parse_args_loop : Nat → plx_node → plx_tokenizer → plx_parse_result
  | 0, _, _ => none
  | fuel + 1, args, t =>
    (plx_parse_expr fuel t).and_then fun arg t =>
      if (plx_accept_token t PLX_TOKEN_CLOSE_PAREN).1 then
        some (args.append_child arg, (plx_accept_token t PLX_TOKEN_CLOSE_PAREN).2)
      else
        plx_expect_token t PLX_TOKEN_COMMA fun t =>
          plx_parse_args_loop fuel (args.append_child arg) t

/-- `plx_parse_primary_expr`. -/
def plx_parse_primary_expr : Nat → plx_tokenizer → plx_parse_result
  | 0, _ => none
  | fuel + 1, t =>
    match t.token with
    | PLX_TOKEN_IDENTIFIER => plx_parse_identifier_or_struct fuel t
    | PLX_TOKEN_INT => some (plx_parse_int_lit t)
    | PLX_TOKEN_TRUE =>
      some ((plx_new_node PLX_NODE_BOOL).set_value (.b true), plx_next_token t)
    | PLX_TOKEN_FALSE =>
      some ((plx_new_node PLX_NODE_BOOL).set_value (.b false), plx_next_token t)
    | PLX_TOKEN_STRING => some (plx_parse_string_lit t)
    | PLX_TOKEN_OPEN_PAREN => plx_parse_expr fuel t
    | _ => some (.NULL, t)

/-- `plx_parse_identifier_or_struct`. -/
def plx_parse_identifier_or_struct : Nat → plx_tokenizer → plx_parse_result
  | 0, _ => none
  | fuel + 1, t =>
    plx_parse_result.and_then (some (plx_parse_identifier t)) fun identifier t =>
      if (plx_accept_token t PLX_TOKEN_OPEN_CURLY_BRACE).1 then
        (plx_parse_struct_members_loop fuel (plx_new_node PLX_NODE_OTHER)
          (plx_accept_token t PLX_TOKEN_OPEN_CURLY_BRACE).2).and_then fun members t =>
          some (plx_node_of PLX_NODE_STRUCT [identifier, members], t)
      else some (identifier, (plx_accept_token t PLX_TOKEN_OPEN_CURLY_BRACE).2)

/-- The loop `while (!plx_accept_token(tokenizer, PLX_TOKEN_CLOSE_CURLY_BRACE))`
of `plx_parse_identifier_or_struct`; `members` is the node that collects the
members. -/
def plx_parse_struct_members_loop : Nat → plx_node → plx_tokenizer → plx_parse_result
  | 0, _, _ => none
  | fuel + 1, members, t =>
    if (plx_accept_token t PLX_TOKEN_CLOSE_CURLY_BRACE).1 then
      some (members, (plx_accept_token t PLX_TOKEN_CLOSE_CURLY_BRACE).2)
    else
      plx_parse_result.and_then
        (some (plx_parse_identifier (plx_accept_token t PLX_TOKEN_CLOSE_CURLY_BRACE).2))
        fun member_name t =>
          plx_expect_token t PLX_TOKEN_COLON fun t =>
            (plx_parse_expr fuel t).and_then fun member_value t =>
              plx_expect_token t PLX_TOKEN_SEMICOLON fun t =>
                plx_parse_struct_members_loop fuel
                  (members.append_child (plx_node_of PLX_NODE_OTHER [member_name, member_value]))
                  t

end

mutual

/-- `plx_parse_type`. -/
def plx_parse_type : Nat → plx_tokenizer → plx_parse_result
  | 0, _ => none
  | fuel + 1, t =>
    match t.token with
    | PLX_TOKEN_IDENTIFIER => some (plx_parse_identifier t)
    | PLX_TOKEN_S8 => some (plx_new_node PLX_NODE_S8_TYPE, plx_next_token t)
    | PLX_TOKEN_S16 => some (plx_new_node PLX_NODE_S16_TYPE, plx_next_token t)
    | PLX_TOKEN_S32 => some (plx_new_node PLX_NODE_S32_TYPE, plx_next_token t)
    | PLX_TOKEN_S64 => some (plx_new_node PLX_NODE_S64_TYPE, plx_next_token t)
    | PLX_TOKEN_U8 => some (plx_new_node PLX_NODE_U8_TYPE, plx_next_token t)
    | PLX_TOKEN_U16 => some (plx_new_node PLX_NODE_U16_TYPE, plx_next_token t)
    | PLX_TOKEN_U32 => some (plx_new_node PLX_NODE_U32_TYPE, plx_next_token t)
    | PLX_TOKEN_U64 => some (plx_new_node PLX_NODE_U64_TYPE, plx_next_token t)
    | PLX_TOKEN_F32 => some (plx_new_node PLX_NODE_F32_TYPE, plx_next_token t)
    | PLX_TOKEN_F64 => some (plx_new_node PLX_NODE_F64_TYPE, plx_next_token t)
    | PLX_TOKEN_FUNC => plx_parse_func_type fuel t
    | PLX_TOKEN_REF => plx_parse_ref_type fuel t
    | PLX_TOKEN_OPEN_SQUARE_BRACKET => plx_parse_array_or_slice_type fuel t
    | _ => some (.NULL, t)

/-- `plx_parse_func_type`. -/
def plx_parse_func_type : Nat → plx_tokenizer → plx_parse_result
  | 0, _ => none
  | fuel + 1, t =>
    plx_expect_token (plx_next_token t) PLX_TOKEN_OPEN_PAREN fun t =>
      plx_parse_result.and_then
        (if (plx_accept_token t PLX_TOKEN_CLOSE_PAREN).1 then
          some (plx_new_node PLX_NODE_OTHER, (plx_accept_token t PLX_TOKEN_CLOSE_PAREN).2)
        else
          plx_parse_param_types_loop fuel (plx_new_node PLX_NODE_OTHER)
            (plx_accept_token t PLX_TOKEN_CLOSE_PAREN).2) fun param_types t =>
        if (plx_accept_token t PLX_TOKEN_ARROW).1 then
          (plx_parse_type fuel (plx_accept_token t PLX_TOKEN_ARROW).2).and_then
            fun return_type t =>
              some (plx_node_of PLX_NODE_FUNC_TYPE [param_types, return_type], t)
        else
          some (plx_node_of PLX_NODE_FUNC_TYPE [param_types, plx_new_node PLX_NODE_VOID_TYPE],
            (plx_accept_token t PLX_TOKEN_ARROW).2)

/-- The loop `while (true)` of `plx_parse_func_type`; `param_types` is the node
that collects the parameter types. -/
def plx_parse_param_types_loop : Nat → plx_node → plx_tokenizer → plx_parse_result
  | 0, _, _ => none
  | fuel + 1, param_types, t =>
    (plx_parse_type fuel t).and_then fun param_type t =>
      if (plx_accept_token t PLX_TOKEN_CLOSE_PAREN).1 then
        some (param_types.append_child param_type,
          (plx_accept_token t PLX_TOKEN_CLOSE_PAREN).2)
      else
        plx_expect_token t PLX_TOKEN_COMMA fun t =>
          plx_parse_param_types_loop fuel (param_types.append_child param_type) t

/-- `plx_parse_ref_type`. -/
def plx_parse_ref_type : Nat → plx_tokenizer → plx_parse_result
  | 0, _ => none
  | fuel + 1, t =>
    (plx_parse_type fuel (plx_next_token t)).and_then fun type t =>
      some (plx_node_of PLX_NODE_REF_TYPE [type], t)

/-- `plx_parse_array_or_slice_type`. -/
def plx_parse_array_or_slice_type : Nat → plx_tokenizer → plx_parse_result
  | 0, _ => none
  | fuel + 1, t =>
    if (plx_accept_token (plx_next_token t) PLX_TOKEN_CLOSE_SQUARE_BRACKET).1 then
      (plx_parse_type fuel
        (plx_accept_token (plx_next_token t) PLX_TOKEN_CLOSE_SQUARE_BRACKET).2).and_then
        fun element_type t => some (plx_node_of PLX_NODE_SLICE_TYPE [element_type], t)
    else
      (plx_parse_expr fuel
        (plx_accept_token (plx_next_token t) PLX_TOKEN_CLOSE_SQUARE_BRACKET).2).and_then
        fun len t =>
          plx_expect_token t PLX_TOKEN_CLOSE_SQUARE_BRACKET fun t =>
            (plx_parse_type fuel t).and_then fun element_type t =>
              some (plx_node_of PLX_NODE_ARRAY_TYPE [len, element_type], t)

end

/-- `plx_parse_const_def`. -/
def plx_parse_const_def (fuel : Nat) (t : plx_tokenizer) : plx_parse_result :=
  plx_parse_result.and_then (some (plx_parse_identifier (plx_next_token t))) fun name t =>
    plx_expect_token t PLX_TOKEN_ASSIGN fun t =>
      (plx_parse_expr fuel t).and_then fun value t =>
        plx_expect_token t PLX_TOKEN_SEMICOLON fun t =>
          some (plx_node_of PLX_NODE_CONST_DEF [name, value], t)

/-- `plx_parse_var_def_or_decl`. -/
def plx_parse_var_def_or_decl (fuel : Nat) (t : plx_tokenizer) : plx_parse_result :=
  plx_parse_result.and_then (some (plx_parse_identifier (plx_next_token t))) fun name t =>
    match t.token with
    | PLX_TOKEN_ASSIGN =>
      (plx_parse_expr fuel (plx_next_token t)).and_then fun value t =>
        plx_expect_token t PLX_TOKEN_SEMICOLON fun t =>
          some (plx_node_of PLX_NODE_VAR_DEF [name, value], t)
    | PLX_TOKEN_COLON =>
      (plx_parse_type fuel (plx_next_token t)).and_then fun type t =>
        plx_expect_token t PLX_TOKEN_SEMICOLON fun t =>
          some (plx_node_of PLX_NODE_VAR_DECL [name, type], t)
    | _ => some (.NULL, t)

/-- `plx_parse_return`. -/
def plx_parse_return (fuel : Nat) (t : plx_tokenizer) : plx_parse_result :=
  if (plx_accept_token (plx_next_token t) PLX_TOKEN_SEMICOLON).1 then
    some (plx_node_of PLX_NODE_RETURN [],
      (plx_accept_token (plx_next_token t) PLX_TOKEN_SEMICOLON).2)
  else
    (plx_parse_expr fuel (plx_accept_token (plx_next_token t) PLX_TOKEN_SEMICOLON).2).and_then
      fun value t =>
        plx_expect_token t PLX_TOKEN_SEMICOLON fun t =>
          some (plx_node_of PLX_NODE_RETURN [value], t)

/-- The `switch (tokenizer->token)` of `plx_parse_assign`. -/
def plx_assign_kind : plx_token → Option plx_node_kind
  | PLX_TOKEN_ASSIGN => some PLX_NODE_ASSIGN
  | PLX_TOKEN_ADD_ASSIGN => some PLX_NODE_ADD_ASSIGN
  | PLX_TOKEN_SUB_ASSIGN => some PLX_NODE_SUB_ASSIGN
  | PLX_TOKEN_MUL_ASSIGN => some PLX_NODE_MUL_ASSIGN
  | PLX_TOKEN_DIV_ASSIGN => some PLX_NODE_DIV_ASSIGN
  | PLX_TOKEN_REM_ASSIGN => some PLX_NODE_REM_ASSIGN
  | PLX_TOKEN_LSHIFT_ASSIGN => some PLX_NODE_LSHIFT_ASSIGN
  | PLX_TOKEN_RSHIFT_ASSIGN => some PLX_NODE_RSHIFT_ASSIGN
  | _ => none

/-- `plx_parse_assign`. -/
def plx_parse_assign (fuel : Nat) (t : plx_tokenizer) : plx_parse_result :=
  (plx_parse_unary_expr fuel t).and_then fun target t =>
    match plx_assign_kind t.token with
    | none => plx_expect_token t PLX_TOKEN_SEMICOLON fun t => some (target, t)
    | some kind =>
      (plx_parse_expr fuel (plx_next_token t)).and_then fun value t =>
        plx_expect_token t PLX_TOKEN_SEMICOLON fun t =>
          some (plx_node_of kind [target, value], t)

mutual

/-- `plx_parse_stmt`. -/
def plx_parse_stmt : Nat → plx_tokenizer → plx_parse_result
  | 0, _ => none
  | fuel + 1, t =>
    match t.token with
    | PLX_TOKEN_OPEN_CURLY_BRACE => plx_parse_block fuel t
    | PLX_TOKEN_CONST => plx_parse_const_def fuel t
    | PLX_TOKEN_VAR => plx_parse_var_def_or_decl fuel t
    | PLX_TOKEN_IF => plx_parse_if_then_else fuel t
    | PLX_TOKEN_LOOP => plx_parse_loop fuel t
    | PLX_TOKEN_WHILE => plx_parse_while_loop fuel t
    | PLX_TOKEN_CONTINUE =>
      plx_expect_token (plx_next_token t) PLX_TOKEN_SEMICOLON fun t =>
        some (plx_new_node PLX_NODE_CONTINUE, t)
    | PLX_TOKEN_BREAK =>
      plx_expect_token (plx_next_token t) PLX_TOKEN_SEMICOLON fun t =>
        some (plx_new_node PLX_NODE_BREAK, t)
    | PLX_TOKEN_RETURN => plx_parse_return fuel t
    | _ => plx_parse_assign fuel t

/-- `plx_parse_block`. -/
def plx_parse_block : Nat → plx_tokenizer → plx_parse_result
  | 0, _ => none
  | fuel + 1, t =>
    plx_expect_token t PLX_TOKEN_OPEN_CURLY_BRACE fun t =>
      plx_parse_block_loop fuel (plx_new_node PLX_NODE_BLOCK) t

/-- The loop `while (!plx_accept_token(tokenizer, PLX_TOKEN_CLOSE_CURLY_BRACE))`
of `plx_parse_block`. -/
def plx_parse_block_loop : Nat → plx_node → plx_tokenizer → plx_parse_result
  | 0, _, _ => none
  | fuel + 1, block, t =>
    if (plx_accept_token t PLX_TOKEN_CLOSE_CURLY_BRACE).1 then
      some (block, (plx_accept_token t PLX_TOKEN_CLOSE_CURLY_BRACE).2)
    else
      (plx_parse_stmt fuel (plx_accept_token t PLX_TOKEN_CLOSE_CURLY_BRACE).2).and_then
        fun stmt t => plx_parse_block_loop fuel (block.append_child stmt) t

/-- `plx_parse_if_then_else`. -/
def plx_parse_if_then_else : Nat → plx_tokenizer → plx_parse_result
  | 0, _ => none
  | fuel + 1, t =>
    (plx_parse_rel_expr fuel (plx_next_token t)).and_then fun cond t =>
      (plx_parse_block fuel t).and_then fun then_ t =>
        if (plx_accept_token t PLX_TOKEN_ELSE).1 then
          plx_parse_result.and_then
            (if (plx_accept_token t PLX_TOKEN_ELSE).2.token = PLX_TOKEN_IF then
              plx_parse_if_then_else fuel (plx_accept_token t PLX_TOKEN_ELSE).2
            else plx_parse_block fuel (plx_accept_token t PLX_TOKEN_ELSE).2)
            fun els t => some (plx_node_of PLX_NODE_IF_THEN_ELSE [cond, then_, els], t)
        else
          some (plx_node_of PLX_NODE_IF_THEN_ELSE [cond, then_, plx_new_node PLX_NODE_BLOCK],
            (plx_accept_token t PLX_TOKEN_ELSE).2)

/-- `plx_parse_loop`. -/
def plx_parse_loop : Nat → plx_tokenizer → plx_parse_result
  | 0, _ => none
  | fuel + 1, t =>
    (plx_parse_block fuel (plx_next_token t)).and_then fun body t =>
      some (plx_node_of PLX_NODE_LOOP [body], t)

/-- `plx_parse_while_loop`. -/
def plx_parse_while_loop : Nat → plx_tokenizer → plx_parse_result
  | 0, _ => none
  | fuel + 1, t =>
    (plx_parse_rel_expr fuel (plx_next_token t)).and_then fun cond t =>
      (plx_parse_block fuel t).and_then fun body t =>
        some (plx_node_of PLX_NODE_WHILE_LOOP [cond, body], t)

end

/-- The loop `while (!plx_accept_token(tokenizer, PLX_TOKEN_CLOSE_CURLY_BRACE))`
of `plx_parse_struct_def`; `members` is the node that collects the members. -/
def plx_parse_struct_def_loop : Nat → plx_node → plx_tokenizer → plx_parse_result
  | 0, _, _ => none
  | fuel + 1, members, t =>
    if (plx_accept_token t PLX_TOKEN_CLOSE_CURLY_BRACE).1 then
      some (members, (plx_accept_token t PLX_TOKEN_CLOSE_CURLY_BRACE).2)
    else
      plx_parse_result.and_then
        (some (plx_parse_identifier (plx_accept_token t PLX_TOKEN_CLOSE_CURLY_BRACE).2))
        fun member_name t =>
          plx_expect_token t PLX_TOKEN_COLON fun t =>
            (plx_parse_type fuel t).and_then fun member_type t =>
              plx_expect_token t PLX_TOKEN_SEMICOLON fun t =>
                plx_parse_struct_def_loop fuel
                  (members.append_child (plx_node_of PLX_NODE_OTHER [member_name, member_type]))
                  t

/-- `plx_parse_struct_def`. -/
def plx_parse_struct_def (fuel : Nat) (t : plx_tokenizer) : plx_parse_result :=
  plx_parse_result.and_then (some (plx_parse_identifier (plx_next_token t))) fun name t =>
    plx_expect_token t PLX_TOKEN_OPEN_CURLY_BRACE fun t =>
      (plx_parse_struct_def_loop fuel (plx_new_node PLX_NODE_OTHER) t).and_then
        fun members t => some (plx_node_of PLX_NODE_STRUCT_DEF [name, members], t)

/-- The loop `while (1)` of `plx_parse_params`; `params` is the node that
collects the parameters. -/
def plx_parse_params_loop : Nat → plx_node → plx_tokenizer → plx_parse_result
  | 0, _, _ => none
  | fuel + 1, params, t =>
    plx_parse_result.and_then (some (plx_parse_identifier t)) fun param_name t =>
      plx_expect_token t PLX_TOKEN_COLON fun t =>
        (plx_parse_type fuel t).and_then fun param_type t =>
          if (plx_accept_token t PLX_TOKEN_CLOSE_PAREN).1 then
            some (params.append_child (plx_node_of PLX_NODE_OTHER [param_name, param_type]),
              (plx_accept_token t PLX_TOKEN_CLOSE_PAREN).2)
          else
            plx_expect_token t PLX_TOKEN_COMMA fun t =>
              plx_parse_params_loop fuel
                (params.append_child (plx_node_of PLX_NODE_OTHER [param_name, param_type])) t

/-- `plx_parse_params`. -/
def plx_parse_params (fuel : Nat) (t : plx_tokenizer) : plx_parse_result :=
  plx_expect_token t PLX_TOKEN_OPEN_PAREN fun t =>
    if (plx_accept_token t PLX_TOKEN_CLOSE_PAREN).1 then
      some (plx_new_node PLX_NODE_OTHER, (plx_accept_token t PLX_TOKEN_CLOSE_PAREN).2)
    else
      plx_parse_params_loop fuel (plx_new_node PLX_NODE_OTHER)
        (plx_accept_token t PLX_TOKEN_CLOSE_PAREN).2

/-- `plx_parse_func_def`. -/
def plx_parse_func_def (fuel : Nat) (t : plx_tokenizer) : plx_parse_result :=
  plx_parse_result.and_then (some (plx_parse_identifier (plx_next_token t))) fun name t =>
    (plx_parse_params fuel t).and_then fun params t =>
      plx_parse_result.and_then
        (if (plx_accept_token t PLX_TOKEN_ARROW).1 then
          plx_parse_type fuel (plx_accept_token t PLX_TOKEN_ARROW).2
        else
          some (plx_new_node PLX_NODE_VOID_TYPE, (plx_accept_token t PLX_TOKEN_ARROW).2))
        fun return_type t =>
          (plx_parse_block fuel t).and_then fun body t =>
            some (plx_node_of PLX_NODE_FUNC_DEF [name, params, return_type, body], t)

/-- The loop `while (tokenizer->token != PLX_TOKEN_EOF)` of `plx_parse_module`. -/
def plx_parse_module_loop : Nat → plx_node → plx_tokenizer → plx_parse_result
  | 0, _, _ => none
  | fuel + 1, module, t =>
    if t.token = PLX_TOKEN_EOF then some (module, t)
    else
      plx_parse_result.and_then
        (match t.token with
        | PLX_TOKEN_CONST => plx_parse_const_def fuel t
        | PLX_TOKEN_VAR => plx_parse_var_def_or_decl fuel t
        | PLX_TOKEN_STRUCT => plx_parse_struct_def fuel t
        | PLX_TOKEN_FUNC => plx_parse_func_def fuel t
        | _ => some (.NULL, t))
        fun def_ t => plx_parse_module_loop fuel (module.append_child def_) t

/-- `plx_parse_module`. -/
def plx_parse_module (fuel : Nat) (t : plx_tokenizer) : plx_parse_result :=
  plx_parse_module_loop fuel (plx_new_node PLX_NODE_MODULE) t

/-- A parse function returns the result `r` from the tokenizer `t`: it does so
for every bound from some bound on. -/
def plx_returns (parse : Nat → plx_tokenizer → plx_parse_result) (t : plx_tokenizer)
    (r : plx_node × plx_tokenizer) : Prop :=
  ∃ bound, ∀ fuel, bound ≤ fuel → parse fuel t = some r

/-- The operands of a run after the first one: while the current token is `op`,
it is consumed and an operand is parsed; the run ends at the first tokenizer
whose token is not `op`. -/
def plx_operator_run (operand : Nat → plx_tokenizer → plx_parse_result) (op : plx_token) :
    plx_tokenizer → List (plx_node × plx_tokenizer) → plx_tokenizer → Prop
  | t, [], t_end => t.token ≠ op ∧ t_end = t
  | t, (e, u) :: rest, t_end =>
    t.token = op ∧ e ≠ .NULL ∧ plx_returns operand (plx_next_token t) (e, u) ∧
      plx_operator_run operand op u rest t_end

/-- The tree `op(...op(op(e1, e2), e3)..., en)`. -/
def plx_left_assoc (kind : plx_node_kind) (e1 : plx_node) (rest : List plx_node) : plx_node :=
  rest.foldl (fun left right => plx_node_of kind [left, right]) e1

theorem and_then_node (e : plx_node) (t : plx_tokenizer)
    (rest : plx_node → plx_tokenizer → plx_parse_result) (he : e ≠ .NULL) :
    plx_parse_result.and_then (some (e, t)) rest = rest e t := by
  cases e with
  | NULL => exact absurd rfl he
  | node k v c n ty => rfl

theorem and_then_null (t : plx_tokenizer)
    (rest : plx_node → plx_tokenizer → plx_parse_result) :
    plx_parse_result.and_then (some (.NULL, t)) rest = some (.NULL, t) := rfl

theorem and_then_none (rest : plx_node → plx_tokenizer → plx_parse_result) :
    plx_parse_result.and_then none rest = none := rfl

theorem node_of_ne_null (kind : plx_node_kind) (cs : List plx_node) :
    plx_node_of kind cs ≠ .NULL := by
  simp [plx_node_of, plx_new_node, plx_node.set_children]

theorem accept_token_eq (t : plx_tokenizer) :
    plx_accept_token t t.token = (true, plx_next_token t) := by
  simp [plx_accept_token]

theorem accept_token_ne (t : plx_tokenizer) (op : plx_token) (h : t.token ≠ op) :
    plx_accept_token t op = (false, t) := by
  unfold plx_accept_token
  rw [if_neg (fun e => h (Eq.symm e))]

theorem arithmetic_loop_run (op : plx_token) (kind : plx_node_kind)
    (rights : List (plx_node × plx_tokenizer)) :
    ∀ (left : plx_node) (t t_end : plx_tokenizer),
      plx_operator_run plx_parse_unary_expr op t rights t_end →
      plx_returns (fun fuel => plx_parse_arithmetic_expr_loop fuel op kind left) t
        (plx_left_assoc kind left (rights.map Prod.fst), t_end) := by
  induction rights with
  | nil =>
    intro left t t_end h
    obtain ⟨h1, h2⟩ := h
    subst h2
    refine ⟨1, fun fuel hf => ?_⟩
    obtain ⟨n, rfl⟩ : ∃ n, fuel = n + 1 := ⟨fuel - 1, by omega⟩
    simp [plx_parse_arithmetic_expr_loop, accept_token_ne t_end op h1, plx_left_assoc]
  | cons r rest ih =>
    intro left t t_end h
    obtain ⟨e, u⟩ := r
    obtain ⟨h1, h2, ⟨b1, hb1⟩, h4⟩ := h
    obtain ⟨b2, hb2⟩ := ih (plx_node_of kind [left, e]) u t_end h4
    refine ⟨max b1 b2 + 1, fun fuel hf => ?_⟩
    obtain ⟨n, rfl⟩ : ∃ n, fuel = n + 1 := ⟨fuel - 1, by omega⟩
    have hn1 : b1 ≤ n := by omega
    have hn2 : b2 ≤ n := by omega
    subst h1
    have := hb2 n hn2
    simp only [plx_parse_arithmetic_expr_loop, accept_token_eq, if_true, hb1 n hn1,
      and_then_node e u _ h2]
    simpa [plx_left_assoc] using this

theorem logical_loop_run (op : plx_token) (kind : plx_node_kind)
    (rights : List (plx_node × plx_tokenizer)) :
    ∀ (left : plx_node) (t t_end : plx_tokenizer),
      plx_operator_run plx_parse_rel_expr op t rights t_end →
      plx_returns (fun fuel => plx_parse_logical_expr_loop fuel op kind left) t
        (plx_left_assoc kind left (rights.map Prod.fst), t_end) := by
  induction rights with
  | nil =>
    intro left t t_end h
    obtain ⟨h1, h2⟩ := h
    subst h2
    refine ⟨1, fun fuel hf => ?_⟩
    obtain ⟨n, rfl⟩ : ∃ n, fuel = n + 1 := ⟨fuel - 1, by omega⟩
    simp [plx_parse_logical_expr_loop, accept_token_ne t_end op h1, plx_left_assoc]
  | cons r rest ih =>
    intro left t t_end h
    obtain ⟨e, u⟩ := r
    obtain ⟨h1, h2, ⟨b1, hb1⟩, h4⟩ := h
    obtain ⟨b2, hb2⟩ := ih (plx_node_of kind [left, e]) u t_end h4
    refine ⟨max b1 b2 + 1, fun fuel hf => ?_⟩
    obtain ⟨n, rfl⟩ : ∃ n, fuel = n + 1 := ⟨fuel - 1, by omega⟩
    have hn1 : b1 ≤ n := by omega
    have hn2 : b2 ≤ n := by omega
    subst h1
    have := hb2 n hn2
    simp only [plx_parse_logical_expr_loop, accept_token_eq, if_true, hb1 n hn1,
      and_then_node e u _ h2]
    simpa [plx_left_assoc] using this

theorem run_first_token (operand : Nat → plx_tokenizer → plx_parse_result) (op : plx_token)
    (t t_end : plx_tokenizer) (rights : List (plx_node × plx_tokenizer)) (hne : rights ≠ [])
    (h : plx_operator_run operand op t rights t_end) : t.token = op := by
  cases rights with
  | nil => exact absurd rfl hne
  | cons r rest => exact h.1

theorem arithmetic_expr_run (op : plx_token) (kind : plx_node_kind)
    (hk : plx_arithmetic_kind op = some kind) (t u1 t_end : plx_tokenizer) (e1 : plx_node)
    (rights : List (plx_node × plx_tokenizer)) (hne : rights ≠ []) (he : e1 ≠ .NULL)
    (h1 : plx_returns plx_parse_unary_expr t (e1, u1))
    (hr : plx_operator_run plx_parse_unary_expr op u1 rights t_end) :
    plx_returns plx_parse_arithmetic_expr t
      (plx_left_assoc kind e1 (rights.map Prod.fst), t_end) := by
  obtain ⟨b1, hb1⟩ := h1
  obtain ⟨b2, hb2⟩ := arithmetic_loop_run op kind rights e1 u1 t_end hr
  have ht := run_first_token _ op u1 t_end rights hne hr
  refine ⟨max b1 b2 + 1, fun fuel hf => ?_⟩
  obtain ⟨n, rfl⟩ : ∃ n, fuel = n + 1 := ⟨fuel - 1, by omega⟩
  have := hb2 n (by omega)
  simp only [plx_parse_arithmetic_expr, hb1 n (by omega), and_then_node e1 u1 _ he, ht, hk]
  exact this

theorem logical_expr_run (op : plx_token) (kind : plx_node_kind)
    (hk : plx_logical_kind op = some kind) (t u1 t_end : plx_tokenizer) (e1 : plx_node)
    (rights : List (plx_node × plx_tokenizer)) (hne : rights ≠ []) (he : e1 ≠ .NULL)
    (h1 : plx_returns plx_parse_rel_expr t (e1, u1))
    (hr : plx_operator_run plx_parse_rel_expr op u1 rights t_end) :
    plx_returns plx_parse_logical_expr t
      (plx_left_assoc kind e1 (rights.map Prod.fst), t_end) := by
  obtain ⟨b1, hb1⟩ := h1
  obtain ⟨b2, hb2⟩ := logical_loop_run op kind rights e1 u1 t_end hr
  have ht := run_first_token _ op u1 t_end rights hne hr
  refine ⟨max b1 b2 + 1, fun fuel hf => ?_⟩
  obtain ⟨n, rfl⟩ : ∃ n, fuel = n + 1 := ⟨fuel - 1, by omega⟩
  have := hb2 n (by omega)
  simp only [plx_parse_logical_expr, hb1 n (by omega), and_then_node e1 u1 _ he, ht, hk]
  exact this

theorem rel_expr_pair (kind : plx_node_kind) (t u1 u2 : plx_tokenizer) (e1 e2 : plx_node)
    (hk : plx_rel_kind u1.token = some kind) (he1 : e1 ≠ .NULL) (he2 : e2 ≠ .NULL)
    (h1 : plx_returns plx_parse_arithmetic_expr t (e1, u1))
    (h2 : plx_returns plx_parse_arithmetic_expr (plx_next_token u1) (e2, u2)) :
    plx_returns plx_parse_rel_expr t (plx_node_of kind [e1, e2], u2) := by
  obtain ⟨b1, hb1⟩ := h1
  obtain ⟨b2, hb2⟩ := h2
  refine ⟨max b1 b2 + 1, fun fuel hf => ?_⟩
  obtain ⟨n, rfl⟩ : ∃ n, fuel = n + 1 := ⟨fuel - 1, by omega⟩
  simp only [plx_parse_rel_expr, hb1 n (by omega), and_then_node e1 u1 _ he1, hk,
    hb2 n (by omega), and_then_node e2 u2 _ he2]

theorem run_end_token (operand : Nat → plx_tokenizer → plx_parse_result) (op : plx_token)
    (rights : List (plx_node × plx_tokenizer)) :
    ∀ (t t_end : plx_tokenizer), plx_operator_run operand op t rights t_end →
      t_end.token ≠ op := by
  induction rights with
  | nil =>
    intro t t_end h
    obtain ⟨h1, h2⟩ := h
    subst h2
    exact h1
  | cons r rest ih =>
    intro t t_end h
    exact ih r.2 t_end h.2.2.2

theorem int_lit_ne_null (t : plx_tokenizer) : (plx_parse_int_lit t).1 ≠ .NULL := by
  simp [plx_parse_int_lit, plx_new_node, plx_node.set_value]

theorem primary_expr_int (fuel : Nat) (t : plx_tokenizer) (h : t.token = PLX_TOKEN_INT) :
    plx_parse_primary_expr (fuel + 1) t = some (plx_parse_int_lit t) := by
  simp [plx_parse_primary_expr, h]

theorem int_operand_returns (t : plx_tokenizer) (h : t.token = PLX_TOKEN_INT)
    (h1 : (plx_next_token t).token ≠ PLX_TOKEN_OPEN_PAREN)
    (h2 : (plx_next_token t).token ≠ PLX_TOKEN_OPEN_SQUARE_BRACKET)
    (h3 : (plx_next_token t).token ≠ PLX_TOKEN_PERIOD) :
    plx_returns plx_parse_unary_expr t (plx_parse_int_lit t) := by
  refine ⟨3, fun fuel hf => ?_⟩
  obtain ⟨n, rfl⟩ : ∃ n, fuel = n + 3 := ⟨fuel - 3, by omega⟩
  have hp := primary_expr_int n t h
  have hu : plx_unary_kind t.token = none := by rw [h]; rfl
  have hne := int_lit_ne_null t
  have hs : (plx_parse_int_lit t).2 = plx_next_token t := rfl
  simp only [plx_parse_unary_expr, hu, plx_parse_postfix_expr, hp]
  rw [show (some (plx_parse_int_lit t) : plx_parse_result) =
    some ((plx_parse_int_lit t).1, (plx_parse_int_lit t).2) from rfl,
    and_then_node _ _ _ hne, hs]
  simp [h1, h2, h3]

theorem paren_never_returns (t : plx_tokenizer) (h : t.token = PLX_TOKEN_OPEN_PAREN)
    (fuel : Nat) :
    plx_parse_primary_expr fuel t = none ∧ plx_parse_postfix_expr fuel t = none ∧
    plx_parse_unary_expr fuel t = none ∧ plx_parse_arithmetic_expr fuel t = none ∧
    plx_parse_rel_expr fuel t = none ∧ plx_parse_logical_expr fuel t = none ∧
    plx_parse_expr fuel t = none := by
  induction fuel with
  | zero =>
    simp [plx_parse_primary_expr, plx_parse_postfix_expr, plx_parse_unary_expr,
      plx_parse_arithmetic_expr, plx_parse_rel_expr, plx_parse_logical_expr, plx_parse_expr]
  | succ n ih =>
    obtain ⟨i1, i2, i3, i4, i5, i6, i7⟩ := ih
    have hu : plx_unary_kind t.token = none := by rw [h]; rfl
    refine ⟨?_, ?_, ?_, ?_, ?_, ?_, ?_⟩
    · simp [plx_parse_primary_expr, h, i7]
    · simp [plx_parse_postfix_expr, i1, and_then_none]
    · simp [plx_parse_unary_expr, hu, i2]
    · simp [plx_parse_arithmetic_expr, i3, and_then_none]
    · simp [plx_parse_rel_expr, i4, and_then_none]
    · simp [plx_parse_logical_expr, i5, and_then_none]
    · simp [plx_parse_expr, i6]

/-- C11: For a tokenizer whose current token is an integer literal with value
`v`, `plx_parse_int_lit`, and with it `plx_parse_primary_expr`, returns a
childless node of kind `PLX_NODE_S32` whose `uint` is `v`, and leaves the
tokenizer one `plx_next_token` further. -/
theorem plx_parse_int_lit_s32 (t : plx_tokenizer) (fuel : Nat)
    (h : t.token = PLX_TOKEN_INT) :
    plx_parse_int_lit t =
      (.node PLX_NODE_S32 (.uint t.uint) .NULL .NULL .NULL, plx_next_token t) ∧
    plx_parse_primary_expr (fuel + 1) t =
      some (.node PLX_NODE_S32 (.uint t.uint) .NULL .NULL .NULL, plx_next_token t) := by
  have h1 : plx_parse_int_lit t =
      (.node PLX_NODE_S32 (.uint t.uint) .NULL .NULL .NULL, plx_next_token t) := rfl
  exact ⟨h1, by rw [primary_expr_int fuel t h, h1]⟩

/-- Witness for C11: the source text `42;`. -/
theorem plx_parse_int_lit_s32_witness :
    plx_parse_primary_expr 1 (plx_tokenizer_init (c_literal "42;")) =
      some (.node PLX_NODE_S32 (.uint 42) .NULL .NULL .NULL,
        plx_next_token (plx_tokenizer_init (c_literal "42;"))) :=
  (plx_parse_int_lit_s32 (plx_tokenizer_init (c_literal "42;")) 0 (by decide)).2

/-- C12: A run of one arithmetic operator over operands parsed by
`plx_parse_unary_expr`, and a run of one logical operator over operands parsed
by `plx_parse_rel_expr`, is parsed to the left-nested tree of the operands and
ends at the first tokenizer whose token is not that operator, which is left as
it is; `plx_parse_rel_expr` takes two operands parsed by
`plx_parse_arithmetic_expr` and returns after the second one, whatever token
follows. -/
theorem plx_parse_operator_runs (op : plx_token) (kind : plx_node_kind)
    (t u1 t_end : plx_tokenizer) (e1 : plx_node) (rights : List (plx_node × plx_tokenizer))
    (hne : rights ≠ []) (he : e1 ≠ .NULL) :
    (plx_arithmetic_kind op = some kind →
      plx_returns plx_parse_unary_expr t (e1, u1) →
      plx_operator_run plx_parse_unary_expr op u1 rights t_end →
      plx_returns plx_parse_arithmetic_expr t
        (plx_left_assoc kind e1 (rights.map Prod.fst), t_end) ∧ t_end.token ≠ op) ∧
    (plx_logical_kind op = some kind →
      plx_returns plx_parse_rel_expr t (e1, u1) →
      plx_operator_run plx_parse_rel_expr op u1 rights t_end →
      plx_returns plx_parse_logical_expr t
        (plx_left_assoc kind e1 (rights.map Prod.fst), t_end) ∧ t_end.token ≠ op) ∧
    (∀ (e2 : plx_node) (u2 : plx_tokenizer), plx_rel_kind u1.token = some kind →
      e2 ≠ .NULL → plx_returns plx_parse_arithmetic_expr t (e1, u1) →
      plx_returns plx_parse_arithmetic_expr (plx_next_token u1) (e2, u2) →
      plx_returns plx_parse_rel_expr t (plx_node_of kind [e1, e2], u2)) :=
  ⟨fun hk h1 hr => ⟨arithmetic_expr_run op kind hk t u1 t_end e1 rights hne he h1 hr,
      run_end_token _ op rights u1 t_end hr⟩,
    fun hk h1 hr => ⟨logical_expr_run op kind hk t u1 t_end e1 rights hne he h1 hr,
      run_end_token _ op rights u1 t_end hr⟩,
    fun e2 u2 hk he2 h1 h2 => rel_expr_pair kind t u1 u2 e1 e2 hk he he2 h1 h2⟩

/-- The tokenizers of the source text `1 + 2 + 3 * 4` before its operands. -/
def run_example (i : Nat) : plx_tokenizer :=
  match i with
  | 0 => plx_tokenizer_init (c_literal "1 + 2 + 3 * 4")
  | i + 1 => plx_next_token (plx_next_token (run_example i))

set_option maxRecDepth 100000 in
/-- Witness for C12: `1 + 2 + 3 * 4` is parsed by `plx_parse_arithmetic_expr` to
`(1 + 2) + 3`, and the tokenizer is left at the `*`. -/
theorem plx_parse_operator_runs_witness :
    plx_returns plx_parse_arithmetic_expr (run_example 0)
      (plx_node_of PLX_NODE_ADD
        [plx_node_of PLX_NODE_ADD
          [.node PLX_NODE_S32 (.uint 1) .NULL .NULL .NULL,
            .node PLX_NODE_S32 (.uint 2) .NULL .NULL .NULL],
          .node PLX_NODE_S32 (.uint 3) .NULL .NULL .NULL],
        plx_next_token (run_example 2)) ∧
    (plx_next_token (run_example 2)).token = PLX_TOKEN_MUL :=
  ⟨((plx_parse_operator_runs PLX_TOKEN_ADD PLX_NODE_ADD (run_example 0)
      (plx_next_token (run_example 0)) (plx_next_token (run_example 2))
      (plx_parse_int_lit (run_example 0)).1
      [plx_parse_int_lit (run_example 1), plx_parse_int_lit (run_example 2)]
      (by simp) (int_lit_ne_null _)).1 rfl
      (int_operand_returns (run_example 0) (by decide) (by decide) (by decide) (by decide))
      ⟨by decide, int_lit_ne_null _,
        int_operand_returns (run_example 1) (by decide) (by decide) (by decide) (by decide),
        by decide, int_lit_ne_null _,
        int_operand_returns (run_example 2) (by decide) (by decide) (by decide) (by decide),
        by decide, rfl⟩).1,
    by decide⟩

/-- C13: For a tokenizer whose current token is a float literal,
`plx_parse_primary_expr` returns `NULL` and leaves the tokenizer as it is: the
`switch` has no case for `PLX_TOKEN_FLOAT`. -/
theorem plx_parse_primary_expr_float (t : plx_tokenizer) (fuel : Nat)
    (h : t.token = PLX_TOKEN_FLOAT) :
    plx_parse_primary_expr (fuel + 1) t = some (.NULL, t) := by
  simp [plx_parse_primary_expr, h]

/-- Witness for C13: the source text `1.5`. -/
theorem plx_parse_primary_expr_float_witness :
    (plx_tokenizer_init (c_literal "1.5")).token = PLX_TOKEN_FLOAT ∧
    plx_parse_primary_expr 1 (plx_tokenizer_init (c_literal "1.5")) =
      some (.NULL, plx_tokenizer_init (c_literal "1.5")) :=
  ⟨by decide, plx_parse_primary_expr_float (plx_tokenizer_init (c_literal "1.5")) 0 (by decide)⟩

/-- C14: For a tokenizer whose current token is an opening parenthesis,
`plx_parse_primary_expr` does not return, whatever the bound on the depth of
calls: it calls `plx_parse_expr` without consuming the parenthesis, and the
calls come back to `plx_parse_primary_expr` on the same tokenizer. -/
theorem plx_parse_primary_expr_paren (t : plx_tokenizer) (fuel : Nat)
    (h : t.token = PLX_TOKEN_OPEN_PAREN) :
    plx_parse_primary_expr fuel t = none ∧ plx_parse_expr fuel t = none :=
  ⟨(paren_never_returns t h fuel).1, (paren_never_returns t h fuel).2.2.2.2.2.2⟩

/-- Witness for C14: the source text `(1)`, with the bound 1000. -/
theorem plx_parse_primary_expr_paren_witness :
    plx_parse_primary_expr 1000 (plx_tokenizer_init (c_literal "(1)")) = none :=
  (plx_parse_primary_expr_paren (plx_tokenizer_init (c_literal "(1)")) 1000 (by decide)).1

/-- C15: `plx_parse_type` returns `NULL`, without consuming the token, for the
keywords `f16` and `bool`; for each of `s8`, `s16`, `s32`, `s64`, `u8`, `u16`,
`u32`, `u64`, `f32`, `f64` it consumes the token and returns a childless node of
the corresponding type kind. -/
theorem plx_parse_type_primitive (t : plx_tokenizer) (fuel : Nat)
    (h : t.token = PLX_TOKEN_F16 ∨ t.token = PLX_TOKEN_BOOL) :
    plx_parse_type (fuel + 1) t = some (.NULL, t) ∧
    ∀ (p : plx_token × plx_node_kind) (u : plx_tokenizer),
      p ∈ [(PLX_TOKEN_S8, PLX_NODE_S8_TYPE), (PLX_TOKEN_S16, PLX_NODE_S16_TYPE),
        (PLX_TOKEN_S32, PLX_NODE_S32_TYPE), (PLX_TOKEN_S64, PLX_NODE_S64_TYPE),
        (PLX_TOKEN_U8, PLX_NODE_U8_TYPE), (PLX_TOKEN_U16, PLX_NODE_U16_TYPE),
        (PLX_TOKEN_U32, PLX_NODE_U32_TYPE), (PLX_TOKEN_U64, PLX_NODE_U64_TYPE),
        (PLX_TOKEN_F32, PLX_NODE_F32_TYPE), (PLX_TOKEN_F64, PLX_NODE_F64_TYPE)] →
      u.token = p.1 →
      plx_parse_type (fuel + 1) u = some (plx_new_node p.2, plx_next_token u) := by
  refine ⟨?_, fun p u hp hu => ?_⟩
  · rcases h with h | h <;> simp [plx_parse_type, h]
  · simp only [List.mem_cons, List.mem_singleton, List.not_mem_nil, or_false] at hp
    rcases hp with hp | hp | hp | hp | hp | hp | hp | hp | hp | hp <;> subst hp <;>
      simp [plx_parse_type, hu]

/-- Witness for C15: the source text `bool`. -/
theorem plx_parse_type_primitive_witness :
    (plx_tokenizer_init (c_literal "bool")).token = PLX_TOKEN_BOOL ∧
    plx_parse_type 1 (plx_tokenizer_init (c_literal "bool")) =
      some (.NULL, plx_tokenizer_init (c_literal "bool")) :=
  ⟨by decide,
    (plx_parse_type_primitive (plx_tokenizer_init (c_literal "bool")) 0
      (Or.inr (by decide))).1⟩

/-- Every node of a list of siblings is an `other` node with exactly two
children: the shape of the parameters of a function and of the members of a
structure. -/
def plx_members_ok : plx_node → Bool
  | .NULL => true
  | .node k _ c n _ => decide (k = PLX_NODE_OTHER) && decide (plx_count_siblings c = 2) &&
      plx_members_ok n

/-- The shape of the children of a node of a kind, `c` being the first child. -/
def plx_kind_shape (k : plx_node_kind) (c : plx_node) : Bool :=
  match k with
  | PLX_NODE_CONST_DEF | PLX_NODE_VAR_DEF | PLX_NODE_VAR_DECL => plx_count_siblings c = 2
  | PLX_NODE_FUNC_DEF => plx_count_siblings c = 4 && plx_members_ok c.next.children
  | PLX_NODE_STRUCT_DEF | PLX_NODE_STRUCT =>
    plx_count_siblings c = 2 && plx_members_ok c.next.children
  | PLX_NODE_IF_THEN_ELSE => plx_count_siblings c = 3
  | PLX_NODE_WHILE_LOOP => plx_count_siblings c = 2
  | PLX_NODE_LOOP => plx_count_siblings c = 1
  | PLX_NODE_ASSIGN | PLX_NODE_ADD_ASSIGN | PLX_NODE_SUB_ASSIGN | PLX_NODE_MUL_ASSIGN
  | PLX_NODE_DIV_ASSIGN | PLX_NODE_REM_ASSIGN | PLX_NODE_LSHIFT_ASSIGN
  | PLX_NODE_RSHIFT_ASSIGN => plx_count_siblings c = 2
  | PLX_NODE_AND | PLX_NODE_OR | PLX_NODE_XOR | PLX_NODE_EQ | PLX_NODE_NEQ | PLX_NODE_LTE
  | PLX_NODE_LT | PLX_NODE_GTE | PLX_NODE_GT | PLX_NODE_ADD | PLX_NODE_SUB | PLX_NODE_MUL
  | PLX_NODE_DIV | PLX_NODE_REM | PLX_NODE_LSHIFT | PLX_NODE_RSHIFT =>
    plx_count_siblings c = 2
  | PLX_NODE_NOT | PLX_NODE_NEG | PLX_NODE_REF | PLX_NODE_DEREF => plx_count_siblings c = 1
  | PLX_NODE_ARRAY_TYPE => plx_count_siblings c = 2
  | _ => true

/-- Every node reachable from a node through `children` and `next` has the
children its kind asks for. -/
def plx_shape_ok : plx_node → Bool
  | .NULL => true
  | .node k _ c n _ => plx_kind_shape k c && plx_shape_ok c && plx_shape_ok n

/-- What every parse function returns: `NULL`, or a node without a next sibling
whose tree has the shape of its kinds. -/
def plx_parsed_ok (e : plx_node) : Prop := plx_shape_ok e = true ∧ e.next = .NULL

/-- What the loops that collect parameters or members return: in addition, each
child is an `other` node with two children. -/
def plx_parsed_members_ok (e : plx_node) : Prop :=
  plx_parsed_ok e ∧ plx_members_ok e.children = true

/-- A parse result, when there is one, has a node with the property `Q`. -/
def plx_ensures (r : plx_parse_result) (Q : plx_node → Prop) : Prop :=
  ∀ e u, r = some (e, u) → Q e

theorem ensures_none (Q : plx_node → Prop) : plx_ensures none Q := by
  intro e u h
  cases h

theorem ensures_some (Q : plx_node → Prop) (e : plx_node) (t : plx_tokenizer) (h : Q e) :
    plx_ensures (some (e, t)) Q := by
  intro e1 u h1
  cases h1
  exact h

theorem ensures_and_then (r : plx_parse_result)
    (rest : plx_node → plx_tokenizer → plx_parse_result) (P Q : plx_node → Prop)
    (hnull : Q .NULL) (hr : plx_ensures r P)
    (hrest : ∀ k v c n ty t, P (.node k v c n ty) → plx_ensures (rest (.node k v c n ty) t) Q) :
    plx_ensures (r.and_then rest) Q := by
  intro e u h
  cases r with
  | none => cases h
  | some p =>
    obtain ⟨e1, t1⟩ := p
    cases e1 with
    | NULL =>
      cases h
      exact hnull
    | node k v c n ty => exact hrest k v c n ty t1 (hr _ _ rfl) e u h

theorem ensures_expect (t : plx_tokenizer) (token : plx_token)
    (rest : plx_tokenizer → plx_parse_result) (Q : plx_node → Prop)
    (hnull : Q .NULL) (hrest : ∀ t1, plx_ensures (rest t1) Q) :
    plx_ensures (plx_expect_token t token rest) Q := by
  intro e u h
  unfold plx_expect_token at h
  split at h
  · exact hrest _ e u h
  · cases h
    exact hnull

theorem ensures_mono (r : plx_parse_result) (P Q : plx_node → Prop)
    (h : plx_ensures r P) (hPQ : ∀ e, P e → Q e) : plx_ensures r Q :=
  fun e u he => hPQ e (h e u he)

theorem parsed_ok_null : plx_parsed_ok .NULL := ⟨rfl, rfl⟩

theorem parsed_members_ok_null : plx_parsed_members_ok .NULL := ⟨parsed_ok_null, rfl⟩

theorem parsed_ok_identifier (t : plx_tokenizer) : plx_parsed_ok (plx_parse_identifier t).1 := by
  unfold plx_parse_identifier
  split <;> simp [plx_parsed_ok, plx_shape_ok, plx_new_node, plx_node.set_value, plx_node.next,
    plx_kind_shape]

theorem ensures_identifier (t : plx_tokenizer) :
    plx_ensures (some (plx_parse_identifier t)) plx_parsed_ok :=
  ensures_some _ _ _ (parsed_ok_identifier t)

theorem parsed_ok_node (k : plx_node_kind) (v : plx_node_value) (c n ty : plx_node) :
    plx_parsed_ok (.node k v c n ty) ↔
      plx_kind_shape k c = true ∧ plx_shape_ok c = true ∧ n = .NULL := by
  unfold plx_parsed_ok
  constructor
  · rintro ⟨h1, h2⟩
    simp only [plx_node.next] at h2
    subst h2
    simpa [plx_shape_ok] using h1
  · rintro ⟨h1, h2, h3⟩
    subst h3
    simp [plx_shape_ok, h1, h2, plx_node.next]

theorem shape_append (c x : plx_node) (hc : plx_shape_ok c = true) (hx : plx_shape_ok x = true) :
    plx_shape_ok (c.append x) = true := by
  induction c with
  | NULL => simpa [plx_node.append] using hx
  | node k v c1 n ty ih1 ih2 ih3 =>
    simp only [plx_shape_ok, Bool.and_eq_true] at hc
    simp [plx_node.append, plx_shape_ok, hc.1.1, hc.1.2, ih2 hc.2]

theorem members_append (c x : plx_node) (hc : plx_members_ok c = true)
    (hx : plx_members_ok x = true) : plx_members_ok (c.append x) = true := by
  induction c with
  | NULL => simpa [plx_node.append] using hx
  | node k v c1 n ty ih1 ih2 ih3 =>
    simp only [plx_members_ok, Bool.and_eq_true] at hc
    simp only [plx_node.append, plx_members_ok, Bool.and_eq_true]
    exact ⟨hc.1, ih2 hc.2⟩

/-- A node that collects children: it has no shape condition of its own. -/
def plx_collector (k : plx_node_kind) : Prop := ∀ c, plx_kind_shape k c = true

theorem parsed_ok_append_child (k : plx_node_kind) (v : plx_node_value) (c n ty x : plx_node)
    (hk : plx_collector k) (h : plx_parsed_ok (.node k v c n ty)) (hx : plx_parsed_ok x) :
    plx_parsed_ok ((plx_node.node k v c n ty).append_child x) := by
  rw [parsed_ok_node] at h
  simp only [plx_node.append_child]
  rw [parsed_ok_node]
  exact ⟨hk _, shape_append c x h.2.1 hx.1, h.2.2⟩

theorem collector_other : plx_collector PLX_NODE_OTHER := fun _ => rfl

theorem collector_block : plx_collector PLX_NODE_BLOCK := fun _ => rfl

theorem collector_module : plx_collector PLX_NODE_MODULE := fun _ => rfl

theorem parsed_ok_new (k : plx_node_kind) (hk : plx_collector k) :
    plx_parsed_ok (plx_new_node k) := by
  unfold plx_new_node
  rw [parsed_ok_node]
  exact ⟨hk _, rfl, rfl⟩

theorem parsed_ok_leaf (k : plx_node_kind) (v : plx_node_value)
    (hk : plx_kind_shape k .NULL = true) : plx_parsed_ok (.node k v .NULL .NULL .NULL) := by
  rw [parsed_ok_node]
  exact ⟨hk, rfl, rfl⟩

theorem parsed_ok_of1 (kind : plx_node_kind) (a : plx_node)
    (hk : ∀ c, plx_count_siblings c = 1 → plx_kind_shape kind c = true)
    (ha : plx_parsed_ok a) (hane : a ≠ .NULL) : plx_parsed_ok (plx_node_of kind [a]) := by
  cases a with
  | NULL => exact absurd rfl hane
  | node k v c n ty =>
    rw [parsed_ok_node] at ha
    obtain ⟨h1, h2, h3⟩ := ha
    subst h3
    simp only [plx_node_of, plx_new_node, plx_node.set_children, List.foldr, plx_node.set_next]
    rw [parsed_ok_node]
    refine ⟨hk _ (by simp [plx_count_siblings]), ?_, rfl⟩
    simp [plx_shape_ok, h1, h2]

theorem parsed_ok_of2 (kind : plx_node_kind) (a b : plx_node)
    (hk : ∀ c, plx_count_siblings c = 2 → plx_members_ok c.next.children = true →
      plx_kind_shape kind c = true)
    (ha : plx_parsed_ok a) (hane : a ≠ .NULL) (hb : plx_parsed_members_ok b)
    (hbne : b ≠ .NULL) : plx_parsed_ok (plx_node_of kind [a, b]) := by
  cases a with
  | NULL => exact absurd rfl hane
  | node k v c n ty =>
    cases b with
    | NULL => exact absurd rfl hbne
    | node k2 v2 c2 n2 ty2 =>
      obtain ⟨hb1, hb2⟩ := hb
      rw [parsed_ok_node] at ha hb1
      obtain ⟨h1, h2, h3⟩ := ha
      obtain ⟨g1, g2, g3⟩ := hb1
      subst h3
      subst g3
      simp only [plx_node_of, plx_new_node, plx_node.set_children, List.foldr,
        plx_node.set_next]
      rw [parsed_ok_node]
      refine ⟨hk _ (by simp [plx_count_siblings]) (by simpa [plx_node.next] using hb2), ?_, rfl⟩
      simp [plx_shape_ok, h1, h2, g1, g2]

theorem parsed_ok_of3 (kind : plx_node_kind) (a b c : plx_node)
    (hk : ∀ c, plx_count_siblings c = 3 → plx_kind_shape kind c = true)
    (ha : plx_parsed_ok a) (hane : a ≠ .NULL) (hb : plx_parsed_ok b) (hbne : b ≠ .NULL)
    (hc : plx_parsed_ok c) (hcne : c ≠ .NULL) : plx_parsed_ok (plx_node_of kind [a, b, c]) := by
  cases a with
  | NULL => exact absurd rfl hane
  | node k v c1 n ty =>
    cases b with
    | NULL => exact absurd rfl hbne
    | node k2 v2 c2 n2 ty2 =>
      cases c with
      | NULL => exact absurd rfl hcne
      | node k3 v3 c3 n3 ty3 =>
        rw [parsed_ok_node] at ha hb hc
        obtain ⟨h1, h2, h3⟩ := ha
        obtain ⟨g1, g2, g3⟩ := hb
        obtain ⟨f1, f2, f3⟩ := hc
        subst h3
        subst g3
        subst f3
        simp only [plx_node_of, plx_new_node, plx_node.set_children, List.foldr,
          plx_node.set_next]
        rw [parsed_ok_node]
        refine ⟨hk _ (by simp [plx_count_siblings]), ?_, rfl⟩
        simp [plx_shape_ok, h1, h2, g1, g2, f1, f2]

theorem parsed_ok_of4 (kind : plx_node_kind) (a b c d : plx_node)
    (hk : ∀ c, plx_count_siblings c = 4 → plx_members_ok c.next.children = true →
      plx_kind_shape kind c = true)
    (ha : plx_parsed_ok a) (hane : a ≠ .NULL) (hb : plx_parsed_members_ok b)
    (hbne : b ≠ .NULL) (hc : plx_parsed_ok c) (hcne : c ≠ .NULL)
    (hd : plx_parsed_ok d) (hdne : d ≠ .NULL) :
    plx_parsed_ok (plx_node_of kind [a, b, c, d]) := by
  cases a with
  | NULL => exact absurd rfl hane
  | node k v c1 n ty =>
    cases b with
    | NULL => exact absurd rfl hbne
    | node k2 v2 c2 n2 ty2 =>
      cases c with
      | NULL => exact absurd rfl hcne
      | node k3 v3 c3 n3 ty3 =>
        cases d with
        | NULL => exact absurd rfl hdne
        | node k4 v4 c4 n4 ty4 =>
          obtain ⟨hb1, hb2⟩ := hb
          rw [parsed_ok_node] at ha hb1 hc hd
          obtain ⟨h1, h2, h3⟩ := ha
          obtain ⟨g1, g2, g3⟩ := hb1
          obtain ⟨f1, f2, f3⟩ := hc
          obtain ⟨d1, d2, d3⟩ := hd
          subst h3
          subst g3
          subst f3
          subst d3
          simp only [plx_node_of, plx_new_node, plx_node.set_children, List.foldr,
            plx_node.set_next]
          rw [parsed_ok_node]
          refine ⟨hk _ (by simp [plx_count_siblings]) (by simpa [plx_node.next] using hb2),
            ?_, rfl⟩
          simp [plx_shape_ok, h1, h2, g1, g2, f1, f2, d1, d2]

theorem parsed_members_of_ok (e : plx_node) (h : plx_parsed_ok e)
    (hm : plx_members_ok e.children = true) : plx_parsed_members_ok e := ⟨h, hm⟩

theorem member_node_ok (a b : plx_node) (ha : plx_parsed_ok a) (hane : a ≠ .NULL)
    (hb : plx_parsed_ok b) (hbne : b ≠ .NULL) :
    plx_parsed_ok (plx_node_of PLX_NODE_OTHER [a, b]) ∧
      plx_members_ok (plx_node_of PLX_NODE_OTHER [a, b]) = true := by
  cases a with
  | NULL => exact absurd rfl hane
  | node k v c n ty =>
    cases b with
    | NULL => exact absurd rfl hbne
    | node k2 v2 c2 n2 ty2 =>
      rw [parsed_ok_node] at ha hb
      obtain ⟨h1, h2, h3⟩ := ha
      obtain ⟨g1, g2, g3⟩ := hb
      subst h3
      subst g3
      simp only [plx_node_of, plx_new_node, plx_node.set_children, List.foldr,
        plx_node.set_next]
      rw [parsed_ok_node]
      refine ⟨⟨rfl, ?_, rfl⟩, ?_⟩
      · simp [plx_shape_ok, h1, h2, g1, g2]
      · simp [plx_members_ok, plx_count_siblings]

theorem members_append_child (k : plx_node_kind) (v : plx_node_value) (c n ty x : plx_node)
    (hk : plx_collector k) (h : plx_parsed_members_ok (.node k v c n ty))
    (hx : plx_parsed_ok x) (hxm : plx_members_ok x = true) :
    plx_parsed_members_ok ((plx_node.node k v c n ty).append_child x) := by
  refine ⟨parsed_ok_append_child k v c n ty x hk h.1 hx, ?_⟩
  have h2 := h.2
  simp only [plx_node.children] at h2
  simp only [plx_node.append_child, plx_node.children]
  exact members_append c x h2 hxm

/-- A kind whose nodes have exactly the condition of two children. -/
def plx_binary_shape (kind : plx_node_kind) : Prop :=
  ∀ c, plx_count_siblings c = 2 → plx_kind_shape kind c = true

theorem binary_shape_of2 (kind : plx_node_kind) (hk : plx_binary_shape kind) (a b : plx_node)
    (ha : plx_parsed_ok a) (hane : a ≠ .NULL) (hb : plx_parsed_ok b) (hbne : b ≠ .NULL) :
    plx_parsed_ok (plx_node_of kind [a, b]) := by
  cases a with
  | NULL => exact absurd rfl hane
  | node k v c n ty =>
    cases b with
    | NULL => exact absurd rfl hbne
    | node k2 v2 c2 n2 ty2 =>
      rw [parsed_ok_node] at ha hb
      obtain ⟨h1, h2, h3⟩ := ha
      obtain ⟨g1, g2, g3⟩ := hb
      subst h3
      subst g3
      simp only [plx_node_of, plx_new_node, plx_node.set_children, List.foldr,
        plx_node.set_next]
      rw [parsed_ok_node]
      refine ⟨hk _ (by simp [plx_count_siblings]), ?_, rfl⟩
      simp [plx_shape_ok, h1, h2, g1, g2]

theorem logical_kind_shape (op : plx_token) (kind : plx_node_kind)
    (h : plx_logical_kind op = some kind) : plx_binary_shape kind := by
  cases op <;> simp [plx_logical_kind] at h <;> subst h <;> intro c hc <;>
    simp [plx_kind_shape, hc]

theorem rel_kind_shape (op : plx_token) (kind : plx_node_kind)
    (h : plx_rel_kind op = some kind) : plx_binary_shape kind := by
  cases op <;> simp [plx_rel_kind] at h <;> subst h <;> intro c hc <;>
    simp [plx_kind_shape, hc]

theorem arithmetic_kind_shape (op : plx_token) (kind : plx_node_kind)
    (h : plx_arithmetic_kind op = some kind) : plx_binary_shape kind := by
  cases op <;> simp [plx_arithmetic_kind] at h <;> subst h <;> intro c hc <;>
    simp [plx_kind_shape, hc]

theorem assign_kind_shape (op : plx_token) (kind : plx_node_kind)
    (h : plx_assign_kind op = some kind) : plx_binary_shape kind := by
  cases op <;> simp [plx_assign_kind] at h <;> subst h <;> intro c hc <;>
    simp [plx_kind_shape, hc]

theorem unary_kind_shape (op : plx_token) (kind : plx_node_kind)
    (h : plx_unary_kind op = some kind) :
    ∀ c, plx_count_siblings c = 1 → plx_kind_shape kind c = true := by
  cases op <;> simp [plx_unary_kind] at h <;> subst h <;> intro c hc <;>
    simp [plx_kind_shape, hc]

theorem node_ne_null (k : plx_node_kind) (v : plx_node_value) (c n ty : plx_node) :
    plx_node.node k v c n ty ≠ .NULL := by
  intro h
  cases h

theorem binary_other : plx_binary_shape PLX_NODE_OTHER := fun _ _ => rfl

theorem binary_call : plx_binary_shape PLX_NODE_CALL := fun _ _ => rfl

theorem binary_index : plx_binary_shape PLX_NODE_INDEX := fun _ _ => rfl

theorem binary_field : plx_binary_shape PLX_NODE_FIELD := fun _ _ => rfl

theorem parsed_ok_string_lit (t : plx_tokenizer) :
    plx_parsed_ok (plx_parse_string_lit t).1 := by
  unfold plx_parse_string_lit
  split
  · exact parsed_ok_null
  · exact parsed_ok_leaf _ _ rfl

/-- The statement of the shape invariant for the functions that parse
expressions, at one bound. -/
def plx_expr_layer_ok (fuel : Nat) : Prop :=
  (∀ t, plx_ensures (plx_parse_expr fuel t) plx_parsed_ok) ∧
  (∀ t, plx_ensures (plx_parse_logical_expr fuel t) plx_parsed_ok) ∧
  (∀ op kind k v c n ty t, plx_binary_shape kind → plx_parsed_ok (.node k v c n ty) →
    plx_ensures (plx_parse_logical_expr_loop fuel op kind (.node k v c n ty) t) plx_parsed_ok) ∧
  (∀ t, plx_ensures (plx_parse_rel_expr fuel t) plx_parsed_ok) ∧
  (∀ t, plx_ensures (plx_parse_arithmetic_expr fuel t) plx_parsed_ok) ∧
  (∀ op kind k v c n ty t, plx_binary_shape kind → plx_parsed_ok (.node k v c n ty) →
    plx_ensures (plx_parse_arithmetic_expr_loop fuel op kind (.node k v c n ty) t)
      plx_parsed_ok) ∧
  (∀ t, plx_ensures (plx_parse_unary_expr fuel t) plx_parsed_ok) ∧
  (∀ t, plx_ensures (plx_parse_postfix_expr fuel t) plx_parsed_ok) ∧
  (∀ v c n ty t, plx_parsed_ok (.node PLX_NODE_OTHER v c n ty) →
    plx_ensures (plx_parse_args_loop fuel (.node PLX_NODE_OTHER v c n ty) t) plx_parsed_ok) ∧
  (∀ t, plx_ensures (plx_parse_primary_expr fuel t) plx_parsed_ok) ∧
  (∀ t, plx_ensures (plx_parse_identifier_or_struct fuel t) plx_parsed_ok) ∧
  (∀ v c n ty t, plx_parsed_members_ok (.node PLX_NODE_OTHER v c n ty) →
    plx_ensures (plx_parse_struct_members_loop fuel (.node PLX_NODE_OTHER v c n ty) t)
      plx_parsed_members_ok)

theorem expr_layer_ok (fuel : Nat) : plx_expr_layer_ok fuel := by
  induction fuel with
  | zero =>
    refine ⟨?_, ?_, ?_, ?_, ?_, ?_, ?_, ?_, ?_, ?_, ?_, ?_⟩ <;> intros <;>
      simp only [plx_parse_expr, plx_parse_logical_expr, plx_parse_logical_expr_loop,
        plx_parse_rel_expr, plx_parse_arithmetic_expr, plx_parse_arithmetic_expr_loop,
        plx_parse_unary_expr, plx_parse_postfix_expr, plx_parse_args_loop,
        plx_parse_primary_expr, plx_parse_identifier_or_struct,
        plx_parse_struct_members_loop] <;> exact ensures_none _
  | succ fuel ih =>
    obtain ⟨iexpr, ilog, ilogl, irel, iar, iarl, iun, ipost, iargs, iprim, iids, imem⟩ := ih
    refine ⟨?_, ?_, ?_, ?_, ?_, ?_, ?_, ?_, ?_, ?_, ?_, ?_⟩
    · intro t
      simp only [plx_parse_expr]
      exact ilog t
    · intro t
      simp only [plx_parse_logical_expr]
      refine ensures_and_then _ _ plx_parsed_ok _ parsed_ok_null (irel t) ?_
      intro k v c n ty t1 h
      split
      · exact ensures_some _ _ _ h
      · rename_i kind hk
        exact ilogl _ kind k v c n ty t1 (logical_kind_shape _ _ hk) h
    · intro op kind k v c n ty t hk h
      simp only [plx_parse_logical_expr_loop]
      split
      · refine ensures_and_then _ _ plx_parsed_ok _ parsed_ok_null (irel _) ?_
        intro k2 v2 c2 n2 ty2 t1 h2
        have hn := binary_shape_of2 kind hk _ _ h (node_ne_null _ _ _ _ _) h2
          (node_ne_null _ _ _ _ _)
        simp only [plx_node_of, plx_new_node, plx_node.set_children] at hn ⊢
        exact ilogl op kind _ _ _ _ _ t1 hk hn
      · exact ensures_some _ _ _ h
    · intro t
      simp only [plx_parse_rel_expr]
      refine ensures_and_then _ _ plx_parsed_ok _ parsed_ok_null (iar t) ?_
      intro k v c n ty t1 h
      split
      · exact ensures_some _ _ _ h
      · rename_i kind hk
        refine ensures_and_then _ _ plx_parsed_ok _ parsed_ok_null (iar _) ?_
        intro k2 v2 c2 n2 ty2 t2 h2
        exact ensures_some _ _ _ (binary_shape_of2 kind (rel_kind_shape _ _ hk) _ _ h
          (node_ne_null _ _ _ _ _) h2 (node_ne_null _ _ _ _ _))
    · intro t
      simp only [plx_parse_arithmetic_expr]
      refine ensures_and_then _ _ plx_parsed_ok _ parsed_ok_null (iun t) ?_
      intro k v c n ty t1 h
      split
      · exact ensures_some _ _ _ h
      · rename_i kind hk
        exact iarl _ kind k v c n ty t1 (arithmetic_kind_shape _ _ hk) h
    · intro op kind k v c n ty t hk h
      simp only [plx_parse_arithmetic_expr_loop]
      split
      · refine ensures_and_then _ _ plx_parsed_ok _ parsed_ok_null (iun _) ?_
        intro k2 v2 c2 n2 ty2 t1 h2
        have hn := binary_shape_of2 kind hk _ _ h (node_ne_null _ _ _ _ _) h2
          (node_ne_null _ _ _ _ _)
        simp only [plx_node_of, plx_new_node, plx_node.set_children] at hn ⊢
        exact iarl op kind _ _ _ _ _ t1 hk hn
      · exact ensures_some _ _ _ h
    · intro t
      simp only [plx_parse_unary_expr]
      split
      · exact ipost t
      · rename_i kind hk
        refine ensures_and_then _ _ plx_parsed_ok _ parsed_ok_null (iun _) ?_
        intro k v c n ty t1 h
        exact ensures_some _ _ _ (parsed_ok_of1 kind _ (unary_kind_shape _ _ hk) h
          (node_ne_null _ _ _ _ _))
    · intro t
      simp only [plx_parse_postfix_expr]
      refine ensures_and_then _ _ plx_parsed_ok _ parsed_ok_null (iprim t) ?_
      intro k v c n ty t1 h
      split
      · split
        · exact ensures_some _ _ _ (binary_shape_of2 _ binary_call _ _ h
            (node_ne_null _ _ _ _ _) (parsed_ok_new _ collector_other) (node_ne_null _ _ _ _ _))
        · refine ensures_and_then _ _ plx_parsed_ok _ parsed_ok_null
            (iargs _ _ _ _ _ (parsed_ok_new _ collector_other)) ?_
          intro k2 v2 c2 n2 ty2 t2 h2
          exact ensures_some _ _ _ (binary_shape_of2 _ binary_call _ _ h
            (node_ne_null _ _ _ _ _) h2 (node_ne_null _ _ _ _ _))
      · split
        · refine ensures_and_then _ _ plx_parsed_ok _ parsed_ok_null (iexpr _) ?_
          intro k2 v2 c2 n2 ty2 t2 h2
          split
          · refine ensures_and_then _ _ plx_parsed_ok _ parsed_ok_null (iexpr _) ?_
            intro k3 v3 c3 n3 ty3 t3 h3
            exact ensures_some _ _ _ (parsed_ok_of3 _ _ _ _ (fun _ _ => rfl) h
              (node_ne_null _ _ _ _ _) h2 (node_ne_null _ _ _ _ _) h3
              (node_ne_null _ _ _ _ _))
          · exact ensures_some _ _ _ (binary_shape_of2 _ binary_index _ _ h
              (node_ne_null _ _ _ _ _) h2 (node_ne_null _ _ _ _ _))
        · split
          · refine ensures_and_then _ _ plx_parsed_ok _ parsed_ok_null
              (ensures_identifier _) ?_
            intro k2 v2 c2 n2 ty2 t2 h2
            exact ensures_some _ _ _ (binary_shape_of2 _ binary_field _ _ h
              (node_ne_null _ _ _ _ _) h2 (node_ne_null _ _ _ _ _))
          · exact ensures_some _ _ _ h
    · intro v c n ty t h
      simp only [plx_parse_args_loop]
      refine ensures_and_then _ _ plx_parsed_ok _ parsed_ok_null (iexpr _) ?_
      intro k2 v2 c2 n2 ty2 t2 h2
      have hn := parsed_ok_append_child _ v c n ty _ collector_other h h2
      split
      · exact ensures_some _ _ _ hn
      · refine ensures_expect _ _ _ _ parsed_ok_null ?_
        intro t3
        simp only [plx_node.append_child] at hn ⊢
        exact iargs _ _ _ _ t3 hn
    · intro t
      simp only [plx_parse_primary_expr]
      split
      · exact iids t
      · exact ensures_some _ _ _ (parsed_ok_leaf _ _ rfl)
      · exact ensures_some _ _ _ (parsed_ok_leaf _ _ rfl)
      · exact ensures_some _ _ _ (parsed_ok_leaf _ _ rfl)
      · exact ensures_some _ (plx_parse_string_lit t).1 (plx_parse_string_lit t).2
          (parsed_ok_string_lit t)
      · exact iexpr t
      · exact ensures_some _ _ _ parsed_ok_null
    · intro t
      simp only [plx_parse_identifier_or_struct]
      refine ensures_and_then _ _ plx_parsed_ok _ parsed_ok_null (ensures_identifier _) ?_
      intro k v c n ty t1 h
      split
      · refine ensures_and_then _ _ plx_parsed_members_ok _ parsed_ok_null
          (imem _ _ _ _ _ ⟨parsed_ok_new _ collector_other, rfl⟩) ?_
        intro k2 v2 c2 n2 ty2 t2 h2
        exact ensures_some _ _ _ (parsed_ok_of2 _ _ _
          (fun c hc hm => by simp [plx_kind_shape, hc, hm]) h (node_ne_null _ _ _ _ _) h2
          (node_ne_null _ _ _ _ _))
      · exact ensures_some _ _ _ h
    · intro v c n ty t h
      simp only [plx_parse_struct_members_loop]
      split
      · exact ensures_some _ _ _ h
      · refine ensures_and_then _ _ plx_parsed_ok _ parsed_members_ok_null
          (ensures_identifier _) ?_
        intro k1 v1 c1 n1 ty1 t1 h1
        refine ensures_expect _ _ _ _ parsed_members_ok_null ?_
        intro t2
        refine ensures_and_then _ _ plx_parsed_ok _ parsed_members_ok_null (iexpr _) ?_
        intro k3 v3 c3 n3 ty3 t3 h3
        refine ensures_expect _ _ _ _ parsed_members_ok_null ?_
        intro t4
        have hm := member_node_ok _ _ h1 (node_ne_null _ _ _ _ _) h3 (node_ne_null _ _ _ _ _)
        have hn := members_append_child _ v c n ty _ collector_other h hm.1 hm.2
        simp only [plx_node.append_child] at hn ⊢
        exact imem _ _ _ _ t4 hn

theorem ensures_expr (fuel : Nat) (t : plx_tokenizer) :
    plx_ensures (plx_parse_expr fuel t) plx_parsed_ok := (expr_layer_ok fuel).1 t

theorem ensures_rel_expr (fuel : Nat) (t : plx_tokenizer) :
    plx_ensures (plx_parse_rel_expr fuel t) plx_parsed_ok := (expr_layer_ok fuel).2.2.2.1 t

theorem ensures_unary_expr (fuel : Nat) (t : plx_tokenizer) :
    plx_ensures (plx_parse_unary_expr fuel t) plx_parsed_ok :=
  (expr_layer_ok fuel).2.2.2.2.2.2.1 t

/-- The statement of the shape invariant for the functions that parse types, at
one bound. -/
def plx_type_layer_ok (fuel : Nat) : Prop :=
  (∀ t, plx_ensures (plx_parse_type fuel t) plx_parsed_ok) ∧
  (∀ t, plx_ensures (plx_parse_func_type fuel t) plx_parsed_ok) ∧
  (∀ v c n ty t, plx_parsed_ok (.node PLX_NODE_OTHER v c n ty) →
    plx_ensures (plx_parse_param_types_loop fuel (.node PLX_NODE_OTHER v c n ty) t)
      plx_parsed_ok) ∧
  (∀ t, plx_ensures (plx_parse_ref_type fuel t) plx_parsed_ok) ∧
  (∀ t, plx_ensures (plx_parse_array_or_slice_type fuel t) plx_parsed_ok)

theorem type_layer_ok (fuel : Nat) : plx_type_layer_ok fuel := by
  induction fuel with
  | zero =>
    refine ⟨?_, ?_, ?_, ?_, ?_⟩ <;> intros <;>
      simp only [plx_parse_type, plx_parse_func_type, plx_parse_param_types_loop,
        plx_parse_ref_type, plx_parse_array_or_slice_type] <;> exact ensures_none _
  | succ fuel ih =>
    obtain ⟨ity, ifun, iloop, iref, iarr⟩ := ih
    refine ⟨?_, ?_, ?_, ?_, ?_⟩
    · intro t
      simp only [plx_parse_type]
      split
      · exact ensures_identifier t
      all_goals first
        | exact ensures_some _ _ _ (parsed_ok_leaf _ _ rfl)
        | exact ifun t
        | exact iref t
        | exact iarr t
        | exact ensures_some _ _ _ parsed_ok_null
    · intro t
      simp only [plx_parse_func_type]
      refine ensures_expect _ _ _ _ parsed_ok_null ?_
      intro t1
      refine ensures_and_then _ _ plx_parsed_ok _ parsed_ok_null ?_ ?_
      · split
        · exact ensures_some _ _ _ (parsed_ok_new _ collector_other)
        · exact iloop _ _ _ _ _ (parsed_ok_new _ collector_other)
      · intro k v c n ty t2 h
        split
        · refine ensures_and_then _ _ plx_parsed_ok _ parsed_ok_null (ity _) ?_
          intro k2 v2 c2 n2 ty2 t3 h2
          exact ensures_some _ _ _ (binary_shape_of2 PLX_NODE_FUNC_TYPE (fun _ _ => rfl) _ _ h
            (node_ne_null _ _ _ _ _) h2 (node_ne_null _ _ _ _ _))
        · exact ensures_some _ _ _ (binary_shape_of2 PLX_NODE_FUNC_TYPE (fun _ _ => rfl) _ _ h
            (node_ne_null _ _ _ _ _) (parsed_ok_leaf _ _ rfl) (node_ne_null _ _ _ _ _))
    · intro v c n ty t h
      simp only [plx_parse_param_types_loop]
      refine ensures_and_then _ _ plx_parsed_ok _ parsed_ok_null (ity _) ?_
      intro k2 v2 c2 n2 ty2 t2 h2
      have hn := parsed_ok_append_child _ v c n ty _ collector_other h h2
      split
      · exact ensures_some _ _ _ hn
      · refine ensures_expect _ _ _ _ parsed_ok_null ?_
        intro t3
        simp only [plx_node.append_child] at hn ⊢
        exact iloop _ _ _ _ t3 hn
    · intro t
      simp only [plx_parse_ref_type]
      refine ensures_and_then _ _ plx_parsed_ok _ parsed_ok_null (ity _) ?_
      intro k v c n ty t1 h
      exact ensures_some _ _ _ (parsed_ok_of1 _ _ (fun _ _ => rfl) h (node_ne_null _ _ _ _ _))
    · intro t
      simp only [plx_parse_array_or_slice_type]
      split
      · refine ensures_and_then _ _ plx_parsed_ok _ parsed_ok_null (ity _) ?_
        intro k v c n ty t1 h
        exact ensures_some _ _ _ (parsed_ok_of1 _ _ (fun _ _ => rfl) h
          (node_ne_null _ _ _ _ _))
      · refine ensures_and_then _ _ plx_parsed_ok _ parsed_ok_null (ensures_expr _ _) ?_
        intro k v c n ty t1 h
        refine ensures_expect _ _ _ _ parsed_ok_null ?_
        intro t2
        refine ensures_and_then _ _ plx_parsed_ok _ parsed_ok_null (ity _) ?_
        intro k2 v2 c2 n2 ty2 t3 h2
        exact ensures_some _ _ _ (binary_shape_of2 _
          (fun c hc => by simp [plx_kind_shape, hc]) _ _ h (node_ne_null _ _ _ _ _) h2
          (node_ne_null _ _ _ _ _))

theorem ensures_type (fuel : Nat) (t : plx_tokenizer) :
    plx_ensures (plx_parse_type fuel t) plx_parsed_ok := (type_layer_ok fuel).1 t

theorem ensures_const_def (fuel : Nat) (t : plx_tokenizer) :
    plx_ensures (plx_parse_const_def fuel t) plx_parsed_ok := by
  unfold plx_parse_const_def
  refine ensures_and_then _ _ plx_parsed_ok _ parsed_ok_null (ensures_identifier _) ?_
  intro k v c n ty t1 h
  refine ensures_expect _ _ _ _ parsed_ok_null ?_
  intro t2
  refine ensures_and_then _ _ plx_parsed_ok _ parsed_ok_null (ensures_expr _ _) ?_
  intro k2 v2 c2 n2 ty2 t3 h2
  refine ensures_expect _ _ _ _ parsed_ok_null ?_
  intro t4
  exact ensures_some _ _ _ (binary_shape_of2 _ (fun c hc => by simp [plx_kind_shape, hc])
    _ _ h (node_ne_null _ _ _ _ _) h2 (node_ne_null _ _ _ _ _))

theorem ensures_var_def_or_decl (fuel : Nat) (t : plx_tokenizer) :
    plx_ensures (plx_parse_var_def_or_decl fuel t) plx_parsed_ok := by
  unfold plx_parse_var_def_or_decl
  refine ensures_and_then _ _ plx_parsed_ok _ parsed_ok_null (ensures_identifier _) ?_
  intro k v c n ty t1 h
  split
  · refine ensures_and_then _ _ plx_parsed_ok _ parsed_ok_null (ensures_expr _ _) ?_
    intro k2 v2 c2 n2 ty2 t3 h2
    refine ensures_expect _ _ _ _ parsed_ok_null ?_
    intro t4
    exact ensures_some _ _ _ (binary_shape_of2 _ (fun c hc => by simp [plx_kind_shape, hc])
      _ _ h (node_ne_null _ _ _ _ _) h2 (node_ne_null _ _ _ _ _))
  · refine ensures_and_then _ _ plx_parsed_ok _ parsed_ok_null (ensures_type _ _) ?_
    intro k2 v2 c2 n2 ty2 t3 h2
    refine ensures_expect _ _ _ _ parsed_ok_null ?_
    intro t4
    exact ensures_some _ _ _ (binary_shape_of2 _ (fun c hc => by simp [plx_kind_shape, hc])
      _ _ h (node_ne_null _ _ _ _ _) h2 (node_ne_null _ _ _ _ _))
  · exact ensures_some _ _ _ parsed_ok_null

theorem ensures_return (fuel : Nat) (t : plx_tokenizer) :
    plx_ensures (plx_parse_return fuel t) plx_parsed_ok := by
  unfold plx_parse_return
  split
  · exact ensures_some _ _ _ (parsed_ok_leaf _ _ rfl)
  · refine ensures_and_then _ _ plx_parsed_ok _ parsed_ok_null (ensures_expr _ _) ?_
    intro k2 v2 c2 n2 ty2 t3 h2
    refine ensures_expect _ _ _ _ parsed_ok_null ?_
    intro t4
    exact ensures_some _ _ _ (parsed_ok_of1 _ _ (fun _ _ => rfl) h2 (node_ne_null _ _ _ _ _))

theorem ensures_assign (fuel : Nat) (t : plx_tokenizer) :
    plx_ensures (plx_parse_assign fuel t) plx_parsed_ok := by
  unfold plx_parse_assign
  refine ensures_and_then _ _ plx_parsed_ok _ parsed_ok_null (ensures_unary_expr _ _) ?_
  intro k v c n ty t1 h
  split
  · refine ensures_expect _ _ _ _ parsed_ok_null ?_
    intro t2
    exact ensures_some _ _ _ h
  · rename_i kind hk
    refine ensures_and_then _ _ plx_parsed_ok _ parsed_ok_null (ensures_expr _ _) ?_
    intro k2 v2 c2 n2 ty2 t3 h2
    refine ensures_expect _ _ _ _ parsed_ok_null ?_
    intro t4
    exact ensures_some _ _ _ (binary_shape_of2 _ (assign_kind_shape _ _ hk)
      _ _ h (node_ne_null _ _ _ _ _) h2 (node_ne_null _ _ _ _ _))

/-- The statement of the shape invariant for the functions that parse
statements, at one bound. -/
def plx_stmt_layer_ok (fuel : Nat) : Prop :=
  (∀ t, plx_ensures (plx_parse_stmt fuel t) plx_parsed_ok) ∧
  (∀ t, plx_ensures (plx_parse_block fuel t) plx_parsed_ok) ∧
  (∀ v c n ty t, plx_parsed_ok (.node PLX_NODE_BLOCK v c n ty) →
    plx_ensures (plx_parse_block_loop fuel (.node PLX_NODE_BLOCK v c n ty) t) plx_parsed_ok) ∧
  (∀ t, plx_ensures (plx_parse_if_then_else fuel t) plx_parsed_ok) ∧
  (∀ t, plx_ensures (plx_parse_loop fuel t) plx_parsed_ok) ∧
  (∀ t, plx_ensures (plx_parse_while_loop fuel t) plx_parsed_ok)

theorem stmt_layer_ok (fuel : Nat) : plx_stmt_layer_ok fuel := by
  induction fuel with
  | zero =>
    refine ⟨?_, ?_, ?_, ?_, ?_, ?_⟩ <;> intros <;>
      simp only [plx_parse_stmt, plx_parse_block, plx_parse_block_loop,
        plx_parse_if_then_else, plx_parse_loop, plx_parse_while_loop] <;>
      exact ensures_none _
  | succ fuel ih =>
    obtain ⟨istmt, iblock, ibl, iif, iloop, iwhile⟩ := ih
    refine ⟨?_, ?_, ?_, ?_, ?_, ?_⟩
    · intro t
      simp only [plx_parse_stmt]
      split
      · exact iblock t
      · exact ensures_const_def _ t
      · exact ensures_var_def_or_decl _ t
      · exact iif t
      · exact iloop t
      · exact iwhile t
      · refine ensures_expect _ _ _ _ parsed_ok_null ?_
        intro t1
        exact ensures_some _ _ _ (parsed_ok_leaf _ _ rfl)
      · refine ensures_expect _ _ _ _ parsed_ok_null ?_
        intro t1
        exact ensures_some _ _ _ (parsed_ok_leaf _ _ rfl)
      · exact ensures_return _ t
      · exact ensures_assign _ t
    · intro t
      simp only [plx_parse_block]
      refine ensures_expect _ _ _ _ parsed_ok_null ?_
      intro t1
      exact ibl _ _ _ _ t1 (parsed_ok_new _ collector_block)
    · intro v c n ty t h
      simp only [plx_parse_block_loop]
      split
      · exact ensures_some _ _ _ h
      · refine ensures_and_then _ _ plx_parsed_ok _ parsed_ok_null (istmt _) ?_
        intro k2 v2 c2 n2 ty2 t2 h2
        have hn := parsed_ok_append_child _ v c n ty _ collector_block h h2
        simp only [plx_node.append_child] at hn ⊢
        exact ibl _ _ _ _ t2 hn
    · intro t
      simp only [plx_parse_if_then_else]
      refine ensures_and_then _ _ plx_parsed_ok _ parsed_ok_null (ensures_rel_expr _ _) ?_
      intro k v c n ty t1 h
      refine ensures_and_then _ _ plx_parsed_ok _ parsed_ok_null (iblock _) ?_
      intro k2 v2 c2 n2 ty2 t2 h2
      split
      · refine ensures_and_then _ _ plx_parsed_ok _ parsed_ok_null ?_ ?_
        · split
          · exact iif _
          · exact iblock _
        · intro k3 v3 c3 n3 ty3 t3 h3
          exact ensures_some _ _ _ (parsed_ok_of3 _ _ _ _
            (fun c hc => by simp [plx_kind_shape, hc]) h (node_ne_null _ _ _ _ _) h2
            (node_ne_null _ _ _ _ _) h3 (node_ne_null _ _ _ _ _))
      · exact ensures_some _ _ _ (parsed_ok_of3 _ _ _ _
          (fun c hc => by simp [plx_kind_shape, hc]) h (node_ne_null _ _ _ _ _) h2
          (node_ne_null _ _ _ _ _) (parsed_ok_new _ collector_block) (node_ne_null _ _ _ _ _))
    · intro t
      simp only [plx_parse_loop]
      refine ensures_and_then _ _ plx_parsed_ok _ parsed_ok_null (iblock _) ?_
      intro k v c n ty t1 h
      exact ensures_some _ _ _ (parsed_ok_of1 _ _ (fun c hc => by simp [plx_kind_shape, hc]) h
        (node_ne_null _ _ _ _ _))
    · intro t
      simp only [plx_parse_while_loop]
      refine ensures_and_then _ _ plx_parsed_ok _ parsed_ok_null (ensures_rel_expr _ _) ?_
      intro k v c n ty t1 h
      refine ensures_and_then _ _ plx_parsed_ok _ parsed_ok_null (iblock _) ?_
      intro k2 v2 c2 n2 ty2 t2 h2
      exact ensures_some _ _ _ (binary_shape_of2 _ (fun c hc => by simp [plx_kind_shape, hc])
        _ _ h (node_ne_null _ _ _ _ _) h2 (node_ne_null _ _ _ _ _))

theorem ensures_block (fuel : Nat) (t : plx_tokenizer) :
    plx_ensures (plx_parse_block fuel t) plx_parsed_ok := (stmt_layer_ok fuel).2.1 t

theorem ensures_struct_def_loop (fuel : Nat) :
    ∀ v c n ty t, plx_parsed_members_ok (.node PLX_NODE_OTHER v c n ty) →
      plx_ensures (plx_parse_struct_def_loop fuel (.node PLX_NODE_OTHER v c n ty) t)
        plx_parsed_members_ok := by
  induction fuel with
  | zero =>
    intros
    simp only [plx_parse_struct_def_loop]
    exact ensures_none _
  | succ fuel ih =>
    intro v c n ty t h
    simp only [plx_parse_struct_def_loop]
    split
    · exact ensures_some _ _ _ h
    · refine ensures_and_then _ _ plx_parsed_ok _ parsed_members_ok_null
        (ensures_identifier _) ?_
      intro k1 v1 c1 n1 ty1 t1 h1
      refine ensures_expect _ _ _ _ parsed_members_ok_null ?_
      intro t2
      refine ensures_and_then _ _ plx_parsed_ok _ parsed_members_ok_null (ensures_type _ _) ?_
      intro k3 v3 c3 n3 ty3 t3 h3
      refine ensures_expect _ _ _ _ parsed_members_ok_null ?_
      intro t4
      have hm := member_node_ok _ _ h1 (node_ne_null _ _ _ _ _) h3 (node_ne_null _ _ _ _ _)
      have hn := members_append_child _ v c n ty _ collector_other h hm.1 hm.2
      simp only [plx_node.append_child] at hn ⊢
      exact ih _ _ _ _ t4 hn

theorem ensures_struct_def (fuel : Nat) (t : plx_tokenizer) :
    plx_ensures (plx_parse_struct_def fuel t) plx_parsed_ok := by
  unfold plx_parse_struct_def
  refine ensures_and_then _ _ plx_parsed_ok _ parsed_ok_null (ensures_identifier _) ?_
  intro k v c n ty t1 h
  refine ensures_expect _ _ _ _ parsed_ok_null ?_
  intro t2
  refine ensures_and_then _ _ plx_parsed_members_ok _ parsed_ok_null
    (ensures_struct_def_loop _ _ _ _ _ _ ⟨parsed_ok_new _ collector_other, rfl⟩) ?_
  intro k2 v2 c2 n2 ty2 t3 h2
  exact ensures_some _ _ _ (parsed_ok_of2 _ _ _
    (fun c hc hm => by simp [plx_kind_shape, hc, hm]) h (node_ne_null _ _ _ _ _) h2
    (node_ne_null _ _ _ _ _))

theorem ensures_params_loop (fuel : Nat) :
    ∀ v c n ty t, plx_parsed_members_ok (.node PLX_NODE_OTHER v c n ty) →
      plx_ensures (plx_parse_params_loop fuel (.node PLX_NODE_OTHER v c n ty) t)
        plx_parsed_members_ok := by
  induction fuel with
  | zero =>
    intros
    simp only [plx_parse_params_loop]
    exact ensures_none _
  | succ fuel ih =>
    intro v c n ty t h
    simp only [plx_parse_params_loop]
    refine ensures_and_then _ _ plx_parsed_ok _ parsed_members_ok_null
      (ensures_identifier _) ?_
    intro k1 v1 c1 n1 ty1 t1 h1
    refine ensures_expect _ _ _ _ parsed_members_ok_null ?_
    intro t2
    refine ensures_and_then _ _ plx_parsed_ok _ parsed_members_ok_null (ensures_type _ _) ?_
    intro k3 v3 c3 n3 ty3 t3 h3
    have hm := member_node_ok _ _ h1 (node_ne_null _ _ _ _ _) h3 (node_ne_null _ _ _ _ _)
    have hn := members_append_child _ v c n ty _ collector_other h hm.1 hm.2
    split
    · exact ensures_some _ _ _ hn
    · refine ensures_expect _ _ _ _ parsed_members_ok_null ?_
      intro t4
      simp only [plx_node.append_child] at hn ⊢
      exact ih _ _ _ _ t4 hn

theorem ensures_params (fuel : Nat) (t : plx_tokenizer) :
    plx_ensures (plx_parse_params fuel t) plx_parsed_members_ok := by
  unfold plx_parse_params
  refine ensures_expect _ _ _ _ parsed_members_ok_null ?_
  intro t1
  split
  · exact ensures_some _ _ _ ⟨parsed_ok_new _ collector_other, rfl⟩
  · exact ensures_params_loop _ _ _ _ _ _ ⟨parsed_ok_new _ collector_other, rfl⟩

theorem ensures_func_def (fuel : Nat) (t : plx_tokenizer) :
    plx_ensures (plx_parse_func_def fuel t) plx_parsed_ok := by
  unfold plx_parse_func_def
  refine ensures_and_then _ _ plx_parsed_ok _ parsed_ok_null (ensures_identifier _) ?_
  intro k v c n ty t1 h
  refine ensures_and_then _ _ plx_parsed_members_ok _ parsed_ok_null (ensures_params _ _) ?_
  intro k2 v2 c2 n2 ty2 t2 h2
  refine ensures_and_then _ _ plx_parsed_ok _ parsed_ok_null ?_ ?_
  · split
    · exact ensures_type _ _
    · exact ensures_some _ _ _ (parsed_ok_leaf _ _ rfl)
  · intro k3 v3 c3 n3 ty3 t3 h3
    refine ensures_and_then _ _ plx_parsed_ok _ parsed_ok_null (ensures_block _ _) ?_
    intro k4 v4 c4 n4 ty4 t4 h4
    exact ensures_some _ _ _ (parsed_ok_of4 _ _ _ _ _
      (fun c hc hm => by simp [plx_kind_shape, hc, hm]) h (node_ne_null _ _ _ _ _) h2
      (node_ne_null _ _ _ _ _) h3 (node_ne_null _ _ _ _ _) h4 (node_ne_null _ _ _ _ _))

theorem ensures_module_loop (fuel : Nat) :
    ∀ v c n ty t, plx_parsed_ok (.node PLX_NODE_MODULE v c n ty) →
      plx_ensures (plx_parse_module_loop fuel (.node PLX_NODE_MODULE v c n ty) t)
        plx_parsed_ok := by
  induction fuel with
  | zero =>
    intros
    simp only [plx_parse_module_loop]
    exact ensures_none _
  | succ fuel ih =>
    intro v c n ty t h
    simp only [plx_parse_module_loop]
    split
    · exact ensures_some _ _ _ h
    · refine ensures_and_then _ _ plx_parsed_ok _ parsed_ok_null ?_ ?_
      · split
        · exact ensures_const_def _ _
        · exact ensures_var_def_or_decl _ _
        · exact ensures_struct_def _ _
        · exact ensures_func_def _ _
        · exact ensures_some _ _ _ parsed_ok_null
      · intro k2 v2 c2 n2 ty2 t2 h2
        have hn := parsed_ok_append_child _ v c n ty _ collector_module h h2
        simp only [plx_node.append_child] at hn ⊢
        exact ih _ _ _ _ t2 hn

/-- The kinds of a node and of its next siblings, in their order. -/
def plx_sibling_kinds : plx_node → List plx_node_kind
  | .NULL => []
  | .node k _ _ n _ => k :: plx_sibling_kinds n

/-- The kinds of the nodes the functions that parse expressions build. -/
def plx_is_expr_kind : plx_node_kind → Bool
  | PLX_NODE_AND | PLX_NODE_OR | PLX_NODE_XOR | PLX_NODE_EQ | PLX_NODE_NEQ | PLX_NODE_LTE
  | PLX_NODE_LT | PLX_NODE_GTE | PLX_NODE_GT | PLX_NODE_ADD | PLX_NODE_SUB | PLX_NODE_MUL
  | PLX_NODE_DIV | PLX_NODE_REM | PLX_NODE_LSHIFT | PLX_NODE_RSHIFT | PLX_NODE_NOT
  | PLX_NODE_NEG | PLX_NODE_REF | PLX_NODE_DEREF | PLX_NODE_CALL | PLX_NODE_INDEX
  | PLX_NODE_SLICE | PLX_NODE_FIELD | PLX_NODE_IDENTIFIER | PLX_NODE_STRUCT | PLX_NODE_S32
  | PLX_NODE_BOOL | PLX_NODE_STRING => true
  | _ => false

/-- The kinds of the nodes `plx_parse_type` builds. -/
def plx_is_type_kind : plx_node_kind → Bool
  | PLX_NODE_IDENTIFIER | PLX_NODE_S8_TYPE | PLX_NODE_S16_TYPE | PLX_NODE_S32_TYPE
  | PLX_NODE_S64_TYPE | PLX_NODE_U8_TYPE | PLX_NODE_U16_TYPE | PLX_NODE_U32_TYPE
  | PLX_NODE_U64_TYPE | PLX_NODE_F32_TYPE | PLX_NODE_F64_TYPE | PLX_NODE_FUNC_TYPE
  | PLX_NODE_REF_TYPE | PLX_NODE_ARRAY_TYPE | PLX_NODE_SLICE_TYPE => true
  | _ => false

/-- The kind `k` is the kind `k0`. -/
def plx_is_kind (k0 k : plx_node_kind) : Bool := decide (k = k0)

/-- Every node of a list of siblings is an `other` node whose children are an
identifier node and a node of a kind in `value`, in this order: the parameters of
a function ([name, type]) and the members of a structure ([name, type] or
[name, value]). -/
def plx_members_placed (value : plx_node_kind → Bool) : plx_node → Bool
  | .NULL => true
  | .node k _ c n _ =>
    plx_is_kind PLX_NODE_OTHER k &&
      (match plx_sibling_kinds c with
        | [name, v] => plx_is_kind PLX_NODE_IDENTIFIER name && value v
        | _ => false) &&
      plx_members_placed value n

/-- What the children of a node of the kind `k` are, position by position:
`kinds` are the kinds of the children in their order and `members` is the list of
the children of the second child. -/
def plx_kind_places (k : plx_node_kind) (kinds : List plx_node_kind) (members : plx_node) :
    Bool :=
  match k with
  | PLX_NODE_CONST_DEF | PLX_NODE_VAR_DEF =>
    (match kinds with
      | [name, value] => plx_is_kind PLX_NODE_IDENTIFIER name && plx_is_expr_kind value
      | _ => false)
  | PLX_NODE_VAR_DECL =>
    (match kinds with
      | [name, type_kind] => plx_is_kind PLX_NODE_IDENTIFIER name && plx_is_type_kind type_kind
      | _ => false)
  | PLX_NODE_FUNC_DEF =>
    (match kinds with
      | [name, params, return_type, body] =>
        plx_is_kind PLX_NODE_IDENTIFIER name &&
          (plx_is_kind PLX_NODE_OTHER params && plx_members_placed plx_is_type_kind members) &&
          (plx_is_type_kind return_type || plx_is_kind PLX_NODE_VOID_TYPE return_type) &&
          plx_is_kind PLX_NODE_BLOCK body
      | _ => false)
  | PLX_NODE_STRUCT_DEF =>
    (match kinds with
      | [name, member_list] =>
        plx_is_kind PLX_NODE_IDENTIFIER name &&
          (plx_is_kind PLX_NODE_OTHER member_list && plx_members_placed plx_is_type_kind members)
      | _ => false)
  | PLX_NODE_STRUCT =>
    (match kinds with
      | [name, member_list] =>
        plx_is_kind PLX_NODE_IDENTIFIER name &&
          (plx_is_kind PLX_NODE_OTHER member_list && plx_members_placed plx_is_expr_kind members)
      | _ => false)
  | PLX_NODE_IF_THEN_ELSE =>
    (match kinds with
      | [cond, then_block, else_block] =>
        plx_is_expr_kind cond && plx_is_kind PLX_NODE_BLOCK then_block &&
          (plx_is_kind PLX_NODE_BLOCK else_block || plx_is_kind PLX_NODE_IF_THEN_ELSE else_block)
      | _ => false)
  | PLX_NODE_WHILE_LOOP =>
    (match kinds with
      | [cond, body] => plx_is_expr_kind cond && plx_is_kind PLX_NODE_BLOCK body
      | _ => false)
  | PLX_NODE_LOOP =>
    (match kinds with
      | [body] => plx_is_kind PLX_NODE_BLOCK body
      | _ => false)
  | PLX_NODE_ASSIGN | PLX_NODE_ADD_ASSIGN | PLX_NODE_SUB_ASSIGN | PLX_NODE_MUL_ASSIGN
  | PLX_NODE_DIV_ASSIGN | PLX_NODE_REM_ASSIGN | PLX_NODE_LSHIFT_ASSIGN
  | PLX_NODE_RSHIFT_ASSIGN =>
    (match kinds with
      | [target, value] => plx_is_expr_kind target && plx_is_expr_kind value
      | _ => false)
  | PLX_NODE_AND | PLX_NODE_OR | PLX_NODE_XOR | PLX_NODE_EQ | PLX_NODE_NEQ | PLX_NODE_LTE
  | PLX_NODE_LT | PLX_NODE_GTE | PLX_NODE_GT | PLX_NODE_ADD | PLX_NODE_SUB | PLX_NODE_MUL
  | PLX_NODE_DIV | PLX_NODE_REM | PLX_NODE_LSHIFT | PLX_NODE_RSHIFT =>
    (match kinds with
      | [left, right] => plx_is_expr_kind left && plx_is_expr_kind right
      | _ => false)
  | PLX_NODE_NOT | PLX_NODE_NEG | PLX_NODE_REF | PLX_NODE_DEREF =>
    (match kinds with
      | [operand] => plx_is_expr_kind operand
      | _ => false)
  | PLX_NODE_ARRAY_TYPE =>
    (match kinds with
      | [len, element_type] => plx_is_expr_kind len && plx_is_type_kind element_type
      | _ => false)
  | PLX_NODE_VOID_TYPE => kinds.isEmpty
  | _ => true

/-- Every node reachable from a node through `children` and `next` has, position
by position, the children its kind asks for. -/
def plx_places_ok : plx_node → Bool
  | .NULL => true
  | .node k _ c n _ =>
    plx_kind_places k (plx_sibling_kinds c) c.next.children && plx_places_ok c && plx_places_ok n

/-- What a parse function returns: `NULL`, or a node of a kind in `cls` whose
tree has the children its kinds ask for. -/
def plx_placed (cls : plx_node_kind → Bool) (e : plx_node) : Prop :=
  plx_places_ok e = true ∧ ∀ k, e.kind? = some k → cls k = true

/-- What the loops that collect parameters or members return: in addition, the
node is an `other` node and each child is an `other` node with an identifier and
a node of a kind in `value`. -/
def plx_placed_members (value : plx_node_kind → Bool) (e : plx_node) : Prop :=
  plx_placed (plx_is_kind PLX_NODE_OTHER) e ∧ plx_members_placed value e.children = true

/-- Any kind. -/
def plx_any_kind (_ : plx_node_kind) : Bool := true

theorem placed_null (cls : plx_node_kind → Bool) : plx_placed cls .NULL :=
  ⟨rfl, fun _ h => by cases h⟩

theorem placed_members_null (value : plx_node_kind → Bool) : plx_placed_members value .NULL :=
  ⟨placed_null _, rfl⟩

theorem placed_mono (cls cls1 : plx_node_kind → Bool) (e : plx_node) (h : plx_placed cls e)
    (hc : ∀ k, cls k = true → cls1 k = true) : plx_placed cls1 e :=
  ⟨h.1, fun k hk => hc k (h.2 k hk)⟩

theorem placed_any (cls : plx_node_kind → Bool) (e : plx_node) (h : plx_placed cls e) :
    plx_placed plx_any_kind e :=
  ⟨h.1, fun _ _ => rfl⟩

theorem ensures_placed_any (r : plx_parse_result) (cls : plx_node_kind → Bool)
    (h : plx_ensures r (plx_placed cls)) : plx_ensures r (plx_placed plx_any_kind) :=
  ensures_mono r _ _ h (fun e he => placed_any cls e he)

theorem placed_leaf (cls : plx_node_kind → Bool) (k : plx_node_kind) (v : plx_node_value)
    (hc : cls k = true) (hk : plx_kind_places k [] .NULL = true) :
    plx_placed cls (.node k v .NULL .NULL .NULL) := by
  refine ⟨?_, fun k1 h1 => ?_⟩
  · simp [plx_places_ok, plx_sibling_kinds, plx_node.next, plx_node.children, hk]
  · cases h1
    exact hc

theorem placed_identifier (t : plx_tokenizer) :
    plx_placed (plx_is_kind PLX_NODE_IDENTIFIER) (plx_parse_identifier t).1 := by
  unfold plx_parse_identifier
  split
  · exact placed_null _
  · exact placed_leaf _ _ _ rfl rfl

theorem ensures_placed_identifier (t : plx_tokenizer) :
    plx_ensures (some (plx_parse_identifier t)) (plx_placed (plx_is_kind PLX_NODE_IDENTIFIER)) :=
  ensures_some _ _ _ (placed_identifier t)

theorem placed_string_lit (t : plx_tokenizer) :
    plx_placed plx_is_expr_kind (plx_parse_string_lit t).1 := by
  unfold plx_parse_string_lit
  split
  · exact placed_null _
  · exact placed_leaf _ _ _ rfl rfl

theorem is_kind_eq (k0 k : plx_node_kind) (h : plx_is_kind k0 k = true) : k = k0 := by
  simpa [plx_is_kind] using h

theorem places_ok_parts (k : plx_node_kind) (v : plx_node_value) (c n ty : plx_node)
    (h : plx_places_ok (.node k v c n ty) = true) :
    plx_kind_places k (plx_sibling_kinds c) c.next.children = true ∧ plx_places_ok c = true ∧
      plx_places_ok n = true := by
  simp only [plx_places_ok, Bool.and_eq_true] at h
  exact ⟨h.1.1, h.1.2, h.2⟩

theorem node_next (k : plx_node_kind) (v : plx_node_value) (c n ty : plx_node) :
    (plx_node.node k v c n ty).next = n := rfl

theorem node_children (k : plx_node_kind) (v : plx_node_value) (c n ty : plx_node) :
    (plx_node.node k v c n ty).children = c := rfl

theorem null_children : plx_node.NULL.children = .NULL := rfl

theorem placed_of1 (cls : plx_node_kind → Bool) (kind : plx_node_kind) {k : plx_node_kind}
    {v : plx_node_value} {c n ty : plx_node} (hc : cls kind = true)
    (hk : plx_kind_places kind [k] .NULL = true)
    (ha : plx_places_ok (.node k v c n ty) = true) :
    plx_placed cls (plx_node_of kind [.node k v c n ty]) := by
  obtain ⟨a1, a2, _⟩ := places_ok_parts _ _ _ _ _ ha
  refine ⟨?_, fun k1 h1 => ?_⟩
  · simp [plx_node_of, plx_new_node, plx_node.set_children, plx_node.set_next, plx_places_ok,
      plx_sibling_kinds, node_next, node_children, null_children, hk, a1, a2]
  · cases h1
    exact hc

theorem placed_of2 (cls : plx_node_kind → Bool) (kind : plx_node_kind) {k k2 : plx_node_kind}
    {v v2 : plx_node_value} {c n ty c2 n2 ty2 : plx_node} (hc : cls kind = true)
    (hk : plx_kind_places kind [k, k2] c2 = true)
    (ha : plx_places_ok (.node k v c n ty) = true)
    (hb : plx_places_ok (.node k2 v2 c2 n2 ty2) = true) :
    plx_placed cls (plx_node_of kind [.node k v c n ty, .node k2 v2 c2 n2 ty2]) := by
  obtain ⟨a1, a2, _⟩ := places_ok_parts _ _ _ _ _ ha
  obtain ⟨b1, b2, _⟩ := places_ok_parts _ _ _ _ _ hb
  refine ⟨?_, fun k1 h1 => ?_⟩
  · simp [plx_node_of, plx_new_node, plx_node.set_children, plx_node.set_next, plx_places_ok,
      plx_sibling_kinds, node_next, node_children, null_children, hk, a1, a2, b1, b2]
  · cases h1
    exact hc

theorem placed_of3 (cls : plx_node_kind → Bool) (kind : plx_node_kind)
    {k k2 k3 : plx_node_kind} {v v2 v3 : plx_node_value}
    {c n ty c2 n2 ty2 c3 n3 ty3 : plx_node} (hc : cls kind = true)
    (hk : plx_kind_places kind [k, k2, k3] c2 = true)
    (ha : plx_places_ok (.node k v c n ty) = true)
    (hb : plx_places_ok (.node k2 v2 c2 n2 ty2) = true)
    (hd : plx_places_ok (.node k3 v3 c3 n3 ty3) = true) :
    plx_placed cls
      (plx_node_of kind [.node k v c n ty, .node k2 v2 c2 n2 ty2, .node k3 v3 c3 n3 ty3]) := by
  obtain ⟨a1, a2, _⟩ := places_ok_parts _ _ _ _ _ ha
  obtain ⟨b1, b2, _⟩ := places_ok_parts _ _ _ _ _ hb
  obtain ⟨d1, d2, _⟩ := places_ok_parts _ _ _ _ _ hd
  refine ⟨?_, fun k1 h1 => ?_⟩
  · simp [plx_node_of, plx_new_node, plx_node.set_children, plx_node.set_next, plx_places_ok,
      plx_sibling_kinds, node_next, node_children, null_children, hk, a1, a2, b1, b2, d1, d2]
  · cases h1
    exact hc

theorem placed_of4 (cls : plx_node_kind → Bool) (kind : plx_node_kind)
    {k k2 k3 k4 : plx_node_kind} {v v2 v3 v4 : plx_node_value}
    {c n ty c2 n2 ty2 c3 n3 ty3 c4 n4 ty4 : plx_node} (hc : cls kind = true)
    (hk : plx_kind_places kind [k, k2, k3, k4] c2 = true)
    (ha : plx_places_ok (.node k v c n ty) = true)
    (hb : plx_places_ok (.node k2 v2 c2 n2 ty2) = true)
    (hd : plx_places_ok (.node k3 v3 c3 n3 ty3) = true)
    (he : plx_places_ok (.node k4 v4 c4 n4 ty4) = true) :
    plx_placed cls
      (plx_node_of kind
        [.node k v c n ty, .node k2 v2 c2 n2 ty2, .node k3 v3 c3 n3 ty3,
          .node k4 v4 c4 n4 ty4]) := by
  obtain ⟨a1, a2, _⟩ := places_ok_parts _ _ _ _ _ ha
  obtain ⟨b1, b2, _⟩ := places_ok_parts _ _ _ _ _ hb
  obtain ⟨d1, d2, _⟩ := places_ok_parts _ _ _ _ _ hd
  obtain ⟨e1, e2, _⟩ := places_ok_parts _ _ _ _ _ he
  refine ⟨?_, fun k1 h1 => ?_⟩
  · simp [plx_node_of, plx_new_node, plx_node.set_children, plx_node.set_next, plx_places_ok,
      plx_sibling_kinds, node_next, node_children, null_children, hk, a1, a2, b1, b2, d1, d2, e1, e2]
  · cases h1
    exact hc

theorem places_append (c x : plx_node) (hc : plx_places_ok c = true)
    (hx : plx_places_ok x = true) : plx_places_ok (c.append x) = true := by
  induction c with
  | NULL => simpa [plx_node.append] using hx
  | node k v c1 n ty ih1 ih2 ih3 =>
    simp only [plx_places_ok, Bool.and_eq_true] at hc
    simp [plx_node.append, plx_places_ok, hc.1.1, hc.1.2, ih2 hc.2]

theorem members_placed_append (value : plx_node_kind → Bool) (c x : plx_node)
    (hc : plx_members_placed value c = true) (hx : plx_members_placed value x = true) :
    plx_members_placed value (c.append x) = true := by
  induction c with
  | NULL => simpa [plx_node.append] using hx
  | node k v c1 n ty ih1 ih2 ih3 =>
    simp only [plx_members_placed, Bool.and_eq_true] at hc
    simp only [plx_node.append, plx_members_placed, Bool.and_eq_true]
    exact ⟨hc.1, ih2 hc.2⟩

/-- A kind whose nodes collect children: the kind asks nothing of them. -/
def plx_collects (k : plx_node_kind) : Prop := ∀ kinds members, plx_kind_places k kinds members = true

theorem collects_other : plx_collects PLX_NODE_OTHER := fun _ _ => rfl

theorem collects_block : plx_collects PLX_NODE_BLOCK := fun _ _ => rfl

theorem collects_module : plx_collects PLX_NODE_MODULE := fun _ _ => rfl

theorem placed_new (k : plx_node_kind) (hk : plx_collects k) :
    plx_placed (plx_is_kind k) (plx_new_node k) := by
  refine ⟨?_, fun k1 h1 => ?_⟩
  · simp [plx_new_node, plx_places_ok, hk _ _]
  · cases h1
    simp [plx_is_kind]

theorem placed_append_child (k : plx_node_kind) (v : plx_node_value) (c n ty x : plx_node)
    (hk : plx_collects k) (h : plx_placed (plx_is_kind k) (.node k v c n ty))
    (hx : plx_places_ok x = true) :
    plx_placed (plx_is_kind k) ((plx_node.node k v c n ty).append_child x) := by
  obtain ⟨_, a2, a3⟩ := places_ok_parts _ _ _ _ _ h.1
  refine ⟨?_, fun k1 h1 => ?_⟩
  · simp [plx_node.append_child, plx_places_ok, hk _ _, places_append c x a2 hx, a3]
  · cases h1
    simp [plx_is_kind]

theorem member_node_placed (value : plx_node_kind → Bool) {k k2 : plx_node_kind}
    {v v2 : plx_node_value} {c n ty c2 n2 ty2 : plx_node}
    (ha : plx_placed (plx_is_kind PLX_NODE_IDENTIFIER) (.node k v c n ty))
    (hb : plx_placed value (.node k2 v2 c2 n2 ty2)) :
    plx_places_ok (plx_node_of PLX_NODE_OTHER [.node k v c n ty, .node k2 v2 c2 n2 ty2]) = true ∧
      plx_members_placed value
        (plx_node_of PLX_NODE_OTHER [.node k v c n ty, .node k2 v2 c2 n2 ty2]) = true := by
  refine ⟨(placed_of2 plx_any_kind PLX_NODE_OTHER rfl rfl ha.1 hb.1).1, ?_⟩
  have hk := is_kind_eq _ _ (ha.2 k rfl)
  subst hk
  simp [plx_node_of, plx_new_node, plx_node.set_children, plx_node.set_next,
    plx_members_placed, plx_sibling_kinds, hb.2 k2 rfl, plx_is_kind]

theorem placed_members_append_child (value : plx_node_kind → Bool) (v : plx_node_value)
    (c n ty x : plx_node) (h : plx_placed_members value (.node PLX_NODE_OTHER v c n ty))
    (hx : plx_places_ok x = true) (hxm : plx_members_placed value x = true) :
    plx_placed_members value ((plx_node.node PLX_NODE_OTHER v c n ty).append_child x) := by
  refine ⟨placed_append_child _ v c n ty x collects_other h.1 hx, ?_⟩
  have h2 := h.2
  simp only [plx_node.children] at h2
  simp only [plx_node.append_child, plx_node.children]
  exact members_placed_append value c x h2 hxm

/-- A kind of a binary operator: an expression kind that asks for two
expressions. -/
def plx_binary_places (kind : plx_node_kind) : Prop :=
  plx_is_expr_kind kind = true ∧
    ∀ l r m, plx_is_expr_kind l = true → plx_is_expr_kind r = true →
      plx_kind_places kind [l, r] m = true

theorem logical_kind_places (op : plx_token) (kind : plx_node_kind)
    (h : plx_logical_kind op = some kind) : plx_binary_places kind := by
  cases op <;> simp [plx_logical_kind] at h <;> subst h <;>
    exact ⟨rfl, fun l r m hl hr => by simp [plx_kind_places, hl, hr]⟩

theorem rel_kind_places (op : plx_token) (kind : plx_node_kind)
    (h : plx_rel_kind op = some kind) : plx_binary_places kind := by
  cases op <;> simp [plx_rel_kind] at h <;> subst h <;>
    exact ⟨rfl, fun l r m hl hr => by simp [plx_kind_places, hl, hr]⟩

theorem arithmetic_kind_places (op : plx_token) (kind : plx_node_kind)
    (h : plx_arithmetic_kind op = some kind) : plx_binary_places kind := by
  cases op <;> simp [plx_arithmetic_kind] at h <;> subst h <;>
    exact ⟨rfl, fun l r m hl hr => by simp [plx_kind_places, hl, hr]⟩

theorem assign_kind_places (op : plx_token) (kind : plx_node_kind)
    (h : plx_assign_kind op = some kind) :
    ∀ l r m, plx_is_expr_kind l = true → plx_is_expr_kind r = true →
      plx_kind_places kind [l, r] m = true := by
  cases op <;> simp [plx_assign_kind] at h <;> subst h <;>
    exact fun l r m hl hr => by simp [plx_kind_places, hl, hr]

theorem unary_kind_places (op : plx_token) (kind : plx_node_kind)
    (h : plx_unary_kind op = some kind) :
    plx_is_expr_kind kind = true ∧
      ∀ o m, plx_is_expr_kind o = true → plx_kind_places kind [o] m = true := by
  cases op <;> simp [plx_unary_kind] at h <;> subst h <;>
    exact ⟨rfl, fun o m ho => by simp [plx_kind_places, ho]⟩

/-- The statement of the invariant of positions for the functions that parse
expressions, at one bound. -/
def plx_expr_layer_placed (fuel : Nat) : Prop :=
  (∀ t, plx_ensures (plx_parse_expr fuel t) (plx_placed plx_is_expr_kind)) ∧
  (∀ t, plx_ensures (plx_parse_logical_expr fuel t) (plx_placed plx_is_expr_kind)) ∧
  (∀ op kind k v c n ty t, plx_binary_places kind →
    plx_placed plx_is_expr_kind (.node k v c n ty) →
    plx_ensures (plx_parse_logical_expr_loop fuel op kind (.node k v c n ty) t)
      (plx_placed plx_is_expr_kind)) ∧
  (∀ t, plx_ensures (plx_parse_rel_expr fuel t) (plx_placed plx_is_expr_kind)) ∧
  (∀ t, plx_ensures (plx_parse_arithmetic_expr fuel t) (plx_placed plx_is_expr_kind)) ∧
  (∀ op kind k v c n ty t, plx_binary_places kind →
    plx_placed plx_is_expr_kind (.node k v c n ty) →
    plx_ensures (plx_parse_arithmetic_expr_loop fuel op kind (.node k v c n ty) t)
      (plx_placed plx_is_expr_kind)) ∧
  (∀ t, plx_ensures (plx_parse_unary_expr fuel t) (plx_placed plx_is_expr_kind)) ∧
  (∀ t, plx_ensures (plx_parse_postfix_expr fuel t) (plx_placed plx_is_expr_kind)) ∧
  (∀ v c n ty t, plx_placed (plx_is_kind PLX_NODE_OTHER) (.node PLX_NODE_OTHER v c n ty) →
    plx_ensures (plx_parse_args_loop fuel (.node PLX_NODE_OTHER v c n ty) t)
      (plx_placed (plx_is_kind PLX_NODE_OTHER))) ∧
  (∀ t, plx_ensures (plx_parse_primary_expr fuel t) (plx_placed plx_is_expr_kind)) ∧
  (∀ t, plx_ensures (plx_parse_identifier_or_struct fuel t) (plx_placed plx_is_expr_kind)) ∧
  (∀ v c n ty t, plx_placed_members plx_is_expr_kind (.node PLX_NODE_OTHER v c n ty) →
    plx_ensures (plx_parse_struct_members_loop fuel (.node PLX_NODE_OTHER v c n ty) t)
      (plx_placed_members plx_is_expr_kind))

theorem expr_layer_placed (fuel : Nat) : plx_expr_layer_placed fuel := by
  induction fuel with
  | zero =>
    refine ⟨?_, ?_, ?_, ?_, ?_, ?_, ?_, ?_, ?_, ?_, ?_, ?_⟩ <;> intros <;>
      simp only [plx_parse_expr, plx_parse_logical_expr, plx_parse_logical_expr_loop,
        plx_parse_rel_expr, plx_parse_arithmetic_expr, plx_parse_arithmetic_expr_loop,
        plx_parse_unary_expr, plx_parse_postfix_expr, plx_parse_args_loop,
        plx_parse_primary_expr, plx_parse_identifier_or_struct,
        plx_parse_struct_members_loop] <;> exact ensures_none _
  | succ fuel ih =>
    obtain ⟨iexpr, ilog, ilogl, irel, iar, iarl, iun, ipost, iargs, iprim, iids, imem⟩ := ih
    refine ⟨?_, ?_, ?_, ?_, ?_, ?_, ?_, ?_, ?_, ?_, ?_, ?_⟩
    · intro t
      simp only [plx_parse_expr]
      exact ilog t
    · intro t
      simp only [plx_parse_logical_expr]
      refine ensures_and_then _ _ (plx_placed plx_is_expr_kind) _ (placed_null _) (irel t) ?_
      intro k v c n ty t1 h
      split
      · exact ensures_some _ _ _ h
      · rename_i kind hk
        exact ilogl _ kind k v c n ty t1 (logical_kind_places _ _ hk) h
    · intro op kind k v c n ty t hk h
      simp only [plx_parse_logical_expr_loop]
      split
      · refine ensures_and_then _ _ (plx_placed plx_is_expr_kind) _ (placed_null _) (irel _) ?_
        intro k2 v2 c2 n2 ty2 t1 h2
        have hn := placed_of2 plx_is_expr_kind kind hk.1
          (hk.2 _ _ c2 (h.2 _ rfl) (h2.2 _ rfl)) h.1 h2.1
        simp only [plx_node_of, plx_new_node, plx_node.set_children] at hn ⊢
        exact ilogl op kind _ _ _ _ _ t1 hk hn
      · exact ensures_some _ _ _ h
    · intro t
      simp only [plx_parse_rel_expr]
      refine ensures_and_then _ _ (plx_placed plx_is_expr_kind) _ (placed_null _) (iar t) ?_
      intro k v c n ty t1 h
      split
      · exact ensures_some _ _ _ h
      · rename_i kind hk
        refine ensures_and_then _ _ (plx_placed plx_is_expr_kind) _ (placed_null _) (iar _) ?_
        intro k2 v2 c2 n2 ty2 t2 h2
        have hkp := rel_kind_places _ _ hk
        exact ensures_some _ _ _ (placed_of2 plx_is_expr_kind kind hkp.1
          (hkp.2 _ _ c2 (h.2 _ rfl) (h2.2 _ rfl)) h.1 h2.1)
    · intro t
      simp only [plx_parse_arithmetic_expr]
      refine ensures_and_then _ _ (plx_placed plx_is_expr_kind) _ (placed_null _) (iun t) ?_
      intro k v c n ty t1 h
      split
      · exact ensures_some _ _ _ h
      · rename_i kind hk
        exact iarl _ kind k v c n ty t1 (arithmetic_kind_places _ _ hk) h
    · intro op kind k v c n ty t hk h
      simp only [plx_parse_arithmetic_expr_loop]
      split
      · refine ensures_and_then _ _ (plx_placed plx_is_expr_kind) _ (placed_null _) (iun _) ?_
        intro k2 v2 c2 n2 ty2 t1 h2
        have hn := placed_of2 plx_is_expr_kind kind hk.1
          (hk.2 _ _ c2 (h.2 _ rfl) (h2.2 _ rfl)) h.1 h2.1
        simp only [plx_node_of, plx_new_node, plx_node.set_children] at hn ⊢
        exact iarl op kind _ _ _ _ _ t1 hk hn
      · exact ensures_some _ _ _ h
    · intro t
      simp only [plx_parse_unary_expr]
      split
      · exact ipost t
      · rename_i kind hk
        refine ensures_and_then _ _ (plx_placed plx_is_expr_kind) _ (placed_null _) (iun _) ?_
        intro k v c n ty t1 h
        have hkp := unary_kind_places _ _ hk
        exact ensures_some _ _ _ (placed_of1 plx_is_expr_kind kind hkp.1
          (hkp.2 _ _ (h.2 _ rfl)) h.1)
    · intro t
      simp only [plx_parse_postfix_expr]
      refine ensures_and_then _ _ (plx_placed plx_is_expr_kind) _ (placed_null _) (iprim t) ?_
      intro k v c n ty t1 h
      split
      · split
        · exact ensures_some _ _ _ (placed_of2 plx_is_expr_kind PLX_NODE_CALL rfl rfl h.1
            (placed_new _ collects_other).1)
        · refine ensures_and_then _ _ (plx_placed (plx_is_kind PLX_NODE_OTHER)) _ (placed_null _)
            (iargs _ _ _ _ _ (placed_new _ collects_other)) ?_
          intro k2 v2 c2 n2 ty2 t2 h2
          exact ensures_some _ _ _ (placed_of2 plx_is_expr_kind PLX_NODE_CALL rfl rfl h.1 h2.1)
      · split
        · refine ensures_and_then _ _ (plx_placed plx_is_expr_kind) _ (placed_null _)
            (iexpr _) ?_
          intro k2 v2 c2 n2 ty2 t2 h2
          split
          · refine ensures_and_then _ _ (plx_placed plx_is_expr_kind) _ (placed_null _)
              (iexpr _) ?_
            intro k3 v3 c3 n3 ty3 t3 h3
            exact ensures_some _ _ _ (placed_of3 plx_is_expr_kind PLX_NODE_SLICE rfl rfl h.1
              h2.1 h3.1)
          · exact ensures_some _ _ _ (placed_of2 plx_is_expr_kind PLX_NODE_INDEX rfl rfl h.1
              h2.1)
        · split
          · refine ensures_and_then _ _ (plx_placed (plx_is_kind PLX_NODE_IDENTIFIER)) _
              (placed_null _) (ensures_placed_identifier _) ?_
            intro k2 v2 c2 n2 ty2 t2 h2
            exact ensures_some _ _ _ (placed_of2 plx_is_expr_kind PLX_NODE_FIELD rfl rfl h.1
              h2.1)
          · exact ensures_some _ _ _ h
    · intro v c n ty t h
      simp only [plx_parse_args_loop]
      refine ensures_and_then _ _ (plx_placed plx_is_expr_kind) _ (placed_null _) (iexpr _) ?_
      intro k2 v2 c2 n2 ty2 t2 h2
      have hn := placed_append_child _ v c n ty _ collects_other h h2.1
      split
      · exact ensures_some _ _ _ hn
      · refine ensures_expect _ _ _ _ (placed_null _) ?_
        intro t3
        simp only [plx_node.append_child] at hn ⊢
        exact iargs _ _ _ _ t3 hn
    · intro t
      simp only [plx_parse_primary_expr]
      split
      · exact iids t
      · exact ensures_some _ _ _ (placed_leaf _ _ _ rfl rfl)
      · exact ensures_some _ _ _ (placed_leaf _ _ _ rfl rfl)
      · exact ensures_some _ _ _ (placed_leaf _ _ _ rfl rfl)
      · exact ensures_some _ (plx_parse_string_lit t).1 (plx_parse_string_lit t).2
          (placed_string_lit t)
      · exact iexpr t
      · exact ensures_some _ _ _ (placed_null _)
    · intro t
      simp only [plx_parse_identifier_or_struct]
      refine ensures_and_then _ _ (plx_placed (plx_is_kind PLX_NODE_IDENTIFIER)) _
        (placed_null _) (ensures_placed_identifier _) ?_
      intro k v c n ty t1 h
      split
      · refine ensures_and_then _ _ (plx_placed_members plx_is_expr_kind) _ (placed_null _)
          (imem _ _ _ _ _ ⟨placed_new _ collects_other, rfl⟩) ?_
        intro k2 v2 c2 n2 ty2 t2 h2
        refine ensures_some _ _ _ (placed_of2 plx_is_expr_kind PLX_NODE_STRUCT rfl ?_ h.1
          h2.1.1)
        have hm := h2.2
        simp only [node_children] at hm
        simp [plx_kind_places, h.2 _ rfl, h2.1.2 _ rfl, hm]
      · exact ensures_some _ _ _ (placed_mono _ _ _ h (fun k1 hk1 => by
          rw [is_kind_eq _ _ hk1]
          rfl))
    · intro v c n ty t h
      simp only [plx_parse_struct_members_loop]
      split
      · exact ensures_some _ _ _ h
      · refine ensures_and_then _ _ (plx_placed (plx_is_kind PLX_NODE_IDENTIFIER)) _
          (placed_members_null _) (ensures_placed_identifier _) ?_
        intro k1 v1 c1 n1 ty1 t1 h1
        refine ensures_expect _ _ _ _ (placed_members_null _) ?_
        intro t2
        refine ensures_and_then _ _ (plx_placed plx_is_expr_kind) _ (placed_members_null _)
          (iexpr _) ?_
        intro k3 v3 c3 n3 ty3 t3 h3
        refine ensures_expect _ _ _ _ (placed_members_null _) ?_
        intro t4
        have hm := member_node_placed plx_is_expr_kind h1 h3
        have hn := placed_members_append_child _ v c n ty _ h hm.1 hm.2
        simp only [plx_node.append_child] at hn ⊢
        exact imem _ _ _ _ t4 hn

theorem ensures_placed_expr (fuel : Nat) (t : plx_tokenizer) :
    plx_ensures (plx_parse_expr fuel t) (plx_placed plx_is_expr_kind) :=
  (expr_layer_placed fuel).1 t

theorem ensures_placed_rel_expr (fuel : Nat) (t : plx_tokenizer) :
    plx_ensures (plx_parse_rel_expr fuel t) (plx_placed plx_is_expr_kind) :=
  (expr_layer_placed fuel).2.2.2.1 t

theorem ensures_placed_unary_expr (fuel : Nat) (t : plx_tokenizer) :
    plx_ensures (plx_parse_unary_expr fuel t) (plx_placed plx_is_expr_kind) :=
  (expr_layer_placed fuel).2.2.2.2.2.2.1 t

/-- The statement of the invariant of positions for the functions that parse
types, at one bound. -/
def plx_type_layer_placed (fuel : Nat) : Prop :=
  (∀ t, plx_ensures (plx_parse_type fuel t) (plx_placed plx_is_type_kind)) ∧
  (∀ t, plx_ensures (plx_parse_func_type fuel t) (plx_placed plx_is_type_kind)) ∧
  (∀ v c n ty t, plx_placed (plx_is_kind PLX_NODE_OTHER) (.node PLX_NODE_OTHER v c n ty) →
    plx_ensures (plx_parse_param_types_loop fuel (.node PLX_NODE_OTHER v c n ty) t)
      (plx_placed (plx_is_kind PLX_NODE_OTHER))) ∧
  (∀ t, plx_ensures (plx_parse_ref_type fuel t) (plx_placed plx_is_type_kind)) ∧
  (∀ t, plx_ensures (plx_parse_array_or_slice_type fuel t) (plx_placed plx_is_type_kind))

theorem type_layer_placed (fuel : Nat) : plx_type_layer_placed fuel := by
  induction fuel with
  | zero =>
    refine ⟨?_, ?_, ?_, ?_, ?_⟩ <;> intros <;>
      simp only [plx_parse_type, plx_parse_func_type, plx_parse_param_types_loop,
        plx_parse_ref_type, plx_parse_array_or_slice_type] <;> exact ensures_none _
  | succ fuel ih =>
    obtain ⟨ity, ifun, iloop, iref, iarr⟩ := ih
    refine ⟨?_, ?_, ?_, ?_, ?_⟩
    · intro t
      simp only [plx_parse_type]
      split
      · exact ensures_some _ _ _ (placed_mono _ _ _ (placed_identifier t) (fun k1 hk1 => by
          rw [is_kind_eq _ _ hk1]
          rfl))
      all_goals first
        | exact ensures_some _ _ _ (placed_leaf _ _ _ rfl rfl)
        | exact ifun t
        | exact iref t
        | exact iarr t
        | exact ensures_some _ _ _ (placed_null _)
    · intro t
      simp only [plx_parse_func_type]
      refine ensures_expect _ _ _ _ (placed_null _) ?_
      intro t1
      refine ensures_and_then _ _ (plx_placed (plx_is_kind PLX_NODE_OTHER)) _ (placed_null _)
        ?_ ?_
      · split
        · exact ensures_some _ _ _ (placed_new _ collects_other)
        · exact iloop _ _ _ _ _ (placed_new _ collects_other)
      · intro k v c n ty t2 h
        split
        · refine ensures_and_then _ _ (plx_placed plx_is_type_kind) _ (placed_null _) (ity _) ?_
          intro k2 v2 c2 n2 ty2 t3 h2
          exact ensures_some _ _ _ (placed_of2 plx_is_type_kind PLX_NODE_FUNC_TYPE rfl rfl h.1
            h2.1)
        · exact ensures_some _ _ _ (placed_of2 plx_is_type_kind PLX_NODE_FUNC_TYPE rfl rfl h.1
            (placed_leaf plx_any_kind PLX_NODE_VOID_TYPE .zero rfl rfl).1)
    · intro v c n ty t h
      simp only [plx_parse_param_types_loop]
      refine ensures_and_then _ _ (plx_placed plx_is_type_kind) _ (placed_null _) (ity _) ?_
      intro k2 v2 c2 n2 ty2 t2 h2
      have hn := placed_append_child _ v c n ty _ collects_other h h2.1
      split
      · exact ensures_some _ _ _ hn
      · refine ensures_expect _ _ _ _ (placed_null _) ?_
        intro t3
        simp only [plx_node.append_child] at hn ⊢
        exact iloop _ _ _ _ t3 hn
    · intro t
      simp only [plx_parse_ref_type]
      refine ensures_and_then _ _ (plx_placed plx_is_type_kind) _ (placed_null _) (ity _) ?_
      intro k v c n ty t1 h
      exact ensures_some _ _ _ (placed_of1 plx_is_type_kind PLX_NODE_REF_TYPE rfl rfl h.1)
    · intro t
      simp only [plx_parse_array_or_slice_type]
      split
      · refine ensures_and_then _ _ (plx_placed plx_is_type_kind) _ (placed_null _) (ity _) ?_
        intro k v c n ty t1 h
        exact ensures_some _ _ _ (placed_of1 plx_is_type_kind PLX_NODE_SLICE_TYPE rfl rfl h.1)
      · refine ensures_and_then _ _ (plx_placed plx_is_expr_kind) _ (placed_null _)
          (ensures_placed_expr _ _) ?_
        intro k v c n ty t1 h
        refine ensures_expect _ _ _ _ (placed_null _) ?_
        intro t2
        refine ensures_and_then _ _ (plx_placed plx_is_type_kind) _ (placed_null _) (ity _) ?_
        intro k2 v2 c2 n2 ty2 t3 h2
        exact ensures_some _ _ _ (placed_of2 plx_is_type_kind PLX_NODE_ARRAY_TYPE rfl
          (by simp [plx_kind_places, h.2 _ rfl, h2.2 _ rfl]) h.1 h2.1)

theorem ensures_placed_type (fuel : Nat) (t : plx_tokenizer) :
    plx_ensures (plx_parse_type fuel t) (plx_placed plx_is_type_kind) :=
  (type_layer_placed fuel).1 t

theorem ensures_placed_const_def (fuel : Nat) (t : plx_tokenizer) :
    plx_ensures (plx_parse_const_def fuel t) (plx_placed plx_any_kind) := by
  unfold plx_parse_const_def
  refine ensures_and_then _ _ (plx_placed (plx_is_kind PLX_NODE_IDENTIFIER)) _ (placed_null _)
    (ensures_placed_identifier _) ?_
  intro k v c n ty t1 h
  refine ensures_expect _ _ _ _ (placed_null _) ?_
  intro t2
  refine ensures_and_then _ _ (plx_placed plx_is_expr_kind) _ (placed_null _)
    (ensures_placed_expr _ _) ?_
  intro k2 v2 c2 n2 ty2 t3 h2
  refine ensures_expect _ _ _ _ (placed_null _) ?_
  intro t4
  exact ensures_some _ _ _ (placed_of2 plx_any_kind PLX_NODE_CONST_DEF rfl
    (by simp [plx_kind_places, h.2 _ rfl, h2.2 _ rfl]) h.1 h2.1)

theorem ensures_placed_var_def_or_decl (fuel : Nat) (t : plx_tokenizer) :
    plx_ensures (plx_parse_var_def_or_decl fuel t) (plx_placed plx_any_kind) := by
  unfold plx_parse_var_def_or_decl
  refine ensures_and_then _ _ (plx_placed (plx_is_kind PLX_NODE_IDENTIFIER)) _ (placed_null _)
    (ensures_placed_identifier _) ?_
  intro k v c n ty t1 h
  split
  · refine ensures_and_then _ _ (plx_placed plx_is_expr_kind) _ (placed_null _)
      (ensures_placed_expr _ _) ?_
    intro k2 v2 c2 n2 ty2 t3 h2
    refine ensures_expect _ _ _ _ (placed_null _) ?_
    intro t4
    exact ensures_some _ _ _ (placed_of2 plx_any_kind PLX_NODE_VAR_DEF rfl
      (by simp [plx_kind_places, h.2 _ rfl, h2.2 _ rfl]) h.1 h2.1)
  · refine ensures_and_then _ _ (plx_placed plx_is_type_kind) _ (placed_null _)
      (ensures_placed_type _ _) ?_
    intro k2 v2 c2 n2 ty2 t3 h2
    refine ensures_expect _ _ _ _ (placed_null _) ?_
    intro t4
    exact ensures_some _ _ _ (placed_of2 plx_any_kind PLX_NODE_VAR_DECL rfl
      (by simp [plx_kind_places, h.2 _ rfl, h2.2 _ rfl]) h.1 h2.1)
  · exact ensures_some _ _ _ (placed_null _)

theorem ensures_placed_return (fuel : Nat) (t : plx_tokenizer) :
    plx_ensures (plx_parse_return fuel t) (plx_placed plx_any_kind) := by
  unfold plx_parse_return
  split
  · exact ensures_some _ _ _ (placed_leaf _ _ _ rfl rfl)
  · refine ensures_and_then _ _ (plx_placed plx_is_expr_kind) _ (placed_null _)
      (ensures_placed_expr _ _) ?_
    intro k2 v2 c2 n2 ty2 t3 h2
    refine ensures_expect _ _ _ _ (placed_null _) ?_
    intro t4
    exact ensures_some _ _ _ (placed_of1 plx_any_kind PLX_NODE_RETURN rfl rfl h2.1)

theorem ensures_placed_assign (fuel : Nat) (t : plx_tokenizer) :
    plx_ensures (plx_parse_assign fuel t) (plx_placed plx_any_kind) := by
  unfold plx_parse_assign
  refine ensures_and_then _ _ (plx_placed plx_is_expr_kind) _ (placed_null _)
    (ensures_placed_unary_expr _ _) ?_
  intro k v c n ty t1 h
  split
  · refine ensures_expect _ _ _ _ (placed_null _) ?_
    intro t2
    exact ensures_some _ _ _ (placed_any _ _ h)
  · rename_i kind hk
    refine ensures_and_then _ _ (plx_placed plx_is_expr_kind) _ (placed_null _)
      (ensures_placed_expr _ _) ?_
    intro k2 v2 c2 n2 ty2 t3 h2
    refine ensures_expect _ _ _ _ (placed_null _) ?_
    intro t4
    exact ensures_some _ _ _ (placed_of2 plx_any_kind kind rfl
      (assign_kind_places _ _ hk _ _ c2 (h.2 _ rfl) (h2.2 _ rfl)) h.1 h2.1)

/-- The statement of the invariant of positions for the functions that parse
statements, at one bound. -/
def plx_stmt_layer_placed (fuel : Nat) : Prop :=
  (∀ t, plx_ensures (plx_parse_stmt fuel t) (plx_placed plx_any_kind)) ∧
  (∀ t, plx_ensures (plx_parse_block fuel t) (plx_placed (plx_is_kind PLX_NODE_BLOCK))) ∧
  (∀ v c n ty t, plx_placed (plx_is_kind PLX_NODE_BLOCK) (.node PLX_NODE_BLOCK v c n ty) →
    plx_ensures (plx_parse_block_loop fuel (.node PLX_NODE_BLOCK v c n ty) t)
      (plx_placed (plx_is_kind PLX_NODE_BLOCK))) ∧
  (∀ t, plx_ensures (plx_parse_if_then_else fuel t)
    (plx_placed (plx_is_kind PLX_NODE_IF_THEN_ELSE))) ∧
  (∀ t, plx_ensures (plx_parse_loop fuel t) (plx_placed plx_any_kind)) ∧
  (∀ t, plx_ensures (plx_parse_while_loop fuel t) (plx_placed plx_any_kind))

theorem stmt_layer_placed (fuel : Nat) : plx_stmt_layer_placed fuel := by
  induction fuel with
  | zero =>
    refine ⟨?_, ?_, ?_, ?_, ?_, ?_⟩ <;> intros <;>
      simp only [plx_parse_stmt, plx_parse_block, plx_parse_block_loop,
        plx_parse_if_then_else, plx_parse_loop, plx_parse_while_loop] <;>
      exact ensures_none _
  | succ fuel ih =>
    obtain ⟨istmt, iblock, ibl, iif, iloop, iwhile⟩ := ih
    refine ⟨?_, ?_, ?_, ?_, ?_, ?_⟩
    · intro t
      simp only [plx_parse_stmt]
      split
      · exact ensures_placed_any _ _ (iblock t)
      · exact ensures_placed_const_def _ t
      · exact ensures_placed_var_def_or_decl _ t
      · exact ensures_placed_any _ _ (iif t)
      · exact iloop t
      · exact iwhile t
      · refine ensures_expect _ _ _ _ (placed_null _) ?_
        intro t1
        exact ensures_some _ _ _ (placed_leaf _ _ _ rfl rfl)
      · refine ensures_expect _ _ _ _ (placed_null _) ?_
        intro t1
        exact ensures_some _ _ _ (placed_leaf _ _ _ rfl rfl)
      · exact ensures_placed_return _ t
      · exact ensures_placed_assign _ t
    · intro t
      simp only [plx_parse_block]
      refine ensures_expect _ _ _ _ (placed_null _) ?_
      intro t1
      exact ibl _ _ _ _ t1 (placed_new _ collects_block)
    · intro v c n ty t h
      simp only [plx_parse_block_loop]
      split
      · exact ensures_some _ _ _ h
      · refine ensures_and_then _ _ (plx_placed plx_any_kind) _ (placed_null _) (istmt _) ?_
        intro k2 v2 c2 n2 ty2 t2 h2
        have hn := placed_append_child _ v c n ty _ collects_block h h2.1
        simp only [plx_node.append_child] at hn ⊢
        exact ibl _ _ _ _ t2 hn
    · intro t
      simp only [plx_parse_if_then_else]
      refine ensures_and_then _ _ (plx_placed plx_is_expr_kind) _ (placed_null _)
        (ensures_placed_rel_expr _ _) ?_
      intro k v c n ty t1 h
      refine ensures_and_then _ _ (plx_placed (plx_is_kind PLX_NODE_BLOCK)) _ (placed_null _)
        (iblock _) ?_
      intro k2 v2 c2 n2 ty2 t2 h2
      split
      · refine ensures_and_then _ _
          (plx_placed fun k =>
            plx_is_kind PLX_NODE_BLOCK k || plx_is_kind PLX_NODE_IF_THEN_ELSE k) _
          (placed_null _) ?_ ?_
        · split
          · exact ensures_mono _ _ _ (iif _) (fun e he => placed_mono _ _ e he (fun k1 hk1 => by
              simp [hk1]))
          · exact ensures_mono _ _ _ (iblock _) (fun e he => placed_mono _ _ e he
              (fun k1 hk1 => by simp [hk1]))
        · intro k3 v3 c3 n3 ty3 t3 h3
          exact ensures_some _ _ _ (placed_of3 _ PLX_NODE_IF_THEN_ELSE (by simp [plx_is_kind])
            (by
              have h3k := h3.2 _ rfl
              simp only at h3k
              simp [plx_kind_places, h.2 _ rfl, h2.2 _ rfl, h3k])
            h.1 h2.1 h3.1)
      · exact ensures_some _ _ _ (placed_of3 _ PLX_NODE_IF_THEN_ELSE (by simp [plx_is_kind])
          (by
            have hk2 := is_kind_eq _ _ (h2.2 _ rfl)
            subst hk2
            simp [plx_kind_places, h.2 _ rfl, plx_is_kind])
          h.1 h2.1 (placed_new _ collects_block).1)
    · intro t
      simp only [plx_parse_loop]
      refine ensures_and_then _ _ (plx_placed (plx_is_kind PLX_NODE_BLOCK)) _ (placed_null _)
        (iblock _) ?_
      intro k v c n ty t1 h
      exact ensures_some _ _ _ (placed_of1 plx_any_kind PLX_NODE_LOOP rfl
        (by simp [plx_kind_places, h.2 _ rfl]) h.1)
    · intro t
      simp only [plx_parse_while_loop]
      refine ensures_and_then _ _ (plx_placed plx_is_expr_kind) _ (placed_null _)
        (ensures_placed_rel_expr _ _) ?_
      intro k v c n ty t1 h
      refine ensures_and_then _ _ (plx_placed (plx_is_kind PLX_NODE_BLOCK)) _ (placed_null _)
        (iblock _) ?_
      intro k2 v2 c2 n2 ty2 t2 h2
      exact ensures_some _ _ _ (placed_of2 plx_any_kind PLX_NODE_WHILE_LOOP rfl
        (by simp [plx_kind_places, h.2 _ rfl, h2.2 _ rfl]) h.1 h2.1)

theorem ensures_placed_block (fuel : Nat) (t : plx_tokenizer) :
    plx_ensures (plx_parse_block fuel t) (plx_placed (plx_is_kind PLX_NODE_BLOCK)) :=
  (stmt_layer_placed fuel).2.1 t

theorem ensures_placed_struct_def_loop (fuel : Nat) :
    ∀ v c n ty t, plx_placed_members plx_is_type_kind (.node PLX_NODE_OTHER v c n ty) →
      plx_ensures (plx_parse_struct_def_loop fuel (.node PLX_NODE_OTHER v c n ty) t)
        (plx_placed_members plx_is_type_kind) := by
  induction fuel with
  | zero =>
    intros
    simp only [plx_parse_struct_def_loop]
    exact ensures_none _
  | succ fuel ih =>
    intro v c n ty t h
    simp only [plx_parse_struct_def_loop]
    split
    · exact ensures_some _ _ _ h
    · refine ensures_and_then _ _ (plx_placed (plx_is_kind PLX_NODE_IDENTIFIER)) _
        (placed_members_null _) (ensures_placed_identifier _) ?_
      intro k1 v1 c1 n1 ty1 t1 h1
      refine ensures_expect _ _ _ _ (placed_members_null _) ?_
      intro t2
      refine ensures_and_then _ _ (plx_placed plx_is_type_kind) _ (placed_members_null _)
        (ensures_placed_type _ _) ?_
      intro k3 v3 c3 n3 ty3 t3 h3
      refine ensures_expect _ _ _ _ (placed_members_null _) ?_
      intro t4
      have hm := member_node_placed plx_is_type_kind h1 h3
      have hn := placed_members_append_child _ v c n ty _ h hm.1 hm.2
      simp only [plx_node.append_child] at hn ⊢
      exact ih _ _ _ _ t4 hn

theorem ensures_placed_struct_def (fuel : Nat) (t : plx_tokenizer) :
    plx_ensures (plx_parse_struct_def fuel t) (plx_placed plx_any_kind) := by
  unfold plx_parse_struct_def
  refine ensures_and_then _ _ (plx_placed (plx_is_kind PLX_NODE_IDENTIFIER)) _ (placed_null _)
    (ensures_placed_identifier _) ?_
  intro k v c n ty t1 h
  refine ensures_expect _ _ _ _ (placed_null _) ?_
  intro t2
  refine ensures_and_then _ _ (plx_placed_members plx_is_type_kind) _ (placed_null _)
    (ensures_placed_struct_def_loop _ _ _ _ _ _ ⟨placed_new _ collects_other, rfl⟩) ?_
  intro k2 v2 c2 n2 ty2 t3 h2
  refine ensures_some _ _ _ (placed_of2 plx_any_kind PLX_NODE_STRUCT_DEF rfl ?_ h.1 h2.1.1)
  have hm := h2.2
  simp only [node_children] at hm
  simp [plx_kind_places, h.2 _ rfl, h2.1.2 _ rfl, hm]

theorem ensures_placed_params_loop (fuel : Nat) :
    ∀ v c n ty t, plx_placed_members plx_is_type_kind (.node PLX_NODE_OTHER v c n ty) →
      plx_ensures (plx_parse_params_loop fuel (.node PLX_NODE_OTHER v c n ty) t)
        (plx_placed_members plx_is_type_kind) := by
  induction fuel with
  | zero =>
    intros
    simp only [plx_parse_params_loop]
    exact ensures_none _
  | succ fuel ih =>
    intro v c n ty t h
    simp only [plx_parse_params_loop]
    refine ensures_and_then _ _ (plx_placed (plx_is_kind PLX_NODE_IDENTIFIER)) _
      (placed_members_null _) (ensures_placed_identifier _) ?_
    intro k1 v1 c1 n1 ty1 t1 h1
    refine ensures_expect _ _ _ _ (placed_members_null _) ?_
    intro t2
    refine ensures_and_then _ _ (plx_placed plx_is_type_kind) _ (placed_members_null _)
      (ensures_placed_type _ _) ?_
    intro k3 v3 c3 n3 ty3 t3 h3
    have hm := member_node_placed plx_is_type_kind h1 h3
    have hn := placed_members_append_child _ v c n ty _ h hm.1 hm.2
    split
    · exact ensures_some _ _ _ hn
    · refine ensures_expect _ _ _ _ (placed_members_null _) ?_
      intro t4
      simp only [plx_node.append_child] at hn ⊢
      exact ih _ _ _ _ t4 hn

theorem ensures_placed_params (fuel : Nat) (t : plx_tokenizer) :
    plx_ensures (plx_parse_params fuel t) (plx_placed_members plx_is_type_kind) := by
  unfold plx_parse_params
  refine ensures_expect _ _ _ _ (placed_members_null _) ?_
  intro t1
  split
  · exact ensures_some _ _ _ ⟨placed_new _ collects_other, rfl⟩
  · exact ensures_placed_params_loop _ _ _ _ _ _ ⟨placed_new _ collects_other, rfl⟩

theorem ensures_placed_func_def (fuel : Nat) (t : plx_tokenizer) :
    plx_ensures (plx_parse_func_def fuel t) (plx_placed plx_any_kind) := by
  unfold plx_parse_func_def
  refine ensures_and_then _ _ (plx_placed (plx_is_kind PLX_NODE_IDENTIFIER)) _ (placed_null _)
    (ensures_placed_identifier _) ?_
  intro k v c n ty t1 h
  refine ensures_and_then _ _ (plx_placed_members plx_is_type_kind) _ (placed_null _)
    (ensures_placed_params _ _) ?_
  intro k2 v2 c2 n2 ty2 t2 h2
  refine ensures_and_then _ _
    (plx_placed fun k => plx_is_type_kind k || plx_is_kind PLX_NODE_VOID_TYPE k) _
    (placed_null _) ?_ ?_
  · split
    · exact ensures_mono _ _ _ (ensures_placed_type _ _) (fun e he => placed_mono _ _ e he
        (fun k1 hk1 => by simp [hk1]))
    · exact ensures_some _ _ _ (placed_leaf _ _ _ rfl rfl)
  · intro k3 v3 c3 n3 ty3 t3 h3
    refine ensures_and_then _ _ (plx_placed (plx_is_kind PLX_NODE_BLOCK)) _ (placed_null _)
      (ensures_placed_block _ _) ?_
    intro k4 v4 c4 n4 ty4 t4 h4
    refine ensures_some _ _ _ (placed_of4 plx_any_kind PLX_NODE_FUNC_DEF rfl ?_ h.1 h2.1.1
      h3.1 h4.1)
    have hm := h2.2
    simp only [node_children] at hm
    have h3k := h3.2 _ rfl
    simp only at h3k
    simp [plx_kind_places, h.2 _ rfl, h2.1.2 _ rfl, hm, h3k, h4.2 _ rfl]

theorem ensures_placed_module_loop (fuel : Nat) :
    ∀ v c n ty t, plx_placed (plx_is_kind PLX_NODE_MODULE) (.node PLX_NODE_MODULE v c n ty) →
      plx_ensures (plx_parse_module_loop fuel (.node PLX_NODE_MODULE v c n ty) t)
        (plx_placed (plx_is_kind PLX_NODE_MODULE)) := by
  induction fuel with
  | zero =>
    intros
    simp only [plx_parse_module_loop]
    exact ensures_none _
  | succ fuel ih =>
    intro v c n ty t h
    simp only [plx_parse_module_loop]
    split
    · exact ensures_some _ _ _ h
    · refine ensures_and_then _ _ (plx_placed plx_any_kind) _ (placed_null _) ?_ ?_
      · split
        · exact ensures_placed_const_def _ _
        · exact ensures_placed_var_def_or_decl _ _
        · exact ensures_placed_struct_def _ _
        · exact ensures_placed_func_def _ _
        · exact ensures_some _ _ _ (placed_null _)
      · intro k2 v2 c2 n2 ty2 t2 h2
        have hn := placed_append_child _ v c n ty _ collects_module h h2.1
        simp only [plx_node.append_child] at hn ⊢
        exact ih _ _ _ _ t2 hn

theorem and_then_some (r : plx_parse_result)
    (rest : plx_node → plx_tokenizer → plx_parse_result) (node : plx_node) (u : plx_tokenizer)
    (h : r.and_then rest = some (node, u)) (hn : node ≠ .NULL) :
    ∃ e t, r = some (e, t) ∧ e ≠ .NULL ∧ rest e t = some (node, u) := by
  cases r with
  | none => cases h
  | some p =>
    obtain ⟨e, t⟩ := p
    cases e with
    | NULL =>
      simp only [plx_parse_result.and_then, Option.some.injEq, Prod.mk.injEq] at h
      exact absurd h.1.symm hn
    | node k v c n ty => exact ⟨_, t, rfl, node_ne_null _ _ _ _ _, h⟩

theorem parse_func_def_parts (fuel : Nat) (t u : plx_tokenizer) (node : plx_node)
    (h : plx_parse_func_def fuel t = some (node, u)) (hn : node ≠ .NULL) :
    ∃ name params return_type body t1 t2 t3,
      plx_parse_identifier (plx_next_token t) = (name, t1) ∧
      plx_parse_params fuel t1 = some (params, t2) ∧
      (if t2.token = PLX_TOKEN_ARROW then
        plx_parse_type fuel (plx_next_token t2) = some (return_type, t3)
      else return_type = plx_new_node PLX_NODE_VOID_TYPE ∧ t3 = t2) ∧
      plx_parse_block fuel t3 = some (body, u) ∧
      name ≠ .NULL ∧ params ≠ .NULL ∧ return_type ≠ .NULL ∧ body ≠ .NULL ∧
      node = plx_node_of PLX_NODE_FUNC_DEF [name, params, return_type, body] := by
  unfold plx_parse_func_def at h
  obtain ⟨name, t1, h1, n1, h⟩ := and_then_some _ _ _ _ h hn
  obtain ⟨params, t2, h2, n2, h⟩ := and_then_some _ _ _ _ h hn
  obtain ⟨return_type, t3, h3, n3, h⟩ := and_then_some _ _ _ _ h hn
  obtain ⟨body, t4, h4, n4, h⟩ := and_then_some _ _ _ _ h hn
  simp only [Option.some.injEq, Prod.mk.injEq] at h h1
  obtain ⟨rfl, rfl⟩ := h
  refine ⟨name, params, return_type, body, t1, t2, t3, h1, h2, ?_, h4, n1, n2, n3, n4, rfl⟩
  by_cases ha : t2.token = PLX_TOKEN_ARROW
  · rw [if_pos ha]
    have hacc : plx_accept_token t2 PLX_TOKEN_ARROW = (true, plx_next_token t2) := by
      rw [← ha]
      exact accept_token_eq t2
    rw [hacc] at h3
    simpa using h3
  · rw [if_neg ha]
    rw [accept_token_ne t2 _ ha] at h3
    simp only [Bool.false_eq_true, if_false, Option.some.injEq, Prod.mk.injEq] at h3
    exact ⟨h3.1.symm, h3.2.symm⟩

theorem parse_if_then_else_parts (fuel : Nat) (t u : plx_tokenizer) (node : plx_node)
    (h : plx_parse_if_then_else (fuel + 1) t = some (node, u)) (hn : node ≠ .NULL) :
    ∃ cond then_block else_block t1 t2,
      plx_parse_rel_expr fuel (plx_next_token t) = some (cond, t1) ∧
      plx_parse_block fuel t1 = some (then_block, t2) ∧
      (if t2.token = PLX_TOKEN_ELSE then
        (if (plx_next_token t2).token = PLX_TOKEN_IF then
          plx_parse_if_then_else fuel (plx_next_token t2)
        else plx_parse_block fuel (plx_next_token t2)) = some (else_block, u)
      else else_block = plx_new_node PLX_NODE_BLOCK ∧ u = t2) ∧
      cond ≠ .NULL ∧ then_block ≠ .NULL ∧ else_block ≠ .NULL ∧
      node = plx_node_of PLX_NODE_IF_THEN_ELSE [cond, then_block, else_block] := by
  simp only [plx_parse_if_then_else] at h
  obtain ⟨cond, t1, h1, n1, h⟩ := and_then_some _ _ _ _ h hn
  obtain ⟨then_block, t2, h2, n2, h⟩ := and_then_some _ _ _ _ h hn
  by_cases ha : t2.token = PLX_TOKEN_ELSE
  · have hacc : plx_accept_token t2 PLX_TOKEN_ELSE = (true, plx_next_token t2) := by
      rw [← ha]
      exact accept_token_eq t2
    rw [hacc] at h
    simp only [if_true] at h
    obtain ⟨else_block, t3, h3, n3, h⟩ := and_then_some _ _ _ _ h hn
    simp only [Option.some.injEq, Prod.mk.injEq] at h
    obtain ⟨rfl, rfl⟩ := h
    refine ⟨cond, then_block, else_block, t1, t2, h1, h2, ?_, n1, n2, n3, rfl⟩
    rw [if_pos ha]
    exact h3
  · rw [accept_token_ne t2 _ ha] at h
    simp only [Bool.false_eq_true, if_false, Option.some.injEq, Prod.mk.injEq] at h
    obtain ⟨rfl, rfl⟩ := h
    refine ⟨cond, then_block, plx_new_node PLX_NODE_BLOCK, t1, t2, h1, h2, ?_, n1, n2,
      node_ne_null _ _ _ _ _, rfl⟩
    rw [if_neg ha]
    exact ⟨rfl, rfl⟩

theorem parse_module_kind (fuel : Nat) :
    ∀ v c n ty t, plx_ensures (plx_parse_module_loop fuel (.node PLX_NODE_MODULE v c n ty) t)
      (fun e => e ≠ .NULL → e.kind? = some PLX_NODE_MODULE) := by
  induction fuel with
  | zero =>
    intros
    simp only [plx_parse_module_loop]
    exact ensures_none _
  | succ fuel ih =>
    intro v c n ty t
    simp only [plx_parse_module_loop]
    split
    · exact ensures_some _ _ _ (fun _ => rfl)
    · refine ensures_and_then _ _ (fun _ => True) _ (fun hh => absurd rfl hh)
        (fun _ _ _ => trivial) ?_
      intro k2 v2 c2 n2 ty2 t2 _
      simp only [plx_node.append_child]
      exact ih _ _ _ _ t2

/-- The module tree of the source text `func f(a: s32) { if a == 1 { } }`. -/
def shape_example : plx_node :=
  plx_node_of PLX_NODE_MODULE
    [plx_node_of PLX_NODE_FUNC_DEF
      [.node PLX_NODE_IDENTIFIER (.identifier "f" none) .NULL .NULL .NULL,
        plx_node_of PLX_NODE_OTHER
          [plx_node_of PLX_NODE_OTHER
            [.node PLX_NODE_IDENTIFIER (.identifier "a" none) .NULL .NULL .NULL,
              plx_new_node PLX_NODE_S32_TYPE]],
        plx_new_node PLX_NODE_VOID_TYPE,
        plx_node_of PLX_NODE_BLOCK
          [plx_node_of PLX_NODE_IF_THEN_ELSE
            [plx_node_of PLX_NODE_EQ
              [.node PLX_NODE_IDENTIFIER (.identifier "a" none) .NULL .NULL .NULL,
                .node PLX_NODE_S32 (.uint 1) .NULL .NULL .NULL],
              plx_new_node PLX_NODE_BLOCK,
              plx_new_node PLX_NODE_BLOCK]]]]

/-- C16: Every tree `plx_parse_module` returns has, at every node, the children
its kind asks for, by number (`plx_shape_ok`) and position by position
(`plx_places_ok`): a const or var definition has [identifier, expression] and a
var declaration [identifier, type]; a function definition has [identifier,
parameters, return type, block], where the return type is a type node or a
void-type node without children; an if-then-else has [expression, block, block or
if-then-else]; a while loop has [expression, block] and a loop [block]; every
assignment and every binary operator has two expressions and a unary operator
one; an array type has [expression, type]; the parameters of a function
definition and the members of a structure definition or literal are `other`
nodes with [identifier, type] or [identifier, expression].  Every node
`plx_parse_func_def` returns is the node of [name, params, return_type, body] its
calls return, where `return_type` is a new void-type node when the token after
the parameters is not `->`, and every node `plx_parse_if_then_else` returns is the
node of [cond, then, else] its calls return, where `else` is a new block node
without children when the token after the then block is not `else`. -/
theorem plx_parse_module_shape (fuel : Nat) (t u : plx_tokenizer) (module : plx_node)
    (h : plx_parse_module fuel t = some (module, u)) (hn : module ≠ .NULL) :
    plx_shape_ok module = true ∧ plx_places_ok module = true ∧
    module.kind? = some PLX_NODE_MODULE ∧ module.next = .NULL ∧
    (∀ (fuel1 : Nat) (s s4 : plx_tokenizer) (node : plx_node),
      plx_parse_func_def fuel1 s = some (node, s4) → node ≠ .NULL →
      ∃ name params return_type body s1 s2 s3,
        plx_parse_identifier (plx_next_token s) = (name, s1) ∧
        plx_parse_params fuel1 s1 = some (params, s2) ∧
        (if s2.token = PLX_TOKEN_ARROW then
          plx_parse_type fuel1 (plx_next_token s2) = some (return_type, s3)
        else return_type = plx_new_node PLX_NODE_VOID_TYPE ∧ s3 = s2) ∧
        plx_parse_block fuel1 s3 = some (body, s4) ∧
        name ≠ .NULL ∧ params ≠ .NULL ∧ return_type ≠ .NULL ∧ body ≠ .NULL ∧
        node = plx_node_of PLX_NODE_FUNC_DEF [name, params, return_type, body]) ∧
    (∀ (fuel1 : Nat) (s s3 : plx_tokenizer) (node : plx_node),
      plx_parse_if_then_else (fuel1 + 1) s = some (node, s3) → node ≠ .NULL →
      ∃ cond then_block else_block s1 s2,
        plx_parse_rel_expr fuel1 (plx_next_token s) = some (cond, s1) ∧
        plx_parse_block fuel1 s1 = some (then_block, s2) ∧
        (if s2.token = PLX_TOKEN_ELSE then
          (if (plx_next_token s2).token = PLX_TOKEN_IF then
            plx_parse_if_then_else fuel1 (plx_next_token s2)
          else plx_parse_block fuel1 (plx_next_token s2)) = some (else_block, s3)
        else else_block = plx_new_node PLX_NODE_BLOCK ∧ s3 = s2) ∧
        cond ≠ .NULL ∧ then_block ≠ .NULL ∧ else_block ≠ .NULL ∧
        node = plx_node_of PLX_NODE_IF_THEN_ELSE [cond, then_block, else_block]) := by
  have h1 := ensures_module_loop fuel .zero .NULL .NULL .NULL t
    (parsed_ok_new _ collector_module) module u h
  have h2 := ensures_placed_module_loop fuel .zero .NULL .NULL .NULL t
    (placed_new _ collects_module) module u h
  exact ⟨h1.1, h2.1, parse_module_kind fuel .zero .NULL .NULL .NULL t module u h hn, h1.2,
    fun fuel1 s s4 node hp hne => parse_func_def_parts fuel1 s s4 node hp hne,
    fun fuel1 s s3 node hp hne => parse_if_then_else_parts fuel1 s s3 node hp hne⟩

set_option maxRecDepth 1000000 in
/-- Witness for C16: the source text `func f(a: s32) { if a == 1 { } }` is
parsed to a module whose function definition has a parameter node, a void return
type and an if-then-else with an empty else block, and the tree has the children
its kinds ask for, by number and by position. -/
theorem plx_parse_module_shape_witness :
    (plx_parse_module 20 (plx_tokenizer_init (c_literal "func f(a: s32) { if a == 1 { } }"))).map
      Prod.fst = some shape_example ∧
    plx_shape_ok shape_example = true ∧ plx_places_ok shape_example = true :=
  ⟨by decide,
    (plx_parse_module_shape 20 (plx_tokenizer_init (c_literal "func f(a: s32) { if a == 1 { } }"))
      ((plx_parse_module 20
        (plx_tokenizer_init (c_literal "func f(a: s32) { if a == 1 { } }"))).getD
        (.NULL, plx_tokenizer_fresh [])).2
      shape_example (by decide) (by decide)).1,
    (plx_parse_module_shape 20 (plx_tokenizer_init (c_literal "func f(a: s32) { if a == 1 { } }"))
      ((plx_parse_module 20
        (plx_tokenizer_init (c_literal "func f(a: s32) { if a == 1 { } }"))).getD
        (.NULL, plx_tokenizer_fresh [])).2
      shape_example (by decide) (by decide)).2.1⟩

/-! ## `src/name_resolver.c`

The resolver walks the tree, writes `entry` into identifier nodes and calls the
symbol table.  `plx_resolve_names` returns the tree as the walk leaves it, the
symbol table, and the `bool` of the C function.  The inner `none` of a result
says that the C code fails an assertion or reads through a null or
uninitialised pointer (a node whose children are not those
`plx_extract_children` is asked for); the outer `none` says that the bound on
the depth of calls and loop rounds was reached.  The printing of diagnostics
and the member `decl` of an entry are not modelled. -/

/-- `enum plx_symbol_scope`. -/
inductive plx_symbol_scope where
  | PLX_SYMBOL_SCOPE_LOCAL
  | PLX_SYMBOL_SCOPE_GLOBAL
  deriving DecidableEq

/-- The symbol table with its pool, and the member `scope` of the entries: the
addresses of the entries whose `scope` has been set to
`PLX_SYMBOL_SCOPE_GLOBAL`; `plx_declare_symbol` leaves it zero,
`PLX_SYMBOL_SCOPE_LOCAL`. -/
structure plx_resolver_state where
  symbols : plx_symbol_state
  globals : List Nat
  deriving DecidableEq

/-- The member `entry->scope`. -/
def plx_entry_scope (st : plx_resolver_state) (entry : Nat) : plx_symbol_scope :=
  if entry ∈ st.globals then .PLX_SYMBOL_SCOPE_GLOBAL else .PLX_SYMBOL_SCOPE_LOCAL

/-- What a call of the resolver leaves: the tree, the state and the returned
`bool`; `none` when the call does not return normally. -/
abbrev plx_resolve_result := Option (plx_node × plx_resolver_state × Bool)

/-- `plx_declare_identifier`. -/
def plx_declare_identifier (identifier : plx_node) (st : plx_resolver_state) :
    plx_resolve_result :=
  match identifier with
  | .node PLX_NODE_IDENTIFIER (.identifier name entry) c n ty =>
    if entry ≠ none then some (identifier, st, true)
    else
      match plx_declare_symbol st.symbols name with
      | none => none
      | some (_, none) =>
        match plx_lookup_symbol st.symbols name with
        | some (some _) => some (identifier, st, false)
        | _ => none
      | some (symbols, some e) =>
        some (.node PLX_NODE_IDENTIFIER (.identifier name (some e)) c n ty,
          { st with symbols := symbols }, true)
  | _ => none

/-- The first loop of the case `PLX_NODE_MODULE`, from the first definition on:
it declares the name of every definition and sets the scope of its entry. -/
def plx_resolve_names_declare : plx_node → plx_resolver_state → plx_resolve_result
  | .NULL, st => some (.NULL, st, true)
  | .node k v c n ty, st =>
    match plx_declare_identifier c st with
    | none => none
    | some (name, st1, r1) =>
      match plx_resolve_names_declare n
          (match name.entry with
            | some e => { st1 with globals := e :: st1.globals }
            | none => st1) with
      | none => none
      | some (n1, st2, r2) => some (.node k v name n1 ty, st2, r1 && r2)

/-- A call that may not return normally, followed by the rest of the function. -/
def plx_resolve_bind (r : Option plx_resolve_result)
    (rest : plx_node → plx_resolver_state → Bool → Option plx_resolve_result) :
    Option plx_resolve_result :=
  match r with
  | none => none
  | some none => some none
  | some (some (x, st, b)) => rest x st b

/-- `plx_enter_scope` on the table of the state. -/
def plx_resolver_enter_scope (st : plx_resolver_state) : Option plx_resolver_state :=
  (plx_enter_scope st.symbols.table).map fun t =>
    { st with symbols := { st.symbols with table := t } }

/-- `plx_exit_scope` on the table of the state. -/
def plx_resolver_exit_scope (st : plx_resolver_state) : Option plx_resolver_state :=
  (plx_exit_scope st.symbols.table).map fun t =>
    { st with symbols := { st.symbols with table := t } }

mutual

/-- `plx_resolve_names`. -/
def plx_resolve_names : Nat → plx_node → plx_resolver_state → Option plx_resolve_result
  | 0, _, _ => none
  | _ + 1, .NULL, _ => some none
  | fuel + 1, .node k v c n ty, st =>
    match k with
    | PLX_NODE_MODULE =>
      plx_resolve_bind (some (plx_resolve_names_declare c st)) fun c1 st1 r1 =>
        plx_resolve_bind (plx_resolve_names_each fuel c1 st1) fun c2 st2 r2 =>
          some (some (.node k v c2 n ty, st2, r1 && r2))
    | PLX_NODE_CONST_DEF | PLX_NODE_VAR_DEF | PLX_NODE_VAR_DECL =>
      match c with
      | .node kn vn cn (.node kv vv cv .NULL tyv) tyn =>
        plx_resolve_bind (plx_resolve_names fuel (.node kv vv cv .NULL tyv) st)
          fun value st1 r1 =>
            plx_resolve_bind
              (some (plx_declare_identifier (.node kn vn cn (.node kv vv cv .NULL tyv) tyn) st1))
              fun name st2 r2 => some (some (.node k v (name.set_next value) n ty, st2, r1 && r2))
      | _ => some none
    | PLX_NODE_STRUCT_DEF => some (some (.node k v c n ty, st, true))
    | PLX_NODE_FUNC_DEF =>
      match c with
      | .node kn vn cn (.node kp vp cp (.node kr vr cr (.node kb vb cb .NULL tyb) tyr) typ) tyn =>
        plx_resolve_bind
          (some (plx_declare_identifier
            (.node kn vn cn (.node kp vp cp (.node kr vr cr (.node kb vb cb .NULL tyb) tyr) typ)
              tyn) st))
          fun name st1 r1 =>
            plx_resolve_bind (some ((plx_resolver_enter_scope st1).map fun s => (.NULL, s, true)))
              fun _ st2 _ =>
                plx_resolve_bind (plx_resolve_names_params fuel cp st2) fun cp1 st3 r2 =>
                  plx_resolve_bind
                    (plx_resolve_names fuel (.node kr vr cr (.node kb vb cb .NULL tyb) tyr) st3)
                    fun return_type st4 r3 =>
                      plx_resolve_bind (plx_resolve_names fuel (.node kb vb cb .NULL tyb) st4)
                        fun body st5 r4 =>
                          plx_resolve_bind
                            (some ((plx_resolver_exit_scope st5).map fun s => (.NULL, s, true)))
                            fun _ st6 _ =>
                              some (some (.node k v
                                (name.set_next ((plx_node.node kp vp cp1 .NULL typ).set_next
                                  (return_type.set_next body))) n ty,
                                st6, r1 && r2 && r3 && r4))
      | _ => some none
    | PLX_NODE_BLOCK =>
      plx_resolve_bind (some ((plx_resolver_enter_scope st).map fun s => (.NULL, s, true)))
        fun _ st1 _ =>
          plx_resolve_bind (plx_resolve_names_each fuel c st1) fun c1 st2 r =>
            plx_resolve_bind (some ((plx_resolver_exit_scope st2).map fun s => (.NULL, s, true)))
              fun _ st3 _ => some (some (.node k v c1 n ty, st3, r))
    | PLX_NODE_IDENTIFIER =>
      match v with
      | .identifier name entry =>
        if entry ≠ none then some (some (.node k v c n ty, st, true))
        else
          match plx_lookup_symbol st.symbols name with
          | none => some none
          | some e => some (some (.node k (.identifier name e) c n ty, st, e.isSome))
      | _ => some none
    | _ =>
      plx_resolve_bind (plx_resolve_names_each fuel c st) fun c1 st1 _ =>
        some (some (.node k v c1 n ty, st1, true))

/-- The loops `for (child = node->children; child != NULL; child = child->next)`
that call `plx_resolve_names` on each child, from a child on; the `bool` tells
whether every call returned `true`. -/
def plx_resolve_names_each : Nat → plx_node → plx_resolver_state → Option plx_resolve_result
  | 0, _, _ => none
  | _ + 1, .NULL, st => some (some (.NULL, st, true))
  | fuel + 1, .node k v c n ty, st =>
    plx_resolve_bind (plx_resolve_names fuel (.node k v c n ty) st) fun child st1 r1 =>
      plx_resolve_bind (plx_resolve_names_each fuel n st1) fun n1 st2 r2 =>
        some (some (child.set_next n1, st2, r1 && r2))

/-- The loop over the parameters of the case `PLX_NODE_FUNC_DEF`, from a
parameter on. -/
def plx_resolve_names_params : Nat → plx_node → plx_resolver_state → Option plx_resolve_result
  | 0, _, _ => none
  | _ + 1, .NULL, st => some (some (.NULL, st, true))
  | fuel + 1, .node k v c n ty, st =>
    match c with
    | .node kn vn cn (.node kt vt ct .NULL tyt) tyn =>
      plx_resolve_bind (plx_resolve_names fuel (.node kt vt ct .NULL tyt) st)
        fun param_type st1 r1 =>
          plx_resolve_bind
            (some (plx_declare_identifier (.node kn vn cn (.node kt vt ct .NULL tyt) tyn) st1))
            fun param_name st2 r2 =>
              plx_resolve_bind (plx_resolve_names_params fuel n st2) fun n1 st3 r3 =>
                some (some (.node k v (param_name.set_next param_type) n1 ty, st3,
                  r1 && r2 && r3))
    | _ => some none

end

/-- The state `plx_compile` starts name resolution from: `PLX_SYMBOL_TABLE_INIT`
and no entries. -/
def plx_resolver_init : plx_resolver_state :=
  { symbols := { pool := [], table := PLX_SYMBOL_TABLE_INIT }, globals := [] }

/-- The `bool` `plx_resolve_names` returns for the module `plx_parse_module`
builds from a source text, both within the bound 40. -/
def plx_resolve_source (source : String) : Option Bool :=
  match plx_parse_module 40 (plx_tokenizer_init (c_literal source)) with
  | some (.node k v c n ty, _) =>
    match plx_resolve_names 40 (.node k v c n ty) plx_resolver_init with
    | some (some r) => some r.2.2
    | _ => none
  | _ => none

/-- The kinds `plx_resolve_names` handles in the `default` case of its
`switch`. -/
def plx_resolve_default_kind (k : plx_node_kind) : Bool :=
  !(k = PLX_NODE_MODULE || k = PLX_NODE_CONST_DEF || k = PLX_NODE_VAR_DEF ||
    k = PLX_NODE_VAR_DECL || k = PLX_NODE_STRUCT_DEF || k = PLX_NODE_FUNC_DEF ||
    k = PLX_NODE_BLOCK || k = PLX_NODE_IDENTIFIER)

theorem resolve_bind_some (r : Option plx_resolve_result)
    (rest : plx_node → plx_resolver_state → Bool → Option plx_resolve_result)
    (out : plx_node × plx_resolver_state × Bool) (h : plx_resolve_bind r rest = some (some out)) :
    ∃ x st b, r = some (some (x, st, b)) ∧ rest x st b = some (some out) := by
  unfold plx_resolve_bind at h
  split at h
  · cases h
  · cases h
  · exact ⟨_, _, _, rfl, h⟩

theorem resolve_default_true (fuel : Nat) (k : plx_node_kind) (v : plx_node_value)
    (c n ty : plx_node) (st : plx_resolver_state) (r : plx_node × plx_resolver_state × Bool)
    (hk : plx_resolve_default_kind k = true)
    (h : plx_resolve_names fuel (.node k v c n ty) st = some (some r)) : r.2.2 = true := by
  cases fuel with
  | zero => simp [plx_resolve_names] at h
  | succ fuel =>
    have key : plx_resolve_names (fuel + 1) (.node k v c n ty) st =
        plx_resolve_bind (plx_resolve_names_each fuel c st) fun c1 st1 _ =>
          some (some (.node k v c1 n ty, st1, true)) := by
      cases k <;> first | (simp [plx_resolve_default_kind] at hk; done) | rfl
    rw [key] at h
    obtain ⟨x, st1, b, _, h2⟩ := resolve_bind_some _ _ _ h
    cases h2
    rfl

set_option maxRecDepth 1000000 in
/-- C17: `plx_resolve_names` returns `true` for every node of a kind of the
`default` case (a return statement, an operator, a call, an if or a while
statement among them), whatever its calls on the children return; so it returns
`true` for the module of `func f() -> s32 { return x; }`, where `x` has no
declaration. -/
theorem plx_resolve_names_undeclared (fuel : Nat) (k : plx_node_kind) (v : plx_node_value)
    (c n ty : plx_node) (st : plx_resolver_state) (r : plx_node × plx_resolver_state × Bool)
    (hk : plx_resolve_default_kind k = true)
    (h : plx_resolve_names fuel (.node k v c n ty) st = some (some r)) :
    r.2.2 = true ∧ plx_resolve_source "func f() -> s32 { return x; }" = some true :=
  ⟨resolve_default_true fuel k v c n ty st r hk h, by decide⟩

set_option maxRecDepth 1000000 in
/-- Witness for C17: the statement `return x;` in the initial state, where the
lookup of `x` gives `NULL` and the call on the identifier returns `false`. -/
theorem plx_resolve_names_undeclared_witness :
    plx_lookup_symbol plx_resolver_init.symbols "x" = some none ∧
    plx_resolve_names 2 (.node PLX_NODE_IDENTIFIER (.identifier "x" none) .NULL .NULL .NULL)
      plx_resolver_init =
      some (some (.node PLX_NODE_IDENTIFIER (.identifier "x" none) .NULL .NULL .NULL,
        plx_resolver_init, false)) ∧
    (true = true ∧ plx_resolve_source "func f() -> s32 { return x; }" = some true) :=
  ⟨by decide, by decide,
    plx_resolve_names_undeclared 3 PLX_NODE_RETURN .zero
      (.node PLX_NODE_IDENTIFIER (.identifier "x" none) .NULL .NULL .NULL) .NULL .NULL
      plx_resolver_init
      (.node PLX_NODE_RETURN .zero
        (.node PLX_NODE_IDENTIFIER (.identifier "x" none) .NULL .NULL .NULL) .NULL .NULL,
        plx_resolver_init, true)
      (by decide) (by decide)⟩

set_option maxRecDepth 1000000 in
/-- C18: On the modules of these source texts `plx_resolve_names` returns
`false` for two top-level definitions of one name, for two parameters of one
name and for two var definitions of one name directly in the body of a function,
`true` when a parameter or a nested block reuses a name of an enclosing scope,
and `true` for two var definitions of one name directly in the block of a loop
or of an if statement. -/
theorem plx_resolve_names_duplicates :
    plx_resolve_source "const a = 1; const a = 2;" = some false ∧
    plx_resolve_source "func f(a: s32, a: s32) { }" = some false ∧
    plx_resolve_source "func f() { var x = 1; var x = 2; }" = some false ∧
    plx_resolve_source "const a = 1; func f(a: s32) { var b = a; { var a = 2; } }" = some true ∧
    plx_resolve_source "func f() { loop { var x = 1; var x = 2; } }" = some true ∧
    plx_resolve_source "func f() { if 1 == 1 { var x = 1; var x = 2; } }" = some true := by
  refine ⟨by decide, by decide, by decide, by decide, by decide, by decide⟩

/-- The state of a resolver against the entries (address and name) of its open
scopes, innermost first. -/
def plx_resolver_inv (st : plx_resolver_state) (segs : List (List (Nat × String))) : Prop :=
  st.symbols.table.depth < PLX_MAX_DEPTH ∧ st.symbols.table.scopes.length = PLX_MAX_DEPTH ∧
  Rep st.symbols.pool st.symbols.table.scopes st.symbols.table.depth st.symbols.table.head segs

/-- In the open scopes the name `x` is held by the outermost scope only, and its
first entry there is `e`. -/
def plx_global_only (x : String) (e : Nat) (segs : List (List (Nat × String))) : Prop :=
  ∃ inner last, segs = inner ++ [last] ∧ (∀ seg ∈ inner, ∀ p ∈ seg, p.2 ≠ x) ∧
    last.find? (fun p => decide (p.2 = x)) = some (e, x)

/-- What the name `x` asks of an identifier node at a position of declaration
or of use: a node of another name is free, a node of the name `x` has an entry
that satisfies `ok`. -/
def plx_name_at (x : String) (ok : Option Nat → Bool) (v : plx_node_value) : Bool :=
  match v with
  | .identifier name entry => decide (name ≠ x) || ok entry
  | _ => true

/-- The names of the definitions of a module, from a definition on, when the
first child of each is an identifier node without an entry. -/
def plx_def_names : plx_node → Option (List String)
  | .NULL => some []
  | .node _ _ (.node PLX_NODE_IDENTIFIER (.identifier name none) _ _ _) n _ =>
    (plx_def_names n).map fun names => name :: names
  | .node _ _ _ _ _ => none

/-- The entries the first loop of the module case allocates for names, the
first at the address `base`, as the innermost scope lists them: newest first. -/
def plx_declared (base : Nat) : List String → List (Nat × String)
  | [] => []
  | name :: names => plx_declared (base + 1) names ++ [(base, name)]

/-- The definitions of a module, from a definition on, with the entry of the
name of each set to consecutive addresses from `base` on. -/
def plx_with_entries (base : Nat) : plx_node → plx_node
  | .NULL => .NULL
  | .node k v (.node kn (.identifier name _) cn nn tyn) n ty =>
    .node k v (.node kn (.identifier name (some base)) cn nn tyn) (plx_with_entries (base + 1) n) ty
  | .node k v c n ty => .node k v c (plx_with_entries (base + 1) n) ty

theorem inv_sym (st : plx_resolver_state) (segs : List (List (Nat × String)))
    (h : plx_resolver_inv st segs) : SymInv st.symbols (segs.map (List.map Prod.snd)) :=
  ⟨h.1, h.2.1, segs, h.2.2, rfl⟩

theorem inv_lookup (st : plx_resolver_state) (segs : List (List (Nat × String))) (n : String)
    (h : plx_resolver_inv st segs) :
    plx_lookup_symbol st.symbols n =
      some ((segs.flatten.find? (fun p => decide (p.2 = n))).map Prod.fst) := by
  obtain ⟨_, _, hrep⟩ := h
  have hseg := Rep_chain _ _ _ _ _ hrep
  have hv := Rep_head_valid _ _ _ _ _ hrep
  exact lookup_loop_chain _ n _ _ _ hseg (fun a ha => by have := hv a ha; omega) (by omega)

theorem inv_enter (st st1 : plx_resolver_state) (segs : List (List (Nat × String)))
    (h : plx_resolver_inv st segs) (he : plx_resolver_enter_scope st = some st1) :
    plx_resolver_inv st1 ([] :: segs) ∧ st1.globals = st.globals := by
  obtain ⟨hd, hl, hrep⟩ := h
  simp only [plx_resolver_enter_scope, plx_enter_scope, Option.map_eq_some'] at he
  obtain ⟨t, ht, rfl⟩ := he
  split at ht
  · rename_i h1
    split at ht
    · rename_i h2
      cases ht
      refine ⟨⟨h1, by simpa using hl, ?_⟩, rfl⟩
      refine ⟨[], segs, st.symbols.table.head, rfl, List.getElem?_set_self h2, rfl, ?_⟩
      exact Rep_congr _ _ _ _ _ _ (fun i hi => List.getElem?_set_ne (by omega)) hrep
    · cases ht
  · cases ht

theorem inv_exit (st st1 : plx_resolver_state) (segs : List (List (Nat × String)))
    (h : plx_resolver_inv st segs) (he : plx_resolver_exit_scope st = some st1) :
    ∃ seg rest, segs = seg :: rest ∧ plx_resolver_inv st1 rest ∧ st1.globals = st.globals := by
  obtain ⟨hd, hl, hrep⟩ := h
  simp only [plx_resolver_exit_scope, plx_exit_scope, Option.map_eq_some'] at he
  obtain ⟨t, ht, rfl⟩ := he
  split at ht
  · rename_i h1
    obtain ⟨k, hk⟩ := Nat.exists_eq_succ_of_ne_zero (Nat.pos_iff_ne_zero.mp h1)
    rw [hk] at hrep ht
    obtain ⟨seg, rest, b, h2, h3, _, h5⟩ := hrep
    rw [h3] at ht
    cases ht
    refine ⟨seg, rest, h2, ⟨?_, hl, ?_⟩, rfl⟩
    · simp only [hk] at hd ⊢
      omega
    · simpa [hk] using h5
  · cases ht

theorem find_append_ne (x : String) (new l : List (Nat × String))
    (h : ∀ p ∈ new, p.2 ≠ x) :
    (new ++ l).find? (fun p => decide (p.2 = x)) = l.find? (fun p => decide (p.2 = x)) := by
  induction new with
  | nil => rfl
  | cons a new ih =>
    have ha := h a (List.mem_cons_self _ _)
    simp only [List.cons_append, List.find?_cons, ha, decide_False]
    exact ih (fun p hp => h p (List.mem_cons_of_mem _ hp))

theorem global_only_find (x : String) (e : Nat) (segs : List (List (Nat × String)))
    (h : plx_global_only x e segs) :
    segs.flatten.find? (fun p => decide (p.2 = x)) = some (e, x) := by
  obtain ⟨inner, last, h1, h2, h3⟩ := h
  subst h1
  induction inner with
  | nil => simpa using h3
  | cons a inner ih =>
    simp only [List.cons_append, List.flatten_cons]
    rw [find_append_ne x a _ (h2 a (List.mem_cons_self _ _))]
    exact ih (fun s hs => h2 s (List.mem_cons_of_mem _ hs))

theorem inv_nonempty (st : plx_resolver_state) (segs : List (List (Nat × String)))
    (h : plx_resolver_inv st segs) : ∃ seg rest, segs = seg :: rest := by
  obtain ⟨b, seg, rest, h1, _⟩ := Rep_top _ _ _ _ _ h.2.2
  exact ⟨seg, rest, h1⟩

/-- The entry of a use of `x` before the call: none yet, or `e`. -/
def plx_entry_pre (e : Nat) (entry : Option Nat) : Bool :=
  decide (entry = none ∨ entry = some e)

/-- The entry of an identifier of the name `x` after the call: `e`. -/
def plx_entry_is (e : Nat) (entry : Option Nat) : Bool := decide (entry = some e)

theorem resolve_default_eq (fuel : Nat) (k : plx_node_kind) (v : plx_node_value)
    (c n ty : plx_node) (st : plx_resolver_state) (hk : plx_resolve_default_kind k = true) :
    plx_resolve_names (fuel + 1) (.node k v c n ty) st =
      plx_resolve_bind (plx_resolve_names_each fuel c st) fun c1 st1 _ =>
        some (some (.node k v c1 n ty, st1, true)) := by
  cases k <;> first | (simp [plx_resolve_default_kind] at hk; done) | rfl

theorem bind_scope_some (r : Option plx_resolver_state)
    (rest : plx_node → plx_resolver_state → Bool → Option plx_resolve_result)
    (out : plx_node × plx_resolver_state × Bool)
    (h : plx_resolve_bind (some (r.map fun s => (plx_node.NULL, s, true))) rest =
      some (some out)) : ∃ s, r = some s ∧ rest .NULL s true = some (some out) := by
  obtain ⟨x, st, b, h1, h2⟩ := resolve_bind_some _ _ _ h
  simp only [Option.some.injEq, Option.map_eq_some', Prod.mk.injEq] at h1
  obtain ⟨s, hs, rfl, rfl, rfl⟩ := h1
  exact ⟨s, hs, h2⟩

theorem resolve_def_eq (fuel : Nat) (k : plx_node_kind)
    (hk : k = PLX_NODE_CONST_DEF ∨ k = PLX_NODE_VAR_DEF ∨ k = PLX_NODE_VAR_DECL)
    (v : plx_node_value) (c n ty : plx_node) (st : plx_resolver_state) :
    plx_resolve_names (fuel + 1) (.node k v c n ty) st =
      match c with
      | .node kn vn cn (.node kv vv cv .NULL tyv) tyn =>
        plx_resolve_bind (plx_resolve_names fuel (.node kv vv cv .NULL tyv) st)
          fun value st1 r1 =>
            plx_resolve_bind
              (some (plx_declare_identifier (.node kn vn cn (.node kv vv cv .NULL tyv) tyn) st1))
              fun name st2 r2 => some (some (.node k v (name.set_next value) n ty, st2, r1 && r2))
      | _ => some none := by
  rcases hk with h | h | h <;> subst h <;> rfl

theorem Seg_mem (pool : List plx_symbol_table_entry) (q : Option Nat)
    (l : List (Nat × String)) :
    ∀ p, Seg pool q p l → ∀ y ∈ l, ∃ prev, pool[y.1]? = some { prev := prev, name := y.2 } := by
  induction l with
  | nil =>
    intro p _ y hy
    cases hy
  | cons a l ih =>
    intro p h y hy
    obtain ⟨_, _, prev, h3, _, h5⟩ := h
    rcases List.mem_cons.1 hy with rfl | hy
    · exact ⟨prev, h3⟩
    · exact ih prev h5 y hy

theorem inv_pool_name (st : plx_resolver_state) (segs : List (List (Nat × String)))
    (h : plx_resolver_inv st segs) (y : Nat × String) (hy : y ∈ segs.flatten) :
    (st.symbols.pool[y.1]?).map (fun en => en.name) = some y.2 := by
  obtain ⟨prev, hp⟩ := Seg_mem _ _ _ _ (Rep_chain _ _ _ _ _ h.2.2) y hy
  rw [hp]
  rfl

theorem inv_declare_new (st : plx_resolver_state) (seg : List (Nat × String))
    (rest : List (List (Nat × String))) (name : String) (c n ty : plx_node)
    (h : plx_resolver_inv st (seg :: rest)) (hn : name ∉ seg.map Prod.snd) :
    ∃ st1, plx_declare_identifier (.node PLX_NODE_IDENTIFIER (.identifier name none) c n ty) st =
        some (.node PLX_NODE_IDENTIFIER (.identifier name (some st.symbols.pool.length)) c n ty,
          st1, true) ∧
      plx_resolver_inv st1 (((st.symbols.pool.length, name) :: seg) :: rest) ∧
      st1.symbols.pool.length = st.symbols.pool.length + 1 ∧ st1.globals = st.globals := by
  have hres := declare_result st.symbols _ name (inv_sym st _ h)
  have hn1 : ¬ name ∈ ((seg :: rest).map (List.map Prod.snd)).headD [] := by simpa using hn
  rw [if_neg hn1] at hres
  refine ⟨⟨⟨st.symbols.pool ++ [⟨st.symbols.table.head, name⟩],
    ⟨st.symbols.table.depth, st.symbols.table.scopes, some st.symbols.pool.length⟩⟩,
    st.globals⟩, ?_, ⟨h.1, h.2.1, Rep_declare _ _ _ _ _ _ name h.2.2⟩, by simp, rfl⟩
  simp only [plx_declare_identifier, ne_eq, not_true_eq_false, if_false, hres]

theorem declared_names (base : Nat) (names : List String) :
    (plx_declared base names).map Prod.snd = names.reverse := by
  induction names generalizing base with
  | nil => rfl
  | cons a names ih => simp [plx_declared, ih]

theorem declare_pass (c : plx_node) :
    ∀ (st : plx_resolver_state) (seg : List (Nat × String)) (names : List String),
      plx_resolver_inv st [seg] → plx_def_names c = some names → names.Nodup →
      (∀ nm ∈ names, nm ∉ seg.map Prod.snd) →
      ∃ st1, plx_resolve_names_declare c st =
          some (plx_with_entries st.symbols.pool.length c, st1, true) ∧
        plx_resolver_inv st1 [plx_declared st.symbols.pool.length names ++ seg] ∧
        st1.globals = (plx_declared st.symbols.pool.length names).map Prod.fst ++ st.globals := by
  induction c with
  | NULL =>
    intro st seg names hinv hnames _ _
    simp only [plx_def_names, Option.some.injEq] at hnames
    subst hnames
    exact ⟨st, rfl, hinv, rfl⟩
  | node k v dc n ty _ ihn _ =>
    intro st seg names hinv hnames hnodup hnew
    unfold plx_def_names at hnames
    split at hnames
    · rename_i heq
      cases heq
    · rename_i k1 v1 name cn nn tyn n1 ty1 heq
      cases heq
      simp only [Option.map_eq_some'] at hnames
      obtain ⟨names1, hn1, rfl⟩ := hnames
      have hnd := List.nodup_cons.1 hnodup
      obtain ⟨st1, hd, hinv1, hlen, hglob⟩ := inv_declare_new st seg [] name cn nn tyn hinv
        (hnew name (List.mem_cons_self _ _))
      have hinv2 : plx_resolver_inv
          { st1 with globals := st.symbols.pool.length :: st1.globals }
          [(st.symbols.pool.length, name) :: seg] := hinv1
      obtain ⟨st3, h3, hinv3, hglob3⟩ := ihn
        { st1 with globals := st.symbols.pool.length :: st1.globals }
        ((st.symbols.pool.length, name) :: seg) names1 hinv2 hn1 hnd.2 (by
          intro nm hnm
          simp only [List.map_cons, List.mem_cons, not_or]
          exact ⟨fun h => hnd.1 (h ▸ hnm), hnew nm (List.mem_cons_of_mem _ hnm)⟩)
      simp only [hlen] at h3 hinv3 hglob3
      refine ⟨st3, ?_, ?_, ?_⟩
      · simp only [plx_resolve_names_declare, hd, plx_node.entry, h3, plx_with_entries,
          Bool.and_self]
      · simpa [plx_declared] using hinv3
      · simp [plx_declared, hglob3, hglob]
    · cases hnames

theorem name_at_entry (x : String) (e base : Nat) (name : String) (h : name = x → base = e) :
    plx_name_at x (plx_entry_is e) (.identifier name (some base)) = true ∧
    plx_name_at x (plx_entry_pre e) (.identifier name (some base)) = true := by
  by_cases hx : name = x
  · have := h hx
    subst this
    simp [plx_name_at, plx_entry_is, plx_entry_pre]
  · simp [plx_name_at, hx]

theorem declared_find (x : String) (names : List String) :
    ∀ (base i : Nat), names.Nodup → names[i]? = some x →
      (plx_declared base names).find? (fun p => decide (p.2 = x)) = some (base + i, x) := by
  induction names with
  | nil =>
    intro base i _ h
    simp at h
  | cons a names ih =>
    intro base i hnd h
    have hnd1 := List.nodup_cons.1 hnd
    simp only [plx_declared]
    cases i with
    | zero =>
      simp only [List.getElem?_cons_zero, Option.some.injEq] at h
      subst h
      have hne : ∀ p ∈ plx_declared (base + 1) names, p.2 ≠ a := by
        intro p hp hpa
        have : p.2 ∈ (plx_declared (base + 1) names).map Prod.snd := List.mem_map_of_mem _ hp
        rw [declared_names] at this
        exact hnd1.1 (hpa ▸ List.mem_reverse.1 this)
      rw [find_append_ne a _ _ hne]
      simp
    | succ i =>
      simp only [List.getElem?_cons_succ] at h
      have := ih (base + 1) i hnd1.2 h
      rw [List.find?_append, this]
      have e1 : base + 1 + i = base + (i + 1) := by omega
      rw [e1]
      rfl

theorem resolver_init_inv : plx_resolver_inv plx_resolver_init [[]] := by
  have h0 := init_inv []
  obtain ⟨h1, h2, segs, h3, h4⟩ := h0
  refine ⟨h1, h2, ?_⟩
  obtain ⟨seg, hs, h5, h6⟩ := h3
  refine ⟨[], rfl, h5, ?_⟩
  subst hs
  cases seg with
  | nil => exact h6
  | cons a l => simp at h4

/-- The number of nodes reachable from a node through `children` and `next`. -/
def plx_node_size : plx_node → Nat
  | .NULL => 0
  | .node _ _ c n _ => plx_node_size c + plx_node_size n + 1

theorem resolve_bind_ne_none (r : Option plx_resolve_result)
    (rest : plx_node → plx_resolver_state → Bool → Option plx_resolve_result)
    (hr : r ≠ none) (hrest : ∀ x st b, r = some (some (x, st, b)) → rest x st b ≠ none) :
    plx_resolve_bind r rest ≠ none := by
  unfold plx_resolve_bind
  split
  · exact absurd rfl hr
  · simp
  · exact hrest _ _ _ rfl

theorem declare_identifier_size (identifier id1 : plx_node) (st st1 : plx_resolver_state)
    (r : Bool) (h : plx_declare_identifier identifier st = some (id1, st1, r)) :
    plx_node_size id1 = plx_node_size identifier := by
  unfold plx_declare_identifier at h
  split at h
  · split at h
    · cases h
      rfl
    · split at h
      · cases h
      · split at h
        · cases h
          rfl
        · cases h
      · cases h
        rfl
  · cases h

theorem declare_pass_size (c : plx_node) :
    ∀ (st st1 : plx_resolver_state) (c1 : plx_node) (r : Bool),
      plx_resolve_names_declare c st = some (c1, st1, r) →
      plx_node_size c1 = plx_node_size c := by
  induction c with
  | NULL =>
    intro st st1 c1 r h
    simp only [plx_resolve_names_declare, Option.some.injEq, Prod.mk.injEq] at h
    rw [← h.1]
  | node k v dc n ty _ ihn _ =>
    intro st st1 c1 r h
    simp only [plx_resolve_names_declare] at h
    split at h
    · cases h
    · rename_i name st2 r1 hd
      split at h
      · cases h
      · rename_i n1 st3 r2 hn
        cases h
        simp only [plx_node_size, declare_identifier_size _ _ _ _ _ hd, ihn _ _ _ _ hn]

theorem resolve_fuel_enough (fuel : Nat) :
    (∀ k v c n ty st, 2 * plx_node_size c + 2 ≤ fuel →
      plx_resolve_names fuel (.node k v c n ty) st ≠ none) ∧
    (∀ chain st, 2 * plx_node_size chain + 1 ≤ fuel →
      plx_resolve_names_each fuel chain st ≠ none) ∧
    (∀ chain st, 2 * plx_node_size chain + 1 ≤ fuel →
      plx_resolve_names_params fuel chain st ≠ none) := by
  induction fuel with
  | zero =>
    refine ⟨?_, ?_, ?_⟩ <;> intros <;> omega
  | succ fuel ih =>
    obtain ⟨hA, hB, hC⟩ := ih
    refine ⟨?_, ?_, ?_⟩
    · intro k v c n ty st hf
      have hdefault : plx_resolve_names (fuel + 1) (.node k v c n ty) st =
          (plx_resolve_bind (plx_resolve_names_each fuel c st) fun c1 st1 _ =>
            some (some (.node k v c1 n ty, st1, true))) →
          plx_resolve_names (fuel + 1) (.node k v c n ty) st ≠ none := by
        intro heq
        rw [heq]
        exact resolve_bind_ne_none _ _ (hB c st (by omega)) (fun _ _ _ _ => by simp)
      by_cases hk : plx_resolve_default_kind k = true
      · exact hdefault (resolve_default_eq fuel k v c n ty st hk)
      · cases k with
        | PLX_NODE_MODULE =>
          simp only [plx_resolve_names]
          refine resolve_bind_ne_none _ _ (by simp) ?_
          intro c1 st1 b1 h1
          simp only [Option.some.injEq] at h1
          have hs := declare_pass_size c st st1 c1 b1 h1
          exact resolve_bind_ne_none _ _ (hB c1 st1 (by omega)) (fun _ _ _ _ => by simp)
        | PLX_NODE_CONST_DEF | PLX_NODE_VAR_DEF | PLX_NODE_VAR_DECL =>
          simp only [plx_resolve_names]
          split
          · simp only [plx_node_size] at hf
            refine resolve_bind_ne_none _ _ (hA _ _ _ _ _ _ (by omega)) ?_
            intro _ _ _ _
            exact resolve_bind_ne_none _ _ (by simp) (fun _ _ _ _ => by simp)
          · simp
        | PLX_NODE_STRUCT_DEF => simp [plx_resolve_names]
        | PLX_NODE_FUNC_DEF =>
          simp only [plx_resolve_names]
          split
          · simp only [plx_node_size] at hf
            refine resolve_bind_ne_none _ _ (by simp) ?_
            intro _ _ _ _
            refine resolve_bind_ne_none _ _ (by simp) ?_
            intro _ _ _ _
            refine resolve_bind_ne_none _ _ (hC _ _ (by omega)) ?_
            intro _ _ _ _
            refine resolve_bind_ne_none _ _ (hA _ _ _ _ _ _ (by omega)) ?_
            intro _ _ _ _
            refine resolve_bind_ne_none _ _ (hA _ _ _ _ _ _ (by omega)) ?_
            intro _ _ _ _
            exact resolve_bind_ne_none _ _ (by simp) (fun _ _ _ _ => by simp)
          · simp
        | PLX_NODE_BLOCK =>
          simp only [plx_resolve_names]
          refine resolve_bind_ne_none _ _ (by simp) ?_
          intro _ _ _ _
          refine resolve_bind_ne_none _ _ (hB _ _ (by omega)) ?_
          intro _ _ _ _
          exact resolve_bind_ne_none _ _ (by simp) (fun _ _ _ _ => by simp)
        | PLX_NODE_IDENTIFIER =>
          simp only [plx_resolve_names]
          split
          · split
            · simp
            · split <;> simp
          · simp
        | _ => exact absurd rfl hk
    · intro chain st hf
      cases chain with
      | NULL => simp [plx_resolve_names_each]
      | node k v c n ty =>
        simp only [plx_node_size] at hf
        simp only [plx_resolve_names_each]
        refine resolve_bind_ne_none _ _ (hA _ _ _ _ _ _ (by omega)) ?_
        intro _ _ _ _
        exact resolve_bind_ne_none _ _ (hB _ _ (by omega)) (fun _ _ _ _ => by simp)
    · intro chain st hf
      cases chain with
      | NULL => simp [plx_resolve_names_params]
      | node k v c n ty =>
        simp only [plx_node_size] at hf
        simp only [plx_resolve_names_params]
        split
        · simp only [plx_node_size] at hf
          refine resolve_bind_ne_none _ _ (hA _ _ _ _ _ _ (by omega)) ?_
          intro _ _ _ _
          refine resolve_bind_ne_none _ _ (by simp) ?_
          intro _ _ _ _
          exact resolve_bind_ne_none _ _ (hC _ _ (by omega)) (fun _ _ _ _ => by simp)
        · simp

/-- The resolver on the module of the source text
`struct A { } struct B { a: A; }`. -/
def struct_example : Option plx_resolve_result :=
  match plx_parse_module 40 (plx_tokenizer_init (c_literal "struct A { } struct B { a: A; }")) with
  | some (module, _) => plx_resolve_names 40 module plx_resolver_init
  | none => none

set_option maxRecDepth 1000000 in
/-- Counterexample to C19: in the module `struct A { } struct B { a: A; }` the
use of `A` as the type of the member `a` names the first top-level definition,
and `plx_resolve_names` returns `true` and leaves that identifier node without
an entry; the name node of the definition of `A` has the entry 0. -/
theorem plx_resolve_names_struct_member :
    struct_example.map (fun r => r.map fun out =>
      (out.1.children.children.entry,
        out.1.children.next.children.next.children.children.next, out.2.2)) =
      some (some (some 0,
        .node PLX_NODE_IDENTIFIER (.identifier "A" none) .NULL .NULL .NULL, true)) := by
  decide

/-- The entry of an identifier node that is not resolved yet: `NULL`. -/
def plx_entry_none (entry : Option Nat) : Bool := decide (entry = none)

/-- Whether a scope, given by its entries, holds an entry of the name `x`. -/
def plx_scope_holds (x : String) (seg : List (Nat × String)) : Bool :=
  seg.any fun p => decide (p.2 = x)

/-- The open scopes against the name `x`: the outermost scope holds `x` with the
entry `e` first, and `shadow` tells of every other open scope, innermost first,
whether it holds an entry of the name `x`. -/
def plx_scopes_shadow (x : String) (e : Nat) (segs : List (List (Nat × String)))
    (shadow : List Bool) : Prop :=
  ∃ inner last, segs = inner ++ [last] ∧ inner.map (plx_scope_holds x) = shadow ∧
    last.find? (fun p => decide (p.2 = x)) = some (e, x)

/-- The open scopes `segs1` are the open scopes `segs` with entries added to the
innermost one. -/
def plx_scopes_grow (segs segs1 : List (List (Nat × String))) : Prop :=
  ∃ new seg rest, segs = seg :: rest ∧ segs1 = (new ++ seg) :: rest

/-- The effect of `plx_declare_identifier` on `shadow` for the name node of a
definition or of a parameter: below the top level a declaration of the name `x`
makes the innermost local scope hold `x`.  With no local scope open the
innermost scope is the outermost one, which holds `x` already.  The name of a
definition at the top level has its entry from the first loop of the module case
and is not declared again. -/
def plx_declare_shadow (x : String) (is_top : Bool) (v : plx_node_value) (shadow : List Bool) :
    List Bool :=
  match v, shadow with
  | .identifier name _, _ :: rest => if is_top = false ∧ name = x then true :: rest else shadow
  | _, _ => shadow

/-- The local scopes that hold the name `x` when `plx_resolve_names` has visited
a node and its next siblings: `shadow` tells for each open local scope, innermost
first, whether `x` has been declared in it.  A block and the parameters and body
of a function definition have a scope of their own, which is closed at their
end; the name of a nested definition is declared after its value or type has been
visited. -/
def plx_shadow_after (x : String) : Bool → List Bool → plx_node → List Bool
  | _, shadow, .NULL => shadow
  | is_top, shadow, .node k _ c n _ =>
    plx_shadow_after x is_top
      (match k with
        | PLX_NODE_MODULE | PLX_NODE_IDENTIFIER | PLX_NODE_STRUCT_DEF | PLX_NODE_BLOCK => shadow
        | PLX_NODE_CONST_DEF | PLX_NODE_VAR_DEF | PLX_NODE_VAR_DECL =>
          (match c with
            | .node _ vn _ value _ =>
              plx_declare_shadow x is_top vn (plx_shadow_after x false shadow value)
            | .NULL => shadow)
        | PLX_NODE_FUNC_DEF =>
          (match c with
            | .node _ vn _ _ _ => plx_declare_shadow x is_top vn shadow
            | .NULL => shadow)
        | _ => plx_shadow_after x false shadow c) n

/-- The same when the parameters of a function definition have been visited,
from a parameter on: the type of a parameter is visited before its name is
declared. -/
def plx_params_shadow_after (x : String) : List Bool → plx_node → List Bool
  | shadow, .NULL => shadow
  | shadow, .node _ _ c n _ =>
    plx_params_shadow_after x
      (match c with
        | .node _ vn _ param_type _ =>
          plx_declare_shadow x false vn (plx_shadow_after x false shadow param_type)
        | .NULL => shadow) n

mutual

/-- The identifier nodes `plx_resolve_names` visits from a node on, that node
and its next siblings, in the order of the visit: every use of the name `x` that
is visited while no open local scope holds `x` (no entry of `shadow` is set)
satisfies `use`, the name of a definition at the top level satisfies `top` and
the name of a nested const, var or function definition or of a parameter
satisfies `decl`.  The members of a structure definition are not visited; a
module node is not expected below the top level. -/
def plx_uses_ok (x : String) (use top decl : Option Nat → Bool) :
    Bool → List Bool → plx_node → Bool
  | _, _, .NULL => true
  | is_top, shadow, .node k v c n ty =>
    (match k with
      | PLX_NODE_MODULE => false
      | PLX_NODE_IDENTIFIER => shadow.any id || plx_name_at x use v
      | PLX_NODE_STRUCT_DEF =>
        (match c with
          | .node _ vn _ _ _ => if is_top then plx_name_at x top vn else true
          | .NULL => true)
      | PLX_NODE_CONST_DEF | PLX_NODE_VAR_DEF | PLX_NODE_VAR_DECL =>
        (match c with
          | .node _ vn _ value _ =>
            plx_name_at x (if is_top then top else decl) vn &&
              plx_uses_ok x use top decl false shadow value
          | .NULL => true)
      | PLX_NODE_FUNC_DEF =>
        (match c with
          | .node _ vn _ (.node _ _ pc rest _) _ =>
            plx_name_at x (if is_top then top else decl) vn &&
              plx_params_uses_ok x use top decl
                (false :: plx_declare_shadow x is_top vn shadow) pc &&
              plx_uses_ok x use top decl false
                (plx_params_shadow_after x (false :: plx_declare_shadow x is_top vn shadow) pc)
                rest
          | _ => true)
      | PLX_NODE_BLOCK => plx_uses_ok x use top decl false (false :: shadow) c
      | _ => plx_uses_ok x use top decl false shadow c) &&
    plx_uses_ok x use top decl is_top (plx_shadow_after x is_top shadow (.node k v c .NULL ty)) n

/-- The same for the parameters of a function definition, from a parameter
on. -/
def plx_params_uses_ok (x : String) (use top decl : Option Nat → Bool) :
    List Bool → plx_node → Bool
  | _, .NULL => true
  | shadow, .node k v c n ty =>
    (match c with
      | .node _ vn _ param_type _ =>
        plx_name_at x decl vn && plx_uses_ok x use top decl false shadow param_type
      | .NULL => true) &&
    plx_params_uses_ok x use top decl
      (plx_params_shadow_after x shadow (.node k v c .NULL ty)) n

end

theorem shadow_after_null (x : String) (b : Bool) (sh : List Bool) :
    plx_shadow_after x b sh .NULL = sh := by
  unfold plx_shadow_after
  rfl

theorem shadow_after_split (x : String) (b : Bool) (sh : List Bool)
    (k : plx_node_kind) (v : plx_node_value) (c n ty : plx_node) :
    plx_shadow_after x b sh (.node k v c n ty) =
      plx_shadow_after x b (plx_shadow_after x b sh (.node k v c .NULL ty)) n := by
  conv_lhs => unfold plx_shadow_after
  conv_rhs => arg 3; unfold plx_shadow_after
  rw [shadow_after_null]

theorem params_shadow_after_null (x : String) (sh : List Bool) :
    plx_params_shadow_after x sh .NULL = sh := by
  unfold plx_params_shadow_after
  rfl

theorem uses_ok_null (x : String) (use top decl : Option Nat → Bool) (b : Bool)
    (sh : List Bool) : plx_uses_ok x use top decl b sh .NULL = true := by
  unfold plx_uses_ok
  rfl

theorem params_uses_ok_null (x : String) (use top decl : Option Nat → Bool) (sh : List Bool) :
    plx_params_uses_ok x use top decl sh .NULL = true := by
  unfold plx_params_uses_ok
  rfl

theorem uses_ok_split (x : String) (use top decl : Option Nat → Bool) (b : Bool)
    (sh : List Bool) (k : plx_node_kind) (v : plx_node_value) (c n ty : plx_node) :
    plx_uses_ok x use top decl b sh (.node k v c n ty) =
      (plx_uses_ok x use top decl b sh (.node k v c .NULL ty) &&
        plx_uses_ok x use top decl b (plx_shadow_after x b sh (.node k v c .NULL ty)) n) := by
  conv_lhs => unfold plx_uses_ok
  conv_rhs => lhs; unfold plx_uses_ok
  rw [uses_ok_null, Bool.and_true]

theorem shadow_after_default (x : String) (b : Bool) (sh : List Bool)
    (k : plx_node_kind) (v : plx_node_value) (c ty : plx_node)
    (hk : plx_resolve_default_kind k = true) :
    plx_shadow_after x b sh (.node k v c .NULL ty) = plx_shadow_after x false sh c := by
  conv_lhs => unfold plx_shadow_after
  rw [shadow_after_null]
  cases k <;> first
    | (simp [plx_resolve_default_kind] at hk; done)
    | rfl

theorem shadow_after_kept (x : String) (b : Bool) (sh : List Bool)
    (k : plx_node_kind) (v : plx_node_value) (c ty : plx_node)
    (hk : k = PLX_NODE_MODULE ∨ k = PLX_NODE_IDENTIFIER ∨ k = PLX_NODE_STRUCT_DEF ∨
      k = PLX_NODE_BLOCK) :
    plx_shadow_after x b sh (.node k v c .NULL ty) = sh := by
  conv_lhs => unfold plx_shadow_after
  rw [shadow_after_null]
  rcases hk with h | h | h | h <;> subst h <;> rfl

theorem shadow_after_def (x : String) (b : Bool) (sh : List Bool)
    (k : plx_node_kind) (v vn : plx_node_value) (kn : plx_node_kind) (cn value tyn ty : plx_node)
    (hk : k = PLX_NODE_CONST_DEF ∨ k = PLX_NODE_VAR_DEF ∨ k = PLX_NODE_VAR_DECL) :
    plx_shadow_after x b sh (.node k v (.node kn vn cn value tyn) .NULL ty) =
      plx_declare_shadow x b vn (plx_shadow_after x false sh value) := by
  conv_lhs => unfold plx_shadow_after
  rw [shadow_after_null]
  rcases hk with h | h | h <;> subst h <;> rfl

theorem shadow_after_func (x : String) (b : Bool) (sh : List Bool)
    (v vn : plx_node_value) (kn : plx_node_kind) (cn nn tyn ty : plx_node) :
    plx_shadow_after x b sh (.node PLX_NODE_FUNC_DEF v (.node kn vn cn nn tyn) .NULL ty) =
      plx_declare_shadow x b vn sh := by
  conv_lhs => unfold plx_shadow_after
  rw [shadow_after_null]

theorem params_shadow_after_node (x : String) (sh : List Bool)
    (k kn : plx_node_kind) (v vn : plx_node_value) (cn pt tyn n ty : plx_node) :
    plx_params_shadow_after x sh (.node k v (.node kn vn cn pt tyn) n ty) =
      plx_params_shadow_after x
        (plx_declare_shadow x false vn (plx_shadow_after x false sh pt)) n := by
  conv_lhs => unfold plx_params_shadow_after

theorem uses_ok_default (x : String) (use top decl : Option Nat → Bool) (b : Bool)
    (sh : List Bool) (k : plx_node_kind) (v : plx_node_value) (c ty : plx_node)
    (hk : plx_resolve_default_kind k = true) :
    plx_uses_ok x use top decl b sh (.node k v c .NULL ty) =
      plx_uses_ok x use top decl false sh c := by
  conv_lhs => unfold plx_uses_ok
  rw [uses_ok_null, Bool.and_true]
  cases k <;> first
    | (simp [plx_resolve_default_kind] at hk; done)
    | rfl

theorem uses_ok_identifier (x : String) (use top decl : Option Nat → Bool) (b : Bool)
    (sh : List Bool) (v : plx_node_value) (c ty : plx_node) :
    plx_uses_ok x use top decl b sh (.node PLX_NODE_IDENTIFIER v c .NULL ty) =
      (sh.any id || plx_name_at x use v) := by
  conv_lhs => unfold plx_uses_ok
  rw [uses_ok_null, Bool.and_true]

theorem uses_ok_module (x : String) (use top decl : Option Nat → Bool) (b : Bool)
    (sh : List Bool) (v : plx_node_value) (c ty : plx_node) :
    plx_uses_ok x use top decl b sh (.node PLX_NODE_MODULE v c .NULL ty) = false := by
  conv_lhs => unfold plx_uses_ok
  rfl

theorem uses_ok_def (x : String) (use top decl : Option Nat → Bool) (b : Bool)
    (sh : List Bool) (k : plx_node_kind) (v vn : plx_node_value) (kn : plx_node_kind)
    (cn value tyn ty : plx_node)
    (hk : k = PLX_NODE_CONST_DEF ∨ k = PLX_NODE_VAR_DEF ∨ k = PLX_NODE_VAR_DECL) :
    plx_uses_ok x use top decl b sh (.node k v (.node kn vn cn value tyn) .NULL ty) =
      (plx_name_at x (if b then top else decl) vn &&
        plx_uses_ok x use top decl false sh value) := by
  conv_lhs => unfold plx_uses_ok
  rw [uses_ok_null, Bool.and_true]
  rcases hk with h | h | h <;> subst h <;> rfl

theorem uses_ok_func (x : String) (use top decl : Option Nat → Bool) (b : Bool)
    (sh : List Bool) (v vn vp : plx_node_value) (kn kp : plx_node_kind)
    (cn pc rest typ tyn ty : plx_node) :
    plx_uses_ok x use top decl b sh
        (.node PLX_NODE_FUNC_DEF v (.node kn vn cn (.node kp vp pc rest typ) tyn) .NULL ty) =
      (plx_name_at x (if b then top else decl) vn &&
        plx_params_uses_ok x use top decl (false :: plx_declare_shadow x b vn sh) pc &&
        plx_uses_ok x use top decl false
          (plx_params_shadow_after x (false :: plx_declare_shadow x b vn sh) pc) rest) := by
  conv_lhs => unfold plx_uses_ok
  rw [uses_ok_null, Bool.and_true]

theorem uses_ok_func_leaf (x : String) (use top decl : Option Nat → Bool) (b : Bool)
    (sh : List Bool) (v vn : plx_node_value) (kn : plx_node_kind) (cn tyn ty : plx_node) :
    plx_uses_ok x use top decl b sh
      (.node PLX_NODE_FUNC_DEF v (.node kn vn cn .NULL tyn) .NULL ty) = true := by
  conv_lhs => unfold plx_uses_ok
  rw [uses_ok_null, Bool.and_true]

theorem uses_ok_block (x : String) (use top decl : Option Nat → Bool) (b : Bool)
    (sh : List Bool) (v : plx_node_value) (c ty : plx_node) :
    plx_uses_ok x use top decl b sh (.node PLX_NODE_BLOCK v c .NULL ty) =
      plx_uses_ok x use top decl false (false :: sh) c := by
  conv_lhs => unfold plx_uses_ok
  rw [uses_ok_null, Bool.and_true]

theorem uses_ok_struct (x : String) (use top decl : Option Nat → Bool) (b : Bool)
    (sh : List Bool) (v vn : plx_node_value) (kn : plx_node_kind) (cn nn tyn ty : plx_node) :
    plx_uses_ok x use top decl b sh
        (.node PLX_NODE_STRUCT_DEF v (.node kn vn cn nn tyn) .NULL ty) =
      if b then plx_name_at x top vn else true := by
  conv_lhs => unfold plx_uses_ok
  rw [uses_ok_null, Bool.and_true]

theorem params_uses_ok_node (x : String) (use top decl : Option Nat → Bool) (sh : List Bool)
    (k kn : plx_node_kind) (v vn : plx_node_value) (cn pt tyn n ty : plx_node) :
    plx_params_uses_ok x use top decl sh (.node k v (.node kn vn cn pt tyn) n ty) =
      (plx_name_at x decl vn && plx_uses_ok x use top decl false sh pt &&
        plx_params_uses_ok x use top decl
          (plx_declare_shadow x false vn (plx_shadow_after x false sh pt)) n) := by
  conv_lhs => unfold plx_params_uses_ok
  rw [params_shadow_after_node, params_shadow_after_null]

theorem inv_declare_held (st st1 : plx_resolver_state) (segs : List (List (Nat × String)))
    (name : String) (c n ty id1 : plx_node) (r : Bool) (h : plx_resolver_inv st segs)
    (hd : plx_declare_identifier (.node PLX_NODE_IDENTIFIER (.identifier name none) c n ty) st =
      some (id1, st1, r)) :
    ∃ seg rest, segs = seg :: rest ∧
      ((st1 = st ∧ id1 = .node PLX_NODE_IDENTIFIER (.identifier name none) c n ty ∧
          name ∈ seg.map Prod.snd) ∨
        (plx_resolver_inv st1 (((st.symbols.pool.length, name) :: seg) :: rest) ∧
          id1 = .node PLX_NODE_IDENTIFIER (.identifier name (some st.symbols.pool.length)) c n ty ∧
          st1.globals = st.globals ∧ name ∉ seg.map Prod.snd)) := by
  have hres := declare_result st.symbols _ name (inv_sym st segs h)
  obtain ⟨hdep, hl, hrep⟩ := h
  obtain ⟨b, seg, rest, h1, _⟩ := Rep_top _ _ _ _ _ hrep
  subst h1
  simp only [plx_declare_identifier, ne_eq, not_true_eq_false, if_false] at hd
  rw [hres] at hd
  refine ⟨seg, rest, rfl, ?_⟩
  by_cases hn : name ∈ ((seg :: rest).map (List.map Prod.snd)).headD []
  · rw [if_pos hn] at hd
    simp only at hd
    split at hd
    · cases hd
      exact Or.inl ⟨rfl, rfl, by simpa using hn⟩
    · cases hd
  · rw [if_neg hn] at hd
    simp only at hd
    cases hd
    exact Or.inr ⟨⟨hdep, hl, Rep_declare _ _ _ _ _ _ name hrep⟩, rfl, rfl, by simpa using hn⟩

theorem scope_holds_mem (x : String) (seg : List (Nat × String)) :
    plx_scope_holds x seg = true ↔ x ∈ seg.map Prod.snd := by
  simp only [plx_scope_holds, List.any_eq_true, decide_eq_true_eq, List.mem_map]

theorem scopes_shadow_find (x : String) (e : Nat) (segs : List (List (Nat × String)))
    (sh : List Bool) (h : plx_scopes_shadow x e segs sh) (hs : sh.any id = false) :
    segs.flatten.find? (fun p => decide (p.2 = x)) = some (e, x) := by
  obtain ⟨inner, last, h1, h2, h3⟩ := h
  refine global_only_find x e segs ⟨inner, last, h1, ?_, h3⟩
  intro seg hseg p hp hpx
  have hmem : plx_scope_holds x seg ∈ sh := by
    rw [← h2]
    exact List.mem_map_of_mem _ hseg
  have hheld : plx_scope_holds x seg = true :=
    (scope_holds_mem x seg).2 (List.mem_map.2 ⟨p, hp, hpx⟩)
  rw [hheld] at hmem
  have : sh.any id = true := List.any_eq_true.2 ⟨true, hmem, rfl⟩
  rw [hs] at this
  cases this

theorem scopes_shadow_enter (x : String) (e : Nat) (segs : List (List (Nat × String)))
    (sh : List Bool) (h : plx_scopes_shadow x e segs sh) :
    plx_scopes_shadow x e ([] :: segs) (false :: sh) := by
  obtain ⟨inner, last, h1, h2, h3⟩ := h
  exact ⟨[] :: inner, last, by simp [h1], by simp [h2, plx_scope_holds], h3⟩

theorem scopes_grow_refl (seg : List (Nat × String)) (rest : List (List (Nat × String))) :
    plx_scopes_grow (seg :: rest) (seg :: rest) :=
  ⟨[], seg, rest, rfl, rfl⟩

theorem scopes_grow_trans (a b c : List (List (Nat × String)))
    (h1 : plx_scopes_grow a b) (h2 : plx_scopes_grow b c) : plx_scopes_grow a c := by
  obtain ⟨new1, seg1, rest1, e1, e2⟩ := h1
  obtain ⟨new2, seg2, rest2, f1, f2⟩ := h2
  subst e1
  subst e2
  simp only [List.cons.injEq] at f1
  obtain ⟨rfl, rfl⟩ := f1
  subst f2
  exact ⟨new2 ++ new1, seg1, rest1, rfl, by simp⟩

theorem scopes_grow_cons (a : List (Nat × String))
    (segs s1 : List (List (Nat × String))) (h : plx_scopes_grow (a :: segs) s1) :
    ∃ b, s1 = b :: segs := by
  obtain ⟨new, seg, rest, e1, e2⟩ := h
  simp only [List.cons.injEq] at e1
  obtain ⟨rfl, rfl⟩ := e1
  exact ⟨_, e2⟩

/-- The effect of a call of the resolver on the state: the open scopes are the
same with entries added to the innermost one, `shadow` tells which of the local
ones hold `x`, and no `scope` member is written. -/
def plx_state_shadow (x : String) (e : Nat) (st : plx_resolver_state)
    (segs : List (List (Nat × String))) (st1 : plx_resolver_state) (shadow : List Bool) : Prop :=
  ∃ segs1, plx_resolver_inv st1 segs1 ∧ plx_scopes_grow segs segs1 ∧
    plx_scopes_shadow x e segs1 shadow ∧ st1.globals = st.globals

theorem state_shadow_refl (x : String) (e : Nat) (st : plx_resolver_state)
    (segs : List (List (Nat × String))) (sh : List Bool) (h : plx_resolver_inv st segs)
    (hs : plx_scopes_shadow x e segs sh) : plx_state_shadow x e st segs st sh := by
  obtain ⟨seg, rest, rfl⟩ := inv_nonempty st segs h
  exact ⟨_, h, scopes_grow_refl seg rest, hs, rfl⟩

theorem state_shadow_trans (x : String) (e : Nat) (st st1 st2 : plx_resolver_state)
    (segs segs1 : List (List (Nat × String))) (sh : List Bool) (h1 : plx_scopes_grow segs segs1)
    (hg : st1.globals = st.globals) (h2 : plx_state_shadow x e st1 segs1 st2 sh) :
    plx_state_shadow x e st segs st2 sh := by
  obtain ⟨segs2, g1, g2, g3, g4⟩ := h2
  exact ⟨segs2, g1, scopes_grow_trans _ _ _ h1 g2, g3, g4.trans hg⟩

theorem declare_shadow_kept (x : String) (b : Bool) (name : String) (entry : Option Nat)
    (sh : List Bool) (h : b = true ∨ name ≠ x) :
    plx_declare_shadow x b (.identifier name entry) sh = sh := by
  cases sh with
  | nil => rfl
  | cons held rest =>
    simp only [plx_declare_shadow]
    rw [if_neg]
    rintro ⟨h1, h2⟩
    rcases h with h | h
    · rw [h] at h1
      cases h1
    · exact h h2

theorem declare_shadow_entry (x : String) (b : Bool) (name : String) (en en1 : Option Nat)
    (sh : List Bool) :
    plx_declare_shadow x b (.identifier name en) sh =
      plx_declare_shadow x b (.identifier name en1) sh := by
  cases sh <;> rfl

theorem find_name_mem (x : String) (e : Nat) (l : List (Nat × String))
    (h : l.find? (fun p => decide (p.2 = x)) = some (e, x)) : x ∈ l.map Prod.snd :=
  List.mem_map.2 ⟨(e, x), List.mem_of_find?_eq_some h, rfl⟩

theorem declare_shadow_links (x : String) (e : Nat) (st st1 : plx_resolver_state)
    (segs : List (List (Nat × String))) (sh : List Bool) (b : Bool) (kn : plx_node_kind)
    (vn : plx_node_value) (cn nn tyn id1 : plx_node) (r : Bool) (h : plx_resolver_inv st segs)
    (hs : plx_scopes_shadow x e segs sh)
    (hn : plx_name_at x (if b then plx_entry_is e else plx_entry_none) vn = true)
    (hd : plx_declare_identifier (.node kn vn cn nn tyn) st = some (id1, st1, r)) :
    ∃ vn1, id1 = .node kn vn1 cn nn tyn ∧
      plx_name_at x (if b then plx_entry_is e else fun _ => true) vn1 = true ∧
      (∀ s, plx_declare_shadow x b vn1 s = plx_declare_shadow x b vn s) ∧
      plx_state_shadow x e st segs st1 (plx_declare_shadow x b vn sh) := by
  unfold plx_declare_identifier at hd
  split at hd
  · rename_i name entry c n ty heq
    cases heq
    have hpost : ∀ en : Option Nat, (name = x → b = true → en = some e) →
        plx_name_at x (if b then plx_entry_is e else fun _ => true)
          (.identifier name en) = true := by
      intro en hen
      cases b with
      | true =>
        by_cases hx : name = x
        · simp [plx_name_at, plx_entry_is, hen hx rfl]
        · simp [plx_name_at, hx]
      | false => simp [plx_name_at]
    have htop : b = true → name = x → entry = some e := by
      intro hb hx
      subst hb
      simpa [plx_name_at, plx_entry_is, hx] using hn
    split at hd
    · rename_i hent
      cases hd
      have hent1 : entry ≠ none := by simpa using hent
      refine ⟨_, rfl, hpost entry (fun hx hb => htop hb hx), fun _ => rfl, ?_⟩
      rw [declare_shadow_kept]
      · exact state_shadow_refl x e st segs sh h hs
      · cases b with
        | true => exact Or.inl rfl
        | false =>
          refine Or.inr ?_
          intro hx
          simp [plx_name_at, plx_entry_none, hx] at hn
          exact hent1 hn
    · rename_i hent
      have hent1 : entry = none := by simpa using hent
      subst hent1
      have hbx : name = x → b = false := by
        intro hx
        cases b with
        | true => cases htop rfl hx
        | false => rfl
      have hd1 : plx_declare_identifier
          (.node PLX_NODE_IDENTIFIER (.identifier name none) cn nn tyn) st =
          some (id1, st1, r) := by
        simp only [plx_declare_identifier, ne_eq, not_true_eq_false, if_false]
        exact hd
      obtain ⟨seg, rest, hsegs, hcase⟩ := inv_declare_held st st1 segs name cn nn tyn id1 r h hd1
      subst hsegs
      obtain ⟨inner, last, g1, g2, g3⟩ := hs
      rcases hcase with ⟨c1, c2, c3⟩ | ⟨c1, c2, c3, c4⟩
      · subst c1
        refine ⟨_, c2, hpost none (fun hx hb => by rw [hbx hx] at hb; cases hb),
          fun _ => rfl, ?_⟩
        have hkeep : plx_declare_shadow x b (.identifier name none) sh = sh := by
          by_cases hx : name = x
          · subst hx
            cases inner with
            | nil =>
              simp only [List.map_nil] at g2
              subst g2
              rfl
            | cons s0 inner1 =>
              simp only [List.cons_append, List.cons.injEq] at g1
              obtain ⟨rfl, rfl⟩ := g1
              simp only [List.map_cons] at g2
              subst g2
              simp only [plx_declare_shadow, hbx rfl, and_self, if_true]
              rw [(scope_holds_mem name seg).2 c3]
          · exact declare_shadow_kept x b name none sh (Or.inr hx)
        rw [hkeep]
        exact state_shadow_refl x e st1 _ sh h ⟨inner, last, g1, g2, g3⟩
      · refine ⟨_, c2, hpost _ (fun hx hb => by rw [hbx hx] at hb; cases hb),
          fun s => declare_shadow_entry x b name _ _ s, _, c1, ⟨[(st.symbols.pool.length, name)], seg, rest, rfl, rfl⟩, ?_, c3⟩
        cases inner with
        | nil =>
          simp only [List.nil_append, List.cons.injEq] at g1
          obtain ⟨rfl, rfl⟩ := g1
          simp only [List.map_nil] at g2
          subst g2
          have hx : name ≠ x := by
            intro hx
            subst hx
            exact c4 (find_name_mem name e seg g3)
          refine ⟨[], _, rfl, rfl, ?_⟩
          simp only [List.find?_cons, hx, decide_False]
          exact g3
        | cons s0 inner1 =>
          simp only [List.cons_append, List.cons.injEq] at g1
          obtain ⟨rfl, rfl⟩ := g1
          simp only [List.map_cons] at g2
          subst g2
          refine ⟨_ :: inner1, last, rfl, ?_, g3⟩
          by_cases hx : name = x
          · simp [plx_declare_shadow, hbx hx, hx, plx_scope_holds]
          · rw [declare_shadow_kept x b name none _ (Or.inr hx)]
            simp [plx_scope_holds, hx]
  · cases hd

theorem identifier_binds (x : String) (e : Nat) (fuel : Nat) (st : plx_resolver_state)
    (segs : List (List (Nat × String))) (sh : List Bool) (v : plx_node_value) (c n ty : plx_node)
    (out : plx_node × plx_resolver_state × Bool) (h : plx_resolver_inv st segs)
    (hg : plx_scopes_shadow x e segs sh)
    (hn : (sh.any id || plx_name_at x (plx_entry_pre e) v) = true)
    (hr : plx_resolve_names (fuel + 1) (.node PLX_NODE_IDENTIFIER v c n ty) st =
      some (some out)) :
    ∃ v1, out.1 = .node PLX_NODE_IDENTIFIER v1 c n ty ∧
      (sh.any id || plx_name_at x (plx_entry_is e) v1) = true ∧ out.2.1 = st := by
  simp only [plx_resolve_names] at hr
  split at hr
  · rename_i name entry
    cases hsh : sh.any id with
    | true =>
      split at hr
      · cases hr
        exact ⟨_, rfl, rfl, rfl⟩
      · split at hr
        · cases hr
        · cases hr
          exact ⟨_, rfl, rfl, rfl⟩
    | false =>
      rw [hsh, Bool.false_or] at hn
      simp only [Bool.false_or]
      split at hr
      · rename_i hent
        cases hr
        refine ⟨_, rfl, ?_, rfl⟩
        have hent1 : entry ≠ none := by simpa using hent
        simp only [plx_name_at, plx_entry_pre, plx_entry_is, Bool.or_eq_true,
          decide_eq_true_eq] at hn ⊢
        rcases hn with hn | hn | hn
        · exact Or.inl hn
        · exact absurd hn hent1
        · exact Or.inr hn
      · rw [inv_lookup st segs name h] at hr
        simp only at hr
        cases hr
        refine ⟨_, rfl, ?_, rfl⟩
        by_cases hx : name = x
        · subst hx
          rw [scopes_shadow_find name e segs sh hg hsh]
          simp [plx_name_at, plx_entry_is]
        · simp [plx_name_at, hx]
  · cases hr

/-- The statement about `plx_resolve_names` at one bound: a call on a node, in a
state whose outermost scope holds `x` with the entry `e`, leaves every use of `x`
that no local declaration of `x` shadows with the entry `e`, when these uses have
no entry yet or the entry `e` and the names of nested declarations are not
resolved yet. -/
def plx_binds_node (x : String) (e fuel : Nat) : Prop :=
  ∀ k v c n ty st segs sh out b, plx_resolver_inv st segs → plx_scopes_shadow x e segs sh →
    plx_uses_ok x (plx_entry_pre e) (plx_entry_is e) plx_entry_none b sh
      (.node k v c .NULL ty) = true →
    plx_resolve_names fuel (.node k v c n ty) st = some (some out) →
    ∃ v1 c1, out.1 = .node k v1 c1 n ty ∧
      plx_uses_ok x (plx_entry_is e) (plx_entry_is e) (fun _ => true) b sh
        (.node k v1 c1 .NULL ty) = true ∧
      plx_shadow_after x b sh (.node k v1 c1 .NULL ty) =
        plx_shadow_after x b sh (.node k v c .NULL ty) ∧
      plx_state_shadow x e st segs out.2.1 (plx_shadow_after x b sh (.node k v c .NULL ty))

/-- The same about `plx_resolve_names_each`. -/
def plx_binds_each (x : String) (e fuel : Nat) : Prop :=
  ∀ chain st segs sh out b, plx_resolver_inv st segs → plx_scopes_shadow x e segs sh →
    plx_uses_ok x (plx_entry_pre e) (plx_entry_is e) plx_entry_none b sh chain = true →
    plx_resolve_names_each fuel chain st = some (some out) →
    plx_uses_ok x (plx_entry_is e) (plx_entry_is e) (fun _ => true) b sh out.1 = true ∧
      plx_shadow_after x b sh out.1 = plx_shadow_after x b sh chain ∧
      plx_state_shadow x e st segs out.2.1 (plx_shadow_after x b sh chain)

/-- The same about `plx_resolve_names_params`. -/
def plx_binds_params (x : String) (e fuel : Nat) : Prop :=
  ∀ chain st segs sh out, plx_resolver_inv st segs → plx_scopes_shadow x e segs sh →
    plx_params_uses_ok x (plx_entry_pre e) (plx_entry_is e) plx_entry_none sh chain = true →
    plx_resolve_names_params fuel chain st = some (some out) →
    plx_params_uses_ok x (plx_entry_is e) (plx_entry_is e) (fun _ => true) sh out.1 = true ∧
      plx_params_shadow_after x sh out.1 = plx_params_shadow_after x sh chain ∧
      plx_state_shadow x e st segs out.2.1 (plx_params_shadow_after x sh chain)

theorem binds_each_step (x : String) (e fuel : Nat) (hA : plx_binds_node x e fuel)
    (hB : plx_binds_each x e fuel) : plx_binds_each x e (fuel + 1) := by
  intro chain st segs sh out b hinv hg hpre hr
  cases chain with
  | NULL =>
    simp only [plx_resolve_names_each] at hr
    cases hr
    refine ⟨uses_ok_null _ _ _ _ _ _, rfl, ?_⟩
    rw [shadow_after_null]
    exact state_shadow_refl x e st segs sh hinv hg
  | node k v c n ty =>
    rw [uses_ok_split, Bool.and_eq_true] at hpre
    simp only [plx_resolve_names_each] at hr
    obtain ⟨child, st1, r1, h1, hr⟩ := resolve_bind_some _ _ _ hr
    obtain ⟨n1, st2, r2, h2, hr⟩ := resolve_bind_some _ _ _ hr
    cases hr
    obtain ⟨v1, c1, e1, p1, q1, segs1, i1, x1, s1, g1⟩ :=
      hA k v c n ty st segs sh _ b hinv hg hpre.1 h1
    simp only at e1 i1 g1
    subst e1
    obtain ⟨p2, q2, t2⟩ := hB n st1 segs1 _ _ b i1 s1 hpre.2 h2
    simp only at p2 q2 t2
    simp only [plx_node.set_next]
    refine ⟨?_, ?_, ?_⟩
    · rw [uses_ok_split, Bool.and_eq_true, q1]
      exact ⟨p1, p2⟩
    · rw [shadow_after_split, q1, q2, ← shadow_after_split]
    · rw [shadow_after_split]
      exact state_shadow_trans x e st st1 st2 segs segs1 _ x1 g1 t2

theorem binds_params_step (x : String) (e fuel : Nat) (hA : plx_binds_node x e fuel)
    (hC : plx_binds_params x e fuel) : plx_binds_params x e (fuel + 1) := by
  intro chain st segs sh out hinv hg hpre hr
  cases chain with
  | NULL =>
    simp only [plx_resolve_names_params] at hr
    cases hr
    refine ⟨params_uses_ok_null _ _ _ _ _, rfl, ?_⟩
    rw [params_shadow_after_null]
    exact state_shadow_refl x e st segs sh hinv hg
  | node k v c n ty =>
    simp only [plx_resolve_names_params] at hr
    split at hr
    · rename_i kn vn cn kt vt ct tyt tyn
      rw [params_uses_ok_node, Bool.and_eq_true, Bool.and_eq_true] at hpre
      obtain ⟨⟨hp1, hp2⟩, hp3⟩ := hpre
      obtain ⟨pt1, st1, r1, h1, hr⟩ := resolve_bind_some _ _ _ hr
      obtain ⟨pn1, st2, r2, h2, hr⟩ := resolve_bind_some _ _ _ hr
      obtain ⟨n1, st3, r3, h3, hr⟩ := resolve_bind_some _ _ _ hr
      cases hr
      obtain ⟨v1, c1, e1, p1, q1, segs1, i1, x1, s1, g1⟩ :=
        hA kt vt ct .NULL tyt st segs sh _ false hinv hg hp2 h1
      simp only at e1 i1 g1
      subst e1
      simp only [Option.some.injEq] at h2
      obtain ⟨vn1, e2, p2, q2, segs2, i2, x2, s2, g2⟩ :=
        declare_shadow_links x e st1 st2 segs1 _ false kn vn cn _ tyn pn1 r2 i1 s1 hp1 h2
      subst e2
      obtain ⟨p3, q3, t3⟩ := hC n st2 segs2 _ _ i2 s2 hp3 h3
      simp only at p3 q3 t3
      simp only [plx_node.set_next]
      refine ⟨?_, ?_, ?_⟩
      · rw [params_uses_ok_node, Bool.and_eq_true, Bool.and_eq_true, q1, q2]
        exact ⟨⟨p2, p1⟩, p3⟩
      · rw [params_shadow_after_node, params_shadow_after_node, q1, q2, q3]
      · rw [params_shadow_after_node]
        exact state_shadow_trans x e st st1 st3 segs segs1 _ x1 g1
          (state_shadow_trans x e st1 st2 st3 segs1 segs2 _ x2 g2 t3)
    · cases hr

theorem binds_def_case (x : String) (e fuel : Nat) (hA : plx_binds_node x e fuel)
    (k : plx_node_kind) (hk : k = PLX_NODE_CONST_DEF ∨ k = PLX_NODE_VAR_DEF ∨ k = PLX_NODE_VAR_DECL)
    (v : plx_node_value) (c n ty : plx_node) (st : plx_resolver_state)
    (segs : List (List (Nat × String))) (sh : List Bool)
    (out : plx_node × plx_resolver_state × Bool) (b : Bool)
    (hinv : plx_resolver_inv st segs) (hg : plx_scopes_shadow x e segs sh)
    (hpre : plx_uses_ok x (plx_entry_pre e) (plx_entry_is e) plx_entry_none b sh
      (.node k v c .NULL ty) = true)
    (hr : plx_resolve_names (fuel + 1) (.node k v c n ty) st = some (some out)) :
    ∃ v1 c1, out.1 = .node k v1 c1 n ty ∧
      plx_uses_ok x (plx_entry_is e) (plx_entry_is e) (fun _ => true) b sh
        (.node k v1 c1 .NULL ty) = true ∧
      plx_shadow_after x b sh (.node k v1 c1 .NULL ty) =
        plx_shadow_after x b sh (.node k v c .NULL ty) ∧
      plx_state_shadow x e st segs out.2.1 (plx_shadow_after x b sh (.node k v c .NULL ty)) := by
  rw [resolve_def_eq fuel k hk v c n ty st] at hr
  split at hr
  · rename_i kn vn cn kv vv cv tyv tyn
    rw [uses_ok_def x _ _ _ b sh k v vn kn cn _ tyn ty hk, Bool.and_eq_true] at hpre
    obtain ⟨hp1, hp2⟩ := hpre
    obtain ⟨value, st1, r1, h1, hr⟩ := resolve_bind_some _ _ _ hr
    obtain ⟨name, st2, r2, h2, hr⟩ := resolve_bind_some _ _ _ hr
    cases hr
    obtain ⟨v1, c1, e1, p1, q1, segs1, i1, x1, s1, g1⟩ :=
      hA kv vv cv .NULL tyv st segs sh _ false hinv hg hp2 h1
    simp only at e1 i1 g1
    subst e1
    simp only [Option.some.injEq] at h2
    obtain ⟨vn1, e2, p2, q2, t2⟩ :=
      declare_shadow_links x e st1 st2 segs1 _ b kn vn cn _ tyn name r2 i1 s1 hp1 h2
    subst e2
    simp only [plx_node.set_next]
    refine ⟨v, _, rfl, ?_, ?_, ?_⟩
    · rw [uses_ok_def x _ _ _ b sh k v vn1 kn cn _ tyn ty hk, Bool.and_eq_true]
      exact ⟨p2, p1⟩
    · rw [shadow_after_def x b sh k v vn1 kn cn _ tyn ty hk,
        shadow_after_def x b sh k v vn kn cn _ tyn ty hk, q1, q2]
    · rw [shadow_after_def x b sh k v vn kn cn _ tyn ty hk]
      exact state_shadow_trans x e st st1 st2 segs segs1 _ x1 g1 t2
  · cases hr

theorem binds_block_case (x : String) (e fuel : Nat) (hB : plx_binds_each x e fuel)
    (v : plx_node_value) (c n ty : plx_node) (st : plx_resolver_state)
    (segs : List (List (Nat × String))) (sh : List Bool)
    (out : plx_node × plx_resolver_state × Bool) (b : Bool)
    (hinv : plx_resolver_inv st segs) (hg : plx_scopes_shadow x e segs sh)
    (hpre : plx_uses_ok x (plx_entry_pre e) (plx_entry_is e) plx_entry_none b sh
      (.node PLX_NODE_BLOCK v c .NULL ty) = true)
    (hr : plx_resolve_names (fuel + 1) (.node PLX_NODE_BLOCK v c n ty) st = some (some out)) :
    ∃ v1 c1, out.1 = .node PLX_NODE_BLOCK v1 c1 n ty ∧
      plx_uses_ok x (plx_entry_is e) (plx_entry_is e) (fun _ => true) b sh
        (.node PLX_NODE_BLOCK v1 c1 .NULL ty) = true ∧
      plx_shadow_after x b sh (.node PLX_NODE_BLOCK v1 c1 .NULL ty) =
        plx_shadow_after x b sh (.node PLX_NODE_BLOCK v c .NULL ty) ∧
      plx_state_shadow x e st segs out.2.1
        (plx_shadow_after x b sh (.node PLX_NODE_BLOCK v c .NULL ty)) := by
  have hkept : ∀ cc, plx_shadow_after x b sh (.node PLX_NODE_BLOCK v cc .NULL ty) = sh :=
    fun cc => shadow_after_kept x b sh _ v cc ty (Or.inr (Or.inr (Or.inr rfl)))
  rw [uses_ok_block] at hpre
  simp only [plx_resolve_names] at hr
  obtain ⟨st1, h1, hr⟩ := bind_scope_some _ _ _ hr
  obtain ⟨c1, st2, r, h2, hr⟩ := resolve_bind_some _ _ _ hr
  obtain ⟨st3, h3, hr⟩ := bind_scope_some _ _ _ hr
  cases hr
  obtain ⟨i1, g1⟩ := inv_enter st st1 segs hinv h1
  obtain ⟨p2, _, segs2, i2, x2, _, g2⟩ :=
    hB c st1 ([] :: segs) (false :: sh) _ false i1 (scopes_shadow_enter x e segs sh hg) hpre h2
  simp only at p2 i2 g2
  obtain ⟨seg3, rest3, e3, i3, g3⟩ := inv_exit st2 st3 segs2 i2 h3
  obtain ⟨b2, e4⟩ := scopes_grow_cons _ _ _ x2
  rw [e3] at e4
  simp only [List.cons.injEq] at e4
  have e5 : rest3 = segs := e4.2
  rw [e5] at i3
  obtain ⟨seg, rest, hs⟩ := inv_nonempty st segs hinv
  refine ⟨v, c1, rfl, ?_, ?_, segs, i3, ?_, ?_, ?_⟩
  · rw [uses_ok_block]
    exact p2
  · rw [hkept, hkept]
  · rw [hs]
    exact scopes_grow_refl seg rest
  · rw [hkept]
    exact hg
  · simp only
    rw [g3, g2, g1]

theorem binds_default_case (x : String) (e fuel : Nat) (hB : plx_binds_each x e fuel)
    (k : plx_node_kind) (hk : plx_resolve_default_kind k = true)
    (v : plx_node_value) (c n ty : plx_node) (st : plx_resolver_state)
    (segs : List (List (Nat × String))) (sh : List Bool)
    (out : plx_node × plx_resolver_state × Bool) (b : Bool)
    (hinv : plx_resolver_inv st segs) (hg : plx_scopes_shadow x e segs sh)
    (hpre : plx_uses_ok x (plx_entry_pre e) (plx_entry_is e) plx_entry_none b sh
      (.node k v c .NULL ty) = true)
    (hr : plx_resolve_names (fuel + 1) (.node k v c n ty) st = some (some out)) :
    ∃ v1 c1, out.1 = .node k v1 c1 n ty ∧
      plx_uses_ok x (plx_entry_is e) (plx_entry_is e) (fun _ => true) b sh
        (.node k v1 c1 .NULL ty) = true ∧
      plx_shadow_after x b sh (.node k v1 c1 .NULL ty) =
        plx_shadow_after x b sh (.node k v c .NULL ty) ∧
      plx_state_shadow x e st segs out.2.1 (plx_shadow_after x b sh (.node k v c .NULL ty)) := by
  rw [uses_ok_default x _ _ _ b sh k v c ty hk] at hpre
  rw [resolve_default_eq fuel k v c n ty st hk] at hr
  obtain ⟨c1, st1, r, h1, hr⟩ := resolve_bind_some _ _ _ hr
  cases hr
  obtain ⟨p1, q1, s1⟩ := hB c st segs sh _ false hinv hg hpre h1
  refine ⟨v, c1, rfl, ?_, ?_, ?_⟩
  · rw [uses_ok_default x _ _ _ b sh k v c1 ty hk]
    exact p1
  · rw [shadow_after_default x b sh k v c1 ty hk, shadow_after_default x b sh k v c ty hk]
    exact q1
  · rw [shadow_after_default x b sh k v c ty hk]
    exact s1

theorem binds_func_case (x : String) (e fuel : Nat) (hA : plx_binds_node x e fuel)
    (hC : plx_binds_params x e fuel)
    (v : plx_node_value) (c n ty : plx_node) (st : plx_resolver_state)
    (segs : List (List (Nat × String))) (sh : List Bool)
    (out : plx_node × plx_resolver_state × Bool) (b : Bool)
    (hinv : plx_resolver_inv st segs) (hg : plx_scopes_shadow x e segs sh)
    (hpre : plx_uses_ok x (plx_entry_pre e) (plx_entry_is e) plx_entry_none b sh
      (.node PLX_NODE_FUNC_DEF v c .NULL ty) = true)
    (hr : plx_resolve_names (fuel + 1) (.node PLX_NODE_FUNC_DEF v c n ty) st = some (some out)) :
    ∃ v1 c1, out.1 = .node PLX_NODE_FUNC_DEF v1 c1 n ty ∧
      plx_uses_ok x (plx_entry_is e) (plx_entry_is e) (fun _ => true) b sh
        (.node PLX_NODE_FUNC_DEF v1 c1 .NULL ty) = true ∧
      plx_shadow_after x b sh (.node PLX_NODE_FUNC_DEF v1 c1 .NULL ty) =
        plx_shadow_after x b sh (.node PLX_NODE_FUNC_DEF v c .NULL ty) ∧
      plx_state_shadow x e st segs out.2.1
        (plx_shadow_after x b sh (.node PLX_NODE_FUNC_DEF v c .NULL ty)) := by
  simp only [plx_resolve_names] at hr
  split at hr
  · rename_i kn vn cn kp vp cp kr vr cr kb vb cb tyb tyr typ tyn
    rw [uses_ok_func, Bool.and_eq_true, Bool.and_eq_true, uses_ok_split,
      Bool.and_eq_true] at hpre
    obtain ⟨⟨hp1, hp2⟩, hp3, hp4⟩ := hpre
    obtain ⟨name, st1, r1, h1, hr⟩ := resolve_bind_some _ _ _ hr
    obtain ⟨st2, h2, hr⟩ := bind_scope_some _ _ _ hr
    obtain ⟨cp1, st3, r2, h3, hr⟩ := resolve_bind_some _ _ _ hr
    obtain ⟨rt, st4, r3, h4, hr⟩ := resolve_bind_some _ _ _ hr
    obtain ⟨body, st5, r4, h5, hr⟩ := resolve_bind_some _ _ _ hr
    obtain ⟨st6, h6, hr⟩ := bind_scope_some _ _ _ hr
    cases hr
    simp only [Option.some.injEq] at h1
    obtain ⟨vn1, e1, p1, q1, segs1, i1, x1, s1, g1⟩ :=
      declare_shadow_links x e st st1 segs sh b kn vn cn _ tyn name r1 hinv hg hp1 h1
    subst e1
    obtain ⟨i2, g2⟩ := inv_enter st1 st2 segs1 i1 h2
    have s2 := scopes_shadow_enter x e segs1 _ s1
    obtain ⟨p3, q3, segs3, i3, x3, s3, g3⟩ := hC cp st2 ([] :: segs1) _ _ i2 s2 hp2 h3
    simp only at p3 q3 i3 g3
    obtain ⟨vr1, cr1, e4, p4, q4, segs4, i4, x4, s4, g4⟩ :=
      hA kr vr cr _ tyr st3 segs3 _ _ false i3 s3 hp3 h4
    simp only at e4 i4 g4
    subst e4
    rw [uses_ok_split] at hp4
    simp only [uses_ok_null, Bool.and_true] at hp4
    obtain ⟨vb1, cb1, e5, p5, q5, segs5, i5, x5, s5, g5⟩ :=
      hA kb vb cb .NULL tyb st4 segs4 _ _ false i4 s4 hp4 h5
    simp only at e5 i5 g5
    subst e5
    obtain ⟨seg6, rest6, e6, i6, g6⟩ := inv_exit st5 st6 segs5 i5 h6
    have x35 := scopes_grow_trans _ _ _ (scopes_grow_trans _ _ _ x3 x4) x5
    obtain ⟨b2, e7⟩ := scopes_grow_cons _ _ _ x35
    rw [e6] at e7
    simp only [List.cons.injEq] at e7
    have e8 : rest6 = segs1 := e7.2
    rw [e8] at i6
    simp only [plx_node.set_next]
    refine ⟨v, _, rfl, ?_, ?_, segs1, i6, x1, ?_, ?_⟩
    · rw [uses_ok_func, Bool.and_eq_true, Bool.and_eq_true, uses_ok_split, Bool.and_eq_true,
        q1, q3, q4]
      refine ⟨⟨p1, p3⟩, p4, ?_⟩
      rw [uses_ok_split]
      simp only [uses_ok_null, Bool.and_true]
      exact p5
    · rw [shadow_after_func, shadow_after_func, q1]
    · rw [shadow_after_func]
      exact s1
    · rw [g6, g5, g4, g3, g2, g1]
  · cases hr

theorem binds_node_step (x : String) (e fuel : Nat) (hA : plx_binds_node x e fuel)
    (hB : plx_binds_each x e fuel) (hC : plx_binds_params x e fuel) :
    plx_binds_node x e (fuel + 1) := by
  intro k v c n ty st segs sh out b hinv hg hpre hr
  by_cases hk : plx_resolve_default_kind k = true
  · exact binds_default_case x e fuel hB k hk v c n ty st segs sh out b hinv hg hpre hr
  · cases k with
    | PLX_NODE_MODULE =>
      rw [uses_ok_module] at hpre
      cases hpre
    | PLX_NODE_CONST_DEF =>
      exact binds_def_case x e fuel hA _ (Or.inl rfl) v c n ty st segs sh out b hinv hg hpre hr
    | PLX_NODE_VAR_DEF =>
      exact binds_def_case x e fuel hA _ (Or.inr (Or.inl rfl)) v c n ty st segs sh out b hinv hg
        hpre hr
    | PLX_NODE_VAR_DECL =>
      exact binds_def_case x e fuel hA _ (Or.inr (Or.inr rfl)) v c n ty st segs sh out b hinv hg
        hpre hr
    | PLX_NODE_STRUCT_DEF =>
      simp only [plx_resolve_names] at hr
      cases hr
      have hkept : plx_shadow_after x b sh (.node PLX_NODE_STRUCT_DEF v c .NULL ty) = sh :=
        shadow_after_kept x b sh _ v c ty (Or.inr (Or.inr (Or.inl rfl)))
      refine ⟨v, c, rfl, ?_, rfl, ?_⟩
      · cases c with
        | NULL =>
          unfold plx_uses_ok
          rfl
        | node kn vn cn nn tyn =>
          rw [uses_ok_struct] at hpre ⊢
          exact hpre
      · rw [hkept]
        exact state_shadow_refl x e st segs sh hinv hg
    | PLX_NODE_FUNC_DEF =>
      exact binds_func_case x e fuel hA hC v c n ty st segs sh out b hinv hg hpre hr
    | PLX_NODE_BLOCK =>
      exact binds_block_case x e fuel hB v c n ty st segs sh out b hinv hg hpre hr
    | PLX_NODE_IDENTIFIER =>
      rw [uses_ok_identifier] at hpre
      have hkept : ∀ vv, plx_shadow_after x b sh (.node PLX_NODE_IDENTIFIER vv c .NULL ty) = sh :=
        fun vv => shadow_after_kept x b sh _ vv c ty (Or.inr (Or.inl rfl))
      obtain ⟨v1, e1, p1, s1⟩ :=
        identifier_binds x e fuel st segs sh v c n ty out hinv hg hpre hr
      refine ⟨v1, c, e1, by rw [uses_ok_identifier]; exact p1, by rw [hkept, hkept], ?_⟩
      rw [s1, hkept]
      exact state_shadow_refl x e st segs sh hinv hg
    | _ => exact absurd rfl hk

theorem binds_all (x : String) (e fuel : Nat) :
    plx_binds_node x e fuel ∧ plx_binds_each x e fuel ∧ plx_binds_params x e fuel := by
  induction fuel with
  | zero =>
    refine ⟨?_, ?_, ?_⟩
    · intro k v c n ty st segs sh out b _ _ _ hr
      simp [plx_resolve_names] at hr
    · intro chain st segs sh out b _ _ _ hr
      simp [plx_resolve_names_each] at hr
    · intro chain st segs sh out _ _ _ hr
      simp [plx_resolve_names_params] at hr
  | succ fuel ih =>
    obtain ⟨hA, hB, hC⟩ := ih
    exact ⟨binds_node_step x e fuel hA hB hC, binds_each_step x e fuel hA hB,
      binds_params_step x e fuel hA hC⟩

theorem uses_ok_leaf (x : String) (use top decl : Option Nat → Bool) (b : Bool)
    (sh : List Bool) (k : plx_node_kind) (v : plx_node_value) (ty : plx_node)
    (hk : k = PLX_NODE_CONST_DEF ∨ k = PLX_NODE_VAR_DEF ∨ k = PLX_NODE_VAR_DECL ∨
      k = PLX_NODE_STRUCT_DEF ∨ k = PLX_NODE_FUNC_DEF) :
    plx_uses_ok x use top decl b sh (.node k v .NULL .NULL ty) = true := by
  conv_lhs => unfold plx_uses_ok
  simp only [uses_ok_null, Bool.and_true]
  rcases hk with h | h | h | h | h <;> subst h <;> rfl

theorem params_uses_ok_leaf (x : String) (use top decl : Option Nat → Bool) (sh : List Bool)
    (k : plx_node_kind) (v : plx_node_value) (n ty : plx_node) :
    plx_params_uses_ok x use top decl sh (.node k v .NULL n ty) =
      plx_params_uses_ok x use top decl sh n := by
  conv_lhs => unfold plx_params_uses_ok
  conv_lhs => arg 2; arg 5; unfold plx_params_shadow_after
  rw [params_shadow_after_null]
  rfl

theorem uses_ok_top_sized (x : String) (use top top1 decl : Option Nat → Bool) (m : Nat) :
    ∀ node, plx_node_size node ≤ m →
      (∀ sh, plx_uses_ok x use top decl false sh node =
        plx_uses_ok x use top1 decl false sh node) ∧
      (∀ sh, plx_params_uses_ok x use top decl sh node =
        plx_params_uses_ok x use top1 decl sh node) := by
  induction m with
  | zero =>
    intro node hm
    cases node with
    | NULL =>
      exact ⟨fun sh => by rw [uses_ok_null, uses_ok_null],
        fun sh => by rw [params_uses_ok_null, params_uses_ok_null]⟩
    | node k v c n ty => simp [plx_node_size] at hm
  | succ m ih =>
    intro node hm
    cases node with
    | NULL =>
      exact ⟨fun sh => by rw [uses_ok_null, uses_ok_null],
        fun sh => by rw [params_uses_ok_null, params_uses_ok_null]⟩
    | node k v c n ty =>
      simp only [plx_node_size] at hm
      have hc := ih c (by omega)
      have hn := ih n (by omega)
      refine ⟨?_, ?_⟩
      · intro sh
        rw [uses_ok_split, uses_ok_split x use top1, hn.1]
        congr 1
        by_cases hk : plx_resolve_default_kind k = true
        · rw [uses_ok_default x _ _ _ false sh k v c ty hk,
            uses_ok_default x _ _ _ false sh k v c ty hk, hc.1]
        · have hdef : (k = PLX_NODE_CONST_DEF ∨ k = PLX_NODE_VAR_DEF ∨ k = PLX_NODE_VAR_DECL) →
              plx_uses_ok x use top decl false sh (.node k v c .NULL ty) =
                plx_uses_ok x use top1 decl false sh (.node k v c .NULL ty) := by
            intro hk1
            cases c with
            | NULL =>
              rw [uses_ok_leaf x _ _ _ false sh k v ty (by tauto),
                uses_ok_leaf x _ _ _ false sh k v ty (by tauto)]
            | node kn vn cn value tyn =>
              simp only [plx_node_size] at hm
              rw [uses_ok_def x _ _ _ false sh k v vn kn cn value tyn ty hk1,
                uses_ok_def x _ _ _ false sh k v vn kn cn value tyn ty hk1,
                (ih value (by omega)).1]
              rfl
          cases k with
          | PLX_NODE_MODULE => rw [uses_ok_module, uses_ok_module]
          | PLX_NODE_CONST_DEF => exact hdef (Or.inl rfl)
          | PLX_NODE_VAR_DEF => exact hdef (Or.inr (Or.inl rfl))
          | PLX_NODE_VAR_DECL => exact hdef (Or.inr (Or.inr rfl))
          | PLX_NODE_STRUCT_DEF =>
            cases c with
            | NULL =>
              rw [uses_ok_leaf x _ _ _ false sh _ v ty (by tauto),
                uses_ok_leaf x _ _ _ false sh _ v ty (by tauto)]
            | node kn vn cn nn tyn =>
              rw [uses_ok_struct, uses_ok_struct]
              rfl
          | PLX_NODE_FUNC_DEF =>
            cases c with
            | NULL =>
              rw [uses_ok_leaf x _ _ _ false sh _ v ty (by tauto),
                uses_ok_leaf x _ _ _ false sh _ v ty (by tauto)]
            | node kn vn cn nn tyn =>
              cases nn with
              | NULL => rw [uses_ok_func_leaf, uses_ok_func_leaf]
              | node kp vp pc rest typ =>
                simp only [plx_node_size] at hm
                rw [uses_ok_func, uses_ok_func, (ih pc (by omega)).2, (ih rest (by omega)).1]
                rfl
          | PLX_NODE_BLOCK => rw [uses_ok_block, uses_ok_block, hc.1]
          | PLX_NODE_IDENTIFIER => rw [uses_ok_identifier, uses_ok_identifier]
          | _ => exact absurd rfl hk
      · intro sh
        cases c with
        | NULL => rw [params_uses_ok_leaf, params_uses_ok_leaf, hn.2]
        | node kn vn cn pt tyn =>
          simp only [plx_node_size] at hm
          rw [params_uses_ok_node, params_uses_ok_node, hn.2, (ih pt (by omega)).1]

theorem uses_ok_false_top (x : String) (use top top1 decl : Option Nat → Bool) (sh : List Bool)
    (node : plx_node) :
    plx_uses_ok x use top decl false sh node = plx_uses_ok x use top1 decl false sh node :=
  (uses_ok_top_sized x use top top1 decl _ node (Nat.le_refl _)).1 sh

theorem params_uses_ok_top (x : String) (use top top1 decl : Option Nat → Bool) (sh : List Bool)
    (node : plx_node) :
    plx_params_uses_ok x use top decl sh node = plx_params_uses_ok x use top1 decl sh node :=
  (uses_ok_top_sized x use top top1 decl _ node (Nat.le_refl _)).2 sh

theorem shadow_after_entry (x : String) (b : Bool) (sh : List Bool) (k : plx_node_kind)
    (v : plx_node_value) (name : String) (en en1 : Option Nat) (cn nn tyn ty : plx_node) :
    plx_shadow_after x b sh
        (.node k v (.node PLX_NODE_IDENTIFIER (.identifier name en) cn nn tyn) .NULL ty) =
      plx_shadow_after x b sh
        (.node k v (.node PLX_NODE_IDENTIFIER (.identifier name en1) cn nn tyn) .NULL ty) := by
  have hid : ∀ en2 : Option Nat, plx_shadow_after x false sh
      (.node PLX_NODE_IDENTIFIER (.identifier name en2) cn nn tyn) =
      plx_shadow_after x false sh nn := by
    intro en2
    rw [shadow_after_split, shadow_after_kept x false sh _ _ cn tyn (Or.inr (Or.inl rfl))]
  by_cases hk : plx_resolve_default_kind k = true
  · rw [shadow_after_default x b sh k v _ ty hk, shadow_after_default x b sh k v _ ty hk,
      hid, hid]
  · cases k with
    | PLX_NODE_MODULE =>
      rw [shadow_after_kept x b sh _ v _ ty (Or.inl rfl),
        shadow_after_kept x b sh _ v _ ty (Or.inl rfl)]
    | PLX_NODE_IDENTIFIER =>
      rw [shadow_after_kept x b sh _ v _ ty (Or.inr (Or.inl rfl)),
        shadow_after_kept x b sh _ v _ ty (Or.inr (Or.inl rfl))]
    | PLX_NODE_STRUCT_DEF =>
      rw [shadow_after_kept x b sh _ v _ ty (Or.inr (Or.inr (Or.inl rfl))),
        shadow_after_kept x b sh _ v _ ty (Or.inr (Or.inr (Or.inl rfl)))]
    | PLX_NODE_BLOCK =>
      rw [shadow_after_kept x b sh _ v _ ty (Or.inr (Or.inr (Or.inr rfl))),
        shadow_after_kept x b sh _ v _ ty (Or.inr (Or.inr (Or.inr rfl)))]
    | PLX_NODE_CONST_DEF =>
      rw [shadow_after_def x b sh _ v _ _ cn nn tyn ty (Or.inl rfl),
        shadow_after_def x b sh _ v _ _ cn nn tyn ty (Or.inl rfl)]
      exact declare_shadow_entry x b name en en1 _
    | PLX_NODE_VAR_DEF =>
      rw [shadow_after_def x b sh _ v _ _ cn nn tyn ty (Or.inr (Or.inl rfl)),
        shadow_after_def x b sh _ v _ _ cn nn tyn ty (Or.inr (Or.inl rfl))]
      exact declare_shadow_entry x b name en en1 _
    | PLX_NODE_VAR_DECL =>
      rw [shadow_after_def x b sh _ v _ _ cn nn tyn ty (Or.inr (Or.inr rfl)),
        shadow_after_def x b sh _ v _ _ cn nn tyn ty (Or.inr (Or.inr rfl))]
      exact declare_shadow_entry x b name en en1 _
    | PLX_NODE_FUNC_DEF =>
      rw [shadow_after_func, shadow_after_func]
      exact declare_shadow_entry x b name en en1 _
    | _ => exact absurd rfl hk

theorem with_entries_uses_cond (x : String) (e base : Nat) (name : String) (k : plx_node_kind)
    (v : plx_node_value) (cn nn tyn ty : plx_node) (sh : List Bool) (hx : name = x → base = e)
    (h : plx_uses_ok x (plx_entry_pre e) (fun _ => true) plx_entry_none true sh
      (.node k v (.node PLX_NODE_IDENTIFIER (.identifier name none) cn nn tyn) .NULL ty) = true) :
    plx_uses_ok x (plx_entry_pre e) (plx_entry_is e) plx_entry_none true sh
      (.node k v (.node PLX_NODE_IDENTIFIER (.identifier name (some base)) cn nn tyn) .NULL ty) =
      true := by
  have hn := name_at_entry x e base name hx
  have hkeep : ∀ en : Option Nat, plx_shadow_after x false sh
      (.node PLX_NODE_IDENTIFIER (.identifier name en) cn .NULL tyn) = sh :=
    fun en => shadow_after_kept x false sh _ _ cn tyn (Or.inr (Or.inl rfl))
  have hchild : ∀ sh1 : List Bool,
      plx_uses_ok x (plx_entry_pre e) (fun _ => true) plx_entry_none false sh1
        (.node PLX_NODE_IDENTIFIER (.identifier name none) cn nn tyn) = true →
      plx_uses_ok x (plx_entry_pre e) (plx_entry_is e) plx_entry_none false sh1
        (.node PLX_NODE_IDENTIFIER (.identifier name (some base)) cn nn tyn) = true := by
    intro sh1 h1
    rw [uses_ok_split, Bool.and_eq_true, uses_ok_identifier,
      shadow_after_kept x false sh1 _ _ cn tyn (Or.inr (Or.inl rfl))] at h1 ⊢
    refine ⟨by rw [hn.2, Bool.or_true], ?_⟩
    rw [← uses_ok_false_top x _ (fun _ => true)]
    exact h1.2
  by_cases hk : plx_resolve_default_kind k = true
  · rw [uses_ok_default x _ _ _ true sh k v _ ty hk] at h ⊢
    exact hchild sh h
  · cases k with
    | PLX_NODE_MODULE =>
      rw [uses_ok_module] at h
      cases h
    | PLX_NODE_CONST_DEF =>
      rw [uses_ok_def x _ _ _ true sh _ v _ _ cn nn tyn ty (Or.inl rfl), Bool.and_eq_true] at h ⊢
      exact ⟨hn.1, by rw [← uses_ok_false_top x _ (fun _ => true)]; exact h.2⟩
    | PLX_NODE_VAR_DEF =>
      rw [uses_ok_def x _ _ _ true sh _ v _ _ cn nn tyn ty (Or.inr (Or.inl rfl)),
        Bool.and_eq_true] at h ⊢
      exact ⟨hn.1, by rw [← uses_ok_false_top x _ (fun _ => true)]; exact h.2⟩
    | PLX_NODE_VAR_DECL =>
      rw [uses_ok_def x _ _ _ true sh _ v _ _ cn nn tyn ty (Or.inr (Or.inr rfl)),
        Bool.and_eq_true] at h ⊢
      exact ⟨hn.1, by rw [← uses_ok_false_top x _ (fun _ => true)]; exact h.2⟩
    | PLX_NODE_STRUCT_DEF =>
      rw [uses_ok_struct]
      exact hn.1
    | PLX_NODE_FUNC_DEF =>
      cases nn with
      | NULL => exact uses_ok_func_leaf x _ _ _ true sh v _ _ cn tyn ty
      | node kp vp pc rest typ =>
        rw [uses_ok_func, Bool.and_eq_true, Bool.and_eq_true] at h ⊢
        rw [declare_shadow_entry x true name (some base) none]
        refine ⟨⟨hn.1, ?_⟩, ?_⟩
        · rw [← params_uses_ok_top x _ (fun _ => true)]
          exact h.1.2
        · rw [← uses_ok_false_top x _ (fun _ => true)]
          exact h.2
    | PLX_NODE_BLOCK =>
      rw [uses_ok_block] at h ⊢
      exact hchild _ h
    | PLX_NODE_IDENTIFIER =>
      rw [uses_ok_identifier] at h ⊢
      exact h
    | _ => exact absurd rfl hk

theorem with_entries_uses (x : String) (e : Nat) (c : plx_node) :
    ∀ (base : Nat) (names : List String) (sh : List Bool), plx_def_names c = some names →
      (∀ j, names[j]? = some x → base + j = e) →
      plx_uses_ok x (plx_entry_pre e) (fun _ => true) plx_entry_none true sh c = true →
      plx_uses_ok x (plx_entry_pre e) (plx_entry_is e) plx_entry_none true sh
        (plx_with_entries base c) = true := by
  induction c with
  | NULL =>
    intro base names sh _ _ _
    exact uses_ok_null _ _ _ _ _ _
  | node k v dc n ty _ ihn _ =>
    intro base names sh hnames hj h
    unfold plx_def_names at hnames
    split at hnames
    · rename_i heq
      cases heq
    · rename_i k1 v1 name cn nn tyn n1 ty1 heq
      cases heq
      simp only [Option.map_eq_some'] at hnames
      obtain ⟨names1, hn1, rfl⟩ := hnames
      rw [uses_ok_split, Bool.and_eq_true] at h
      simp only [plx_with_entries]
      rw [uses_ok_split, Bool.and_eq_true]
      refine ⟨with_entries_uses_cond x e base name k v cn nn tyn ty sh ?_ h.1, ?_⟩
      · intro hx
        have := hj 0 (by simp [hx])
        simpa using this
      · rw [shadow_after_entry x true sh k v name (some base) none]
        refine ihn (base + 1) names1 _ hn1 ?_ h.2
        intro j hjx
        have := hj (j + 1) (by simpa using hjx)
        omega
    · cases hnames

/-- In a module whose definitions have unresolved names that are pairwise
distinct, let `x` be the name of the definition number `i`, let every use of `x`
outside the scope of a local declaration of `x` be unresolved (or linked to the
entry `i`) and let the names of the local declarations of `x` be unresolved.
When `plx_resolve_names` returns from the initial state, every identifier node of
the name `x` it visits outside the scope of a local declaration of `x`, the name
of the definition included, has the entry `i`, this entry has the name `x` and
its scope is `PLX_SYMBOL_SCOPE_GLOBAL`. -/
theorem resolve_global_binds (fuel : Nat) (v : plx_node_value) (c n ty : plx_node)
    (names : List String) (i : Nat) (x : String)
    (out : plx_node × plx_resolver_state × Bool)
    (hnames : plx_def_names c = some names) (hnodup : names.Nodup)
    (hx : names[i]? = some x)
    (huses : plx_uses_ok x (plx_entry_pre i) (fun _ => true) plx_entry_none true [] c = true)
    (hr : plx_resolve_names fuel (.node PLX_NODE_MODULE v c n ty) plx_resolver_init =
      some (some out)) :
    ∃ c1, out.1 = .node PLX_NODE_MODULE v c1 n ty ∧
      plx_uses_ok x (plx_entry_is i) (plx_entry_is i) (fun _ => true) true [] c1 = true ∧
      (out.2.1.symbols.pool[i]?).map (fun en => en.name) = some x ∧
      plx_entry_scope out.2.1 i = .PLX_SYMBOL_SCOPE_GLOBAL := by
  cases fuel with
  | zero => simp [plx_resolve_names] at hr
  | succ fuel =>
    simp only [plx_resolve_names] at hr
    obtain ⟨c1, st1, r1, h1, hr⟩ := resolve_bind_some _ _ _ hr
    obtain ⟨c2, st2, r2, h2, hr⟩ := resolve_bind_some _ _ _ hr
    cases hr
    obtain ⟨st1', hd, hinv1, hglob1⟩ := declare_pass c plx_resolver_init [] names
      resolver_init_inv hnames hnodup (fun _ _ h => by cases h)
    simp only [Option.some.injEq] at h1
    rw [hd] at h1
    simp only [Option.some.injEq, Prod.mk.injEq] at h1
    obtain ⟨rfl, rfl, rfl⟩ := h1
    have hbase : plx_resolver_init.symbols.pool.length = 0 := rfl
    rw [hbase, List.append_nil] at hinv1
    rw [hbase] at hglob1 h2
    have hfind := declared_find x names 0 i hnodup hx
    rw [Nat.zero_add] at hfind
    have hg : plx_scopes_shadow x i [plx_declared 0 names] [] := ⟨[], _, rfl, rfl, hfind⟩
    have hpre := with_entries_uses x i c 0 names [] hnames (by
      intro j hj
      have e1 := (List.getElem?_eq_some.1 hj)
      have e2 := (List.getElem?_eq_some.1 hx)
      obtain ⟨l1, g1⟩ := e1
      obtain ⟨l2, g2⟩ := e2
      have key : names[j] = names[i] := g1.trans g2.symm
      have := (List.Nodup.getElem_inj_iff hnodup).1 key
      omega) huses
    obtain ⟨hpost, _, segs2, hinv2, hext, _, hglob2⟩ :=
      (binds_all x i fuel).2.1 _ st1' _ [] _ true hinv1 hg hpre h2
    simp only at hpost hinv2 hglob2
    have hmem : (i, x) ∈ plx_declared 0 names := List.mem_of_find?_eq_some hfind
    refine ⟨c2, rfl, hpost, ?_, ?_⟩
    · obtain ⟨new, seg, rest, e1, e2⟩ := hext
      simp only [List.cons.injEq] at e1
      obtain ⟨rfl, rfl⟩ := e1
      subst e2
      exact inv_pool_name st2 _ hinv2 (i, x) (by simp [hmem])
    · simp only [plx_entry_scope]
      rw [hglob2, hglob1]
      have : i ∈ (plx_declared 0 names).map Prod.fst ++ plx_resolver_init.globals :=
        List.mem_append_left _ (List.mem_map_of_mem Prod.fst hmem)
      simp [this]

/-- C19 as amended: In a module whose definitions have unresolved names that are
pairwise distinct, let `x` be the name of the definition number `i`.  Let every
use of `x` that `plx_resolve_names` visits outside the scope of a local
declaration of `x` (a parameter or a nested definition of the name `x`, from its
declaration to the end of its function or block) be unresolved or linked to the
entry `i`, and let the names of these local declarations be unresolved, as in
every tree the parser builds.  Then a call of `plx_resolve_names` from the
initial state with enough depth that does not abort returns, and every
identifier node of the name `x` it visits outside the scope of a local
declaration of `x`, in definitions before and after the definition of `x` and the
name of that definition included, has the entry `i`; this entry has the name `x`
and its scope is `PLX_SYMBOL_SCOPE_GLOBAL`.  The members of structure
definitions are not visited. -/
theorem plx_resolve_names_global (fuel : Nat) (v : plx_node_value) (c n ty : plx_node)
    (names : List String) (i : Nat) (x : String)
    (hnames : plx_def_names c = some names) (hnodup : names.Nodup)
    (hx : names[i]? = some x)
    (huses : plx_uses_ok x (plx_entry_pre i) (fun _ => true) plx_entry_none true [] c = true)
    (hfuel : 2 * plx_node_size c + 2 ≤ fuel)
    (hr : plx_resolve_names fuel (.node PLX_NODE_MODULE v c n ty) plx_resolver_init ≠
      some none) :
    ∃ out c1,
      plx_resolve_names fuel (.node PLX_NODE_MODULE v c n ty) plx_resolver_init =
        some (some out) ∧
      out.1 = .node PLX_NODE_MODULE v c1 n ty ∧
      plx_uses_ok x (plx_entry_is i) (plx_entry_is i) (fun _ => true) true [] c1 = true ∧
      (out.2.1.symbols.pool[i]?).map (fun en => en.name) = some x ∧
      plx_entry_scope out.2.1 i = .PLX_SYMBOL_SCOPE_GLOBAL := by
  have hne := (resolve_fuel_enough fuel).1 PLX_NODE_MODULE v c n ty plx_resolver_init hfuel
  cases hres : plx_resolve_names fuel (.node PLX_NODE_MODULE v c n ty) plx_resolver_init with
  | none => exact absurd hres hne
  | some r =>
    cases r with
    | none => exact absurd hres hr
    | some out =>
      obtain ⟨c1, h1, h2, h3, h4⟩ :=
        resolve_global_binds fuel v c n ty names i x out hnames hnodup hx huses hres
      exact ⟨out, c1, rfl, h1, h2, h3, h4⟩

/-- The definitions of the module of the source text
`const a = b; func f(b: s32) -> s32 { return b; }
func g() -> s32 { var c = b; var b = 2; return b; } const b = 1;`. -/
def links_example : plx_node :=
  ((plx_parse_module 40 (plx_tokenizer_init (c_literal
    ("const a = b; func f(b: s32) -> s32 { return b; } " ++
      "func g() -> s32 { var c = b; var b = 2; return b; } const b = 1;")))).getD
    (.NULL, plx_tokenizer_fresh [])).1.children

set_option maxRecDepth 1000000 in
/-- Witness for C19 as amended: in
`const a = b; func f(b: s32) -> s32 { return b; }
func g() -> s32 { var c = b; var b = 2; return b; } const b = 1;`
the resolver returns.  The use of `b` in the value of `a`, before the definition
of `b`, and the use in `var c = b`, before the local declaration of `b` in `g`,
have the entry 3 of the top-level definition of `b`; the use in `return b` in `f`
has the entry 4 of the parameter and the use in `return b` in `g` the entry 6 of
the local variable, which shadow the top-level definition there. -/
theorem plx_resolve_names_global_witness :
    (plx_resolve_names 60 (.node PLX_NODE_MODULE .zero links_example .NULL .NULL)
        plx_resolver_init).map (fun r => r.map fun out =>
      (out.1.children.children.next.entry,
        out.1.children.next.children.next.next.next.children.children.entry,
        out.1.children.next.next.children.next.next.next.children.children.next.entry,
        out.1.children.next.next.children.next.next.next.children.next.next.children.entry)) =
      some (some (some 3, some 4, some 3, some 6)) ∧
    ∃ out c1,
      plx_resolve_names 60 (.node PLX_NODE_MODULE .zero links_example .NULL .NULL)
        plx_resolver_init = some (some out) ∧
      out.1 = .node PLX_NODE_MODULE .zero c1 .NULL .NULL ∧
      plx_uses_ok "b" (plx_entry_is 3) (plx_entry_is 3) (fun _ => true) true [] c1 = true ∧
      (out.2.1.symbols.pool[3]?).map (fun en => en.name) = some "b" ∧
      plx_entry_scope out.2.1 3 = .PLX_SYMBOL_SCOPE_GLOBAL :=
  ⟨by decide,
    plx_resolve_names_global 60 .zero links_example .NULL .NULL ["a", "f", "g", "b"] 3 "b"
      (by decide) (by decide) (by decide) (by decide) (by decide) (by decide)⟩

/-! ## `src/types.c`

Nodes are values here, so the comparison of two node pointers is a parameter
`same` of `plx_type_eq`; two equal pointers point to the same node, which is the
assumption `plx_same_sound` below.  `none` says that the C function reads
through a null pointer. -/

mutual

/-- `plx_type_eq`. -/
def plx_type_eq (same : plx_node → plx_node → Bool) (type_a type_b : plx_node) : Option Bool :=
  match type_a, type_b with
  | .NULL, .NULL => some true
  | .NULL, .node _ _ _ _ _ => none
  | .node _ _ _ _ _, .NULL => none
  | .node ka va ca na tya, .node kb vb cb nb tyb =>
    if same (.node ka va ca na tya) (.node kb vb cb nb tyb) then some true
    else if ka ≠ kb then some false
    else if ka = PLX_NODE_IDENTIFIER then
      some (decide ((plx_node.node ka va ca na tya).entry = (plx_node.node kb vb cb nb tyb).entry))
    else plx_type_eq_children same ca cb
termination_by (sizeOf type_a, 0)

/-- The loop `while (child_a != NULL && child_b != NULL)` of `plx_type_eq` and
the `return` after it. -/
def plx_type_eq_children (same : plx_node → plx_node → Bool) (child_a child_b : plx_node) :
    Option Bool :=
  match child_a, child_b with
  | .node ka va ca na tya, .node kb vb cb nb tyb =>
    match plx_type_eq same (.node ka va ca na tya) (.node kb vb cb nb tyb) with
    | none => none
    | some false => some false
    | some true => plx_type_eq_children same na nb
  | .NULL, .NULL => some true
  | .NULL, .node _ _ _ _ _ => some false
  | .node _ _ _ _ _, .NULL => some false
termination_by (sizeOf child_a, 1)

end

/-- Two pointers that compare equal point to the same node. -/
def plx_same_sound (same : plx_node → plx_node → Bool) : Prop :=
  ∀ a b, same a b = true → a = b

/-- The nodes of a list of siblings, from a node on. -/
def plx_siblings : plx_node → List plx_node
  | .NULL => []
  | .node k v c n ty => .node k v c n ty :: plx_siblings n

theorem type_eq_node (same : plx_node → plx_node → Bool) (ka kb : plx_node_kind)
    (va vb : plx_node_value) (ca cb na nb tya tyb : plx_node) :
    plx_type_eq same (.node ka va ca na tya) (.node kb vb cb nb tyb) =
    if same (.node ka va ca na tya) (.node kb vb cb nb tyb) then some true
    else if ka ≠ kb then some false
    else if ka = PLX_NODE_IDENTIFIER then
      some (decide ((plx_node.node ka va ca na tya).entry = (plx_node.node kb vb cb nb tyb).entry))
    else plx_type_eq_children same ca cb := by
  rw [plx_type_eq]

theorem type_eq_children_node (same : plx_node → plx_node → Bool) (ka kb : plx_node_kind)
    (va vb : plx_node_value) (ca cb na nb tya tyb : plx_node) :
    plx_type_eq_children same (.node ka va ca na tya) (.node kb vb cb nb tyb) =
    match plx_type_eq same (.node ka va ca na tya) (.node kb vb cb nb tyb) with
    | none => none
    | some false => some false
    | some true => plx_type_eq_children same na nb := by
  rw [plx_type_eq_children]

theorem type_eq_children_null (same : plx_node → plx_node → Bool) :
    plx_type_eq_children same .NULL .NULL = some true := by
  rw [plx_type_eq_children]

theorem type_eq_children_null_node (same : plx_node → plx_node → Bool) (k : plx_node_kind)
    (v : plx_node_value) (c n ty : plx_node) :
    plx_type_eq_children same .NULL (.node k v c n ty) = some false ∧
    plx_type_eq_children same (.node k v c n ty) .NULL = some false := by
  constructor <;> rw [plx_type_eq_children]

theorem type_eq_refl_aux (same : plx_node → plx_node → Bool) (x : plx_node) :
    (x ≠ .NULL → plx_type_eq same x x = some true) ∧
    plx_type_eq_children same x x = some true := by
  induction x with
  | NULL => exact ⟨fun h => absurd rfl h, type_eq_children_null same⟩
  | node k v c n ty ihc ihn _ =>
    have h1 : plx_type_eq same (.node k v c n ty) (.node k v c n ty) = some true := by
      rw [type_eq_node]
      split
      · rfl
      · simp [ihc.2]
    refine ⟨fun _ => h1, ?_⟩
    rw [type_eq_children_node, h1]
    exact ihn.2

theorem type_eq_symm_aux (same : plx_node → plx_node → Bool) (hs : plx_same_sound same)
    (a : plx_node) :
    ∀ b, plx_type_eq same a b = plx_type_eq same b a ∧
      plx_type_eq_children same a b = plx_type_eq_children same b a := by
  induction a with
  | NULL =>
    intro b
    cases b with
    | NULL => exact ⟨rfl, rfl⟩
    | node k v c n ty =>
      refine ⟨by rw [plx_type_eq, plx_type_eq], ?_⟩
      rw [(type_eq_children_null_node same k v c n ty).1,
        (type_eq_children_null_node same k v c n ty).2]
  | node ka va ca na tya ihc ihn _ =>
    intro b
    cases b with
    | NULL =>
      refine ⟨by rw [plx_type_eq, plx_type_eq], ?_⟩
      rw [(type_eq_children_null_node same ka va ca na tya).1,
        (type_eq_children_null_node same ka va ca na tya).2]
    | node kb vb cb nb tyb =>
      have h1 : plx_type_eq same (.node ka va ca na tya) (.node kb vb cb nb tyb) =
          plx_type_eq same (.node kb vb cb nb tyb) (.node ka va ca na tya) := by
        by_cases e1 : same (.node ka va ca na tya) (.node kb vb cb nb tyb) = true
        · have := hs _ _ e1
          rw [← this]
        · by_cases e2 : same (.node kb vb cb nb tyb) (.node ka va ca na tya) = true
          · have := hs _ _ e2
            rw [this]
          · rw [type_eq_node, type_eq_node]
            simp only [e1, e2, if_false, Bool.false_eq_true]
            by_cases e3 : ka = kb
            · subst e3
              simp only [ne_eq, not_true_eq_false, if_false]
              split
              · simp only [eq_comm]
              · exact (ihc cb).2
            · have e4 : ¬ kb = ka := fun h => e3 h.symm
              simp [e3, e4]
      refine ⟨h1, ?_⟩
      rw [type_eq_children_node, type_eq_children_node, h1, (ihn nb).2]

theorem type_eq_children_iff (same : plx_node → plx_node → Bool) (a : plx_node) :
    ∀ b, plx_type_eq_children same a b = some true ↔
      List.Forall₂ (fun x y => plx_type_eq same x y = some true) (plx_siblings a)
        (plx_siblings b) := by
  induction a with
  | NULL =>
    intro b
    cases b with
    | NULL => simp [type_eq_children_null, plx_siblings]
    | node k v c n ty => simp [(type_eq_children_null_node same k v c n ty).1, plx_siblings]
  | node ka va ca na tya _ ihn _ =>
    intro b
    cases b with
    | NULL => simp [(type_eq_children_null_node same ka va ca na tya).2, plx_siblings]
    | node kb vb cb nb tyb =>
      rw [type_eq_children_node]
      simp only [plx_siblings, List.forall₂_cons]
      rw [← ihn nb]
      cases h : plx_type_eq same (.node ka va ca na tya) (.node kb vb cb nb tyb) with
      | none => simp
      | some r => cases r <;> simp

/-- C20: With pointer comparison sound, `plx_type_eq(T, T)` is true for every
type node `T`, also when the two arguments are equal nodes at different
addresses; `plx_type_eq(A, B)` and `plx_type_eq(B, A)` agree; for two distinct
nodes of which the first is no identifier it is true exactly when the kinds are
equal and the lists of children have the same length and are pairwise
`plx_type_eq`; for two identifier nodes it is true exactly when the entries are
the same. -/
theorem plx_type_eq_equivalence (same : plx_node → plx_node → Bool)
    (hs : plx_same_sound same) (ka kb : plx_node_kind) (va vb : plx_node_value)
    (ca cb na nb tya tyb : plx_node) :
    plx_type_eq same (.node ka va ca na tya) (.node ka va ca na tya) = some true ∧
    plx_type_eq same (.node ka va ca na tya) (.node kb vb cb nb tyb) =
      plx_type_eq same (.node kb vb cb nb tyb) (.node ka va ca na tya) ∧
    (same (.node ka va ca na tya) (.node kb vb cb nb tyb) = false →
      ka ≠ PLX_NODE_IDENTIFIER →
      (plx_type_eq same (.node ka va ca na tya) (.node kb vb cb nb tyb) = some true ↔
        ka = kb ∧ plx_count_siblings ca = plx_count_siblings cb ∧
        List.Forall₂ (fun x y => plx_type_eq same x y = some true) (plx_siblings ca)
          (plx_siblings cb))) ∧
    (ka = PLX_NODE_IDENTIFIER → kb = PLX_NODE_IDENTIFIER →
      (plx_type_eq same (.node ka va ca na tya) (.node kb vb cb nb tyb) = some true ↔
        (plx_node.node ka va ca na tya).entry = (plx_node.node kb vb cb nb tyb).entry)) := by
  have hlen : ∀ a b : plx_node, List.Forall₂ (fun x y => plx_type_eq same x y = some true)
      (plx_siblings a) (plx_siblings b) → plx_count_siblings a = plx_count_siblings b := by
    intro a
    induction a with
    | NULL =>
      intro b h
      cases b with
      | NULL => rfl
      | node k v c n ty => simp [plx_siblings] at h
    | node k v c n ty _ ihn _ =>
      intro b h
      cases b with
      | NULL => simp [plx_siblings] at h
      | node k2 v2 c2 n2 ty2 =>
        simp only [plx_siblings, List.forall₂_cons] at h
        simp [plx_count_siblings, ihn n2 h.2]
  refine ⟨(type_eq_refl_aux same _).1 (node_ne_null _ _ _ _ _),
    (type_eq_symm_aux same hs _ _).1, fun h1 h2 => ?_, fun h1 h2 => ?_⟩
  · rw [type_eq_node]
    simp only [h1, if_false, Bool.false_eq_true, h2]
    by_cases e : ka = kb
    · simp only [e, ne_eq, not_true_eq_false, if_false, true_and]
      rw [type_eq_children_iff]
      exact ⟨fun h => ⟨hlen _ _ h, h⟩, fun h => h.2⟩
    · simp [e]
  · subst h1
    subst h2
    by_cases e : same (.node PLX_NODE_IDENTIFIER va ca na tya)
        (.node PLX_NODE_IDENTIFIER vb cb nb tyb) = true
    · have := hs _ _ e
      rw [← this]
      simp [(type_eq_refl_aux same _).1 (node_ne_null _ _ _ _ _)]
    · rw [type_eq_node]
      simp [e]

/-- Witness for C20: all pointers distinct, two `[]s32` type nodes. -/
theorem plx_type_eq_equivalence_witness :
    plx_type_eq (fun _ _ => false)
      (plx_node_of PLX_NODE_SLICE_TYPE [plx_new_node PLX_NODE_S32_TYPE])
      (plx_node_of PLX_NODE_SLICE_TYPE [plx_new_node PLX_NODE_S32_TYPE]) = some true :=
  (plx_type_eq_equivalence (fun _ _ => false) (fun _ _ h => by cases h) PLX_NODE_SLICE_TYPE
    PLX_NODE_SLICE_TYPE .zero .zero (plx_new_node PLX_NODE_S32_TYPE)
    (plx_new_node PLX_NODE_S32_TYPE) .NULL .NULL .NULL .NULL).1

/-! ## `src/return_checker.c`

`plx_check_returns` reads the tree only.  `plx_extract_children` stores the
children of a node through the pointers it is passed, one `va_arg` for each
child: with fewer children than pointers the last pointers keep their
uninitialised values, with more the call of `va_arg` has no argument left.
`none` says that the C function reads such an uninitialised pointer, calls
`va_arg` without an argument, or reads through a null pointer. -/

/-- Whether a node has a next sibling; a null pointer has none. -/
def plx_has_next : plx_node → Bool
  | .node _ _ _ (.node _ _ _ _ _) _ => true
  | _ => false

/-- What is run from a node on: `plx_check_returns` on the node alone, the loop
of the case `PLX_NODE_BLOCK` from a statement on, or the loop of the case
`PLX_NODE_MODULE` from a definition on. -/
inductive plx_check_returns_mode where
  | node
  | stmts
  | defs
  deriving DecidableEq

/-- `plx_check_returns`, with its two loops: `node` is the call on a node,
`stmts` the loop `for (stmt = ...; stmt != NULL; stmt = stmt->next)` of a block
from the statement `stmt` on and `defs` the loop over the definitions of a module
from a definition on. -/
def plx_check_returns_from : plx_check_returns_mode → plx_node → Option Bool
  | .node, .NULL => none
  | .stmts, .NULL => some false
  | .defs, .NULL => some true
  | mode, .node k _ c n _ =>
    let result : Option Bool :=
      match k with
      | PLX_NODE_MODULE => plx_check_returns_from .defs c
      | PLX_NODE_FUNC_DEF =>
        match c with
        | .node _ _ _ (.node _ _ _ (.node kr _ _ body _) _) _ =>
          if plx_has_next body then none
          else if kr = PLX_NODE_VOID_TYPE then some true
          else plx_check_returns_from .node body
        | _ => none
      | PLX_NODE_BLOCK => plx_check_returns_from .stmts c
      | PLX_NODE_IF_THEN_ELSE =>
        match c with
        | .node _ _ _ (.node kt vt ct els tyt) _ =>
          if plx_has_next els then none
          else
            match plx_check_returns_from .node (.node kt vt ct els tyt) with
            | none => none
            | some false => some false
            | some true => plx_check_returns_from .node els
        | _ => none
      | PLX_NODE_RETURN => some true
      | _ => some false
    match mode with
    | .node => result
    | .stmts =>
      match result with
      | none => none
      | some true => some true
      | some false => plx_check_returns_from .stmts n
    | .defs =>
      if k ≠ PLX_NODE_FUNC_DEF then plx_check_returns_from .defs n
      else
        match result with
        | none => none
        | some r =>
          match plx_check_returns_from .defs n with
          | none => none
          | some rest => some (r && rest)

/-- `plx_check_returns`. -/
def plx_check_returns (node : plx_node) : Option Bool :=
  plx_check_returns_from .node node

/-- The predicate R of the specification on statements: a return statement
returns, a block returns when one of its statements does, an if-then-else when
both branches do, and nothing else returns. -/
inductive plx_always_returns : plx_node → Prop
  | return_stmt (v : plx_node_value) (c n ty : plx_node) :
    plx_always_returns (.node PLX_NODE_RETURN v c n ty)
  | block (v : plx_node_value) (c n ty s : plx_node) :
    s ∈ plx_siblings c → plx_always_returns s →
    plx_always_returns (.node PLX_NODE_BLOCK v c n ty)
  | if_then_else (v : plx_node_value) (c n ty cond then_block els : plx_node) :
    plx_siblings c = [cond, then_block, els] →
    plx_always_returns then_block → plx_always_returns els →
    plx_always_returns (.node PLX_NODE_IF_THEN_ELSE v c n ty)

/-- A statement as `plx_parse_stmt` builds it, as far as `plx_check_returns`
reads it: neither a module nor a function definition, an if-then-else with its
three children, with the same for the statements of a block and the branches
of an if-then-else.  With `all` set the same is asked of the next siblings of
the node. -/
def plx_stmts_shape : Bool → plx_node → Bool
  | all, .NULL => all
  | all, .node k _ c n _ =>
    (match k with
      | PLX_NODE_MODULE => false
      | PLX_NODE_FUNC_DEF => false
      | PLX_NODE_BLOCK => plx_stmts_shape true c
      | PLX_NODE_IF_THEN_ELSE =>
        match c with
        | .node _ _ _ (.node kt vt ct (.node ke ve ce .NULL tye) tyt) _ =>
          plx_stmts_shape false (.node kt vt ct (.node ke ve ce .NULL tye) tyt) &&
            plx_stmts_shape false (.node ke ve ce .NULL tye)
        | _ => false
      | _ => true) &&
    (if all then plx_stmts_shape true n else true)

/-- The shape of a statement. -/
def plx_stmt_ok (stmt : plx_node) : Bool := plx_stmts_shape false stmt

/-- A function definition as `plx_check_returns` accepts it: the return type is
void or the body always returns. -/
def plx_func_accepted (return_type body : plx_node) : Prop :=
  return_type.kind? = some PLX_NODE_VOID_TYPE ∨ plx_always_returns body

/-- The function definitions among the definitions of a module, each with its
name, parameters, return type and body. -/
def plx_func_defs_ok : plx_node → Bool
  | .NULL => true
  | .node k _ c n _ =>
    (if k = PLX_NODE_FUNC_DEF then
      (match plx_siblings c with
        | [_, _, _, body] => plx_stmt_ok body
        | _ => false)
    else true) && plx_func_defs_ok n

/-- `plx_check_returns` on the module `plx_parse_module` builds from a source
text, within the bound 40. -/
def plx_check_returns_source (source : String) : Option Bool :=
  match plx_parse_module 40 (plx_tokenizer_init (c_literal source)) with
  | some (.node k v c n ty, _) => plx_check_returns (.node k v c n ty)
  | _ => none

/-- The `switch` of `plx_check_returns` for a node of a kind with the first
child `c`. -/
def plx_check_returns_switch (k : plx_node_kind) (c : plx_node) : Option Bool :=
  match k with
  | PLX_NODE_MODULE => plx_check_returns_from .defs c
  | PLX_NODE_FUNC_DEF =>
    match c with
    | .node _ _ _ (.node _ _ _ (.node kr _ _ body _) _) _ =>
      if plx_has_next body then none
      else if kr = PLX_NODE_VOID_TYPE then some true
      else plx_check_returns_from .node body
    | _ => none
  | PLX_NODE_BLOCK => plx_check_returns_from .stmts c
  | PLX_NODE_IF_THEN_ELSE =>
    match c with
    | .node _ _ _ (.node kt vt ct els tyt) _ =>
      if plx_has_next els then none
      else
        match plx_check_returns_from .node (.node kt vt ct els tyt) with
        | none => none
        | some false => some false
        | some true => plx_check_returns_from .node els
    | _ => none
  | PLX_NODE_RETURN => some true
  | _ => some false

/-- The shape asked of a statement of a kind with the first child `c`. -/
def plx_stmt_shape (k : plx_node_kind) (c : plx_node) : Bool :=
  match k with
  | PLX_NODE_MODULE => false
  | PLX_NODE_FUNC_DEF => false
  | PLX_NODE_BLOCK => plx_stmts_shape true c
  | PLX_NODE_IF_THEN_ELSE =>
    match c with
    | .node _ _ _ (.node kt vt ct (.node ke ve ce .NULL tye) tyt) _ =>
      plx_stmts_shape false (.node kt vt ct (.node ke ve ce .NULL tye) tyt) &&
        plx_stmts_shape false (.node ke ve ce .NULL tye)
    | _ => false
  | _ => true

theorem check_returns_node (k : plx_node_kind) (v : plx_node_value) (c n ty : plx_node) :
    plx_check_returns_from .node (.node k v c n ty) = plx_check_returns_switch k c := by
  cases k <;> first | rfl | (rcases c with _ | ⟨_, _, _, (_ | ⟨_, _, _, (_ | ⟨_, _, _, _, _⟩), _⟩), _⟩ <;> rfl)

theorem check_returns_stmts (k : plx_node_kind) (v : plx_node_value) (c n ty : plx_node) :
    plx_check_returns_from .stmts (.node k v c n ty) =
      match plx_check_returns_switch k c with
      | none => none
      | some true => some true
      | some false => plx_check_returns_from .stmts n := by
  cases k <;> first | rfl | (rcases c with _ | ⟨_, _, _, (_ | ⟨_, _, _, (_ | ⟨_, _, _, _, _⟩), _⟩), _⟩ <;> rfl)

theorem check_returns_defs_eq (k : plx_node_kind) (v : plx_node_value) (c n ty : plx_node) :
    plx_check_returns_from .defs (.node k v c n ty) =
      if k ≠ PLX_NODE_FUNC_DEF then plx_check_returns_from .defs n
      else
        match plx_check_returns_switch k c with
        | none => none
        | some r =>
          match plx_check_returns_from .defs n with
          | none => none
          | some rest => some (r && rest) := by
  cases k <;> first | rfl | (rcases c with _ | ⟨_, _, _, (_ | ⟨_, _, _, (_ | ⟨_, _, _, _, _⟩), _⟩), _⟩ <;> rfl)

theorem stmts_shape_node (all : Bool) (k : plx_node_kind) (v : plx_node_value)
    (c n ty : plx_node) :
    plx_stmts_shape all (.node k v c n ty) =
      (plx_stmt_shape k c && (if all then plx_stmts_shape true n else true)) := by
  cases k <;> first | rfl | (rcases c with _ | ⟨_, _, _, (_ | ⟨_, _, _, (_ | ⟨_, _, _, (_ | _), _⟩), _⟩), _⟩ <;> rfl)

theorem check_returns_switch_if (k1 kt ke : plx_node_kind) (v1 vt ve : plx_node_value)
    (c1 ct ce tye tyt ty1 : plx_node) :
    plx_check_returns_switch PLX_NODE_IF_THEN_ELSE
        (.node k1 v1 c1 (.node kt vt ct (.node ke ve ce .NULL tye) tyt) ty1) =
      match plx_check_returns_switch kt ct with
      | none => none
      | some false => some false
      | some true => plx_check_returns_switch ke ce := by
  rw [← check_returns_node kt vt ct (.node ke ve ce .NULL tye) tyt,
    ← check_returns_node ke ve ce .NULL tye]
  rfl

theorem check_returns_switch_func (k1 kp kr kb : plx_node_kind) (v1 vp vr vb : plx_node_value)
    (c1 cp cr cb tyb tyr typ ty1 : plx_node) :
    plx_check_returns_switch PLX_NODE_FUNC_DEF
        (.node k1 v1 c1 (.node kp vp cp (.node kr vr cr (.node kb vb cb .NULL tyb) tyr) typ)
          ty1) =
      if kr = PLX_NODE_VOID_TYPE then some true else plx_check_returns_switch kb cb := by
  rw [← check_returns_node kb vb cb .NULL tyb]
  rfl

theorem node_size_node (k : plx_node_kind) (v : plx_node_value) (c n ty : plx_node) :
    plx_node_size (.node k v c n ty) = plx_node_size c + plx_node_size n + 1 := rfl

theorem always_returns_block (v : plx_node_value) (c n ty : plx_node) :
    plx_always_returns (.node PLX_NODE_BLOCK v c n ty) ↔
      ∃ s ∈ plx_siblings c, plx_always_returns s := by
  constructor
  · intro h
    cases h with
    | block _ _ _ _ s hs hr => exact ⟨s, hs, hr⟩
  · rintro ⟨s, hs, hr⟩
    exact .block v c n ty s hs hr

theorem always_returns_if (v : plx_node_value) (n ty : plx_node)
    (k1 kt ke : plx_node_kind) (v1 vt ve : plx_node_value) (c1 ct ce ty1 tyt tye : plx_node) :
    plx_always_returns (.node PLX_NODE_IF_THEN_ELSE v
        (.node k1 v1 c1 (.node kt vt ct (.node ke ve ce .NULL tye) tyt) ty1) n ty) ↔
      plx_always_returns (.node kt vt ct (.node ke ve ce .NULL tye) tyt) ∧
      plx_always_returns (.node ke ve ce .NULL tye) := by
  constructor
  · intro h
    cases h with
    | if_then_else _ _ _ _ cond then_block els hs h1 h2 =>
      simp only [plx_siblings, List.cons.injEq, and_true] at hs
      obtain ⟨_, e2, e3⟩ := hs
      subst e2
      subst e3
      exact ⟨h1, h2⟩
  · rintro ⟨h1, h2⟩
    exact .if_then_else v _ n ty _ _ _ rfl h1 h2

theorem always_returns_congr (k : plx_node_kind) (v v1 : plx_node_value)
    (c n n1 ty ty1 : plx_node) (h : plx_always_returns (.node k v c n ty)) :
    plx_always_returns (.node k v1 c n1 ty1) := by
  cases h with
  | return_stmt => exact .return_stmt _ _ _ _
  | block _ _ _ _ s hs hr => exact .block _ _ _ _ s hs hr
  | if_then_else _ _ _ _ cond then_block els hs h1 h2 =>
    exact .if_then_else _ _ _ _ cond then_block els hs h1 h2

theorem check_returns_stmts_step (c : plx_node)
    (ih : ∀ k c1, plx_node_size c1 < plx_node_size c → plx_stmt_shape k c1 = true →
      ∃ b, plx_check_returns_switch k c1 = some b ∧
        ∀ v n ty, (b = true ↔ plx_always_returns (.node k v c1 n ty))) :
    plx_stmts_shape true c = true →
    ∃ b, plx_check_returns_from .stmts c = some b ∧
      (b = true ↔ ∃ s ∈ plx_siblings c, plx_always_returns s) := by
  induction c with
  | NULL =>
    intro _
    refine ⟨false, rfl, ?_⟩
    simp [plx_siblings]
  | node k v c1 n ty _ ihn _ =>
    intro hok
    simp only [stmts_shape_node, if_true, Bool.and_eq_true] at hok
    obtain ⟨b1, e1, h1⟩ := ih k c1 (by rw [node_size_node]; omega) hok.1
    obtain ⟨b2, e2, h2⟩ := ihn
      (fun k c2 hlt hs => ih k c2 (by rw [node_size_node]; omega) hs) hok.2
    simp only [check_returns_stmts, e1, plx_siblings, List.mem_cons]
    cases b1 with
    | true =>
      refine ⟨true, rfl, ?_⟩
      simp only [true_iff]
      exact ⟨_, Or.inl rfl, (h1 v n ty).1 rfl⟩
    | false =>
      refine ⟨b2, e2, ?_⟩
      rw [h2]
      constructor
      · rintro ⟨s, hs, hr⟩
        exact ⟨s, Or.inr hs, hr⟩
      · rintro ⟨s, hs | hs, hr⟩
        · subst hs
          have := (h1 v n ty).2 hr
          cases this
        · exact ⟨s, hs, hr⟩

theorem check_returns_switch_ok (sz : Nat) :
    ∀ k c, plx_node_size c = sz → plx_stmt_shape k c = true →
      ∃ b, plx_check_returns_switch k c = some b ∧
        ∀ v n ty, (b = true ↔ plx_always_returns (.node k v c n ty)) := by
  induction sz using Nat.strong_induction_on with
  | _ sz ihc =>
        intro k c hc hshape
        subst hc
        have hstmts := check_returns_stmts_step c
          (fun k c1 hlt hs => ihc _ hlt k c1 rfl hs)
        cases k
        case PLX_NODE_BLOCK =>
          simp only [plx_stmt_shape] at hshape
          obtain ⟨b, e, h⟩ := hstmts hshape
          refine ⟨b, by simpa [plx_check_returns_switch] using e, fun v n ty => ?_⟩
          rw [always_returns_block]
          exact h
        case PLX_NODE_RETURN =>
          refine ⟨true, by simp [plx_check_returns_switch], fun v n ty => ?_⟩
          simp only [true_iff]
          exact .return_stmt _ _ _ _
        case PLX_NODE_IF_THEN_ELSE =>
          unfold plx_stmt_shape at hshape
          simp only at hshape
          split at hshape
          · rename_i k1 v1 c1 kt vt ct ke ve ce tye tyt ty1
            simp only [stmts_shape_node, Bool.and_eq_true, Bool.false_eq_true, if_false,
              and_true] at hshape
            obtain ⟨bt, et, ht⟩ := ihc (plx_node_size ct)
              (by simp only [node_size_node]; omega) kt ct rfl hshape.1
            obtain ⟨be, ee, he⟩ := ihc (plx_node_size ce)
              (by simp only [node_size_node]; omega) ke ce rfl hshape.2
            cases bt with
            | false =>
              refine ⟨false, by rw [check_returns_switch_if, et], fun v n ty => ?_⟩
              rw [always_returns_if]
              constructor
              · intro h
                cases h
              · rintro ⟨h1, _⟩
                have := (ht _ _ _).2 h1
                cases this
            | true =>
              refine ⟨be, by rw [check_returns_switch_if, et, ee], fun v n ty => ?_⟩
              rw [always_returns_if, he]
              constructor
              · intro h
                exact ⟨(ht _ _ _).1 rfl, h⟩
              · rintro ⟨_, h2⟩
                exact h2
          · cases hshape
        all_goals first
          | (simp [plx_stmt_shape] at hshape; done)
          | (refine ⟨false, by simp [plx_check_returns_switch], fun v n ty => ?_⟩
             constructor
             · intro h
               cases h
             · intro h
               cases h)

theorem check_returns_stmt (s : plx_node) (hs : plx_stmt_ok s = true) :
    ∃ b, plx_check_returns s = some b ∧ (b = true ↔ plx_always_returns s) := by
  cases s with
  | NULL => simp [plx_stmt_ok, plx_stmts_shape] at hs
  | node k v c n ty =>
    simp only [plx_stmt_ok, stmts_shape_node, Bool.false_eq_true, if_false,
      Bool.and_true] at hs
    obtain ⟨b, e, h⟩ := check_returns_switch_ok _ k c rfl hs
    exact ⟨b, by rw [plx_check_returns, check_returns_node]; exact e, h v n ty⟩

/-- A function definition with its four children is accepted exactly when its
return type is void or its body always returns. -/
def plx_func_def_accepted (f : plx_node) : Prop :=
  ∃ name params return_type body, plx_siblings f.children = [name, params, return_type, body] ∧
    plx_func_accepted return_type body

theorem siblings_four (c a b d e : plx_node) (h : plx_siblings c = [a, b, d, e]) :
    ∃ k1 v1 c1 ty1 kp vp cp typ kr vr cr tyr kb vb cb tyb,
      c = .node k1 v1 c1 (.node kp vp cp (.node kr vr cr (.node kb vb cb .NULL tyb) tyr) typ) ty1 ∧
      d = .node kr vr cr (.node kb vb cb .NULL tyb) tyr ∧ e = .node kb vb cb .NULL tyb := by
  cases c with
  | NULL => simp [plx_siblings] at h
  | node k1 v1 c1 n1 ty1 =>
    cases n1 with
    | NULL => simp [plx_siblings] at h
    | node kp vp cp n2 typ =>
      cases n2 with
      | NULL => simp [plx_siblings] at h
      | node kr vr cr n3 tyr =>
        cases n3 with
        | NULL => simp [plx_siblings] at h
        | node kb vb cb n4 tyb =>
          cases n4 with
          | NULL =>
            simp only [plx_siblings, List.cons.injEq, and_true] at h
            exact ⟨_, _, _, _, _, _, _, _, _, _, _, _, _, _, _, _, rfl, h.2.2.1.symm, h.2.2.2.symm⟩
          | node _ _ _ _ _ => simp [plx_siblings] at h

theorem check_returns_func (v : plx_node_value) (c n ty : plx_node)
    (hok : (match plx_siblings c with
        | [_, _, _, body] => plx_stmt_ok body
        | _ => false) = true) :
    ∃ b, plx_check_returns_switch PLX_NODE_FUNC_DEF c = some b ∧
      (b = true ↔ plx_func_def_accepted (.node PLX_NODE_FUNC_DEF v c n ty)) := by
  split at hok
  · rename_i a b d body hsib
    obtain ⟨k1, v1, c1, ty1, kp, vp, cp, typ, kr, vr, cr, tyr, kb, vb, cb, tyb, ec, ed, ee⟩ :=
      siblings_four c a b d body hsib
    subst ec
    subst ee
    simp only [plx_stmt_ok, stmts_shape_node, Bool.false_eq_true, if_false,
      Bool.and_true] at hok
    obtain ⟨r, er, hr⟩ := check_returns_switch_ok _ kb cb rfl hok
    have hacc : plx_func_def_accepted (.node PLX_NODE_FUNC_DEF v
          (.node k1 v1 c1 (.node kp vp cp (.node kr vr cr (.node kb vb cb .NULL tyb) tyr) typ) ty1)
          n ty) ↔
        (kr = PLX_NODE_VOID_TYPE ∨ plx_always_returns (.node kb vb cb .NULL tyb)) := by
      unfold plx_func_def_accepted plx_func_accepted
      simp only [plx_node.children, plx_siblings, List.cons.injEq, and_true]
      constructor
      · rintro ⟨_, _, rt, body, ⟨_, _, e3, e4⟩, h⟩
        subst e3
        subst e4
        simpa [plx_node.kind?] using h
      · intro h
        exact ⟨_, _, _, _, ⟨rfl, rfl, rfl, rfl⟩, by simpa [plx_node.kind?] using h⟩
    rw [hacc]
    by_cases hv : kr = PLX_NODE_VOID_TYPE
    · refine ⟨true, ?_, by simp [hv]⟩
      rw [check_returns_switch_func, if_pos hv]
    · refine ⟨r, ?_, ?_⟩
      · rw [check_returns_switch_func, if_neg hv, er]
      · rw [hr vb .NULL tyb]
        simp [hv]
  · cases hok

theorem check_returns_defs (defs : plx_node) (hok : plx_func_defs_ok defs = true) :
    ∃ b, plx_check_returns_from .defs defs = some b ∧
      (b = true ↔ ∀ f ∈ plx_siblings defs, f.kind? = some PLX_NODE_FUNC_DEF →
        plx_func_def_accepted f) := by
  induction defs with
  | NULL => exact ⟨true, rfl, by simp [plx_siblings]⟩
  | node k v c n ty _ ihn _ =>
    simp only [plx_func_defs_ok, Bool.and_eq_true] at hok
    obtain ⟨b2, e2, h2⟩ := ihn hok.2
    by_cases hk : k = PLX_NODE_FUNC_DEF
    · subst hk
      obtain ⟨b1, e1, h1⟩ := check_returns_func v c n ty (by simpa using hok.1)
      refine ⟨b1 && b2, ?_, ?_⟩
      · simp [check_returns_defs_eq, e1, e2]
      · simp only [Bool.and_eq_true, h1, h2, plx_siblings, List.mem_cons, forall_eq_or_imp,
          plx_node.kind?, forall_const]
    · refine ⟨b2, ?_, ?_⟩
      · simp [check_returns_defs_eq, hk, e2]
      · simp only [h2, plx_siblings, List.mem_cons, forall_eq_or_imp, plx_node.kind?,
          Option.some.injEq, hk, false_implies, true_and]

theorem not_always_returns_if_then (cond then_block : plx_node) :
    ¬ plx_always_returns (plx_node_of PLX_NODE_BLOCK
      [plx_node_of PLX_NODE_IF_THEN_ELSE [cond, then_block, plx_new_node PLX_NODE_BLOCK]]) := by
  intro h
  simp only [plx_node_of, plx_new_node, plx_node.set_children, List.foldr,
    plx_node.set_next] at h
  rw [always_returns_block] at h
  obtain ⟨s, hs, hr⟩ := h
  simp only [plx_siblings, List.mem_singleton] at hs
  subst hs
  cases hr with
  | if_then_else _ _ _ _ c1 t1 e1 hsib h1 h2 =>
    cases cond with
    | NULL => simp [plx_node.set_next, plx_siblings] at hsib
    | node kc vc cc nc tyc =>
      cases then_block with
      | NULL => simp [plx_node.set_next, plx_siblings] at hsib
      | node kt vt ct nt tyt =>
        simp only [plx_node.set_next, plx_siblings, List.cons.injEq, and_true] at hsib
        have e := hsib.2.2
        subst e
        rw [always_returns_block] at h2
        obtain ⟨s, hs, _⟩ := h2
        cases hs

set_option maxRecDepth 1000000 in
/-- C22: On a statement `plx_check_returns` computes the predicate R of the
specification (a return statement returns, a block returns exactly when one of
its statements does, an if-then-else exactly when both branches do, nothing else
returns); a module whose function definitions have their four children is
accepted exactly when every function definition in it has a void return type or
a body that satisfies R; a block that consists of an if-then whose else is the
empty block does not satisfy R, and the module of
`func f() -> s32 { if 1 == 1 { return 1; } }` is rejected. -/
theorem plx_check_returns_predicate (v : plx_node_value) (defs n ty : plx_node)
    (hdefs : plx_func_defs_ok defs = true) :
    (∀ s, plx_stmt_ok s = true →
      ∃ b, plx_check_returns s = some b ∧ (b = true ↔ plx_always_returns s)) ∧
    (∃ b, plx_check_returns (.node PLX_NODE_MODULE v defs n ty) = some b ∧
      (b = true ↔ ∀ f ∈ plx_siblings defs, f.kind? = some PLX_NODE_FUNC_DEF →
        ∃ name params return_type body,
          plx_siblings f.children = [name, params, return_type, body] ∧
          (return_type.kind? = some PLX_NODE_VOID_TYPE ∨ plx_always_returns body))) ∧
    (∀ cond then_block : plx_node,
      ¬ plx_always_returns (plx_node_of PLX_NODE_BLOCK
        [plx_node_of PLX_NODE_IF_THEN_ELSE [cond, then_block, plx_new_node PLX_NODE_BLOCK]])) ∧
    plx_check_returns_source "func f() -> s32 { if 1 == 1 { return 1; } }" = some false :=
  ⟨check_returns_stmt, check_returns_defs defs hdefs,
    not_always_returns_if_then,
    by decide⟩

set_option maxRecDepth 1000000 in
/-- Witness for C22: the definitions of
`func f() -> s32 { if 1 == 1 { return 1; } else { return 2; } } func g() { }`,
which `plx_check_returns` accepts. -/
theorem plx_check_returns_predicate_witness :
    plx_check_returns_source
      "func f() -> s32 { if 1 == 1 { return 1; } else { return 2; } } func g() { }" =
      some true ∧
    ∃ b, plx_check_returns (.node PLX_NODE_MODULE .zero
        ((plx_parse_module 40 (plx_tokenizer_init (c_literal
          "func f() -> s32 { if 1 == 1 { return 1; } else { return 2; } } func g() { }"))).getD
          (.NULL, plx_tokenizer_fresh [])).1.children .NULL .NULL) = some b ∧
      (b = true ↔ ∀ f ∈ plx_siblings
        ((plx_parse_module 40 (plx_tokenizer_init (c_literal
          "func f() -> s32 { if 1 == 1 { return 1; } else { return 2; } } func g() { }"))).getD
          (.NULL, plx_tokenizer_fresh [])).1.children,
        f.kind? = some PLX_NODE_FUNC_DEF →
        ∃ name params return_type body,
          plx_siblings f.children = [name, params, return_type, body] ∧
          (return_type.kind? = some PLX_NODE_VOID_TYPE ∨ plx_always_returns body)) :=
  ⟨by decide,
    (plx_check_returns_predicate .zero
      ((plx_parse_module 40 (plx_tokenizer_init (c_literal
        "func f() -> s32 { if 1 == 1 { return 1; } else { return 2; } } func g() { }"))).getD
        (.NULL, plx_tokenizer_fresh [])).1.children .NULL .NULL (by decide)).2.1⟩

/-! ## `src/ast_validator.c`

`plx_validate_ast` reads the tree only; `none` has the meaning it has for
`plx_check_returns`.  The printing of diagnostics is not modelled. -/

/-- `plx_is_constant`, on the kind of the node. -/
def plx_is_constant (kind : plx_node_kind) : Bool :=
  kind = PLX_NODE_S8 || kind = PLX_NODE_S16 || kind = PLX_NODE_S32 || kind = PLX_NODE_S64 ||
  kind = PLX_NODE_U8 || kind = PLX_NODE_U16 || kind = PLX_NODE_U32 || kind = PLX_NODE_U64 ||
  kind = PLX_NODE_F16 || kind = PLX_NODE_F32 || kind = PLX_NODE_F64 ||
  kind = PLX_NODE_BOOL || kind = PLX_NODE_STRING

/-- `plx_is_referenceable_expr`, on the kind of the node. -/
def plx_is_referenceable_expr (kind : plx_node_kind) : Bool :=
  kind = PLX_NODE_DEREF || kind = PLX_NODE_INDEX || kind = PLX_NODE_IDENTIFIER

/-- `plx_validate_ast`: with `all` unset the call on a node, with `all` set the
loop `for (child = ...; child != NULL; child = child->next)` of the `default`
case from the child on, whose result tells whether every call returned
`true`. -/
def plx_validate_ast_from : Bool → plx_node → Option Bool
  | all, .NULL => if all then some true else none
  | all, .node k _ c n _ =>
    let result : Option Bool :=
      match k with
      | PLX_NODE_CONST_DEF | PLX_NODE_VAR_DEF =>
        match c with
        | .node _ _ _ (.node kv vv cv .NULL tyv) _ =>
          (plx_validate_ast_from false (.node kv vv cv .NULL tyv)).map fun r =>
            r && plx_is_constant kv
        | _ => none
      | PLX_NODE_ASSIGN | PLX_NODE_ADD_ASSIGN | PLX_NODE_SUB_ASSIGN | PLX_NODE_MUL_ASSIGN
      | PLX_NODE_DIV_ASSIGN | PLX_NODE_REM_ASSIGN | PLX_NODE_LSHIFT_ASSIGN
      | PLX_NODE_RSHIFT_ASSIGN =>
        match c with
        | .node kt vt ct (.node kv vv cv .NULL tyv) tyt =>
          match plx_validate_ast_from false (.node kt vt ct (.node kv vv cv .NULL tyv) tyt),
            plx_validate_ast_from false (.node kv vv cv .NULL tyv) with
          | some r1, some r2 => some (r1 && plx_is_referenceable_expr kt && r2)
          | _, _ => none
        | _ => none
      | PLX_NODE_REF =>
        match c with
        | .node ko vo co .NULL tyo =>
          (plx_validate_ast_from false (.node ko vo co .NULL tyo)).map fun r =>
            r && plx_is_referenceable_expr ko
        | _ => none
      | PLX_NODE_ARRAY_TYPE =>
        match c with
        | .node kl vl cl element_type tyl =>
          if plx_has_next element_type then none
          else
            (plx_validate_ast_from false (.node kl vl cl element_type tyl)).map fun r =>
              r && plx_is_constant kl
        | .NULL => none
      | _ => plx_validate_ast_from true c
    match all with
    | false => result
    | true =>
      match result, plx_validate_ast_from true n with
      | some r, some rest => some (r && rest)
      | _, _ => none

/-- `plx_validate_ast`. -/
def plx_validate_ast (node : plx_node) : Option Bool := plx_validate_ast_from false node

/-- What the specification asks of a node: the right-hand side of a const or
var definition and the length of an array type are literals, the target of an
assignment and the operand of a ref are an identifier, a dereference or an
index. -/
def plx_node_valid (k : plx_node_kind) (c : plx_node) : Bool :=
  match k with
  | PLX_NODE_CONST_DEF | PLX_NODE_VAR_DEF =>
    match c.next.kind? with
    | some kv => plx_is_constant kv
    | none => false
  | PLX_NODE_ASSIGN | PLX_NODE_ADD_ASSIGN | PLX_NODE_SUB_ASSIGN | PLX_NODE_MUL_ASSIGN
  | PLX_NODE_DIV_ASSIGN | PLX_NODE_REM_ASSIGN | PLX_NODE_LSHIFT_ASSIGN
  | PLX_NODE_RSHIFT_ASSIGN | PLX_NODE_REF =>
    match c.kind? with
    | some kt => plx_is_referenceable_expr kt
    | none => false
  | PLX_NODE_ARRAY_TYPE =>
    match c.kind? with
    | some kl => plx_is_constant kl
    | none => false
  | _ => true

/-- Every node of a tree, the node and the nodes reachable from it through
`children` (and through `next` with `all` set), is as the specification asks. -/
def plx_tree_valid : Bool → plx_node → Bool
  | _, .NULL => true
  | all, .node k _ c n _ =>
    plx_node_valid k c && plx_tree_valid true c && (if all then plx_tree_valid true n else true)

/-- The same for the nodes `plx_validate_ast` visits: every node but those of
the name of a const or var definition and those of the element type of an
array type. -/
def plx_visited_valid : Bool → plx_node → Bool
  | _, .NULL => true
  | all, .node k _ c n _ =>
    plx_node_valid k c &&
    (match k with
      | PLX_NODE_CONST_DEF | PLX_NODE_VAR_DEF =>
        match c with
        | .node _ _ _ (.node kv vv cv nv tyv) _ =>
          plx_visited_valid false (.node kv vv cv nv tyv)
        | _ => true
      | PLX_NODE_ARRAY_TYPE =>
        match c with
        | .node kl vl cl element_type tyl =>
          plx_visited_valid false (.node kl vl cl element_type tyl)
        | .NULL => true
      | _ => plx_visited_valid true c) &&
    (if all then plx_visited_valid true n else true)

/-- `plx_validate_ast` on the module `plx_parse_module` builds from a source
text, within the bound 40, and whether every node of that module is as the
specification asks. -/
def plx_validate_source (source : String) : Option (Bool × Bool) :=
  match plx_parse_module 40 (plx_tokenizer_init (c_literal source)) with
  | some (.node k v c n ty, _) =>
    (plx_validate_ast (.node k v c n ty)).map fun r => (r, plx_tree_valid false (.node k v c n ty))
  | _ => none

/-- The `switch` of `plx_validate_ast` for a node of a kind with the first
child `c`. -/
def plx_validate_ast_switch (k : plx_node_kind) (c : plx_node) : Option Bool :=
  match k with
  | PLX_NODE_CONST_DEF | PLX_NODE_VAR_DEF =>
    match c with
    | .node _ _ _ (.node kv vv cv .NULL tyv) _ =>
      (plx_validate_ast_from false (.node kv vv cv .NULL tyv)).map fun r =>
        r && plx_is_constant kv
    | _ => none
  | PLX_NODE_ASSIGN | PLX_NODE_ADD_ASSIGN | PLX_NODE_SUB_ASSIGN | PLX_NODE_MUL_ASSIGN
  | PLX_NODE_DIV_ASSIGN | PLX_NODE_REM_ASSIGN | PLX_NODE_LSHIFT_ASSIGN
  | PLX_NODE_RSHIFT_ASSIGN =>
    match c with
    | .node kt vt ct (.node kv vv cv .NULL tyv) tyt =>
      match plx_validate_ast_from false (.node kt vt ct (.node kv vv cv .NULL tyv) tyt),
        plx_validate_ast_from false (.node kv vv cv .NULL tyv) with
      | some r1, some r2 => some (r1 && plx_is_referenceable_expr kt && r2)
      | _, _ => none
    | _ => none
  | PLX_NODE_REF =>
    match c with
    | .node ko vo co .NULL tyo =>
      (plx_validate_ast_from false (.node ko vo co .NULL tyo)).map fun r =>
        r && plx_is_referenceable_expr ko
    | _ => none
  | PLX_NODE_ARRAY_TYPE =>
    match c with
    | .node kl vl cl element_type tyl =>
      if plx_has_next element_type then none
      else
        (plx_validate_ast_from false (.node kl vl cl element_type tyl)).map fun r =>
          r && plx_is_constant kl
    | .NULL => none
  | _ => plx_validate_ast_from true c

/-- The nodes below a node of a kind with the first child `c` that
`plx_validate_ast` visits are as the specification asks. -/
def plx_visited_children_valid (k : plx_node_kind) (c : plx_node) : Bool :=
  match k with
  | PLX_NODE_CONST_DEF | PLX_NODE_VAR_DEF =>
    match c with
    | .node _ _ _ (.node kv vv cv nv tyv) _ =>
      plx_visited_valid false (.node kv vv cv nv tyv)
    | _ => true
  | PLX_NODE_ARRAY_TYPE =>
    match c with
    | .node kl vl cl element_type tyl =>
      plx_visited_valid false (.node kl vl cl element_type tyl)
    | .NULL => true
  | _ => plx_visited_valid true c

theorem validate_node (all : Bool) (k : plx_node_kind) (v : plx_node_value)
    (c n ty : plx_node) :
    plx_validate_ast_from all (.node k v c n ty) =
      match all with
      | false => plx_validate_ast_switch k c
      | true =>
        match plx_validate_ast_switch k c, plx_validate_ast_from true n with
        | some r, some rest => some (r && rest)
        | _, _ => none := by
  cases all <;> cases k <;> first
    | rfl
    | (rcases c with _ | ⟨_, _, _, (_ | ⟨_, _, _, (_ | _), _⟩), _⟩ <;> rfl)

theorem visited_node (all : Bool) (k : plx_node_kind) (v : plx_node_value)
    (c n ty : plx_node) :
    plx_visited_valid all (.node k v c n ty) =
      (plx_node_valid k c && plx_visited_children_valid k c &&
        (if all then plx_visited_valid true n else true)) := by
  cases k <;> first
    | rfl
    | (rcases c with _ | ⟨_, _, _, (_ | ⟨_, _, _, (_ | _), _⟩), _⟩ <;> rfl)

theorem visited_all (k : plx_node_kind) (v : plx_node_value) (c n ty : plx_node) :
    plx_visited_valid true (.node k v c n ty) =
      (plx_visited_valid false (.node k v c n ty) && plx_visited_valid true n) := by
  rw [visited_node, visited_node]
  simp

theorem visited_last (k : plx_node_kind) (v : plx_node_value) (c ty : plx_node)
    (h : plx_visited_valid false (.node k v c .NULL ty) = true) :
    plx_visited_valid true (.node k v c .NULL ty) = true := by
  rw [visited_all, h]
  rfl

theorem validate_sound (sz : Nat) :
    ∀ all node, plx_node_size node = sz → plx_validate_ast_from all node = some true →
      plx_visited_valid all node = true := by
  induction sz using Nat.strong_induction_on with
  | _ sz ih =>
    intro all node hsz h
    subst hsz
    cases node with
    | NULL => rfl
    | node k v c n ty =>
      have ihc : ∀ all x, plx_node_size x < plx_node_size (.node k v c n ty) →
          plx_validate_ast_from all x = some true → plx_visited_valid all x = true :=
        fun all x hlt hx => ih _ hlt all x rfl hx
      rw [validate_node] at h
      rw [visited_node]
      have hsw : plx_validate_ast_switch k c = some true ∧
          (all = true → plx_validate_ast_from true n = some true) := by
        cases all with
        | false => exact ⟨h, fun e => by cases e⟩
        | true =>
          simp only at h
          split at h
          · rename_i r rest e1 e2
            simp only [Option.some.injEq, Bool.and_eq_true] at h
            rw [e1, e2, h.1, h.2]
            exact ⟨rfl, fun _ => rfl⟩
          · cases h
      obtain ⟨h1, h2⟩ := hsw
      have hn : (if all = true then plx_visited_valid true n else true) = true := by
        cases all with
        | false => rfl
        | true =>
          simp only [if_true]
          exact ihc true n (by rw [node_size_node]; omega) (h2 rfl)
      rw [hn, Bool.and_true]
      clear h h2 hn
      have hdef : plx_validate_ast_switch k c = plx_validate_ast_from true c →
          plx_node_valid k c = true → plx_visited_children_valid k c = plx_visited_valid true c →
          plx_validate_ast_switch k c = some true →
          (plx_node_valid k c && plx_visited_children_valid k c) = true := by
        intro e1 e2 e3 h1
        rw [e2, e3, Bool.true_and]
        rw [e1] at h1
        exact ihc true c (by rw [node_size_node]; omega) h1
      cases k
      case PLX_NODE_CONST_DEF | PLX_NODE_VAR_DEF =>
        unfold plx_validate_ast_switch at h1
        simp only at h1
        split at h1
        · rename_i k1 v1 c1 kv vv cv tyv ty1
          simp only [Option.map_eq_some', Bool.and_eq_true] at h1
          obtain ⟨r, hr, e1, e2⟩ := h1
          subst e1
          have := ihc false _ (by simp only [node_size_node]; omega) hr
          simp [plx_node_valid, plx_visited_children_valid, plx_node.next, plx_node.kind?,
            e2, this]
        · cases h1
      case PLX_NODE_ARRAY_TYPE =>
        unfold plx_validate_ast_switch at h1
        simp only at h1
        split at h1
        · rename_i kl vl cl et tyl
          split at h1
          · cases h1
          · simp only [Option.map_eq_some', Bool.and_eq_true] at h1
            obtain ⟨r, hr, e1, e2⟩ := h1
            subst e1
            have := ihc false _ (by simp only [node_size_node]; omega) hr
            simp [plx_node_valid, plx_visited_children_valid, plx_node.kind?, e2, this]
        · cases h1
      case PLX_NODE_REF =>
        unfold plx_validate_ast_switch at h1
        simp only at h1
        split at h1
        · rename_i ko vo co tyo
          simp only [Option.map_eq_some', Bool.and_eq_true] at h1
          obtain ⟨r, hr, e1, e2⟩ := h1
          subst e1
          have := visited_last _ _ _ _
            (ihc false _ (by simp only [node_size_node]; omega) hr)
          simp [plx_node_valid, plx_visited_children_valid, plx_node.kind?, e2, this]
        · cases h1
      case PLX_NODE_ASSIGN | PLX_NODE_ADD_ASSIGN | PLX_NODE_SUB_ASSIGN | PLX_NODE_MUL_ASSIGN
          | PLX_NODE_DIV_ASSIGN | PLX_NODE_REM_ASSIGN | PLX_NODE_LSHIFT_ASSIGN
          | PLX_NODE_RSHIFT_ASSIGN =>
        unfold plx_validate_ast_switch at h1
        simp only at h1
        split at h1
        · rename_i kt vt ct kv vv cv tyv tyt
          split at h1
          · rename_i r1 r2 e1 e2
            simp only [Option.some.injEq, Bool.and_eq_true] at h1
            obtain ⟨⟨a1, a2⟩, a3⟩ := h1
            subst a1
            subst a3
            have t1 := ihc false _ (by simp only [node_size_node]; omega) e1
            have t2 := visited_last _ _ _ _
              (ihc false _ (by simp only [node_size_node]; omega) e2)
            have t3 : plx_visited_valid true
                (.node kt vt ct (.node kv vv cv .NULL tyv) tyt) = true := by
              rw [visited_all, t1, t2]
              rfl
            simp [plx_node_valid, plx_visited_children_valid, plx_node.kind?, a2, t3]
          · cases h1
        · cases h1
      all_goals exact hdef rfl rfl rfl h1

set_option maxRecDepth 1000000 in
/-- C25: When `plx_validate_ast` returns `true` for a tree, every node it visits
is as the specification asks (a literal right-hand side of a const or var
definition, a literal length of an array type, an identifier, dereference or
index as the target of an assignment and as the operand of a ref); it visits
neither the name of a definition nor the element type of an array type, and for
the module of `var x: [2][n]s32;` it returns `true` although the array type
nested as element type has the length `n`, which is no literal. -/
theorem plx_validate_ast_sound (node : plx_node) (h : plx_validate_ast node = some true) :
    plx_visited_valid false node = true ∧
    plx_validate_source "var x: [2][n]s32;" = some (true, false) :=
  ⟨validate_sound _ false node rfl h, by decide⟩

set_option maxRecDepth 1000000 in
/-- Witness for C25: the module of
`var x: [2][3]s32; func f() { var y = 2; y = &y; }`. -/
theorem plx_validate_ast_sound_witness :
    plx_validate_ast
      ((plx_parse_module 40 (plx_tokenizer_init (c_literal
        "var x: [2][3]s32; func f() { var y = 2; y = &y; }"))).getD
        (.NULL, plx_tokenizer_fresh [])).1 = some true ∧
    plx_visited_valid false
      ((plx_parse_module 40 (plx_tokenizer_init (c_literal
        "var x: [2][3]s32; func f() { var y = 2; y = &y; }"))).getD
        (.NULL, plx_tokenizer_fresh [])).1 = true :=
  ⟨by decide,
    (plx_validate_ast_sound
      ((plx_parse_module 40 (plx_tokenizer_init (c_literal
        "var x: [2][3]s32; func f() { var y = 2; y = &y; }"))).getD
        (.NULL, plx_tokenizer_fresh [])).1 (by decide)).1⟩

/-! ## `src/wasm.c` and `src/wasm_generator.c`

A stream is the content of its file, the bytes still in the buffer of the
stream included, with the file position indicator and whether the file is open
for reading as well.  Writes to a file always succeed (the disk is not full);
`tmpfile` returns a stream.  A generator yields the bytes it writes to its
stream, `none` when it fails an assertion, reads a pointer that
`plx_extract_children` has left uninitialised or reads through a null pointer.
Counts of nodes are below `2 ^ 64`, since the nodes are distinct objects in
memory, so no counter of type `size_t` wraps around. -/

/-- A `FILE *`. -/
structure plx_stream where
  content : List Nat
  pos : Nat
  readable : Bool
  deriving DecidableEq

/-- The stream `fopen(name, "wb")` returns. -/
def plx_fopen_wb : plx_stream := { content := [], pos := 0, readable := false }

/-- The stream `tmpfile()` returns, open for update (`"wb+"`). -/
def plx_tmpfile : plx_stream := { content := [], pos := 0, readable := true }

/-- The calls `fputc` and `fwrite` that write the bytes `bytes` at the file
position indicator. -/
def plx_fwrite (stream : plx_stream) (bytes : List Nat) : plx_stream :=
  { stream with
    content := stream.content.take stream.pos ++ bytes ++
      stream.content.drop (stream.pos + bytes.length)
    pos := stream.pos + bytes.length }

/-- `fread(buf, 1, count, stream)`: the bytes read and the stream. -/
def plx_fread (stream : plx_stream) (count : Nat) : List Nat × plx_stream :=
  ((stream.content.drop stream.pos).take count,
    { stream with pos := stream.pos + ((stream.content.drop stream.pos).take count).length })

/-- `fseek(stream, 0, SEEK_SET)`. -/
def plx_fseek_set (stream : plx_stream) : plx_stream := { stream with pos := 0 }

/-- `ftell(stream)`. -/
def plx_ftell (stream : plx_stream) : Nat := stream.pos

/-- `sendfile(out_fd, in_fd, NULL, count)` of Linux on the descriptors of two
streams: it fails with -1 when `in_fd` is not open for reading, and else
transfers up to `count` bytes from the file of `in_fd` at its offset to
`out_fd`, advances both offsets and returns the number of bytes. -/
def plx_sendfile (out_fd in_fd : plx_stream) (count : Nat) : Int × plx_stream × plx_stream :=
  if in_fd.readable then
    (((plx_fread in_fd count).1.length : Int), plx_fwrite out_fd (plx_fread in_fd count).1,
      (plx_fread in_fd count).2)
  else (-1, out_fd, in_fd)

/-- `plx_wasm_write_module_preamble`. -/
def plx_wasm_write_module_preamble : List Nat := [0, 0x61, 0x73, 0x6D, 1, 0, 0, 0]

/-- `enum plx_wasm_section_id`, the three sections `plx_generate_wasm` writes. -/
def PLX_WASM_SECTION_TYPE : Nat := 1

/-- `PLX_WASM_SECTION_FUNCTION`. -/
def PLX_WASM_SECTION_FUNCTION : Nat := 3

/-- `PLX_WASM_SECTION_CODE`. -/
def PLX_WASM_SECTION_CODE : Nat := 10

/-- `plx_wasm_write_ull`. -/
def plx_wasm_write_ull (value : Nat) : List Nat := plx_write_leb128_ull value

/-- `plx_wasm_write_section_header`. -/
def plx_wasm_write_section_header (id size : Nat) : List Nat := id :: plx_wasm_write_ull size

/-- `PLX_WASM_I32`. -/
def PLX_WASM_I32 : Nat := 0x7F

/-- `PLX_WASM_I64`. -/
def PLX_WASM_I64 : Nat := 0x7E

/-- `PLX_WASM_F32`. -/
def PLX_WASM_F32 : Nat := 0x7D

/-- `PLX_WASM_F64`. -/
def PLX_WASM_F64 : Nat := 0x7C

/-- `plx_generate_wasm_type`. -/
def plx_generate_wasm_type (type : plx_node) : Option (List Nat) :=
  match type.kind? with
  | some PLX_NODE_S8_TYPE | some PLX_NODE_S16_TYPE | some PLX_NODE_S32_TYPE
  | some PLX_NODE_U8_TYPE | some PLX_NODE_U16_TYPE | some PLX_NODE_U32_TYPE
  | some PLX_NODE_BOOL_TYPE => some [PLX_WASM_I32]
  | some PLX_NODE_S64_TYPE | some PLX_NODE_U64_TYPE => some [PLX_WASM_I64]
  | some PLX_NODE_F16_TYPE | some PLX_NODE_F32_TYPE => some [PLX_WASM_F32]
  | some PLX_NODE_F64_TYPE => some [PLX_WASM_F64]
  | _ => none

/-- The loop over the parameters of a function definition in
`plx_generate_wasm_type_section`, from a parameter on. -/
def plx_generate_wasm_param_types : plx_node → Option (List Nat)
  | .NULL => some []
  | .node _ _ c n _ =>
    match c with
    | .node _ _ _ (.node kt vt ct .NULL tyt) _ =>
      match plx_generate_wasm_type (.node kt vt ct .NULL tyt), plx_generate_wasm_param_types n with
      | some b, some rest => some (b ++ rest)
      | _, _ => none
    | _ => none

/-- The first loop of `plx_generate_wasm_type_section` and of
`plx_generate_wasm_function_section`, from a definition on: the number of
function definitions. -/
def plx_wasm_type_count : plx_node → Nat
  | .NULL => 0
  | .node k _ _ n _ =>
    if k ≠ PLX_NODE_FUNC_DEF then plx_wasm_type_count n else plx_wasm_type_count n + 1

/-- The second loop of `plx_generate_wasm_type_section`, from a definition
on. -/
def plx_generate_wasm_types : plx_node → Option (List Nat)
  | .NULL => some []
  | .node k _ c n _ =>
    if k ≠ PLX_NODE_FUNC_DEF then plx_generate_wasm_types n
    else
      match c with
      | .node _ _ _ (.node kp vp cp (.node kr vr cr body tyr) typ) _ =>
        if plx_has_next body then none
        else
          match plx_generate_wasm_param_types cp,
            plx_generate_wasm_type (.node kr vr cr body tyr), plx_generate_wasm_types n with
          | some params, some result, some rest =>
            some (0x60 :: plx_wasm_write_ull (plx_count_children (.node kp vp cp .NULL typ)) ++
              params ++ plx_wasm_write_ull 1 ++ result ++ rest)
          | _, _, _ => none
      | _ => none

/-- `plx_generate_wasm_type_section`. -/
def plx_generate_wasm_type_section (module : plx_node) : Option (List Nat) :=
  match module with
  | .node PLX_NODE_MODULE _ c _ _ =>
    (plx_generate_wasm_types c).map fun types =>
      plx_wasm_write_ull (plx_wasm_type_count c) ++ types
  | _ => none

/-- The second loop of `plx_generate_wasm_function_section`, from a definition
on, with the value of `type_index`. -/
def plx_generate_wasm_type_indices : plx_node → Nat → List Nat
  | .NULL, _ => []
  | .node k _ _ n _, type_index =>
    if k ≠ PLX_NODE_FUNC_DEF then plx_generate_wasm_type_indices n type_index
    else plx_wasm_write_ull type_index ++ plx_generate_wasm_type_indices n (type_index + 1)

/-- `plx_generate_wasm_function_section`. -/
def plx_generate_wasm_function_section (module : plx_node) : Option (List Nat) :=
  match module with
  | .node PLX_NODE_MODULE _ c _ _ =>
    some (plx_wasm_write_ull (plx_wasm_type_count c) ++ plx_generate_wasm_type_indices c 0)
  | _ => none

/-- `plx_generate_wasm_code` on a module node, the only call `plx_generate_wasm`
makes: `case PLX_NODE_MODULE: break;` writes nothing. -/
def plx_generate_wasm_code_module : List Nat := []

/-- `plx_copy_file`, the branch taken when `_WIN32` is defined: the result, the
stream `in` and the stream `out`. -/
def plx_copy_file_win32 (in_stream out : plx_stream) (size : Nat) :
    Bool × plx_stream × plx_stream :=
  if size = 0 then (true, in_stream, out)
  else if (plx_fread in_stream (min size 1024)).1.length = 0 then (true, in_stream, out)
  else
    plx_copy_file_win32 (plx_fread in_stream (min size 1024)).2
      (plx_fwrite out (plx_fread in_stream (min size 1024)).1)
      (size - (plx_fread in_stream (min size 1024)).1.length)
termination_by size
decreasing_by
  rename_i _ h2
  omega

/-- `plx_copy_file`, the branch taken when `_WIN32` is not defined, which calls
`sendfile(fileno(in), fileno(out), NULL, size)`. -/
def plx_copy_file_sendfile (in_stream out : plx_stream) (size : Nat) :
    Bool × plx_stream × plx_stream :=
  if size = 0 then (true, in_stream, out)
  else if (plx_sendfile in_stream out size).1 < 0 then (false, in_stream, out)
  else if (plx_sendfile in_stream out size).1 = 0 then
    (true, (plx_sendfile in_stream out size).2.1, (plx_sendfile in_stream out size).2.2)
  else if (plx_sendfile in_stream out size).1 > size then
    (false, (plx_sendfile in_stream out size).2.1, (plx_sendfile in_stream out size).2.2)
  else
    plx_copy_file_sendfile (plx_sendfile in_stream out size).2.1
      (plx_sendfile in_stream out size).2.2
      (size - (plx_sendfile in_stream out size).1.toNat)
termination_by size
decreasing_by
  rename_i _ h2 h3 h4
  omega

/-- `plx_copy_file`. -/
def plx_copy_file (_WIN32 : Bool) (in_stream out : plx_stream) (size : Nat) :
    Bool × plx_stream × plx_stream :=
  if _WIN32 then plx_copy_file_win32 in_stream out size
  else plx_copy_file_sendfile in_stream out size

/-- One section of `plx_generate_wasm`: the payload is written to `tmp` from
its start, the header with the position of `tmp` as size to `stream`, and `size`
bytes are copied from the start of `tmp` to `stream`. -/
def plx_generate_wasm_section (_WIN32 : Bool) (id : Nat) (payload : List Nat)
    (tmp stream : plx_stream) : Bool × plx_stream × plx_stream :=
  plx_copy_file _WIN32 (plx_fseek_set (plx_fwrite tmp payload))
    (plx_fwrite stream (plx_wasm_write_section_header id (plx_ftell (plx_fwrite tmp payload))))
    (plx_ftell (plx_fwrite tmp payload))

/-- `plx_generate_wasm`: the returned `bool` and the stream. -/
def plx_generate_wasm (_WIN32 : Bool) (module : plx_node) (stream : plx_stream) :
    Option (Bool × plx_stream) :=
  match module.kind? with
  | some PLX_NODE_MODULE =>
    match plx_generate_wasm_type_section module with
    | none => none
    | some types =>
      match plx_generate_wasm_section _WIN32 PLX_WASM_SECTION_TYPE types plx_tmpfile
          (plx_fwrite stream plx_wasm_write_module_preamble) with
      | (false, _, stream) => some (false, stream)
      | (true, tmp, stream) =>
        match plx_generate_wasm_function_section module with
        | none => none
        | some functions =>
          match plx_generate_wasm_section _WIN32 PLX_WASM_SECTION_FUNCTION functions
              (plx_fseek_set tmp) stream with
          | (false, _, stream) => some (false, stream)
          | (true, tmp, stream) =>
            match plx_generate_wasm_section _WIN32 PLX_WASM_SECTION_CODE
                plx_generate_wasm_code_module (plx_fseek_set tmp) stream with
            | (false, _, stream) => some (false, stream)
            | (true, _, stream) => some (true, stream)
  | _ => none

/-- The value type of the specification for a type of a kind: 8, 16 and 32-bit
integers and bool are `0x7F`, 64-bit integers `0x7E`, f16 and f32 `0x7D`, f64
`0x7C`. -/
def plx_wasm_value_type (kind : plx_node_kind) : Option Nat :=
  if kind ∈ [PLX_NODE_S8_TYPE, PLX_NODE_S16_TYPE, PLX_NODE_S32_TYPE, PLX_NODE_U8_TYPE,
      PLX_NODE_U16_TYPE, PLX_NODE_U32_TYPE, PLX_NODE_BOOL_TYPE] then some 0x7F
  else if kind ∈ [PLX_NODE_S64_TYPE, PLX_NODE_U64_TYPE] then some 0x7E
  else if kind ∈ [PLX_NODE_F16_TYPE, PLX_NODE_F32_TYPE] then some 0x7D
  else if kind = PLX_NODE_F64_TYPE then some 0x7C
  else none

/-- The value type of a parameter, a node with a name and a type. -/
def plx_wasm_param_type (param : plx_node) : Option Nat :=
  match plx_siblings param.children with
  | [_, type] => type.kind?.bind plx_wasm_value_type
  | _ => none

/-- The value types of the parameters and of the return type of a function
definition with its name, parameters, return type and body. -/
def plx_wasm_func_sig (func_def : plx_node) : Option (List Nat × Nat) :=
  match plx_siblings func_def.children with
  | [_, params, return_type, _] =>
    match (plx_siblings params.children).mapM plx_wasm_param_type,
      return_type.kind?.bind plx_wasm_value_type with
    | some param_types, some result => some (param_types, result)
    | _, _ => none
  | _ => none

/-- The function type of the specification: `0x60`, the number of parameters,
the value type of each parameter, the byte 1 and the value type of the return
type. -/
def plx_wasm_func_type (sig : List Nat × Nat) : List Nat :=
  0x60 :: plx_write_leb128_ull sig.1.length ++ sig.1 ++ [1, sig.2]

/-- The function definitions of a module in module order, from a definition
on. -/
def plx_func_defs (defs : plx_node) : List plx_node :=
  (plx_siblings defs).filter fun d => d.kind? = some PLX_NODE_FUNC_DEF

theorem wasm_type_eq (type : plx_node) :
    plx_generate_wasm_type type =
      (type.kind?.bind plx_wasm_value_type).map fun b => [b] := by
  cases type with
  | NULL => rfl
  | node k v c n ty => cases k <;> rfl

theorem write_ull_one : plx_wasm_write_ull 1 = [1] := by
  rw [plx_wasm_write_ull, ull_unfold]
  decide

theorem siblings_length (c : plx_node) : (plx_siblings c).length = plx_count_siblings c := by
  induction c with
  | NULL => rfl
  | node k v c n ty _ ihn _ => simp [plx_siblings, plx_count_siblings, ihn]

theorem mapM_some_length {α β : Type} (f : α → Option β) (l : List α) (r : List β)
    (h : l.mapM f = some r) : r.length = l.length := by
  induction l generalizing r with
  | nil =>
    simp only [List.mapM_nil, Option.pure_def, Option.some.injEq] at h
    subst h
    rfl
  | cons a l ih =>
    simp only [List.mapM_cons, Option.bind_eq_bind, Option.pure_def,
      Option.bind_eq_some] at h
    obtain ⟨b, _, rest, hrest, e⟩ := h
    cases e
    simp [ih rest hrest]

theorem wasm_param_types_eq (params : plx_node) (param_types : List Nat)
    (h : (plx_siblings params).mapM plx_wasm_param_type = some param_types) :
    plx_generate_wasm_param_types params = some param_types := by
  induction params generalizing param_types with
  | NULL =>
    simp only [plx_siblings, List.mapM_nil, Option.pure_def, Option.some.injEq] at h
    subst h
    rfl
  | node k v c n ty _ ihn _ =>
    simp only [plx_siblings, List.mapM_cons, Option.bind_eq_bind, Option.pure_def,
      Option.bind_eq_some] at h
    obtain ⟨b, hb, rest, hrest, e⟩ := h
    cases e
    have hn := ihn rest hrest
    unfold plx_wasm_param_type at hb
    simp only [plx_node.children] at hb
    split at hb
    · rename_i a type hs
      rcases c with _ | ⟨k1, v1, c1, (_ | ⟨kt, vt, ct, (_ | _), tyt⟩), ty1⟩ <;>
        simp only [plx_siblings, List.cons.injEq, and_true, reduceCtorEq, and_false] at hs
      obtain ⟨_, e2⟩ := hs
      subst e2
      simp only [plx_generate_wasm_param_types, wasm_type_eq, hb, hn, Option.map_some']
      rfl
    · cases hb

theorem wasm_types_eq (defs : plx_node) (sigs : List (List Nat × Nat))
    (h : (plx_func_defs defs).mapM plx_wasm_func_sig = some sigs) :
    plx_generate_wasm_types defs = some (sigs.map plx_wasm_func_type).flatten ∧
    plx_wasm_type_count defs = sigs.length := by
  induction defs generalizing sigs with
  | NULL =>
    simp only [plx_func_defs, plx_siblings, List.filter_nil, List.mapM_nil, Option.pure_def,
      Option.some.injEq] at h
    subst h
    exact ⟨rfl, rfl⟩
  | node k v c n ty _ ihn _ =>
    by_cases hk : k = PLX_NODE_FUNC_DEF
    · subst hk
      have hf : plx_func_defs (.node PLX_NODE_FUNC_DEF v c n ty) =
          .node PLX_NODE_FUNC_DEF v c n ty :: plx_func_defs n := by
        simp [plx_func_defs, plx_siblings, plx_node.kind?]
      rw [hf] at h
      simp only [List.mapM_cons, Option.bind_eq_bind, Option.pure_def,
        Option.bind_eq_some] at h
      obtain ⟨t, ht, rest, hrest, e⟩ := h
      cases e
      obtain ⟨h1, h2⟩ := ihn rest hrest
      unfold plx_wasm_func_sig at ht
      simp only [plx_node.children] at ht
      split at ht
      · rename_i a params return_type body hs
        obtain ⟨k1, v1, c1, ty1, kp, vp, cp, typ, kr, vr, cr, tyr, kb, vb, cb, tyb, ec, ed, ee⟩ :=
          siblings_four c a params return_type body hs
        subst ec
        simp only [plx_siblings, List.cons.injEq, and_true] at hs
        obtain ⟨_, e2, e3, _⟩ := hs
        subst e2
        subst e3
        split at ht
        · rename_i param_types result hp hr
          simp only [Option.some.injEq] at ht
          subst ht
          simp only [plx_node.children] at hp
          have hp1 := wasm_param_types_eq cp param_types hp
          have hlen : plx_count_siblings cp = param_types.length := by
            rw [← siblings_length, mapM_some_length _ _ _ hp]
          refine ⟨?_, by simp [plx_wasm_type_count, h2]⟩
          simp only [plx_generate_wasm_types, ne_eq, not_true_eq_false, if_false, plx_has_next,
            Bool.false_eq_true, hp1, wasm_type_eq, hr, Option.map_some', h1, write_ull_one,
            plx_count_children, plx_node.children, hlen, List.flatten_cons, List.map_cons,
            plx_wasm_func_type]
          simp [plx_wasm_write_ull]
        · cases ht
      · cases ht
    · have hf : plx_func_defs (.node k v c n ty) = plx_func_defs n := by
        simp [plx_func_defs, plx_siblings, plx_node.kind?, hk]
      rw [hf] at h
      obtain ⟨h1, h2⟩ := ihn sigs h
      exact ⟨by simp [plx_generate_wasm_types, hk, h1], by simp [plx_wasm_type_count, hk, h2]⟩

theorem wasm_type_indices_eq (defs : plx_node) (base : Nat) :
    plx_generate_wasm_type_indices defs base =
      ((List.range (plx_func_defs defs).length).map fun i =>
        plx_write_leb128_ull (base + i)).flatten := by
  induction defs generalizing base with
  | NULL => rfl
  | node k v c n ty _ ihn _ =>
    by_cases hk : k = PLX_NODE_FUNC_DEF
    · subst hk
      have hf : plx_func_defs (.node PLX_NODE_FUNC_DEF v c n ty) =
          .node PLX_NODE_FUNC_DEF v c n ty :: plx_func_defs n := by
        simp [plx_func_defs, plx_siblings, plx_node.kind?]
      rw [hf]
      simp only [plx_generate_wasm_type_indices, ne_eq, not_true_eq_false, if_false, ihn,
        List.length_cons, List.range_succ_eq_map, List.map_cons, List.flatten_cons,
        plx_wasm_write_ull, List.map_map, add_zero]
      congr 2
      apply List.map_congr_left
      intro i _
      simp only [Function.comp]
      congr 1
      omega
    · have hf : plx_func_defs (.node k v c n ty) = plx_func_defs n := by
        simp [plx_func_defs, plx_siblings, plx_node.kind?, hk]
      rw [hf]
      simp [plx_generate_wasm_type_indices, hk, ihn]

theorem wasm_type_count_eq (defs : plx_node) :
    plx_wasm_type_count defs = (plx_func_defs defs).length := by
  induction defs with
  | NULL => rfl
  | node k v c n ty _ ihn _ =>
    by_cases hk : k = PLX_NODE_FUNC_DEF
    · subst hk
      simp [plx_wasm_type_count, plx_func_defs, plx_siblings, plx_node.kind?] at ihn ⊢
      exact ihn
    · simp [plx_wasm_type_count, plx_func_defs, plx_siblings, plx_node.kind?, hk] at ihn ⊢
      exact ihn

/-- The module `plx_parse_module` builds from a source text, within the bound
40; `NULL` on a syntax error. -/
def plx_parse_source (source : String) : plx_node :=
  ((plx_parse_module 40 (plx_tokenizer_init (c_literal source))).getD
    (.NULL, plx_tokenizer_fresh [])).1

/-- The payloads of the type and function sections of a module whose function
definitions have the value types `sigs`. -/
theorem wasm_sections_eq (v : plx_node_value) (defs n ty : plx_node)
    (sigs : List (List Nat × Nat))
    (h : (plx_func_defs defs).mapM plx_wasm_func_sig = some sigs) :
    plx_generate_wasm_type_section (.node PLX_NODE_MODULE v defs n ty) =
      some (plx_write_leb128_ull sigs.length ++
        (sigs.map fun sig =>
          0x60 :: plx_write_leb128_ull sig.1.length ++ sig.1 ++ [1, sig.2]).flatten) ∧
    sigs.length = (plx_func_defs defs).length ∧
    plx_generate_wasm_function_section (.node PLX_NODE_MODULE v defs n ty) =
      some (plx_write_leb128_ull (plx_func_defs defs).length ++
        ((List.range (plx_func_defs defs).length).map plx_write_leb128_ull).flatten) := by
  obtain ⟨h1, h2⟩ := wasm_types_eq defs sigs h
  refine ⟨?_, mapM_some_length _ _ _ h, ?_⟩
  · simp only [plx_generate_wasm_type_section, h1, h2, plx_wasm_write_ull, Option.map_some']
    rfl
  · simp [plx_generate_wasm_function_section, wasm_type_indices_eq, wasm_type_count_eq,
      plx_wasm_write_ull]

set_option maxRecDepth 1000000 in
/-- C27: For a module whose function definitions, in module order, have
parameters and return types of primitive numeric or bool types, with the value
types `sigs`, the payload `plx_generate_wasm_type_section` writes is the LEB128
of their number followed, for each in order, by `0x60`, the LEB128 of the number
of parameters, the value type of each parameter, the byte 1 and the value type
of the return type, and the payload `plx_generate_wasm_function_section` writes
is the LEB128 of their number followed by the LEB128 of 0, 1, ... in order.  For
the module of `func f() { }`, a function that declares no return type,
`plx_generate_wasm_type_section` fails the assertion of
`plx_generate_wasm_type`. -/
theorem plx_generate_wasm_type_function_sections (v : plx_node_value) (defs n ty : plx_node)
    (sigs : List (List Nat × Nat))
    (h : (plx_func_defs defs).mapM plx_wasm_func_sig = some sigs) :
    plx_generate_wasm_type_section (.node PLX_NODE_MODULE v defs n ty) =
      some (plx_write_leb128_ull sigs.length ++
        (sigs.map fun sig =>
          0x60 :: plx_write_leb128_ull sig.1.length ++ sig.1 ++ [1, sig.2]).flatten) ∧
    sigs.length = (plx_func_defs defs).length ∧
    plx_generate_wasm_function_section (.node PLX_NODE_MODULE v defs n ty) =
      some (plx_write_leb128_ull (plx_func_defs defs).length ++
        ((List.range (plx_func_defs defs).length).map plx_write_leb128_ull).flatten) ∧
    (plx_parse_source "func f() { }").kind? = some PLX_NODE_MODULE ∧
    plx_generate_wasm_type_section (plx_parse_source "func f() { }") = none := by
  obtain ⟨h1, h2, h3⟩ := wasm_sections_eq v defs n ty sigs h
  exact ⟨h1, h2, h3, by decide, by decide⟩

set_option maxRecDepth 1000000 in
/-- Witness for C27: the module of
`func f(a: s32, b: u64) -> f64 { return 1; } const c = 1; func g() -> u8 { return 2; }`,
with the value types `7F 7E -> 7C` and `-> 7F`. -/
theorem plx_generate_wasm_type_function_sections_witness :
    plx_generate_wasm_type_section (.node PLX_NODE_MODULE .zero
      (plx_parse_source
        "func f(a: s32, b: u64) -> f64 { return 1; } const c = 1; func g() -> u8 { return 2; }").children
      .NULL .NULL) =
      some (plx_write_leb128_ull 2 ++
        ((0x60 :: plx_write_leb128_ull 2 ++ [0x7F, 0x7E] ++ [1, 0x7C]) ++
          ((0x60 :: plx_write_leb128_ull 0 ++ [] ++ [1, 0x7F]) ++ []))) :=
  (plx_generate_wasm_type_function_sections .zero
    (plx_parse_source
      "func f(a: s32, b: u64) -> f64 { return 1; } const c = 1; func g() -> u8 { return 2; }").children
    .NULL .NULL [([0x7F, 0x7E], 0x7C), ([], 0x7F)] (by decide)).1

theorem fwrite_at_end (stream : plx_stream) (bytes : List Nat)
    (h : stream.pos = stream.content.length) :
    plx_fwrite stream bytes =
      { content := stream.content ++ bytes, pos := stream.content.length + bytes.length,
        readable := stream.readable } := by
  simp [plx_fwrite, h]

theorem copy_win32 (size : Nat) :
    ∀ in_stream out : plx_stream, in_stream.pos + size ≤ in_stream.content.length →
      out.pos = out.content.length →
      plx_copy_file_win32 in_stream out size =
        (true, { in_stream with pos := in_stream.pos + size },
          { out with content := out.content ++ (in_stream.content.drop in_stream.pos).take size
                     pos := out.content.length + size }) := by
  induction size using Nat.strong_induction_on with
  | _ size ih =>
    intro in_stream out hin hout
    rw [plx_copy_file_win32]
    by_cases h0 : size = 0
    · subst h0
      simp [← hout]
    · have hlen : ((in_stream.content.drop in_stream.pos).take (min size 1024)).length =
          min size 1024 := by
        rw [List.length_take, List.length_drop]
        omega
      have hpos : 0 < min size 1024 := by omega
      simp only [h0, if_false, plx_fread, hlen]
      rw [if_neg (by omega)]
      rw [ih (size - min size 1024) (by omega) _ _ (by simp only; omega)
        (by rw [fwrite_at_end _ _ hout]; simp [hlen])]
      rw [fwrite_at_end _ _ hout]
      simp only [Prod.mk.injEq, true_and, plx_stream.mk.injEq, and_true, hlen]
      refine ⟨by omega, ?_, by simp only [List.length_append, hlen]; omega⟩
      rw [List.append_assoc]
      congr 1
      rw [← List.drop_drop, ← List.take_add]
      congr 1
      omega

theorem copy_sendfile (in_stream out : plx_stream) (size : Nat) (hsize : size ≠ 0)
    (hout : out.pos = out.content.length) :
    plx_copy_file_sendfile in_stream out size =
      if out.readable then (true, in_stream, out) else (false, in_stream, out) := by
  rw [plx_copy_file_sendfile]
  have hread : (plx_fread out size).1 = [] := by
    simp [plx_fread, hout]
  have hread2 : (plx_fread out size).2 = out := by
    cases out
    simp only at hout
    simp [plx_fread, hout]
  have hw : plx_fwrite in_stream [] = in_stream := by
    simp [plx_fwrite]
  by_cases hr : out.readable = true
  · simp [plx_sendfile, hr, hread, hread2, hw, hsize]
  · simp [plx_sendfile, hr, hsize]

theorem section_win32 (id : Nat) (payload : List Nat) (tmp stream : plx_stream)
    (htmp : tmp.pos = 0) (hstream : stream.pos = stream.content.length) :
    plx_generate_wasm_section true id payload tmp stream =
      (true, { content := payload ++ tmp.content.drop payload.length, pos := payload.length,
               readable := tmp.readable },
        { content := stream.content ++ id :: plx_write_leb128_ull payload.length ++ payload,
          pos := (stream.content ++ id :: plx_write_leb128_ull payload.length ++ payload).length,
          readable := stream.readable }) := by
  have hw : plx_fwrite tmp payload =
      { content := payload ++ tmp.content.drop payload.length, pos := payload.length,
        readable := tmp.readable } := by
    simp [plx_fwrite, htmp]
  simp only [plx_generate_wasm_section, plx_copy_file, if_true, hw, plx_ftell, plx_fseek_set,
    plx_wasm_write_section_header, plx_wasm_write_ull]
  rw [copy_win32 _ _ _ (by simp) (by rw [fwrite_at_end _ _ hstream]; simp)]
  rw [fwrite_at_end _ _ hstream]
  simp [List.take_left']
  omega

theorem section_sendfile (id : Nat) (payload : List Nat) (tmp stream : plx_stream)
    (htmp : tmp.pos = 0) (hstream : stream.pos = stream.content.length) :
    plx_generate_wasm_section false id payload tmp stream =
      (decide (payload = []) || stream.readable,
        { content := payload ++ tmp.content.drop payload.length, pos := 0,
          readable := tmp.readable },
        { content := stream.content ++ id :: plx_write_leb128_ull payload.length,
          pos := (stream.content ++ id :: plx_write_leb128_ull payload.length).length,
          readable := stream.readable }) := by
  have hw : plx_fwrite tmp payload =
      { content := payload ++ tmp.content.drop payload.length, pos := payload.length,
        readable := tmp.readable } := by
    simp [plx_fwrite, htmp]
  simp only [plx_generate_wasm_section, plx_copy_file, Bool.false_eq_true, if_false, hw,
    plx_ftell, plx_fseek_set, plx_wasm_write_section_header, plx_wasm_write_ull]
  rw [fwrite_at_end _ _ hstream]
  by_cases hp : payload = []
  · subst hp
    rw [plx_copy_file_sendfile]
    simp
  · rw [copy_sendfile _ _ _ (by simpa using hp) (by simp)]
    cases hr : stream.readable <;> simp [hp]

theorem wasm_type_section_module (module : plx_node) (types : List Nat)
    (h : plx_generate_wasm_type_section module = some types) :
    module.kind? = some PLX_NODE_MODULE ∧ types ≠ [] := by
  unfold plx_generate_wasm_type_section at h
  split at h
  · rename_i v c n ty
    simp only [Option.map_eq_some'] at h
    obtain ⟨t, _, e⟩ := h
    subst e
    refine ⟨rfl, ?_⟩
    have := ull_ne_nil (plx_wasm_type_count c)
    simp [plx_wasm_write_ull, this]
  · cases h

theorem wasm_function_section_ne_nil (module : plx_node) (functions : List Nat)
    (h : plx_generate_wasm_function_section module = some functions) : functions ≠ [] := by
  unfold plx_generate_wasm_function_section at h
  split at h
  · rename_i v c n ty
    simp only [Option.some.injEq] at h
    subst h
    have := ull_ne_nil (plx_wasm_type_count c)
    simp [plx_wasm_write_ull, this]
  · cases h

/-- C26: When the section generators write the payloads `types` and `functions`
for a module, `plx_generate_wasm` built with `_WIN32` appends to the stream the
preamble `00 61 73 6D 01 00 00 00` and the type, function and code sections, each
as its id (1, 3, 10), the LEB128 of the length of its payload and its payload
(the code section of a module is empty), and returns `true`.  Built without
`_WIN32` it calls `sendfile` with the descriptor of the temporary file as
destination and that of the output stream as source: no payload is copied, and
on a stream that is not open for reading it returns `false` after the header of
the type section. -/
theorem plx_generate_wasm_sections (module : plx_node) (stream : plx_stream)
    (types functions : List Nat) (hstream : stream.pos = stream.content.length)
    (ht : plx_generate_wasm_type_section module = some types)
    (hf : plx_generate_wasm_function_section module = some functions) :
    (plx_generate_wasm true module stream).map (fun r => (r.1, r.2.content)) =
      some (true, stream.content ++ [0, 0x61, 0x73, 0x6D, 1, 0, 0, 0] ++
        (1 :: plx_write_leb128_ull types.length ++ types) ++
        (3 :: plx_write_leb128_ull functions.length ++ functions) ++
        (10 :: plx_write_leb128_ull 0 ++ [])) ∧
    (plx_generate_wasm false module stream).map (fun r => (r.1, r.2.content)) =
      some (if stream.readable then
          (true, stream.content ++ [0, 0x61, 0x73, 0x6D, 1, 0, 0, 0] ++
            (1 :: plx_write_leb128_ull types.length) ++
            (3 :: plx_write_leb128_ull functions.length) ++ (10 :: plx_write_leb128_ull 0))
        else
          (false, stream.content ++ [0, 0x61, 0x73, 0x6D, 1, 0, 0, 0] ++
            (1 :: plx_write_leb128_ull types.length))) := by
  obtain ⟨hk, hne⟩ := wasm_type_section_module module types ht
  have hne2 := wasm_function_section_ne_nil module functions hf
  have hpre := fwrite_at_end stream plx_wasm_write_module_preamble hstream
  constructor
  · simp only [plx_generate_wasm, hk, ht, hf, hpre]
    rw [section_win32 _ _ _ _ rfl (by simp)]
    simp only [plx_fseek_set]
    rw [section_win32 _ _ _ _ rfl (by simp)]
    simp only [plx_fseek_set]
    rw [section_win32 _ _ _ _ rfl (by simp)]
    simp [plx_wasm_write_module_preamble, PLX_WASM_SECTION_TYPE, PLX_WASM_SECTION_FUNCTION,
      PLX_WASM_SECTION_CODE, plx_generate_wasm_code_module]
  · simp only [plx_generate_wasm, hk, ht, hf, hpre]
    rw [section_sendfile _ _ _ _ rfl (by simp)]
    cases hr : stream.readable with
    | false =>
      simp [hne, plx_wasm_write_module_preamble, PLX_WASM_SECTION_TYPE]
    | true =>
      simp only [Bool.or_true, plx_fseek_set]
      rw [section_sendfile _ _ _ _ rfl (by simp)]
      simp only [Bool.or_true, plx_fseek_set, hr]
      rw [section_sendfile _ _ _ _ rfl (by simp)]
      simp [plx_wasm_write_module_preamble, PLX_WASM_SECTION_TYPE, PLX_WASM_SECTION_FUNCTION,
        PLX_WASM_SECTION_CODE, plx_generate_wasm_code_module]

set_option maxRecDepth 1000000 in
/-- Witness for C26: the module of `func f(a: s32) -> s32 { return a; }` written
to a stream opened with `fopen(name, "wb")`; built without `_WIN32`,
`plx_generate_wasm` returns `false` and the file holds the preamble and
`01 06`. -/
theorem plx_generate_wasm_sections_witness :
    (plx_generate_wasm false (plx_parse_source "func f(a: s32) -> s32 { return a; }")
      plx_fopen_wb).map (fun r => (r.1, r.2.content)) =
      some (if plx_fopen_wb.readable then
          (true, plx_fopen_wb.content ++ [0, 0x61, 0x73, 0x6D, 1, 0, 0, 0] ++
            (1 :: plx_write_leb128_ull [1, 0x60, 1, 0x7F, 1, 0x7F].length) ++
            (3 :: plx_write_leb128_ull [1, 0].length) ++ (10 :: plx_write_leb128_ull 0))
        else
          (false, plx_fopen_wb.content ++ [0, 0x61, 0x73, 0x6D, 1, 0, 0, 0] ++
            (1 :: plx_write_leb128_ull [1, 0x60, 1, 0x7F, 1, 0x7F].length))) :=
  (plx_generate_wasm_sections (plx_parse_source "func f(a: s32) -> s32 { return a; }")
    plx_fopen_wb [1, 0x60, 1, 0x7F, 1, 0x7F] [1, 0] rfl
    (by
      have e : plx_parse_source "func f(a: s32) -> s32 { return a; }" =
          .node PLX_NODE_MODULE .zero
            (plx_parse_source "func f(a: s32) -> s32 { return a; }").children .NULL .NULL := by
        decide
      rw [e]
      have h := (wasm_sections_eq .zero
        (plx_parse_source "func f(a: s32) -> s32 { return a; }").children .NULL .NULL
        [([0x7F], 0x7F)] (by decide)).1
      rw [h]
      have e1 : plx_write_leb128_ull 1 = [1] := by rw [ull_unfold]; decide
      simp [e1])
    (by
      have e : plx_parse_source "func f(a: s32) -> s32 { return a; }" =
          .node PLX_NODE_MODULE .zero
            (plx_parse_source "func f(a: s32) -> s32 { return a; }").children .NULL .NULL := by
        decide
      rw [e]
      have h := (wasm_sections_eq .zero
        (plx_parse_source "func f(a: s32) -> s32 { return a; }").children .NULL .NULL
        [([0x7F], 0x7F)] (by decide)).2.2
      rw [h]
      have e1 : plx_write_leb128_ull 1 = [1] := by rw [ull_unfold]; decide
      have e0 : plx_write_leb128_ull 0 = [0] := by rw [ull_unfold]; decide
      have hl : (plx_func_defs
          (plx_parse_source "func f(a: s32) -> s32 { return a; }").children).length = 1 := by
        decide
      simp [hl, e1, e0, List.range_succ])).2

/-! ## `src/types.c` and `src/type_checker.c`

`plx_type_check` writes the member `type` of nodes and of symbol table entries.
A type is a pointer to a node; here it is the node pointed to, as it is when the
pointer is stored.  The checker changes no member of a node but `type`, and it
reads no member `type` through a type, so that a stored type behaves as the
pointer does.  The result of a call is the tree as the call leaves it, the
types of the entries and the returned `bool`.  The inner `none` says that the C
code reads through a null pointer, reads a pointer that `plx_extract_children`
has left uninitialised or calls `va_arg` without an argument; the outer `none`
says that the bound on the depth of calls and loop rounds was reached.  The
printing of diagnostics is not modelled. -/

/-- The test `node == NULL`. -/
def plx_node.is_null : plx_node → Bool
  | .NULL => true
  | .node _ _ _ _ _ => false

/-- The member `node->type`. -/
def plx_node.type : plx_node → plx_node
  | .NULL => .NULL
  | .node _ _ _ _ ty => ty

/-- The assignment `node->type = type`. -/
def plx_node.set_type : plx_node → plx_node → plx_node
  | .NULL, _ => .NULL
  | .node k v c n _, ty => .node k v c n ty

/-- `plx_is_sint_type`, on the kind of the type. -/
def plx_is_sint_type (kind : plx_node_kind) : Bool :=
  kind = PLX_NODE_S8_TYPE || kind = PLX_NODE_S16_TYPE || kind = PLX_NODE_S32_TYPE ||
  kind = PLX_NODE_S64_TYPE

/-- `plx_is_uint_type`, on the kind of the type. -/
def plx_is_uint_type (kind : plx_node_kind) : Bool :=
  kind = PLX_NODE_U8_TYPE || kind = PLX_NODE_U16_TYPE || kind = PLX_NODE_U32_TYPE ||
  kind = PLX_NODE_U64_TYPE

/-- `plx_is_int_type`, on the kind of the type. -/
def plx_is_int_type (kind : plx_node_kind) : Bool :=
  plx_is_sint_type kind || plx_is_uint_type kind

/-- `plx_is_float_type`, on the kind of the type. -/
def plx_is_float_type (kind : plx_node_kind) : Bool :=
  kind = PLX_NODE_F16_TYPE || kind = PLX_NODE_F32_TYPE || kind = PLX_NODE_F64_TYPE

/-- `plx_is_numeric_type`, on the kind of the type. -/
def plx_is_numeric_type (kind : plx_node_kind) : Bool :=
  plx_is_int_type kind || plx_is_float_type kind

/-- `plx_is_logical_type`, on the kind of the type. -/
def plx_is_logical_type (kind : plx_node_kind) : Bool :=
  plx_is_int_type kind || kind = PLX_NODE_BOOL_TYPE

/-- `plx_is_equality_type`, on the kind of the type. -/
def plx_is_equality_type (kind : plx_node_kind) : Bool :=
  plx_is_numeric_type kind || kind = PLX_NODE_BOOL_TYPE || kind = PLX_NODE_STRING_TYPE

/-- `plx_type_eq` on two nodes given as values: the test `type_a == type_b` of
equal pointers holds for two null pointers and is else left to the comparison
of the nodes, which returns `true` for a node and itself.  With `all` set it is
the loop `while (child_a != NULL && child_b != NULL)` of `plx_type_eq` from two
children on, with the `return` after it. -/
def plx_type_eq_from : Bool → plx_node → plx_node → Option Bool
  | false, .NULL, .NULL => some true
  | false, .NULL, .node _ _ _ _ _ => none
  | false, .node _ _ _ _ _, .NULL => none
  | true, .NULL, .NULL => some true
  | true, .NULL, .node _ _ _ _ _ => some false
  | true, .node _ _ _ _ _, .NULL => some false
  | all, .node ka va ca na tya, .node kb vb cb nb tyb =>
    let result : Option Bool :=
      if ka ≠ kb then some false
      else if ka = PLX_NODE_IDENTIFIER then
        some (decide ((plx_node.node ka va ca na tya).entry = (plx_node.node kb vb cb nb tyb).entry))
      else plx_type_eq_from true ca cb
    match all with
    | false => result
    | true =>
      match result with
      | none => none
      | some false => some false
      | some true => plx_type_eq_from true na nb

/-- The types of the symbol table entries that have one: the member `type` of
the entry at an address, newest first. -/
abbrev plx_type_table := List (Nat × plx_node)

/-- The member `entry->type`, `NULL` as `plx_declare_symbol` leaves it. -/
def plx_entry_type (types : plx_type_table) (entry : Nat) : plx_node :=
  match types.lookup entry with
  | some type => type
  | none => .NULL

/-- What a call of the type checker leaves: the tree, the types of the entries
and the returned `bool`; `none` when the call does not return normally. -/
abbrev plx_check_result := Option (plx_node × plx_type_table × Bool)

/-- `plx_set_identifier_type`.  The member `entry` of the union is null in a
node that holds no identifier, and shares its memory with `str` in a string
node. -/
def plx_set_identifier_type (identifier type : plx_node) (types : plx_type_table) :
    Option (plx_node × plx_type_table) :=
  match identifier with
  | .NULL => none
  | .node k v c n _ =>
    match v with
    | .string _ _ => none
    | .identifier _ (some entry) => some (.node k v c n type, (entry, type) :: types)
    | _ => some (.node k v c n type, types)

/-- The test `x->type != NULL && !is_type(x->type)` on the type of an operand. -/
def plx_unexpected_type (is_type : plx_node_kind → Bool) (type : plx_node) : Bool :=
  match type.kind? with
  | none => false
  | some kind => !is_type kind

/-- `plx_copy_node`. -/
def plx_copy_node (node : plx_node) : plx_node := node.set_next .NULL

/-- The second loop of the case `PLX_NODE_FUNC_DEF`: the copies of the types of
the parameters, from a parameter on. -/
def plx_copy_param_types : plx_node → Option plx_node
  | .NULL => some .NULL
  | .node _ _ c n _ =>
    match c with
    | .node _ _ _ (.node kt vt ct .NULL tyt) _ =>
      (plx_copy_param_types n).map fun rest => .node kt vt ct rest tyt
    | _ => none

/-- What the cases of the binary operators differ in: the test on the types of
the operands, whether `plx_type_eq` is called on the operands themselves
(`plx_type_eq(left, right)`) or on their types, whether the type of the node is
set to `bool_type` at the start, and whether it is set to the type of the left
operand at the end. -/
structure plx_binary_rule where
  is_type : plx_node_kind → Bool
  compares_operands : Bool
  bool_type : Bool
  left_type : Bool

/-- The cases `PLX_NODE_AND` to `PLX_NODE_RSHIFT` of `plx_type_check`. -/
def plx_binary_rule_of : plx_node_kind → Option plx_binary_rule
  | PLX_NODE_AND | PLX_NODE_OR | PLX_NODE_XOR => some ⟨plx_is_logical_type, true, false, true⟩
  | PLX_NODE_EQ | PLX_NODE_NEQ => some ⟨plx_is_equality_type, true, true, false⟩
  | PLX_NODE_LTE | PLX_NODE_LT | PLX_NODE_GTE | PLX_NODE_GT =>
    some ⟨plx_is_numeric_type, false, true, false⟩
  | PLX_NODE_ADD | PLX_NODE_SUB | PLX_NODE_MUL | PLX_NODE_DIV =>
    some ⟨plx_is_numeric_type, false, false, true⟩
  | PLX_NODE_REM | PLX_NODE_LSHIFT | PLX_NODE_RSHIFT => some ⟨plx_is_int_type, false, false, true⟩
  | _ => none

/-- The type `*_type` that `plx_type_check` gives a literal of a kind. -/
def plx_literal_type : plx_node_kind → Option plx_node_kind
  | PLX_NODE_S8 => some PLX_NODE_S8_TYPE
  | PLX_NODE_S16 => some PLX_NODE_S16_TYPE
  | PLX_NODE_S32 => some PLX_NODE_S32_TYPE
  | PLX_NODE_S64 => some PLX_NODE_S64_TYPE
  | PLX_NODE_U8 => some PLX_NODE_U8_TYPE
  | PLX_NODE_U16 => some PLX_NODE_U16_TYPE
  | PLX_NODE_U32 => some PLX_NODE_U32_TYPE
  | PLX_NODE_U64 => some PLX_NODE_U64_TYPE
  | PLX_NODE_F16 => some PLX_NODE_F16_TYPE
  | PLX_NODE_F32 => some PLX_NODE_F32_TYPE
  | PLX_NODE_F64 => some PLX_NODE_F64_TYPE
  | PLX_NODE_BOOL => some PLX_NODE_BOOL_TYPE
  | PLX_NODE_STRING => some PLX_NODE_STRING_TYPE
  | _ => none

/-- A call that may not return normally, followed by the rest of the
function. -/
def plx_check_bind {α : Type} (r : Option plx_check_result)
    (rest : plx_node → plx_type_table → Bool → Option (Option α)) : Option (Option α) :=
  match r with
  | none => none
  | some none => some none
  | some (some (x, types, b)) => rest x types b

/-- What a case of `plx_type_check` leaves of its node: the children and the
type, which are all it writes of the node, the types of the entries and the
value of `result`. -/
abbrev plx_check_update := Option (plx_node × plx_node × plx_type_table × Bool)

/-- The node of a call of `plx_type_check` with the children and the type the
call leaves. -/
def plx_check_node (k : plx_node_kind) (v : plx_node_value) (n : plx_node)
    (update : Option plx_check_update) : Option plx_check_result :=
  match update with
  | none => none
  | some none => some none
  | some (some (c, ty, types, result)) => some (some (.node k v c n ty, types, result))

/-- The loop `while (arg != NULL && param_type != NULL) { arg = arg->next;
param_type = param_type->next; }` of the case `PLX_NODE_CALL`: the two pointers
after it. -/
def plx_skip_args : plx_node → plx_node → plx_node × plx_node
  | .node _ _ _ na _, .node _ _ _ np _ => plx_skip_args na np
  | arg, param_type => (arg, param_type)

/-- The last loop of the case `PLX_NODE_CALL`, which advances neither `arg` nor
`param_type`, with the value of `result`. -/
def plx_check_arg_types : Nat → plx_node → plx_node → Bool → Option (Option Bool)
  | 0, _, _, _ => none
  | fuel + 1, arg, param_type, result =>
    match arg, param_type with
    | .node ka va ca na tya, .node kp vp cp np typ =>
      if !tya.is_null then
        match plx_type_eq_from false tya (.node kp vp cp np typ) with
        | none => some none
        | some eq =>
          plx_check_arg_types fuel (.node ka va ca na tya) (.node kp vp cp np typ) (result && eq)
      else plx_check_arg_types fuel (.node ka va ca na tya) (.node kp vp cp np typ) result
    | _, _ => some (some result)

mutual

/-- `plx_type_check`. -/
def plx_type_check :
    Nat → plx_node → plx_node → plx_type_table → Option plx_check_result
  | 0, _, _, _ => none
  | _ + 1, .NULL, _, _ => some none
  | fuel + 1, .node k v c n ty, return_type, types =>
    plx_check_node k v n
      (match k with
      | PLX_NODE_CONST_DEF | PLX_NODE_VAR_DEF =>
        match c with
        | .node kn vn cn (.node kv vv cv .NULL tyv) tyn =>
          plx_check_bind (plx_type_check fuel (.node kv vv cv .NULL tyv) return_type types)
            fun value types r =>
              match plx_set_identifier_type (.node kn vn cn (.node kv vv cv .NULL tyv) tyn)
                  value.type types with
              | none => some none
              | some (name, types) => some (some (name.set_next value, ty, types, r))
        | _ => some none
      | PLX_NODE_VAR_DECL =>
        match c with
        | .node kn vn cn (.node kt vt ct .NULL tyt) tyn =>
          plx_check_bind (plx_type_check fuel (.node kt vt ct .NULL tyt) return_type types)
            fun type types r =>
              match plx_set_identifier_type (.node kn vn cn (.node kt vt ct .NULL tyt) tyn)
                  type types with
              | none => some none
              | some (name, types) => some (some (name.set_next type, ty, types, r))
        | _ => some none
      | PLX_NODE_STRUCT_DEF => some (some (c, ty, types, true))
      | PLX_NODE_FUNC_DEF =>
        match c with
        | .node kn vn cn (.node kp vp cp (.node kr vr cr (.node kb vb cb .NULL tyb) tyr) typ)
            tyn =>
          plx_check_bind
            (plx_type_check_params fuel cp (.node kr vr cr (.node kb vb cb .NULL tyb) tyr) types)
            fun cp types r1 =>
              plx_check_bind
                (plx_type_check fuel (.node kr vr cr (.node kb vb cb .NULL tyb) tyr)
                  (.node kr vr cr (.node kb vb cb .NULL tyb) tyr) types)
                fun return_type types r2 =>
                  plx_check_bind
                    (plx_type_check fuel (.node kb vb cb .NULL tyb) return_type types)
                    fun body types r3 =>
                      match plx_copy_param_types cp with
                      | none => some none
                      | some param_types =>
                        match plx_set_identifier_type
                            (.node kn vn cn
                              (.node kp vp cp (.node kr vr cr (.node kb vb cb .NULL tyb) tyr) typ)
                              tyn)
                            (.node PLX_NODE_FUNC_TYPE .zero
                              (.node PLX_NODE_OTHER .zero param_types (return_type.set_next body)
                                .NULL)
                              .NULL .NULL)
                            types with
                        | none => some none
                        | some (name, types) =>
                          some (some (name.set_next ((plx_node.node kp vp cp .NULL typ).set_next
                              (return_type.set_next body)),
                            ty, types, r1 && r2 && r3))
        | _ => some none
      | PLX_NODE_NOP => some (some (c, ty, types, true))
      | PLX_NODE_BLOCK =>
        plx_check_bind (plx_type_check_stmts fuel c return_type types) fun c types r =>
          some (some (c, ty, types, r))
      | PLX_NODE_IF_THEN_ELSE =>
        match c with
        | .node kc vc cc (.node kt vt ct (.node ke ve ce .NULL tye) tyt) tyc =>
          plx_check_bind
            (plx_type_check fuel
              (.node kc vc cc (.node kt vt ct (.node ke ve ce .NULL tye) tyt) tyc) return_type
              types)
            fun cond types r1 =>
              plx_check_bind
                (plx_type_check fuel (.node kt vt ct (.node ke ve ce .NULL tye) tyt) return_type
                  types)
                fun then_block types r2 =>
                  plx_check_bind
                    (plx_type_check fuel (.node ke ve ce .NULL tye) return_type types)
                    fun els types r3 =>
                      some (some (cond.set_next (then_block.set_next els), ty, types,
                        r1 &&
                          !plx_unexpected_type (fun kind => kind = PLX_NODE_BOOL_TYPE) cond.type
                          && r2 && r3))
        | _ => some none
      | PLX_NODE_WHILE_LOOP =>
        match c with
        | .node kc vc cc (.node kb vb cb .NULL tyb) tyc =>
          plx_check_bind
            (plx_type_check fuel (.node kc vc cc (.node kb vb cb .NULL tyb) tyc) return_type
              types)
            fun cond types r1 =>
              plx_check_bind (plx_type_check fuel (.node kb vb cb .NULL tyb) return_type types)
                fun body types r2 =>
                  some (some (cond.set_next body, ty, types,
                    r1 && !plx_unexpected_type (fun kind => kind = PLX_NODE_BOOL_TYPE) cond.type
                      && r2))
        | _ => some none
      | PLX_NODE_RETURN =>
        match c with
        | .node kv vv cv .NULL tyv =>
          plx_check_bind (plx_type_check fuel (.node kv vv cv .NULL tyv) return_type types)
            fun return_value types r =>
              if return_value.type.is_null then some (some (return_value, ty, types, r))
              else
                match plx_type_eq_from false return_value.type return_type with
                | none => some none
                | some eq => some (some (return_value, ty, types, r && eq))
        | _ => some none
      | PLX_NODE_ASSIGN =>
        match c with
        | .node ka va ca (.node kv vv cv .NULL tyv) tya =>
          plx_check_bind
            (plx_type_check fuel (.node ka va ca (.node kv vv cv .NULL tyv) tya) return_type
              types)
            fun assignee types r1 =>
              plx_check_bind (plx_type_check fuel (.node kv vv cv .NULL tyv) return_type types)
                fun value types r2 =>
                  if assignee.type.is_null || value.type.is_null then
                    some (some (assignee.set_next value, ty, types, r1 && r2))
                  else
                    match plx_type_eq_from false assignee.type value.type with
                    | none => some none
                    | some eq => some (some (assignee.set_next value, ty, types, r1 && r2 && eq))
        | _ => some none
      | PLX_NODE_ADD_ASSIGN | PLX_NODE_SUB_ASSIGN | PLX_NODE_MUL_ASSIGN | PLX_NODE_DIV_ASSIGN =>
        match c with
        | .node ka va ca (.node kv vv cv .NULL tyv) tya =>
          plx_check_bind
            (plx_type_check fuel (.node ka va ca (.node kv vv cv .NULL tyv) tya) return_type
              types)
            fun assignee types r1 =>
              if plx_unexpected_type plx_is_numeric_type assignee.type then
                some (some (assignee.set_next (.node kv vv cv .NULL tyv), ty, types, false))
              else
                plx_check_bind (plx_type_check fuel (.node kv vv cv .NULL tyv) return_type types)
                  fun value types r2 =>
                    if plx_unexpected_type plx_is_numeric_type value.type then
                      some (some (assignee.set_next value, ty, types, false))
                    else
                      match plx_type_eq_from false assignee.type value.type with
                      | none => some none
                      | some eq =>
                        some (some (assignee.set_next value, ty, types, r1 && r2 && eq))
        | _ => some none
      | PLX_NODE_REM_ASSIGN | PLX_NODE_LSHIFT_ASSIGN | PLX_NODE_RSHIFT_ASSIGN =>
        match c with
        | .node ka va ca (.node kv vv cv .NULL tyv) tya =>
          plx_check_bind
            (plx_type_check fuel (.node ka va ca (.node kv vv cv .NULL tyv) tya) return_type
              types)
            fun assignee types r1 =>
              if plx_unexpected_type plx_is_int_type assignee.type then
                some (some (assignee.set_next (.node kv vv cv .NULL tyv), ty, types, false))
              else
                plx_check_bind (plx_type_check fuel (.node kv vv cv .NULL tyv) return_type types)
                  fun value types r2 =>
                    some (some (assignee.set_next value, ty, types,
                      r1 && r2 && !plx_unexpected_type plx_is_int_type value.type))
        | _ => some none
      | PLX_NODE_AND | PLX_NODE_OR | PLX_NODE_XOR | PLX_NODE_EQ | PLX_NODE_NEQ | PLX_NODE_LTE
      | PLX_NODE_LT | PLX_NODE_GTE | PLX_NODE_GT | PLX_NODE_ADD | PLX_NODE_SUB | PLX_NODE_MUL
      | PLX_NODE_DIV | PLX_NODE_REM | PLX_NODE_LSHIFT | PLX_NODE_RSHIFT =>
        match plx_binary_rule_of k, c with
        | some rule, .node kl vl cl (.node kr vr cr .NULL tyr) tyl =>
          plx_check_bind
            (plx_type_check fuel (.node kl vl cl (.node kr vr cr .NULL tyr) tyl) return_type
              types)
            fun left types r1 =>
              if plx_unexpected_type rule.is_type left.type then
                some (some (left.set_next (.node kr vr cr .NULL tyr),
                  if rule.bool_type then plx_new_node PLX_NODE_BOOL_TYPE else ty, types, false))
              else
                plx_check_bind (plx_type_check fuel (.node kr vr cr .NULL tyr) return_type types)
                  fun right types r2 =>
                    if plx_unexpected_type rule.is_type right.type then
                      some (some (left.set_next right,
                        if rule.bool_type then plx_new_node PLX_NODE_BOOL_TYPE else ty, types,
                        false))
                    else
                      match (if rule.compares_operands then
                          plx_type_eq_from false (left.set_next right) right
                        else plx_type_eq_from false left.type right.type) with
                      | none => some none
                      | some false =>
                        some (some (left.set_next right,
                          if rule.bool_type then plx_new_node PLX_NODE_BOOL_TYPE else ty, types,
                          false))
                      | some true =>
                        some (some (left.set_next right,
                          if rule.bool_type then plx_new_node PLX_NODE_BOOL_TYPE
                          else if rule.left_type && !left.type.is_null && !right.type.is_null
                            then left.type
                          else ty, types, r1 && r2))
        | _, _ => some none
      | PLX_NODE_NOT | PLX_NODE_NEG =>
        match c with
        | .node ko vo co .NULL tyo =>
          plx_check_bind (plx_type_check fuel (.node ko vo co .NULL tyo) return_type types)
            fun operand types r =>
              if plx_unexpected_type
                  (if k = PLX_NODE_NOT then plx_is_logical_type else plx_is_numeric_type)
                  operand.type then
                some (some (operand, ty, types, false))
              else some (some (operand, operand.type, types, r))
        | _ => some none
      | PLX_NODE_REF =>
        match c with
        | .node ko vo co .NULL tyo =>
          plx_check_bind (plx_type_check fuel (.node ko vo co .NULL tyo) return_type types)
            fun operand types r =>
              if operand.type.is_null then some (some (operand, ty, types, r))
              else
                some (some (operand,
                  .node PLX_NODE_REF_TYPE .zero (plx_copy_node operand.type) .NULL .NULL, types,
                  r))
        | _ => some none
      | PLX_NODE_DEREF =>
        match c with
        | .node ko vo co .NULL tyo =>
          plx_check_bind (plx_type_check fuel (.node ko vo co .NULL tyo) return_type types)
            fun operand types r =>
              if plx_unexpected_type (fun kind => kind = PLX_NODE_REF_TYPE) operand.type then
                some (some (operand, ty, types, false))
              else if operand.type.is_null then some none
              else some (some (operand, operand.type.children, types, r))
        | _ => some none
      | PLX_NODE_CALL =>
        match c with
        | .node kf vf cf (.node ka va ca .NULL tya) tyf =>
          plx_check_bind
            (plx_type_check fuel (.node kf vf cf (.node ka va ca .NULL tya) tyf) return_type
              types)
            fun func types r1 =>
              if plx_unexpected_type (fun kind => kind = PLX_NODE_FUNC_TYPE) func.type then
                some (some (func.set_next (.node ka va ca .NULL tya), ty, types, false))
              else
                match func.type.children with
                | .node _ _ cp (.node kr vr cr .NULL tyr) _ =>
                  plx_check_bind (plx_type_check_each fuel ca (.node kr vr cr .NULL tyr) types)
                    fun ca types r2 =>
                      if !(plx_skip_args ca cp).2.is_null then
                        some (some (func.set_next (.node ka va ca .NULL tya),
                          .node kr vr cr .NULL tyr, types, false))
                      else if !(plx_skip_args ca cp).1.is_null then
                        some (some (func.set_next (.node ka va ca .NULL tya),
                          .node kr vr cr .NULL tyr, types, false))
                      else
                        match plx_check_arg_types fuel ca cp (r1 && r2) with
                        | none => none
                        | some none => some none
                        | some (some r) =>
                          some (some (func.set_next (.node ka va ca .NULL tya),
                            .node kr vr cr .NULL tyr, types, r))
                | _ => some none
        | _ => some none
      | PLX_NODE_INDEX =>
        match c with
        | .node kv vv cv (.node ki vi ci .NULL tyi) tyv =>
          plx_check_bind
            (plx_type_check fuel (.node kv vv cv (.node ki vi ci .NULL tyi) tyv) return_type
              types)
            fun value types r1 =>
              plx_check_bind (plx_type_check fuel (.node ki vi ci .NULL tyi) return_type types)
                fun index types r2 =>
                  some (some (value.set_next index,
                    if value.type.kind? = some PLX_NODE_ARRAY_TYPE ∨
                        value.type.kind? = some PLX_NODE_SLICE_TYPE then value.type.children
                    else ty,
                    types,
                    r1 && !plx_unexpected_type
                        (fun kind => kind = PLX_NODE_ARRAY_TYPE || kind = PLX_NODE_SLICE_TYPE)
                        value.type
                      && r2 && !plx_unexpected_type plx_is_int_type index.type))
        | _ => some none
      | PLX_NODE_SLICE =>
        match c with
        | .node kv vv cv (.node ks vs cs (.node ke ve ce .NULL tye) tys) tyv =>
          plx_check_bind
            (plx_type_check fuel
              (.node kv vv cv (.node ks vs cs (.node ke ve ce .NULL tye) tys) tyv) return_type
              types)
            fun value types r1 =>
              plx_check_bind
                (plx_type_check fuel (.node ks vs cs (.node ke ve ce .NULL tye) tys) return_type
                  types)
                fun start types r2 =>
                  plx_check_bind
                    (plx_type_check fuel (.node ke ve ce .NULL tye) return_type types)
                    fun end_index types r3 =>
                      some (some (value.set_next (start.set_next end_index),
                        if value.type.kind? = some PLX_NODE_ARRAY_TYPE ∨
                            value.type.kind? = some PLX_NODE_SLICE_TYPE then value.type.children
                        else ty,
                        types,
                        r1 && !plx_unexpected_type
                            (fun kind => kind = PLX_NODE_ARRAY_TYPE || kind = PLX_NODE_SLICE_TYPE)
                            value.type
                          && r2 && !plx_unexpected_type plx_is_int_type start.type
                          && r3 && !plx_unexpected_type plx_is_int_type end_index.type))
        | _ => some none
      | PLX_NODE_FIELD =>
        match c with
        | .node kv vv cv (.node kf vf cf .NULL tyf) tyv =>
          plx_check_bind
            (plx_type_check fuel (.node kv vv cv (.node kf vf cf .NULL tyf) tyv) return_type
              types)
            fun value types r => some (some (value, ty, types, r))
        | _ => some none
      | PLX_NODE_IDENTIFIER =>
        match (plx_node.node k v c n ty).entry with
        | some entry => some (some (c, plx_entry_type types entry, types, true))
        | none => some (some (c, ty, types, true))
      | PLX_NODE_S8 | PLX_NODE_S16 | PLX_NODE_S32 | PLX_NODE_S64 | PLX_NODE_U8 | PLX_NODE_U16
      | PLX_NODE_U32 | PLX_NODE_U64 | PLX_NODE_F16 | PLX_NODE_F32 | PLX_NODE_F64 | PLX_NODE_BOOL
      | PLX_NODE_STRING =>
        match plx_literal_type k with
        | some type => some (some (c, plx_new_node type, types, true))
        | none => some none
      | _ =>
        plx_check_bind (plx_type_check_each fuel c return_type types) fun c types r =>
          some (some (c, ty, types, r)))

/-- The loops `for (child = ...; child != NULL; child = child->next)` that call
`plx_type_check` on each child, from a child on; the `bool` tells whether every
call returned `true`. -/
def plx_type_check_each :
    Nat → plx_node → plx_node → plx_type_table → Option plx_check_result
  | 0, _, _, _ => none
  | _ + 1, .NULL, _, types => some (some (.NULL, types, true))
  | fuel + 1, .node k v c n ty, return_type, types =>
    plx_check_bind (plx_type_check fuel (.node k v c n ty) return_type types)
      fun child types r1 =>
        plx_check_bind (plx_type_check_each fuel n return_type types) fun n types r2 =>
          some (some (child.set_next n, types, r1 && r2))

/-- The loop of the case `PLX_NODE_BLOCK`, from a statement on. -/
def plx_type_check_stmts :
    Nat → plx_node → plx_node → plx_type_table → Option plx_check_result
  | 0, _, _, _ => none
  | _ + 1, .NULL, _, types => some (some (.NULL, types, true))
  | fuel + 1, .node k v c n ty, return_type, types =>
    plx_check_bind (plx_type_check fuel (.node k v c n ty) return_type types)
      fun stmt types r1 =>
        plx_check_bind (plx_type_check_stmts fuel n return_type types) fun n types r2 =>
          some (some (stmt.set_next n, types,
            r1 && !plx_unexpected_type (fun kind => kind = PLX_NODE_VOID_TYPE) stmt.type && r2))

/-- The first loop of the case `PLX_NODE_FUNC_DEF`, from a parameter on. -/
def plx_type_check_params :
    Nat → plx_node → plx_node → plx_type_table → Option plx_check_result
  | 0, _, _, _ => none
  | _ + 1, .NULL, _, types => some (some (.NULL, types, true))
  | fuel + 1, .node k v c n ty, return_type, types =>
    match c with
    | .node kn vn cn (.node kt vt ct .NULL tyt) tyn =>
      plx_check_bind (plx_type_check fuel (.node kt vt ct .NULL tyt) return_type types)
        fun param_type types r1 =>
          match plx_set_identifier_type (.node kn vn cn (.node kt vt ct .NULL tyt) tyn)
              param_type types with
          | none => some none
          | some (param_name, types) =>
            plx_check_bind (plx_type_check_params fuel n return_type types) fun n types r2 =>
              some (some (.node k v (param_name.set_next param_type) n ty, types, r1 && r2))
    | _ => some none

end

/-- The name resolution and the type check of `plx_compile` on the module of a
source text, each within the bound 40: the tree, the types of the entries and
the `bool` of `plx_type_check`. -/
def plx_type_check_source (source : String) : Option plx_check_result :=
  match plx_resolve_names 40 (plx_parse_source source) plx_resolver_init with
  | some (some (module, _, _)) => plx_type_check 40 module .NULL []
  | _ => none

theorem type_eq_from_node (all : Bool) (ka kb : plx_node_kind) (va vb : plx_node_value)
    (ca cb na nb tya tyb : plx_node) :
    plx_type_eq_from all (.node ka va ca na tya) (.node kb vb cb nb tyb) =
      match all with
      | false =>
        if ka ≠ kb then some false
        else if ka = PLX_NODE_IDENTIFIER then
          some (decide ((plx_node.node ka va ca na tya).entry =
            (plx_node.node kb vb cb nb tyb).entry))
        else plx_type_eq_from true ca cb
      | true =>
        match plx_type_eq_from false (.node ka va ca na tya) (.node kb vb cb nb tyb) with
        | none => none
        | some false => some false
        | some true => plx_type_eq_from true na nb := by
  cases all <;> rfl

theorem type_eq_from_refl (x : plx_node) :
    (x ≠ .NULL → plx_type_eq_from false x x = some true) ∧
    plx_type_eq_from true x x = some true := by
  induction x with
  | NULL => exact ⟨fun h => absurd rfl h, rfl⟩
  | node k v c n ty ihc ihn _ =>
    have h1 : plx_type_eq_from false (.node k v c n ty) (.node k v c n ty) = some true := by
      rw [type_eq_from_node]
      simp [ihc.2]
    refine ⟨fun _ => h1, ?_⟩
    rw [type_eq_from_node]
    simp only [h1]
    exact ihn.2

/-- `plx_type_eq_from` is `plx_type_eq` for every sound comparison of
pointers. -/
theorem type_eq_from_eq (same : plx_node → plx_node → Bool) (hs : plx_same_sound same)
    (a : plx_node) :
    ∀ b, plx_type_eq same a b = plx_type_eq_from false a b ∧
      plx_type_eq_children same a b = plx_type_eq_from true a b := by
  induction a with
  | NULL =>
    intro b
    cases b with
    | NULL => exact ⟨by rw [plx_type_eq]; rfl, by rw [type_eq_children_null]; rfl⟩
    | node k v c n ty =>
      exact ⟨by rw [plx_type_eq]; rfl,
        by rw [(type_eq_children_null_node same k v c n ty).1]; rfl⟩
  | node ka va ca na tya ihc ihn _ =>
    intro b
    cases b with
    | NULL =>
      exact ⟨by rw [plx_type_eq]; rfl,
        by rw [(type_eq_children_null_node same ka va ca na tya).2]; rfl⟩
    | node kb vb cb nb tyb =>
      have h1 : plx_type_eq same (.node ka va ca na tya) (.node kb vb cb nb tyb) =
          plx_type_eq_from false (.node ka va ca na tya) (.node kb vb cb nb tyb) := by
        by_cases e1 : same (.node ka va ca na tya) (.node kb vb cb nb tyb) = true
        · have := hs _ _ e1
          rw [← this, (type_eq_refl_aux same _).1 (node_ne_null _ _ _ _ _),
            (type_eq_from_refl _).1 (node_ne_null _ _ _ _ _)]
        · rw [type_eq_node, type_eq_from_node]
          simp only [e1, Bool.false_eq_true, if_false, (ihc cb).2]
      refine ⟨h1, ?_⟩
      rw [type_eq_children_node, h1, (ihn nb).2]
      exact (type_eq_from_node true _ _ _ _ _ _ _ _ _ _).symm

theorem check_bind_some {α : Type} (r : Option plx_check_result)
    (rest : plx_node → plx_type_table → Bool → Option (Option α))
    (out : α) (h : plx_check_bind r rest = some (some out)) :
    ∃ x types b, r = some (some (x, types, b)) ∧ rest x types b = some (some out) := by
  unfold plx_check_bind at h
  split at h
  · cases h
  · cases h
  · exact ⟨_, _, _, rfl, h⟩

theorem check_node_some (k : plx_node_kind) (v : plx_node_value) (n : plx_node)
    (update : Option plx_check_update) (out : plx_node × plx_type_table × Bool)
    (h : plx_check_node k v n update = some (some out)) :
    ∃ c ty, update = some (some (c, ty, out.2.1, out.2.2)) ∧ out.1 = .node k v c n ty := by
  unfold plx_check_node at h
  split at h
  · cases h
  · cases h
  · simp only [Option.some.injEq] at h
    subst h
    exact ⟨_, _, rfl, rfl⟩

theorem type_check_zero (node return_type : plx_node) (types : plx_type_table) :
    plx_type_check 0 node return_type types = none := by
  cases node <;> rfl

theorem type_check_succ (fuel : Nat) (k : plx_node_kind) (v : plx_node_value)
    (c n ty return_type : plx_node) (types : plx_type_table) :
    ∃ update, plx_type_check (fuel + 1) (.node k v c n ty) return_type types =
      plx_check_node k v n update :=
  ⟨_, rfl⟩

/-- A call of `plx_type_check` that returns leaves the kind, the union and the
next sibling of its node. -/
theorem type_check_node (fuel : Nat) (k : plx_node_kind) (v : plx_node_value)
    (c n ty return_type : plx_node) (types : plx_type_table)
    (out : plx_node × plx_type_table × Bool)
    (h : plx_type_check fuel (.node k v c n ty) return_type types = some (some out)) :
    ∃ c1 ty1, out.1 = .node k v c1 n ty1 := by
  cases fuel with
  | zero => rw [type_check_zero] at h; cases h
  | succ fuel =>
    obtain ⟨update, hu⟩ := type_check_succ fuel k v c n ty return_type types
    rw [hu] at h
    obtain ⟨c1, ty1, _, e⟩ := check_node_some _ _ _ _ _ h
    exact ⟨c1, ty1, e⟩

theorem check_each_ne_null (fuel : Nat) (k : plx_node_kind) (v : plx_node_value)
    (c n ty return_type : plx_node) (types : plx_type_table)
    (out : plx_node × plx_type_table × Bool)
    (h : plx_type_check_each fuel (.node k v c n ty) return_type types = some (some out)) :
    ∃ c1 n1 ty1, out.1 = .node k v c1 n1 ty1 := by
  cases fuel with
  | zero => cases h
  | succ fuel =>
    change plx_check_bind (plx_type_check fuel (.node k v c n ty) return_type types)
      (fun child types r1 =>
        plx_check_bind (plx_type_check_each fuel n return_type types) fun n types r2 =>
          some (some (child.set_next n, types, r1 && r2))) = some (some out) at h
    obtain ⟨child, t1, r1, h1, h2⟩ := check_bind_some _ _ _ h
    obtain ⟨n1, t2, r2, h3, h4⟩ := check_bind_some _ _ _ h2
    simp only [Option.some.injEq] at h4
    subst h4
    obtain ⟨c1, ty1, e⟩ := type_check_node _ _ _ _ _ _ _ _ _ h1
    simp only at e
    subst e
    exact ⟨c1, n1, ty1, rfl⟩

/-- The last loop of the case `PLX_NODE_CALL` does not return when it is
entered with an argument and a parameter type. -/
theorem check_arg_types_loops (fuel : Nat) (ka kp : plx_node_kind) (va vp : plx_node_value)
    (ca na tya cp np typ : plx_node) (result r : Bool) :
    plx_check_arg_types fuel (.node ka va ca na tya) (.node kp vp cp np typ) result ≠
      some (some r) := by
  induction fuel generalizing result with
  | zero => simp [plx_check_arg_types]
  | succ fuel ih =>
    rw [plx_check_arg_types]
    split
    · split
      · simp
      · exact ih _
    · exact ih _

theorem skip_args_null (k : plx_node_kind) (v : plx_node_value) (c n ty param_type : plx_node)
    (h1 : (plx_skip_args (.node k v c n ty) param_type).1.is_null = true) :
    ∃ kp vp cp np typ, param_type = .node kp vp cp np typ := by
  cases param_type with
  | NULL => simp [plx_skip_args, plx_node.is_null] at h1
  | node kp vp cp np typ => exact ⟨_, _, _, _, _, rfl⟩

theorem type_check_call_eq (fuel : Nat) (v : plx_node_value) (kf ka : plx_node_kind)
    (vf va : plx_node_value) (cf ca tya tyf n ty return_type : plx_node)
    (types : plx_type_table) :
    plx_type_check (fuel + 1)
        (.node PLX_NODE_CALL v (.node kf vf cf (.node ka va ca .NULL tya) tyf) n ty)
        return_type types =
      plx_check_node PLX_NODE_CALL v n
        (plx_check_bind
          (plx_type_check fuel (.node kf vf cf (.node ka va ca .NULL tya) tyf) return_type types)
          fun func types r1 =>
            if plx_unexpected_type (fun kind => kind = PLX_NODE_FUNC_TYPE) func.type then
              some (some (func.set_next (.node ka va ca .NULL tya), ty, types, false))
            else
              match func.type.children with
              | .node _ _ cp (.node kr vr cr .NULL tyr) _ =>
                plx_check_bind (plx_type_check_each fuel ca (.node kr vr cr .NULL tyr) types)
                  fun ca types r2 =>
                    if !(plx_skip_args ca cp).2.is_null then
                      some (some (func.set_next (.node ka va ca .NULL tya),
                        .node kr vr cr .NULL tyr, types, false))
                    else if !(plx_skip_args ca cp).1.is_null then
                      some (some (func.set_next (.node ka va ca .NULL tya),
                        .node kr vr cr .NULL tyr, types, false))
                    else
                      match plx_check_arg_types fuel ca cp (r1 && r2) with
                      | none => none
                      | some none => some none
                      | some (some r) =>
                        some (some (func.set_next (.node ka va ca .NULL tya),
                          .node kr vr cr .NULL tyr, types, r))
              | _ => some none) := by
  rfl

/-- A call of `plx_type_check` on a call node with an argument does not return
`true`. -/
theorem type_check_call_args (fuel : Nat) (v : plx_node_value) (kf ka k1 : plx_node_kind)
    (vf va v1 : plx_node_value) (cf c1 n1 ty1 tya tyf n ty return_type : plx_node)
    (types : plx_type_table) (out : plx_node × plx_type_table × Bool)
    (h : plx_type_check fuel
      (.node PLX_NODE_CALL v (.node kf vf cf (.node ka va (.node k1 v1 c1 n1 ty1) .NULL tya) tyf)
        n ty) return_type types = some (some out)) :
    out.2.2 = false := by
  cases fuel with
  | zero => rw [type_check_zero] at h; cases h
  | succ fuel =>
    rw [type_check_call_eq] at h
    obtain ⟨c2, ty2, h1, _⟩ := check_node_some _ _ _ _ _ h
    obtain ⟨func, t1, r1, _, h2⟩ := check_bind_some _ _ _ h1
    split at h2
    · simp only [Option.some.injEq, Prod.mk.injEq] at h2
      exact h2.2.2.2.symm
    · split at h2
      · rename_i kp vp cp kr vr cr tyr typ heq
        obtain ⟨ca, t2, r2, h3, h4⟩ := check_bind_some _ _ _ h2
        obtain ⟨c3, n3, ty3, e⟩ := check_each_ne_null _ _ _ _ _ _ _ _ _ h3
        simp only at e
        subst e
        split at h4
        · simp only [Option.some.injEq, Prod.mk.injEq] at h4
          exact h4.2.2.2.symm
        · split at h4
          · simp only [Option.some.injEq, Prod.mk.injEq] at h4
            exact h4.2.2.2.symm
          · rename_i hs2 hs1
            simp only [Bool.not_eq_true, Bool.not_eq_false', Bool.not_eq_eq_eq_not,
              Bool.not_false, Bool.not_true] at hs1
            obtain ⟨kq, vq, cq, nq, tyq, e⟩ := skip_args_null _ _ _ _ _ _ (by simpa using hs1)
            subst e
            split at h4
            · cases h4
            · cases h4
            · rename_i r hr
              exact absurd hr (check_arg_types_loops _ _ _ _ _ _ _ _ _ _ _ _ _)
      · cases h2

theorem type_check_return_eq (fuel : Nat) (v : plx_node_value) (kv : plx_node_kind)
    (vv : plx_node_value) (cv tyv n ty return_type : plx_node) (types : plx_type_table) :
    plx_type_check (fuel + 1) (.node PLX_NODE_RETURN v (.node kv vv cv .NULL tyv) n ty)
        return_type types =
      plx_check_node PLX_NODE_RETURN v n
        (plx_check_bind (plx_type_check fuel (.node kv vv cv .NULL tyv) return_type types)
          fun return_value types r =>
            if return_value.type.is_null then some (some (return_value, ty, types, r))
            else
              match plx_type_eq_from false return_value.type return_type with
              | none => some none
              | some eq => some (some (return_value, ty, types, r && eq))) := by
  rfl

theorem type_check_logical_eq (fuel : Nat) (k : plx_node_kind)
    (hk : k = PLX_NODE_AND ∨ k = PLX_NODE_OR ∨ k = PLX_NODE_XOR) (v : plx_node_value)
    (kl kr : plx_node_kind) (vl vr : plx_node_value) (cl cr tyr tyl n ty return_type : plx_node)
    (types : plx_type_table) :
    plx_type_check (fuel + 1) (.node k v (.node kl vl cl (.node kr vr cr .NULL tyr) tyl) n ty)
        return_type types =
      plx_check_node k v n
        (plx_check_bind
          (plx_type_check fuel (.node kl vl cl (.node kr vr cr .NULL tyr) tyl) return_type types)
          fun left types r1 =>
            if plx_unexpected_type plx_is_logical_type left.type then
              some (some (left.set_next (.node kr vr cr .NULL tyr), ty, types, false))
            else
              plx_check_bind (plx_type_check fuel (.node kr vr cr .NULL tyr) return_type types)
                fun right types r2 =>
                  if plx_unexpected_type plx_is_logical_type right.type then
                    some (some (left.set_next right, ty, types, false))
                  else
                    match plx_type_eq_from false (left.set_next right) right with
                    | none => some none
                    | some false => some (some (left.set_next right, ty, types, false))
                    | some true =>
                      some (some (left.set_next right,
                        if true && !left.type.is_null && !right.type.is_null then left.type
                        else ty, types, r1 && r2))) := by
  rcases hk with e | e | e <;> subst e <;> rfl

/-- The `bool` of `plx_type_check` on the module of a source text. -/
def plx_type_check_bool (source : String) : Option (Option Bool) :=
  (plx_type_check_source source).map fun r => r.map fun out => out.2.2

set_option maxRecDepth 1000000 in
/-- C21: When the call of `plx_type_check` on the value of a return statement
returns `r`, the call on the return statement returns `r` if the value is left
without a type, and else `r && plx_type_eq(value->type, return_type)`: it
reports a mismatch exactly when the type of the value is not `plx_type_eq` to
the return type.  For a return statement without a value
`plx_extract_children` stores nothing in `return_value`, and the test
`return_value == NULL` reads an uninitialised pointer.  The module of
`func g() -> s32 { return true; }` fails the type check, that of
`func g() -> s32 { return 1; }` passes it, and the check of
`func g() { return; }` reads the uninitialised pointer. -/
theorem plx_type_check_return (same : plx_node → plx_node → Bool) (hs : plx_same_sound same)
    (fuel : Nat) (v : plx_node_value) (kv : plx_node_kind) (vv : plx_node_value)
    (cv tyv n ty return_type : plx_node) (types : plx_type_table)
    (value : plx_node) (types1 : plx_type_table) (r : Bool)
    (hvalue : plx_type_check fuel (.node kv vv cv .NULL tyv) return_type types =
      some (some (value, types1, r))) :
    (value.type = .NULL →
      plx_type_check (fuel + 1) (.node PLX_NODE_RETURN v (.node kv vv cv .NULL tyv) n ty)
        return_type types = some (some (.node PLX_NODE_RETURN v value n ty, types1, r))) ∧
    (value.type ≠ .NULL →
      plx_type_check (fuel + 1) (.node PLX_NODE_RETURN v (.node kv vv cv .NULL tyv) n ty)
        return_type types =
        match plx_type_eq same value.type return_type with
        | none => some none
        | some eq => some (some (.node PLX_NODE_RETURN v value n ty, types1, r && eq))) ∧
    plx_type_check (fuel + 1) (.node PLX_NODE_RETURN v .NULL n ty) return_type types =
      some none ∧
    plx_type_check_bool "func g() -> s32 { return true; }" = some (some false) ∧
    plx_type_check_bool "func g() -> s32 { return 1; }" = some (some true) ∧
    plx_type_check_source "func g() { return; }" = some none := by
  refine ⟨fun h => ?_, fun h => ?_, rfl, by decide, by decide, by decide⟩
  · rw [type_check_return_eq, hvalue]
    simp [plx_check_bind, plx_check_node, h, plx_node.is_null]
  · rw [type_check_return_eq, hvalue, (type_eq_from_eq same hs _ _).1]
    have hn : value.type.is_null = false := by
      cases hv : value.type with
      | NULL => exact absurd hv h
      | node _ _ _ _ _ => rfl
    simp only [plx_check_bind, hn, Bool.false_eq_true, if_false]
    cases plx_type_eq_from false value.type return_type <;> rfl

set_option maxRecDepth 1000000 in
/-- Witness for C21: the statement `return true;` in a function that returns
`s32`. -/
theorem plx_type_check_return_witness :
    plx_type_check 2
      (.node PLX_NODE_RETURN .zero (.node PLX_NODE_BOOL (.b true) .NULL .NULL .NULL) .NULL .NULL)
      (plx_new_node PLX_NODE_S32_TYPE) [] =
      match plx_type_eq (fun _ _ => false) (plx_new_node PLX_NODE_BOOL_TYPE)
        (plx_new_node PLX_NODE_S32_TYPE) with
      | none => some none
      | some eq =>
        some (some (.node PLX_NODE_RETURN .zero
          (.node PLX_NODE_BOOL (.b true) .NULL .NULL (plx_new_node PLX_NODE_BOOL_TYPE))
          .NULL .NULL, [], true && eq)) :=
  (plx_type_check_return (fun _ _ => false) (fun _ _ h => by cases h) 1 .zero PLX_NODE_BOOL
    (.b true) .NULL .NULL .NULL .NULL (plx_new_node PLX_NODE_S32_TYPE) []
    (.node PLX_NODE_BOOL (.b true) .NULL .NULL (plx_new_node PLX_NODE_BOOL_TYPE)) [] true
    (by decide)).2.1 (by decide)

set_option maxRecDepth 1000000 in
/-- C29: For an and, or or xor node whose operands are checked with the results
`r1` and `r2` and have types that are integer or bool types, `plx_type_check`
calls `plx_type_eq` on the two operand nodes, not on their types: it returns
`r1 && r2` and sets the type of the node to the type of the left operand when
the operand nodes are `plx_type_eq`, and it reports a mismatch when they are
not.  The modules of `return 1 and 2;` and `return a and a;` pass the type
check; those of `return a and b;` and `return a and 1;`, with `a` and `b` of type
`s32`, fail it. -/
theorem plx_type_check_logical (same : plx_node → plx_node → Bool) (hs : plx_same_sound same)
    (fuel : Nat) (k : plx_node_kind)
    (hk : k = PLX_NODE_AND ∨ k = PLX_NODE_OR ∨ k = PLX_NODE_XOR) (v : plx_node_value)
    (kl kr : plx_node_kind) (vl vr : plx_node_value) (cl cr tyr tyl n ty return_type : plx_node)
    (types : plx_type_table) (left right : plx_node) (types1 types2 : plx_type_table)
    (r1 r2 : Bool)
    (hleft : plx_type_check fuel (.node kl vl cl (.node kr vr cr .NULL tyr) tyl) return_type
      types = some (some (left, types1, r1)))
    (hleft_type : plx_unexpected_type plx_is_logical_type left.type = false)
    (hright : plx_type_check fuel (.node kr vr cr .NULL tyr) return_type types1 =
      some (some (right, types2, r2)))
    (hright_type : plx_unexpected_type plx_is_logical_type right.type = false) :
    plx_type_check (fuel + 1) (.node k v (.node kl vl cl (.node kr vr cr .NULL tyr) tyl) n ty)
        return_type types =
      (match plx_type_eq same (left.set_next right) right with
      | none => some none
      | some false => some (some (.node k v (left.set_next right) n ty, types2, false))
      | some true =>
        some (some (.node k v (left.set_next right) n
          (if !left.type.is_null && !right.type.is_null then left.type else ty),
          types2, r1 && r2))) ∧
    plx_type_check_bool "func g() -> s32 { return 1 and 2; }" = some (some true) ∧
    plx_type_check_bool "func g(a: s32) -> s32 { return a and a; }" = some (some true) ∧
    plx_type_check_bool "func g(a: s32, b: s32) -> s32 { return a and b; }" =
      some (some false) ∧
    plx_type_check_bool "func g(a: s32, b: s32) -> s32 { return a + b; }" = some (some true) ∧
    plx_type_check_bool "func g(a: s32) -> s32 { return a and 1; }" = some (some false) := by
  refine ⟨?_, by decide, by decide, by decide, by decide, by decide⟩
  rw [type_check_logical_eq _ _ hk, hleft, (type_eq_from_eq same hs _ _).1]
  simp only [plx_check_bind, hleft_type, Bool.false_eq_true, if_false, hright, hright_type]
  cases h : plx_type_eq_from false (left.set_next right) right with
  | none => rfl
  | some eq => cases eq <;> simp [plx_check_node]

set_option maxRecDepth 1000000 in
/-- Witness for C29: the node of `1 and 2`. -/
theorem plx_type_check_logical_witness :
    plx_type_check 2
      (.node PLX_NODE_AND .zero
        (.node PLX_NODE_S32 (.sint 1) .NULL (.node PLX_NODE_S32 (.sint 2) .NULL .NULL .NULL)
          .NULL) .NULL .NULL) .NULL [] =
      (match plx_type_eq (fun _ _ => false)
        ((plx_node.node PLX_NODE_S32 (.sint 1) .NULL
          (.node PLX_NODE_S32 (.sint 2) .NULL .NULL .NULL)
          (plx_new_node PLX_NODE_S32_TYPE)).set_next
          (.node PLX_NODE_S32 (.sint 2) .NULL .NULL (plx_new_node PLX_NODE_S32_TYPE)))
        (.node PLX_NODE_S32 (.sint 2) .NULL .NULL (plx_new_node PLX_NODE_S32_TYPE)) with
      | none => some none
      | some false =>
        some (some (.node PLX_NODE_AND .zero
          ((plx_node.node PLX_NODE_S32 (.sint 1) .NULL
            (.node PLX_NODE_S32 (.sint 2) .NULL .NULL .NULL)
            (plx_new_node PLX_NODE_S32_TYPE)).set_next
            (.node PLX_NODE_S32 (.sint 2) .NULL .NULL (plx_new_node PLX_NODE_S32_TYPE)))
          .NULL .NULL, [], false))
      | some true =>
        some (some (.node PLX_NODE_AND .zero
          ((plx_node.node PLX_NODE_S32 (.sint 1) .NULL
            (.node PLX_NODE_S32 (.sint 2) .NULL .NULL .NULL)
            (plx_new_node PLX_NODE_S32_TYPE)).set_next
            (.node PLX_NODE_S32 (.sint 2) .NULL .NULL (plx_new_node PLX_NODE_S32_TYPE)))
          .NULL
          (if !(plx_node.node PLX_NODE_S32 (.sint 1) .NULL
                (.node PLX_NODE_S32 (.sint 2) .NULL .NULL .NULL)
                (plx_new_node PLX_NODE_S32_TYPE)).type.is_null &&
              !(plx_node.node PLX_NODE_S32 (.sint 2) .NULL .NULL
                (plx_new_node PLX_NODE_S32_TYPE)).type.is_null then
            (plx_node.node PLX_NODE_S32 (.sint 1) .NULL
              (.node PLX_NODE_S32 (.sint 2) .NULL .NULL .NULL)
              (plx_new_node PLX_NODE_S32_TYPE)).type
          else .NULL),
          [], true && true))) :=
  (plx_type_check_logical (fun _ _ => false) (fun _ _ h => by cases h) 1 PLX_NODE_AND
    (Or.inl rfl) .zero PLX_NODE_S32 PLX_NODE_S32 (.sint 1) (.sint 2) .NULL .NULL .NULL .NULL
    .NULL .NULL .NULL []
    (.node PLX_NODE_S32 (.sint 1) .NULL (.node PLX_NODE_S32 (.sint 2) .NULL .NULL .NULL)
      (plx_new_node PLX_NODE_S32_TYPE))
    (.node PLX_NODE_S32 (.sint 2) .NULL .NULL (plx_new_node PLX_NODE_S32_TYPE)) [] [] true true
    (by decide) (by decide) (by decide) (by decide)).1

set_option maxRecDepth 1000000 in
/-- C30: A call of `plx_type_check` on a call node with at least one argument
never returns `true`: it returns `false` when the callee has a type that is no
function type or when the numbers of arguments and of parameter types differ,
and when they agree the last loop of the case, which advances neither `arg` nor
`param_type`, does not end.  With a callee of type `func(s32) -> s32` the check
of `f()` returns `false`, with a callee of type `func() -> s32` the check of
`f(1)` returns `false` and that of `f()` returns `true`, and the check of `f(1)`
with a callee of type `func(s32) -> s32` does not return within the bound. -/
theorem plx_type_check_call (fuel : Nat) (v : plx_node_value) (kf ka k1 : plx_node_kind)
    (vf va v1 : plx_node_value) (cf c1 n1 ty1 tya tyf n ty return_type : plx_node)
    (types : plx_type_table) (out : plx_node × plx_type_table × Bool)
    (h : plx_type_check fuel
      (.node PLX_NODE_CALL v (.node kf vf cf (.node ka va (.node k1 v1 c1 n1 ty1) .NULL tya) tyf)
        n ty) return_type types = some (some out)) :
    out.2.2 = false ∧
    (∀ bound kp vp cp np typ result r,
      plx_check_arg_types bound (.node k1 v1 c1 n1 ty1) (.node kp vp cp np typ) result ≠
        some (some r)) ∧
    plx_type_check_bool "func g(f: func(s32) -> s32) -> s32 { return f(); }" =
      some (some false) ∧
    plx_type_check_bool "func g(f: func() -> s32) -> s32 { return f(1); }" =
      some (some false) ∧
    plx_type_check_bool "func g(f: func() -> s32) -> s32 { return f(); }" = some (some true) ∧
    plx_type_check_source "func g(f: func(s32) -> s32) -> s32 { return f(1); }" = none :=
  ⟨type_check_call_args fuel v kf ka k1 vf va v1 cf c1 n1 ty1 tya tyf n ty return_type types out h,
    fun bound kp vp cp np typ result r =>
      check_arg_types_loops bound k1 kp v1 vp c1 n1 ty1 cp np typ result r,
    by decide, by decide, by decide, by decide⟩

set_option maxRecDepth 1000000 in
/-- Witness for C30: the call `f(1)` with `f` of type `func() -> s32`. -/
theorem plx_type_check_call_witness :
    (plx_type_check 3
      (.node PLX_NODE_CALL .zero
        (.node PLX_NODE_IDENTIFIER (.identifier "f" (some 0)) .NULL
          (.node PLX_NODE_OTHER .zero (.node PLX_NODE_S32 (.sint 1) .NULL .NULL .NULL) .NULL .NULL)
          .NULL) .NULL .NULL) .NULL
      [(0, plx_node_of PLX_NODE_FUNC_TYPE
        [plx_new_node PLX_NODE_OTHER, plx_new_node PLX_NODE_S32_TYPE])]).isSome = true ∧
    (((plx_type_check 3
      (.node PLX_NODE_CALL .zero
        (.node PLX_NODE_IDENTIFIER (.identifier "f" (some 0)) .NULL
          (.node PLX_NODE_OTHER .zero (.node PLX_NODE_S32 (.sint 1) .NULL .NULL .NULL) .NULL .NULL)
          .NULL) .NULL .NULL) .NULL
      [(0, plx_node_of PLX_NODE_FUNC_TYPE
        [plx_new_node PLX_NODE_OTHER, plx_new_node PLX_NODE_S32_TYPE])]).getD none).getD
      (.NULL, [], true)).2.2 = false :=
  ⟨by decide,
    (plx_type_check_call 3 .zero PLX_NODE_IDENTIFIER PLX_NODE_OTHER PLX_NODE_S32
      (.identifier "f" (some 0)) .zero (.sint 1) .NULL .NULL .NULL .NULL .NULL .NULL .NULL .NULL
      .NULL
      [(0, plx_node_of PLX_NODE_FUNC_TYPE
        [plx_new_node PLX_NODE_OTHER, plx_new_node PLX_NODE_S32_TYPE])]
      (((plx_type_check 3
        (.node PLX_NODE_CALL .zero
          (.node PLX_NODE_IDENTIFIER (.identifier "f" (some 0)) .NULL
            (.node PLX_NODE_OTHER .zero (.node PLX_NODE_S32 (.sint 1) .NULL .NULL .NULL) .NULL
              .NULL)
            .NULL) .NULL .NULL) .NULL
        [(0, plx_node_of PLX_NODE_FUNC_TYPE
          [plx_new_node PLX_NODE_OTHER, plx_new_node PLX_NODE_S32_TYPE])]).getD none).getD
        (.NULL, [], true))
      (by decide)).1⟩

/-! ## `src/constant_folder.c`

`plx_fold_constants` rewrites the tree in place and stores the values of
constants in the symbol table entries.  The model passes the tree and the values
of the entries along; `none` says that the C function has undefined behaviour:
it divides by zero, overflows a `long long`, shifts by a count that is negative
or not below the width, reads a pointer that `plx_extract_children` has left
uninitialised, calls `va_arg` without an argument or reads through a null
pointer.  The arithmetic of `double` is a parameter of the model. -/

/-- The values of the symbol table entries that have one: the member `value` of
the entry at an address, newest first. -/
abbrev plx_value_table := List (Nat × plx_node)

/-- The member `entry->value`, `NULL` as `plx_declare_symbol` leaves it. -/
def plx_entry_value (values : plx_value_table) (entry : Nat) : plx_node :=
  match values.lookup entry with
  | some value => value
  | none => .NULL

/-- The operators of C on `double` that the folder uses. -/
structure plx_double_ops where
  add : Nat × Nat × Nat → Nat × Nat × Nat → Nat × Nat × Nat
  sub : Nat × Nat × Nat → Nat × Nat × Nat → Nat × Nat × Nat
  mul : Nat × Nat × Nat → Nat × Nat × Nat → Nat × Nat × Nat
  div : Nat × Nat × Nat → Nat × Nat × Nat → Nat × Nat × Nat
  neg : Nat × Nat × Nat → Nat × Nat × Nat
  le : Nat × Nat × Nat → Nat × Nat × Nat → Bool
  lt : Nat × Nat × Nat → Nat × Nat × Nat → Bool
  ge : Nat × Nat × Nat → Nat × Nat × Nat → Bool
  gt : Nat × Nat × Nat → Nat × Nat × Nat → Bool

/-- `LLONG_MAX`. -/
def LLONG_MAX : Int := 2 ^ (LL_BITS - 1) - 1

/-- `LLONG_MIN`. -/
def LLONG_MIN : Int := -2 ^ (LL_BITS - 1)

/-- `ULLONG_MAX`. -/
def ULLONG_MAX : Nat := 2 ^ LL_BITS - 1

/-- The member `node->sint` of the union: of a union that holds an
`unsigned long long` it is the `long long` with the same bits. -/
def plx_value_sint : plx_node_value → Option Int
  | .sint v => some v
  | .uint v => some (ll_of_bits v)
  | .zero => some 0
  | _ => none

/-- The member `node->uint` of the union: of a union that holds a `long long` it
is the `unsigned long long` with the same bits. -/
def plx_value_uint : plx_node_value → Option Nat
  | .uint v => some v
  | .sint v => some (ll_to_bits v)
  | .zero => some 0
  | _ => none

/-- The member `node->f` of the union. -/
def plx_value_f : plx_node_value → Option (Nat × Nat × Nat)
  | .f x => some x
  | _ => none

/-- The member `node->b` of the union. -/
def plx_value_b : plx_node_value → Option Bool
  | .b v => some v
  | .zero => some false
  | _ => none

/-- The member `node->entry` of the union as the folder reads it: null in a
union that holds no identifier, and the bits of `str` in a string node. -/
def plx_fold_entry : plx_node_value → Option (Option Nat)
  | .identifier _ entry => some entry
  | .string _ _ => none
  | _ => some none

/-- The groups of literal kinds in the inner `switch` statements of the
folder. -/
inductive plx_literal_class where
  | sint
  | uint
  | float
  | bool
  | other
  deriving DecidableEq

/-- The group of a kind. -/
def plx_literal_class_of (kind : plx_node_kind) : plx_literal_class :=
  match kind with
  | PLX_NODE_S8 | PLX_NODE_S16 | PLX_NODE_S32 | PLX_NODE_S64 => .sint
  | PLX_NODE_U8 | PLX_NODE_U16 | PLX_NODE_U32 | PLX_NODE_U64 => .uint
  | PLX_NODE_F16 | PLX_NODE_F32 | PLX_NODE_F64 => .float
  | PLX_NODE_BOOL => .bool
  | _ => .other

/-- A `long long` result: an arithmetic result outside the range of the type is
undefined. -/
def plx_ll_result (v : Int) : Option Int :=
  if LLONG_MIN ≤ v ∧ v ≤ LLONG_MAX then some v else none

/-- The cases `PLX_NODE_S8` to `PLX_NODE_S64` of the binary operators on the
members `sint` of the operands: `none` for undefined behaviour, `some none` for
a `break` before the node is changed, else the new union of the node. -/
def plx_fold_sint (kind : plx_node_kind) (left right : Int) :
    Option (Option plx_node_value) :=
  match kind with
  | PLX_NODE_AND => some (some (.sint (ll_of_bits (ll_to_bits left &&& ll_to_bits right))))
  | PLX_NODE_OR => some (some (.sint (ll_of_bits (ll_to_bits left ||| ll_to_bits right))))
  | PLX_NODE_XOR => some (some (.sint (ll_of_bits (ll_to_bits left ^^^ ll_to_bits right))))
  | PLX_NODE_LTE => some (some (.b (decide (left ≤ right))))
  | PLX_NODE_LT => some (some (.b (decide (left < right))))
  | PLX_NODE_GTE => some (some (.b (decide (left ≥ right))))
  | PLX_NODE_GT => some (some (.b (decide (left > right))))
  | PLX_NODE_ADD =>
    if right > 0 ∧ left > LLONG_MAX - right then some none
    else if right < 0 ∧ left < LLONG_MIN - right then some none
    else (plx_ll_result (left + right)).map fun v => some (.sint v)
  | PLX_NODE_SUB =>
    if right < 0 ∧ left > LLONG_MAX + right then some none
    else if right > 0 ∧ left < LLONG_MIN + right then some none
    else (plx_ll_result (left - right)).map fun v => some (.sint v)
  | PLX_NODE_MUL =>
    if left = -1 ∧ right = LLONG_MIN then some none
    else if right = -1 ∧ left = LLONG_MIN then some none
    else if right ≠ 0 ∧ left > Int.tdiv LLONG_MAX right then some none
    else if right = -1 then none
    else if right ≠ 0 ∧ left < Int.tdiv LLONG_MIN right then some none
    else (plx_ll_result (left * right)).map fun v => some (.sint v)
  | PLX_NODE_DIV =>
    if right = 0 then none
    else (plx_ll_result (Int.tdiv left right)).map fun v => some (.sint v)
  | PLX_NODE_REM =>
    if right = 0 then none
    else if left = LLONG_MIN ∧ right = -1 then none
    else some (some (.sint (Int.tmod left right)))
  | PLX_NODE_LSHIFT =>
    if right < 0 ∨ right ≥ LL_BITS ∨ left < 0 then none
    else (plx_ll_result (left * 2 ^ right.toNat)).map fun v => some (.sint v)
  | PLX_NODE_RSHIFT =>
    if right < 0 ∨ right ≥ LL_BITS then none
    else some (some (.sint (left / 2 ^ right.toNat)))
  | _ => some none

/-- The cases `PLX_NODE_U8` to `PLX_NODE_U64` of the binary operators on the
members `uint` of the operands. -/
def plx_fold_uint (kind : plx_node_kind) (left right : Nat) :
    Option (Option plx_node_value) :=
  match kind with
  | PLX_NODE_AND => some (some (.uint (left &&& right)))
  | PLX_NODE_OR => some (some (.uint (left ||| right)))
  | PLX_NODE_XOR => some (some (.uint (left ^^^ right)))
  | PLX_NODE_LTE => some (some (.b (decide (left ≤ right))))
  | PLX_NODE_LT => some (some (.b (decide (left < right))))
  | PLX_NODE_GTE => some (some (.b (decide (left ≥ right))))
  | PLX_NODE_GT => some (some (.b (decide (left > right))))
  | PLX_NODE_ADD =>
    if right > 0 ∧ left > ULLONG_MAX - right then some none
    else some (some (.uint ((left + right) % 2 ^ LL_BITS)))
  | PLX_NODE_SUB =>
    if right > 0 ∧ left < right then some none
    else some (some (.uint (left - right)))
  | PLX_NODE_MUL => some (some (.uint ((left * right) % 2 ^ LL_BITS)))
  | PLX_NODE_DIV => if right = 0 then none else some (some (.uint (left / right)))
  | PLX_NODE_REM => if right = 0 then none else some (some (.uint (left % right)))
  | PLX_NODE_LSHIFT =>
    if right ≥ LL_BITS then none else some (some (.uint ((left * 2 ^ right) % 2 ^ LL_BITS)))
  | PLX_NODE_RSHIFT =>
    if right ≥ LL_BITS then none else some (some (.uint (left / 2 ^ right)))
  | _ => some none

/-- The cases `PLX_NODE_F16` to `PLX_NODE_F64` of the binary operators on the
members `f` of the operands. -/
def plx_fold_float (ops : plx_double_ops) (kind : plx_node_kind)
    (left right : Nat × Nat × Nat) : Option plx_node_value :=
  match kind with
  | PLX_NODE_LTE => some (.b (ops.le left right))
  | PLX_NODE_LT => some (.b (ops.lt left right))
  | PLX_NODE_GTE => some (.b (ops.ge left right))
  | PLX_NODE_GT => some (.b (ops.gt left right))
  | PLX_NODE_ADD => some (.f (ops.add left right))
  | PLX_NODE_SUB => some (.f (ops.sub left right))
  | PLX_NODE_MUL => some (.f (ops.mul left right))
  | PLX_NODE_DIV => some (.f (ops.div left right))
  | _ => none

/-- The case `PLX_NODE_BOOL` of the binary operators on the members `b` of the
operands. -/
def plx_fold_bool (kind : plx_node_kind) (left right : Bool) : Option plx_node_value :=
  match kind with
  | PLX_NODE_AND => some (.b (left && right))
  | PLX_NODE_OR => some (.b (left || right))
  | PLX_NODE_XOR => some (.b (left != right))
  | _ => none

/-- The kinds whose case in the folder is that of a binary operator with an
inner `switch (left->kind)`. -/
def plx_is_folded_binary (kind : plx_node_kind) : Bool :=
  kind = PLX_NODE_AND || kind = PLX_NODE_OR || kind = PLX_NODE_XOR || kind = PLX_NODE_LTE ||
  kind = PLX_NODE_LT || kind = PLX_NODE_GTE || kind = PLX_NODE_GT || kind = PLX_NODE_ADD ||
  kind = PLX_NODE_SUB || kind = PLX_NODE_MUL || kind = PLX_NODE_DIV || kind = PLX_NODE_REM ||
  kind = PLX_NODE_LSHIFT || kind = PLX_NODE_RSHIFT

/-- The kind a binary operator node is given when it is folded: `PLX_NODE_BOOL`
in the cases of the comparisons, `left->kind` in the others. -/
def plx_folded_kind (kind left : plx_node_kind) : plx_node_kind :=
  if kind = PLX_NODE_LTE ∨ kind = PLX_NODE_LT ∨ kind = PLX_NODE_GTE ∨ kind = PLX_NODE_GT then
    PLX_NODE_BOOL
  else left

/-- The inner `switch (left->kind)` of the case of a binary operator, for
operands of one kind: the new kind and union of the node, `some none` when the
node is left as it is. -/
def plx_fold_binary (ops : plx_double_ops) (kind left : plx_node_kind)
    (vl vr : plx_node_value) : Option (Option (plx_node_kind × plx_node_value)) :=
  match plx_literal_class_of left with
  | .sint =>
    match plx_value_sint vl, plx_value_sint vr with
    | some l, some r =>
      (plx_fold_sint kind l r).map fun x => x.map fun v => (plx_folded_kind kind left, v)
    | _, _ => none
  | .uint =>
    match plx_value_uint vl, plx_value_uint vr with
    | some l, some r =>
      (plx_fold_uint kind l r).map fun x => x.map fun v => (plx_folded_kind kind left, v)
    | _, _ => none
  | .float =>
    if kind = PLX_NODE_AND ∨ kind = PLX_NODE_OR ∨ kind = PLX_NODE_XOR ∨ kind = PLX_NODE_REM ∨
        kind = PLX_NODE_LSHIFT ∨ kind = PLX_NODE_RSHIFT then some none
    else
      match plx_value_f vl, plx_value_f vr with
      | some l, some r =>
        some ((plx_fold_float ops kind l r).map fun v => (plx_folded_kind kind left, v))
      | _, _ => none
  | .bool =>
    if kind = PLX_NODE_AND ∨ kind = PLX_NODE_OR ∨ kind = PLX_NODE_XOR then
      match plx_value_b vl, plx_value_b vr with
      | some l, some r =>
        some ((plx_fold_bool kind l r).map fun v => (plx_folded_kind kind left, v))
      | _, _ => none
    else some none
  | .other => some none

/-- What a call of the folder leaves: the tree, the values of the entries and
the returned `bool`. -/
abbrev plx_fold_result := Option (plx_node × plx_value_table × Bool)

/-- The block of the case `PLX_NODE_NOT`, which ends without a `break`. -/
def plx_fold_not (v : plx_node_value) (c n ty : plx_node) : Option (plx_node × Bool) :=
  match c with
  | .node ko vo _ .NULL _ =>
    match plx_literal_class_of ko with
    | .sint =>
      (plx_value_sint vo).map fun x => (.node ko (.sint (-x - 1)) .NULL n ty, true)
    | .uint =>
      (plx_value_uint vo).map fun x =>
        (.node ko (.sint (ll_of_bits (ULLONG_MAX - x % 2 ^ LL_BITS))) .NULL n ty, true)
    | .bool => (plx_value_b vo).map fun x => (.node PLX_NODE_BOOL (.b (!x)) .NULL n ty, true)
    | _ => some (.node PLX_NODE_NOT v c n ty, false)
  | _ => none

/-- The block of the case `PLX_NODE_NEG`, which is also run after that of the
case `PLX_NODE_NOT`, on the node as that block has left it. -/
def plx_fold_neg (ops : plx_double_ops) (k : plx_node_kind) (v : plx_node_value)
    (c n ty : plx_node) : Option (plx_node × Bool) :=
  match c with
  | .node ko vo _ .NULL _ =>
    match plx_literal_class_of ko with
    | .sint =>
      match plx_value_sint vo with
      | none => none
      | some x =>
        if x = LLONG_MIN then some (.node k v c n ty, false)
        else some (.node ko (.sint (-x)) .NULL n ty, true)
    | .float => (plx_value_f vo).map fun x => (.node ko (.f (ops.neg x)) .NULL n ty, true)
    | _ => some (.node k v c n ty, false)
  | _ => none

/-- The `switch (node->kind)` of `plx_fold_constants`, on the node after the
loop over its children; the `bool` tells whether the `switch` has set
`changed`. -/
def plx_fold_switch (ops : plx_double_ops) (k : plx_node_kind) (v : plx_node_value)
    (c n ty : plx_node) (values : plx_value_table) : plx_fold_result :=
  let unchanged : plx_fold_result := some (.node k v c n ty, values, false)
  match k with
  | PLX_NODE_CONST_DEF =>
    match c with
    | .node _ vn _ .NULL _ =>
      match plx_fold_entry vn with
      | none => none
      | some none => unchanged
      | some (some _) => none
    | .node _ vn _ (.node kv vv cv .NULL tyv) _ =>
      match plx_fold_entry vn with
      | none => none
      | some none => unchanged
      | some (some entry) =>
        if !plx_is_constant kv then unchanged
        else
          some (.node PLX_NODE_NOP v .NULL n ty, (entry, .node kv vv cv .NULL tyv) :: values,
            true)
    | _ => none
  | PLX_NODE_IF_THEN_ELSE =>
    match c with
    | .node kc vc _ rest _ =>
      if (plx_siblings rest).length > 2 then none
      else if kc ≠ PLX_NODE_BOOL then unchanged
      else
        match plx_value_b vc with
        | none => none
        | some cond =>
          match cond, rest with
          | true, .node kt vt ct _ tyt => some (.node kt vt ct n tyt, values, true)
          | false, .node _ _ _ (.node ke ve ce _ tye) _ => some (.node ke ve ce n tye, values, true)
          | _, _ => none
    | .NULL => none
  | PLX_NODE_WHILE_LOOP =>
    match c with
    | .node kc vc _ rest _ =>
      if (plx_siblings rest).length > 1 then none
      else if kc ≠ PLX_NODE_BOOL then unchanged
      else
        match plx_value_b vc with
        | none => none
        | some true =>
          match rest with
          | .NULL => none
          | body => some (.node PLX_NODE_LOOP v body n ty, values, true)
        | some false => some (.node PLX_NODE_NOP v .NULL n ty, values, true)
    | .NULL => none
  | PLX_NODE_EQ => unchanged
  | PLX_NODE_NEQ => unchanged
  | PLX_NODE_NOT =>
    match plx_fold_not v c n ty with
    | none => none
    | some (.node k1 v1 c1 n1 ty1, changed) =>
      (plx_fold_neg ops k1 v1 c1 n1 ty1).map fun r => (r.1, values, changed || r.2)
    | some (.NULL, _) => none
  | PLX_NODE_NEG => (plx_fold_neg ops k v c n ty).map fun r => (r.1, values, r.2)
  | PLX_NODE_IDENTIFIER =>
    match plx_fold_entry v with
    | none => none
    | some none => unchanged
    | some (some entry) =>
      match plx_entry_value values entry with
      | .NULL => unchanged
      | .node kv vv cv _ tyv => some (.node kv vv cv n tyv, values, true)
  | _ =>
    if plx_is_folded_binary k then
      match c with
      | .node kl vl _ (.node kr vr _ .NULL _) _ =>
        if kl ≠ kr then unchanged
        else
          match plx_fold_binary ops k kl vl vr with
          | none => none
          | some none => unchanged
          | some (some (kind, value)) => some (.node kind value .NULL n ty, values, true)
      | _ => none
    else unchanged

/-- `plx_fold_constants`: with `all` unset the call on a node, with `all` set the
loop `for (child = ...; child != NULL; child = child->next)` from the child on,
whose `bool` tells whether a call has returned `true`. -/
def plx_fold_constants_from (ops : plx_double_ops) :
    Bool → plx_node → plx_value_table → plx_fold_result
  | all, .NULL, values => if all then some (.NULL, values, false) else none
  | all, .node k v c n ty, values =>
    match plx_fold_constants_from ops true c values with
    | none => none
    | some (c1, values1, changed1) =>
      match plx_fold_switch ops k v c1 n ty values1 with
      | none => none
      | some (node1, values2, changed2) =>
        if all then
          match plx_fold_constants_from ops true n values2 with
          | none => none
          | some (n1, values3, changed3) =>
            some (node1.set_next n1, values3, (changed1 || changed2) || changed3)
        else some (node1, values2, changed1 || changed2)

/-- `plx_fold_constants`. -/
def plx_fold_constants (ops : plx_double_ops) (node : plx_node) (values : plx_value_table) :
    plx_fold_result :=
  plx_fold_constants_from ops false node values

/-- The loop `while (plx_fold_constants(module)) {}` of `plx_compile`, with a
bound on the number of calls: the outer `none` says that the bound is reached,
the inner one that a call has undefined behaviour; else the tree and the values
when a call returns `false`. -/
def plx_fold_loop (ops : plx_double_ops) :
    Nat → plx_node → plx_value_table → Option (Option (plx_node × plx_value_table))
  | 0, _, _ => none
  | bound + 1, node, values =>
    match plx_fold_constants ops node values with
    | none => some none
    | some (node1, values1, changed) =>
      if changed then plx_fold_loop ops bound node1 values1 else some (some (node1, values1))

/-- The module that `plx_parse_module`, `plx_resolve_names` and `plx_type_check`
leave for a source text that passes `plx_type_check`; `NULL` for another
text. -/
def plx_checked_source (source : String) : plx_node :=
  match plx_type_check_source source with
  | some (some (module, _, true)) => module
  | _ => .NULL

/-- The loop of `plx_compile` on the module of a source text that passes
`plx_type_check` and `plx_check_returns`, with the bound 40 on the calls and no
value stored in an entry. -/
def plx_fold_source (ops : plx_double_ops) (source : String) :
    Option (Option (plx_node × plx_value_table)) :=
  if plx_check_returns (plx_checked_source source) = some true then
    plx_fold_loop ops 40 (plx_checked_source source) []
  else none

/-- The tree and the values that `plx_fold_source` ends with. -/
def plx_folded_source (ops : plx_double_ops) (source : String) : plx_node × plx_value_table :=
  ((plx_fold_source ops source).getD none).getD (.NULL, [])

/-- A tree without the types that `plx_type_check` has set. -/
def plx_erase_types : plx_node → plx_node
  | .NULL => .NULL
  | .node k v c n _ => .node k v (plx_erase_types c) (plx_erase_types n) .NULL

/-- An arithmetic for the modules that hold no literal of a floating-point
type, as all modules of the parser: every operator returns its first operand
and every comparison `false`. -/
def plx_double_first : plx_double_ops :=
  ⟨fun x _ => x, fun x _ => x, fun x _ => x, fun x _ => x, fun x => x,
    fun _ _ => false, fun _ _ => false, fun _ _ => false, fun _ _ => false⟩

/-- The measure that every change of the folder decreases: the number of nodes
of a tree, an identifier node counted twice. -/
def plx_fold_weight : plx_node → Nat
  | .NULL => 0
  | .node k _ c n _ =>
    (if k = PLX_NODE_IDENTIFIER then 2 else 1) + plx_fold_weight c + plx_fold_weight n

/-- Whether the literal nodes of a tree have no children, as the parser builds
them. -/
def plx_literals_leaf : plx_node → Bool
  | .NULL => true
  | .node k _ c n _ =>
    (!plx_is_constant k || c.is_null) && plx_literals_leaf c && plx_literals_leaf n

/-- Whether the values stored in the entries are literal nodes without
children. -/
def plx_values_leaf (values : plx_value_table) : Bool :=
  values.all fun p =>
    match p.2 with
    | .NULL => true
    | .node k _ c _ _ => plx_is_constant k && c.is_null

/-- Whether the folder has nothing left to do for the constants of a tree: no
identifier node has an entry with a stored value and no const definition with a
resolved name has a literal as value.  With `all` set the same is asked of the
next siblings of the node. -/
def plx_constants_folded (values : plx_value_table) : Bool → plx_node → Bool
  | _, .NULL => true
  | all, .node k v c n _ =>
    (if k = PLX_NODE_IDENTIFIER then
      match plx_fold_entry v with
      | some (some entry) => (plx_entry_value values entry).is_null
      | _ => true
    else true) &&
    (if k = PLX_NODE_CONST_DEF then
      match c with
      | .node _ vn _ (.node kv _ _ _ _) _ =>
        !((plx_fold_entry vn).getD none).isSome || !plx_is_constant kv
      | _ => true
    else true) &&
    plx_constants_folded values true c &&
    (if all then plx_constants_folded values true n else true)

/-- The part of the weight of a node that its kind gives. -/
def plx_kind_weight (k : plx_node_kind) : Nat := if k = PLX_NODE_IDENTIFIER then 2 else 1

theorem kind_weight_pos (k : plx_node_kind) : 1 ≤ plx_kind_weight k := by
  unfold plx_kind_weight; split <;> omega

theorem kind_weight_le (k : plx_node_kind) : plx_kind_weight k ≤ 2 := by
  unfold plx_kind_weight; split <;> omega

theorem fold_weight_node (k : plx_node_kind) (v : plx_node_value) (c n ty : plx_node) :
    plx_fold_weight (.node k v c n ty) = plx_kind_weight k + plx_fold_weight c + plx_fold_weight n :=
  rfl

theorem constant_kind_weight (k : plx_node_kind) (h : plx_is_constant k = true) :
    plx_kind_weight k = 1 := by
  revert h; cases k <;> decide

theorem class_constant (k : plx_node_kind) (h : plx_literal_class_of k ≠ .other) :
    plx_is_constant k = true := by
  revert h; cases k <;> decide

theorem folded_kind_constant (k kl : plx_node_kind) (h : plx_literal_class_of kl ≠ .other) :
    plx_is_constant (plx_folded_kind k kl) = true := by
  unfold plx_folded_kind
  split
  · decide
  · exact class_constant kl h

theorem fold_binary_constant (ops : plx_double_ops) (k kl : plx_node_kind)
    (vl vr : plx_node_value) (kind : plx_node_kind) (value : plx_node_value)
    (h : plx_fold_binary ops k kl vl vr = some (some (kind, value))) :
    plx_is_constant kind = true := by
  unfold plx_fold_binary at h
  have key : ∀ hc : plx_literal_class_of kl ≠ .other, ∀ x : Option plx_node_value,
      x.map (fun v => (plx_folded_kind k kl, v)) = some (kind, value) →
      plx_is_constant kind = true := by
    intro hc x hx
    cases x with
    | none => cases hx
    | some v =>
      simp only [Option.map_some', Option.some.injEq, Prod.mk.injEq] at hx
      rw [← hx.1]
      exact folded_kind_constant k kl hc
  split at h
  · rename_i hcl
    have hc : plx_literal_class_of kl ≠ .other := by rw [hcl]; decide
    split at h
    · obtain ⟨x, _, hx⟩ := Option.map_eq_some'.1 h
      exact key hc x hx
    · cases h
  · rename_i hcl
    have hc : plx_literal_class_of kl ≠ .other := by rw [hcl]; decide
    split at h
    · obtain ⟨x, _, hx⟩ := Option.map_eq_some'.1 h
      exact key hc x hx
    · cases h
  · rename_i hcl
    have hc : plx_literal_class_of kl ≠ .other := by rw [hcl]; decide
    split at h
    · cases h
    · split at h
      · simp only [Option.some.injEq] at h
        exact key hc _ h
      · cases h
  · rename_i hcl
    have hc : plx_literal_class_of kl ≠ .other := by rw [hcl]; decide
    split at h
    · split at h
      · simp only [Option.some.injEq] at h
        exact key hc _ h
      · cases h
    · cases h
  · cases h

theorem literals_leaf_node (k : plx_node_kind) (v : plx_node_value) (c n ty : plx_node) :
    plx_literals_leaf (.node k v c n ty) =
      ((!plx_is_constant k || c.is_null) && plx_literals_leaf c && plx_literals_leaf n) :=
  rfl

/-- What `plx_constants_folded` asks of one node. -/
def plx_node_folded (values : plx_value_table) (k : plx_node_kind) (v : plx_node_value)
    (c : plx_node) : Bool :=
  (if k = PLX_NODE_IDENTIFIER then
    match plx_fold_entry v with
    | some (some entry) => (plx_entry_value values entry).is_null
    | _ => true
  else true) &&
  (if k = PLX_NODE_CONST_DEF then
    match c with
    | .node _ vn _ (.node kv _ _ _ _) _ =>
      !((plx_fold_entry vn).getD none).isSome || !plx_is_constant kv
    | _ => true
  else true)

theorem constants_folded_node (values : plx_value_table) (all : Bool) (k : plx_node_kind)
    (v : plx_node_value) (c n ty : plx_node) :
    plx_constants_folded values all (.node k v c n ty) =
      (plx_node_folded values k v c && plx_constants_folded values true c &&
        (if all then plx_constants_folded values true n else true)) :=
  rfl

/-- What the `switch` of the folder leaves, for a node after the loop over its
children: when it has not set `changed`, the node and the values are as before
and the node is folded; and when the literal nodes below the node and the values
have no children, the same holds afterwards and the weight has not grown, and
has decreased when `changed` is set. -/
def plx_fold_switch_ok (k : plx_node_kind) (v : plx_node_value) (c n ty : plx_node)
    (values : plx_value_table) (r : plx_node × plx_value_table × Bool) : Prop :=
  (r.2.2 = false → r.1 = .node k v c n ty ∧ r.2.1 = values ∧
    plx_node_folded values k v c = true) ∧
  ((!plx_is_constant k || c.is_null) = true → plx_literals_leaf c = true →
    plx_values_leaf values = true →
    ∃ k1 v1 c1 ty1, r.1 = .node k1 v1 c1 n ty1 ∧
      (!plx_is_constant k1 || c1.is_null) = true ∧ plx_literals_leaf c1 = true ∧
      plx_values_leaf r.2.1 = true ∧
      plx_kind_weight k1 + plx_fold_weight c1 ≤ plx_kind_weight k + plx_fold_weight c ∧
      (r.2.2 = true →
        plx_kind_weight k1 + plx_fold_weight c1 < plx_kind_weight k + plx_fold_weight c))

theorem switch_ok_unchanged (k : plx_node_kind) (v : plx_node_value) (c n ty : plx_node)
    (values : plx_value_table) (hf : plx_node_folded values k v c = true) :
    plx_fold_switch_ok k v c n ty values (.node k v c n ty, values, false) :=
  ⟨fun _ => ⟨rfl, rfl, hf⟩, fun hk hc hv =>
    ⟨k, v, c, ty, rfl, hk, hc, hv, le_refl _, fun h => by cases h⟩⟩

theorem switch_ok_changed (k : plx_node_kind) (v : plx_node_value) (c n ty : plx_node)
    (values : plx_value_table) (k1 : plx_node_kind) (v1 : plx_node_value) (c1 ty1 : plx_node)
    (values1 : plx_value_table)
    (h : (!plx_is_constant k || c.is_null) = true → plx_literals_leaf c = true →
      plx_values_leaf values = true →
      (!plx_is_constant k1 || c1.is_null) = true ∧ plx_literals_leaf c1 = true ∧
      plx_values_leaf values1 = true ∧
      plx_kind_weight k1 + plx_fold_weight c1 < plx_kind_weight k + plx_fold_weight c) :
    plx_fold_switch_ok k v c n ty values (.node k1 v1 c1 n ty1, values1, true) := by
  refine ⟨fun h => (by cases h), fun hk hc hv => ?_⟩
  obtain ⟨h1, h2, h3, h4⟩ := h hk hc hv
  exact ⟨k1, v1, c1, ty1, rfl, h1, h2, h3, le_of_lt h4, fun _ => h4⟩

theorem switch_ok_literal (k : plx_node_kind) (v : plx_node_value) (c n ty : plx_node)
    (values : plx_value_table) (k1 : plx_node_kind) (v1 : plx_node_value) (ty1 : plx_node)
    (hk1 : plx_is_constant k1 = true) (hc : 1 ≤ plx_fold_weight c) :
    plx_fold_switch_ok k v c n ty values (.node k1 v1 .NULL n ty1, values, true) := by
  apply switch_ok_changed
  intro _ _ hv
  refine ⟨by simp [plx_node.is_null], rfl, hv, ?_⟩
  have := kind_weight_pos k
  rw [constant_kind_weight k1 hk1]
  simp only [plx_fold_weight]
  omega

theorem values_leaf_lookup (values : plx_value_table) (entry : Nat) (kv : plx_node_kind)
    (vv : plx_node_value) (cv nv tyv : plx_node) (hv : plx_values_leaf values = true)
    (h : plx_entry_value values entry = .node kv vv cv nv tyv) :
    plx_is_constant kv = true ∧ cv = .NULL := by
  unfold plx_entry_value at h
  cases hl : values.lookup entry with
  | none => rw [hl] at h; cases h
  | some value =>
    rw [hl] at h
    subst h
    have hmem : (entry, plx_node.node kv vv cv nv tyv) ∈ values := by
      clear hv
      induction values with
      | nil => cases hl
      | cons p rest ih =>
        obtain ⟨a, b⟩ := p
        simp only [List.lookup_cons] at hl
        by_cases e : entry = a
        · subst e
          simp at hl
          subst hl
          exact List.mem_cons_self _ _
        · have : (entry == a) = false := by simpa using e
          rw [this] at hl
          exact List.mem_cons_of_mem _ (ih hl)
    unfold plx_values_leaf at hv
    have := (List.all_eq_true.1 hv) _ hmem
    simp only [Bool.and_eq_true] at this
    refine ⟨this.1, ?_⟩
    cases cv with
    | NULL => rfl
    | node _ _ _ _ _ => exact absurd this.2 (by simp [plx_node.is_null])

theorem node_folded_other (values : plx_value_table) (k : plx_node_kind) (v : plx_node_value)
    (c : plx_node) (h1 : k ≠ PLX_NODE_IDENTIFIER) (h2 : k ≠ PLX_NODE_CONST_DEF) :
    plx_node_folded values k v c = true := by
  simp [plx_node_folded, h1, h2]

theorem fold_neg_spec (ops : plx_double_ops) (k : plx_node_kind) (v : plx_node_value)
    (c n ty : plx_node) (values : plx_value_table) (node1 : plx_node) (changed : Bool)
    (h1 : k ≠ PLX_NODE_IDENTIFIER) (h2 : k ≠ PLX_NODE_CONST_DEF)
    (h : plx_fold_neg ops k v c n ty = some (node1, changed)) :
    plx_fold_switch_ok k v c n ty values (node1, values, changed) := by
  unfold plx_fold_neg at h
  split at h
  · rename_i ko vo co tyo
    split at h
    · rename_i hcl
      have hko : plx_is_constant ko = true := class_constant ko (by rw [hcl]; decide)
      split at h
      · cases h
      · split at h
        · cases h
          exact switch_ok_unchanged _ _ _ _ _ _ (node_folded_other _ _ _ _ h1 h2)
        · cases h
          exact switch_ok_literal _ _ _ _ _ _ _ _ _ hko
            (by rw [fold_weight_node]; have := kind_weight_pos ko; omega)
    · rename_i hcl
      have hko : plx_is_constant ko = true := class_constant ko (by rw [hcl]; decide)
      obtain ⟨x, _, hx⟩ := Option.map_eq_some'.1 h
      cases hx
      exact switch_ok_literal _ _ _ _ _ _ _ _ _ hko
        (by rw [fold_weight_node]; have := kind_weight_pos ko; omega)
    · cases h
      exact switch_ok_unchanged _ _ _ _ _ _ (node_folded_other _ _ _ _ h1 h2)
  · cases h

theorem fold_not_spec (v : plx_node_value) (c n ty : plx_node) (node1 : plx_node)
    (changed : Bool) (h : plx_fold_not v c n ty = some (node1, changed)) :
    (node1 = .node PLX_NODE_NOT v c n ty ∧ changed = false) ∨
    ∃ k1 v1, node1 = .node k1 v1 .NULL n ty := by
  unfold plx_fold_not at h
  split at h
  · split at h
    · obtain ⟨x, _, hx⟩ := Option.map_eq_some'.1 h
      cases hx
      exact Or.inr ⟨_, _, rfl⟩
    · obtain ⟨x, _, hx⟩ := Option.map_eq_some'.1 h
      cases hx
      exact Or.inr ⟨_, _, rfl⟩
    · obtain ⟨x, _, hx⟩ := Option.map_eq_some'.1 h
      cases hx
      exact Or.inr ⟨_, _, rfl⟩
    · cases h
      exact Or.inl ⟨rfl, rfl⟩
  · cases h

theorem fold_neg_null (ops : plx_double_ops) (k : plx_node_kind) (v : plx_node_value)
    (n ty : plx_node) : plx_fold_neg ops k v .NULL n ty = none := rfl

theorem siblings_length_weight (c : plx_node) :
    (plx_siblings c).length ≤ plx_fold_weight c := by
  induction c with
  | NULL => simp [plx_siblings, plx_fold_weight]
  | node k v c n ty _ ihn _ =>
    simp only [plx_siblings, List.length_cons, plx_fold_weight]
    have := kind_weight_pos k
    unfold plx_kind_weight at this
    omega

theorem fold_switch_spec (ops : plx_double_ops) (k : plx_node_kind) (v : plx_node_value)
    (c n ty : plx_node) (values : plx_value_table) (r : plx_node × plx_value_table × Bool)
    (h : plx_fold_switch ops k v c n ty values = some r) :
    plx_fold_switch_ok k v c n ty values r := by
  unfold plx_fold_switch at h
  simp only at h
  split at h
  · -- PLX_NODE_CONST_DEF
    split at h
    · split at h
      · cases h
      · rename_i vn _ _ he
        cases h
        exact switch_ok_unchanged _ _ _ _ _ _ (by simp [plx_node_folded])
      · cases h
    · rename_i kn vn cn kv vv cv tyv tyn
      split at h
      · cases h
      · rename_i he
        cases h
        exact switch_ok_unchanged _ _ _ _ _ _ (by simp [plx_node_folded, he])
      · rename_i entry he
        split at h
        · rename_i hcn
          cases h
          exact switch_ok_unchanged _ _ _ _ _ _ (by
            simp only [Bool.not_eq_true', Bool.not_eq_false] at hcn
            simp [plx_node_folded, hcn])
        · rename_i hcn
          cases h
          apply switch_ok_changed
          intro _ hc hv
          have hcn : plx_is_constant kv = true := by simpa using hcn
          simp only [literals_leaf_node, Bool.and_eq_true, Bool.or_eq_true,
            Bool.not_eq_true'] at hc
          have hcv : cv.is_null = true := by
            rcases hc.2.1.1 with h0 | h0
            · rw [h0] at hcn; cases hcn
            · exact h0
          refine ⟨by simp [plx_node.is_null], rfl, ?_, ?_⟩
          · simp only [plx_values_leaf, List.all_cons, Bool.and_eq_true]
            exact ⟨⟨hcn, hcv⟩, hv⟩
          · rw [fold_weight_node]
            have := kind_weight_pos kn
            have e : plx_kind_weight PLX_NODE_NOP = 1 := rfl
            have e2 : plx_kind_weight PLX_NODE_CONST_DEF = 1 := rfl
            have e3 : plx_fold_weight .NULL = 0 := rfl
            omega
    · cases h
  · -- PLX_NODE_IF_THEN_ELSE
    split at h
    · rename_i kc vc cc rest tyc
      split at h
      · cases h
      · split at h
        · cases h
          exact switch_ok_unchanged _ _ _ _ _ _
            (node_folded_other _ _ _ _ (by decide) (by decide))
        · split at h
          · cases h
          · split at h
            · rename_i kt vt ct nt tyt
              cases h
              apply switch_ok_changed
              intro _ hc hv
              simp only [literals_leaf_node, Bool.and_eq_true] at hc
              refine ⟨hc.2.1.1, hc.2.1.2, hv, ?_⟩
              rw [fold_weight_node, fold_weight_node]
              have := kind_weight_pos kc
              have e : plx_kind_weight PLX_NODE_IF_THEN_ELSE = 1 := rfl
              omega
            · cases h
              apply switch_ok_changed
              intro _ hc hv
              simp only [literals_leaf_node, Bool.and_eq_true] at hc
              refine ⟨hc.2.2.1.1, hc.2.2.1.2, hv, ?_⟩
              rw [fold_weight_node, fold_weight_node, fold_weight_node]
              have := kind_weight_pos kc
              have e : plx_kind_weight PLX_NODE_IF_THEN_ELSE = 1 := rfl
              omega
            · cases h
    · cases h
  · -- PLX_NODE_WHILE_LOOP
    split at h
    · rename_i kc vc cc rest tyc
      split at h
      · cases h
      · split at h
        · cases h
          exact switch_ok_unchanged _ _ _ _ _ _
            (node_folded_other _ _ _ _ (by decide) (by decide))
        · split at h
          · cases h
          · split at h
            · cases h
            · cases h
              apply switch_ok_changed
              intro _ hc hv
              simp only [literals_leaf_node, Bool.and_eq_true] at hc
              refine ⟨rfl, hc.2, hv, ?_⟩
              rw [fold_weight_node]
              have := kind_weight_pos kc
              have e : plx_kind_weight PLX_NODE_WHILE_LOOP = 1 := rfl
              have e2 : plx_kind_weight PLX_NODE_LOOP = 1 := rfl
              omega
          · cases h
            apply switch_ok_changed
            intro _ hc hv
            refine ⟨rfl, rfl, hv, ?_⟩
            rw [fold_weight_node]
            have := kind_weight_pos kc
            have e : plx_kind_weight PLX_NODE_WHILE_LOOP = 1 := rfl
            have e2 : plx_kind_weight PLX_NODE_NOP = 1 := rfl
            have e3 : plx_fold_weight .NULL = 0 := rfl
            omega
    · cases h
  · cases h
    exact switch_ok_unchanged _ _ _ _ _ _ (node_folded_other _ _ _ _ (by decide) (by decide))
  · cases h
    exact switch_ok_unchanged _ _ _ _ _ _ (node_folded_other _ _ _ _ (by decide) (by decide))
  · -- PLX_NODE_NOT
    split at h
    · cases h
    · rename_i k1 v1 c1 n1 ty1 changed hnot
      obtain ⟨r1, hr1, e⟩ := Option.map_eq_some'.1 h
      subst e
      rcases fold_not_spec _ _ _ _ _ _ hnot with ⟨e1, e2⟩ | ⟨k2, v2, e1⟩
      · cases e1
        subst e2
        obtain ⟨node1, changed1⟩ := r1
        exact fold_neg_spec ops _ _ _ _ _ values node1 changed1 (by decide) (by decide) hr1
      · cases e1
        rw [fold_neg_null] at hr1
        cases hr1
    · cases h
  · -- PLX_NODE_NEG
    obtain ⟨r1, hr1, e⟩ := Option.map_eq_some'.1 h
    subst e
    obtain ⟨node1, changed1⟩ := r1
    exact fold_neg_spec ops _ _ _ _ _ values node1 changed1 (by decide) (by decide) hr1
  · -- PLX_NODE_IDENTIFIER
    split at h
    · cases h
    · rename_i he
      cases h
      exact switch_ok_unchanged _ _ _ _ _ _ (by simp [plx_node_folded, he])
    · rename_i entry he
      split at h
      · rename_i hv0
        cases h
        exact switch_ok_unchanged _ _ _ _ _ _ (by simp [plx_node_folded, he, hv0, plx_node.is_null])
      · rename_i kv vv cv nv tyv hval
        cases h
        apply switch_ok_changed
        intro _ _ hv
        obtain ⟨hk, hcv⟩ := values_leaf_lookup values entry kv vv cv nv tyv hv hval
        subst hcv
        refine ⟨by simp [plx_node.is_null], rfl, hv, ?_⟩
        rw [constant_kind_weight kv hk]
        have e : plx_kind_weight PLX_NODE_IDENTIFIER = 2 := rfl
        have e3 : plx_fold_weight .NULL = 0 := rfl
        omega
  · -- the binary operators and the kinds without a case
    have hk1 : k ≠ PLX_NODE_IDENTIFIER := by assumption
    have hk2 : k ≠ PLX_NODE_CONST_DEF := by assumption
    split at h
    · split at h
      · rename_i kl vl cl kr vr cr tyr tyl
        split at h
        · cases h
          exact switch_ok_unchanged _ _ _ _ _ _ (node_folded_other _ _ _ _ hk1 hk2)
        · split at h
          · cases h
          · cases h
            exact switch_ok_unchanged _ _ _ _ _ _ (node_folded_other _ _ _ _ hk1 hk2)
          · rename_i kind value hb
            cases h
            exact switch_ok_literal _ _ _ _ _ _ _ _ _ (fold_binary_constant _ _ _ _ _ _ _ hb)
              (by rw [fold_weight_node]; have := kind_weight_pos kl; omega)
      · cases h
    · cases h
      exact switch_ok_unchanged _ _ _ _ _ _ (node_folded_other _ _ _ _ hk1 hk2)

theorem fold_from_node (ops : plx_double_ops) (all : Bool) (k : plx_node_kind)
    (v : plx_node_value) (c n ty : plx_node) (values : plx_value_table) :
    plx_fold_constants_from ops all (.node k v c n ty) values =
      match plx_fold_constants_from ops true c values with
      | none => none
      | some (c1, values1, changed1) =>
        match plx_fold_switch ops k v c1 n ty values1 with
        | none => none
        | some (node1, values2, changed2) =>
          if all then
            match plx_fold_constants_from ops true n values2 with
            | none => none
            | some (n1, values3, changed3) =>
              some (node1.set_next n1, values3, (changed1 || changed2) || changed3)
          else some (node1, values2, changed1 || changed2) :=
  rfl

/-- What a call of the folder, or its loop over the children of a node, leaves:
without a change the tree and the values are as before and the constants of the
tree are folded; and when the literal nodes of the tree and the values have no
children, the same holds afterwards and the weight has not grown, and has
decreased with a change. -/
def plx_fold_ok (all : Bool) (node : plx_node) (values : plx_value_table)
    (r : plx_node × plx_value_table × Bool) : Prop :=
  (r.2.2 = false → r.1 = node ∧ r.2.1 = values ∧
    plx_constants_folded values all node = true) ∧
  (plx_literals_leaf node = true → plx_values_leaf values = true →
    plx_literals_leaf r.1 = true ∧ plx_values_leaf r.2.1 = true ∧
    plx_fold_weight r.1 ≤ plx_fold_weight node ∧
    (r.2.2 = true → plx_fold_weight r.1 < plx_fold_weight node) ∧
    (node = .NULL → r.1 = .NULL))

theorem fold_from_spec (ops : plx_double_ops) (node : plx_node) :
    ∀ (all : Bool) (values : plx_value_table) (r : plx_node × plx_value_table × Bool),
      plx_fold_constants_from ops all node values = some r → plx_fold_ok all node values r := by
  induction node with
  | NULL =>
    intro all values r h
    cases all with
    | false => cases h
    | true =>
      cases h
      exact ⟨fun _ => ⟨rfl, rfl, rfl⟩, fun h1 h2 => ⟨h1, h2, le_refl _, fun h => (by cases h),
        fun _ => rfl⟩⟩
  | node k v c n ty ihc ihn _ =>
    intro all values r h
    rw [fold_from_node] at h
    cases hc1 : plx_fold_constants_from ops true c values with
    | none => rw [hc1] at h; cases h
    | some r1 =>
      obtain ⟨c1, values1, changed1⟩ := r1
      rw [hc1] at h
      simp only at h
      obtain ⟨hcf, hcw⟩ := ihc true values _ hc1
      cases hs : plx_fold_switch ops k v c1 n ty values1 with
      | none => rw [hs] at h; cases h
      | some r2 =>
        obtain ⟨node1, values2, changed2⟩ := r2
        rw [hs] at h
        simp only at h
        obtain ⟨hsf, hsw⟩ := fold_switch_spec ops k v c1 n ty values1 _ hs
        simp only at hcf hcw hsf hsw
        have hfix : (changed1 || changed2) = false →
            node1 = .node k v c n ty ∧ values2 = values ∧
            plx_node_folded values k v c = true ∧ plx_constants_folded values true c = true := by
          intro hch
          simp only [Bool.or_eq_false_iff] at hch
          obtain ⟨e1, e2, e3⟩ := hcf hch.1
          obtain ⟨e4, e5, e6⟩ := hsf hch.2
          subst e1 e2
          exact ⟨e4, e5, e6, e3⟩
        have hwt : plx_literals_leaf (.node k v c n ty) = true → plx_values_leaf values = true →
            ∃ k1 v1 c2 ty1, node1 = .node k1 v1 c2 n ty1 ∧
              (!plx_is_constant k1 || c2.is_null) = true ∧ plx_literals_leaf c2 = true ∧
              plx_values_leaf values2 = true ∧
              plx_kind_weight k1 + plx_fold_weight c2 ≤ plx_kind_weight k + plx_fold_weight c ∧
              ((changed1 || changed2) = true →
                plx_kind_weight k1 + plx_fold_weight c2 <
                  plx_kind_weight k + plx_fold_weight c) := by
          intro hl hv
          simp only [literals_leaf_node, Bool.and_eq_true] at hl
          obtain ⟨l1, l2, l3, l4, l5⟩ := hcw hl.1.2 hv
          have hk : (!plx_is_constant k || c1.is_null) = true := by
            have := hl.1.1
            simp only [Bool.or_eq_true, Bool.not_eq_true'] at this ⊢
            rcases this with h0 | h0
            · exact Or.inl h0
            · right
              cases c with
              | NULL => rw [l5 rfl]; rfl
              | node _ _ _ _ _ => cases h0
          obtain ⟨k1, v1, c2, ty1, e, m1, m2, m3, m4, m5⟩ := hsw hk l1 l2
          refine ⟨k1, v1, c2, ty1, e, m1, m2, m3, by omega, ?_⟩
          intro hch
          simp only [Bool.or_eq_true] at hch
          rcases hch with h0 | h0
          · have := l4 h0
            omega
          · have := m5 h0
            omega
        cases all with
        | false =>
          simp only [Bool.false_eq_true, if_false, Option.some.injEq] at h
          subst h
          constructor
          · intro hch
            obtain ⟨e1, e2, e3, e4⟩ := hfix hch
            refine ⟨e1, e2, ?_⟩
            rw [constants_folded_node, e3, e4]
            rfl
          · intro hl hv
            obtain ⟨k1, v1, c2, ty1, e, m1, m2, m3, m4, m5⟩ := hwt hl hv
            subst e
            simp only [literals_leaf_node, Bool.and_eq_true] at hl
            refine ⟨?_, m3, ?_, ?_, fun h0 => by cases h0⟩
            · simp only [literals_leaf_node, Bool.and_eq_true]
              exact ⟨⟨m1, m2⟩, hl.2⟩
            · simp only [fold_weight_node]
              omega
            · intro hch
              have := m5 hch
              simp only [fold_weight_node]
              omega
        | true =>
          simp only [if_true] at h
          cases hn1 : plx_fold_constants_from ops true n values2 with
          | none => rw [hn1] at h; cases h
          | some r3 =>
            obtain ⟨n1, values3, changed3⟩ := r3
            rw [hn1] at h
            simp only [Option.some.injEq] at h
            subst h
            obtain ⟨hnf, hnw⟩ := ihn true values2 _ hn1
            simp only at hnf hnw
            constructor
            · intro hch
              simp only [Bool.or_eq_false_iff] at hch
              obtain ⟨e1, e2, e3, e4⟩ := hfix (by simp [hch.1.1, hch.1.2])
              obtain ⟨e5, e6, e7⟩ := hnf hch.2
              subst e1 e2 e5 e6
              refine ⟨rfl, rfl, ?_⟩
              rw [constants_folded_node, e3, e4]
              simpa using e7
            · intro hl hv
              obtain ⟨k1, v1, c2, ty1, e, m1, m2, m3, m4, m5⟩ := hwt hl hv
              subst e
              simp only [literals_leaf_node, Bool.and_eq_true] at hl
              obtain ⟨q1, q2, q3, q4, _⟩ := hnw hl.2 m3
              refine ⟨?_, q2, ?_, ?_, fun h0 => by cases h0⟩
              · simp only [plx_node.set_next, literals_leaf_node, Bool.and_eq_true]
                exact ⟨⟨m1, m2⟩, q1⟩
              · simp only [plx_node.set_next, fold_weight_node]
                omega
              · intro hch
                simp only [plx_node.set_next, fold_weight_node]
                simp only [Bool.or_eq_true] at hch
                rcases hch with h0 | h0
                · have := m5 (by simpa using h0)
                  omega
                · have := q4 h0
                  omega

theorem fold_loop_ends (ops : plx_double_ops) :
    ∀ (bound : Nat) (node : plx_node) (values : plx_value_table),
      plx_literals_leaf node = true → plx_values_leaf values = true →
      plx_fold_weight node < bound → plx_fold_loop ops bound node values ≠ none := by
  intro bound
  induction bound with
  | zero => intro node values _ _ h; omega
  | succ bound ih =>
    intro node values hl hv hw
    unfold plx_fold_loop
    cases hf : plx_fold_constants ops node values with
    | none => simp
    | some r =>
      obtain ⟨node1, values1, changed⟩ := r
      simp only
      cases changed with
      | false => simp
      | true =>
        simp only [if_true]
        obtain ⟨_, hw1⟩ := fold_from_spec ops node false values _ hf
        obtain ⟨l1, l2, _, l4, _⟩ := hw1 hl hv
        exact ih node1 values1 l1 l2 (by have := l4 rfl; simp only at this; omega)

theorem fold_loop_fixed (ops : plx_double_ops) :
    ∀ (bound : Nat) (node : plx_node) (values : plx_value_table)
      (result : plx_node × plx_value_table),
      plx_fold_loop ops bound node values = some (some result) →
      plx_fold_constants ops result.1 result.2 = some (result.1, result.2, false) := by
  intro bound
  induction bound with
  | zero => intro node values result h; cases h
  | succ bound ih =>
    intro node values result h
    unfold plx_fold_loop at h
    cases hf : plx_fold_constants ops node values with
    | none => rw [hf] at h; cases h
    | some r =>
      obtain ⟨node1, values1, changed⟩ := r
      rw [hf] at h
      simp only at h
      cases changed with
      | true =>
        simp only [if_true] at h
        exact ih node1 values1 result h
      | false =>
        simp only [Bool.false_eq_true, if_false, Option.some.injEq] at h
        subst h
        obtain ⟨hfix, _⟩ := fold_from_spec ops node false values _ hf
        obtain ⟨e1, e2, _⟩ := hfix rfl
        simp only at e1 e2
        subst e1 e2
        exact hf

theorem fold_switch_literal (ops : plx_double_ops) (k : plx_node_kind) (v : plx_node_value)
    (n ty : plx_node) (values : plx_value_table) (h : plx_is_constant k = true) :
    plx_fold_switch ops k v .NULL n ty values = some (.node k v .NULL n ty, values, false) := by
  revert h
  cases k <;> intro h <;> first | rfl | cases h

theorem fold_literal (ops : plx_double_ops) (k : plx_node_kind) (v : plx_node_value)
    (ty : plx_node) (values : plx_value_table) (h : plx_is_constant k = true) :
    plx_fold_constants_from ops true (.node k v .NULL .NULL ty) values =
      some (.node k v .NULL .NULL ty, values, false) := by
  rw [fold_from_node]
  have e : plx_fold_constants_from ops true .NULL values = some (.NULL, values, false) := rfl
  rw [e]
  simp only [fold_switch_literal ops k v .NULL ty values h]
  rfl

theorem fold_switch_identifier (ops : plx_double_ops) (name : String) (entry : Nat)
    (c n ty : plx_node) (values : plx_value_table) :
    plx_fold_switch ops PLX_NODE_IDENTIFIER (.identifier name (some entry)) c n ty values =
      match plx_entry_value values entry with
      | .NULL =>
        some (.node PLX_NODE_IDENTIFIER (.identifier name (some entry)) c n ty, values, false)
      | .node kv vv cv _ tyv => some (.node kv vv cv n tyv, values, true) :=
  rfl

theorem fold_switch_const_def (ops : plx_double_ops) (v : plx_node_value) (kn : plx_node_kind)
    (name : String) (entry : Nat) (cn tyn : plx_node) (kv : plx_node_kind)
    (vv : plx_node_value) (cv tyv n ty : plx_node) (values : plx_value_table) :
    plx_fold_switch ops PLX_NODE_CONST_DEF v
        (.node kn (.identifier name (some entry)) cn (.node kv vv cv .NULL tyv) tyn) n ty values =
      if !plx_is_constant kv then
        some (.node PLX_NODE_CONST_DEF v
          (.node kn (.identifier name (some entry)) cn (.node kv vv cv .NULL tyv) tyn) n ty,
          values, false)
      else
        some (.node PLX_NODE_NOP v .NULL n ty, (entry, .node kv vv cv .NULL tyv) :: values,
          true) :=
  rfl

theorem fold_identifier (ops : plx_double_ops) (all : Bool) (name : String) (entry : Nat)
    (n ty : plx_node) (values : plx_value_table) :
    plx_fold_constants_from ops all
        (.node PLX_NODE_IDENTIFIER (.identifier name (some entry)) .NULL n ty) values =
      match plx_entry_value values entry with
      | .NULL =>
        if all then
          match plx_fold_constants_from ops true n values with
          | none => none
          | some (n1, values3, changed3) =>
            some (.node PLX_NODE_IDENTIFIER (.identifier name (some entry)) .NULL n1 ty, values3,
              changed3)
        else
          some (.node PLX_NODE_IDENTIFIER (.identifier name (some entry)) .NULL n ty, values,
            false)
      | .node kv vv cv _ tyv =>
        if all then
          match plx_fold_constants_from ops true n values with
          | none => none
          | some (n1, values3, _) => some (.node kv vv cv n1 tyv, values3, true)
        else some (.node kv vv cv n tyv, values, true) := by
  rw [fold_from_node]
  have e : plx_fold_constants_from ops true .NULL values = some (.NULL, values, false) := rfl
  rw [e]
  simp only [fold_switch_identifier]
  cases plx_entry_value values entry with
  | NULL =>
    cases all
    · rfl
    · simp only [if_true]
      cases plx_fold_constants_from ops true n values <;> simp [plx_node.set_next]
  | node kv vv cv nv tyv =>
    cases all
    · rfl
    · simp only [if_true]
      cases plx_fold_constants_from ops true n values <;> simp [plx_node.set_next]

set_option maxRecDepth 1000000 in
/-- C23: For a tree whose literal nodes have no children, as the parser builds
them, and values of entries that are such literal nodes, the loop
`while (plx_fold_constants(module)) {}` ends within as many calls as the tree
has nodes, identifier nodes counted twice, and one more: a call returns `false`
or a call has undefined behaviour; and the tree the loop ends with is one on
which `plx_fold_constants` returns `false`.  The first call on the module of
`func f() -> s32 { return 1 / 0; }` divides by zero, so that no call returns
`false`; the loop on the module of
`const a = 1 + 2; func f() -> s32 { if a < 4 { return a; } return 0; }` ends with
a call that returns `false`. -/
theorem plx_fold_constants_terminates (ops : plx_double_ops) (module : plx_node)
    (values : plx_value_table) (hmodule : plx_literals_leaf module = true)
    (hvalues : plx_values_leaf values = true) :
    (∀ bound, plx_fold_weight module < bound → plx_fold_loop ops bound module values ≠ none) ∧
    (∀ bound result, plx_fold_loop ops bound module values = some (some result) →
      plx_fold_constants ops result.1 result.2 = some (result.1, result.2, false)) ∧
    plx_fold_constants ops (plx_checked_source "func f() -> s32 { return 1 / 0; }") [] = none ∧
    plx_fold_source ops "func f() -> s32 { return 1 / 0; }" = some none ∧
    ((plx_fold_source ops
      "const a = 1 + 2; func f() -> s32 { if a < 4 { return a; } return 0; }").getD
        none).isSome = true :=
  ⟨fun bound h => fold_loop_ends ops bound module values hmodule hvalues h,
    fun bound result h => fold_loop_fixed ops bound module values result h,
    of_decide_eq_true rfl, of_decide_eq_true rfl, of_decide_eq_true rfl⟩

set_option maxRecDepth 1000000 in
/-- Witness for C23: the module of
`const a = 1 + 2; func f() -> s32 { return a; }` after `plx_resolve_names` and
`plx_type_check`, of weight 16. -/
theorem plx_fold_constants_terminates_witness :
    plx_fold_loop plx_double_first 17
      (plx_checked_source "const a = 1 + 2; func f() -> s32 { return a; }") [] ≠ none :=
  (plx_fold_constants_terminates plx_double_first
    (plx_checked_source "const a = 1 + 2; func f() -> s32 { return a; }") []
    (by decide) (by decide)).1 17 (by decide)

set_option maxRecDepth 1000000 in
/-- C24: When a call of `plx_fold_constants` returns `false`, it has left the
tree and the values of the entries as they were, and in the tree no identifier
node has an entry with a stored value and no const definition with a resolved
name has a literal as value: every such node would have been changed.  The call
on an identifier node whose entry has a stored value replaces the node by a node
with the kind, union, children and type of the value and the `next` of the
identifier node, and returns `true`; the call on a const definition with a
resolved name and a literal as value stores the literal in the entry, makes the
node a `PLX_NODE_NOP` without children and returns `true`.  The loop on the
module of `const a = 1 + 2; func f() -> s32 { return a; }` ends with the
definition of `a` replaced by a nop, the value `3` of kind `PLX_NODE_S32` stored
in the entry of `a`, and the use of `a` replaced by that literal. -/
theorem plx_fold_constants_literals (ops : plx_double_ops) (node node1 : plx_node)
    (values values1 : plx_value_table)
    (h : plx_fold_constants ops node values = some (node1, values1, false)) :
    (node1 = node ∧ values1 = values ∧ plx_constants_folded values false node = true) ∧
    (∀ name entry n ty kv vv cv nv tyv,
      plx_entry_value values entry = .node kv vv cv nv tyv →
      plx_fold_constants ops
          (.node PLX_NODE_IDENTIFIER (.identifier name (some entry)) .NULL n ty) values =
        some (.node kv vv cv n tyv, values, true)) ∧
    (∀ v name entry tyn kv vv tyv n ty,
      plx_is_constant kv = true → plx_entry_value values entry = .NULL →
      plx_fold_constants ops
          (.node PLX_NODE_CONST_DEF v
            (.node PLX_NODE_IDENTIFIER (.identifier name (some entry)) .NULL
              (.node kv vv .NULL .NULL tyv) tyn) n ty) values =
        some (.node PLX_NODE_NOP v .NULL n ty, (entry, .node kv vv .NULL .NULL tyv) :: values,
          true) ∧
      plx_entry_value ((entry, .node kv vv .NULL .NULL tyv) :: values) entry =
        .node kv vv .NULL .NULL tyv) ∧
    (plx_fold_source ops "const a = 1 + 2; func f() -> s32 { return a; }").map
        (fun r => r.map fun x => (plx_erase_types x.1, x.2.map fun p => (p.1, plx_erase_types p.2))) =
      some (some (plx_node_of PLX_NODE_MODULE
        [plx_new_node PLX_NODE_NOP,
          plx_node_of PLX_NODE_FUNC_DEF
            [(plx_new_node PLX_NODE_IDENTIFIER).set_value (.identifier "f" (some 1)),
              plx_new_node PLX_NODE_OTHER, plx_new_node PLX_NODE_S32_TYPE,
              plx_node_of PLX_NODE_BLOCK
                [plx_node_of PLX_NODE_RETURN
                  [(plx_new_node PLX_NODE_S32).set_value (.sint 3)]]]],
        [(0, (plx_new_node PLX_NODE_S32).set_value (.sint 3))])) := by
  refine ⟨?_, ?_, ?_, of_decide_eq_true rfl⟩
  · exact (fold_from_spec ops node false values _ h).1 rfl
  · intro name entry n ty kv vv cv nv tyv hv
    unfold plx_fold_constants
    rw [fold_identifier, hv]
    rfl
  · intro v name entry tyn kv vv tyv n ty hk hv
    constructor
    · unfold plx_fold_constants
      rw [fold_from_node, fold_identifier, hv]
      simp only [if_true, fold_literal ops kv vv tyv values hk, fold_switch_const_def]
      simp [hk]
    · simp [plx_entry_value, List.lookup]

set_option maxRecDepth 1000000 in
/-- Witness for C24: the tree and the values that the loop ends with on the
module of `const a = 1 + 2; func f() -> s32 { return a; }`. -/
theorem plx_fold_constants_literals_witness :
    plx_constants_folded
      (plx_folded_source plx_double_first "const a = 1 + 2; func f() -> s32 { return a; }").2
      false
      (plx_folded_source plx_double_first "const a = 1 + 2; func f() -> s32 { return a; }").1 =
      true :=
  (plx_fold_constants_literals plx_double_first
    (plx_folded_source plx_double_first "const a = 1 + 2; func f() -> s32 { return a; }").1
    (plx_folded_source plx_double_first "const a = 1 + 2; func f() -> s32 { return a; }").1
    (plx_folded_source plx_double_first "const a = 1 + 2; func f() -> s32 { return a; }").2
    (plx_folded_source plx_double_first "const a = 1 + 2; func f() -> s32 { return a; }").2
    (by decide)).1.2.2

/-! ## `src/llvm_ir_generator.c`

The generator writes text to a stream and numbers the unnamed identifiers of a
function with a counter of type `plx_llvm_unnamed_identifier`, which is
`unsigned int`.  A generator function of the model takes the state (the text
written so far, the counter `locals` of the function being generated and the
members `llvm_local_var` of the symbol table entries) and returns its result and
the new state; `none` says that the C function fails an assertion or has
undefined behaviour (it reads a pointer that `plx_extract_children` has left
uninitialised, reads through a null pointer or calls `va_arg` for an argument
that is missing or of another type).  The three generator functions call each
other; a bound on the depth of the calls makes them definitions by recursion,
and `none` is also what they return when the bound is reached.  The state
records in `allocated`, which the C program does not have, the values of the
expressions `locals++` and `(*locals)++` in the order of their evaluation. -/

/-- Number of value bits of `unsigned int`. -/
def UINT_BITS : Nat := 32

/-- What the generator takes from outside the tree: the text `fprintf` writes
for a `double` with `%f`, and the symbol table entries whose member `scope` is
`PLX_SYMBOL_SCOPE_GLOBAL`. -/
structure plx_llvm_env where
  printf_f : Nat × Nat × Nat → String
  globals : List Nat

/-- The state of the generator. -/
structure plx_llvm_state where
  stream : String
  locals : Nat
  llvm_local_var : List (Nat × Nat)
  allocated : List Nat
  deriving DecidableEq

/-- A generator function with a result of type `α`. -/
def plx_llvm (α : Type) : Type := plx_llvm_state → Option (α × plx_llvm_state)

/-- A `return`. -/
def plx_llvm_pure {α : Type} (a : α) : plx_llvm α := fun st => some (a, st)

/-- Sequencing of two statements. -/
def plx_llvm_bind {α β : Type} (m : plx_llvm α) (f : α → plx_llvm β) : plx_llvm β :=
  fun st =>
    match m st with
    | none => none
    | some (a, st1) => f a st1

instance : Monad plx_llvm where
  pure := plx_llvm_pure
  bind := plx_llvm_bind

/-- A failed assertion or undefined behaviour. -/
def plx_llvm_fail {α : Type} : plx_llvm α := fun _ => none

/-- A value that is read without a change of the state, `none` when reading it
is undefined. -/
def plx_llvm_lift {α : Type} (x : Option α) : plx_llvm α := fun st => x.map fun a => (a, st)

/-- `assert(condition)`. -/
def plx_llvm_assert (condition : Bool) : plx_llvm Unit :=
  if condition then plx_llvm_pure () else plx_llvm_fail

/-- `fputs(text, stream)`. -/
def plx_llvm_fputs (text : String) : plx_llvm Unit :=
  fun st => some ((), { st with stream := st.stream ++ text })

/-- The expressions `locals++` and `(*locals)++`: the value of the counter, which
is then incremented. -/
def plx_llvm_alloc : plx_llvm Nat :=
  fun st =>
    some (st.locals,
      { st with locals := (st.locals + 1) % 2 ^ UINT_BITS,
                allocated := st.allocated ++ [st.locals] })

/-- The statement `++locals;`. -/
def plx_llvm_reserve : plx_llvm Unit :=
  fun st => some ((), { st with locals := (st.locals + 1) % 2 ^ UINT_BITS })

/-- The declaration `plx_llvm_unnamed_identifier locals = 0;`. -/
def plx_llvm_reset : plx_llvm Unit := fun st => some ((), { st with locals := 0 })

/-- The value of `*locals`. -/
def plx_llvm_get_locals : plx_llvm Nat := fun st => some (st.locals, st)

/-- The member `name->entry` of an identifier node; reading it through a null
pointer or in a union that holds no identifier is undefined. -/
def plx_llvm_entry (node : plx_node) : Option Nat :=
  match node with
  | .node _ (.identifier _ (some entry)) _ _ _ => some entry
  | _ => none

/-- The member `node->name` of an identifier node. -/
def plx_llvm_name (node : plx_node) : Option String :=
  match node with
  | .node _ (.identifier name _) _ _ _ => some name
  | _ => none

/-- The assignment `name->entry->llvm_local_var = value`. -/
def plx_llvm_set_local_var (name : plx_node) (value : Nat) : plx_llvm Unit :=
  fun st =>
    match plx_llvm_entry name with
    | none => none
    | some entry => some ((), { st with llvm_local_var := (entry, value) :: st.llvm_local_var })

/-- The member `node->entry->llvm_local_var`, zero as `plx_declare_symbol`
leaves it. -/
def plx_llvm_get_local_var (node : plx_node) : plx_llvm Nat :=
  fun st =>
    match plx_llvm_entry node with
    | none => none
    | some entry => some ((st.llvm_local_var.lookup entry).getD 0, st)

/-- Whether `node->entry->scope` is `PLX_SYMBOL_SCOPE_GLOBAL`. -/
def plx_llvm_is_global (env : plx_llvm_env) (node : plx_node) : Option Bool :=
  (plx_llvm_entry node).map fun entry => decide (entry ∈ env.globals)

/-- The loops `for (x = first; x != NULL; x = x->next) body(x);`. -/
def plx_llvm_for_each (body : plx_node → plx_llvm Unit) : plx_node → plx_llvm Unit
  | .NULL => plx_llvm_pure ()
  | .node k v c n ty =>
    plx_llvm_bind (body (.node k v c n ty)) fun _ => plx_llvm_for_each body n

/-- `plx_extract_children(node, &a)` for a node with the first child `c`, where
`a` is then read. -/
def plx_extract1 (c : plx_node) : Option plx_node :=
  match c with
  | .node k v c1 .NULL ty => some (.node k v c1 .NULL ty)
  | _ => none

/-- `plx_extract_children(node, &a, &b)`, where `a` and `b` are then read. -/
def plx_extract2 (c : plx_node) : Option (plx_node × plx_node) :=
  match c with
  | .node k v c1 (.node k2 v2 c2 .NULL ty2) ty =>
    some (.node k v c1 (.node k2 v2 c2 .NULL ty2) ty, .node k2 v2 c2 .NULL ty2)
  | _ => none

/-- `plx_extract_children(node, &a, &b, &c)`, where the three are then read. -/
def plx_extract3 (c : plx_node) : Option (plx_node × plx_node × plx_node) :=
  match c with
  | .node _ _ _ (.node k2 v2 c2 (.node k3 v3 c3 .NULL ty3) ty2) _ =>
    some (c, .node k2 v2 c2 (.node k3 v3 c3 .NULL ty3) ty2, .node k3 v3 c3 .NULL ty3)
  | _ => none

/-- `plx_extract_children(node, &a, &b, &c, &d)`, where the four are then
read. -/
def plx_extract4 (c : plx_node) : Option (plx_node × plx_node × plx_node × plx_node) :=
  match c with
  | .node _ _ _ (.node k2 v2 c2 (.node k3 v3 c3 (.node k4 v4 c4 .NULL ty4) ty3) ty2) _ =>
    some (c, .node k2 v2 c2 (.node k3 v3 c3 (.node k4 v4 c4 .NULL ty4) ty3) ty2,
      .node k3 v3 c3 (.node k4 v4 c4 .NULL ty4) ty3, .node k4 v4 c4 .NULL ty4)
  | _ => none

/-- `plx_generate_llvm_ir_constant`: the text written. -/
def plx_generate_llvm_ir_constant (env : plx_llvm_env) (node : plx_node) : Option String :=
  match node with
  | .NULL => none
  | .node k v _ _ _ =>
    match plx_literal_class_of k with
    | .sint => (plx_value_sint v).map fun x => toString x
    | .uint => (plx_value_uint v).map fun x => toString x
    | .float => (plx_value_f v).map env.printf_f
    | .bool => (plx_value_b v).map fun x => if x then "true" else "false"
    | .other => none

/-- `plx_generate_llvm_ir_type`: the text written. -/
def plx_generate_llvm_ir_type (env : plx_llvm_env) : plx_node → Option String
  | .NULL => none
  | .node k _ c _ _ =>
    match k with
    | PLX_NODE_VOID_TYPE => some "void"
    | PLX_NODE_S8_TYPE | PLX_NODE_U8_TYPE => some "i8"
    | PLX_NODE_S16_TYPE | PLX_NODE_U16_TYPE => some "i16"
    | PLX_NODE_S32_TYPE | PLX_NODE_U32_TYPE => some "i32"
    | PLX_NODE_S64_TYPE | PLX_NODE_U64_TYPE => some "i64"
    | PLX_NODE_F16_TYPE => some "half"
    | PLX_NODE_F32_TYPE => some "float"
    | PLX_NODE_F64_TYPE => some "double"
    | PLX_NODE_BOOL_TYPE => some "i1"
    | PLX_NODE_STRING_TYPE => none
    | PLX_NODE_FUNC_TYPE | PLX_NODE_REF_TYPE => some "ptr"
    | PLX_NODE_ARRAY_TYPE =>
      match c with
      | .node kl vl cl (.node ke ve ce .NULL tye) tyl =>
        match plx_generate_llvm_ir_constant env (.node kl vl cl (.node ke ve ce .NULL tye) tyl),
          plx_generate_llvm_ir_type env (.node ke ve ce .NULL tye) with
        | some len, some element_type => some ("[" ++ len ++ " x " ++ element_type ++ "]")
        | _, _ => none
      | _ => none
    | PLX_NODE_SLICE_TYPE => some "\x7b i64, ptr \x7d"
    | _ => none

/-- An argument of `fprintf` or `plx_llvm_ir_fprintf`, by its type: `unsigned`,
`long long`, `unsigned long long`, `double`, `const char *`, and the nodes
that `%t` and `%c` take. -/
inductive plx_printf_arg where
  | u (value : Nat)
  | lld (value : Int)
  | llu (value : Nat)
  | f (value : Nat × Nat × Nat)
  | s (value : String)
  | t (type : plx_node)
  | c (node : plx_node)

/-- The text `fprintf` writes for a format with the conversions `%u`, `%lld`,
`%llu`, `%f`, `%s` and `%%`. -/
def plx_fprintf_text (env : plx_llvm_env) : List Char → List plx_printf_arg → Option String
  | [], _ => some ""
  | '%' :: '%' :: format, args => (plx_fprintf_text env format args).map fun s => "%" ++ s
  | '%' :: 'u' :: format, .u x :: args =>
    (plx_fprintf_text env format args).map fun s => toString x ++ s
  | '%' :: 'l' :: 'l' :: 'd' :: format, .lld x :: args =>
    (plx_fprintf_text env format args).map fun s => toString x ++ s
  | '%' :: 'l' :: 'l' :: 'u' :: format, .llu x :: args =>
    (plx_fprintf_text env format args).map fun s => toString x ++ s
  | '%' :: 'f' :: format, .f x :: args =>
    (plx_fprintf_text env format args).map fun s => env.printf_f x ++ s
  | '%' :: 's' :: format, .s x :: args =>
    (plx_fprintf_text env format args).map fun s => x ++ s
  | '%' :: _, _ => none
  | ch :: format, args => (plx_fprintf_text env format args).map fun s => String.singleton ch ++ s

/-- `fprintf(stream, format, ...)`. -/
def plx_fprintf (env : plx_llvm_env) (format : String) (args : List plx_printf_arg) :
    plx_llvm Unit :=
  plx_llvm_bind (plx_llvm_lift (plx_fprintf_text env format.toList args)) plx_llvm_fputs

/-- The text `plx_llvm_ir_fprintf` writes: `%c` takes a constant, `%s` a string,
`%t` a type and `%u` an unnamed identifier, `%%` writes `%`, and another
character after `%` fails the assertion. -/
def plx_llvm_ir_fprintf_text (env : plx_llvm_env) :
    List Char → List plx_printf_arg → Option String
  | [], _ => some ""
  | '%' :: 'c' :: format, .c node :: args =>
    match plx_generate_llvm_ir_constant env node, plx_llvm_ir_fprintf_text env format args with
    | some x, some s => some (x ++ s)
    | _, _ => none
  | '%' :: 's' :: format, .s x :: args =>
    (plx_llvm_ir_fprintf_text env format args).map fun s => x ++ s
  | '%' :: 't' :: format, .t type :: args =>
    match plx_generate_llvm_ir_type env type, plx_llvm_ir_fprintf_text env format args with
    | some x, some s => some (x ++ s)
    | _, _ => none
  | '%' :: 'u' :: format, .u x :: args =>
    (plx_llvm_ir_fprintf_text env format args).map fun s => toString x ++ s
  | '%' :: '%' :: format, args =>
    (plx_llvm_ir_fprintf_text env format args).map fun s => "%" ++ s
  | '%' :: _, _ => none
  | ch :: format, args =>
    (plx_llvm_ir_fprintf_text env format args).map fun s => String.singleton ch ++ s

/-- `plx_llvm_ir_fprintf(stream, format, ...)`. -/
def plx_llvm_ir_fprintf (env : plx_llvm_env) (format : String) (args : List plx_printf_arg) :
    plx_llvm Unit :=
  plx_llvm_bind (plx_llvm_lift (plx_llvm_ir_fprintf_text env format.toList args)) plx_llvm_fputs

/-- The member `node->type->kind`. -/
def plx_llvm_type_kind (node : plx_node) : Option plx_node_kind := node.type.kind?

/-- The format string of the `fprintf` in the inner `switch (assignee->type->kind)` of
the case of a compound assignment in `plx_generate_llvm_ir_stmt`; `none` in the
`default` case, `assert(false)`. -/
def plx_llvm_assign_format (kind type_kind : plx_node_kind) : Option String :=
  match kind with
  | PLX_NODE_ADD_ASSIGN =>
    match type_kind with
    | PLX_NODE_S8_TYPE | PLX_NODE_U8_TYPE =>
      some
        ("  %%%u = load i8, ptr %%%u\n" ++
          "  %%%u = add i8 %%%u, %%%u\n" ++
          "  store i8 %%%u, ptr %%%u\n")
    | PLX_NODE_S16_TYPE | PLX_NODE_U16_TYPE =>
      some
        ("  %%%u = load i16, ptr %%%u\n" ++
          "  %%%u = add i16 %%%u, %%%u\n" ++
          "  store i16 %%%u, ptr %%%u\n")
    | PLX_NODE_S32_TYPE | PLX_NODE_U32_TYPE =>
      some
        ("  %%%u = load i32, ptr %%%u\n" ++
          "  %%%u = add i32 %%%u, %%%u\n" ++
          "  store i32 %%%u, ptr %%%u\n")
    | PLX_NODE_S64_TYPE | PLX_NODE_U64_TYPE =>
      some
        ("  %%%u = load i64, ptr %%%u\n" ++
          "  %%%u = add i64 %%%u, %%%u\n" ++
          "  store i64 %%%u, ptr %%%u\n")
    | PLX_NODE_F16_TYPE =>
      some
        ("  %%%u = load half, ptr %%%u\n" ++
          "  %%%u = fadd fast half %%%u, %%%u\n" ++
          "  store half %%%u, ptr %%%u\n")
    | PLX_NODE_F32_TYPE =>
      some
        ("  %%%u = load float, ptr %%%u\n" ++
          "  %%%u = fadd fast float %%%u, %%%u\n" ++
          "  store float %%%u, ptr %%%u\n")
    | PLX_NODE_F64_TYPE =>
      some
        ("  %%%u = load double, ptr %%%u\n" ++
          "  %%%u = fadd fast double %%%u, %%%u\n" ++
          "  store double %%%u, ptr %%%u\n")
    | _ => none
  | PLX_NODE_SUB_ASSIGN =>
    match type_kind with
    | PLX_NODE_S8_TYPE | PLX_NODE_U8_TYPE =>
      some
        ("  %%%u = load i8, ptr %%%u\n" ++
          "  %%%u = sub i8 %%%u, %%%u\n" ++
          "  store i8 %%%u, ptr %%%u\n")
    | PLX_NODE_S16_TYPE | PLX_NODE_U16_TYPE =>
      some
        ("  %%%u = load i16, ptr %%%u\n" ++
          "  %%%u = sub i16 %%%u, %%%u\n" ++
          "  store i16 %%%u, ptr %%%u\n")
    | PLX_NODE_S32_TYPE | PLX_NODE_U32_TYPE =>
      some
        ("  %%%u = load i32, ptr %%%u\n" ++
          "  %%%u = sub i32 %%%u, %%%u\n" ++
          "  store i32 %%%u, ptr %%%u\n")
    | PLX_NODE_S64_TYPE | PLX_NODE_U64_TYPE =>
      some
        ("  %%%u = load i64, ptr %%%u\n" ++
          "  %%%u = sub i64 %%%u, %%%u\n" ++
          "  store i64 %%%u, ptr %%%u\n")
    | PLX_NODE_F16_TYPE =>
      some
        ("  %%%u = load half, ptr %%%u\n" ++
          "  %%%u = fsub fast half %%%u, %%%u\n" ++
          "  store half %%%u, ptr %%%u\n")
    | PLX_NODE_F32_TYPE =>
      some
        ("  %%%u = load float, ptr %%%u\n" ++
          "  %%%u = fsub fast float %%%u, %%%u\n" ++
          "  store float %%%u, ptr %%%u\n")
    | PLX_NODE_F64_TYPE =>
      some
        ("  %%%u = load double, ptr %%%u\n" ++
          "  %%%u = fsub fast double %%%u, %%%u\n" ++
          "  store double %%%u, ptr %%%u\n")
    | _ => none
  | PLX_NODE_MUL_ASSIGN =>
    match type_kind with
    | PLX_NODE_S8_TYPE | PLX_NODE_U8_TYPE =>
      some
        ("  %%%u = load i8, ptr %%%u\n" ++
          "  %%%u = mul i8 %%%u, %%%u\n" ++
          "  store i8 %%%u, ptr %%%u\n")
    | PLX_NODE_S16_TYPE | PLX_NODE_U16_TYPE =>
      some
        ("  %%%u = load i16, ptr %%%u\n" ++
          "  %%%u = mul i16 %%%u, %%%u\n" ++
          "  store i16 %%%u, ptr %%%u\n")
    | PLX_NODE_S32_TYPE | PLX_NODE_U32_TYPE =>
      some
        ("  %%%u = load i32, ptr %%%u\n" ++
          "  %%%u = mul i32 %%%u, %%%u\n" ++
          "  store i32 %%%u, ptr %%%u\n")
    | PLX_NODE_S64_TYPE | PLX_NODE_U64_TYPE =>
      some
        ("  %%%u = load i64, ptr %%%u\n" ++
          "  %%%u = mul i64 %%%u, %%%u\n" ++
          "  store i64 %%%u, ptr %%%u\n")
    | PLX_NODE_F16_TYPE =>
      some
        ("  %%%u = load half, ptr %%%u\n" ++
          "  %%%u = fmul fast half %%%u, %%%u\n" ++
          "  store half %%%u, ptr %%%u\n")
    | PLX_NODE_F32_TYPE =>
      some
        ("  %%%u = load float, ptr %%%u\n" ++
          "  %%%u = fmul fast float %%%u, %%%u\n" ++
          "  store float %%%u, ptr %%%u\n")
    | PLX_NODE_F64_TYPE =>
      some
        ("  %%%u = load double, ptr %%%u\n" ++
          "  %%%u = fmul fast double %%%u, %%%u\n" ++
          "  store double %%%u, ptr %%%u\n")
    | _ => none
  | PLX_NODE_DIV_ASSIGN =>
    match type_kind with
    | PLX_NODE_S8_TYPE =>
      some
        ("  %%%u = load i8, ptr %%%u\n" ++
          "  %%%u = sdiv i8 %%%u, %%%u\n" ++
          "  store i8 %%%u, ptr %%%u\n")
    | PLX_NODE_S16_TYPE =>
      some
        ("  %%%u = load i16, ptr %%%u\n" ++
          "  %%%u = sdiv i16 %%%u, %%%u\n" ++
          "  store i16 %%%u, ptr %%%u\n")
    | PLX_NODE_S32_TYPE =>
      some
        ("  %%%u = load i32, ptr %%%u\n" ++
          "  %%%u = sdiv i32 %%%u, %%%u\n" ++
          "  store i32 %%%u, ptr %%%u\n")
    | PLX_NODE_S64_TYPE =>
      some
        ("  %%%u = load i64, ptr %%%u\n" ++
          "  %%%u = sdiv i64 %%%u, %%%u\n" ++
          "  store i64 %%%u, ptr %%%u\n")
    | PLX_NODE_U8_TYPE =>
      some
        ("  %%%u = load i8, ptr %%%u\n" ++
          "  %%%u = udiv i8 %%%u, %%%u\n" ++
          "  store i8 %%%u, ptr %%%u\n")
    | PLX_NODE_U16_TYPE =>
      some
        ("  %%%u = load i16, ptr %%%u\n" ++
          "  %%%u = udiv i16 %%%u, %%%u\n" ++
          "  store i16 %%%u, ptr %%%u\n")
    | PLX_NODE_U32_TYPE =>
      some
        ("  %%%u = load i32, ptr %%%u\n" ++
          "  %%%u = udiv i32 %%%u, %%%u\n" ++
          "  store i32 %%%u, ptr %%%u\n")
    | PLX_NODE_U64_TYPE =>
      some
        ("  %%%u = load i64, ptr %%%u\n" ++
          "  %%%u = udiv i64 %%%u, %%%u\n" ++
          "  store i64 %%%u, ptr %%%u\n")
    | PLX_NODE_F16_TYPE =>
      some
        ("  %%%u = load half, ptr %%%u\n" ++
          "  %%%u = fdiv fast half %%%u, %%%u\n" ++
          "  store half %%%u, ptr %%%u\n")
    | PLX_NODE_F32_TYPE =>
      some
        ("  %%%u = load float, ptr %%%u\n" ++
          "  %%%u = fdiv fast float %%%u, %%%u\n" ++
          "  store float %%%u, ptr %%%u\n")
    | PLX_NODE_F64_TYPE =>
      some
        ("  %%%u = load double, ptr %%%u\n" ++
          "  %%%u = fdiv fast double %%%u, %%%u\n" ++
          "  store double %%%u, ptr %%%u\n")
    | _ => none
  | PLX_NODE_REM_ASSIGN =>
    match type_kind with
    | PLX_NODE_S8_TYPE =>
      some
        ("  %%%u = load i8, ptr %%%u\n" ++
          "  %%%u = srem i8 %%%u, %%%u\n" ++
          "  store i8 %%%u, ptr %%%u\n")
    | PLX_NODE_S16_TYPE =>
      some
        ("  %%%u = load i16, ptr %%%u\n" ++
          "  %%%u = srem i16 %%%u, %%%u\n" ++
          "  store i16 %%%u, ptr %%%u\n")
    | PLX_NODE_S32_TYPE =>
      some
        ("  %%%u = load i32, ptr %%%u\n" ++
          "  %%%u = srem i32 %%%u, %%%u\n" ++
          "  store i32 %%%u, ptr %%%u\n")
    | PLX_NODE_S64_TYPE =>
      some
        ("  %%%u = load i64, ptr %%%u\n" ++
          "  %%%u = srem i64 %%%u, %%%u\n" ++
          "  store i64 %%%u, ptr %%%u\n")
    | PLX_NODE_U8_TYPE =>
      some
        ("  %%%u = load i8, ptr %%%u\n" ++
          "  %%%u = urem i8 %%%u, %%%u\n" ++
          "  store i8 %%%u, ptr %%%u\n")
    | PLX_NODE_U16_TYPE =>
      some
        ("  %%%u = load i16, ptr %%%u\n" ++
          "  %%%u = urem i16 %%%u, %%%u\n" ++
          "  store i16 %%%u, ptr %%%u\n")
    | PLX_NODE_U32_TYPE =>
      some
        ("  %%%u = load i32, ptr %%%u\n" ++
          "  %%%u = urem i32 %%%u, %%%u\n" ++
          "  store i32 %%%u, ptr %%%u\n")
    | PLX_NODE_U64_TYPE =>
      some
        ("  %%%u = load i64, ptr %%%u\n" ++
          "  %%%u = urem i64 %%%u, %%%u\n" ++
          "  store i64 %%%u, ptr %%%u\n")
    | _ => none
  | PLX_NODE_LSHIFT_ASSIGN =>
    match type_kind with
    | PLX_NODE_S8_TYPE | PLX_NODE_U8_TYPE =>
      some
        ("  %%%u = load i8, ptr %%%u\n" ++
          "  %%%u = shl i8 %%%u, %%%u\n" ++
          "  store i8 %%%u, ptr %%%u\n")
    | PLX_NODE_S16_TYPE | PLX_NODE_U16_TYPE =>
      some
        ("  %%%u = load i16, ptr %%%u\n" ++
          "  %%%u = shl i16 %%%u, %%%u\n" ++
          "  store i16 %%%u, ptr %%%u\n")
    | PLX_NODE_S32_TYPE | PLX_NODE_U32_TYPE =>
      some
        ("  %%%u = load i32, ptr %%%u\n" ++
          "  %%%u = shl i32 %%%u, %%%u\n" ++
          "  store i32 %%%u, ptr %%%u\n")
    | PLX_NODE_S64_TYPE | PLX_NODE_U64_TYPE =>
      some
        ("  %%%u = load i64, ptr %%%u\n" ++
          "  %%%u = shl i64 %%%u, %%%u\n" ++
          "  store i64 %%%u, ptr %%%u\n")
    | _ => none
  | PLX_NODE_RSHIFT_ASSIGN =>
    match type_kind with
    | PLX_NODE_S8_TYPE | PLX_NODE_U8_TYPE =>
      some
        ("  %%%u = load i8, ptr %%%u\n" ++
          "  %%%u = lshr i8 %%%u, %%%u\n" ++
          "  store i8 %%%u, ptr %%%u\n")
    | PLX_NODE_S16_TYPE | PLX_NODE_U16_TYPE =>
      some
        ("  %%%u = load i16, ptr %%%u\n" ++
          "  %%%u = lshr i16 %%%u, %%%u\n" ++
          "  store i16 %%%u, ptr %%%u\n")
    | PLX_NODE_S32_TYPE | PLX_NODE_U32_TYPE =>
      some
        ("  %%%u = load i32, ptr %%%u\n" ++
          "  %%%u = lshr i32 %%%u, %%%u\n" ++
          "  store i32 %%%u, ptr %%%u\n")
    | PLX_NODE_S64_TYPE | PLX_NODE_U64_TYPE =>
      some
        ("  %%%u = load i64, ptr %%%u\n" ++
          "  %%%u = lshr i64 %%%u, %%%u\n" ++
          "  store i64 %%%u, ptr %%%u\n")
    | _ => none
  | _ => none

/-- The format string of the `fprintf` in the inner `switch` of the case of a binary
operator in `plx_generate_llvm_ir_expr`, on `node->type->kind` or, in the cases
of the comparisons, on `left->type->kind`; `none` in the `default` case,
`assert(false)`. -/
def plx_llvm_binary_format (kind type_kind : plx_node_kind) : Option String :=
  match kind with
  | PLX_NODE_AND =>
    match type_kind with
    | PLX_NODE_S8_TYPE | PLX_NODE_U8_TYPE => some "  %%%u = and i8 %%%u, %%%u\n"
    | PLX_NODE_S16_TYPE | PLX_NODE_U16_TYPE => some "  %%%u = and i16 %%%u, %%%u\n"
    | PLX_NODE_S32_TYPE | PLX_NODE_U32_TYPE => some "  %%%u = and i32 %%%u, %%%u\n"
    | PLX_NODE_S64_TYPE | PLX_NODE_U64_TYPE => some "  %%%u = and i64 %%%u, %%%u\n"
    | PLX_NODE_BOOL_TYPE => some "  %%%u = and i1 %%%u, %%%u\n"
    | _ => none
  | PLX_NODE_OR =>
    match type_kind with
    | PLX_NODE_S8_TYPE | PLX_NODE_U8_TYPE => some "  %%%u = or i8 %%%u, %%%u\n"
    | PLX_NODE_S16_TYPE | PLX_NODE_U16_TYPE => some "  %%%u = or i16 %%%u, %%%u\n"
    | PLX_NODE_S32_TYPE | PLX_NODE_U32_TYPE => some "  %%%u = or i32 %%%u, %%%u\n"
    | PLX_NODE_S64_TYPE | PLX_NODE_U64_TYPE => some "  %%%u = or i64 %%%u, %%%u\n"
    | PLX_NODE_BOOL_TYPE => some "  %%%u = or i1 %%%u, %%%u\n"
    | _ => none
  | PLX_NODE_XOR =>
    match type_kind with
    | PLX_NODE_S8_TYPE | PLX_NODE_U8_TYPE => some "  %%%u = xor i8 %%%u, %%%u\n"
    | PLX_NODE_S16_TYPE | PLX_NODE_U16_TYPE => some "  %%%u = xor i16 %%%u, %%%u\n"
    | PLX_NODE_S32_TYPE | PLX_NODE_U32_TYPE => some "  %%%u = xor i32 %%%u, %%%u\n"
    | PLX_NODE_S64_TYPE | PLX_NODE_U64_TYPE => some "  %%%u = xor i64 %%%u, %%%u\n"
    | PLX_NODE_BOOL_TYPE => some "  %%%u = xor i1 %%%u, %%%u\n"
    | _ => none
  | PLX_NODE_EQ =>
    match type_kind with
    | PLX_NODE_S8_TYPE | PLX_NODE_U8_TYPE => some "  %%%u = icmp eq i8 %%%u, %%%u\n"
    | PLX_NODE_S16_TYPE | PLX_NODE_U16_TYPE => some "  %%%u = icmp eq i16 %%%u, %%%u\n"
    | PLX_NODE_S32_TYPE | PLX_NODE_U32_TYPE => some "  %%%u = icmp eq i32 %%%u, %%%u\n"
    | PLX_NODE_S64_TYPE | PLX_NODE_U64_TYPE => some "  %%%u = icmp eq i64 %%%u, %%%u\n"
    | PLX_NODE_F16_TYPE => some "  %%%u = fcmp oeq half %%%u, %%%u\n"
    | PLX_NODE_F32_TYPE => some "  %%%u = fcmp oeq float %%%u, %%%u\n"
    | PLX_NODE_F64_TYPE => some "  %%%u = fcmp oeq double %%%u, %%%u\n"
    | PLX_NODE_BOOL_TYPE => some "  %%%u = icmp eq i1 %%%u, %%%u\n"
    | _ => none
  | PLX_NODE_NEQ =>
    match type_kind with
    | PLX_NODE_S8_TYPE | PLX_NODE_U8_TYPE => some "  %%%u = icmp ne i8 %%%u, %%%u\n"
    | PLX_NODE_S16_TYPE | PLX_NODE_U16_TYPE => some "  %%%u = icmp ne i16 %%%u, %%%u\n"
    | PLX_NODE_S32_TYPE | PLX_NODE_U32_TYPE => some "  %%%u = icmp ne i32 %%%u, %%%u\n"
    | PLX_NODE_S64_TYPE | PLX_NODE_U64_TYPE => some "  %%%u = icmp ne i64 %%%u, %%%u\n"
    | PLX_NODE_F16_TYPE => some "  %%%u = fcmp one half %%%u, %%%u\n"
    | PLX_NODE_F32_TYPE => some "  %%%u = fcmp one float %%%u, %%%u\n"
    | PLX_NODE_F64_TYPE => some "  %%%u = fcmp one double %%%u, %%%u\n"
    | PLX_NODE_BOOL_TYPE => some "  %%%u = icmp ne i1 %%%u, %%%u\n"
    | _ => none
  | PLX_NODE_LTE =>
    match type_kind with
    | PLX_NODE_S8_TYPE => some "  %%%u = icmp sle i8 %%%u, %%%u\n"
    | PLX_NODE_S16_TYPE => some "  %%%u = icmp sle i16 %%%u, %%%u\n"
    | PLX_NODE_S32_TYPE => some "  %%%u = icmp sle i32 %%%u, %%%u\n"
    | PLX_NODE_S64_TYPE => some "  %%%u = icmp sle i64 %%%u, %%%u\n"
    | PLX_NODE_U8_TYPE => some "  %%%u = icmp ule i8 %%%u, %%%u\n"
    | PLX_NODE_U16_TYPE => some "  %%%u = icmp ule i16 %%%u, %%%u\n"
    | PLX_NODE_U32_TYPE => some "  %%%u = icmp ule i32 %%%u, %%%u\n"
    | PLX_NODE_U64_TYPE => some "  %%%u = icmp ule i64 %%%u, %%%u\n"
    | PLX_NODE_F16_TYPE => some "  %%%u = fcmp ole half %%%u, %%%u\n"
    | PLX_NODE_F32_TYPE => some "  %%%u = fcmp ole float %%%u, %%%u\n"
    | PLX_NODE_F64_TYPE => some "  %%%u = fcmp ole double %%%u, %%%u\n"
    | _ => none
  | PLX_NODE_LT =>
    match type_kind with
    | PLX_NODE_S8_TYPE => some "  %%%u = icmp slt i8 %%%u, %%%u\n"
    | PLX_NODE_S16_TYPE => some "  %%%u = icmp slt i16 %%%u, %%%u\n"
    | PLX_NODE_S32_TYPE => some "  %%%u = icmp slt i32 %%%u, %%%u\n"
    | PLX_NODE_S64_TYPE => some "  %%%u = icmp slt i64 %%%u, %%%u\n"
    | PLX_NODE_U8_TYPE => some "  %%%u = icmp ult i8 %%%u, %%%u\n"
    | PLX_NODE_U16_TYPE => some "  %%%u = icmp ult i16 %%%u, %%%u\n"
    | PLX_NODE_U32_TYPE => some "  %%%u = icmp ult i32 %%%u, %%%u\n"
    | PLX_NODE_U64_TYPE => some "  %%%u = icmp ult i64 %%%u, %%%u\n"
    | PLX_NODE_F16_TYPE => some "  %%%u = fcmp olt half %%%u, %%%u\n"
    | PLX_NODE_F32_TYPE => some "  %%%u = fcmp olt float %%%u, %%%u\n"
    | PLX_NODE_F64_TYPE => some "  %%%u = fcmp olt double %%%u, %%%u\n"
    | _ => none
  | PLX_NODE_GTE =>
    match type_kind with
    | PLX_NODE_S8_TYPE => some "  %%%u = icmp sge i8 %%%u, %%%u\n"
    | PLX_NODE_S16_TYPE => some "  %%%u = icmp sge i16 %%%u, %%%u\n"
    | PLX_NODE_S32_TYPE => some "  %%%u = icmp sge i32 %%%u, %%%u\n"
    | PLX_NODE_S64_TYPE => some "  %%%u = icmp sge i64 %%%u, %%%u\n"
    | PLX_NODE_U8_TYPE => some "  %%%u = icmp uge i8 %%%u, %%%u\n"
    | PLX_NODE_U16_TYPE => some "  %%%u = icmp uge i16 %%%u, %%%u\n"
    | PLX_NODE_U32_TYPE => some "  %%%u = icmp uge i32 %%%u, %%%u\n"
    | PLX_NODE_U64_TYPE => some "  %%%u = icmp uge i64 %%%u, %%%u\n"
    | PLX_NODE_F16_TYPE => some "  %%%u = fcmp oge half %%%u, %%%u\n"
    | PLX_NODE_F32_TYPE => some "  %%%u = fcmp oge float %%%u, %%%u\n"
    | PLX_NODE_F64_TYPE => some "  %%%u = fcmp oge double %%%u, %%%u\n"
    | _ => none
  | PLX_NODE_GT =>
    match type_kind with
    | PLX_NODE_S8_TYPE => some "  %%%u = icmp sgt i8 %%%u, %%%u\n"
    | PLX_NODE_S16_TYPE => some "  %%%u = icmp sgt i16 %%%u, %%%u\n"
    | PLX_NODE_S32_TYPE => some "  %%%u = icmp sgt i32 %%%u, %%%u\n"
    | PLX_NODE_S64_TYPE => some "  %%%u = icmp sgt i64 %%%u, %%%u\n"
    | PLX_NODE_U8_TYPE => some "  %%%u = icmp ugt i8 %%%u, %%%u\n"
    | PLX_NODE_U16_TYPE => some "  %%%u = icmp ugt i16 %%%u, %%%u\n"
    | PLX_NODE_U32_TYPE => some "  %%%u = icmp ugt i32 %%%u, %%%u\n"
    | PLX_NODE_U64_TYPE => some "  %%%u = icmp ugt i64 %%%u, %%%u\n"
    | PLX_NODE_F16_TYPE => some "  %%%u = fcmp ogt half %%%u, %%%u\n"
    | PLX_NODE_F32_TYPE => some "  %%%u = fcmp ogt float %%%u, %%%u\n"
    | PLX_NODE_F64_TYPE => some "  %%%u = fcmp ogt double %%%u, %%%u\n"
    | _ => none
  | PLX_NODE_ADD =>
    match type_kind with
    | PLX_NODE_S8_TYPE | PLX_NODE_U8_TYPE => some "  %%%u = add i8 %%%u, %%%u\n"
    | PLX_NODE_S16_TYPE | PLX_NODE_U16_TYPE => some "  %%%u = add i16 %%%u, %%%u\n"
    | PLX_NODE_S32_TYPE | PLX_NODE_U32_TYPE => some "  %%%u = add i32 %%%u, %%%u\n"
    | PLX_NODE_S64_TYPE | PLX_NODE_U64_TYPE => some "  %%%u = add i64 %%%u, %%%u\n"
    | PLX_NODE_F16_TYPE => some "  %%%u = fadd fast half %%%u, %%%u\n"
    | PLX_NODE_F32_TYPE => some "  %%%u = fadd fast float %%%u, %%%u\n"
    | PLX_NODE_F64_TYPE => some "  %%%u = fadd fast double %%%u, %%%u\n"
    | _ => none
  | PLX_NODE_SUB =>
    match type_kind with
    | PLX_NODE_S8_TYPE | PLX_NODE_U8_TYPE => some "  %%%u = sub i8 %%%u, %%%u\n"
    | PLX_NODE_S16_TYPE | PLX_NODE_U16_TYPE => some "  %%%u = sub i16 %%%u, %%%u\n"
    | PLX_NODE_S32_TYPE | PLX_NODE_U32_TYPE => some "  %%%u = sub i32 %%%u, %%%u\n"
    | PLX_NODE_S64_TYPE | PLX_NODE_U64_TYPE => some "  %%%u = sub i64 %%%u, %%%u\n"
    | PLX_NODE_F16_TYPE => some "  %%%u = fsub fast half %%%u, %%%u\n"
    | PLX_NODE_F32_TYPE => some "  %%%u = fsub fast float %%%u, %%%u\n"
    | PLX_NODE_F64_TYPE => some "  %%%u = fsub fast double %%%u, %%%u\n"
    | _ => none
  | PLX_NODE_MUL =>
    match type_kind with
    | PLX_NODE_S8_TYPE | PLX_NODE_U8_TYPE => some "  %%%u = mul i8 %%%u, %%%u\n"
    | PLX_NODE_S16_TYPE | PLX_NODE_U16_TYPE => some "  %%%u = mul i16 %%%u, %%%u\n"
    | PLX_NODE_S32_TYPE | PLX_NODE_U32_TYPE => some "  %%%u = mul i32 %%%u, %%%u\n"
    | PLX_NODE_S64_TYPE | PLX_NODE_U64_TYPE => some "  %%%u = mul i64 %%%u, %%%u\n"
    | PLX_NODE_F16_TYPE => some "  %%%u = fmul fast half %%%u, %%%u\n"
    | PLX_NODE_F32_TYPE => some "  %%%u = fmul fast float %%%u, %%%u\n"
    | PLX_NODE_F64_TYPE => some "  %%%u = fmul fast double %%%u, %%%u\n"
    | _ => none
  | PLX_NODE_DIV =>
    match type_kind with
    | PLX_NODE_S8_TYPE => some "  %%%u = sdiv i8 %%%u, %%%u\n"
    | PLX_NODE_S16_TYPE => some "  %%%u = sdiv i16 %%%u, %%%u\n"
    | PLX_NODE_S32_TYPE => some "  %%%u = sdiv i32 %%%u, %%%u\n"
    | PLX_NODE_S64_TYPE => some "  %%%u = sdiv i64 %%%u, %%%u\n"
    | PLX_NODE_U8_TYPE => some "  %%%u = udiv i8 %%%u, %%%u\n"
    | PLX_NODE_U16_TYPE => some "  %%%u = udiv i16 %%%u, %%%u\n"
    | PLX_NODE_U32_TYPE => some "  %%%u = udiv i32 %%%u, %%%u\n"
    | PLX_NODE_U64_TYPE => some "  %%%u = udiv i64 %%%u, %%%u\n"
    | PLX_NODE_F16_TYPE => some "  %%%u = fdiv fast half %%%u, %%%u\n"
    | PLX_NODE_F32_TYPE => some "  %%%u = fdiv fast float %%%u, %%%u\n"
    | PLX_NODE_F64_TYPE => some "  %%%u = fdiv fast double %%%u, %%%u\n"
    | _ => none
  | PLX_NODE_REM =>
    match type_kind with
    | PLX_NODE_S8_TYPE => some "  %%%u = srem i8 %%%u, %%%u\n"
    | PLX_NODE_S16_TYPE => some "  %%%u = srem i16 %%%u, %%%u\n"
    | PLX_NODE_S32_TYPE => some "  %%%u = srem i32 %%%u, %%%u\n"
    | PLX_NODE_S64_TYPE => some "  %%%u = srem i64 %%%u, %%%u\n"
    | PLX_NODE_U8_TYPE => some "  %%%u = urem i8 %%%u, %%%u\n"
    | PLX_NODE_U16_TYPE => some "  %%%u = urem i16 %%%u, %%%u\n"
    | PLX_NODE_U32_TYPE => some "  %%%u = urem i32 %%%u, %%%u\n"
    | PLX_NODE_U64_TYPE => some "  %%%u = urem i64 %%%u, %%%u\n"
    | _ => none
  | PLX_NODE_LSHIFT =>
    match type_kind with
    | PLX_NODE_S8_TYPE | PLX_NODE_U8_TYPE => some "  %%%u = shl i8 %%%u, %%%u\n"
    | PLX_NODE_S16_TYPE | PLX_NODE_U16_TYPE => some "  %%%u = shl i16 %%%u, %%%u\n"
    | PLX_NODE_S32_TYPE | PLX_NODE_U32_TYPE => some "  %%%u = shl i32 %%%u, %%%u\n"
    | PLX_NODE_S64_TYPE | PLX_NODE_U64_TYPE => some "  %%%u = shl i64 %%%u, %%%u\n"
    | _ => none
  | PLX_NODE_RSHIFT =>
    match type_kind with
    | PLX_NODE_S8_TYPE | PLX_NODE_U8_TYPE => some "  %%%u = lshr i8 %%%u, %%%u\n"
    | PLX_NODE_S16_TYPE | PLX_NODE_U16_TYPE => some "  %%%u = lshr i16 %%%u, %%%u\n"
    | PLX_NODE_S32_TYPE | PLX_NODE_U32_TYPE => some "  %%%u = lshr i32 %%%u, %%%u\n"
    | PLX_NODE_S64_TYPE | PLX_NODE_U64_TYPE => some "  %%%u = lshr i64 %%%u, %%%u\n"
    | _ => none
  | _ => none

/-- The format string of the `fprintf` in the inner `switch (node->type->kind)` of
the cases `PLX_NODE_NOT` and `PLX_NODE_NEG` of `plx_generate_llvm_ir_expr`. -/
def plx_llvm_unary_format (kind type_kind : plx_node_kind) : Option String :=
  match kind with
  | PLX_NODE_NOT =>
    match type_kind with
    | PLX_NODE_S8_TYPE | PLX_NODE_U8_TYPE => some "  %%%u = xor i8 %%%u, -1\n"
    | PLX_NODE_S16_TYPE | PLX_NODE_U16_TYPE => some "  %%%u = xor i16 %%%u, -1\n"
    | PLX_NODE_S32_TYPE | PLX_NODE_U32_TYPE => some "  %%%u = xor i32 %%%u, -1\n"
    | PLX_NODE_S64_TYPE | PLX_NODE_U64_TYPE => some "  %%%u = xor i64 %%%u, -1\n"
    | PLX_NODE_BOOL_TYPE => some "  %%%u = xor i1 %%%u, -1\n"
    | _ => none
  | PLX_NODE_NEG =>
    match type_kind with
    | PLX_NODE_U8_TYPE => some "  %%%u = sub i8 0, %%%u\n"
    | PLX_NODE_U16_TYPE => some "  %%%u = sub i16 0, %%%u\n"
    | PLX_NODE_U32_TYPE => some "  %%%u = sub i32 0, %%%u\n"
    | PLX_NODE_U64_TYPE => some "  %%%u = sub i64 0, %%%u\n"
    | PLX_NODE_F16_TYPE => some "  %%%u = fneg fast half %%%u\n"
    | PLX_NODE_F32_TYPE => some "  %%%u = fneg fast float %%%u\n"
    | PLX_NODE_F64_TYPE => some "  %%%u = fneg fast double %%%u\n"
    | _ => none
  | _ => none

/-- The kinds of the compound assignments. -/
def plx_is_compound_assign (kind : plx_node_kind) : Bool :=
  kind = PLX_NODE_ADD_ASSIGN || kind = PLX_NODE_SUB_ASSIGN || kind = PLX_NODE_MUL_ASSIGN ||
  kind = PLX_NODE_DIV_ASSIGN || kind = PLX_NODE_REM_ASSIGN || kind = PLX_NODE_LSHIFT_ASSIGN ||
  kind = PLX_NODE_RSHIFT_ASSIGN

/-- The kinds of the comparisons, whose case in `plx_generate_llvm_ir_expr`
asserts that the operands have types of one kind and switches on
`left->type->kind`. -/
def plx_is_comparison (kind : plx_node_kind) : Bool :=
  kind = PLX_NODE_EQ || kind = PLX_NODE_NEQ || kind = PLX_NODE_LTE || kind = PLX_NODE_LT ||
  kind = PLX_NODE_GTE || kind = PLX_NODE_GT

/-- The format string of the `fprintf` in the case of a literal of
`plx_generate_llvm_ir_expr`. -/
def plx_llvm_literal_format (kind : plx_node_kind) : Option String :=
  match kind with
  | PLX_NODE_S8 =>
    some ("  %%%u = alloca i8\n" ++ "  store i8 %lld, ptr %%%u\n" ++ "  %%%u = load i8, ptr %%%u\n")
  | PLX_NODE_S16 =>
    some ("  %%%u = alloca i16\n" ++ "  store i16 %lld, ptr %%%u\n" ++
      "  %%%u = load i16, ptr %%%u\n")
  | PLX_NODE_S32 =>
    some ("  %%%u = alloca i32\n" ++ "  store i32 %lld, ptr %%%u\n" ++
      "  %%%u = load i32, ptr %%%u\n")
  | PLX_NODE_S64 =>
    some ("  %%%u = alloca i64\n" ++ "  store i64 %lld, ptr %%%u\n" ++
      "  %%%u = load i64, ptr %%%u\n")
  | PLX_NODE_U8 =>
    some ("  %%%u = alloca i8\n" ++ "  store i8 %llu, ptr %%%u\n" ++ "  %%%u = load i8, ptr %%%u\n")
  | PLX_NODE_U16 =>
    some ("  %%%u = alloca i16\n" ++ "  store i16 %llu, ptr %%%u\n" ++
      "  %%%u = load i16, ptr %%%u\n")
  | PLX_NODE_U32 =>
    some ("  %%%u = alloca i32\n" ++ "  store i32 %llu, ptr %%%u\n" ++
      "  %%%u = load i32, ptr %%%u\n")
  | PLX_NODE_U64 =>
    some ("  %%%u = alloca i64\n" ++ "  store i64 %llu, ptr %%%u\n" ++
      "  %%%u = load i64, ptr %%%u\n")
  | PLX_NODE_F16 =>
    some ("  %%%u = alloca half\n" ++ "  store half %f, ptr %%%u\n" ++
      "  %%%u = load half, ptr %%%u\n")
  | PLX_NODE_F32 =>
    some ("  %%%u = alloca float\n" ++ "  store float %f, ptr %%%u\n" ++
      "  %%%u = load float, ptr %%%u\n")
  | PLX_NODE_F64 =>
    some ("  %%%u = alloca double\n" ++ "  store double %f, ptr %%%u\n" ++
      "  %%%u = load double, ptr %%%u\n")
  | PLX_NODE_BOOL =>
    some ("  %%%u = alloca i1\n" ++ "  store i1 %s, ptr %%%u\n" ++ "  %%%u = load i1, ptr %%%u\n")
  | _ => none

/-- The second argument of the `fprintf` in the case of a literal:
`node->sint`, `node->uint`, `node->f` or `node->b ? "true" : "false"`. -/
def plx_llvm_literal_arg (kind : plx_node_kind) (value : plx_node_value) :
    Option plx_printf_arg :=
  match plx_literal_class_of kind with
  | .sint => (plx_value_sint value).map .lld
  | .uint => (plx_value_uint value).map .llu
  | .float => (plx_value_f value).map .f
  | .bool => (plx_value_b value).map fun x => .s (if x then "true" else "false")
  | .other => none

/-- The body of `plx_generate_llvm_ir_ptr`, with the function that its call of
`plx_generate_llvm_ir_expr` runs. -/
def plx_generate_llvm_ir_ptr_body (env : plx_llvm_env) (expr : plx_node → plx_llvm Nat)
    (node : plx_node) : plx_llvm Nat :=
  match node with
  | .NULL => plx_llvm_fail
  | .node k _ c _ _ =>
    match k with
    | PLX_NODE_INDEX => do
      let (value, index) ← plx_llvm_lift (plx_extract2 c)
      let value_var ← expr value
      let result_var ← plx_llvm_alloc
      plx_llvm_ir_fprintf env "  %%%u = getelementptr inbounds %t, ptr %%%u, %t %c\n"
        [.u result_var, .t value.type, .u value_var, .t index.type, .c index]
      pure result_var
    | PLX_NODE_FIELD => plx_llvm_fail
    | PLX_NODE_IDENTIFIER => do
      let is_global ← plx_llvm_lift (plx_llvm_is_global env node)
      if is_global then do
        let result_var ← plx_llvm_alloc
        let name ← plx_llvm_lift (plx_llvm_name node)
        plx_llvm_ir_fprintf env ("  %%%u = alloca ptr\n" ++ "  store ptr @%s, ptr %%%u\n")
          [.u result_var, .s name, .u result_var]
        pure result_var
      else plx_llvm_get_local_var node
    | _ => plx_llvm_fail

/-- The body of `plx_generate_llvm_ir_expr`, with the functions that its calls
of `plx_generate_llvm_ir_ptr` and of itself run.  The cases of the binary
operators differ in the format of their `fprintf` and in the type they switch
on, the cases of the literals in the format and in the member of the union they
print. -/
def plx_generate_llvm_ir_expr_body (env : plx_llvm_env) (ptr expr : plx_node → plx_llvm Nat)
    (node : plx_node) : plx_llvm Nat :=
  match node with
  | .NULL => plx_llvm_fail
  | .node k v c _ _ =>
    match k with
    | PLX_NODE_AND | PLX_NODE_OR | PLX_NODE_XOR | PLX_NODE_EQ | PLX_NODE_NEQ | PLX_NODE_LTE
    | PLX_NODE_LT | PLX_NODE_GTE | PLX_NODE_GT | PLX_NODE_ADD | PLX_NODE_SUB | PLX_NODE_MUL
    | PLX_NODE_DIV | PLX_NODE_REM | PLX_NODE_LSHIFT | PLX_NODE_RSHIFT => do
      let (left, right) ← plx_llvm_lift (plx_extract2 c)
      let left_var ← expr left
      let right_var ← expr right
      let result_var ← plx_llvm_alloc
      let type_kind ←
        if plx_is_comparison k then do
          let left_kind ← plx_llvm_lift (plx_llvm_type_kind left)
          let right_kind ← plx_llvm_lift (plx_llvm_type_kind right)
          plx_llvm_assert (left_kind = right_kind)
          pure left_kind
        else plx_llvm_lift (plx_llvm_type_kind node)
      let format ← plx_llvm_lift (plx_llvm_binary_format k type_kind)
      plx_fprintf env format [.u result_var, .u left_var, .u right_var]
      pure result_var
    | PLX_NODE_NOT | PLX_NODE_NEG => do
      let operand ← plx_llvm_lift (plx_extract1 c)
      let operand_var ← expr operand
      let result_var ← plx_llvm_alloc
      let type_kind ← plx_llvm_lift (plx_llvm_type_kind node)
      let format ← plx_llvm_lift (plx_llvm_unary_format k type_kind)
      plx_fprintf env format [.u result_var, .u operand_var]
      pure result_var
    | PLX_NODE_REF => do
      let operand ← plx_llvm_lift (plx_extract1 c)
      ptr operand
    | PLX_NODE_DEREF => do
      let operand ← plx_llvm_lift (plx_extract1 c)
      let operand_var ← expr operand
      let result_var ← plx_llvm_alloc
      plx_llvm_ir_fprintf env "  %%%u = load %t, ptr %%%u\n"
        [.u result_var, .t node.type, .u operand_var]
      pure result_var
    | PLX_NODE_CALL => do
      let (func, args) ← plx_llvm_lift (plx_extract2 c)
      let func_var ← expr func
      let _arg_vars_begin ← plx_llvm_get_locals
      plx_llvm_for_each (fun arg => do let _ ← expr arg) args.children
      let result_var ← plx_llvm_alloc
      plx_llvm_ir_fprintf env "  %%%u = call %t %%%u(" [.u result_var, .u func_var]
      plx_llvm_fail
    | PLX_NODE_INDEX | PLX_NODE_SLICE | PLX_NODE_FIELD => do
      let ptr_var ← ptr node
      let result_var ← plx_llvm_alloc
      plx_llvm_ir_fprintf env "  %%%u = load %t, ptr %%%u\n"
        [.u result_var, .t node.type, .u ptr_var]
      pure result_var
    | PLX_NODE_IDENTIFIER => do
      let result_var ← plx_llvm_alloc
      let is_global ← plx_llvm_lift (plx_llvm_is_global env node)
      if is_global then do
        let name ← plx_llvm_lift (plx_llvm_name node)
        plx_llvm_ir_fprintf env "  %%%u = load %t, ptr @%s\n"
          [.u result_var, .t node.type, .s name]
      else do
        let local_var ← plx_llvm_get_local_var node
        plx_llvm_ir_fprintf env "  %%%u = load %t, ptr %%%u\n"
          [.u result_var, .t node.type, .u local_var]
      pure result_var
    | PLX_NODE_STRUCT => plx_llvm_fail
    | PLX_NODE_S8 | PLX_NODE_S16 | PLX_NODE_S32 | PLX_NODE_S64 | PLX_NODE_U8 | PLX_NODE_U16
    | PLX_NODE_U32 | PLX_NODE_U64 | PLX_NODE_F16 | PLX_NODE_F32 | PLX_NODE_F64
    | PLX_NODE_BOOL => do
      let ptr_var ← plx_llvm_alloc
      let result_var ← plx_llvm_alloc
      let format ← plx_llvm_lift (plx_llvm_literal_format k)
      let arg ← plx_llvm_lift (plx_llvm_literal_arg k v)
      plx_fprintf env format [.u ptr_var, arg, .u ptr_var, .u result_var, .u ptr_var]
      pure result_var
    | _ => plx_llvm_fail

/-- The body of `plx_generate_llvm_ir_stmt`, with the functions that its calls
of `plx_generate_llvm_ir_ptr`, of `plx_generate_llvm_ir_expr` and of itself
run.  The cases of the compound assignments differ in the format of their
`fprintf`. -/
def plx_generate_llvm_ir_stmt_body (env : plx_llvm_env) (ptr expr : plx_node → plx_llvm Nat)
    (stmt : plx_node → Nat → Nat → plx_llvm Unit) (node : plx_node)
    (loop_enter_label loop_exit_label : Nat) : plx_llvm Unit :=
  match node with
  | .NULL => plx_llvm_fail
  | .node k _ c _ _ =>
    match k with
    | PLX_NODE_VAR_DEF => do
      let (name, value) ← plx_llvm_lift (plx_extract2 c)
      let value_var ← expr value
      let result_var ← plx_llvm_alloc
      plx_llvm_ir_fprintf env ("  %%%u = alloca %t\n" ++ "  store %t %%%u, ptr %%%u\n")
        [.u result_var, .t value.type, .t value.type, .u result_var, .u value_var]
      plx_llvm_set_local_var name result_var
    | PLX_NODE_VAR_DECL => do
      let (name, type) ← plx_llvm_lift (plx_extract2 c)
      let result_var ← plx_llvm_alloc
      plx_llvm_ir_fprintf env "  %%%u = alloca %t\n" [.u result_var, .t type]
      plx_llvm_set_local_var name result_var
    | PLX_NODE_NOP => pure ()
    | PLX_NODE_BLOCK =>
      plx_llvm_for_each (fun s => stmt s loop_enter_label loop_exit_label) c
    | PLX_NODE_IF_THEN_ELSE => do
      let (cond, then_block, els) ← plx_llvm_lift (plx_extract3 c)
      let cond_var ← expr cond
      let then_label ← plx_llvm_alloc
      let else_label ← plx_llvm_alloc
      let end_label ← plx_llvm_alloc
      plx_fprintf env ("  br i1 %%%u, label %%%u, label %%%u\n" ++ "%u:\n")
        [.u cond_var, .u then_label, .u else_label, .u then_label]
      stmt then_block loop_enter_label loop_exit_label
      plx_fprintf env ("  br label %%%u\n" ++ "%u:\n") [.u end_label, .u else_label]
      stmt els loop_enter_label loop_exit_label
      plx_fprintf env ("  br label %%%u\n" ++ "%u:\n") [.u end_label, .u end_label]
    | PLX_NODE_LOOP => do
      let body ← plx_llvm_lift (plx_extract1 c)
      let loop_enter_label ← plx_llvm_alloc
      let loop_exit_label ← plx_llvm_alloc
      plx_fprintf env "%u:\n" [.u loop_enter_label]
      stmt body loop_enter_label loop_exit_label
      plx_fprintf env "%u:\n" [.u loop_exit_label]
    | PLX_NODE_WHILE_LOOP => do
      let (cond, body) ← plx_llvm_lift (plx_extract2 c)
      let loop_enter_label ← plx_llvm_alloc
      let loop_mid_label ← plx_llvm_alloc
      let loop_exit_label ← plx_llvm_alloc
      plx_fprintf env "%u:\n" [.u loop_enter_label]
      let cond_var ← expr cond
      plx_fprintf env ("  br i1 %%%u, label %%%u, label %%%u\n" ++ "%u:\n")
        [.u cond_var, .u loop_mid_label, .u loop_exit_label, .u loop_mid_label]
      stmt body loop_enter_label loop_exit_label
      plx_fprintf env "%u:\n" [.u loop_exit_label]
    | PLX_NODE_CONTINUE => plx_fprintf env "  br label %%%u\n" [.u loop_enter_label]
    | PLX_NODE_BREAK => plx_fprintf env "  br label %%%u\n" [.u loop_exit_label]
    | PLX_NODE_RETURN =>
      match c with
      | .NULL => plx_llvm_fputs "  ret void\n"
      | return_value => do
        let return_value_var ← expr return_value
        plx_llvm_ir_fprintf env "  ret %t %%%u\n" [.t return_value.type, .u return_value_var]
    | PLX_NODE_ASSIGN => do
      let (assignee, value) ← plx_llvm_lift (plx_extract2 c)
      let assignee_var ← ptr assignee
      let value_var ← expr value
      plx_llvm_ir_fprintf env "  store %t %%%u, ptr %%%u\n"
        [.t value.type, .u value_var, .u assignee_var]
    | PLX_NODE_ADD_ASSIGN | PLX_NODE_SUB_ASSIGN | PLX_NODE_MUL_ASSIGN | PLX_NODE_DIV_ASSIGN
    | PLX_NODE_REM_ASSIGN | PLX_NODE_LSHIFT_ASSIGN | PLX_NODE_RSHIFT_ASSIGN => do
      let (assignee, value) ← plx_llvm_lift (plx_extract2 c)
      let assignee_var ← ptr assignee
      let left_var ← plx_llvm_alloc
      let right_var ← expr value
      let result_var ← plx_llvm_alloc
      let assignee_kind ← plx_llvm_lift (plx_llvm_type_kind assignee)
      let value_kind ← plx_llvm_lift (plx_llvm_type_kind value)
      plx_llvm_assert (assignee_kind = value_kind)
      let format ← plx_llvm_lift (plx_llvm_assign_format k assignee_kind)
      plx_fprintf env format
        [.u left_var, .u assignee_var, .u result_var, .u left_var, .u right_var, .u result_var,
          .u assignee_var]
    | _ => plx_llvm_fail

mutual

/-- `plx_generate_llvm_ir_ptr`, which returns the unnamed identifier of the
pointer. -/
def plx_generate_llvm_ir_ptr (env : plx_llvm_env) : Nat → plx_node → plx_llvm Nat
  | 0, _ => plx_llvm_fail
  | depth + 1, node =>
    plx_generate_llvm_ir_ptr_body env (plx_generate_llvm_ir_expr env depth) node

/-- `plx_generate_llvm_ir_expr`, which returns the unnamed identifier of the
value. -/
def plx_generate_llvm_ir_expr (env : plx_llvm_env) : Nat → plx_node → plx_llvm Nat
  | 0, _ => plx_llvm_fail
  | depth + 1, node =>
    plx_generate_llvm_ir_expr_body env (plx_generate_llvm_ir_ptr env depth)
      (plx_generate_llvm_ir_expr env depth) node

end

/-- `plx_generate_llvm_ir_stmt`. -/
def plx_generate_llvm_ir_stmt (env : plx_llvm_env) :
    Nat → plx_node → Nat → Nat → plx_llvm Unit
  | 0, _, _, _ => plx_llvm_fail
  | depth + 1, node, loop_enter_label, loop_exit_label =>
    plx_generate_llvm_ir_stmt_body env (plx_generate_llvm_ir_ptr env depth)
      (plx_generate_llvm_ir_expr env depth) (plx_generate_llvm_ir_stmt env depth) node
      loop_enter_label loop_exit_label

/-- The first loop over the parameters in the case `PLX_NODE_FUNC_DEF`, from a
parameter on. -/
def plx_llvm_param_list (env : plx_llvm_env) (params : plx_node) : plx_llvm Unit :=
  plx_llvm_for_each
    (fun param => do
      let (_, param_type) ← plx_llvm_lift (plx_extract2 param.children)
      let local_var ← plx_llvm_alloc
      plx_llvm_ir_fprintf env "%t %%%u" [.t param_type, .u local_var]
      if plx_has_next param then plx_llvm_fputs ", " else pure ())
    params

/-- The second loop over the parameters in the case `PLX_NODE_FUNC_DEF`, from a
parameter on, with the value of `param_var`. -/
def plx_llvm_param_slots (env : plx_llvm_env) : plx_node → Nat → plx_llvm Unit
  | .NULL, _ => pure ()
  | .node _ _ c n _, param_var => do
    let (param_name, param_type) ← plx_llvm_lift (plx_extract2 c)
    let locals ← plx_llvm_get_locals
    plx_llvm_ir_fprintf env ("  %%%u = alloca %t\n" ++ "  store %t %%%u, ptr %%%u\n")
      [.u locals, .t param_type, .t param_type, .u param_var, .u locals]
    let local_var ← plx_llvm_alloc
    plx_llvm_set_local_var param_name local_var
    plx_llvm_param_slots env n ((param_var + 1) % 2 ^ UINT_BITS)

/-- The loop over the members in the case `PLX_NODE_STRUCT_DEF`. -/
def plx_llvm_members (env : plx_llvm_env) (members : plx_node) : plx_llvm Unit :=
  plx_llvm_for_each
    (fun member => do
      let (_, member_type) ← plx_llvm_lift (plx_extract2 member.children)
      let text ← plx_llvm_lift (plx_generate_llvm_ir_type env member_type)
      plx_llvm_fputs text
      if plx_has_next member then plx_llvm_fputs ", " else pure ())
    members

/-- The case `PLX_NODE_FUNC_DEF` of `plx_generate_llvm_ir`, for a node with the
first child `c`. -/
def plx_generate_llvm_ir_func_def (env : plx_llvm_env) (depth : Nat) (c : plx_node) :
    plx_llvm Unit := do
  let (name, params, return_type, body) ← plx_llvm_lift (plx_extract4 c)
  let name_text ← plx_llvm_lift (plx_llvm_name name)
  plx_llvm_ir_fprintf env "define %t @%s(" [.t return_type, .s name_text]
  plx_llvm_reset
  plx_llvm_param_list env params.children
  plx_llvm_fputs ") \x7b\n"
  plx_llvm_reserve
  plx_llvm_param_slots env params.children 0
  plx_generate_llvm_ir_stmt env depth body 0 0
  plx_llvm_fputs "\x7d\n\n"

/-- `plx_generate_llvm_ir`. -/
def plx_generate_llvm_ir (env : plx_llvm_env) : Nat → plx_node → plx_llvm Unit
  | 0, _ => plx_llvm_fail
  | _, .NULL => plx_llvm_fail
  | depth + 1, .node k _ c _ _ =>
    match k with
    | PLX_NODE_MODULE => plx_llvm_for_each (plx_generate_llvm_ir env depth) c
    | PLX_NODE_VAR_DEF => do
      let (name, value) ← plx_llvm_lift (plx_extract2 c)
      let name_text ← plx_llvm_lift (plx_llvm_name name)
      plx_llvm_ir_fprintf env "@%s = global %t %c\n" [.s name_text, .t value.type, .c value]
    | PLX_NODE_VAR_DECL => do
      let (name, type) ← plx_llvm_lift (plx_extract2 c)
      let name_text ← plx_llvm_lift (plx_llvm_name name)
      plx_llvm_ir_fprintf env "@%s = global %t\n" [.s name_text, .t type]
    | PLX_NODE_STRUCT_DEF => do
      let (name, members) ← plx_llvm_lift (plx_extract2 c)
      let name_text ← plx_llvm_lift (plx_llvm_name name)
      plx_fprintf env "%%%s = type \x7b " [.s name_text]
      plx_llvm_members env members.children
      plx_llvm_fputs " \x7d\n\n"
    | PLX_NODE_FUNC_DEF => plx_generate_llvm_ir_func_def env depth c
    | PLX_NODE_NOP => pure ()
    | _ => plx_llvm_fail

/-- The state in which `plx_compile` calls `plx_generate_llvm_ir`: nothing is
written to the stream and no entry has a local variable. -/
def plx_llvm_init : plx_llvm_state := ⟨"", 0, [], []⟩

/-- The entries that `plx_resolve_names` gives the scope
`PLX_SYMBOL_SCOPE_GLOBAL` in the module of a source text. -/
def plx_source_globals (source : String) : List Nat :=
  match plx_resolve_names 40 (plx_parse_source source) plx_resolver_init with
  | some (some (_, st, _)) => st.globals
  | _ => []

/-- The text and the allocated identifiers that `plx_generate_llvm_ir` leaves for
the module of a source text that passes `plx_type_check`. -/
def plx_llvm_source (source : String) : Option (String × List Nat) :=
  (plx_generate_llvm_ir ⟨fun _ => "", plx_source_globals source⟩ 40
    (plx_checked_source source) plx_llvm_init).map fun r => (r.2.stream, r.2.allocated)

/-- The text of the type of a parameter, a node with a name and a type as
children. -/
def plx_llvm_param_type (env : plx_llvm_env) (param : plx_node) : Option String :=
  (plx_extract2 param.children).bind fun x => plx_generate_llvm_ir_type env x.2

/-- The texts of the types of the parameters of a function, from a parameter
on. -/
def plx_llvm_param_types (env : plx_llvm_env) : plx_node → Option (List String)
  | .NULL => some []
  | .node k v c n ty =>
    match plx_llvm_param_type env (.node k v c n ty), plx_llvm_param_types env n with
    | some type, some types => some (type :: types)
    | _, _ => none

/-- What every generator function keeps of a state whose counter is an
`unsigned int`: the counter is one still, the identifiers it has allocated are
the consecutive values of the counter, up to the wrap-around of `unsigned int`,
the counter has advanced by their number, and the text is written after the text
that was there. -/
def plx_llvm_consecutive (st st1 : plx_llvm_state) : Prop :=
  st.locals < 2 ^ UINT_BITS →
    st1.locals < 2 ^ UINT_BITS ∧
    ∃ (count : Nat) (text : String),
      st1.allocated =
        st.allocated ++ (List.range count).map (fun i => (st.locals + i) % 2 ^ UINT_BITS) ∧
      st1.locals = (st.locals + count) % 2 ^ UINT_BITS ∧
      st1.stream = st.stream ++ text

/-- A generator function that keeps `plx_llvm_consecutive` whenever it
returns. -/
structure plx_llvm_mono {α : Type} (m : plx_llvm α) : Prop where
  holds : ∀ st a st1, m st = some (a, st1) → plx_llvm_consecutive st st1

theorem consecutive_refl (st : plx_llvm_state) : plx_llvm_consecutive st st := by
  intro h
  exact ⟨h, 0, "", by simp, by simp [Nat.mod_eq_of_lt h], by simp⟩

theorem consecutive_trans (st st1 st2 : plx_llvm_state) (h1 : plx_llvm_consecutive st st1)
    (h2 : plx_llvm_consecutive st1 st2) : plx_llvm_consecutive st st2 := by
  intro h
  obtain ⟨hl1, k1, t1, a1, l1, s1⟩ := h1 h
  obtain ⟨hl2, k2, t2, a2, l2, s2⟩ := h2 hl1
  refine ⟨hl2, k1 + k2, t1 ++ t2, ?_, ?_, ?_⟩
  · rw [a2, a1, List.range_add, List.map_append, List.append_assoc, List.map_map]
    congr 2
    apply List.map_congr_left
    intro i _
    simp only [Function.comp, l1]
    rw [Nat.add_mod, Nat.mod_mod, ← Nat.add_mod, Nat.add_assoc]
  · rw [l2, l1, Nat.add_mod, Nat.mod_mod, ← Nat.add_mod, Nat.add_assoc]
  · rw [s2, s1, String.append_assoc]

theorem mono_pure {α : Type} (a : α) : plx_llvm_mono (pure a : plx_llvm α) := by
  constructor
  intro st b st1 h
  cases h
  exact consecutive_refl st

theorem mono_pure1 {α : Type} (a : α) : plx_llvm_mono (plx_llvm_pure a) := mono_pure a

theorem mono_fail {α : Type} : plx_llvm_mono (plx_llvm_fail : plx_llvm α) := by
  constructor
  intro st b st1 h
  cases h

theorem mono_bind1 {α β : Type} (m : plx_llvm α) (f : α → plx_llvm β) (hm : plx_llvm_mono m)
    (hf : ∀ a, plx_llvm_mono (f a)) : plx_llvm_mono (plx_llvm_bind m f) := by
  constructor
  intro st b st2 h
  unfold plx_llvm_bind at h
  cases hr : m st with
  | none => rw [hr] at h; cases h
  | some r =>
    obtain ⟨a, st1⟩ := r
    rw [hr] at h
    exact consecutive_trans st st1 st2 (hm.holds st a st1 hr) ((hf a).holds st1 b st2 h)

theorem mono_bind {α β : Type} (m : plx_llvm α) (f : α → plx_llvm β) (hm : plx_llvm_mono m)
    (hf : ∀ a, plx_llvm_mono (f a)) : plx_llvm_mono (m >>= f) :=
  mono_bind1 m f hm hf

theorem mono_lift {α : Type} (x : Option α) : plx_llvm_mono (plx_llvm_lift x) := by
  constructor
  intro st b st1 h
  unfold plx_llvm_lift at h
  cases x with
  | none => cases h
  | some a => cases h; exact consecutive_refl st

theorem mono_assert (condition : Bool) : plx_llvm_mono (plx_llvm_assert condition) := by
  unfold plx_llvm_assert
  split
  · exact mono_pure1 ()
  · exact mono_fail

theorem mono_fputs (text : String) : plx_llvm_mono (plx_llvm_fputs text) := by
  constructor
  intro st b st1 h
  cases h
  intro hl
  exact ⟨hl, 0, text, by simp, by simp [Nat.mod_eq_of_lt hl], rfl⟩

theorem mono_alloc : plx_llvm_mono plx_llvm_alloc := by
  constructor
  intro st b st1 h
  cases h
  intro hl
  exact ⟨Nat.mod_lt _ (by decide), 1, "",
    by rw [show List.range 1 = [0] from rfl]; simp [Nat.mod_eq_of_lt hl], rfl, by simp⟩

theorem mono_get_locals : plx_llvm_mono plx_llvm_get_locals := by
  constructor
  intro st b st1 h
  cases h
  exact consecutive_refl st

theorem mono_set_local_var (name : plx_node) (value : Nat) :
    plx_llvm_mono (plx_llvm_set_local_var name value) := by
  constructor
  intro st b st1 h
  unfold plx_llvm_set_local_var at h
  split at h
  · cases h
  · cases h
    intro hl
    exact ⟨hl, 0, "", by simp, by simp [Nat.mod_eq_of_lt hl], by simp⟩

theorem mono_get_local_var (node : plx_node) : plx_llvm_mono (plx_llvm_get_local_var node) := by
  constructor
  intro st b st1 h
  unfold plx_llvm_get_local_var at h
  split at h
  · cases h
  · cases h
    exact consecutive_refl st

theorem mono_fprintf (env : plx_llvm_env) (format : String) (args : List plx_printf_arg) :
    plx_llvm_mono (plx_fprintf env format args) :=
  mono_bind1 _ _ (mono_lift _) mono_fputs

theorem mono_ir_fprintf (env : plx_llvm_env) (format : String) (args : List plx_printf_arg) :
    plx_llvm_mono (plx_llvm_ir_fprintf env format args) :=
  mono_bind1 _ _ (mono_lift _) mono_fputs

theorem mono_for_each (body : plx_node → plx_llvm Unit) (h : ∀ x, plx_llvm_mono (body x))
    (node : plx_node) : plx_llvm_mono (plx_llvm_for_each body node) := by
  induction node with
  | NULL => exact mono_pure1 ()
  | node k v c n ty _ ihn _ => exact mono_bind1 _ _ (h _) fun _ => ihn

theorem ptr_body_mono (env : plx_llvm_env) (expr : plx_node → plx_llvm Nat)
    (hexpr : ∀ x, plx_llvm_mono (expr x)) (node : plx_node) :
    plx_llvm_mono (plx_generate_llvm_ir_ptr_body env expr node) := by
  unfold plx_generate_llvm_ir_ptr_body
  repeat' first
    | exact hexpr _
    | apply mono_bind | apply mono_pure | apply mono_fail | apply mono_lift | apply mono_alloc
    | apply mono_fputs | apply mono_fprintf | apply mono_ir_fprintf | apply mono_assert
    | apply mono_set_local_var | apply mono_get_local_var | apply mono_get_locals
    | intro _ | split

theorem expr_body_mono (env : plx_llvm_env) (ptr expr : plx_node → plx_llvm Nat)
    (hptr : ∀ x, plx_llvm_mono (ptr x)) (hexpr : ∀ x, plx_llvm_mono (expr x))
    (node : plx_node) : plx_llvm_mono (plx_generate_llvm_ir_expr_body env ptr expr node) := by
  unfold plx_generate_llvm_ir_expr_body
  repeat' first
    | exact hexpr _ | exact hptr _
    | apply mono_bind | apply mono_pure | apply mono_fail | apply mono_lift | apply mono_alloc
    | apply mono_fputs | apply mono_fprintf | apply mono_ir_fprintf | apply mono_assert
    | apply mono_set_local_var | apply mono_get_local_var | apply mono_get_locals
    | apply mono_for_each
    | intro _ | split

theorem stmt_body_mono (env : plx_llvm_env) (ptr expr : plx_node → plx_llvm Nat)
    (stmt : plx_node → Nat → Nat → plx_llvm Unit)
    (hptr : ∀ x, plx_llvm_mono (ptr x)) (hexpr : ∀ x, plx_llvm_mono (expr x))
    (hstmt : ∀ x a b, plx_llvm_mono (stmt x a b)) (node : plx_node) (a b : Nat) :
    plx_llvm_mono (plx_generate_llvm_ir_stmt_body env ptr expr stmt node a b) := by
  unfold plx_generate_llvm_ir_stmt_body
  repeat' first
    | exact hexpr _ | exact hptr _ | exact hstmt _ _ _
    | apply mono_bind | apply mono_pure | apply mono_fail | apply mono_lift | apply mono_alloc
    | apply mono_fputs | apply mono_fprintf | apply mono_ir_fprintf | apply mono_assert
    | apply mono_set_local_var | apply mono_get_local_var | apply mono_get_locals
    | apply mono_for_each
    | intro _ | split

theorem ptr_expr_mono (env : plx_llvm_env) (depth : Nat) :
    (∀ node, plx_llvm_mono (plx_generate_llvm_ir_ptr env depth node)) ∧
    (∀ node, plx_llvm_mono (plx_generate_llvm_ir_expr env depth node)) := by
  induction depth with
  | zero => exact ⟨fun _ => mono_fail, fun _ => mono_fail⟩
  | succ depth ih =>
    exact ⟨fun node => ptr_body_mono env _ ih.2 node,
      fun node => expr_body_mono env _ _ ih.1 ih.2 node⟩

theorem stmt_mono (env : plx_llvm_env) (depth : Nat) :
    ∀ node a b, plx_llvm_mono (plx_generate_llvm_ir_stmt env depth node a b) := by
  induction depth with
  | zero => exact fun _ _ _ => mono_fail
  | succ depth ih =>
    exact fun node a b =>
      stmt_body_mono env _ _ _ (ptr_expr_mono env depth).1 (ptr_expr_mono env depth).2 ih node a b

theorem bind_inv1 {α β : Type} (m : plx_llvm α) (f : α → plx_llvm β) (st : plx_llvm_state)
    (r : β × plx_llvm_state) (h : plx_llvm_bind m f st = some r) :
    ∃ a st1, m st = some (a, st1) ∧ f a st1 = some r := by
  unfold plx_llvm_bind at h
  cases hm : m st with
  | none => rw [hm] at h; cases h
  | some x =>
    obtain ⟨a, st1⟩ := x
    rw [hm] at h
    exact ⟨a, st1, rfl, h⟩

theorem bind_inv {α β : Type} (m : plx_llvm α) (f : α → plx_llvm β) (st : plx_llvm_state)
    (r : β × plx_llvm_state) (h : (m >>= f) st = some r) :
    ∃ a st1, m st = some (a, st1) ∧ f a st1 = some r :=
  bind_inv1 m f st r h

theorem lift_inv {α : Type} (x : Option α) (st : plx_llvm_state) (a : α) (st1 : plx_llvm_state)
    (h : plx_llvm_lift x st = some (a, st1)) : x = some a ∧ st1 = st := by
  unfold plx_llvm_lift at h
  cases x with
  | none => cases h
  | some b => cases h; exact ⟨rfl, rfl⟩

theorem ir_fprintf_inv (env : plx_llvm_env) (format : String) (args : List plx_printf_arg)
    (st : plx_llvm_state) (a : Unit) (st1 : plx_llvm_state)
    (h : plx_llvm_ir_fprintf env format args st = some (a, st1)) :
    ∃ text, plx_llvm_ir_fprintf_text env format.toList args = some text ∧
      st1 = { st with stream := st.stream ++ text } := by
  obtain ⟨text, s, h1, h2⟩ := bind_inv1 _ _ _ _ h
  obtain ⟨e1, e2⟩ := lift_inv _ _ _ _ h1
  subst e2
  cases h2
  exact ⟨text, e1, rfl⟩

theorem ir_text_param (env : plx_llvm_env) (type : plx_node) (x : Nat) :
    plx_llvm_ir_fprintf_text env "%t %%%u".toList [.t type, .u x] =
      (plx_generate_llvm_ir_type env type).map fun t => t ++ " %" ++ toString x := by
  have e : "%t %%%u".toList = ['%', 't', ' ', '%', '%', '%', 'u'] := rfl
  rw [e]
  simp only [plx_llvm_ir_fprintf_text]
  cases plx_generate_llvm_ir_type env type with
  | none => rfl
  | some t =>
    simp only [Option.map_some']
    congr 1
    apply String.ext
    simp only [String.data_append, List.append_assoc, List.append_nil]
    rfl

theorem ir_text_define (env : plx_llvm_env) (type : plx_node) (name : String) :
    plx_llvm_ir_fprintf_text env "define %t @%s(".toList [.t type, .s name] =
      (plx_generate_llvm_ir_type env type).map fun t => "define " ++ t ++ " @" ++ name ++ "(" := by
  have e : "define %t @%s(".toList =
      ['d', 'e', 'f', 'i', 'n', 'e', ' ', '%', 't', ' ', '@', '%', 's', '('] := rfl
  rw [e]
  simp only [plx_llvm_ir_fprintf_text]
  cases plx_generate_llvm_ir_type env type with
  | none => rfl
  | some t =>
    simp only [Option.map_some']
    congr 1
    apply String.ext
    simp only [String.data_append, List.append_assoc, List.append_nil]
    rfl

theorem ir_text_slot (env : plx_llvm_env) (type : plx_node) (l p : Nat) :
    plx_llvm_ir_fprintf_text env
        ("  %%%u = alloca %t\n" ++ "  store %t %%%u, ptr %%%u\n").toList
        [.u l, .t type, .t type, .u p, .u l] =
      (plx_generate_llvm_ir_type env type).map fun t =>
        "  %" ++ toString l ++ " = alloca " ++ t ++ "\n" ++
          "  store " ++ t ++ " %" ++ toString p ++ ", ptr %" ++ toString l ++ "\n" := by
  have e : ("  %%%u = alloca %t\n" ++ "  store %t %%%u, ptr %%%u\n").toList =
      [' ', ' ', '%', '%', '%', 'u', ' ', '=', ' ', 'a', 'l', 'l', 'o', 'c', 'a', ' ', '%', 't',
        '\n', ' ', ' ', 's', 't', 'o', 'r', 'e', ' ', '%', 't', ' ', '%', '%', '%', 'u', ',',
        ' ', 'p', 't', 'r', ' ', '%', '%', '%', 'u', '\n'] := rfl
  rw [e]
  simp only [plx_llvm_ir_fprintf_text]
  cases plx_generate_llvm_ir_type env type with
  | none => rfl
  | some t =>
    simp only [Option.map_some']
    congr 1
    apply String.ext
    simp only [String.data_append, List.append_assoc, List.append_nil]
    rfl

/-- The identifiers that `count` evaluations of `locals++` return from the
value `start` of the counter on. -/
def plx_llvm_ids (start count : Nat) : List Nat :=
  (List.range count).map fun i => (start + i) % 2 ^ UINT_BITS

theorem llvm_ids_succ (start count : Nat) (h : start < 2 ^ UINT_BITS) :
    plx_llvm_ids start (count + 1) =
      start :: plx_llvm_ids ((start + 1) % 2 ^ UINT_BITS) count := by
  unfold plx_llvm_ids
  rw [List.range_succ_eq_map, List.map_cons, List.map_map]
  simp only [Nat.add_zero, Nat.mod_eq_of_lt h, List.cons.injEq, true_and]
  apply List.map_congr_left
  intro i _
  have hM : 2 ^ UINT_BITS = 4294967296 := by decide
  simp only [Function.comp, Nat.succ_eq_add_one, hM]
  omega

theorem llvm_ids_range (start count : Nat) (h : start + count ≤ 2 ^ UINT_BITS) :
    plx_llvm_ids start count = List.range' start count := by
  unfold plx_llvm_ids
  rw [List.range'_eq_map_range]
  apply List.map_congr_left
  intro i hi
  have := List.mem_range.1 hi
  exact Nat.mod_eq_of_lt (by omega)

/-- The text of the first loop over the parameters, for the texts of their types
and the value of the counter. -/
def plx_llvm_args_text : List String → Nat → String
  | [], _ => ""
  | [type], i => type ++ " %" ++ toString i
  | type :: type2 :: types, i =>
    type ++ " %" ++ toString i ++ ", " ++
      plx_llvm_args_text (type2 :: types) ((i + 1) % 2 ^ UINT_BITS)

/-- The text of the second loop over the parameters, for the texts of their
types and the values of the counter and of `param_var`. -/
def plx_llvm_slots_text : List String → Nat → Nat → String
  | [], _, _ => ""
  | type :: types, l, p =>
    "  %" ++ toString l ++ " = alloca " ++ type ++ "\n" ++
      "  store " ++ type ++ " %" ++ toString p ++ ", ptr %" ++ toString l ++ "\n" ++
      plx_llvm_slots_text types ((l + 1) % 2 ^ UINT_BITS) ((p + 1) % 2 ^ UINT_BITS)

theorem param_types_null_iff (env : plx_llvm_env) (params : plx_node) (types : List String)
    (h : plx_llvm_param_types env params = some types) :
    (types = [] ↔ params = .NULL) := by
  cases params with
  | NULL => cases h; simp
  | node k v c n ty =>
    unfold plx_llvm_param_types at h
    split at h
    · cases h; simp
    · cases h

theorem for_each_node (body : plx_node → plx_llvm Unit) (k : plx_node_kind)
    (v : plx_node_value) (c n ty : plx_node) :
    plx_llvm_for_each body (.node k v c n ty) =
      plx_llvm_bind (body (.node k v c n ty)) fun _ => plx_llvm_for_each body n :=
  rfl

theorem param_list_spec (env : plx_llvm_env) (params : plx_node) :
    ∀ st st1 : plx_llvm_state, st.locals < 2 ^ UINT_BITS →
      plx_llvm_param_list env params st = some ((), st1) →
      ∃ types, plx_llvm_param_types env params = some types ∧
        st1 = { st with
          stream := st.stream ++ plx_llvm_args_text types st.locals,
          locals := (st.locals + types.length) % 2 ^ UINT_BITS,
          allocated := st.allocated ++ plx_llvm_ids st.locals types.length } := by
  induction params with
  | NULL =>
    intro st st1 hl h
    cases h
    refine ⟨[], rfl, ?_⟩
    simp [plx_llvm_args_text, plx_llvm_ids, Nat.mod_eq_of_lt hl]
  | node k v c n ty _ ihn _ =>
    intro st st1 hl h
    unfold plx_llvm_param_list at h
    rw [for_each_node] at h
    obtain ⟨_, s4, hbody, hrest⟩ := bind_inv1 _ _ _ _ h
    obtain ⟨x, s1, hx, hbody⟩ := bind_inv _ _ _ _ hbody
    obtain ⟨ex, e1⟩ := lift_inv _ _ _ _ hx
    subst s1
    obtain ⟨param_name, param_type⟩ := x
    simp only at hbody
    obtain ⟨local_var, s2, halloc, hbody⟩ := bind_inv _ _ _ _ hbody
    cases halloc
    obtain ⟨_, s3, hprint, hbody⟩ := bind_inv _ _ _ _ hbody
    obtain ⟨text, htext, e3⟩ := ir_fprintf_inv _ _ _ _ _ _ hprint
    subst e3
    rw [ir_text_param] at htext
    obtain ⟨t, ht, e⟩ := Option.map_eq_some'.1 htext
    subst e
    have ex1 : plx_extract2 c = some (param_name, param_type) := ex
    have hpt : plx_llvm_param_type env (.node k v c n ty) = some t := by
      simp only [plx_llvm_param_type, plx_node.children, ex1, Option.some_bind, ht]
    have hM : 2 ^ UINT_BITS = 4294967296 := by decide
    split at hbody
    · rename_i hnext
      cases hbody
      obtain ⟨types, htypes, e⟩ := ihn _ st1 (Nat.mod_lt _ (by decide)) hrest
      refine ⟨t :: types, ?_, ?_⟩
      · simp only [plx_llvm_param_types, hpt, htypes]
      · subst e
        have hnull := param_types_null_iff env n types htypes
        cases n with
        | NULL => cases hnext
        | node k2 v2 c2 n2 ty2 =>
          cases types with
          | nil => exact absurd (hnull.1 rfl) (by simp)
          | cons t2 types =>
            simp only [List.length_cons]
            rw [llvm_ids_succ _ _ hl]
            simp only [plx_llvm_args_text, String.append_assoc,
              List.append_assoc, List.singleton_append, plx_llvm_state.mk.injEq, and_true,
              true_and, plx_llvm_fputs, hM]
            omega
    · rename_i hnext
      cases hbody
      obtain ⟨types, htypes, e⟩ := ihn _ st1 (Nat.mod_lt _ (by decide)) hrest
      refine ⟨t :: types, ?_, ?_⟩
      · simp only [plx_llvm_param_types, hpt, htypes]
      · subst e
        have hnull := param_types_null_iff env n types htypes
        cases n with
        | node k2 v2 c2 n2 ty2 => exact absurd rfl hnext
        | NULL =>
          have : types = [] := hnull.2 rfl
          subst this
          rw [show List.length [t] = 0 + 1 from rfl, llvm_ids_succ _ _ hl]
          simp [plx_llvm_args_text, plx_llvm_ids, String.append_assoc]

theorem alloc_inv (st : plx_llvm_state) (a : Nat) (st1 : plx_llvm_state)
    (h : plx_llvm_alloc st = some (a, st1)) :
    a = st.locals ∧
      st1 = { st with locals := (st.locals + 1) % 2 ^ UINT_BITS,
                      allocated := st.allocated ++ [st.locals] } := by
  cases h
  exact ⟨rfl, rfl⟩

theorem set_local_var_inv (name : plx_node) (value : Nat) (st : plx_llvm_state) (a : Unit)
    (st1 : plx_llvm_state) (h : plx_llvm_set_local_var name value st = some (a, st1)) :
    st1.stream = st.stream ∧ st1.locals = st.locals ∧ st1.allocated = st.allocated := by
  unfold plx_llvm_set_local_var at h
  split at h
  · cases h
  · cases h
    exact ⟨rfl, rfl, rfl⟩

theorem param_slots_spec (env : plx_llvm_env) (params : plx_node) :
    ∀ (p : Nat) (st st1 : plx_llvm_state), st.locals < 2 ^ UINT_BITS →
      plx_llvm_param_slots env params p st = some ((), st1) →
      ∃ types, plx_llvm_param_types env params = some types ∧
        st1.stream = st.stream ++ plx_llvm_slots_text types st.locals p ∧
        st1.locals = (st.locals + types.length) % 2 ^ UINT_BITS ∧
        st1.allocated = st.allocated ++ plx_llvm_ids st.locals types.length := by
  induction params with
  | NULL =>
    intro p st st1 hl h
    cases h
    exact ⟨[], rfl, by simp [plx_llvm_slots_text], by simp [Nat.mod_eq_of_lt hl],
      by simp [plx_llvm_ids]⟩
  | node k v c n ty _ ihn _ =>
    intro p st st1 hl h
    unfold plx_llvm_param_slots at h
    obtain ⟨x, s1, hx, h⟩ := bind_inv _ _ _ _ h
    obtain ⟨ex, e1⟩ := lift_inv _ _ _ _ hx
    subst s1
    obtain ⟨param_name, param_type⟩ := x
    simp only at h
    obtain ⟨locals, s2, hget, h⟩ := bind_inv _ _ _ _ h
    cases hget
    obtain ⟨_, s3, hprint, h⟩ := bind_inv _ _ _ _ h
    obtain ⟨text, htext, e3⟩ := ir_fprintf_inv _ _ _ _ _ _ hprint
    subst e3
    rw [ir_text_slot] at htext
    obtain ⟨t, ht, e⟩ := Option.map_eq_some'.1 htext
    subst e
    obtain ⟨local_var, s4, halloc, h⟩ := bind_inv _ _ _ _ h
    obtain ⟨e4, e5⟩ := alloc_inv _ _ _ halloc
    subst e5
    obtain ⟨_, s5, hset, h⟩ := bind_inv _ _ _ _ h
    obtain ⟨q1, q2, q3⟩ := set_local_var_inv _ _ _ _ _ hset
    have hl5 : s5.locals < 2 ^ UINT_BITS := by rw [q2]; exact Nat.mod_lt _ (by decide)
    obtain ⟨types, htypes, r1, r2, r3⟩ := ihn _ s5 st1 hl5 h
    have hpt : plx_llvm_param_type env (.node k v c n ty) = some t := by
      simp only [plx_llvm_param_type, plx_node.children, ex, Option.some_bind, ht]
    have hM : 2 ^ UINT_BITS = 4294967296 := by decide
    refine ⟨t :: types, ?_, ?_, ?_, ?_⟩
    · simp only [plx_llvm_param_types, hpt, htypes]
    · rw [r1, q1, q2]
      simp only [plx_llvm_slots_text, String.append_assoc]
    · rw [r2, q2]
      simp only [List.length_cons, hM]
      omega
    · rw [r3, q3, q2]
      simp only [List.length_cons]
      rw [llvm_ids_succ _ _ hl]
      simp

theorem intercalate_go (s : String) (l : List String) :
    ∀ x b : String, String.intercalate.go (x ++ b) s l = x ++ String.intercalate.go b s l := by
  induction l with
  | nil => intro x b; rfl
  | cons c l ih =>
    intro x b
    simp only [String.intercalate.go]
    rw [String.append_assoc, String.append_assoc, ih, String.append_assoc]

theorem intercalate_cons_cons (s a b : String) (l : List String) :
    s.intercalate (a :: b :: l) = a ++ s ++ s.intercalate (b :: l) := by
  simp only [String.intercalate, String.intercalate.go]
  rw [String.append_assoc, intercalate_go, intercalate_go, String.append_assoc]

theorem join_cons (a : String) (l : List String) : String.join (a :: l) = a ++ String.join l := by
  have key : ∀ (l : List String) (x : String),
      List.foldl (fun r s => r ++ s) x l = x ++ List.foldl (fun r s => r ++ s) "" l := by
    intro l
    induction l with
    | nil => intro x; simp
    | cons c l ih =>
      intro x
      simp only [List.foldl_cons]
      rw [ih (x ++ c), ih ("" ++ c), String.append_assoc]
      simp
  simp only [String.join, List.foldl_cons]
  rw [key l ("" ++ a)]
  simp

theorem args_text_closed (types : List String) :
    ∀ j, j + types.length ≤ 2 ^ UINT_BITS →
      plx_llvm_args_text types j =
        ", ".intercalate ((types.enumFrom j).map fun p => p.2 ++ " %" ++ toString p.1) := by
  induction types with
  | nil => intro j _; rfl
  | cons t types ih =>
    intro j hj
    cases types with
    | nil => rfl
    | cons t2 types =>
      simp only [List.length_cons] at hj
      have hM : 2 ^ UINT_BITS = 4294967296 := by decide
      have e : (j + 1) % 2 ^ UINT_BITS = j + 1 := Nat.mod_eq_of_lt (by omega)
      simp only [plx_llvm_args_text, e]
      rw [ih (j + 1) (by simp only [List.length_cons]; omega)]
      simp only [List.enumFrom_cons, List.map_cons]
      rw [intercalate_cons_cons]

theorem slots_text_closed (types : List String) (l p : Nat) :
    ∀ j, l + j + types.length ≤ 2 ^ UINT_BITS → p + j + types.length ≤ 2 ^ UINT_BITS →
      plx_llvm_slots_text types (l + j) (p + j) =
        String.join ((types.enumFrom j).map fun q =>
          "  %" ++ toString (l + q.1) ++ " = alloca " ++ q.2 ++ "\n" ++
            "  store " ++ q.2 ++ " %" ++ toString (p + q.1) ++ ", ptr %" ++
            toString (l + q.1) ++ "\n") := by
  induction types with
  | nil => intro j _ _; rfl
  | cons t types ih =>
    intro j hl hp
    simp only [List.length_cons] at hl hp
    simp only [plx_llvm_slots_text, List.enumFrom_cons, List.map_cons]
    rw [join_cons]
    cases types with
    | nil => simp [plx_llvm_slots_text, String.join]
    | cons t2 types =>
      simp only [List.length_cons] at hl hp
      have hM : 2 ^ UINT_BITS = 4294967296 := by decide
      have e1 : (l + j + 1) % 2 ^ UINT_BITS = l + (j + 1) := by
        rw [Nat.mod_eq_of_lt (by omega)]; omega
      have e2 : (p + j + 1) % 2 ^ UINT_BITS = p + (j + 1) := by
        rw [Nat.mod_eq_of_lt (by omega)]; omega
      rw [e1, e2,
        ih (j + 1) (by simp only [List.length_cons]; omega)
          (by simp only [List.length_cons]; omega)]

theorem pairwise_ids (n count : Nat) :
    (List.range n ++ List.range' (n + 1) count).Pairwise (· < ·) := by
  rw [List.pairwise_append]
  refine ⟨List.pairwise_lt_range n, List.pairwise_lt_range' _ _, ?_⟩
  intro a ha b hb
  have h1 := List.mem_range.1 ha
  have h2 := (List.mem_range'_1.1 hb).1
  omega

theorem reset_inv (st : plx_llvm_state) (a : Unit) (st1 : plx_llvm_state)
    (h : plx_llvm_reset st = some (a, st1)) : st1 = { st with locals := 0 } := by
  unfold plx_llvm_reset at h
  injection h with h
  injection h with _ h
  exact h.symm

theorem reserve_inv (st : plx_llvm_state) (a : Unit) (st1 : plx_llvm_state)
    (h : plx_llvm_reserve st = some (a, st1)) :
    st1 = { st with locals := (st.locals + 1) % 2 ^ UINT_BITS } := by
  unfold plx_llvm_reserve at h
  injection h with h
  injection h with _ h
  exact h.symm

theorem fputs_inv (text : String) (st : plx_llvm_state) (a : Unit) (st1 : plx_llvm_state)
    (h : plx_llvm_fputs text st = some (a, st1)) :
    st1 = { st with stream := st.stream ++ text } := by
  unfold plx_llvm_fputs at h
  injection h with h
  injection h with _ h
  exact h.symm

theorem zero_lt_uint : 0 < 2 ^ UINT_BITS := by decide

theorem generate_func_def_eq (env : plx_llvm_env) (depth : Nat) (v : plx_node_value)
    (c n ty : plx_node) :
    plx_generate_llvm_ir env (depth + 1) (.node PLX_NODE_FUNC_DEF v c n ty) =
      plx_generate_llvm_ir_func_def env depth c :=
  rfl

set_option maxRecDepth 1000000 in
/-- C28: When `plx_generate_llvm_ir` returns for a function definition and has
allocated fewer than `2 ^ 32` unnamed identifiers for it, the text it has written
is `define`, the return type, `@` and the name, the parameters as their types
with the numbers `%0`, `%1`, ... separated by `, `, then for parameter `i` of the
`n` parameters the lines `%(n+1+i) = alloca T` and `store T %i, ptr %(n+1+i)`,
then the text of the body, which `plx_generate_llvm_ir_stmt` writes from the
counter `2 * n + 1` on, and the closing brace.  The identifiers allocated are
`0, ..., n - 1` and then `n + 1, n + 2, ...` without a gap, so that the number
`n` is given to no identifier and each identifier is greater than those
allocated before it.  For `func f(a: s32, b: u64) -> s32 { return a; }` the
identifiers allocated are 0, 1, 3, 4 and 5. -/
theorem plx_generate_llvm_ir_numbering (env : plx_llvm_env) (depth : Nat) (v : plx_node_value)
    (c n ty : plx_node) (st st1 : plx_llvm_state)
    (h : plx_generate_llvm_ir env (depth + 1) (.node PLX_NODE_FUNC_DEF v c n ty) st =
      some ((), st1))
    (hcount : st1.allocated.length < st.allocated.length + 2 ^ UINT_BITS) :
    (∃ (name params return_type body : plx_node) (name_text return_text body_text : String)
      (types : List String) (count : Nat) (st2 st3 : plx_llvm_state),
      plx_extract4 c = some (name, params, return_type, body) ∧
      plx_llvm_name name = some name_text ∧
      plx_generate_llvm_ir_type env return_type = some return_text ∧
      plx_llvm_param_types env params.children = some types ∧
      st1.stream = st.stream ++ ("define " ++ return_text ++ " @" ++ name_text ++ "(" ++
        ", ".intercalate (types.enum.map fun p => p.2 ++ " %" ++ toString p.1) ++ ") \x7b\n" ++
        String.join (types.enum.map fun p =>
          "  %" ++ toString (types.length + 1 + p.1) ++ " = alloca " ++ p.2 ++ "\n" ++
            "  store " ++ p.2 ++ " %" ++ toString (0 + p.1) ++ ", ptr %" ++
            toString (types.length + 1 + p.1) ++ "\n") ++
        body_text ++ "\x7d\n\n") ∧
      st2.locals = 2 * types.length + 1 ∧
      plx_generate_llvm_ir_stmt env depth body 0 0 st2 = some ((), st3) ∧
      st3.stream = st2.stream ++ body_text ∧
      st3.allocated = st2.allocated ++ List.range' (2 * types.length + 1) count ∧
      st1.allocated = st.allocated ++
        (List.range types.length ++
          List.range' (types.length + 1) (types.length + count))) ∧
    (st1.allocated.drop st.allocated.length).Pairwise (· < ·) ∧
    plx_llvm_source "func f(a: s32, b: u64) -> s32 { return a; }" =
      some ("define i32 @f(i32 %0, i64 %1) \x7b\n" ++
        "  %3 = alloca i32\n" ++ "  store i32 %0, ptr %3\n" ++
        "  %4 = alloca i64\n" ++ "  store i64 %1, ptr %4\n" ++
        "  %5 = load i32, ptr %3\n" ++ "  ret i32 %5\n" ++ "\x7d\n\n", [0, 1, 3, 4, 5]) := by
  have main : ∃ (name params return_type body : plx_node)
      (name_text return_text body_text : String) (types : List String) (count : Nat)
      (st2 st3 : plx_llvm_state),
      plx_extract4 c = some (name, params, return_type, body) ∧
      plx_llvm_name name = some name_text ∧
      plx_generate_llvm_ir_type env return_type = some return_text ∧
      plx_llvm_param_types env params.children = some types ∧
      st1.stream = st.stream ++ ("define " ++ return_text ++ " @" ++ name_text ++ "(" ++
        ", ".intercalate (types.enum.map fun p => p.2 ++ " %" ++ toString p.1) ++ ") \x7b\n" ++
        String.join (types.enum.map fun p =>
          "  %" ++ toString (types.length + 1 + p.1) ++ " = alloca " ++ p.2 ++ "\n" ++
            "  store " ++ p.2 ++ " %" ++ toString (0 + p.1) ++ ", ptr %" ++
            toString (types.length + 1 + p.1) ++ "\n") ++
        body_text ++ "\x7d\n\n") ∧
      st2.locals = 2 * types.length + 1 ∧
      plx_generate_llvm_ir_stmt env depth body 0 0 st2 = some ((), st3) ∧
      st3.stream = st2.stream ++ body_text ∧
      st3.allocated = st2.allocated ++ List.range' (2 * types.length + 1) count ∧
      st1.allocated = st.allocated ++
        (List.range types.length ++
          List.range' (types.length + 1) (types.length + count)) := by
    rw [generate_func_def_eq] at h
    unfold plx_generate_llvm_ir_func_def at h
    obtain ⟨x, s0, hx, h1⟩ := bind_inv _ _ _ _ h
    obtain ⟨ex, e0⟩ := lift_inv _ _ _ _ hx
    subst s0
    obtain ⟨name, params, return_type, body⟩ := x
    simp only at h1
    obtain ⟨name_text, s0, hname, h2⟩ := bind_inv _ _ _ _ h1
    obtain ⟨en, e0⟩ := lift_inv _ _ _ _ hname
    subst s0
    obtain ⟨_, s1, hdef, h3⟩ := bind_inv _ _ _ _ h2
    obtain ⟨text, htext, e1⟩ := ir_fprintf_inv _ _ _ _ _ _ hdef
    subst e1
    rw [ir_text_define] at htext
    obtain ⟨return_text, hrt, e⟩ := Option.map_eq_some'.1 htext
    subst e
    obtain ⟨_, s2, hreset, h4⟩ := bind_inv _ _ _ _ h3
    have e2 := reset_inv _ _ _ hreset
    subst e2
    obtain ⟨_, s3, hlist, h5⟩ := bind_inv _ _ _ _ h4
    obtain ⟨types, htypes, e3⟩ := param_list_spec env params.children _ s3 zero_lt_uint hlist
    subst e3
    obtain ⟨_, s4, hputs, h6⟩ := bind_inv _ _ _ _ h5
    have e4 := fputs_inv _ _ _ _ hputs
    subst e4
    obtain ⟨_, s5, hreserve, h7⟩ := bind_inv _ _ _ _ h6
    have e5 := reserve_inv _ _ _ hreserve
    subst e5
    obtain ⟨_, s6, hslots, h8⟩ := bind_inv _ _ _ _ h7
    obtain ⟨types1, htypes1, r1, r2, r3⟩ :=
      param_slots_spec env params.children 0 _ s6 (Nat.mod_lt _ (by decide)) hslots
    have e : types1 = types := by
      rw [htypes] at htypes1
      exact (Option.some.inj htypes1).symm
    subst e
    obtain ⟨_, s7, hstmt, h9⟩ := bind_inv _ _ _ _ h8
    have hl6 : s6.locals < 2 ^ UINT_BITS := by rw [r2]; exact Nat.mod_lt _ (by decide)
    obtain ⟨_, count, body_text, b1, b2, b3⟩ :=
      (stmt_mono env depth body 0 0).holds _ _ _ hstmt hl6
    have e8 := fputs_inv _ _ _ _ h9
    subst e8
    have hM : 2 ^ UINT_BITS = 4294967296 := by decide
    simp only at r1 r2 r3 hcount
    have hlen : types1.length + types1.length + count < 2 ^ UINT_BITS := by
      rw [b1, r3] at hcount
      simp only [List.length_append, List.length_map, List.length_range, plx_llvm_ids] at hcount
      omega
    have q0 : plx_llvm_ids 0 types1.length = List.range types1.length := by
      rw [llvm_ids_range _ _ (by omega), List.range_eq_range']
    have q1 : (0 + types1.length) % 2 ^ UINT_BITS = types1.length := by
      rw [Nat.zero_add]; exact Nat.mod_eq_of_lt (by omega)
    have q2 : (types1.length + 1) % 2 ^ UINT_BITS = types1.length + 1 :=
      Nat.mod_eq_of_lt (by omega)
    have q3 : (types1.length + 1 + types1.length) % 2 ^ UINT_BITS = 2 * types1.length + 1 := by
      rw [Nat.mod_eq_of_lt (by omega)]; omega
    rw [q1, q2] at r1 r2 r3
    rw [q3] at r2
    rw [q0] at r3
    rw [llvm_ids_range _ _ (by omega)] at r3
    have b1a : s7.allocated = s6.allocated ++ List.range' (2 * types1.length + 1) count := by
      rw [b1]
      congr 1
      have := llvm_ids_range s6.locals count (by rw [r2]; omega)
      unfold plx_llvm_ids at this
      rw [this, r2]
    have hall : s7.allocated = st.allocated ++
        (List.range types1.length ++
          List.range' (types1.length + 1) (types1.length + count)) := by
      rw [b1a, r3, List.append_assoc, List.append_assoc]
      congr 2
      rw [show 2 * types1.length + 1 = types1.length + 1 + types1.length by omega]
      rw [List.range'_append_1, Nat.add_comm count]
    refine ⟨name, params, return_type, body, name_text, return_text, body_text, types1, count,
      s6, s7, ex, en, hrt, htypes, ?_, r2, hstmt, b3, b1a, hall⟩
    simp only [b3, r1]
    rw [args_text_closed types1 0 (by omega)]
    have := slots_text_closed types1 (types1.length + 1) 0 0 (by omega) (by omega)
    simp only [Nat.add_zero] at this
    rw [this]
    simp only [List.enum, String.append_assoc]
  refine ⟨main, ?_, by decide!⟩
  obtain ⟨_, _, _, _, _, _, _, types, count, _, _, _, _, _, _, _, _, _, _, _, hall⟩ := main
  simp only [hall, List.drop_left]
  exact pairwise_ids _ _

set_option maxRecDepth 1000000 in
/-- Witness for C28: the function definition of the module of
`func f(a: s32) -> s32 { return a; }`, for which the identifiers 0, 2 and 3 are
allocated. -/
theorem plx_generate_llvm_ir_numbering_witness :
    (List.drop 0 [0, 2, 3]).Pairwise (· < ·) :=
  (plx_generate_llvm_ir_numbering ⟨fun _ => "", [0]⟩ 39 .zero
    (plx_checked_source "func f(a: s32) -> s32 { return a; }").children.children .NULL
    (plx_checked_source "func f(a: s32) -> s32 { return a; }").children.type
    plx_llvm_init
    ⟨"define i32 @f(i32 %0) \x7b\n" ++ "  %2 = alloca i32\n" ++ "  store i32 %0, ptr %2\n" ++
      "  %3 = load i32, ptr %2\n" ++ "  ret i32 %3\n" ++ "\x7d\n\n", 4, [(1, 2)], [0, 2, 3]⟩
    (by decide!) (by decide)).2.1

/-! ## `src/type_checker.c`: index and slice nodes, compound assignments and function types

The cases `PLX_NODE_INDEX`, `PLX_NODE_SLICE`, `PLX_NODE_REM_ASSIGN` to
`PLX_NODE_RSHIFT_ASSIGN` and `PLX_NODE_FUNC_DEF` of `plx_type_check`, as embedded
above. -/

theorem type_check_index_eq (fuel : Nat) (v : plx_node_value) (kv ki : plx_node_kind)
    (vv vi : plx_node_value) (cv ci tyi tyv n ty return_type : plx_node)
    (types : plx_type_table) :
    plx_type_check (fuel + 1)
        (.node PLX_NODE_INDEX v (.node kv vv cv (.node ki vi ci .NULL tyi) tyv) n ty)
        return_type types =
      plx_check_node PLX_NODE_INDEX v n
        (plx_check_bind
          (plx_type_check fuel (.node kv vv cv (.node ki vi ci .NULL tyi) tyv) return_type types)
          fun value types r1 =>
            plx_check_bind (plx_type_check fuel (.node ki vi ci .NULL tyi) return_type types)
              fun index types r2 =>
                some (some (value.set_next index,
                  if value.type.kind? = some PLX_NODE_ARRAY_TYPE ∨
                      value.type.kind? = some PLX_NODE_SLICE_TYPE then value.type.children
                  else ty,
                  types,
                  r1 && !plx_unexpected_type
                      (fun kind => kind = PLX_NODE_ARRAY_TYPE || kind = PLX_NODE_SLICE_TYPE)
                      value.type
                    && r2 && !plx_unexpected_type plx_is_int_type index.type))) := by
  rfl

theorem type_check_slice_eq (fuel : Nat) (v : plx_node_value) (kv ks ke : plx_node_kind)
    (vv vs ve : plx_node_value) (cv cs ce tye tys tyv n ty return_type : plx_node)
    (types : plx_type_table) :
    plx_type_check (fuel + 1)
        (.node PLX_NODE_SLICE v
          (.node kv vv cv (.node ks vs cs (.node ke ve ce .NULL tye) tys) tyv) n ty)
        return_type types =
      plx_check_node PLX_NODE_SLICE v n
        (plx_check_bind
          (plx_type_check fuel
            (.node kv vv cv (.node ks vs cs (.node ke ve ce .NULL tye) tys) tyv) return_type
            types)
          fun value types r1 =>
            plx_check_bind
              (plx_type_check fuel (.node ks vs cs (.node ke ve ce .NULL tye) tys) return_type
                types)
              fun start types r2 =>
                plx_check_bind
                  (plx_type_check fuel (.node ke ve ce .NULL tye) return_type types)
                  fun end_index types r3 =>
                    some (some (value.set_next (start.set_next end_index),
                      if value.type.kind? = some PLX_NODE_ARRAY_TYPE ∨
                          value.type.kind? = some PLX_NODE_SLICE_TYPE then value.type.children
                      else ty,
                      types,
                      r1 && !plx_unexpected_type
                          (fun kind => kind = PLX_NODE_ARRAY_TYPE || kind = PLX_NODE_SLICE_TYPE)
                          value.type
                        && r2 && !plx_unexpected_type plx_is_int_type start.type
                        && r3 && !plx_unexpected_type plx_is_int_type end_index.type))) := by
  rfl

theorem unexpected_type_of_kind (is_type : plx_node_kind → Bool) (type : plx_node)
    (kind : plx_node_kind) (h : type.kind? = some kind) :
    plx_unexpected_type is_type type = !is_type kind := by
  unfold plx_unexpected_type
  rw [h]

/-- The node of the array type `[len]element` as `plx_parse_array_or_slice_type`
builds it: `array_type->children = len; len->next = element_type;`. -/
def plx_array_type_of (len element_type : plx_node) : plx_node :=
  (plx_new_node PLX_NODE_ARRAY_TYPE).set_children (len.set_next element_type)

/-- The type that `plx_type_check` leaves in the node of an expression given as
a tree, with the types of the entries given: `NULL` when the call does not
return. -/
def plx_checked_type (node : plx_node) (types : plx_type_table) : plx_node :=
  match plx_type_check 40 node .NULL types with
  | some (some (node1, _, _)) => node1.type
  | _ => .NULL

set_option maxRecDepth 1000000 in
/-- C31: For an index node whose subject and index are checked with the results
`r1` and `r2`, and whose subject has a type of kind `PLX_NODE_ARRAY_TYPE` or
`PLX_NODE_SLICE_TYPE`, `plx_type_check` sets the type of the node to
`value->type->children`, the first child of the type of the subject; the same
holds of a slice node.  For a slice type `[]T` this is the element type `T`; for
an array type `[N]T`, built with `children = len` and `len->next = element_type`,
it is the length `N` with the element type as next sibling, not `T`.  So the
module of `func f(a: []s32) -> s32 { return a[0; }` passes the type check and
that of `func f(a: [4]s32) -> s32 { return a[0; }` fails it (the parser reads an
index expression without its closing bracket). -/
theorem plx_type_check_index (fuel : Nat) (v : plx_node_value) (kv ki : plx_node_kind)
    (vv vi : plx_node_value) (cv ci tyi tyv n ty return_type : plx_node)
    (types : plx_type_table) (value index : plx_node) (types1 types2 : plx_type_table)
    (r1 r2 : Bool)
    (hvalue : plx_type_check fuel (.node kv vv cv (.node ki vi ci .NULL tyi) tyv) return_type
      types = some (some (value, types1, r1)))
    (hindex : plx_type_check fuel (.node ki vi ci .NULL tyi) return_type types1 =
      some (some (index, types2, r2)))
    (hkind : value.type.kind? = some PLX_NODE_ARRAY_TYPE ∨
      value.type.kind? = some PLX_NODE_SLICE_TYPE) :
    plx_type_check (fuel + 1)
        (.node PLX_NODE_INDEX v (.node kv vv cv (.node ki vi ci .NULL tyi) tyv) n ty)
        return_type types =
      some (some (.node PLX_NODE_INDEX v (value.set_next index) n value.type.children, types2,
        r1 && r2 && !plx_unexpected_type plx_is_int_type index.type)) ∧
    (∀ ks vs cs tys ke ve ce tye subject start end_index types3 types4 types5 r3 r4 r5,
      plx_type_check fuel (.node kv vv cv (.node ks vs cs (.node ke ve ce .NULL tye) tys) tyv)
        return_type types = some (some (subject, types3, r3)) →
      plx_type_check fuel (.node ks vs cs (.node ke ve ce .NULL tye) tys) return_type types3 =
        some (some (start, types4, r4)) →
      plx_type_check fuel (.node ke ve ce .NULL tye) return_type types4 =
        some (some (end_index, types5, r5)) →
      subject.type.kind? = some PLX_NODE_ARRAY_TYPE ∨
        subject.type.kind? = some PLX_NODE_SLICE_TYPE →
      plx_type_check (fuel + 1)
          (.node PLX_NODE_SLICE v
            (.node kv vv cv (.node ks vs cs (.node ke ve ce .NULL tye) tys) tyv) n ty)
          return_type types =
        some (some (.node PLX_NODE_SLICE v (subject.set_next (start.set_next end_index)) n
          subject.type.children, types5,
          r3 && r4 && !plx_unexpected_type plx_is_int_type start.type && r5 &&
            !plx_unexpected_type plx_is_int_type end_index.type))) ∧
    (∀ kl vl cl nl tyl element_type,
      (plx_array_type_of (.node kl vl cl nl tyl) element_type).children =
        .node kl vl cl element_type tyl) ∧
    plx_checked_type
        (plx_node_of PLX_NODE_INDEX
          [(plx_new_node PLX_NODE_IDENTIFIER).set_value (.identifier "a" (some 0)),
            (plx_new_node PLX_NODE_S32).set_value (.uint 0)])
        [(0, plx_node_of PLX_NODE_SLICE_TYPE [plx_new_node PLX_NODE_S32_TYPE])] =
      plx_new_node PLX_NODE_S32_TYPE ∧
    plx_checked_type
        (plx_node_of PLX_NODE_INDEX
          [(plx_new_node PLX_NODE_IDENTIFIER).set_value (.identifier "a" (some 0)),
            (plx_new_node PLX_NODE_S32).set_value (.uint 0)])
        [(0, plx_array_type_of ((plx_new_node PLX_NODE_S32).set_value (.uint 4))
          (plx_new_node PLX_NODE_S32_TYPE))] =
      ((plx_new_node PLX_NODE_S32).set_value (.uint 4)).set_next
        (plx_new_node PLX_NODE_S32_TYPE) ∧
    plx_type_check_bool "func f(a: []s32) -> s32 { return a[0; }" = some (some true) ∧
    plx_type_check_bool "func f(a: [4]s32) -> s32 { return a[0; }" = some (some false) ∧
    plx_type_check_bool "func f(a: [4]s32) -> s32 { return a[0:1; }" = some (some false) := by
  have hu : ∀ x : plx_node, (x.kind? = some PLX_NODE_ARRAY_TYPE ∨
      x.kind? = some PLX_NODE_SLICE_TYPE) →
      plx_unexpected_type
        (fun kind => kind = PLX_NODE_ARRAY_TYPE || kind = PLX_NODE_SLICE_TYPE) x = false := by
    intro x hx
    rcases hx with e | e <;> rw [unexpected_type_of_kind _ _ _ e] <;> decide
  refine ⟨?_, ?_, fun _ _ _ _ _ _ => rfl, by decide, by decide, by decide, by decide,
    by decide⟩
  · rw [type_check_index_eq, hvalue]
    simp only [plx_check_bind, hindex, plx_check_node, if_pos hkind, hu _ hkind]
    simp
  · intro ks vs cs tys ke ve ce tye subject start end_index types3 types4 types5 r3 r4 r5
      hsubject hstart hend hk
    rw [type_check_slice_eq, hsubject]
    simp only [plx_check_bind, hstart, hend, plx_check_node, if_pos hk, hu _ hk]
    simp

set_option maxRecDepth 1000000 in
/-- Witness for C31: the node of `a[0]` with `a` of the array type `[4]s32`. -/
theorem plx_type_check_index_witness :
    plx_type_check 2
      (.node PLX_NODE_INDEX .zero
        (.node PLX_NODE_IDENTIFIER (.identifier "a" (some 0)) .NULL
          (.node PLX_NODE_S32 (.uint 0) .NULL .NULL .NULL) .NULL) .NULL .NULL) .NULL
      [(0, plx_array_type_of ((plx_new_node PLX_NODE_S32).set_value (.uint 4))
        (plx_new_node PLX_NODE_S32_TYPE))] =
      some (some (.node PLX_NODE_INDEX .zero
        ((plx_node.node PLX_NODE_IDENTIFIER (.identifier "a" (some 0)) .NULL
          (.node PLX_NODE_S32 (.uint 0) .NULL .NULL .NULL)
          (plx_array_type_of ((plx_new_node PLX_NODE_S32).set_value (.uint 4))
            (plx_new_node PLX_NODE_S32_TYPE))).set_next
          (.node PLX_NODE_S32 (.uint 0) .NULL .NULL (plx_new_node PLX_NODE_S32_TYPE)))
        .NULL
        (plx_node.node PLX_NODE_IDENTIFIER (.identifier "a" (some 0)) .NULL
          (.node PLX_NODE_S32 (.uint 0) .NULL .NULL .NULL)
          (plx_array_type_of ((plx_new_node PLX_NODE_S32).set_value (.uint 4))
            (plx_new_node PLX_NODE_S32_TYPE))).type.children,
        [(0, plx_array_type_of ((plx_new_node PLX_NODE_S32).set_value (.uint 4))
          (plx_new_node PLX_NODE_S32_TYPE))],
        true && true &&
          !plx_unexpected_type plx_is_int_type
            (plx_node.node PLX_NODE_S32 (.uint 0) .NULL .NULL
              (plx_new_node PLX_NODE_S32_TYPE)).type)) :=
  (plx_type_check_index 1 .zero PLX_NODE_IDENTIFIER PLX_NODE_S32 (.identifier "a" (some 0))
    (.uint 0) .NULL .NULL .NULL .NULL .NULL .NULL .NULL
    [(0, plx_array_type_of ((plx_new_node PLX_NODE_S32).set_value (.uint 4))
      (plx_new_node PLX_NODE_S32_TYPE))]
    (.node PLX_NODE_IDENTIFIER (.identifier "a" (some 0)) .NULL
      (.node PLX_NODE_S32 (.uint 0) .NULL .NULL .NULL)
      (plx_array_type_of ((plx_new_node PLX_NODE_S32).set_value (.uint 4))
        (plx_new_node PLX_NODE_S32_TYPE)))
    (.node PLX_NODE_S32 (.uint 0) .NULL .NULL (plx_new_node PLX_NODE_S32_TYPE))
    [(0, plx_array_type_of ((plx_new_node PLX_NODE_S32).set_value (.uint 4))
      (plx_new_node PLX_NODE_S32_TYPE))]
    [(0, plx_array_type_of ((plx_new_node PLX_NODE_S32).set_value (.uint 4))
      (plx_new_node PLX_NODE_S32_TYPE))] true true
    (by decide) (by decide) (Or.inl (by decide))).1

theorem type_check_rem_assign_eq (fuel : Nat) (k : plx_node_kind)
    (hk : k = PLX_NODE_REM_ASSIGN ∨ k = PLX_NODE_LSHIFT_ASSIGN ∨ k = PLX_NODE_RSHIFT_ASSIGN)
    (v : plx_node_value) (ka kv : plx_node_kind) (va vv : plx_node_value)
    (ca cv tyv tya n ty return_type : plx_node) (types : plx_type_table) :
    plx_type_check (fuel + 1) (.node k v (.node ka va ca (.node kv vv cv .NULL tyv) tya) n ty)
        return_type types =
      plx_check_node k v n
        (plx_check_bind
          (plx_type_check fuel (.node ka va ca (.node kv vv cv .NULL tyv) tya) return_type types)
          fun assignee types r1 =>
            if plx_unexpected_type plx_is_int_type assignee.type then
              some (some (assignee.set_next (.node kv vv cv .NULL tyv), ty, types, false))
            else
              plx_check_bind (plx_type_check fuel (.node kv vv cv .NULL tyv) return_type types)
                fun value types r2 =>
                  some (some (assignee.set_next value, ty, types,
                    r1 && r2 && !plx_unexpected_type plx_is_int_type value.type))) := by
  rcases hk with e | e | e <;> subst e <;> rfl

set_option maxRecDepth 1000000 in
/-- C32: For a compound assignment `%=`, `<>=` (the token of `PLX_NODE_LSHIFT_ASSIGN`)
or `>>=` whose target and value are checked with the results `r1` and `r2` and
have integer types, `plx_type_check` returns `r1 && r2`: the case does not call
`plx_type_eq`, so that no failure is reported for two integer types that are not
equal.  It returns `false` when the target or the value has a type that is no
integer type.  The modules of `a %= b;`, `a <>= b;` and `a >>= b;` with `a` of
type `s32` and `b` of type `u8` pass the type check, while that of `a += b;`
fails it; with `b` of type `f32` the module of `a %= b;` fails it. -/
theorem plx_type_check_rem_assign (fuel : Nat) (k : plx_node_kind)
    (hk : k = PLX_NODE_REM_ASSIGN ∨ k = PLX_NODE_LSHIFT_ASSIGN ∨ k = PLX_NODE_RSHIFT_ASSIGN)
    (v : plx_node_value) (ka kv : plx_node_kind) (va vv : plx_node_value)
    (ca cv tyv tya n ty return_type : plx_node) (types : plx_type_table)
    (assignee value : plx_node) (types1 types2 : plx_type_table) (r1 r2 : Bool)
    (hassignee : plx_type_check fuel (.node ka va ca (.node kv vv cv .NULL tyv) tya) return_type
      types = some (some (assignee, types1, r1)))
    (hvalue : plx_type_check fuel (.node kv vv cv .NULL tyv) return_type types1 =
      some (some (value, types2, r2))) :
    (plx_unexpected_type plx_is_int_type assignee.type = false →
      plx_unexpected_type plx_is_int_type value.type = false →
      plx_type_check (fuel + 1)
          (.node k v (.node ka va ca (.node kv vv cv .NULL tyv) tya) n ty) return_type types =
        some (some (.node k v (assignee.set_next value) n ty, types2, r1 && r2))) ∧
    (plx_unexpected_type plx_is_int_type assignee.type = true →
      plx_type_check (fuel + 1)
          (.node k v (.node ka va ca (.node kv vv cv .NULL tyv) tya) n ty) return_type types =
        some (some (.node k v (assignee.set_next (.node kv vv cv .NULL tyv)) n ty, types1,
          false))) ∧
    (plx_unexpected_type plx_is_int_type assignee.type = false →
      plx_unexpected_type plx_is_int_type value.type = true →
      plx_type_check (fuel + 1)
          (.node k v (.node ka va ca (.node kv vv cv .NULL tyv) tya) n ty) return_type types =
        some (some (.node k v (assignee.set_next value) n ty, types2, false))) ∧
    plx_type_check_bool "func f(a: s32, b: u8) { a %= b; }" = some (some true) ∧
    plx_type_check_bool "func f(a: s32, b: u8) { a <>= b; }" = some (some true) ∧
    plx_type_check_bool "func f(a: s32, b: u8) { a >>= b; }" = some (some true) ∧
    plx_type_check_bool "func f(a: s32, b: u8) { a += b; }" = some (some false) ∧
    plx_type_check_bool "func f(a: s32, b: s32) { a %= b; }" = some (some true) ∧
    plx_type_check_bool "func f(a: s32, b: f32) { a %= b; }" = some (some false) ∧
    plx_type_check_bool "func f(a: f32, b: s32) { a %= b; }" = some (some false) := by
  refine ⟨fun h1 h2 => ?_, fun h1 => ?_, fun h1 h2 => ?_, by decide, by decide, by decide,
    by decide, by decide, by decide, by decide⟩
  · rw [type_check_rem_assign_eq _ _ hk, hassignee]
    simp [plx_check_bind, plx_check_node, h1, h2, hvalue]
  · rw [type_check_rem_assign_eq _ _ hk, hassignee]
    simp [plx_check_bind, plx_check_node, h1]
  · rw [type_check_rem_assign_eq _ _ hk, hassignee]
    simp [plx_check_bind, plx_check_node, h1, h2, hvalue]

set_option maxRecDepth 1000000 in
/-- Witness for C32: the node of `1 %= 2` with a target of kind `PLX_NODE_S32` and
a value of kind `PLX_NODE_U8`, whose types are `s32` and `u8`. -/
theorem plx_type_check_rem_assign_witness :
    plx_type_check 2
      (.node PLX_NODE_REM_ASSIGN .zero
        (.node PLX_NODE_S32 (.sint 1) .NULL (.node PLX_NODE_U8 (.uint 2) .NULL .NULL .NULL)
          .NULL) .NULL .NULL) .NULL [] =
      some (some (.node PLX_NODE_REM_ASSIGN .zero
        ((plx_node.node PLX_NODE_S32 (.sint 1) .NULL
          (.node PLX_NODE_U8 (.uint 2) .NULL .NULL .NULL)
          (plx_new_node PLX_NODE_S32_TYPE)).set_next
          (.node PLX_NODE_U8 (.uint 2) .NULL .NULL (plx_new_node PLX_NODE_U8_TYPE)))
        .NULL .NULL, [], true && true)) :=
  (plx_type_check_rem_assign 1 PLX_NODE_REM_ASSIGN (Or.inl rfl) .zero PLX_NODE_S32 PLX_NODE_U8
    (.sint 1) (.uint 2) .NULL .NULL .NULL .NULL .NULL .NULL .NULL []
    (.node PLX_NODE_S32 (.sint 1) .NULL (.node PLX_NODE_U8 (.uint 2) .NULL .NULL .NULL)
      (plx_new_node PLX_NODE_S32_TYPE))
    (.node PLX_NODE_U8 (.uint 2) .NULL .NULL (plx_new_node PLX_NODE_U8_TYPE)) [] [] true true
    (by decide) (by decide)).1 (by decide) (by decide)

theorem type_check_func_def_eq (fuel : Nat) (v : plx_node_value) (kn kp kr kb : plx_node_kind)
    (vn vp vr vb : plx_node_value) (cn cp cr cb tyn typ tyr tyb n ty return_type : plx_node)
    (types : plx_type_table) :
    plx_type_check (fuel + 1)
        (.node PLX_NODE_FUNC_DEF v
          (.node kn vn cn (.node kp vp cp (.node kr vr cr (.node kb vb cb .NULL tyb) tyr) typ)
            tyn) n ty)
        return_type types =
      plx_check_node PLX_NODE_FUNC_DEF v n
        (plx_check_bind
          (plx_type_check_params fuel cp (.node kr vr cr (.node kb vb cb .NULL tyb) tyr) types)
          fun cp types r1 =>
            plx_check_bind
              (plx_type_check fuel (.node kr vr cr (.node kb vb cb .NULL tyb) tyr)
                (.node kr vr cr (.node kb vb cb .NULL tyb) tyr) types)
              fun return_type types r2 =>
                plx_check_bind
                  (plx_type_check fuel (.node kb vb cb .NULL tyb) return_type types)
                  fun body types r3 =>
                    match plx_copy_param_types cp with
                    | none => some none
                    | some param_types =>
                      match plx_set_identifier_type
                          (.node kn vn cn
                            (.node kp vp cp (.node kr vr cr (.node kb vb cb .NULL tyb) tyr) typ)
                            tyn)
                          (.node PLX_NODE_FUNC_TYPE .zero
                            (.node PLX_NODE_OTHER .zero param_types (return_type.set_next body)
                              .NULL)
                            .NULL .NULL)
                          types with
                      | none => some none
                      | some (name, types) =>
                        some (some (name.set_next ((plx_node.node kp vp cp .NULL typ).set_next
                            (return_type.set_next body)),
                          ty, types, r1 && r2 && r3))) := by
  rfl

/-- The second loop of the case `PLX_NODE_FUNC_DEF` makes, for every parameter in
order, a copy of its type: a node equal to the type with `next` set by the
loop. -/
theorem copy_param_types_spec (params : plx_node) :
    ∀ param_types, plx_copy_param_types params = some param_types →
      List.Forall₂
        (fun param copy => ∃ name type, plx_extract2 param.children = some (name, type) ∧
          plx_copy_node copy = plx_copy_node type)
        (plx_siblings params) (plx_siblings param_types) := by
  induction params with
  | NULL =>
    intro param_types h
    cases h
    exact List.Forall₂.nil
  | node k v c n ty _ ihn _ =>
    intro param_types h
    unfold plx_copy_param_types at h
    split at h
    · rename_i kn vn cn kt vt ct tyt tyn
      obtain ⟨rest, hrest, e⟩ := Option.map_eq_some'.1 h
      subst e
      exact List.Forall₂.cons ⟨_, _, rfl, rfl⟩ (ihn rest hrest)
    · cases h

/-- The types of the functions of the module of a source text, in the order of
the definitions: the types `plx_type_check` stores in the entries that are of
kind `PLX_NODE_FUNC_TYPE`. -/
def plx_source_func_types (source : String) : List plx_node :=
  match plx_type_check_source source with
  | some (some (_, types, _)) =>
    (types.reverse.map fun p => p.2).filter fun type => type.kind? = some PLX_NODE_FUNC_TYPE
  | _ => []

/-- The call `plx_type_eq(f, g)` on the types of the two functions of the module
of a source text. -/
def plx_func_types_eq (same : plx_node → plx_node → Bool) (source : String) : Option Bool :=
  match plx_source_func_types source with
  | [f, g] => plx_type_eq same f g
  | _ => none

theorem func_types_eq_from (same : plx_node → plx_node → Bool) (hs : plx_same_sound same)
    (source : String) :
    plx_func_types_eq same source =
      match plx_source_func_types source with
      | [f, g] => plx_type_eq_from false f g
      | _ => none := by
  unfold plx_func_types_eq
  split
  · exact (type_eq_from_eq same hs _ _).1
  · rfl

set_option maxRecDepth 1000000 in
/-- C33: When the calls of `plx_type_check` on the parameters, the return type
and the body of a function definition return, the call on the definition stores
in the entry of the name a `PLX_NODE_FUNC_TYPE` node whose first child is a
`PLX_NODE_OTHER` node with a copy of the type of every parameter, in order, as
children, and whose second child is the return type node of the tree itself, not
a copy: its `next` is the body, so that the function type has three children and
the body is reachable through its child list.  The types of
`func f() -> s32 { return 1; }` and `func g() -> s32 { return 1 + 1; }` have
three children each and are not `plx_type_eq`; those of two functions with
equal signatures and bodies of the same shape are. -/
theorem plx_type_check_func_def (fuel : Nat) (v : plx_node_value) (kn kp kr kb : plx_node_kind)
    (name : String) (entry : Nat) (vp vr vb : plx_node_value)
    (cn cp cr cb tyn typ tyr tyb n ty return_type : plx_node) (types : plx_type_table)
    (params result_type body param_types : plx_node) (types1 types2 types3 : plx_type_table)
    (r1 r2 r3 : Bool)
    (hparams : plx_type_check_params fuel cp (.node kr vr cr (.node kb vb cb .NULL tyb) tyr)
      types = some (some (params, types1, r1)))
    (hreturn : plx_type_check fuel (.node kr vr cr (.node kb vb cb .NULL tyb) tyr)
      (.node kr vr cr (.node kb vb cb .NULL tyb) tyr) types1 =
      some (some (result_type, types2, r2)))
    (hbody : plx_type_check fuel (.node kb vb cb .NULL tyb) result_type types2 =
      some (some (body, types3, r3)))
    (hcopy : plx_copy_param_types params = some param_types) :
    plx_type_check (fuel + 1)
        (.node PLX_NODE_FUNC_DEF v
          (.node kn (.identifier name (some entry)) cn
            (.node kp vp cp (.node kr vr cr (.node kb vb cb .NULL tyb) tyr) typ) tyn) n ty)
        return_type types =
      some (some (.node PLX_NODE_FUNC_DEF v
        (.node kn (.identifier name (some entry)) cn
          ((plx_node.node kp vp params .NULL typ).set_next (result_type.set_next body))
          (.node PLX_NODE_FUNC_TYPE .zero
            (.node PLX_NODE_OTHER .zero param_types (result_type.set_next body) .NULL)
            .NULL .NULL)) n ty,
        (entry, .node PLX_NODE_FUNC_TYPE .zero
          (.node PLX_NODE_OTHER .zero param_types (result_type.set_next body) .NULL)
          .NULL .NULL) :: types3,
        r1 && r2 && r3)) ∧
    (plx_siblings
      (plx_node.node PLX_NODE_OTHER .zero param_types (result_type.set_next body) .NULL)).map
        plx_node.kind? = [some PLX_NODE_OTHER, some kr, some kb] ∧
    plx_count_children
      (.node PLX_NODE_FUNC_TYPE .zero
        (.node PLX_NODE_OTHER .zero param_types (result_type.set_next body) .NULL)
        .NULL .NULL) = 3 ∧
    List.Forall₂
      (fun param copy => ∃ name type, plx_extract2 param.children = some (name, type) ∧
        plx_copy_node copy = plx_copy_node type)
      (plx_siblings params) (plx_siblings param_types) ∧
    (plx_source_func_types
      "func f() -> s32 { return 1; } func g() -> s32 { return 1 + 1; }").map
        plx_count_children = [3, 3] ∧
    (∀ same, plx_same_sound same →
      plx_func_types_eq same "func f() -> s32 { return 1; } func g() -> s32 { return 1 + 1; }" =
        some false ∧
      plx_func_types_eq same "func f() -> s32 { return 1; } func g() -> s32 { return 2; }" =
        some true) := by
  obtain ⟨cr1, tyr1, e1⟩ := type_check_node _ _ _ _ _ _ _ _ _ hreturn
  obtain ⟨cb1, tyb1, e2⟩ := type_check_node _ _ _ _ _ _ _ _ _ hbody
  simp only at e1 e2
  subst e1
  subst e2
  refine ⟨?_, rfl, rfl, copy_param_types_spec params param_types hcopy, by decide, fun same hs =>
    ⟨by rw [func_types_eq_from same hs]; decide, by rw [func_types_eq_from same hs]; decide⟩⟩
  rw [type_check_func_def_eq, hparams]
  simp only [plx_check_bind, hreturn, hbody, hcopy, plx_set_identifier_type, plx_check_node]
  rfl

set_option maxRecDepth 1000000 in
/-- Witness for C33: the definition `func f() -> s32 { }`, whose name has the
entry 0. -/
theorem plx_type_check_func_def_witness :
    plx_count_children
      (.node PLX_NODE_FUNC_TYPE .zero
        (.node PLX_NODE_OTHER .zero .NULL
          ((plx_node.node PLX_NODE_S32_TYPE .zero .NULL
            (.node PLX_NODE_BLOCK .zero .NULL .NULL .NULL) .NULL).set_next
            (.node PLX_NODE_BLOCK .zero .NULL .NULL .NULL)) .NULL)
        .NULL .NULL) = 3 :=
  (plx_type_check_func_def 2 .zero PLX_NODE_IDENTIFIER PLX_NODE_OTHER PLX_NODE_S32_TYPE
    PLX_NODE_BLOCK "f" 0 .zero .zero .zero .NULL .NULL .NULL .NULL .NULL .NULL .NULL .NULL .NULL
    .NULL .NULL []
    .NULL
    (.node PLX_NODE_S32_TYPE .zero .NULL (.node PLX_NODE_BLOCK .zero .NULL .NULL .NULL) .NULL)
    (.node PLX_NODE_BLOCK .zero .NULL .NULL .NULL) .NULL [] [] [] true true true
    (by decide) (by decide) (by decide) (by decide)).2.2.1

/-! ## `src/constant_folder.c`: the cases of the operators and of the control flow

One call of `plx_fold_constants` on a node whose operands are literal nodes
without children, as the parser builds them. -/

theorem fold_switch_binary (ops : plx_double_ops) (k : plx_node_kind)
    (hk : plx_is_folded_binary k = true) (v : plx_node_value) (kl kr : plx_node_kind)
    (vl vr : plx_node_value) (cl cr tyr tyl n ty : plx_node) (values : plx_value_table) :
    plx_fold_switch ops k v (.node kl vl cl (.node kr vr cr .NULL tyr) tyl) n ty values =
      if kl ≠ kr then
        some (.node k v (.node kl vl cl (.node kr vr cr .NULL tyr) tyl) n ty, values, false)
      else
        match plx_fold_binary ops k kl vl vr with
        | none => none
        | some none =>
          some (.node k v (.node kl vl cl (.node kr vr cr .NULL tyr) tyl) n ty, values, false)
        | some (some (kind, value)) => some (.node kind value .NULL n ty, values, true) := by
  revert hk
  cases k <;> intro hk <;> first | rfl | cases hk

theorem fold_binary_sint (ops : plx_double_ops) (k kl : plx_node_kind) (vl vr : plx_node_value)
    (a b : Int) (hkl : plx_literal_class_of kl = .sint) (ha : plx_value_sint vl = some a)
    (hb : plx_value_sint vr = some b) :
    plx_fold_binary ops k kl vl vr =
      (plx_fold_sint k a b).map fun x => x.map fun v => (plx_folded_kind k kl, v) := by
  unfold plx_fold_binary
  rw [hkl]
  simp only [ha, hb]

theorem fold_binary_uint (ops : plx_double_ops) (k kl : plx_node_kind) (vl vr : plx_node_value)
    (a b : Nat) (hkl : plx_literal_class_of kl = .uint) (ha : plx_value_uint vl = some a)
    (hb : plx_value_uint vr = some b) :
    plx_fold_binary ops k kl vl vr =
      (plx_fold_uint k a b).map fun x => x.map fun v => (plx_folded_kind k kl, v) := by
  unfold plx_fold_binary
  rw [hkl]
  simp only [ha, hb]

/-- The loop over the children of a node leaves two literal nodes without
children as they are. -/
theorem fold_two_literals (ops : plx_double_ops) (kl kr : plx_node_kind) (vl vr : plx_node_value)
    (tyl tyr : plx_node) (values : plx_value_table) (hl : plx_is_constant kl = true)
    (hr : plx_is_constant kr = true) :
    plx_fold_constants_from ops true (.node kl vl .NULL (.node kr vr .NULL .NULL tyr) tyl)
        values =
      some (.node kl vl .NULL (.node kr vr .NULL .NULL tyr) tyl, values, false) := by
  rw [fold_from_node]
  have e : plx_fold_constants_from ops true .NULL values = some (.NULL, values, false) := rfl
  rw [e]
  simp only [fold_switch_literal ops kl vl _ tyl values hl, if_true,
    fold_literal ops kr vr tyr values hr]
  rfl

/-- A call of the folder on a node with two literal nodes without children as
children is the `switch` on the node. -/
theorem fold_constants_binary (ops : plx_double_ops) (k : plx_node_kind) (v : plx_node_value)
    (kl kr : plx_node_kind) (vl vr : plx_node_value) (tyl tyr n ty : plx_node)
    (values : plx_value_table) (hl : plx_is_constant kl = true)
    (hr : plx_is_constant kr = true) :
    plx_fold_constants ops (.node k v (.node kl vl .NULL (.node kr vr .NULL .NULL tyr) tyl) n ty)
        values =
      plx_fold_switch ops k v (.node kl vl .NULL (.node kr vr .NULL .NULL tyr) tyl) n ty
        values := by
  unfold plx_fold_constants
  rw [fold_from_node, fold_two_literals ops kl kr vl vr tyl tyr values hl hr]
  simp only
  cases plx_fold_switch ops k v (.node kl vl .NULL (.node kr vr .NULL .NULL tyr) tyl) n ty
    values with
  | none => rfl
  | some r => simp

/-- A call of the folder on a node with one literal node without children as
child is the `switch` on the node. -/
theorem fold_constants_unary (ops : plx_double_ops) (k : plx_node_kind) (v : plx_node_value)
    (ko : plx_node_kind) (vo : plx_node_value) (tyo n ty : plx_node)
    (values : plx_value_table) (ho : plx_is_constant ko = true) :
    plx_fold_constants ops (.node k v (.node ko vo .NULL .NULL tyo) n ty) values =
      plx_fold_switch ops k v (.node ko vo .NULL .NULL tyo) n ty values := by
  unfold plx_fold_constants
  rw [fold_from_node, fold_literal ops ko vo tyo values ho]
  simp only
  cases plx_fold_switch ops k v (.node ko vo .NULL .NULL tyo) n ty values with
  | none => rfl
  | some r => simp

theorem llong_max_eq : LLONG_MAX = 9223372036854775807 := by decide

theorem llong_min_eq : LLONG_MIN = -9223372036854775808 := by decide

theorem fold_sint_add (a b : Int) (ha : LLONG_MIN ≤ a ∧ a ≤ LLONG_MAX)
    (hb : LLONG_MIN ≤ b ∧ b ≤ LLONG_MAX) :
    plx_fold_sint PLX_NODE_ADD a b =
      if LLONG_MIN ≤ a + b ∧ a + b ≤ LLONG_MAX then some (some (.sint (a + b)))
      else some none := by
  have e : plx_fold_sint PLX_NODE_ADD a b =
      if b > 0 ∧ a > LLONG_MAX - b then some none
      else if b < 0 ∧ a < LLONG_MIN - b then some none
      else (plx_ll_result (a + b)).map fun v => some (.sint v) := rfl
  rw [e]
  unfold plx_ll_result
  rw [llong_max_eq, llong_min_eq] at *
  split_ifs <;> first | rfl | omega

theorem fold_sint_sub (a b : Int) (ha : LLONG_MIN ≤ a ∧ a ≤ LLONG_MAX)
    (hb : LLONG_MIN ≤ b ∧ b ≤ LLONG_MAX) :
    plx_fold_sint PLX_NODE_SUB a b =
      if LLONG_MIN ≤ a - b ∧ a - b ≤ LLONG_MAX then some (some (.sint (a - b)))
      else some none := by
  have e : plx_fold_sint PLX_NODE_SUB a b =
      if b < 0 ∧ a > LLONG_MAX + b then some none
      else if b > 0 ∧ a < LLONG_MIN + b then some none
      else (plx_ll_result (a - b)).map fun v => some (.sint v) := rfl
  rw [e]
  unfold plx_ll_result
  rw [llong_max_eq, llong_min_eq] at *
  split_ifs <;> first | rfl | omega

/-- The tree that `plx_fold_source` ends with, without the types that
`plx_type_check` has set. -/
def plx_folded_tree (ops : plx_double_ops) (source : String) : Option (Option plx_node) :=
  (plx_fold_source ops source).map fun r => r.map fun x => plx_erase_types x.1

/-- The module of one function `f` without parameters that returns `s32`, with
the statements of its body given, as `plx_parse_module` and `plx_resolve_names`
build it. -/
def plx_module_of_body (stmts : List plx_node) : plx_node :=
  plx_node_of PLX_NODE_MODULE
    [plx_node_of PLX_NODE_FUNC_DEF
      [(plx_new_node PLX_NODE_IDENTIFIER).set_value (.identifier "f" (some 0)),
        plx_new_node PLX_NODE_OTHER, plx_new_node PLX_NODE_S32_TYPE,
        plx_node_of PLX_NODE_BLOCK stmts]]

/-- The node of a literal of kind `PLX_NODE_S32` with the member `sint` set. -/
def plx_s32_of (value : Int) : plx_node := (plx_new_node PLX_NODE_S32).set_value (.sint value)

/-- The node of a literal of kind `PLX_NODE_S32` as `plx_parse_int_lit` builds
it, with the member `uint` set. -/
def plx_int_lit_of (value : Nat) : plx_node := (plx_new_node PLX_NODE_S32).set_value (.uint value)

set_option maxRecDepth 1000000 in
/-- C34: For an add node whose operands are literals of one signed kind without
children, with the values `a` and `b` of `long long`, a call of
`plx_fold_constants` makes the node a literal of that kind without children
whose `sint` is the exact sum `a + b` and returns `true` when the sum lies in
`[LLONG_MIN, LLONG_MAX]`, and else leaves the node and its children as they are
and returns `false`; the same holds of a sub node and the difference `a - b`.
The loop on `return 1 + 2;` ends with `return 3;`, that on `return 1 - 2;` with
`return -1;`, and `9223372036854775807 + 1` is left as it is. -/
theorem plx_fold_constants_add_sub (ops : plx_double_ops) (kl : plx_node_kind)
    (vl vr : plx_node_value) (a b : Int) (v : plx_node_value) (tyl tyr n ty : plx_node)
    (values : plx_value_table) (hkl : plx_literal_class_of kl = .sint)
    (ha : plx_value_sint vl = some a) (hb : plx_value_sint vr = some b)
    (hra : LLONG_MIN ≤ a ∧ a ≤ LLONG_MAX) (hrb : LLONG_MIN ≤ b ∧ b ≤ LLONG_MAX) :
    plx_fold_constants ops
        (.node PLX_NODE_ADD v (.node kl vl .NULL (.node kl vr .NULL .NULL tyr) tyl) n ty)
        values =
      (if LLONG_MIN ≤ a + b ∧ a + b ≤ LLONG_MAX then
        some (.node kl (.sint (a + b)) .NULL n ty, values, true)
      else
        some (.node PLX_NODE_ADD v (.node kl vl .NULL (.node kl vr .NULL .NULL tyr) tyl) n ty,
          values, false)) ∧
    plx_fold_constants ops
        (.node PLX_NODE_SUB v (.node kl vl .NULL (.node kl vr .NULL .NULL tyr) tyl) n ty)
        values =
      (if LLONG_MIN ≤ a - b ∧ a - b ≤ LLONG_MAX then
        some (.node kl (.sint (a - b)) .NULL n ty, values, true)
      else
        some (.node PLX_NODE_SUB v (.node kl vl .NULL (.node kl vr .NULL .NULL tyr) tyl) n ty,
          values, false)) ∧
    plx_folded_tree ops "func f() -> s32 { return 1 + 2; }" =
      some (some (plx_module_of_body [plx_node_of PLX_NODE_RETURN [plx_s32_of 3]])) ∧
    plx_folded_tree ops "func f() -> s32 { return 1 - 2; }" =
      some (some (plx_module_of_body [plx_node_of PLX_NODE_RETURN [plx_s32_of (-1)]])) ∧
    plx_folded_tree ops "func f() -> s32 { return 9223372036854775807 + 1; }" =
      some (some (plx_module_of_body
        [plx_node_of PLX_NODE_RETURN
          [plx_node_of PLX_NODE_ADD [plx_int_lit_of 9223372036854775807, plx_int_lit_of 1]]])) := by
  have hc : plx_is_constant kl = true := class_constant kl (by rw [hkl]; decide)
  have hfk : ∀ k, k = PLX_NODE_ADD ∨ k = PLX_NODE_SUB → plx_folded_kind k kl = kl := by
    intro k hk
    rcases hk with e | e <;> subst e <;> rfl
  refine ⟨?_, ?_, of_decide_eq_true rfl, of_decide_eq_true rfl, of_decide_eq_true rfl⟩
  · rw [fold_constants_binary ops _ _ _ _ _ _ _ _ _ _ _ hc hc,
      fold_switch_binary ops _ (by decide), fold_binary_sint ops _ _ _ _ a b hkl ha hb,
      fold_sint_add a b hra hrb, hfk _ (Or.inl rfl)]
    split_ifs <;> simp_all
  · rw [fold_constants_binary ops _ _ _ _ _ _ _ _ _ _ _ hc hc,
      fold_switch_binary ops _ (by decide), fold_binary_sint ops _ _ _ _ a b hkl ha hb,
      fold_sint_sub a b hra hrb, hfk _ (Or.inr rfl)]
    split_ifs <;> simp_all

set_option maxRecDepth 1000000 in
/-- Witness for C34: the node of `9223372036854775807 + 1` with operands of kind
`PLX_NODE_S64`, which is left as it is. -/
theorem plx_fold_constants_add_sub_witness :
    plx_fold_constants plx_double_first
        (.node PLX_NODE_ADD .zero
          (.node PLX_NODE_S64 (.sint 9223372036854775807) .NULL
            (.node PLX_NODE_S64 (.sint 1) .NULL .NULL .NULL) .NULL) .NULL .NULL) [] =
      (if LLONG_MIN ≤ (9223372036854775807 : Int) + 1 ∧
          (9223372036854775807 : Int) + 1 ≤ LLONG_MAX then
        some (.node PLX_NODE_S64 (.sint (9223372036854775807 + 1)) .NULL .NULL .NULL, [], true)
      else
        some (.node PLX_NODE_ADD .zero
          (.node PLX_NODE_S64 (.sint 9223372036854775807) .NULL
            (.node PLX_NODE_S64 (.sint 1) .NULL .NULL .NULL) .NULL) .NULL .NULL, [], false)) :=
  (plx_fold_constants_add_sub plx_double_first PLX_NODE_S64 (.sint 9223372036854775807) (.sint 1)
    9223372036854775807 1 .zero .NULL .NULL .NULL .NULL [] rfl rfl rfl (by decide)
    (by decide)).1

theorem fold_sint_mul_eq (a b : Int) :
    plx_fold_sint PLX_NODE_MUL a b =
      if a = -1 ∧ b = LLONG_MIN then some none
      else if b = -1 ∧ a = LLONG_MIN then some none
      else if b ≠ 0 ∧ a > Int.tdiv LLONG_MAX b then some none
      else if b = -1 then none
      else if b ≠ 0 ∧ a < Int.tdiv LLONG_MIN b then some none
      else (plx_ll_result (a * b)).map fun v => some (.sint v) :=
  rfl

/-- For a positive right operand the two guards of the case `PLX_NODE_MUL` are
exact. -/
theorem mul_guards_pos (a b : Int) (hb : 0 < b) :
    (a > Int.tdiv LLONG_MAX b ↔ LLONG_MAX < a * b) ∧
    (a < Int.tdiv LLONG_MIN b ↔ a * b < LLONG_MIN) := by
  constructor
  · rw [Int.tdiv_eq_ediv (by decide) (le_of_lt hb)]
    exact Int.ediv_lt_iff_lt_mul hb
  · have e : LLONG_MIN = -9223372036854775808 := by decide
    rw [e, Int.neg_tdiv, Int.tdiv_eq_ediv (by decide) (le_of_lt hb)]
    constructor
    · intro h
      have h1 : (9223372036854775808 : Int) / b < -a := by omega
      have h2 := (Int.ediv_lt_iff_lt_mul hb).1 h1
      rw [Int.neg_mul] at h2
      omega
    · intro h
      have h2 : (9223372036854775808 : Int) < -a * b := by
        rw [Int.neg_mul]
        omega
      have h1 := (Int.ediv_lt_iff_lt_mul hb).2 h2
      omega

theorem fold_sint_mul_nonneg (a b : Int) (ha : LLONG_MIN ≤ a ∧ a ≤ LLONG_MAX)
    (hb : 0 ≤ b ∧ b ≤ LLONG_MAX) :
    plx_fold_sint PLX_NODE_MUL a b =
      if LLONG_MIN ≤ a * b ∧ a * b ≤ LLONG_MAX then some (some (.sint (a * b)))
      else some none := by
  rw [fold_sint_mul_eq]
  unfold plx_ll_result
  rcases eq_or_lt_of_le hb.1 with h0 | h0
  · subst h0
    rw [llong_max_eq, llong_min_eq] at *
    simp
  · obtain ⟨h3, h4⟩ := mul_guards_pos a b h0
    generalize Int.tdiv LLONG_MAX b = t1 at *
    generalize Int.tdiv LLONG_MIN b = t2 at *
    generalize a * b = p at *
    rw [llong_max_eq, llong_min_eq] at *
    split_ifs <;> first | rfl | omega

/-- For a negative right operand the first guard that divides breaks in every
case but one, in which the second one divides `LLONG_MIN` by `-1`. -/
theorem fold_sint_mul_neg (a b : Int) (ha : LLONG_MIN ≤ a ∧ a ≤ LLONG_MAX)
    (hb : LLONG_MIN ≤ b ∧ b < 0) :
    plx_fold_sint PLX_NODE_MUL a b = if a = -LLONG_MAX ∧ b = -1 then none else some none := by
  rw [fold_sint_mul_eq]
  unfold plx_ll_result
  by_cases h1 : b = -1
  · subst h1
    have e1 : Int.tdiv LLONG_MAX (-1) = -9223372036854775807 := by decide
    rw [e1]
    rw [llong_max_eq, llong_min_eq] at *
    split_ifs <;> first | rfl | omega
  · have e1 : Int.tdiv LLONG_MAX b ≤ 0 := Int.tdiv_nonpos (by decide) (le_of_lt hb.2)
    have e2 : 1 ≤ Int.tdiv LLONG_MIN b := by
      have e : LLONG_MIN = -9223372036854775808 := by decide
      have hb1 : b = -(-b) := by omega
      rw [e] at hb ⊢
      rw [hb1, Int.neg_tdiv_neg, Int.tdiv_eq_ediv (by decide) (by omega)]
      exact Int.le_ediv_of_mul_le (by omega) (by omega)
    generalize Int.tdiv LLONG_MAX b = t1 at *
    generalize Int.tdiv LLONG_MIN b = t2 at *
    generalize a * b = p at *
    rw [llong_max_eq, llong_min_eq] at *
    split_ifs <;> first | rfl | omega

set_option maxRecDepth 1000000 in
/-- C35: For a mul node whose operands are literals of one signed kind without
children, with the values `a` and `b` of `long long`, a call of
`plx_fold_constants` makes the node the literal of the exact product when
`b ≥ 0` and the product lies in `[LLONG_MIN, LLONG_MAX]`, and leaves the node as
it is when `b ≥ 0` and the product lies outside.  When `b < 0` the guard
`left->sint > LLONG_MAX / right->sint` holds for every `a` above the negative
quotient, and the node is left as it is whatever the product is; for
`a = -LLONG_MAX` and `b = -1` that guard does not hold and the next one evaluates
`LLONG_MIN / -1`, which overflows.  The loop leaves `2 * -3` as the product of
the literals `2` and `-3`, it ends with `-6` on `-3 * 2` and with `6` on `2 * 3`,
and a call on `-9223372036854775807 * -1` is undefined. -/
theorem plx_fold_constants_mul (ops : plx_double_ops) (kl : plx_node_kind)
    (vl vr : plx_node_value) (a b : Int) (v : plx_node_value) (tyl tyr n ty : plx_node)
    (values : plx_value_table) (hkl : plx_literal_class_of kl = .sint)
    (ha : plx_value_sint vl = some a) (hb : plx_value_sint vr = some b)
    (hra : LLONG_MIN ≤ a ∧ a ≤ LLONG_MAX) (hrb : LLONG_MIN ≤ b ∧ b ≤ LLONG_MAX) :
    (0 ≤ b →
      plx_fold_constants ops
          (.node PLX_NODE_MUL v (.node kl vl .NULL (.node kl vr .NULL .NULL tyr) tyl) n ty)
          values =
        if LLONG_MIN ≤ a * b ∧ a * b ≤ LLONG_MAX then
          some (.node kl (.sint (a * b)) .NULL n ty, values, true)
        else
          some (.node PLX_NODE_MUL v (.node kl vl .NULL (.node kl vr .NULL .NULL tyr) tyl) n ty,
            values, false)) ∧
    (b < 0 → ¬(a = -LLONG_MAX ∧ b = -1) →
      plx_fold_constants ops
          (.node PLX_NODE_MUL v (.node kl vl .NULL (.node kl vr .NULL .NULL tyr) tyl) n ty)
          values =
        some (.node PLX_NODE_MUL v (.node kl vl .NULL (.node kl vr .NULL .NULL tyr) tyl) n ty,
          values, false)) ∧
    (a = -LLONG_MAX → b = -1 →
      plx_fold_constants ops
          (.node PLX_NODE_MUL v (.node kl vl .NULL (.node kl vr .NULL .NULL tyr) tyl) n ty)
          values = none) ∧
    plx_folded_tree ops "func f() -> s32 { return 2 * 3; }" =
      some (some (plx_module_of_body [plx_node_of PLX_NODE_RETURN [plx_s32_of 6]])) ∧
    plx_folded_tree ops "func f() -> s32 { return 2 * -3; }" =
      some (some (plx_module_of_body
        [plx_node_of PLX_NODE_RETURN
          [plx_node_of PLX_NODE_MUL [plx_int_lit_of 2, plx_s32_of (-3)]]])) ∧
    plx_folded_tree ops "func f() -> s32 { return -3 * 2; }" =
      some (some (plx_module_of_body [plx_node_of PLX_NODE_RETURN [plx_s32_of (-6)]])) ∧
    plx_fold_source ops "func f() -> s32 { return -9223372036854775807 * -1; }" =
      some none := by
  have hc : plx_is_constant kl = true := class_constant kl (by rw [hkl]; decide)
  have hfk : plx_folded_kind PLX_NODE_MUL kl = kl := rfl
  have key : plx_fold_constants ops
      (.node PLX_NODE_MUL v (.node kl vl .NULL (.node kl vr .NULL .NULL tyr) tyl) n ty) values =
      match (plx_fold_sint PLX_NODE_MUL a b).map fun x => x.map fun v => (kl, v) with
      | none => none
      | some none =>
        some (.node PLX_NODE_MUL v (.node kl vl .NULL (.node kl vr .NULL .NULL tyr) tyl) n ty,
          values, false)
      | some (some (kind, value)) => some (.node kind value .NULL n ty, values, true) := by
    rw [fold_constants_binary ops _ _ _ _ _ _ _ _ _ _ _ hc hc,
      fold_switch_binary ops _ (by decide), fold_binary_sint ops _ _ _ _ a b hkl ha hb, hfk]
    simp
  refine ⟨fun h0 => ?_, fun h0 h1 => ?_, fun h0 h1 => ?_, of_decide_eq_true rfl,
    of_decide_eq_true rfl, of_decide_eq_true rfl, of_decide_eq_true rfl⟩
  · rw [key, fold_sint_mul_nonneg a b hra ⟨h0, hrb.2⟩]
    split_ifs <;> rfl
  · rw [key, fold_sint_mul_neg a b hra ⟨hrb.1, h0⟩, if_neg h1]
    rfl
  · rw [key, fold_sint_mul_neg a b hra ⟨hrb.1, by omega⟩, if_pos ⟨h0, h1⟩]
    rfl

set_option maxRecDepth 1000000 in
/-- Witness for C35: the node of `2 * -3` with operands of kind `PLX_NODE_S32`,
which is left as it is. -/
theorem plx_fold_constants_mul_witness :
    plx_fold_constants plx_double_first
        (.node PLX_NODE_MUL .zero
          (.node PLX_NODE_S32 (.uint 2) .NULL
            (.node PLX_NODE_S32 (.sint (-3)) .NULL .NULL .NULL) .NULL) .NULL .NULL) [] =
      some (.node PLX_NODE_MUL .zero
        (.node PLX_NODE_S32 (.uint 2) .NULL
          (.node PLX_NODE_S32 (.sint (-3)) .NULL .NULL .NULL) .NULL) .NULL .NULL, [], false) :=
  (plx_fold_constants_mul plx_double_first PLX_NODE_S32 (.uint 2) (.sint (-3)) 2 (-3) .zero
    .NULL .NULL .NULL .NULL [] rfl (by decide) rfl (by decide) (by decide)).2.1 (by decide)
    (by decide)

theorem fold_switch_not_eq (ops : plx_double_ops) (v : plx_node_value) (c n ty : plx_node)
    (values : plx_value_table) :
    plx_fold_switch ops PLX_NODE_NOT v c n ty values =
      match plx_fold_not v c n ty with
      | none => none
      | some (.node k1 v1 c1 n1 ty1, changed) =>
        (plx_fold_neg ops k1 v1 c1 n1 ty1).map fun r => (r.1, values, changed || r.2)
      | some (.NULL, _) => none :=
  rfl

theorem fold_switch_neg_eq (ops : plx_double_ops) (v : plx_node_value) (c n ty : plx_node)
    (values : plx_value_table) :
    plx_fold_switch ops PLX_NODE_NEG v c n ty values =
      (plx_fold_neg ops PLX_NODE_NEG v c n ty).map fun r => (r.1, values, r.2) :=
  rfl

theorem fold_not_sint (v : plx_node_value) (ko : plx_node_kind) (vo : plx_node_value)
    (co tyo n ty : plx_node) (x : Int) (hko : plx_literal_class_of ko = .sint)
    (hx : plx_value_sint vo = some x) :
    plx_fold_not v (.node ko vo co .NULL tyo) n ty =
      some (.node ko (.sint (-x - 1)) .NULL n ty, true) := by
  unfold plx_fold_not
  simp only [hko, hx, Option.map_some']

theorem fold_not_uint (v : plx_node_value) (ko : plx_node_kind) (vo : plx_node_value)
    (co tyo n ty : plx_node) (x : Nat) (hko : plx_literal_class_of ko = .uint)
    (hx : plx_value_uint vo = some x) :
    plx_fold_not v (.node ko vo co .NULL tyo) n ty =
      some (.node ko (.sint (ll_of_bits (ULLONG_MAX - x % 2 ^ LL_BITS))) .NULL n ty, true) := by
  unfold plx_fold_not
  simp only [hko, hx, Option.map_some']

theorem fold_not_bool (v : plx_node_value) (b : Bool) (co tyo n ty : plx_node) :
    plx_fold_not v (.node PLX_NODE_BOOL (.b b) co .NULL tyo) n ty =
      some (.node PLX_NODE_BOOL (.b (!b)) .NULL n ty, true) :=
  rfl

theorem fold_neg_sint (ops : plx_double_ops) (k : plx_node_kind) (v : plx_node_value)
    (ko : plx_node_kind) (vo : plx_node_value) (co tyo n ty : plx_node) (x : Int)
    (hko : plx_literal_class_of ko = .sint) (hx : plx_value_sint vo = some x) :
    plx_fold_neg ops k v (.node ko vo co .NULL tyo) n ty =
      if x = LLONG_MIN then some (.node k v (.node ko vo co .NULL tyo) n ty, false)
      else some (.node ko (.sint (-x)) .NULL n ty, true) := by
  unfold plx_fold_neg
  simp only [hko, hx]

set_option maxRecDepth 1000000 in
/-- C36: For a not node whose operand is a literal of a signed kind with the
value `x`, the block of the case `PLX_NODE_NOT` makes the node a literal of that
kind without children whose `sint` is `~x`, which is `-x - 1`, and for a bool
literal `b` it makes the node the bool literal `!b`; but the case ends without a
`break` and runs on into the case `PLX_NODE_NEG`, whose `plx_extract_children`
stores nothing for the node that now has no children, so that `operand->kind`
reads an uninitialised pointer: the call of `plx_fold_constants` is undefined,
also for an operand of an unsigned kind.  For a neg node whose operand is a
literal of a signed kind with the value `x`, the call makes the node the literal
`-x` unless `x = LLONG_MIN`, in which case it leaves the node as it is.  A call
on the module of `return !5;` is undefined, the loop on `return -5;` ends with
the literal `-5`, and `-9223372036854775808` is left as it is. -/
theorem plx_fold_constants_not_neg (ops : plx_double_ops) (ko : plx_node_kind)
    (vo : plx_node_value) (x : Int) (v : plx_node_value) (tyo n ty : plx_node)
    (values : plx_value_table) (hko : plx_literal_class_of ko = .sint)
    (hx : plx_value_sint vo = some x) :
    plx_fold_not v (.node ko vo .NULL .NULL tyo) n ty =
      some (.node ko (.sint (-x - 1)) .NULL n ty, true) ∧
    plx_fold_constants ops (.node PLX_NODE_NOT v (.node ko vo .NULL .NULL tyo) n ty) values =
      none ∧
    (∀ b, plx_fold_not v (.node PLX_NODE_BOOL (.b b) .NULL .NULL tyo) n ty =
        some (.node PLX_NODE_BOOL (.b (!b)) .NULL n ty, true) ∧
      plx_fold_constants ops
          (.node PLX_NODE_NOT v (.node PLX_NODE_BOOL (.b b) .NULL .NULL tyo) n ty) values =
        none) ∧
    (∀ ku vu u, plx_literal_class_of ku = .uint → plx_value_uint vu = some u →
      plx_fold_constants ops (.node PLX_NODE_NOT v (.node ku vu .NULL .NULL tyo) n ty) values =
        none) ∧
    plx_fold_constants ops (.node PLX_NODE_NEG v (.node ko vo .NULL .NULL tyo) n ty) values =
      (if x = LLONG_MIN then
        some (.node PLX_NODE_NEG v (.node ko vo .NULL .NULL tyo) n ty, values, false)
      else some (.node ko (.sint (-x)) .NULL n ty, values, true)) ∧
    plx_fold_source ops "func f() -> s32 { return !5; }" = some none ∧
    plx_fold_source ops "func f() -> s32 { if !true { return 1; } else { return 2; } }" =
      some none ∧
    plx_folded_tree ops "func f() -> s32 { return -5; }" =
      some (some (plx_module_of_body [plx_node_of PLX_NODE_RETURN [plx_s32_of (-5)]])) ∧
    plx_folded_tree ops "func f() -> s32 { return -9223372036854775808; }" =
      some (some (plx_module_of_body
        [plx_node_of PLX_NODE_RETURN
          [plx_node_of PLX_NODE_NEG [plx_int_lit_of 9223372036854775808]]])) := by
  have hc : plx_is_constant ko = true := class_constant ko (by rw [hko]; decide)
  refine ⟨fold_not_sint v ko vo .NULL tyo n ty x hko hx, ?_, fun b => ⟨rfl, ?_⟩,
    fun ku vu u hku hu => ?_, ?_, of_decide_eq_true rfl, of_decide_eq_true rfl,
    of_decide_eq_true rfl, of_decide_eq_true rfl⟩
  · rw [fold_constants_unary ops _ _ _ _ _ _ _ _ hc, fold_switch_not_eq,
      fold_not_sint v ko vo .NULL tyo n ty x hko hx]
    rfl
  · rw [fold_constants_unary ops _ _ _ _ _ _ _ _ (by decide), fold_switch_not_eq, fold_not_bool]
    rfl
  · rw [fold_constants_unary ops _ _ _ _ _ _ _ _ (class_constant ku (by rw [hku]; decide)),
      fold_switch_not_eq, fold_not_uint v ku vu .NULL tyo n ty u hku hu]
    rfl
  · rw [fold_constants_unary ops _ _ _ _ _ _ _ _ hc, fold_switch_neg_eq,
      fold_neg_sint ops _ v ko vo .NULL tyo n ty x hko hx]
    split_ifs <;> rfl

set_option maxRecDepth 1000000 in
/-- Witness for C36: the node of `!5` with an operand of kind `PLX_NODE_S32`. -/
theorem plx_fold_constants_not_neg_witness :
    plx_fold_not .zero (.node PLX_NODE_S32 (.uint 5) .NULL .NULL .NULL) .NULL .NULL =
      some (.node PLX_NODE_S32 (.sint (-5 - 1)) .NULL .NULL .NULL, true) ∧
    plx_fold_constants plx_double_first
      (.node PLX_NODE_NOT .zero (.node PLX_NODE_S32 (.uint 5) .NULL .NULL .NULL) .NULL .NULL)
      [] = none :=
  ⟨(plx_fold_constants_not_neg plx_double_first PLX_NODE_S32 (.uint 5) 5 .zero .NULL .NULL .NULL
      [] rfl (by decide)).1,
    (plx_fold_constants_not_neg plx_double_first PLX_NODE_S32 (.uint 5) 5 .zero .NULL .NULL .NULL
      [] rfl (by decide)).2.1⟩

theorem fold_switch_eq_neq (ops : plx_double_ops) (k : plx_node_kind)
    (hk : k = PLX_NODE_EQ ∨ k = PLX_NODE_NEQ) (v : plx_node_value) (c n ty : plx_node)
    (values : plx_value_table) :
    plx_fold_switch ops k v c n ty values = some (.node k v c n ty, values, false) := by
  rcases hk with e | e <;> subst e <;> rfl

set_option maxRecDepth 1000000 in
/-- C37: For a node of `<=`, `<`, `>=` or `>` whose operands are literals of one
signed kind without children, with the values `a` and `b`, a call of
`plx_fold_constants` makes the node a bool literal without children whose value
is the comparison of `a` and `b` as `long long`, and returns `true`; for
operands of one unsigned kind it is the comparison as `unsigned long long`.  The
cases `PLX_NODE_EQ` and `PLX_NODE_NEQ` are `// TODO` and `break`: a call leaves a
node of `==` or `!=` over two literals as it is and returns `false`.  The loop
replaces `if 1 < 2 { return 1; } else { return 2; }` by the block of
`return 1;`, and leaves `if 1 == 1 { return 1; } else { return 2; }` as it
is. -/
theorem plx_fold_constants_relational (ops : plx_double_ops) (kl : plx_node_kind)
    (vl vr : plx_node_value) (a b : Int) (v : plx_node_value) (tyl tyr n ty : plx_node)
    (values : plx_value_table) (hkl : plx_literal_class_of kl = .sint)
    (ha : plx_value_sint vl = some a) (hb : plx_value_sint vr = some b) :
    (plx_fold_constants ops
        (.node PLX_NODE_LTE v (.node kl vl .NULL (.node kl vr .NULL .NULL tyr) tyl) n ty)
        values = some (.node PLX_NODE_BOOL (.b (decide (a ≤ b))) .NULL n ty, values, true) ∧
      plx_fold_constants ops
        (.node PLX_NODE_LT v (.node kl vl .NULL (.node kl vr .NULL .NULL tyr) tyl) n ty)
        values = some (.node PLX_NODE_BOOL (.b (decide (a < b))) .NULL n ty, values, true) ∧
      plx_fold_constants ops
        (.node PLX_NODE_GTE v (.node kl vl .NULL (.node kl vr .NULL .NULL tyr) tyl) n ty)
        values = some (.node PLX_NODE_BOOL (.b (decide (a ≥ b))) .NULL n ty, values, true) ∧
      plx_fold_constants ops
        (.node PLX_NODE_GT v (.node kl vl .NULL (.node kl vr .NULL .NULL tyr) tyl) n ty)
        values = some (.node PLX_NODE_BOOL (.b (decide (a > b))) .NULL n ty, values, true)) ∧
    (∀ ku vx vy (x y : Nat), plx_literal_class_of ku = .uint → plx_value_uint vx = some x →
      plx_value_uint vy = some y →
      plx_fold_constants ops
        (.node PLX_NODE_LTE v (.node ku vx .NULL (.node ku vy .NULL .NULL tyr) tyl) n ty)
        values = some (.node PLX_NODE_BOOL (.b (decide (x ≤ y))) .NULL n ty, values, true) ∧
      plx_fold_constants ops
        (.node PLX_NODE_LT v (.node ku vx .NULL (.node ku vy .NULL .NULL tyr) tyl) n ty)
        values = some (.node PLX_NODE_BOOL (.b (decide (x < y))) .NULL n ty, values, true) ∧
      plx_fold_constants ops
        (.node PLX_NODE_GTE v (.node ku vx .NULL (.node ku vy .NULL .NULL tyr) tyl) n ty)
        values = some (.node PLX_NODE_BOOL (.b (decide (x ≥ y))) .NULL n ty, values, true) ∧
      plx_fold_constants ops
        (.node PLX_NODE_GT v (.node ku vx .NULL (.node ku vy .NULL .NULL tyr) tyl) n ty)
        values = some (.node PLX_NODE_BOOL (.b (decide (x > y))) .NULL n ty, values, true)) ∧
    (plx_fold_constants ops
        (.node PLX_NODE_EQ v (.node kl vl .NULL (.node kl vr .NULL .NULL tyr) tyl) n ty)
        values =
        some (.node PLX_NODE_EQ v (.node kl vl .NULL (.node kl vr .NULL .NULL tyr) tyl) n ty,
          values, false) ∧
      plx_fold_constants ops
        (.node PLX_NODE_NEQ v (.node kl vl .NULL (.node kl vr .NULL .NULL tyr) tyl) n ty)
        values =
        some (.node PLX_NODE_NEQ v (.node kl vl .NULL (.node kl vr .NULL .NULL tyr) tyl) n ty,
          values, false)) ∧
    plx_folded_tree ops "func f() -> s32 { if 1 < 2 { return 1; } else { return 2; } }" =
      some (some (plx_module_of_body
        [plx_node_of PLX_NODE_BLOCK [plx_node_of PLX_NODE_RETURN [plx_int_lit_of 1]]])) ∧
    plx_folded_tree ops "func f() -> s32 { if 1 == 1 { return 1; } else { return 2; } }" =
      some (some (plx_module_of_body
        [plx_node_of PLX_NODE_IF_THEN_ELSE
          [plx_node_of PLX_NODE_EQ [plx_int_lit_of 1, plx_int_lit_of 1],
            plx_node_of PLX_NODE_BLOCK [plx_node_of PLX_NODE_RETURN [plx_int_lit_of 1]],
            plx_node_of PLX_NODE_BLOCK [plx_node_of PLX_NODE_RETURN [plx_int_lit_of 2]]]])) ∧
    plx_folded_tree ops "func f() -> s32 { if 1 != 2 { return 1; } else { return 2; } }" =
      some (some (plx_module_of_body
        [plx_node_of PLX_NODE_IF_THEN_ELSE
          [plx_node_of PLX_NODE_NEQ [plx_int_lit_of 1, plx_int_lit_of 2],
            plx_node_of PLX_NODE_BLOCK [plx_node_of PLX_NODE_RETURN [plx_int_lit_of 1]],
            plx_node_of PLX_NODE_BLOCK [plx_node_of PLX_NODE_RETURN [plx_int_lit_of 2]]]])) := by
  have hc : plx_is_constant kl = true := class_constant kl (by rw [hkl]; decide)
  have key : ∀ k, plx_is_folded_binary k = true → ∀ r,
      plx_fold_sint k a b = some (some r) → plx_folded_kind k kl = PLX_NODE_BOOL →
      plx_fold_constants ops
        (.node k v (.node kl vl .NULL (.node kl vr .NULL .NULL tyr) tyl) n ty) values =
        some (.node PLX_NODE_BOOL r .NULL n ty, values, true) := by
    intro k hk r hr hf
    rw [fold_constants_binary ops _ _ _ _ _ _ _ _ _ _ _ hc hc, fold_switch_binary ops _ hk,
      fold_binary_sint ops _ _ _ _ a b hkl ha hb, hr, hf]
    simp
  refine ⟨⟨key _ (by decide) _ rfl rfl, key _ (by decide) _ rfl rfl, key _ (by decide) _ rfl rfl,
    key _ (by decide) _ rfl rfl⟩, ?_, ⟨?_, ?_⟩, of_decide_eq_true rfl, of_decide_eq_true rfl,
    of_decide_eq_true rfl⟩
  · intro ku vx vy x y hku hx hy
    have hcu : plx_is_constant ku = true := class_constant ku (by rw [hku]; decide)
    have keyu : ∀ k, plx_is_folded_binary k = true → ∀ r,
        plx_fold_uint k x y = some (some r) → plx_folded_kind k ku = PLX_NODE_BOOL →
        plx_fold_constants ops
          (.node k v (.node ku vx .NULL (.node ku vy .NULL .NULL tyr) tyl) n ty) values =
          some (.node PLX_NODE_BOOL r .NULL n ty, values, true) := by
      intro k hk r hr hf
      rw [fold_constants_binary ops _ _ _ _ _ _ _ _ _ _ _ hcu hcu, fold_switch_binary ops _ hk,
        fold_binary_uint ops _ _ _ _ x y hku hx hy, hr, hf]
      simp
    exact ⟨keyu _ (by decide) _ rfl rfl, keyu _ (by decide) _ rfl rfl,
      keyu _ (by decide) _ rfl rfl, keyu _ (by decide) _ rfl rfl⟩
  · rw [fold_constants_binary ops _ _ _ _ _ _ _ _ _ _ _ hc hc,
      fold_switch_eq_neq ops _ (Or.inl rfl)]
  · rw [fold_constants_binary ops _ _ _ _ _ _ _ _ _ _ _ hc hc,
      fold_switch_eq_neq ops _ (Or.inr rfl)]

set_option maxRecDepth 1000000 in
/-- Witness for C37: the node of `1 == 1` with operands of kind `PLX_NODE_S32`,
which is left as it is. -/
theorem plx_fold_constants_relational_witness :
    plx_fold_constants plx_double_first
      (.node PLX_NODE_EQ .zero
        (.node PLX_NODE_S32 (.uint 1) .NULL (.node PLX_NODE_S32 (.uint 1) .NULL .NULL .NULL)
          .NULL) .NULL .NULL) [] =
      some (.node PLX_NODE_EQ .zero
        (.node PLX_NODE_S32 (.uint 1) .NULL (.node PLX_NODE_S32 (.uint 1) .NULL .NULL .NULL)
          .NULL) .NULL .NULL, [], false) :=
  (plx_fold_constants_relational plx_double_first PLX_NODE_S32 (.uint 1) (.uint 1) 1 1 .zero
    .NULL .NULL .NULL .NULL [] rfl (by decide) (by decide)).2.2.1.1

theorem fold_neg_next (ops : plx_double_ops) (k : plx_node_kind) (v : plx_node_value)
    (c n ty : plx_node) (r : plx_node × Bool) (h : plx_fold_neg ops k v c n ty = some r) :
    ∃ k1 v1 c1 ty1, r.1 = .node k1 v1 c1 n ty1 := by
  unfold plx_fold_neg at h
  split at h
  · split at h
    · split at h
      · cases h
      · split at h <;> cases h <;> exact ⟨_, _, _, _, rfl⟩
    · obtain ⟨x, _, hx⟩ := Option.map_eq_some'.1 h
      cases hx
      exact ⟨_, _, _, _, rfl⟩
    · cases h
      exact ⟨_, _, _, _, rfl⟩
  · cases h

/-- The `switch` of the folder leaves the member `next` of the node as it is. -/
theorem fold_switch_next (ops : plx_double_ops) (k : plx_node_kind) (v : plx_node_value)
    (c n ty : plx_node) (values : plx_value_table) (r : plx_node × plx_value_table × Bool)
    (h : plx_fold_switch ops k v c n ty values = some r) :
    ∃ k1 v1 c1 ty1, r.1 = .node k1 v1 c1 n ty1 := by
  unfold plx_fold_switch at h
  simp only at h
  split at h
  · -- PLX_NODE_CONST_DEF
    split at h
    · split at h
      all_goals first | (cases h; exact ⟨_, _, _, _, rfl⟩) | cases h
    · split at h
      · cases h
      · cases h
        exact ⟨_, _, _, _, rfl⟩
      · split at h <;> cases h <;> exact ⟨_, _, _, _, rfl⟩
    · cases h
  · -- PLX_NODE_IF_THEN_ELSE
    split at h
    · split at h
      · cases h
      · split at h
        · cases h
          exact ⟨_, _, _, _, rfl⟩
        · split at h
          · cases h
          · split at h
            all_goals first | (cases h; exact ⟨_, _, _, _, rfl⟩) | cases h
    · cases h
  · -- PLX_NODE_WHILE_LOOP
    split at h
    · split at h
      · cases h
      · split at h
        · cases h
          exact ⟨_, _, _, _, rfl⟩
        · split at h
          · cases h
          · split at h
            all_goals first | (cases h; exact ⟨_, _, _, _, rfl⟩) | cases h
          · cases h
            exact ⟨_, _, _, _, rfl⟩
    · cases h
  · cases h
    exact ⟨_, _, _, _, rfl⟩
  · cases h
    exact ⟨_, _, _, _, rfl⟩
  · -- PLX_NODE_NOT
    split at h
    · cases h
    · rename_i k1 v1 c1 n1 ty1 changed hnot
      obtain ⟨r1, hr1, e⟩ := Option.map_eq_some'.1 h
      subst e
      rcases fold_not_spec _ _ _ _ _ _ hnot with ⟨e1, _⟩ | ⟨k2, v2, e1⟩
      · cases e1
        exact fold_neg_next ops _ _ _ _ _ r1 hr1
      · cases e1
        rw [fold_neg_null] at hr1
        cases hr1
    · cases h
  · -- PLX_NODE_NEG
    obtain ⟨r1, hr1, e⟩ := Option.map_eq_some'.1 h
    subst e
    exact fold_neg_next ops _ _ _ _ _ r1 hr1
  · -- PLX_NODE_IDENTIFIER
    split at h
    · cases h
    · cases h
      exact ⟨_, _, _, _, rfl⟩
    · split at h <;> cases h <;> exact ⟨_, _, _, _, rfl⟩
  · -- the binary operators and the kinds without a case
    split at h
    · split at h
      · split at h
        · cases h
          exact ⟨_, _, _, _, rfl⟩
        · split at h
          all_goals first | (cases h; exact ⟨_, _, _, _, rfl⟩) | cases h
      · cases h
    · cases h
      exact ⟨_, _, _, _, rfl⟩

/-- A call of the folder leaves the member `next` of its node as it is, and the
loop over a list of siblings leaves the list with its length. -/
theorem fold_from_siblings (ops : plx_double_ops) (node : plx_node) :
    ∀ (all : Bool) (values : plx_value_table) (r : plx_node × plx_value_table × Bool),
      plx_fold_constants_from ops all node values = some r →
      (all = false → r.1.next = node.next ∧ r.1 ≠ .NULL) ∧
      (all = true → (plx_siblings r.1).length = (plx_siblings node).length) := by
  induction node with
  | NULL =>
    intro all values r h
    cases all
    · cases h
    · cases h
      exact ⟨fun e => (by cases e), fun _ => rfl⟩
  | node k v c n ty _ ihn _ =>
    intro all values r h
    rw [fold_from_node] at h
    split at h
    · cases h
    · rename_i c1 values1 changed1 _
      split at h
      · cases h
      · rename_i node1 values2 changed2 hs
        obtain ⟨k1, v1, c2, ty1, e⟩ := fold_switch_next ops _ _ _ _ _ _ _ hs
        simp only at e
        subst e
        cases all
        · simp only [Bool.false_eq_true, if_false, Option.some.injEq] at h
          subst h
          exact ⟨fun _ => ⟨rfl, (by simp)⟩, fun e => (by cases e)⟩
        · simp only [if_true] at h
          split at h
          · cases h
          · rename_i n1 values3 changed3 hn
            cases h
            refine ⟨fun e => (by cases e), fun _ => ?_⟩
            have := (ihn true values2 _ hn).2 rfl
            simp only at this
            simp only [plx_node.set_next, plx_siblings, List.length_cons, this]

theorem fold_switch_if_eq (ops : plx_double_ops) (v : plx_node_value) (c n ty : plx_node)
    (values : plx_value_table) :
    plx_fold_switch ops PLX_NODE_IF_THEN_ELSE v c n ty values =
      match c with
      | .node kc vc _ rest _ =>
        if (plx_siblings rest).length > 2 then none
        else if kc ≠ PLX_NODE_BOOL then some (.node PLX_NODE_IF_THEN_ELSE v c n ty, values, false)
        else
          match plx_value_b vc with
          | none => none
          | some cond =>
            match cond, rest with
            | true, .node kt vt ct _ tyt => some (.node kt vt ct n tyt, values, true)
            | false, .node _ _ _ (.node ke ve ce _ tye) _ =>
              some (.node ke ve ce n tye, values, true)
            | _, _ => none
      | .NULL => none := by
  cases c <;> rfl

theorem fold_switch_while_eq (ops : plx_double_ops) (v : plx_node_value) (c n ty : plx_node)
    (values : plx_value_table) :
    plx_fold_switch ops PLX_NODE_WHILE_LOOP v c n ty values =
      match c with
      | .node kc vc _ rest _ =>
        if (plx_siblings rest).length > 1 then none
        else if kc ≠ PLX_NODE_BOOL then some (.node PLX_NODE_WHILE_LOOP v c n ty, values, false)
        else
          match plx_value_b vc with
          | none => none
          | some true =>
            match rest with
            | .NULL => none
            | body => some (.node PLX_NODE_LOOP v body n ty, values, true)
          | some false => some (.node PLX_NODE_NOP v .NULL n ty, values, true)
      | .NULL => none := by
  cases c <;> rfl

/-- A call of the folder on a node whose first child is a bool literal without
children is the `switch` on the node with the other children folded. -/
theorem fold_constants_cond (ops : plx_double_ops) (k : plx_node_kind) (v : plx_node_value)
    (cond : Bool) (rest tyc n ty : plx_node) (values : plx_value_table) (rest1 : plx_node)
    (values1 : plx_value_table) (changed : Bool)
    (hrest : plx_fold_constants_from ops true rest values = some (rest1, values1, changed)) :
    plx_fold_constants ops (.node k v (.node PLX_NODE_BOOL (.b cond) .NULL rest tyc) n ty)
        values =
      match plx_fold_switch ops k v (.node PLX_NODE_BOOL (.b cond) .NULL rest1 tyc) n ty
          values1 with
      | none => none
      | some (node1, values2, changed2) => some (node1, values2, changed || changed2) := by
  unfold plx_fold_constants
  rw [fold_from_node, fold_from_node]
  have e : plx_fold_constants_from ops true .NULL values = some (.NULL, values, false) := rfl
  rw [e]
  simp only [fold_switch_literal ops PLX_NODE_BOOL (.b cond) rest tyc values (by decide), if_true,
    hrest, plx_node.set_next, Bool.false_or, Bool.false_eq_true, if_false]

set_option maxRecDepth 1000000 in
/-- C38: Let the loop over the children of an if node fold the then and the else
branch, the two nodes after a condition that is a bool literal without children.
Then a call of `plx_fold_constants` on the node returns `true` and leaves in the
place of the node the kind, union, children and type of the folded then branch
when the literal is `true` and of the folded else branch when it is `false`,
with the `next` of the if node.  For a while node with such a condition and a
body, the call makes the node a `PLX_NODE_LOOP` whose only child is the folded
body when the literal is `true`, and a `PLX_NODE_NOP` without children when it is
`false`.  Every call of the folder that returns leaves the `next` of its node as
it is, and the loop over a list of siblings leaves the list with its length.
The loop on `if false { return 1; } else { return 2; }` ends with the block of
`return 2;`. -/
theorem plx_fold_constants_control_flow (ops : plx_double_ops) (v : plx_node_value)
    (rest tyc n ty : plx_node) (values : plx_value_table) (rest1 : plx_node)
    (values1 : plx_value_table) (changed : Bool)
    (hrest : plx_fold_constants_from ops true rest values = some (rest1, values1, changed)) :
    ((plx_siblings rest).length = 2 →
      ∃ kt vt ct tyt ke ve ce tye, rest1 = .node kt vt ct (.node ke ve ce .NULL tye) tyt ∧
        plx_fold_constants ops
            (.node PLX_NODE_IF_THEN_ELSE v (.node PLX_NODE_BOOL (.b true) .NULL rest tyc) n ty)
            values = some (.node kt vt ct n tyt, values1, true) ∧
        plx_fold_constants ops
            (.node PLX_NODE_IF_THEN_ELSE v (.node PLX_NODE_BOOL (.b false) .NULL rest tyc) n ty)
            values = some (.node ke ve ce n tye, values1, true)) ∧
    ((plx_siblings rest).length = 1 →
      (∃ kb vb cb tyb, rest1 = .node kb vb cb .NULL tyb) ∧
        plx_fold_constants ops
            (.node PLX_NODE_WHILE_LOOP v (.node PLX_NODE_BOOL (.b true) .NULL rest tyc) n ty)
            values = some (.node PLX_NODE_LOOP v rest1 n ty, values1, true) ∧
        plx_fold_constants ops
            (.node PLX_NODE_WHILE_LOOP v (.node PLX_NODE_BOOL (.b false) .NULL rest tyc) n ty)
            values = some (.node PLX_NODE_NOP v .NULL n ty, values1, true)) ∧
    (∀ k0 v0 c0 n0 ty0 values0 r,
      plx_fold_constants ops (.node k0 v0 c0 n0 ty0) values0 = some r → r.1.next = n0) ∧
    (∀ node values0 r, plx_fold_constants_from ops true node values0 = some r →
      (plx_siblings r.1).length = (plx_siblings node).length) ∧
    plx_folded_tree ops "func f() -> s32 { if false { return 1; } else { return 2; } }" =
      some (some (plx_module_of_body
        [plx_node_of PLX_NODE_BLOCK [plx_node_of PLX_NODE_RETURN [plx_int_lit_of 2]]])) ∧
    plx_folded_tree ops "func f() -> s32 { if true { return 1; } else { return 2; } }" =
      some (some (plx_module_of_body
        [plx_node_of PLX_NODE_BLOCK [plx_node_of PLX_NODE_RETURN [plx_int_lit_of 1]]])) ∧
    plx_folded_tree ops "func f() -> s32 { while true { return 1; } return 2; }" =
      some (some (plx_module_of_body
        [plx_node_of PLX_NODE_LOOP
          [plx_node_of PLX_NODE_BLOCK [plx_node_of PLX_NODE_RETURN [plx_int_lit_of 1]]],
          plx_node_of PLX_NODE_RETURN [plx_int_lit_of 2]])) ∧
    plx_folded_tree ops "func f() -> s32 { while false { return 1; } return 2; }" =
      some (some (plx_module_of_body
        [plx_new_node PLX_NODE_NOP, plx_node_of PLX_NODE_RETURN [plx_int_lit_of 2]])) := by
  have hlen := (fold_from_siblings ops rest true values _ hrest).2 rfl
  simp only at hlen
  refine ⟨fun h2 => ?_, fun h1 => ?_,
    fun k0 v0 c0 n0 ty0 values0 r h => ((fold_from_siblings ops _ false values0 r h).1 rfl).1,
    fun node values0 r h => (fold_from_siblings ops node true values0 r h).2 rfl,
    of_decide_eq_true rfl, of_decide_eq_true rfl, of_decide_eq_true rfl, of_decide_eq_true rfl⟩
  · rw [h2] at hlen
    match rest1, hlen with
    | .node kt vt ct (.node ke ve ce .NULL tye) tyt, _ =>
      refine ⟨kt, vt, ct, tyt, ke, ve, ce, tye, rfl, ?_, ?_⟩
      · rw [fold_constants_cond ops _ v true rest tyc n ty values _ values1 changed hrest,
          fold_switch_if_eq]
        simp [plx_siblings, plx_value_b]
      · rw [fold_constants_cond ops _ v false rest tyc n ty values _ values1 changed hrest,
          fold_switch_if_eq]
        simp [plx_siblings, plx_value_b]
    | .node _ _ _ (.node _ _ _ (.node _ _ _ _ _) _) _, hl => simp [plx_siblings] at hl
    | .node _ _ _ .NULL _, hl => simp [plx_siblings] at hl
    | .NULL, hl => simp [plx_siblings] at hl
  · rw [h1] at hlen
    match rest1, hlen with
    | .node kb vb cb .NULL tyb, _ =>
      refine ⟨⟨kb, vb, cb, tyb, rfl⟩, ?_, ?_⟩
      · rw [fold_constants_cond ops _ v true rest tyc n ty values _ values1 changed hrest,
          fold_switch_while_eq]
        simp [plx_siblings, plx_value_b]
      · rw [fold_constants_cond ops _ v false rest tyc n ty values _ values1 changed hrest,
          fold_switch_while_eq]
        simp [plx_siblings, plx_value_b]
    | .node _ _ _ (.node _ _ _ _ _) _, hl => simp [plx_siblings] at hl
    | .NULL, hl => simp [plx_siblings] at hl

set_option maxRecDepth 1000000 in
/-- Witness for C38: the node of `if false { return 1; } else { return 2; }`. -/
theorem plx_fold_constants_control_flow_witness :
    ∃ kt vt ct tyt ke ve ce tye,
      plx_node.set_next
          (plx_node_of PLX_NODE_BLOCK [plx_node_of PLX_NODE_RETURN [plx_int_lit_of 1]])
          (plx_node_of PLX_NODE_BLOCK [plx_node_of PLX_NODE_RETURN [plx_int_lit_of 2]]) =
        .node kt vt ct (.node ke ve ce .NULL tye) tyt ∧
      plx_fold_constants plx_double_first
          (.node PLX_NODE_IF_THEN_ELSE .zero
            (.node PLX_NODE_BOOL (.b true) .NULL
              (plx_node.set_next
                (plx_node_of PLX_NODE_BLOCK [plx_node_of PLX_NODE_RETURN [plx_int_lit_of 1]])
                (plx_node_of PLX_NODE_BLOCK [plx_node_of PLX_NODE_RETURN [plx_int_lit_of 2]]))
              .NULL) .NULL .NULL) [] = some (.node kt vt ct .NULL tyt, [], true) ∧
      plx_fold_constants plx_double_first
          (.node PLX_NODE_IF_THEN_ELSE .zero
            (.node PLX_NODE_BOOL (.b false) .NULL
              (plx_node.set_next
                (plx_node_of PLX_NODE_BLOCK [plx_node_of PLX_NODE_RETURN [plx_int_lit_of 1]])
                (plx_node_of PLX_NODE_BLOCK [plx_node_of PLX_NODE_RETURN [plx_int_lit_of 2]]))
              .NULL) .NULL .NULL) [] = some (.node ke ve ce .NULL tye, [], true) :=
  (plx_fold_constants_control_flow plx_double_first .zero
    (plx_node.set_next
      (plx_node_of PLX_NODE_BLOCK [plx_node_of PLX_NODE_RETURN [plx_int_lit_of 1]])
      (plx_node_of PLX_NODE_BLOCK [plx_node_of PLX_NODE_RETURN [plx_int_lit_of 2]]))
    .NULL .NULL .NULL []
    (plx_node.set_next
      (plx_node_of PLX_NODE_BLOCK [plx_node_of PLX_NODE_RETURN [plx_int_lit_of 1]])
      (plx_node_of PLX_NODE_BLOCK [plx_node_of PLX_NODE_RETURN [plx_int_lit_of 2]]))
    [] false (by decide) ).1 (by decide)

set_option maxRecDepth 1000000 in
/-- C39: The cases `PLX_NODE_DIV`, `PLX_NODE_REM`, `PLX_NODE_LSHIFT` and
`PLX_NODE_RSHIFT` have no guard.  For operands that are literals of one signed
kind without children, with the values `a` and `b`, a call of
`plx_fold_constants` evaluates `a / b` and `a % b` also for `b = 0` and for
`a = LLONG_MIN`, `b = -1`, and `a << b` and `a >> b` also for `b < 0` and
`b ≥ 64`: the call is undefined and the node is not left as it is.  The same
holds of operands of one unsigned kind for `b = 0` and `b ≥ 64`.  A call on the
module of `return 1 % 0;`, of `return 1 <> 64;` (the token of `PLX_NODE_LSHIFT`),
of `return 1 >> 64;` and of `return 9223372036854775808 / -1;` is undefined; the
loop on `return 7 / 2;` ends with `return 3;`. -/
theorem plx_fold_constants_div_rem_shift (ops : plx_double_ops) (kl : plx_node_kind)
    (vl vr : plx_node_value) (a b : Int) (v : plx_node_value) (tyl tyr n ty : plx_node)
    (values : plx_value_table) (hkl : plx_literal_class_of kl = .sint)
    (ha : plx_value_sint vl = some a) (hb : plx_value_sint vr = some b) :
    (b = 0 →
      plx_fold_constants ops
        (.node PLX_NODE_DIV v (.node kl vl .NULL (.node kl vr .NULL .NULL tyr) tyl) n ty)
        values = none ∧
      plx_fold_constants ops
        (.node PLX_NODE_REM v (.node kl vl .NULL (.node kl vr .NULL .NULL tyr) tyl) n ty)
        values = none) ∧
    (a = LLONG_MIN → b = -1 →
      plx_fold_constants ops
        (.node PLX_NODE_DIV v (.node kl vl .NULL (.node kl vr .NULL .NULL tyr) tyl) n ty)
        values = none ∧
      plx_fold_constants ops
        (.node PLX_NODE_REM v (.node kl vl .NULL (.node kl vr .NULL .NULL tyr) tyl) n ty)
        values = none) ∧
    (b < 0 ∨ b ≥ 64 →
      plx_fold_constants ops
        (.node PLX_NODE_LSHIFT v (.node kl vl .NULL (.node kl vr .NULL .NULL tyr) tyl) n ty)
        values = none ∧
      plx_fold_constants ops
        (.node PLX_NODE_RSHIFT v (.node kl vl .NULL (.node kl vr .NULL .NULL tyr) tyl) n ty)
        values = none) ∧
    (∀ ku vx vy (x y : Nat), plx_literal_class_of ku = .uint → plx_value_uint vx = some x →
      plx_value_uint vy = some y →
      (y = 0 →
        plx_fold_constants ops
          (.node PLX_NODE_DIV v (.node ku vx .NULL (.node ku vy .NULL .NULL tyr) tyl) n ty)
          values = none ∧
        plx_fold_constants ops
          (.node PLX_NODE_REM v (.node ku vx .NULL (.node ku vy .NULL .NULL tyr) tyl) n ty)
          values = none) ∧
      (y ≥ 64 →
        plx_fold_constants ops
          (.node PLX_NODE_LSHIFT v (.node ku vx .NULL (.node ku vy .NULL .NULL tyr) tyl) n ty)
          values = none ∧
        plx_fold_constants ops
          (.node PLX_NODE_RSHIFT v (.node ku vx .NULL (.node ku vy .NULL .NULL tyr) tyl) n ty)
          values = none)) ∧
    plx_fold_source ops "func f() -> s32 { return 1 % 0; }" = some none ∧
    plx_fold_source ops "func f() -> s32 { return 1 <> 64; }" = some none ∧
    plx_fold_source ops "func f() -> s32 { return 1 >> 64; }" = some none ∧
    plx_fold_source ops "func f() -> s32 { return 9223372036854775808 / -1; }" = some none ∧
    plx_folded_tree ops "func f() -> s32 { return 7 / 2; }" =
      some (some (plx_module_of_body [plx_node_of PLX_NODE_RETURN [plx_s32_of 3]])) := by
  have hc : plx_is_constant kl = true := class_constant kl (by rw [hkl]; decide)
  have key : ∀ k, plx_is_folded_binary k = true → plx_fold_sint k a b = none →
      plx_fold_constants ops
        (.node k v (.node kl vl .NULL (.node kl vr .NULL .NULL tyr) tyl) n ty) values = none := by
    intro k hk hr
    rw [fold_constants_binary ops _ _ _ _ _ _ _ _ _ _ _ hc hc, fold_switch_binary ops _ hk,
      fold_binary_sint ops _ _ _ _ a b hkl ha hb, hr]
    simp
  have hbits : ((LL_BITS : Nat) : Int) = 64 := by decide
  refine ⟨fun h0 => ⟨key _ (by decide) ?_, key _ (by decide) ?_⟩,
    fun h0 h1 => ⟨key _ (by decide) ?_, key _ (by decide) ?_⟩,
    fun h0 => ⟨key _ (by decide) ?_, key _ (by decide) ?_⟩, ?_, of_decide_eq_true rfl,
    of_decide_eq_true rfl, of_decide_eq_true rfl, of_decide_eq_true rfl, of_decide_eq_true rfl⟩
  · simp [plx_fold_sint, h0]
  · simp [plx_fold_sint, h0]
  · subst h0 h1
    decide
  · subst h0 h1
    decide
  · have h2 : b < 0 ∨ b ≥ (LL_BITS : Int) ∨ a < 0 := by
      rw [hbits]
      omega
    simp only [plx_fold_sint, if_pos h2]
  · have h2 : b < 0 ∨ b ≥ (LL_BITS : Int) := by
      rw [hbits]
      omega
    simp only [plx_fold_sint, if_pos h2]
  · intro ku vx vy x y hku hx hy
    have hcu : plx_is_constant ku = true := class_constant ku (by rw [hku]; decide)
    have keyu : ∀ k, plx_is_folded_binary k = true → plx_fold_uint k x y = none →
        plx_fold_constants ops
          (.node k v (.node ku vx .NULL (.node ku vy .NULL .NULL tyr) tyl) n ty) values =
          none := by
      intro k hk hr
      rw [fold_constants_binary ops _ _ _ _ _ _ _ _ _ _ _ hcu hcu, fold_switch_binary ops _ hk,
        fold_binary_uint ops _ _ _ _ x y hku hx hy, hr]
      simp
    have hbitsn : LL_BITS = 64 := rfl
    refine ⟨fun h0 => ⟨keyu _ (by decide) ?_, keyu _ (by decide) ?_⟩,
      fun h0 => ⟨keyu _ (by decide) ?_, keyu _ (by decide) ?_⟩⟩
    · simp [plx_fold_uint, h0]
    · simp [plx_fold_uint, h0]
    · simp only [plx_fold_uint, hbitsn, if_pos h0]
    · simp only [plx_fold_uint, hbitsn, if_pos h0]

set_option maxRecDepth 1000000 in
/-- Witness for C39: the node of `1 / 0` with operands of kind `PLX_NODE_S32`. -/
theorem plx_fold_constants_div_rem_shift_witness :
    plx_fold_constants plx_double_first
      (.node PLX_NODE_DIV .zero
        (.node PLX_NODE_S32 (.uint 1) .NULL (.node PLX_NODE_S32 (.uint 0) .NULL .NULL .NULL)
          .NULL) .NULL .NULL) [] = none :=
  ((plx_fold_constants_div_rem_shift plx_double_first PLX_NODE_S32 (.uint 1) (.uint 0) 1 0 .zero
    .NULL .NULL .NULL .NULL [] rfl (by decide) (by decide)).1 rfl).1

/-! ## `src/llvm_ir_generator.c`: the unary operators -/

theorem expr_body_unary_eq (env : plx_llvm_env) (ptr expr : plx_node → plx_llvm Nat)
    (k : plx_node_kind) (hk : k = PLX_NODE_NOT ∨ k = PLX_NODE_NEG) (v : plx_node_value)
    (c n ty : plx_node) :
    plx_generate_llvm_ir_expr_body env ptr expr (.node k v c n ty) =
      plx_llvm_bind (plx_llvm_lift (plx_extract1 c)) fun operand =>
        plx_llvm_bind (expr operand) fun operand_var =>
          plx_llvm_bind plx_llvm_alloc fun result_var =>
            plx_llvm_bind (plx_llvm_lift (plx_llvm_type_kind (.node k v c n ty)))
              fun type_kind =>
                plx_llvm_bind (plx_llvm_lift (plx_llvm_unary_format k type_kind)) fun format =>
                  plx_llvm_bind (plx_fprintf env format [.u result_var, .u operand_var])
                    fun _ => plx_llvm_pure result_var := by
  rcases hk with e | e <;> subst e <;> rfl

/-- The case `PLX_NODE_NEG` of `plx_generate_llvm_ir_expr` has no case for the
signed integer types in its `switch (node->type->kind)`. -/
theorem unary_format_neg_signed (kind : plx_node_kind) (h : plx_is_sint_type kind = true) :
    plx_llvm_unary_format PLX_NODE_NEG kind = none := by
  revert h
  cases kind <;> intro h <;> first | rfl | cases h

set_option maxRecDepth 1000000 in
/-- C40: For a neg node whose type is one of the signed integer types `s8`,
`s16`, `s32` and `s64`, `plx_generate_llvm_ir_expr` does not return an
identifier: the `switch (node->type->kind)` of the case `PLX_NODE_NEG` has cases
for the unsigned and the floating-point types only, and a signed type reaches
`default: assert(false)`.  `plx_type_check` accepts the negation of a signed
operand, so that the module of `func f(a: s32) -> s32 { return -a; }` passes the
type check and fails the assertion in the generator, while for
`func f(a: u32) -> u32 { return -a; }` the instruction `%4 = sub i32 0, %3` is
written, and for `func f(a: s32) -> s32 { return !a; }` the instruction
`%4 = xor i32 %3, -1`. -/
theorem plx_generate_llvm_ir_expr_neg (env : plx_llvm_env) (depth : Nat) (v : plx_node_value)
    (c n ty : plx_node) (kind : plx_node_kind) (st : plx_llvm_state)
    (hty : ty.kind? = some kind) (hkind : plx_is_sint_type kind = true) :
    plx_generate_llvm_ir_expr env depth (.node PLX_NODE_NEG v c n ty) st = none ∧
    plx_type_check_bool "func f(a: s32) -> s32 { return -a; }" = some (some true) ∧
    plx_llvm_source "func f(a: s32) -> s32 { return -a; }" = none ∧
    plx_type_check_bool "func f(a: s64) -> s64 { return -a; }" = some (some true) ∧
    plx_llvm_source "func f(a: s64) -> s64 { return -a; }" = none ∧
    plx_llvm_source "func f(a: u32) -> u32 { return -a; }" =
      some ("define i32 @f(i32 %0) \x7b\n  %2 = alloca i32\n  store i32 %0, ptr %2\n" ++
        "  %3 = load i32, ptr %2\n  %4 = sub i32 0, %3\n  ret i32 %4\n\x7d\n\n", [0, 2, 3, 4]) ∧
    plx_llvm_source "func f(a: s32) -> s32 { return !a; }" =
      some ("define i32 @f(i32 %0) \x7b\n  %2 = alloca i32\n  store i32 %0, ptr %2\n" ++
        "  %3 = load i32, ptr %2\n  %4 = xor i32 %3, -1\n  ret i32 %4\n\x7d\n\n",
        [0, 2, 3, 4]) := by
  refine ⟨?_, by decide, by decide!, by decide, by decide!, by decide!, by decide!⟩
  cases depth with
  | zero => rfl
  | succ depth =>
    have e : plx_generate_llvm_ir_expr env (depth + 1) (.node PLX_NODE_NEG v c n ty) =
        plx_generate_llvm_ir_expr_body env (plx_generate_llvm_ir_ptr env depth)
          (plx_generate_llvm_ir_expr env depth) (.node PLX_NODE_NEG v c n ty) := rfl
    rw [e, expr_body_unary_eq env _ _ _ (Or.inr rfl)]
    simp only [plx_llvm_bind, plx_llvm_lift, plx_llvm_alloc, plx_llvm_type_kind, plx_node.type, hty,
      unary_format_neg_signed kind hkind, Option.map_some', Option.map_none']
    cases plx_extract1 c with
    | none => rfl
    | some operand =>
      simp only [Option.map_some']
      cases plx_generate_llvm_ir_expr env depth operand st with
      | none => rfl
      | some r => rfl

set_option maxRecDepth 1000000 in
/-- Witness for C40: a neg node of type `s32` over a literal of kind
`PLX_NODE_S32`, at the depth 3 and in the state in which `plx_compile` calls the
generator. -/
theorem plx_generate_llvm_ir_expr_neg_witness :
    plx_generate_llvm_ir_expr ⟨fun _ => "", []⟩ 3
      (.node PLX_NODE_NEG .zero
        (.node PLX_NODE_S32 (.sint 5) .NULL .NULL (plx_new_node PLX_NODE_S32_TYPE)) .NULL
        (plx_new_node PLX_NODE_S32_TYPE))
      plx_llvm_init = none :=
  (plx_generate_llvm_ir_expr_neg ⟨fun _ => "", []⟩ 3 .zero
    (.node PLX_NODE_S32 (.sint 5) .NULL .NULL (plx_new_node PLX_NODE_S32_TYPE)) .NULL
    (plx_new_node PLX_NODE_S32_TYPE) PLX_NODE_S32_TYPE plx_llvm_init rfl (by decide)).1

end PLX
